import Mathlib

/-!
The library ttcr: travel-time computation on unstructured meshes

A shallow embedding of the grid classes `Grid2Duc`, `Grid2Duifs` (Fast
Sweeping on triangles) and `Grid3Dunfm` (Fast Marching on tetrahedra),
followed by theorems about them.

Conventions of the embedding:

* the floating-point type `T1` is an arbitrary linearly ordered field `T`;
  the C library functions and constants the code calls (`sqrt`, `sin`,
  `asin`, `acos`, `pi`, `small`, `std::numeric_limits<T1>::max()`) are the
  fields of a `MathEnv T`, so every theorem holds for all of them;
* the index type `T2` is `Nat`; a node pointer is the index of the node in
  `nodes`;
* `std::vector` is `List`, read with `getD` and written with `set`;
* a method that mutates the grid takes the grid and returns the new grid;
  a method that may throw returns an `Outcome`: the grid as it is when the
  method returns or throws, and the exception if one was thrown.
-/

set_option autoImplicit false
set_option linter.unusedSectionVars false
set_option linter.unusedVariables false

namespace ttcr

/-! ## Numeric environment and geometric primitives -/

/-- The C library functions and the constants used by the grid classes. -/
structure MathEnv (T : Type) where
  /-- `sqrt` of `<cmath>` -/
  sqrt : T → T
  /-- `sin` of `<cmath>` -/
  sin : T → T
  /-- `asin` of `<cmath>` -/
  asin : T → T
  /-- `acos` of `<cmath>` -/
  acos : T → T
  /-- the constant `pi` -/
  pi : T
  /-- the tolerance constant `small` -/
  small : T
  /-- `std::numeric_limits<T1>::max()` -/
  tmax : T

/-- 2D point `sxz<T1>`. -/
structure sxz (T : Type) where
  x : T
  z : T
deriving DecidableEq, Repr

/-- 3D point `sxyz<T1>`. -/
structure sxyz (T : Type) where
  x : T
  y : T
  z : T
deriving DecidableEq, Repr

/-- Exceptions thrown by the grid classes. -/
inductive Exn (T : Type) where
  /-- `std::runtime_error("Error: Point no n (x, z) outside mesh.")` -/
  | pointOutsideMesh (index : Nat) (coord : sxz T)
  /-- `std::runtime_error("Error: Point no n (x, y, z) outside mesh.")` -/
  | pointOutsideMesh3 (index : Nat) (coord : sxyz T)
  /-- `std::length_error("Error: slowness vectors of incompatible size.")` -/
  | lengthError
  /-- `std::out_of_range` thrown by `std::map::at` -/
  | outOfRange (key : Nat)
  /-- the process is ended by `abort()` -/
  | aborted
deriving DecidableEq, Repr

/-- Result of a method that mutates its object and may throw: the object as
the method leaves it, and the exception thrown, if any. -/
structure Outcome (σ ε : Type) where
  state : σ
  exn : Option ε
deriving DecidableEq, Repr

/-- Normal return. -/
def Outcome.ret {σ ε : Type} (s : σ) : Outcome σ ε := ⟨s, none⟩

/-- Return by `throw e`. -/
def Outcome.throw {σ ε : Type} (s : σ) (e : ε) : Outcome σ ε := ⟨s, some e⟩

/-- Sequencing: the second statement runs only when the first returned
normally. -/
def Outcome.andThen {σ ε : Type} (r : Outcome σ ε) (f : σ → Outcome σ ε) : Outcome σ ε :=
  match r.exn with
  | none => f r.state
  | some _ => r

section Geometry

variable {T : Type} [LinearOrderedField T]

/-- Modelled from the spec: `det` of the geometric primitives library (§6),
the determinant of two 2D vectors. -/
def det (v1 v2 : sxz T) : T := v1.x * v2.z - v1.z * v2.x

/-- Modelled from the spec: `sxz::getDistance`, the Euclidean distance of the
geometric primitives library (§6). -/
def sxz.getDistance (E : MathEnv T) (p q : sxz T) : T :=
  E.sqrt ((p.x - q.x) * (p.x - q.x) + (p.z - q.z) * (p.z - q.z))

end Geometry

/-! ## Node state (`Node2Dn`) -/

/-- Modelled from the spec: the node class `Node2Dn` (§3 Vertex, §4.2):
coordinates, grid index, owner cells and one travel-time slot per worker. -/
structure Node2Dn (T : Type) where
  x : T
  z : T
  gridIndex : Nat
  owners : List Nat
  tt : List T
deriving DecidableEq, Repr

section Node

variable {T : Type} [LinearOrderedField T]

instance : Inhabited (Node2Dn T) := ⟨⟨0, 0, 0, [], []⟩⟩

/-- Modelled from the spec: `getTT(w)` (§4.2). -/
def Node2Dn.getTT (n : Node2Dn T) (w : Nat) : T := n.tt.getD w 0

/-- Modelled from the spec: `setTT(t, w)` (§4.2). -/
def Node2Dn.setTT (n : Node2Dn T) (t : T) (w : Nat) : Node2Dn T :=
  { n with tt := n.tt.set w t }

/-- Modelled from the spec: `reinit(w)`, the reset of slot `w` to the largest
value (§3 Lifecycle, §4.5 step 2). -/
def Node2Dn.reinit (E : MathEnv T) (n : Node2Dn T) (w : Nat) : Node2Dn T :=
  n.setTT E.tmax w

/-- Modelled from the spec: `pushOwner(c)` (§4.1 (a)). -/
def Node2Dn.pushOwner (n : Node2Dn T) (c : Nat) : Node2Dn T :=
  { n with owners := n.owners ++ [c] }

/-- Modelled from the spec: `operator==(const sxz&)`, equality to a geometric
point within a small tolerance (§4.2). -/
def Node2Dn.eqPt (E : MathEnv T) (n : Node2Dn T) (p : sxz T) : Bool :=
  decide (|n.x - p.x| < E.small) && decide (|n.z - p.z| < E.small)

/-- Modelled from the spec: `getDistance(const Node2Dn&)` (§4.2), Euclidean. -/
def Node2Dn.getDistance (E : MathEnv T) (n m : Node2Dn T) : T :=
  E.sqrt ((n.x - m.x) * (n.x - m.x) + (n.z - m.z) * (n.z - m.z))

/-- Modelled from the spec: `getDistance(const sxz&)` (§4.2), Euclidean. -/
def Node2Dn.getDistancePt (E : MathEnv T) (n : Node2Dn T) (p : sxz T) : T :=
  E.sqrt ((n.x - p.x) * (n.x - p.x) + (n.z - p.z) * (n.z - p.z))

end Node

/-! ## `Grid2Duc` -/

/-- Modelled from the spec: `triangleElemAngle` (§3 Cell): vertex indices
`i[0..2]`, angles `a[0..2]` and edge lengths `l[0..2]`. -/
structure triangleElemAngle (T : Type) where
  i : List Nat
  a : List T
  l : List T
deriving DecidableEq, Repr

/-- Modelled from the spec: `virtualNode` (§3 Virtual node record): the two
vertex references, three angles and three edge lengths. -/
structure virtualNode (T : Type) where
  node1 : Nat
  node2 : Nat
  a : List T
  e : List T
deriving DecidableEq, Repr

/-- The data members of `Grid2Duc`. `virtualNodes` is the `std::map` as its
list of (key, record) pairs. -/
structure Grid2Duc (T : Type) where
  nThreads : Nat
  nPrimary : Nat
  nodes : List (Node2Dn T)
  slowness : List T
  neighbors : List (List Nat)
  triangles : List (triangleElemAngle T)
  virtualNodes : List (Nat × virtualNode T)
deriving DecidableEq, Repr

/-- Value of `static_cast<T2>(-1)` and of `std::numeric_limits<T2>::max()`
for `T2 = uint32_t`. -/
def T2_max : Nat := 4294967295

namespace Grid2Duc

variable {T : Type} [LinearOrderedField T]

instance : Inhabited (triangleElemAngle T) := ⟨⟨[], [], []⟩⟩

/-- `Grid2Duc::getNumberOfNodes`. -/
def getNumberOfNodes (g : Grid2Duc T) : Nat := g.nodes.length

/-- `Grid2Duc::getNumberOfCells`. -/
def getNumberOfCells (g : Grid2Duc T) : Nat := g.triangles.length

/-- `Grid2Duc::Grid2Duc`: the constructor. -/
def new (no : List (sxz T)) (tri : List (List Nat)) (nt : Nat) : Grid2Duc T :=
  { nThreads := nt
    nPrimary := no.length
    nodes := List.replicate no.length ⟨0, 0, 0, [], List.replicate nt 0⟩
    slowness := List.replicate tri.length 0
    neighbors := List.replicate tri.length []
    triangles := tri.map (fun i => ⟨i, [0, 0, 0], [0, 0, 0]⟩)
    virtualNodes := [] }

/-- `Grid2Duc::setSlowness(const T1 s)`. -/
def setSlowness (g : Grid2Duc T) (s : T) : Grid2Duc T :=
  let sl := (List.range g.slowness.length).foldl (fun sl n => sl.set n s) g.slowness
  { g with slowness := sl }

/-- `Grid2Duc::setSlowness(const T1 *s, const size_t ns)`; the pointer `s` is
the function reading the array it points to. -/
def setSlownessPtr (g : Grid2Duc T) (s : Nat → T) (ns : Nat) :
    Outcome (Grid2Duc T) (Exn T) :=
  if g.slowness.length ≠ ns then
    Outcome.throw g Exn.lengthError
  else
    let sl := (List.range g.slowness.length).foldl (fun sl n => sl.set n (s n)) g.slowness
    Outcome.ret { g with slowness := sl }

/-- `Grid2Duc::setSlowness(const std::vector<T1>& s)`. -/
def setSlownessVec (g : Grid2Duc T) (s : List T) : Outcome (Grid2Duc T) (Exn T) :=
  if g.slowness.length ≠ s.length then
    Outcome.throw g Exn.lengthError
  else
    let sl := (List.range g.slowness.length).foldl
      (fun sl n => sl.set n (s.getD n 0)) g.slowness
    Outcome.ret { g with slowness := sl }

/-- `Grid2Duc::insideTriangle(const sxz<T1>&, const T2)`. The arithmetic is
that of the field `T`: it is exact, where the code rounds to double precision.
When `det(v1, v2)` is zero the code divides by zero: `invDenom` is infinite,
`a` and `b` are infinite or not numbers, and the value returned is `false`,
for `a >= 0.` and `b >= 0.` then hold only of `+∞`, and `+∞ + ∞ < 1.` does
not. -/
def insideTriangle (g : Grid2Duc T) (v : sxz T) (nt : Nat) : Bool :=
  let tri := g.triangles.getD nt default
  let n0 := g.nodes.getD (tri.i.getD 0 0) default
  let n1 := g.nodes.getD (tri.i.getD 1 0) default
  let n2 := g.nodes.getD (tri.i.getD 2 0) default
  let v0 : sxz T := ⟨n0.x, n0.z⟩
  let v1 : sxz T := ⟨n1.x - v0.x, n1.z - v0.z⟩
  let v2 : sxz T := ⟨n2.x - v0.x, n2.z - v0.z⟩
  if det v1 v2 = 0 then false
  else
    let invDenom := 1 / det v1 v2
    let a := (det v v2 - det v0 v2) * invDenom
    let b := -(det v v1 - det v0 v1) * invDenom
    decide (a ≥ 0) && decide (b ≥ 0) && decide (a + b < 1)

/-- `Grid2Duc::getCellNo`: the first triangle containing `pt`, or `-1`. -/
def getCellNo (g : Grid2Duc T) (pt : sxz T) : Nat :=
  match (List.range g.triangles.length).find? (fun n => insideTriangle g pt n) with
  | some n => n
  | none => T2_max

/-- First loop of the body of `checkPts`: is the point on a node? -/
def onNode (E : MathEnv T) (g : Grid2Duc T) (p : sxz T) : Bool :=
  g.nodes.any (fun n => n.eqPt E p)

/-- Second loop of the body of `checkPts`: is the point in a triangle? -/
def inSomeTriangle (g : Grid2Duc T) (p : sxz T) : Bool :=
  (List.range g.triangles.length).any (fun nt => insideTriangle g p nt)

/-- The loop of `checkPts` from index `n` on, `pts` being the points not yet
checked. -/
def checkPtsFrom (E : MathEnv T) (g : Grid2Duc T) :
    Nat → List (sxz T) → Outcome (Grid2Duc T) (Exn T)
  | _, [] => Outcome.ret g
  | n, p :: ps =>
    let found := onNode E g p
    let found := if found = false then inSomeTriangle g p else found
    if found = false then
      Outcome.throw g (Exn.pointOutsideMesh n p)
    else
      checkPtsFrom E g (n + 1) ps

/-- `Grid2Duc::checkPts(const std::vector<sxz<T1>>&)`. -/
def checkPts (E : MathEnv T) (g : Grid2Duc T) (pts : List (sxz T)) :
    Outcome (Grid2Duc T) (Exn T) :=
  checkPtsFrom E g 0 pts

/-- A point is outside the mesh: it is coincident with no node and inside no
triangle. -/
def outsideMesh (E : MathEnv T) (g : Grid2Duc T) (p : sxz T) : Prop :=
  (∀ n ∈ g.nodes, n.eqPt E p = false) ∧
  (∀ nt, nt < g.triangles.length → insideTriangle g p nt = false)

/-- `nodes[nn].setTT(t, threadNo)` on the grid. -/
def setNodeTT (g : Grid2Duc T) (nn : Nat) (t : T) (threadNo : Nat) : Grid2Duc T :=
  { g with nodes := g.nodes.set nn ((g.nodes.getD nn default).setTT t threadNo) }

/-- `nodes[nn].getTT(threadNo)` on the grid. -/
def getNodeTT (g : Grid2Duc T) (nn : Nat) (threadNo : Nat) : T :=
  (g.nodes.getD nn default).getTT threadNo

/-- `Grid2Duc::computeDt(const NODE& source, const S& node, const size_t cellNo)`. -/
def computeDt (E : MathEnv T) (g : Grid2Duc T) (source : Node2Dn T) (node : sxz T)
    (cellNo : Nat) : T :=
  g.slowness.getD cellNo 0 * source.getDistancePt E node

/-- `Grid2Duc::computeDt(const NODE& source, const NODE& node, const size_t cellNo)`. -/
def computeDtNode (E : MathEnv T) (g : Grid2Duc T) (source : Node2Dn T) (node : Node2Dn T)
    (cellNo : Nat) : T :=
  g.slowness.getD cellNo 0 * source.getDistance E node

/-- `Grid2Duc::getTraveltime(const S& Rx, const std::vector<NODE>& nodes,
const size_t threadNo)`. -/
def getTraveltime (E : MathEnv T) (g : Grid2Duc T) (Rx : sxz T) (threadNo : Nat) : T :=
  match g.nodes.find? (fun n => n.eqPt E Rx) with
  | some n => n.getTT threadNo
  | none =>
    let cellNo := getCellNo g Rx
    let nb := g.neighbors.getD cellNo []
    let neibNo := nb.getD 0 0
    let dt := computeDt E g (g.nodes.getD neibNo default) Rx cellNo
    let traveltime := g.getNodeTT neibNo threadNo + dt
    (nb.drop 1).foldl
      (fun traveltime neibNo =>
        let dt := computeDt E g (g.nodes.getD neibNo default) Rx cellNo
        if traveltime > g.getNodeTT neibNo threadNo + dt then
          g.getNodeTT neibNo threadNo + dt
        else traveltime)
      traveltime

/-- The values of the local variables `vertexA`, `vertexB`, `a`, `b`, `c`,
`alpha`, `beta` of `localSolver` once they are set for a triangle. -/
structure SolverVars (T : Type) where
  vertexA : Nat
  vertexB : Nat
  a : T
  b : T
  c : T
  alpha : T
  beta : T
deriving DecidableEq, Repr

/-- The search `for ( i0=0; i0<3; ++i0 ) if ( gridIndex == i[i0] ) break;` of
`localSolver`. -/
def findI0 (gridIndex : Nat) (i : List Nat) : Nat :=
  if gridIndex = i.getD 0 0 then 0
  else if gridIndex = i.getD 1 0 then 1
  else if gridIndex = i.getD 2 0 then 2
  else 3

/-- `std::map::at` on `virtualNodes`. -/
def virtualNodesAt (g : Grid2Duc T) (key : Nat) : Except (Exn T) (virtualNode T) :=
  match g.virtualNodes.lookup key with
  | some vn => Except.ok vn
  | none => Except.error (Exn.outOfRange key)

/-- First part of the body of the loop of `localSolver`: the choice between
the triangle and its virtual triangle. -/
def solverVars (E : MathEnv T) (g : Grid2Duc T) (vertexC : Nat) (triangleNo : Nat) :
    Except (Exn T) (SolverVars T) :=
  let tri := g.triangles.getD triangleNo default
  let i0 := findI0 (g.nodes.getD vertexC default).gridIndex tri.i
  if tri.a.getD i0 0 > E.pi / 2 ∧ ¬ g.virtualNodes.isEmpty then
    match virtualNodesAt g triangleNo with
    | Except.error e => Except.error e
    | Except.ok vn =>
      Except.ok
        { vertexA := vn.node1
          vertexB := vn.node2
          c := vn.e.getD 0 0
          a := vn.e.getD 1 0
          b := vn.e.getD 2 0
          alpha := vn.a.getD 2 0
          beta := vn.a.getD 1 0 }
  else
    let i1 := (i0 + 1) % 3
    let i2 := (i0 + 2) % 3
    Except.ok
      { vertexA := tri.i.getD i1 0
        vertexB := tri.i.getD i2 0
        c := tri.l.getD i0 0
        a := tri.l.getD i1 0
        b := tri.l.getD i2 0
        alpha := tri.a.getD i2 0
        beta := tri.a.getD i1 0 }

/-- Second part of the body of the loop of `localSolver`: the time `t` that is
compared with the time of `vertexC`; `s` is `slowness[triangleNo]`, `ttA` and
`ttB` the times of `vertexA` and `vertexB`. -/
def solverTime (E : MathEnv T) (v : SolverVars T) (s ttA ttB : T) : T :=
  let pi2 := E.pi / 2
  let corner :=
    let t := ttA + v.b * s
    if t < ttB + v.a * s then t else ttB + v.a * s
  if |ttB - ttA| ≤ v.c * s then
    let theta := E.asin (|ttB - ttA| / (v.c * s))
    if ((if 0 > v.alpha - pi2 then 0 else v.alpha - pi2) ≤ theta ∧ theta ≤ pi2 - v.beta) ∨
        (v.alpha - pi2 ≤ theta ∧ theta ≤ (if 0 < pi2 - v.beta then 0 else pi2 - v.beta)) then
      let h := v.a * E.sin (v.alpha - theta)
      let H := v.b * E.sin (v.beta + theta)
      1 / 2 * (h * s + ttB) + 1 / 2 * (H * s + ttA)
    else corner
  else corner

/-- The body of the loop of `localSolver` for the owner `triangleNo`. -/
def localSolverCell (E : MathEnv T) (g : Grid2Duc T) (vertexC : Nat) (threadNo : Nat)
    (triangleNo : Nat) : Outcome (Grid2Duc T) (Exn T) :=
  match solverVars E g vertexC triangleNo with
  | Except.error e => Outcome.throw g e
  | Except.ok v =>
    let t := solverTime E v (g.slowness.getD triangleNo 0)
      (g.getNodeTT v.vertexA threadNo) (g.getNodeTT v.vertexB threadNo)
    if t < g.getNodeTT vertexC threadNo then
      Outcome.ret (g.setNodeTT vertexC t threadNo)
    else Outcome.ret g

/-- The loop of `localSolver` over the owners not yet visited. -/
def localSolverLoop (E : MathEnv T) (vertexC : Nat) (threadNo : Nat) :
    List Nat → Grid2Duc T → Outcome (Grid2Duc T) (Exn T)
  | [], g => Outcome.ret g
  | triangleNo :: rest, g =>
    (localSolverCell E g vertexC threadNo triangleNo).andThen
      (localSolverLoop E vertexC threadNo rest)

/-- `Grid2Duc::localSolver(NODE *vertexC, const size_t threadNo)`; `vertexC` is
the index in `nodes` of the node pointed to. -/
def localSolver (E : MathEnv T) (g : Grid2Duc T) (vertexC : Nat) (threadNo : Nat) :
    Outcome (Grid2Duc T) (Exn T) :=
  localSolverLoop E vertexC threadNo (g.nodes.getD vertexC default).owners g

end Grid2Duc

/-! ## `Grid2Duifs`: the Fast Sweeping driver

`Grid2Duifs` derives from a base class `Grid2Dui` that is not among the
sources; its members are those of `Grid2Duc`, which is used in its place:
`check_pts` is `checkPts` with a return code, `local_solver` is `localSolver`. -/

/-- The data members of `Grid2Duifs`; `sorted[k]` lists node pointers as
indices in `nodes`. -/
structure Grid2Duifs (T : Type) extends Grid2Duc T where
  epsilon : T
  nitermax : Int
  sorted : List (List Nat)
deriving DecidableEq, Repr

/-- State of the sweeping loop of `raytrace`: the grid, the local variables
`frozen`, `times`, `error`, `niter`, and two counters that are not in the
source: the number of passes of the `while` loop begun so far and the number
of calls of the local solver made so far. -/
structure SweepState (T : Type) where
  grid : Grid2Duifs T
  frozen : List Bool
  times : List T
  error : T
  niter : Int
  passes : Nat
  solverCalls : Nat
deriving DecidableEq, Repr

/-- What a call of `raytrace` leaves: the grid, the output vector, the value
returned (`none` when the call ends by an exception) and the exception. -/
structure RaytraceResult (T R : Type) where
  grid : Grid2Duifs T
  traveltimes : R
  ret : Option Int
  exn : Option (Exn T)
deriving DecidableEq, Repr

namespace Grid2Duifs

variable {T : Type} [LinearOrderedField T]

/-- Modelled from the spec: `check_pts` of the base class, which is not among
the sources: it reports a point outside the mesh (§4.5 step 1, §7
`PointOutsideMesh`) by the return code 1 that `raytrace` tests. -/
def check_pts (E : MathEnv T) (g : Grid2Duifs T) (pts : List (sxz T)) : Int :=
  match (Grid2Duc.checkPts E g.toGrid2Duc pts).exn with
  | some _ => 1
  | none => 0

/-- Modelled from the spec: the two-argument `computeDt(source, node)` of the
base class, which is not among the sources: for a neighbour `u` of `v` across
an owner cell with slowness `s`, the time `s·‖u − v‖` (§4.7). -/
def computeDt2 (E : MathEnv T) (g : Grid2Duc T) (source node : Node2Dn T) (cellNo : Nat) : T :=
  Grid2Duc.computeDtNode E g source node cellNo

/-- The loop `for k` of `initTx` that populates around a source on node `nn`,
for the owner `cellNo`. -/
def initTxNeighbors (E : MathEnv T) (nn : Nat) (t0n : T) (threadNo : Nat) (cellNo : Nat)
    (g : Grid2Duc T) : Grid2Duc T :=
  (g.neighbors.getD cellNo []).foldl
    (fun g neibNo =>
      if neibNo = nn then g
      else
        let dt := computeDt2 E g (g.nodes.getD nn default) (g.nodes.getD neibNo default) cellNo
        if t0n + dt < g.getNodeTT neibNo threadNo then
          g.setNodeTT neibNo (t0n + dt) threadNo
        else g)
    g

/-- The body of `if ( this->nodes[nn] == Tx[n] )` in `initTx`. -/
def initTxOnNode (E : MathEnv T) (nn : Nat) (t0n : T) (threadNo : Nat)
    (gf : Grid2Duc T × List Bool) : Grid2Duc T × List Bool :=
  let g := gf.1.setNodeTT nn t0n threadNo
  let frozen := gf.2.set nn true
  let g := ((g.nodes.getD nn default).owners).foldl
    (fun g cellNo => initTxNeighbors E nn t0n threadNo cellNo g) g
  (g, frozen)

/-- The body of `if ( found==false )` in `initTx`. -/
def initTxInCell (E : MathEnv T) (Txn : sxz T) (t0n : T) (threadNo : Nat)
    (gf : Grid2Duc T × List Bool) : Grid2Duc T × List Bool :=
  let cellNo := Grid2Duc.getCellNo gf.1 Txn
  (gf.1.neighbors.getD cellNo []).foldl
    (fun gf neibNo =>
      let dt := Grid2Duc.computeDt E gf.1 (gf.1.nodes.getD neibNo default) Txn cellNo
      (gf.1.setNodeTT neibNo (t0n + dt) threadNo, gf.2.set neibNo true))
    gf

/-- The body of the loop `for n` of `initTx`, for the source `Txn` with time
`t0n`. -/
def initTxOne (E : MathEnv T) (Txn : sxz T) (t0n : T) (threadNo : Nat)
    (gf : Grid2Duc T × List Bool) : Grid2Duc T × List Bool :=
  match (List.range gf.1.nodes.length).find?
      (fun nn => (gf.1.nodes.getD nn default).eqPt E Txn) with
  | some nn => initTxOnNode E nn t0n threadNo gf
  | none => initTxInCell E Txn t0n threadNo gf

/-- The loop `for n` of `initTx` from index `n` on, `Tx` being the sources not
yet seeded. -/
def initTxFrom (E : MathEnv T) (t0 : List T) (threadNo : Nat) :
    Nat → List (sxz T) → Grid2Duc T × List Bool → Grid2Duc T × List Bool
  | _, [], gf => gf
  | n, Txn :: rest, gf =>
    initTxFrom E t0 threadNo (n + 1) rest (initTxOne E Txn (t0.getD n 0) threadNo gf)

/-- `Grid2Duifs::initTx`. -/
def initTx (E : MathEnv T) (g : Grid2Duc T) (Tx : List (sxz T)) (t0 : List T)
    (frozen : List Bool) (threadNo : Nat) : Grid2Duc T × List Bool :=
  initTxFrom E t0 threadNo 0 Tx (g, frozen)

/-- `nodes[n].reinit(threadNo)` on the grid. -/
def reinitNode (E : MathEnv T) (g : Grid2Duc T) (n : Nat) (threadNo : Nat) : Grid2Duc T :=
  { g with nodes := g.nodes.set n ((g.nodes.getD n default).reinit E threadNo) }

/-- The loop `for n: nodes[n].reinit(threadNo)` of `raytrace`. -/
def reinitNodes (E : MathEnv T) (g : Grid2Duc T) (threadNo : Nat) : Grid2Duc T :=
  (List.range g.nodes.length).foldl (fun g n => reinitNode E g n threadNo) g

/-- Replace the `Grid2Duc` part of the grid in a state of the sweeping loop. -/
def withGrid (st : SweepState T) (g : Grid2Duc T) : SweepState T :=
  { st with grid := { st.grid with toGrid2Duc := g } }

/-- A sweep of `raytrace`: the local solver is applied to every node of
`order` that is not frozen. -/
def sweep (E : MathEnv T) (threadNo : Nat) :
    List Nat → SweepState T → Outcome (SweepState T) (Exn T)
  | [], st => Outcome.ret st
  | vertexC :: rest, st =>
    if st.frozen.getD (st.grid.nodes.getD vertexC default).gridIndex false = false then
      let r := Grid2Duc.localSolver E st.grid.toGrid2Duc vertexC threadNo
      let st := { withGrid st r.state with solverCalls := st.solverCalls + 1 }
      match r.exn with
      | some e => Outcome.throw st e
      | none => sweep E threadNo rest st
    else sweep E threadNo rest st

/-- The value of `error` after the loop `for n: error += fabs( times[n] -
nodes[n].getTT(threadNo) )` started from `error = 0.0`. -/
def sumAbsChange (times : List T) (g : Grid2Duc T) (threadNo : Nat) : T :=
  (List.range g.nodes.length).foldl
    (fun error n => error + |times.getD n 0 - g.getNodeTT n threadNo|) 0

/-- The loop of `raytrace` that sums into `error` the changes of the node
times since the last snapshot and refreshes the snapshot `times`. -/
def updateError (threadNo : Nat) (st : SweepState T) : SweepState T :=
  let g := st.grid.toGrid2Duc
  let error := sumAbsChange st.times g threadNo
  let times := (List.range g.nodes.length).foldl
    (fun times n => times.set n (g.getNodeTT n threadNo)) st.times
  { st with error := error, times := times }

/-- The loop `for i` over `sorted` inside the `while` loop of `raytrace`,
`orders` being the orderings not yet swept; a `break` increments `niter` and
leaves the loop. -/
def forSorted (E : MathEnv T) (threadNo : Nat) :
    List (List Nat) → SweepState T → Outcome (SweepState T) (Exn T)
  | [], st => Outcome.ret st
  | order :: rest, st =>
    (sweep E threadNo order st).andThen fun st =>
      let st := updateError threadNo st
      if st.error < st.grid.epsilon then
        Outcome.ret { st with niter := st.niter + 1 }
      else
        (sweep E threadNo order.reverse st).andThen fun st =>
          let st := updateError threadNo st
          if st.error < st.grid.epsilon then
            Outcome.ret { st with niter := st.niter + 1 }
          else forSorted E threadNo rest st

/-- One pass of the `while` loop of `raytrace`. -/
def whilePass (E : MathEnv T) (threadNo : Nat) (st : SweepState T) :
    Outcome (SweepState T) (Exn T) :=
  (forSorted E threadNo st.grid.sorted { st with passes := st.passes + 1 }).andThen fun st =>
    Outcome.ret { st with niter := st.niter + 1 }

/-- The loop `while ( error >= epsilon && niter<nitermax )` of `raytrace`, run
for at most `fuel` passes. -/
def whileLoop (E : MathEnv T) (threadNo : Nat) :
    Nat → SweepState T → Outcome (SweepState T) (Exn T)
  | 0, st => Outcome.ret st
  | fuel + 1, st =>
    if st.error ≥ st.grid.epsilon ∧ st.niter < st.grid.nitermax then
      (whilePass E threadNo st).andThen (whileLoop E threadNo fuel)
    else Outcome.ret st

/-- The part of `raytrace` from the reset of the nodes to the snapshot
`times`: the state in which the `while` loop is entered. -/
def sweepInit (E : MathEnv T) (g : Grid2Duifs T) (Tx : List (sxz T)) (t0 : List T)
    (threadNo : Nat) : SweepState T :=
  let g1 := reinitNodes E g.toGrid2Duc threadNo
  let frozen := List.replicate g1.nodes.length false
  let gf := initTx E g1 Tx t0 frozen threadNo
  let error := E.tmax
  let times := (List.range gf.1.nodes.length).foldl
    (fun times n => times.set n (gf.1.getNodeTT n threadNo))
    (List.replicate gf.1.nodes.length 0)
  { grid := { g with toGrid2Duc := gf.1 }
    frozen := gf.2
    times := times
    error := error
    niter := 0
    passes := 0
    solverCalls := 0 }

/-- The part of `raytrace` from the reset of the nodes to the end of the
`while` loop. Every pass increments `niter`, so that `nitermax` passes are
enough for the loop to end by its condition. -/
def raytraceSweeps (E : MathEnv T) (g : Grid2Duifs T) (Tx : List (sxz T)) (t0 : List T)
    (threadNo : Nat) : Outcome (SweepState T) (Exn T) :=
  whileLoop E threadNo g.nitermax.toNat (sweepInit E g Tx t0 threadNo)

/-- `Grid2Duifs::raytrace(Tx, t0, Rx, traveltimes, threadNo)`, one batch of
receivers. -/
def raytrace (E : MathEnv T) (g : Grid2Duifs T) (Tx : List (sxz T)) (t0 : List T)
    (Rx : List (sxz T)) (traveltimes : List T) (threadNo : Nat) :
    RaytraceResult T (List T) :=
  if check_pts E g Tx = 1 then ⟨g, traveltimes, some 1, none⟩
  else if check_pts E g Rx = 1 then ⟨g, traveltimes, some 1, none⟩
  else
    let r := raytraceSweeps E g Tx t0 threadNo
    match r.exn with
    | some e => ⟨r.state.grid, traveltimes, none, some e⟩
    | none =>
      ⟨r.state.grid,
        Rx.map (fun Rxn => Grid2Duc.getTraveltime E r.state.grid.toGrid2Duc Rxn threadNo),
        some 0, none⟩

/-- `Grid2Duifs::raytrace(Tx, t0, Rx, traveltimes, threadNo)`, several batches
of receivers. -/
def raytraceBatches (E : MathEnv T) (g : Grid2Duifs T) (Tx : List (sxz T)) (t0 : List T)
    (Rx : List (List (sxz T))) (traveltimes : List (List T)) (threadNo : Nat) :
    RaytraceResult T (List (List T)) :=
  if check_pts E g Tx = 1 then ⟨g, traveltimes, some 1, none⟩
  else if Rx.any (fun Rxn => decide (check_pts E g Rxn = 1)) then
    ⟨g, traveltimes, some 1, none⟩
  else
    let r := raytraceSweeps E g Tx t0 threadNo
    match r.exn with
    | some e => ⟨r.state.grid, traveltimes, none, some e⟩
    | none =>
      ⟨r.state.grid,
        Rx.map (fun Rxnr => Rxnr.map
          (fun Rxn => Grid2Duc.getTraveltime E r.state.grid.toGrid2Duc Rxn threadNo)),
        some 0, none⟩

end Grid2Duifs

/-! ## Construction of the grid

The constructor of `Grid2Duifs` and the three methods it calls. -/

section Construction

variable {T : Type} [LinearOrderedField T]

/-- Modelled from the spec: `setXZindex(x, z, index)` of the node class
(§4.1 (a)): the coordinates and the grid index of the node are assigned. -/
def Node2Dn.setXZindex (n : Node2Dn T) (x z : T) (index : Nat) : Node2Dn T :=
  { n with x := x, z := z, gridIndex := index }

/-- The three vertex indices `i[0]`, `i[1]`, `i[2]` of a cell. -/
def cellVertices (i : List Nat) : List Nat := [i.getD 0 0, i.getD 1 0, i.getD 2 0]

namespace Grid2Duifs

/-- First loop of `buildGridNodes`: the primary nodes get their coordinates
and index. -/
def setPrimaryNodes (g : Grid2Duc T) (no : List (sxz T)) : Grid2Duc T :=
  (List.range no.length).foldl
    (fun g n =>
      let p := no.getD n ⟨0, 0⟩
      { g with nodes := g.nodes.set n ((g.nodes.getD n default).setXZindex p.x p.z n) })
    g

/-- `nodes[v].pushOwner(ntri)` on the grid. -/
def pushOwnerAt (g : Grid2Duc T) (v ntri : Nat) : Grid2Duc T :=
  { g with nodes := g.nodes.set v ((g.nodes.getD v default).pushOwner ntri) }

/-- Inner loop of `buildGridNodes`: triangle `ntri` is pushed as an owner of
its three vertices. -/
def pushOwners (g : Grid2Duc T) (ntri : Nat) : Grid2Duc T :=
  (List.range 3).foldl
    (fun g nl => pushOwnerAt g ((g.triangles.getD ntri default).i.getD nl 0) ntri)
    g

/-- Body of the loop over the triangles in `buildGridNodes`. -/
def buildTriangle (E : MathEnv T) (g : Grid2Duc T) (ntri : Nat) : Grid2Duc T :=
  let g := pushOwners g ntri
  let tri := g.triangles.getD ntri default
  let n0 := g.nodes.getD (tri.i.getD 0 0) default
  let n1 := g.nodes.getD (tri.i.getD 1 0) default
  let n2 := g.nodes.getD (tri.i.getD 2 0) default
  let a := n1.getDistance E n2
  let b := n0.getDistance E n2
  let c := n0.getDistance E n1
  let tri := { tri with l := ((tri.l.set 0 a).set 1 b).set 2 c }
  let tri := { tri with a := tri.a.set 0 (E.acos ((b * b + c * c - a * a) / (2 * b * c))) }
  let tri := { tri with a := tri.a.set 1 (E.acos ((c * c + a * a - b * b) / (2 * a * c))) }
  let tri := { tri with a := tri.a.set 2 (E.acos ((a * a + b * b - c * c) / (2 * a * b))) }
  { g with triangles := g.triangles.set ntri tri }

/-- `Grid2Duifs::buildGridNodes`. -/
def buildGridNodes (E : MathEnv T) (g : Grid2Duc T) (no : List (sxz T)) : Grid2Duc T :=
  let g := setPrimaryNodes g no
  (List.range g.triangles.length).foldl (buildTriangle E) g

end Grid2Duifs

namespace Grid2Duc

/-- `Grid2Duc::buildGridNeighbors`: every node is appended to the neighbour
list of each of its owners. -/
def buildGridNeighbors (g : Grid2Duc T) : Grid2Duc T :=
  (List.range g.nodes.length).foldl
    (fun g n =>
      (List.range (g.nodes.getD n default).owners.length).foldl
        (fun g n2 =>
          let c := (g.nodes.getD n default).owners.getD n2 0
          { g with neighbors := g.neighbors.set c (g.neighbors.getD c [] ++ [n]) })
        g)
    g

/-- The search for the opposite triangle in `processObtuse`: the first owner
of `i1`, in the order of its owner list, that is also an owner of `i2`. -/
def oppositeTriangle (g : Grid2Duc T) (i1 i2 : Nat) : Option Nat :=
  (g.nodes.getD i1 default).owners.findSome? (fun o1 =>
    (g.nodes.getD i2 default).owners.find? (fun o2 => o2 = o1))

/-- The choice of the opposite node `i3` in `processObtuse`. -/
def oppositeNode (g : Grid2Duc T) (oppositeTriangle i1 i2 : Nat) : Nat :=
  let i3 := (g.triangles.getD oppositeTriangle default).i.getD 0 0
  if i3 = i1 ∨ i3 = i2 then (g.triangles.getD oppositeTriangle default).i.getD 1 0
  else if i3 = i1 ∨ i3 = i2 then (g.triangles.getD oppositeTriangle default).i.getD 2 0
  else i3

/-- The virtual node that `processObtuse` computes for the obtuse vertex
`i0` of a triangle, `i1` and `i2` being its other vertices and `i3` the
opposite node. -/
def makeVirtualNode (E : MathEnv T) (g : Grid2Duc T) (i0 i1 i2 i3 : Nat) : virtualNode T :=
  let pi2 := E.pi / 2
  let vn : virtualNode T := ⟨i1, i3, [0, 0, 0], [0, 0, 0]⟩
  let a := (g.nodes.getD i1 default).getDistance E (g.nodes.getD i3 default)
  let b := (g.nodes.getD i0 default).getDistance E (g.nodes.getD i3 default)
  let c := (g.nodes.getD i0 default).getDistance E (g.nodes.getD i1 default)
  let a0 := E.acos ((b * b + c * c - a * a) / (2 * b * c))
  let r : virtualNode T × T × T × T × T :=
    if a0 > pi2 then
      let vn := { vn with node1 := i3, node2 := i2 }
      let a := (g.nodes.getD i2 default).getDistance E (g.nodes.getD i3 default)
      let b := (g.nodes.getD i0 default).getDistance E (g.nodes.getD i2 default)
      let c := (g.nodes.getD i0 default).getDistance E (g.nodes.getD i3 default)
      (vn, a, b, c, E.acos ((b * b + c * c - a * a) / (2 * b * c)))
    else (vn, a, b, c, a0)
  let vn := r.1
  let a := r.2.1
  let b := r.2.2.1
  let c := r.2.2.2.1
  let a0 := r.2.2.2.2
  let vn := { vn with a := vn.a.set 0 a0 }
  let vn := { vn with a := vn.a.set 1 (E.acos ((c * c + a * a - b * b) / (2 * a * c))) }
  let vn := { vn with a := vn.a.set 2 (E.acos ((a * a + b * b - c * c) / (2 * a * b))) }
  { vn with e := ((vn.e.set 0 a).set 1 b).set 2 c }

/-- `virtualNodes.insert(pair(ntri, vn))` of `std::map`: a key that is
present keeps its record. -/
def insertVirtualNode (m : List (Nat × virtualNode T)) (ntri : Nat) (vn : virtualNode T) :
    List (Nat × virtualNode T) :=
  match m.lookup ntri with
  | some _ => m
  | none => m ++ [(ntri, vn)]

/-- Body of the inner loop of `processObtuse` for the vertex `n` of the
triangle `ntri`. -/
def processVertex (E : MathEnv T) (g : Grid2Duc T) (ntri n : Nat) : Grid2Duc T :=
  let pi2 := E.pi / 2
  let tri := g.triangles.getD ntri default
  if tri.a.getD n 0 > pi2 then
    let i0 := tri.i.getD n 0
    let i1 := tri.i.getD ((n + 1) % 3) 0
    let i2 := tri.i.getD ((n + 2) % 3) 0
    match oppositeTriangle g i1 i2 with
    | none => g
    | some opp =>
      let i3 := oppositeNode g opp i1 i2
      let vn := makeVirtualNode E g i0 i1 i2 i3
      { g with virtualNodes := insertVirtualNode g.virtualNodes ntri vn }
  else g

/-- `Grid2Duc::processObtuse`. -/
def processObtuse (E : MathEnv T) (g : Grid2Duc T) : Grid2Duc T :=
  (List.range g.triangles.length).foldl
    (fun g ntri => (List.range 3).foldl (fun g n => processVertex E g ntri n) g)
    g

end Grid2Duc

/-- `Grid2Duifs::Grid2Duifs`: the constructor. -/
def Grid2Duifs.new (E : MathEnv T) (no : List (sxz T)) (tri : List (List Nat)) (eps : T)
    (maxit : Int) (nt : Nat) (procObtuse : Bool) : Grid2Duifs T :=
  let g := Grid2Duc.new no tri nt
  let g := Grid2Duifs.buildGridNodes E g no
  let g := g.buildGridNeighbors
  let g := if procObtuse then g.processObtuse E else g
  { toGrid2Duc := g, epsilon := eps, nitermax := maxit, sorted := [] }

end Construction

/-! ## Ray tracing: `Grid2Duc::getRaypath`

The walk from a receiver back to a source. The class `Grad2D` of the local
gradient is not among the sources: the gradient is a parameter `grad` of the
walk. A slope is an `Option`: `none` is the value `INFINITY` that the code
gives to the slope of a vertical line. The statements on the output vector
`r_data` are recorded in the order in which they are executed, and applied to
the vector at the end: the walk never reads `r_data`. -/

section Raypath

variable {T : Type} [LinearOrderedField T]

/-- Modelled from the spec: `dot` of the geometric primitives library (§6). -/
def dot (v1 v2 : sxz T) : T := v1.x * v2.x + v1.z * v2.z

/-- Modelled from the spec: `cross` of the geometric primitives library (§6),
for two vectors of the plane. -/
def cross (v1 v2 : sxz T) : T := v1.z * v2.x - v1.x * v2.z

/-- Modelled from the spec: `sxz::normalize` (§6): the vector divided by its
norm. -/
def sxz.normalize (E : MathEnv T) (v : sxz T) : sxz T :=
  ⟨v.x / E.sqrt (v.x * v.x + v.z * v.z), v.z / E.sqrt (v.x * v.x + v.z * v.z)⟩

/-- Modelled from the spec: `sxz::operator==`, equality of two points within
a small tolerance (§6). -/
def sxz.eqPt (E : MathEnv T) (p q : sxz T) : Bool :=
  decide (|p.x - q.x| < E.small) && decide (|p.z - q.z| < E.small)

/-- `boost::math::sign`: 1, -1 or 0. -/
def sign (x : T) : Int := if x > 0 then 1 else if x < 0 then -1 else 0

/-- A statement on the output vector `r_data`: `r_data.push_back(p)`, or the
pair `r_data.resize(1); r_data[0] = Rx` that follows the warning `finding
raypath failed to converge`. -/
inductive RayOp (T : Type) where
  | push (p : sxz T)
  | reset
deriving DecidableEq, Repr

/-- The effect of a statement on `r_data`. -/
def RayOp.apply (Rx : sxz T) (r_data : List (sxz T)) : RayOp T → List (sxz T)
  | RayOp.push p => r_data ++ [p]
  | RayOp.reset =>
    (match r_data with
      | [] => [(⟨0, 0⟩ : sxz T)]
      | a :: _ => [a]).set 0 Rx

/-- The local variables of `getRaypath` that the loop reads and writes. -/
structure RayState (T : Type) where
  curr_pt : sxz T
  cellNo : Nat
  nodeNo : Nat
  onNode : Bool
  onEdge : Bool
  edgeNodes : Nat × Nat
  reachedTx : Bool
deriving DecidableEq, Repr

namespace Grid2Duc

/-- The line `z = m2*x + b2` through `curr_pt` along `g`, or `x = b2` with
`m2 = INFINITY`. -/
def rayLine (g curr_pt : sxz T) : Option T × T :=
  if g.x = 0 then (none, curr_pt.x)
  else (some (g.z / g.x), curr_pt.z - g.z / g.x * curr_pt.x)

/-- The line `z = m1*x + b1` through the nodes `i0` and `i1`, or `x = b1`
with `m1 = INFINITY`. -/
def edgeLine (g : Grid2Duc T) (i0 i1 : Nat) : Option T × T :=
  let den := (g.nodes.getD i1 default).x - (g.nodes.getD i0 default).x
  if den = 0 then (none, (g.nodes.getD i1 default).x)
  else
    let m1 := ((g.nodes.getD i1 default).z - (g.nodes.getD i0 default).z) / den
    (some m1, (g.nodes.getD i1 default).z - m1 * (g.nodes.getD i1 default).x)

/-- The point `pt_i` where the lines `(m1, b1)` and `(m2, b2)` meet. For two
parallel lines the value that the code computes is not finite: `none`. -/
def intersection (m1 : Option T) (b1 : T) (m2 : Option T) (b2 : T) : Option (sxz T) :=
  match m1, m2 with
  | none, none => none
  | none, some m2 => some ⟨b1, m2 * b1 + b2⟩
  | some m1, none => some ⟨b2, m1 * b2 + b1⟩
  | some m1, some m2 =>
    if m1 = m2 then none
    else some ⟨(b2 - b1) / (m1 - m2), m2 * ((b2 - b1) / (m1 - m2)) + b2⟩

/-- The slope of the line from `curr_pt` to the node `i`. -/
def slopeTo (g : Grid2Duc T) (i : Nat) (curr_pt : sxz T) : Option T :=
  let den := (g.nodes.getD i default).x - curr_pt.x
  if den = 0 then none else some (((g.nodes.getD i default).z - curr_pt.z) / den)

/-- `Grid2Duc::findIntersection`: the value returned and the new `curr_pt`.
When the gradient is parallel to the opposing edge the point that the code
computes is not finite; `curr_pt` is then left where it is. -/
def findIntersection (g : Grid2Duc T) (i0 i1 : Nat) (gv : sxz T) (curr_pt : sxz T) :
    Bool × sxz T :=
  let m2 := (rayLine gv curr_pt).1
  let b2 := (rayLine gv curr_pt).2
  if slopeTo g i0 curr_pt = m2 then
    (true, ⟨(g.nodes.getD i0 default).x, (g.nodes.getD i0 default).z⟩)
  else if slopeTo g i1 curr_pt = m2 then
    (true, ⟨(g.nodes.getD i1 default).x, (g.nodes.getD i1 default).z⟩)
  else
    (false, (intersection (edgeLine g i0 i1).1 (edgeLine g i0 i1).2 m2 b2).getD curr_pt)

/-- The vector `cells` of `findNextCell1` and `findNextCell2`: the owners of
`i0` that are owners of `i1`. -/
def commonOwners (g : Grid2Duc T) (i0 i1 : Nat) : List Nat :=
  (g.nodes.getD i0 default).owners.filter
    (fun nc0 => (g.nodes.getD i1 default).owners.contains nc0)

/-- `Grid2Duc::findNextCell1`. -/
def findNextCell1 (g : Grid2Duc T) (i0 i1 nodeNo : Nat) : Nat :=
  let cells := commonOwners g i0 i1
  if cells.length = 1 then cells.getD 0 0
  else
    match (g.nodes.getD nodeNo default).owners.find?
        (fun nc0 => decide (nc0 = cells.getD 0 0) || decide (nc0 = cells.getD 1 0)) with
    | some nc0 => if nc0 = cells.getD 0 0 then cells.getD 1 0 else cells.getD 0 0
    | none => T2_max

/-- `Grid2Duc::findNextCell2`. -/
def findNextCell2 (g : Grid2Duc T) (i0 i1 cellNo : Nat) : Nat :=
  let cells := commonOwners g i0 i1
  if cells.length = 1 then cells.getD 0 0
  else if cellNo = cells.getD 0 0 then cells.getD 1 0
  else if cellNo = cells.getD 1 0 then cells.getD 0 0
  else T2_max

/-- The array `nb` of `getRaypath`: the two nodes of the cell `nc` other than
`nodeNo`, the smaller index first. -/
def otherNodes (g : Grid2Duc T) (nc nodeNo : Nat) : Nat × Nat :=
  let nb := (g.neighbors.getD nc []).filter (fun nn => decide (nn ≠ nodeNo))
  if nb.getD 0 0 > nb.getD 1 0 then (nb.getD 1 0, nb.getD 0 0) else (nb.getD 0 0, nb.getD 1 0)

/-- The two tests on `theta1`, `theta2` and on the signs of the cross
products in `getRaypath`: `false` when one of them ends the pass of the loop
over the owners by `continue`. -/
def inSector (E : MathEnv T) (g : Grid2Duc T) (nodeNo nb0 nb1 : Nat) (gv : sxz T) : Bool :=
  let v1 := sxz.normalize E
    ⟨(g.nodes.getD nb0 default).x - (g.nodes.getD nodeNo default).x,
      (g.nodes.getD nb0 default).z - (g.nodes.getD nodeNo default).z⟩
  let v2 := sxz.normalize E
    ⟨(g.nodes.getD nb1 default).x - (g.nodes.getD nodeNo default).x,
      (g.nodes.getD nb1 default).z - (g.nodes.getD nodeNo default).z⟩
  let theta1 := E.acos (dot v1 gv)
  let theta2 := E.acos (dot v1 v2)
  if theta1 > theta2 then false
  else if sign (cross v1 gv) ≠ sign (cross v1 v2) then false
  else true

/-- The statements of `getRaypath` from `foundIntersection = true` to the
`break` of the loop over the owners of the node `nodeNo`. -/
def acceptOwner (g : Grid2Duc T) (nb0 nb1 : Nat) (gv : sxz T) (st : RayState T) :
    RayState T × List (RayOp T) :=
  let r := findIntersection g nb0 nb1 gv st.curr_pt
  let st := { st with curr_pt := r.2 }
  if r.1 then (st, [RayOp.push r.2])
  else
    let st := { st with
      onEdge := true
      edgeNodes := (nb0, nb1)
      cellNo := findNextCell1 g nb0 nb1 st.nodeNo }
    if st.cellNo = T2_max then
      ({ st with reachedTx := true }, [RayOp.push r.2, RayOp.reset])
    else (st, [RayOp.push r.2])

/-- The first loop of `getRaypath` over the owners of `nodeNo`, with the
gradient of each owner; `grads` collects the gradients that are refused. -/
def firstLoop (E : MathEnv T) (grad : Node2Dn T → Node2Dn T → Node2Dn T → Nat → sxz T)
    (g : Grid2Duc T) (threadNo : Nat) (st : RayState T) :
    List Nat → List (sxz T) → Option (RayState T × List (RayOp T)) × List (sxz T)
  | [], grads => (none, grads)
  | nc :: rest, grads =>
    let nb := otherNodes g nc st.nodeNo
    let gv := sxz.normalize E
      (grad (g.nodes.getD st.nodeNo default) (g.nodes.getD nb.1 default)
        (g.nodes.getD nb.2 default) threadNo)
    if inSector E g st.nodeNo nb.1 nb.2 gv then (some (acceptOwner g nb.1 nb.2 gv st), grads)
    else firstLoop E grad g threadNo st rest (grads ++ [gv])

/-- The second loop of `getRaypath` over the owners of `nodeNo`, with the
average gradient, normalised again in every pass. -/
def secondLoop (E : MathEnv T) (g : Grid2Duc T) (st : RayState T) :
    List Nat → sxz T → Option (RayState T × List (RayOp T))
  | [], _ => none
  | nc :: rest, gv =>
    let nb := otherNodes g nc st.nodeNo
    let gv := sxz.normalize E gv
    if inSector E g st.nodeNo nb.1 nb.2 gv then some (acceptOwner g nb.1 nb.2 gv st)
    else secondLoop E g st rest gv

/-- The branch `if ( onNode )` of the body of the loop of `getRaypath`. -/
def vertexStep (E : MathEnv T) (grad : Node2Dn T → Node2Dn T → Node2Dn T → Nat → sxz T)
    (g : Grid2Duc T) (threadNo : Nat) (st : RayState T) : RayState T × List (RayOp T) :=
  let owners := (g.nodes.getD st.nodeNo default).owners
  match firstLoop E grad g threadNo st owners [] with
  | (some r, _) => r
  | (none, grads) =>
    let gv : sxz T :=
      ⟨grads.foldl (fun s v => s + v.x) 0 / (grads.length : T),
        grads.foldl (fun s v => s + v.z) 0 / (grads.length : T)⟩
    match secondLoop E g st owners gv with
    | some r => r
    | none => ({ st with reachedTx := true }, [RayOp.reset])

/-- The test `fabs(m1-m2)<small`; a difference with `INFINITY` is not below
`small`. -/
def slopesClose (E : MathEnv T) (m1 m2 : Option T) : Bool :=
  match m1, m2 with
  | some a, some b => decide (|a - b| < E.small)
  | _, _ => false

/-- The test that `pt_i` is between the two ends of the edge `ind0 ind1`. -/
def onSegment (g : Grid2Duc T) (ind0 ind1 : Nat) (pt_i : sxz T) : Bool :=
  ((decide (pt_i.x ≤ (g.nodes.getD ind1 default).x) &&
      decide (pt_i.x ≥ (g.nodes.getD ind0 default).x)) ||
    (decide (pt_i.x ≥ (g.nodes.getD ind1 default).x) &&
      decide (pt_i.x ≤ (g.nodes.getD ind0 default).x))) &&
  ((decide (pt_i.z ≤ (g.nodes.getD ind0 default).z) &&
      decide (pt_i.z ≥ (g.nodes.getD ind1 default).z)) ||
    (decide (pt_i.z ≥ (g.nodes.getD ind0 default).z) &&
      decide (pt_i.z ≤ (g.nodes.getD ind1 default).z)))

/-- The loop `for ns` of `getRaypath` over the edges `ind` of the cell, `gv`
being the normalised gradient of the cell: the state and the statements on
`r_data` when an intersection is found. -/
def edgeLoop (E : MathEnv T) (g : Grid2Duc T) (gv : sxz T) (st : RayState T) :
    List (Nat × Nat) → Option (RayState T × List (RayOp T))
  | [] => none
  | ind :: rest =>
    let den := (g.nodes.getD ind.2 default).x - (g.nodes.getD ind.1 default).x
    let m1 := (edgeLine g ind.1 ind.2).1
    let b1 := (edgeLine g ind.1 ind.2).2
    let m2 := (rayLine gv st.curr_pt).1
    let b2 := (rayLine gv st.curr_pt).2
    if st.onEdge = true ∧ ind.1 = st.edgeNodes.1 ∧ ind.2 = st.edgeNodes.2 then
      if slopesClose E m1 m2 then
        if sign den = sign gv.x then
          let p : sxz T := ⟨(g.nodes.getD ind.2 default).x, (g.nodes.getD ind.2 default).z⟩
          some ({ st with curr_pt := p }, [RayOp.push p])
        else
          let p : sxz T := ⟨(g.nodes.getD ind.1 default).x, (g.nodes.getD ind.1 default).z⟩
          some ({ st with curr_pt := p }, [RayOp.push p])
      else edgeLoop E g gv st rest
    else
      match intersection m1 b1 m2 b2 with
      | none => edgeLoop E g gv st rest
      | some pt_i =>
        if dot ⟨pt_i.x - st.curr_pt.x, pt_i.z - st.curr_pt.z⟩ gv ≤ 0 then
          edgeLoop E g gv st rest
        else if onSegment g ind.1 ind.2 pt_i then
          let st := { st with
            curr_pt := pt_i
            onEdge := true
            edgeNodes := ind
            cellNo := findNextCell2 g ind.1 ind.2 st.cellNo }
          if st.cellNo = T2_max then
            some ({ st with reachedTx := true }, [RayOp.push pt_i, RayOp.reset])
          else some (st, [RayOp.push pt_i])
        else edgeLoop E g gv st rest

/-- A pair of node indices, the smaller first. -/
def sortedPair (a b : Nat) : Nat × Nat := if a > b then (b, a) else (a, b)

/-- The branch `else` of `if ( onNode )` in the body of the loop of
`getRaypath`. -/
def cellStep (E : MathEnv T) (grad : Node2Dn T → Node2Dn T → Node2Dn T → Nat → sxz T)
    (g : Grid2Duc T) (threadNo : Nat) (st : RayState T) : RayState T × List (RayOp T) :=
  let nb := g.neighbors.getD st.cellNo []
  let gv := sxz.normalize E
    (grad (g.nodes.getD (nb.getD 0 0) default) (g.nodes.getD (nb.getD 1 0) default)
      (g.nodes.getD (nb.getD 2 0) default) threadNo)
  let ind := [sortedPair (nb.getD 0 0) (nb.getD 1 0), sortedPair (nb.getD 0 0) (nb.getD 2 0),
    sortedPair (nb.getD 1 0) (nb.getD 2 0)]
  match edgeLoop E g gv st ind with
  | some r => r
  | none =>
    let vec : sxz T :=
      ⟨(g.nodes.getD st.edgeNodes.2 default).x - (g.nodes.getD st.edgeNodes.1 default).x,
        (g.nodes.getD st.edgeNodes.2 default).z - (g.nodes.getD st.edgeNodes.1 default).z⟩
    if dot vec gv > 0 then
      let p : sxz T :=
        ⟨(g.nodes.getD st.edgeNodes.2 default).x, (g.nodes.getD st.edgeNodes.2 default).z⟩
      ({ st with curr_pt := p }, [RayOp.push p])
    else
      let p : sxz T :=
        ⟨(g.nodes.getD st.edgeNodes.1 default).x, (g.nodes.getD st.edgeNodes.1 default).z⟩
      ({ st with curr_pt := p }, [RayOp.push p])

/-- The body of the last loop of the body of the loop of `getRaypath`, for
the source `tx`, when the current point is on no node: the statements on
`r_data` and the value of `reachedTx`. -/
def txCheck (E : MathEnv T) (g : Grid2Duc T) (cellNo : Nat) (tx : sxz T) (reachedTx : Bool) :
    List (RayOp T) × Bool :=
  match (List.range g.nodes.length).find? (fun nn => (g.nodes.getD nn default).eqPt E tx) with
  | some txNode =>
    if (g.nodes.getD txNode default).owners.any (fun nc => decide (cellNo = nc)) then
      ([RayOp.push tx], true)
    else ([], reachedTx)
  | none =>
    if cellNo = getCellNo g tx then ([RayOp.push tx], true) else ([], reachedTx)

/-- The last loop of the body of the loop of `getRaypath`, over the sources,
when the current point is on no node, `Tx` being the sources not yet visited:
it ends at the first source after which `reachedTx` is set. -/
def txLoop (E : MathEnv T) (g : Grid2Duc T) (cellNo : Nat) :
    List (sxz T) → Bool → List (RayOp T) × Bool
  | [], reachedTx => ([], reachedTx)
  | tx :: rest, reachedTx =>
    if (txCheck E g cellNo tx reachedTx).2 then txCheck E g cellNo tx reachedTx
    else txLoop E g cellNo rest (txCheck E g cellNo tx reachedTx).2

/-- The body of the loop `while ( reachedTx == false )` of `getRaypath`: the
new state and the statements on `r_data`, in order. -/
def rayStep (E : MathEnv T) (grad : Node2Dn T → Node2Dn T → Node2Dn T → Nat → sxz T)
    (g : Grid2Duc T) (Tx : List (sxz T)) (threadNo : Nat) (st : RayState T) :
    RayState T × List (RayOp T) :=
  let r := if st.onNode then vertexStep E grad g threadNo st else cellStep E grad g threadNo st
  let st := { r.1 with onNode := false }
  let st :=
    match (List.range g.nodes.length).find?
        (fun nn => (g.nodes.getD nn default).eqPt E st.curr_pt) with
    | some nn => { st with nodeNo := nn, onNode := true, onEdge := false }
    | none => st
  if st.onNode then
    if Tx.any (fun tx => decide (st.curr_pt.getDistance E tx < E.small)) then
      ({ st with reachedTx := true }, r.2)
    else (st, r.2)
  else
    ({ st with reachedTx := (txLoop E g st.cellNo Tx st.reachedTx).2 },
      r.2 ++ (txLoop E g st.cellNo Tx st.reachedTx).1)

/-- The loop `while ( reachedTx == false )` of `getRaypath`, run for at most
`fuel` passes: the statements on `r_data` in order, or `none` when
`reachedTx` is still false after `fuel` passes. -/
def walk (E : MathEnv T) (grad : Node2Dn T → Node2Dn T → Node2Dn T → Nat → sxz T)
    (g : Grid2Duc T) (Tx : List (sxz T)) (threadNo : Nat) :
    Nat → RayState T → Option (List (RayOp T))
  | 0, st => if st.reachedTx then some [] else none
  | fuel + 1, st =>
    if st.reachedTx then some []
    else
      (walk E grad g Tx threadNo fuel (rayStep E grad g Tx threadNo st).1).map
        (fun ops => (rayStep E grad g Tx threadNo st).2 ++ ops)

/-- The state in which the loop of `getRaypath` is entered. The variables
that the code leaves without a value are 0. -/
def rayInit (E : MathEnv T) (g : Grid2Duc T) (Rx : sxz T) : RayState T :=
  match (List.range g.nodes.length).find? (fun nn => (g.nodes.getD nn default).eqPt E Rx) with
  | some nn =>
    { curr_pt := Rx, cellNo := 0, nodeNo := nn, onNode := true, onEdge := false,
      edgeNodes := (0, 0), reachedTx := false }
  | none =>
    { curr_pt := Rx, cellNo := getCellNo g Rx, nodeNo := 0, onNode := false, onEdge := false,
      edgeNodes := (0, 0), reachedTx := false }

/-- `Grid2Duc::getRaypath`, with its loop run for at most `fuel` passes: the
vector `r_data` as the call leaves it, or `none` when the loop has not ended
after `fuel` passes. -/
def getRaypath (E : MathEnv T) (grad : Node2Dn T → Node2Dn T → Node2Dn T → Nat → sxz T)
    (g : Grid2Duc T) (Tx : List (sxz T)) (Rx : sxz T) (r_data : List (sxz T)) (threadNo : Nat)
    (fuel : Nat) : Option (List (sxz T)) :=
  if Tx.any (fun tx => Rx.eqPt E tx) then some (r_data ++ [Rx])
  else
    (walk E grad g Tx threadNo fuel (rayInit E g Rx)).map
      (fun ops => ops.foldl (RayOp.apply Rx) (r_data ++ [Rx]))

end Grid2Duc

/-- Modelled from the spec: `Grad2D::ls_grad`, the gradient of the plane
through the times of three nodes (§4.9), taken with the sign that makes the
walk descend the travel-time field. -/
def ls_grad (n0 n1 n2 : Node2Dn T) (threadNo : Nat) : sxz T :=
  let d := (n1.x - n0.x) * (n2.z - n0.z) - (n2.x - n0.x) * (n1.z - n0.z)
  let t1 := n1.getTT threadNo - n0.getTT threadNo
  let t2 := n2.getTT threadNo - n0.getTT threadNo
  ⟨-((t1 * (n2.z - n0.z) - t2 * (n1.z - n0.z)) / d),
    -(((n1.x - n0.x) * t2 - (n2.x - n0.x) * t1) / d)⟩

end Raypath

/-! ## The overload of `getTraveltime` that records the parents -/

section ParentOverload

variable {T : Type} [LinearOrderedField T]

/-- `Grid2Duc::getTraveltime(const S& Rx, const std::vector<NODE>& nodes,
T2& nodeParentRx, T2& cellParentRx, const size_t threadNo)`: the value
returned, then the values left in `nodeParentRx` and in `cellParentRx`. The
accessors `getNodeParent` and `getCellParent` of the node class, which is not
among the sources, are the parameters `nodeParent` and `cellParent`. -/
def Grid2Duc.getTraveltimeParents (E : MathEnv T) (nodeParent cellParent : Node2Dn T → Nat → Nat)
    (g : Grid2Duc T) (Rx : sxz T) (threadNo : Nat) : T × Nat × Nat :=
  match g.nodes.find? (fun n => n.eqPt E Rx) with
  | some n => (n.getTT threadNo, nodeParent n threadNo, cellParent n threadNo)
  | none =>
    let cellNo := Grid2Duc.getCellNo g Rx
    let nb := g.neighbors.getD cellNo []
    let neibNo := nb.getD 0 0
    let dt := Grid2Duc.computeDt E g (g.nodes.getD neibNo default) Rx cellNo
    let traveltime := g.getNodeTT neibNo threadNo + dt
    let r := (nb.drop 1).foldl
      (fun (r : T × Nat) neibNo =>
        let dt := Grid2Duc.computeDt E g (g.nodes.getD neibNo default) Rx cellNo
        if r.1 > g.getNodeTT neibNo threadNo + dt then
          (g.getNodeTT neibNo threadNo + dt, neibNo)
        else r)
      (traveltime, neibNo)
    (r.1, r.2, cellNo)

end ParentOverload

/-! ## `Grid2Duifs::initOrdering`

The classes `Metric1`, `Metric2`, `siv` and the comparator `CompareSiv_vr` are
not among the sources. The two metrics are modelled from the spec; an element
`siv` of the queue is the pair of its members `i` and `v`; the queue is the
list of its elements and the element that `top` returns is a parameter. -/

section Ordering

variable {T : Type} [LinearOrderedField T]

/-- Modelled from the spec: `Metric1::l(node, point)`, the L1 distance used
for `order = 1` (§4.6 Initialisation). -/
def Metric1.l (n : Node2Dn T) (p : sxz T) : T := |n.x - p.x| + |n.z - p.z|

/-- Modelled from the spec: `Metric2::l(node, point)`, the L2 distance used
for `order = 2` (§4.6 Initialisation). -/
def Metric2.l (E : MathEnv T) (n : Node2Dn T) (p : sxz T) : T :=
  E.sqrt ((n.x - p.x) * (n.x - p.x) + (n.z - p.z) * (n.z - p.z))

namespace Grid2Duifs

/-- The metric that `initOrdering` selects: `if ( order == 1 ) m = new
Metric1<T1>(); else m = new Metric2<T1>();`. -/
def selectMetric (E : MathEnv T) (order : Int) : Node2Dn T → sxz T → T :=
  if order = 1 then Metric1.l else Metric2.l E

/-- `sorted.resize(n)`: the first `n` entries are kept, empty vectors are
added up to the size `n`. -/
def resizeSorted (sorted : List (List Nat)) (n : Nat) : List (List Nat) :=
  sorted.take n ++ List.replicate (n - sorted.length) []

/-- The loop `for n: queue.push( {n, m->l(nodes[n], refPts[np])} )` of
`initOrdering`. -/
def pushAll (m : Node2Dn T → sxz T → T) (g : Grid2Duifs T) (p : sxz T)
    (queue : List (Nat × T)) : List (Nat × T) :=
  (List.range g.nodes.length).foldl (fun q n => q ++ [(n, m (g.nodes.getD n default) p)]) queue

/-- The loop `while ( !queue.empty() ) { s = queue.top(); queue.pop();
sorted[np].push_back( &nodes[s.i] ); }` of `initOrdering`, on the vector
`sorted[np]`; `top` gives the position in the queue of the element that
`queue.top()` returns; `none` when the fuel does not suffice. -/
def drainQueue (top : List (Nat × T) → Nat) :
    Nat → List (Nat × T) → List Nat → Option (List Nat)
  | _, [], out => some out
  | 0, _ :: _, _ => none
  | fuel + 1, s0 :: q, out =>
    let s := (s0 :: q).getD (top (s0 :: q)) (0, 0)
    drainQueue top fuel ((s0 :: q).eraseIdx (top (s0 :: q))) (out ++ [s.1])

/-- The body of the loop `for np` of `initOrdering`; the queue is empty when
the body begins and when it ends. -/
def orderingFor (top : List (Nat × T) → Nat) (fuel : Nat) (m : Node2Dn T → sxz T → T)
    (refPts : List (sxz T)) (g : Grid2Duifs T) (np : Nat) : Option (Grid2Duifs T) :=
  let queue := pushAll m g (refPts.getD np ⟨0, 0⟩) []
  match drainQueue top fuel queue (g.sorted.getD np []) with
  | none => none
  | some out => some { g with sorted := g.sorted.set np out }

/-- `Grid2Duifs::initOrdering(refPts, order)`. -/
def initOrdering (E : MathEnv T) (top : List (Nat × T) → Nat) (fuel : Nat) (g : Grid2Duifs T)
    (refPts : List (sxz T)) (order : Int) : Option (Grid2Duifs T) :=
  let g := { g with sorted := resizeSorted g.sorted refPts.length }
  let m := selectMetric E order
  (List.range refPts.length).foldl
    (fun acc np => acc.bind (fun g => orderingFor top fuel m refPts g np)) (some g)

end Grid2Duifs

end Ordering

/-! ## `Grid3Dunfm`: the Fast Marching driver

`Grid3Dunfm` derives from `Grid3Dun`, and its nodes are `Node3Dn`; neither is
among the sources. Their data are modelled from the spec, and the methods
that the spec leaves unspecified are the fields of a `Grid3DunBase`. -/

/-- Modelled from the spec: the node class `Node3Dn` (§3 Vertex, §4.2):
coordinates, grid index, owner cells, one travel-time slot per worker, and the
slowness at the node read by `getNodeSlowness`. -/
structure Node3Dn (T : Type) where
  x : T
  y : T
  z : T
  gridIndex : Nat
  owners : List Nat
  tt : List T
  slowness : T
deriving DecidableEq, Repr

/-- Modelled from the spec: the data members of `Grid3Dun` used by
`Grid3Dunfm` (§3, §4.1, §4.7): nodes, cells, the per-cell neighbour lists and
the source radius. -/
structure Grid3Dun (T : Type) where
  nThreads : Nat
  nodes : List (Node3Dn T)
  neighbors : List (List Nat)
  tetrahedra : List (List Nat)
  source_radius : T
deriving DecidableEq, Repr

section Node3

variable {T : Type} [LinearOrderedField T]

instance : Inhabited (Node3Dn T) := ⟨⟨0, 0, 0, 0, [], [], 0⟩⟩

/-- Modelled from the spec: `getTT(w)` (§4.2). -/
def Node3Dn.getTT (n : Node3Dn T) (w : Nat) : T := n.tt.getD w 0

/-- Modelled from the spec: `setTT(t, w)` (§4.2). -/
def Node3Dn.setTT (n : Node3Dn T) (t : T) (w : Nat) : Node3Dn T :=
  { n with tt := n.tt.set w t }

/-- Modelled from the spec: `reinit(w)`, the reset of slot `w` to the largest
value (§3 Lifecycle). -/
def Node3Dn.reinit (E : MathEnv T) (n : Node3Dn T) (w : Nat) : Node3Dn T :=
  n.setTT E.tmax w

/-- Modelled from the spec: `operator==(const sxyz&)`, equality to a geometric
point within a small tolerance (§4.2). -/
def Node3Dn.eqPt (E : MathEnv T) (n : Node3Dn T) (p : sxyz T) : Bool :=
  decide (|n.x - p.x| < E.small) && decide (|n.y - p.y| < E.small) &&
    decide (|n.z - p.z| < E.small)

/-- Modelled from the spec: `getDistance(const Node3Dn&)` (§4.2), Euclidean. -/
def Node3Dn.getDistance (E : MathEnv T) (n m : Node3Dn T) : T :=
  E.sqrt ((n.x - m.x) * (n.x - m.x) + (n.y - m.y) * (n.y - m.y) + (n.z - m.z) * (n.z - m.z))

/-- Modelled from the spec: `getDistance(const sxyz&)` (§4.2), Euclidean. -/
def Node3Dn.getDistancePt (E : MathEnv T) (n : Node3Dn T) (p : sxyz T) : T :=
  E.sqrt ((n.x - p.x) * (n.x - p.x) + (n.y - p.y) * (n.y - p.y) + (n.z - p.z) * (n.z - p.z))

end Node3

/-- The members of `Grid3Dun` and of the band that are not among the sources
and that the spec does not define: they are parameters of the driver. -/
structure Grid3DunBase (T : Type) where
  /-- the cell-interior predicate used by `checkPts` and `getCellNo` -/
  insideTetrahedron : Grid3Dun T → sxyz T → Nat → Bool
  /-- `computeDt(source, node)` -/
  computeDt : Grid3Dun T → Node3Dn T → Node3Dn T → T
  /-- `localUpdate3D(vertex, threadNo)`, as the grid it leaves -/
  localUpdate3D : Grid3Dun T → Nat → Nat → Grid3Dun T
  /-- the value returned by `getTraveltime` for a receiver that is on no node -/
  interpolate : Grid3Dun T → sxyz T → Nat → T
  /-- position in the band of the element that `std::priority_queue::top`
  returns with the comparator `CompareNodePtr(threadNo)`, for the node state
  of the grid -/
  top : Grid3Dun T → Nat → List Nat → Nat
  /-- `top` returns an element of the band -/
  top_lt : ∀ (g : Grid3Dun T) (threadNo : Nat) (band : List Nat),
    band ≠ [] → top g threadNo band < band.length

/-- State of the band: the grid, the queue `narrow_band` (node pointers as
indices in `nodes`), the flags `inBand` and `frozen`, and a record that is not
in the source: the nodes popped so far, oldest first. -/
structure BandState (T : Type) where
  grid : Grid3Dun T
  narrow_band : List Nat
  inBand : List Bool
  frozen : List Bool
  popped : List Nat
deriving DecidableEq, Repr

namespace Grid3Dun

variable {T : Type} [LinearOrderedField T]

/-- `nodes[nn].setTT(t, threadNo)` on the grid. -/
def setNodeTT (g : Grid3Dun T) (nn : Nat) (t : T) (threadNo : Nat) : Grid3Dun T :=
  { g with nodes := g.nodes.set nn ((g.nodes.getD nn default).setTT t threadNo) }

/-- `nodes[nn].getTT(threadNo)` on the grid. -/
def getNodeTT (g : Grid3Dun T) (nn : Nat) (threadNo : Nat) : T :=
  (g.nodes.getD nn default).getTT threadNo

/-- Modelled from the spec: `getCellNo`, a linear scan with the cell-interior
predicate (§4.1), `-1` when no cell contains the point. -/
def getCellNo (B : Grid3DunBase T) (g : Grid3Dun T) (pt : sxyz T) : Nat :=
  match (List.range g.tetrahedra.length).find? (fun n => B.insideTetrahedron g pt n) with
  | some n => n
  | none => T2_max

/-- A point is on a node of the grid. -/
def onNode (E : MathEnv T) (g : Grid3Dun T) (p : sxyz T) : Bool :=
  g.nodes.any (fun n => n.eqPt E p)

/-- A point is inside a cell of the grid. -/
def inSomeCell (B : Grid3DunBase T) (g : Grid3Dun T) (p : sxyz T) : Bool :=
  (List.range g.tetrahedra.length).any (fun nt => B.insideTetrahedron g p nt)

/-- The loop of `checkPts` from index `n` on. -/
def checkPtsFrom (E : MathEnv T) (B : Grid3DunBase T) (g : Grid3Dun T) :
    Nat → List (sxyz T) → Outcome (Grid3Dun T) (Exn T)
  | _, [] => Outcome.ret g
  | n, p :: ps =>
    let found := onNode E g p
    let found := if found = false then inSomeCell B g p else found
    if found = false then
      Outcome.throw g (Exn.pointOutsideMesh3 n p)
    else
      checkPtsFrom E B g (n + 1) ps

/-- Modelled from the spec: `checkPts(points)` of `Grid3Dun` validates that
the points lie inside the mesh and fails with `PointOutsideMesh{index, coord}`
on the first violation (§6, §7); a point is accepted when it is coincident
with a node or inside a cell, as in `Grid2Duc::checkPts`. -/
def checkPts (E : MathEnv T) (B : Grid3DunBase T) (g : Grid3Dun T) (pts : List (sxyz T)) :
    Outcome (Grid3Dun T) (Exn T) :=
  checkPtsFrom E B g 0 pts

/-- Modelled from the spec: `getTraveltime` of `Grid3Dun` returns the slot
value of the node when the receiver is a mesh vertex (§4.8); the interpolation
otherwise is the parameter `interpolate`. -/
def getTraveltime (E : MathEnv T) (B : Grid3DunBase T) (g : Grid3Dun T) (Rx : sxyz T)
    (threadNo : Nat) : T :=
  match g.nodes.find? (fun n => n.eqPt E Rx) with
  | some n => n.getTT threadNo
  | none => B.interpolate g Rx threadNo

/-- A point is outside the mesh: it is coincident with no node and inside no
cell. -/
def outsideMesh (E : MathEnv T) (B : Grid3DunBase T) (g : Grid3Dun T) (p : sxyz T) : Prop :=
  (∀ n ∈ g.nodes, n.eqPt E p = false) ∧
  (∀ nt, nt < g.tetrahedra.length → B.insideTetrahedron g p nt = false)

end Grid3Dun

namespace Grid3Dunfm

variable {T : Type} [LinearOrderedField T]

/-- The statements `narrow_band.push(&nodes[no]); inBand[no] = true;
frozen[no] = true;` of `initBand`. -/
def pushFrozen (st : BandState T) (no : Nat) : BandState T :=
  { st with
    narrow_band := st.narrow_band ++ [no]
    inBand := st.inBand.set no true
    frozen := st.frozen.set no true }

/-- The body `if ( t0[n]+dt < nodes[no].getTT(threadNo) ) { ... }` shared by
the seeding loops of `initBand`; the second component counts `nodes_added`. -/
def seedNode (t0n dt : T) (threadNo : Nat) (no : Nat) (sa : BandState T × Nat) :
    BandState T × Nat :=
  if t0n + dt < sa.1.grid.getNodeTT no threadNo then
    let st := { sa.1 with grid := sa.1.grid.setNodeTT no (t0n + dt) threadNo }
    if st.inBand.getD no false = false then (pushFrozen st no, sa.2 + 1)
    else (st, sa.2)
  else sa

/-- The loops of `initBand` that populate around a source on node `nn` when
`source_radius == 0`. -/
def populateAround (B : Grid3DunBase T) (nn : Nat) (t0n : T) (threadNo : Nat)
    (st : BandState T) : BandState T :=
  ((st.grid.nodes.getD nn default).owners).foldl
    (fun st cellNo =>
      (st.grid.neighbors.getD cellNo []).foldl
        (fun st neibNo =>
          if neibNo = nn then st
          else
            let dt := B.computeDt st.grid (st.grid.nodes.getD nn default)
              (st.grid.nodes.getD neibNo default)
            (seedNode t0n dt threadNo neibNo (st, 0)).1)
        st)
    st

/-- The loop of `initBand` over the nodes within the source radius of the
node `nn`; the second component is `nodes_added`. -/
def withinRadiusOfNode (E : MathEnv T) (B : Grid3DunBase T) (nn : Nat) (t0n : T)
    (threadNo : Nat) (st : BandState T) : BandState T × Nat :=
  (List.range st.grid.nodes.length).foldl
    (fun sa no =>
      if no = nn then sa
      else
        let g := sa.1.grid
        let d := (g.nodes.getD nn default).getDistance E (g.nodes.getD no default)
        if d ≤ g.source_radius then
          let dt := B.computeDt g (g.nodes.getD nn default) (g.nodes.getD no default)
          seedNode t0n dt threadNo no sa
        else sa)
    (st, 0)

/-- The loop of `initBand` over the nodes within the source radius of the
point `Txn`; the second component is `nodes_added`. -/
def withinRadiusOfPoint (E : MathEnv T) (Txn : sxyz T) (t0n : T)
    (threadNo : Nat) (st : BandState T) : BandState T × Nat :=
  (List.range st.grid.nodes.length).foldl
    (fun sa no =>
      let g := sa.1.grid
      let d := (g.nodes.getD no default).getDistancePt E Txn
      if d ≤ g.source_radius then
        let dt := (g.nodes.getD no default).getDistancePt E Txn * (g.nodes.getD no default).slowness
        seedNode t0n dt threadNo no sa
      else sa)
    (st, 0)

/-- The test `if ( nodes_added == 0 ) abort();` of `initBand`. -/
def abortIfNone (sa : BandState T × Nat) : Outcome (BandState T) (Exn T) :=
  if sa.2 = 0 then Outcome.throw sa.1 Exn.aborted else Outcome.ret sa.1

/-- The body of `if ( this->nodes[nn] == Tx[n] )` in `initBand`; `single` is
`Tx.size()==1`. -/
def initBandOnNode (E : MathEnv T) (B : Grid3DunBase T) (single : Bool) (nn : Nat) (t0n : T)
    (threadNo : Nat) (st : BandState T) : Outcome (BandState T) (Exn T) :=
  let st := pushFrozen { st with grid := st.grid.setNodeTT nn t0n threadNo } nn
  if single then
    if st.grid.source_radius = 0 then
      Outcome.ret (populateAround B nn t0n threadNo st)
    else
      abortIfNone (withinRadiusOfNode E B nn t0n threadNo st)
  else Outcome.ret st

/-- The body of `if ( found==false )` in `initBand`. -/
def initBandInCell (E : MathEnv T) (B : Grid3DunBase T) (single : Bool) (Txn : sxyz T)
    (t0n : T) (threadNo : Nat) (st : BandState T) : Outcome (BandState T) (Exn T) :=
  let cellNo := Grid3Dun.getCellNo B st.grid Txn
  if st.grid.source_radius = 0 then
    Outcome.ret ((st.grid.neighbors.getD cellNo []).foldl
      (fun st neibNo =>
        let node := st.grid.nodes.getD neibNo default
        let dt := node.getDistancePt E Txn * node.slowness
        pushFrozen { st with grid := st.grid.setNodeTT neibNo (t0n + dt) threadNo } neibNo)
      st)
  else if single then
    abortIfNone (withinRadiusOfPoint E Txn t0n threadNo st)
  else Outcome.ret st

/-- The body of the loop `for n` of `initBand`. -/
def initBandOne (E : MathEnv T) (B : Grid3DunBase T) (single : Bool) (Txn : sxyz T)
    (t0n : T) (threadNo : Nat) (st : BandState T) : Outcome (BandState T) (Exn T) :=
  match (List.range st.grid.nodes.length).find?
      (fun nn => (st.grid.nodes.getD nn default).eqPt E Txn) with
  | some nn => initBandOnNode E B single nn t0n threadNo st
  | none => initBandInCell E B single Txn t0n threadNo st

/-- The loop `for n` of `initBand` from index `n` on, `Tx` being the sources
not yet seeded. -/
def initBandFrom (E : MathEnv T) (B : Grid3DunBase T) (single : Bool) (t0 : List T)
    (threadNo : Nat) : Nat → List (sxyz T) → BandState T → Outcome (BandState T) (Exn T)
  | _, [], st => Outcome.ret st
  | n, Txn :: rest, st =>
    (initBandOne E B single Txn (t0.getD n 0) threadNo st).andThen
      (initBandFrom E B single t0 threadNo (n + 1) rest)

/-- `Grid3Dunfm::initBand`. -/
def initBand (E : MathEnv T) (B : Grid3DunBase T) (Tx : List (sxyz T)) (t0 : List T)
    (threadNo : Nat) (st : BandState T) : Outcome (BandState T) (Exn T) :=
  initBandFrom E B (decide (Tx.length = 1)) t0 threadNo 0 Tx st

/-- The body of the loop `for k` of `propagate` for the neighbour `neibNo` of
the popped node `source`. -/
def relax (B : Grid3DunBase T) (threadNo : Nat) (source : Nat) (st : BandState T)
    (neibNo : Nat) : BandState T :=
  if neibNo = (st.grid.nodes.getD source default).gridIndex ∨
      st.frozen.getD neibNo false = true then st
  else
    let st := { st with grid := B.localUpdate3D st.grid neibNo threadNo }
    if st.inBand.getD neibNo false = false then
      { st with
        narrow_band := st.narrow_band ++ [neibNo]
        inBand := st.inBand.set neibNo true }
    else st

/-- The node `narrow_band.top()`. -/
def topNode (B : Grid3DunBase T) (threadNo : Nat) (st : BandState T) : Nat :=
  st.narrow_band.getD (B.top st.grid threadNo st.narrow_band) 0

/-- The first statements of the body of the loop of `propagate`: `source =
narrow_band.top(); narrow_band.pop(); inNarrowBand[ source->getGridIndex() ] =
false; frozen[ source->getGridIndex() ] = true;`. -/
def popTop (B : Grid3DunBase T) (threadNo : Nat) (st : BandState T) : BandState T :=
  let source := topNode B threadNo st
  let gridIndex := (st.grid.nodes.getD source default).gridIndex
  { st with
    narrow_band := st.narrow_band.eraseIdx (B.top st.grid threadNo st.narrow_band)
    inBand := st.inBand.set gridIndex false
    frozen := st.frozen.set gridIndex true
    popped := st.popped ++ [source] }

/-- The body of the loop `while ( !narrow_band.empty() )` of `propagate`. -/
def popStep (B : Grid3DunBase T) (threadNo : Nat) (st : BandState T) : BandState T :=
  let source := topNode B threadNo st
  ((st.grid.nodes.getD source default).owners).foldl
    (fun st cellNo => (st.grid.neighbors.getD cellNo []).foldl (relax B threadNo source) st)
    (popTop B threadNo st)

/-- `Grid3Dunfm::propagate`, run for at most `fuel` passes of its loop; `none`
when the band is not empty after `fuel` passes. -/
def propagate (B : Grid3DunBase T) (threadNo : Nat) : Nat → BandState T → Option (BandState T)
  | 0, st => if st.narrow_band = [] then some st else none
  | fuel + 1, st =>
    if st.narrow_band = [] then some st
    else propagate B threadNo fuel (popStep B threadNo st)

/-- What a call of `Grid3Dunfm::raytrace` leaves: the state of the band with
the grid, the output vector and the exception thrown, if any. -/
structure Result (T R : Type) where
  band : BandState T
  traveltimes : R
  exn : Option (Exn T)

/-- `nodes[n].reinit(threadNo)` on the grid. -/
def reinitNode (E : MathEnv T) (g : Grid3Dun T) (n : Nat) (threadNo : Nat) : Grid3Dun T :=
  { g with nodes := g.nodes.set n ((g.nodes.getD n default).reinit E threadNo) }

/-- The loop `for n: nodes[n].reinit(threadNo)` of `raytrace`. -/
def reinitNodes (E : MathEnv T) (g : Grid3Dun T) (threadNo : Nat) : Grid3Dun T :=
  (List.range g.nodes.length).foldl (fun g n => reinitNode E g n threadNo) g

/-- The part of `raytrace` from the reset of the nodes to the end of
`initBand`. -/
def raytraceSeed (E : MathEnv T) (B : Grid3DunBase T) (g : Grid3Dun T) (Tx : List (sxyz T))
    (t0 : List T) (threadNo : Nat) : Outcome (BandState T) (Exn T) :=
  let g1 := reinitNodes E g threadNo
  initBand E B Tx t0 threadNo
    { grid := g1
      narrow_band := []
      inBand := List.replicate g1.nodes.length false
      frozen := List.replicate g1.nodes.length false
      popped := [] }

/-- `Grid3Dunfm::raytrace(Tx, t0, Rx, traveltimes, threadNo)`, one batch of
receivers, with `propagate` run for at most `fuel` passes; `none` when that is
not enough. -/
def raytrace (E : MathEnv T) (B : Grid3DunBase T) (fuel : Nat) (g : Grid3Dun T)
    (Tx : List (sxyz T)) (t0 : List T) (Rx : List (sxyz T)) (traveltimes : List T)
    (threadNo : Nat) : Option (Result T (List T)) :=
  let idle : BandState T := ⟨g, [], [], [], []⟩
  match (Grid3Dun.checkPts E B g Tx).exn with
  | some e => some ⟨idle, traveltimes, some e⟩
  | none =>
    match (Grid3Dun.checkPts E B g Rx).exn with
    | some e => some ⟨idle, traveltimes, some e⟩
    | none =>
      let r := raytraceSeed E B g Tx t0 threadNo
      match r.exn with
      | some e => some ⟨r.state, traveltimes, some e⟩
      | none =>
        match propagate B threadNo fuel r.state with
        | none => none
        | some st =>
          some ⟨st, Rx.map (fun Rxn => Grid3Dun.getTraveltime E B st.grid Rxn threadNo), none⟩

/-- The checks `for n: checkPts(*Rx[n])` of the overload of `raytrace` for
several batches: the first exception thrown, if any. -/
def checkBatches (E : MathEnv T) (B : Grid3DunBase T) (g : Grid3Dun T) :
    List (List (sxyz T)) → Option (Exn T)
  | [] => none
  | Rxn :: rest =>
    match (Grid3Dun.checkPts E B g Rxn).exn with
    | some e => some e
    | none => checkBatches E B g rest

/-- `Grid3Dunfm::raytrace(Tx, t0, Rx, traveltimes, threadNo)`, several batches
of receivers. -/
def raytraceBatches (E : MathEnv T) (B : Grid3DunBase T) (fuel : Nat) (g : Grid3Dun T)
    (Tx : List (sxyz T)) (t0 : List T) (Rx : List (List (sxyz T)))
    (traveltimes : List (List T)) (threadNo : Nat) : Option (Result T (List (List T))) :=
  let idle : BandState T := ⟨g, [], [], [], []⟩
  match (Grid3Dun.checkPts E B g Tx).exn with
  | some e => some ⟨idle, traveltimes, some e⟩
  | none =>
    match checkBatches E B g Rx with
    | some e => some ⟨idle, traveltimes, some e⟩
    | none =>
      let r := raytraceSeed E B g Tx t0 threadNo
      match r.exn with
      | some e => some ⟨r.state, traveltimes, some e⟩
      | none =>
        match propagate B threadNo fuel r.state with
        | none => none
        | some st =>
          some ⟨st,
            Rx.map (fun Rxnr => Rxnr.map
              (fun Rxn => Grid3Dun.getTraveltime E B st.grid Rxn threadNo)),
            none⟩

end Grid3Dunfm

/-! ## Predicates used in the statements -/

section Predicates

variable {T : Type} [LinearOrderedField T]

instance (E : MathEnv T) (g : Grid2Duc T) (p : sxz T) :
    Decidable (Grid2Duc.outsideMesh E g p) := by
  unfold Grid2Duc.outsideMesh
  infer_instance

instance (E : MathEnv T) (B : Grid3DunBase T) (g : Grid3Dun T) (p : sxyz T) :
    Decidable (Grid3Dun.outsideMesh E B g p) := by
  unfold Grid3Dun.outsideMesh
  infer_instance

/-- Node `b` is node `a` but for the value of slot `w`. -/
def Node2Dn.sameButSlot (w : Nat) (a b : Node2Dn T) : Prop :=
  b.x = a.x ∧ b.z = a.z ∧ b.gridIndex = a.gridIndex ∧ b.owners = a.owners ∧
  b.tt.length = a.tt.length ∧ ∀ w', w' ≠ w → b.getTT w' = a.getTT w'

/-- Grid `g'` is grid `g` but for the values of slot `w` of the nodes: the
mesh geometry, the slowness, the virtual-node table and the slots of the other
workers are the same. -/
def Grid2Duc.sameButSlot (w : Nat) (g g' : Grid2Duc T) : Prop :=
  g'.nThreads = g.nThreads ∧ g'.nPrimary = g.nPrimary ∧ g'.slowness = g.slowness ∧
  g'.neighbors = g.neighbors ∧ g'.triangles = g.triangles ∧
  g'.virtualNodes = g.virtualNodes ∧ g'.nodes.length = g.nodes.length ∧
  ∀ n, Node2Dn.sameButSlot w (g.nodes.getD n default) (g'.nodes.getD n default)

/-- Grid `g'` is grid `g` but for slot `w`, no time of slot `w` is larger in
`g'` than in `g`, and the nodes that `frozen` marks are the same in both. -/
def Grid2Duc.descends (w : Nat) (frozen : List Bool) (g g' : Grid2Duc T) : Prop :=
  Grid2Duc.sameButSlot w g g' ∧
  ∀ n, g'.getNodeTT n w ≤ g.getNodeTT n w ∧
    (frozen.getD (g.nodes.getD n default).gridIndex false = true →
      g'.nodes.getD n default = g.nodes.getD n default)

/-- State `st'` of the sweeping loop comes after state `st`: same `frozen`,
same parameters, and the grid descends. -/
def SweepState.follows (w : Nat) (st st' : SweepState T) : Prop :=
  st'.frozen = st.frozen ∧ st'.grid.epsilon = st.grid.epsilon ∧
  st'.grid.nitermax = st.grid.nitermax ∧ st'.grid.sorted = st.grid.sorted ∧
  Grid2Duc.descends w st.frozen st.grid.toGrid2Duc st'.grid.toGrid2Duc

/-- The summed absolute change of the node times of slot `w` from grid `g` to
grid `g'`: the sum over the nodes `n` of `|TT_g[n] − TT_g'[n]|`. -/
def Grid2Duc.totalChange (w : Nat) (g g' : Grid2Duc T) : T :=
  ((List.range g'.nodes.length).map
    (fun n => |g.getNodeTT n w - g'.getNodeTT n w|)).sum

/-- The snapshot `times` of the state holds, for every node, the time of slot
`w` that the node has in the grid of the state. -/
def SweepState.snapshotTaken (w : Nat) (st : SweepState T) : Prop :=
  st.times.length = st.grid.nodes.length ∧
  ∀ n, n < st.grid.nodes.length → st.times.getD n 0 = st.grid.getNodeTT n w

/-- State `st` is left by the sweep of `order` from state `before` and the
update of `error` that follows it: `before` comes after `init` and holds the
snapshot of its own node times, `order` is one of the orderings of `sorted` or
the reverse of one, the sweep from `before` ends normally and its grid is the
grid of `st`, the value of `error` in `st` is the summed absolute change of the
node times from the grid of `before` to the grid of `st`, and `st` holds the
snapshot of its own node times. -/
def SweepState.lastSweep (E : MathEnv T) (w : Nat) (init before : SweepState T)
    (order : List Nat) (st : SweepState T) : Prop :=
  (order ∈ init.grid.sorted ∨ order.reverse ∈ init.grid.sorted) ∧
  SweepState.follows w init before ∧
  before.snapshotTaken w ∧
  (Grid2Duifs.sweep E w order before).exn = none ∧
  st.grid = (Grid2Duifs.sweep E w order before).state.grid ∧
  st.error = Grid2Duc.totalChange w before.grid.toGrid2Duc st.grid.toGrid2Duc ∧
  st.snapshotTaken w

/-- Node `b` is node `a` but for the value of slot `w`. -/
def Node3Dn.sameButSlot (w : Nat) (a b : Node3Dn T) : Prop :=
  b.x = a.x ∧ b.y = a.y ∧ b.z = a.z ∧ b.gridIndex = a.gridIndex ∧ b.owners = a.owners ∧
  b.slowness = a.slowness ∧ b.tt.length = a.tt.length ∧
  ∀ w', w' ≠ w → b.getTT w' = a.getTT w'

/-- Grid `g'` is grid `g` but for the values of slot `w` of the nodes. -/
def Grid3Dun.sameButSlot (w : Nat) (g g' : Grid3Dun T) : Prop :=
  g'.nThreads = g.nThreads ∧ g'.neighbors = g.neighbors ∧ g'.tetrahedra = g.tetrahedra ∧
  g'.source_radius = g.source_radius ∧ g'.nodes.length = g.nodes.length ∧
  ∀ n, Node3Dn.sameButSlot w (g.nodes.getD n default) (g'.nodes.getD n default)

/-- The 3D local update of a vertex writes only slot `threadNo` of that
vertex. -/
def Grid3DunBase.updatesOnlyVertex (B : Grid3DunBase T) : Prop :=
  ∀ (g : Grid3Dun T) (v w : Nat),
    Grid3Dun.sameButSlot w g (B.localUpdate3D g v w) ∧
    ∀ n, n ≠ v → (B.localUpdate3D g v w).nodes.getD n default = g.nodes.getD n default

/-- State `st'` of the band comes after state `st`: the grid is the same but
for slot `w`, the flag vectors keep their sizes, a frozen node stays frozen
and is not written. -/
def BandState.follows (w : Nat) (st st' : BandState T) : Prop :=
  Grid3Dun.sameButSlot w st.grid st'.grid ∧
  st'.inBand.length = st.inBand.length ∧ st'.frozen.length = st.frozen.length ∧
  ∀ v, st.frozen.getD v false = true →
    st'.frozen.getD v false = true ∧
    st'.grid.nodes.getD v default = st.grid.nodes.getD v default

/-- Number of nodes that are neither frozen nor in the band. -/
def BandState.waiting (st : BandState T) : Nat :=
  (List.range st.frozen.length).countP
    (fun v => !(st.frozen.getD v false) && !(st.inBand.getD v false))

/-- State `st'` of the band is state `st` but for slot `w` of the nodes, for
the content of the band and for the values of the flags. -/
def BandState.sameShape (w : Nat) (st st' : BandState T) : Prop :=
  Grid3Dun.sameButSlot w st.grid st'.grid ∧ st'.inBand.length = st.inBand.length ∧
  st'.frozen.length = st.frozen.length ∧ st'.popped = st.popped

/-- The flag vectors have `N` entries and the neighbour lists are `nbrs`. -/
def BandState.sized (N : Nat) (nbrs : List (List Nat)) (st : BandState T) : Prop :=
  st.inBand.length = N ∧ st.frozen.length = N ∧ st.grid.neighbors = nbrs

/-- Bound on the number of passes that `propagate` has still to make: the
length of the band plus the number of nodes neither frozen nor in the band. -/
def BandState.measure (st : BandState T) : Nat :=
  st.narrow_band.length + st.waiting

/-- Every node of the band is a node of the grid and is flagged in `inBand`
and in `frozen`, as `initBand` leaves the band. -/
def BandState.bandFlagged (st : BandState T) : Prop :=
  ∀ v ∈ st.narrow_band, v < st.grid.nodes.length ∧ st.inBand.getD v false = true ∧
    st.frozen.getD v false = true

/-- The state of the band during the seeding: `N` nodes, flag vectors of `N`
entries, neighbour lists `nbrs`, and every node of the band flagged. -/
def BandState.seeded (N : Nat) (nbrs : List (List Nat)) (st : BandState T) : Prop :=
  st.sized N nbrs ∧ st.grid.nodes.length = N ∧ st.bandFlagged

/-- The state of the band during `propagate` when no node was pushed twice:
the band and the record of the popped nodes hold no node twice, every node of
the band is flagged in `inBand`, and every popped node is frozen and out of
the band. -/
def BandState.popsOnce (N : Nat) (nbrs : List (List Nat)) (st : BandState T) : Prop :=
  st.sized N nbrs ∧ st.grid.nodes.length = N ∧
  (∀ v, v < N → (st.grid.nodes.getD v default).gridIndex = v) ∧
  st.narrow_band.Nodup ∧
  (∀ v ∈ st.narrow_band, v < N ∧ st.inBand.getD v false = true) ∧
  st.popped.Nodup ∧
  (∀ v ∈ st.popped, st.frozen.getD v false = true ∧ st.inBand.getD v false = false)

/-- Two outcomes agree: the same exception, if any, and states related by
`R`. -/
def Outcome.agrees {σ ε : Type} (R : σ → σ → Prop) (r1 r2 : Outcome σ ε) : Prop :=
  r2.exn = r1.exn ∧ R r1.state r2.state

/-- Nodes `a` and `b` differ at most in the values of the slots other than
`w`. -/
def Node2Dn.agreesOnSlot (w : Nat) (a b : Node2Dn T) : Prop :=
  b.x = a.x ∧ b.z = a.z ∧ b.gridIndex = a.gridIndex ∧ b.owners = a.owners ∧
  b.tt.length = a.tt.length ∧ b.getTT w = a.getTT w

/-- Grids `g` and `g'` differ at most in the values of the slots other than
`w` of their nodes. -/
def Grid2Duc.agreesOnSlot (w : Nat) (g g' : Grid2Duc T) : Prop :=
  g'.nThreads = g.nThreads ∧ g'.nPrimary = g.nPrimary ∧ g'.slowness = g.slowness ∧
  g'.neighbors = g.neighbors ∧ g'.triangles = g.triangles ∧
  g'.virtualNodes = g.virtualNodes ∧ g'.nodes.length = g.nodes.length ∧
  ∀ n, Node2Dn.agreesOnSlot w (g.nodes.getD n default) (g'.nodes.getD n default)

/-- Grids of the sweeping driver that differ at most in the values of the
slots other than `w` of their nodes. -/
def Grid2Duifs.agreesOnSlot (w : Nat) (g g' : Grid2Duifs T) : Prop :=
  Grid2Duc.agreesOnSlot w g.toGrid2Duc g'.toGrid2Duc ∧ g'.epsilon = g.epsilon ∧
  g'.nitermax = g.nitermax ∧ g'.sorted = g.sorted

/-- States of the sweeping loop that differ at most in the values of the slots
other than `w` of the nodes of their grids. -/
def SweepState.agreesOnSlot (w : Nat) (st st' : SweepState T) : Prop :=
  Grid2Duifs.agreesOnSlot w st.grid st'.grid ∧ st'.frozen = st.frozen ∧
  st'.times = st.times ∧ st'.error = st.error ∧ st'.niter = st.niter ∧
  st'.passes = st.passes ∧ st'.solverCalls = st.solverCalls

/-- Nodes `a` and `b` differ at most in the values of the slots other than
`w`. -/
def Node3Dn.agreesOnSlot (w : Nat) (a b : Node3Dn T) : Prop :=
  b.x = a.x ∧ b.y = a.y ∧ b.z = a.z ∧ b.gridIndex = a.gridIndex ∧ b.owners = a.owners ∧
  b.slowness = a.slowness ∧ b.tt.length = a.tt.length ∧ b.getTT w = a.getTT w

/-- Grids `g` and `g'` differ at most in the values of the slots other than
`w` of their nodes. -/
def Grid3Dun.agreesOnSlot (w : Nat) (g g' : Grid3Dun T) : Prop :=
  g'.nThreads = g.nThreads ∧ g'.neighbors = g.neighbors ∧ g'.tetrahedra = g.tetrahedra ∧
  g'.source_radius = g.source_radius ∧ g'.nodes.length = g.nodes.length ∧
  ∀ n, Node3Dn.agreesOnSlot w (g.nodes.getD n default) (g'.nodes.getD n default)

/-- States of the band that differ at most in the values of the slots other
than `w` of the nodes of their grids. -/
def BandState.agreesOnSlot (w : Nat) (st st' : BandState T) : Prop :=
  Grid3Dun.agreesOnSlot w st.grid st'.grid ∧ st'.narrow_band = st.narrow_band ∧
  st'.inBand = st.inBand ∧ st'.frozen = st.frozen ∧ st'.popped = st.popped

/-- The parameters of the Fast Marching driver read, of the travel times,
slot `w` only: on grids that differ at most in the other slots the
cell-interior test, `computeDt`, the interpolation and the top of the band are
the same, and the local update for worker `w` leaves grids that differ at
most in the other slots. -/
def Grid3DunBase.readsOnlySlot (B : Grid3DunBase T) (w : Nat) : Prop :=
  ∀ (g g' : Grid3Dun T), Grid3Dun.agreesOnSlot w g g' →
    (∀ (p : sxyz T) (nt : Nat), B.insideTetrahedron g' p nt = B.insideTetrahedron g p nt) ∧
    (∀ (a a' b b' : Node3Dn T), Node3Dn.agreesOnSlot w a a' → Node3Dn.agreesOnSlot w b b' →
      B.computeDt g' a' b' = B.computeDt g a b) ∧
    (∀ v : Nat, Grid3Dun.agreesOnSlot w (B.localUpdate3D g v w) (B.localUpdate3D g' v w)) ∧
    (∀ p : sxyz T, B.interpolate g' p w = B.interpolate g p w) ∧
    (∀ band : List Nat, B.top g' w band = B.top g w band)

/-- Steps of the seeding that keep the band flagged and without repetition. -/
def Grid3Dunfm.keepsSeeded (N : Nat) (nbrs : List (List Nat)) (a b : BandState T) : Prop :=
  a.seeded N nbrs → b.seeded N nbrs ∧ (a.narrow_band.Nodup → b.narrow_band.Nodup)

/-- A step of the seeding that leaves node `v` as it is, on grids that are the
grid `g0` but for slot `w`. -/
def Grid2Duifs.leavesNode (w : Nat) (g0 : Grid2Duc T) (v : Nat) (a b : Grid2Duc T) : Prop :=
  Grid2Duc.sameButSlot w g0 a →
    Grid2Duc.sameButSlot w g0 b ∧ b.nodes.getD v default = a.nodes.getD v default

/-- The nodes that the seeding of a source at `q` by `initTx` may write: the
node on which `q` lies and the vertices of its owner cells, or the vertices
of the cell that contains `q`. -/
def Grid2Duifs.seedTargets (E : MathEnv T) (g : Grid2Duc T) (q : sxz T) : List Nat :=
  match (List.range g.nodes.length).find? (fun nn => (g.nodes.getD nn default).eqPt E q) with
  | some nn =>
    nn :: ((g.nodes.getD nn default).owners.flatMap (fun cellNo => g.neighbors.getD cellNo []))
  | none => g.neighbors.getD (Grid2Duc.getCellNo g q) []

/-- A step of the seeding of the band that leaves node `v` as it is and keeps
it frozen. -/
def BandState.keepsNode (v : Nat) (a b : BandState T) : Prop :=
  b.grid.nodes.getD v default = a.grid.nodes.getD v default ∧
  (a.frozen.getD v false = true → b.frozen.getD v false = true)

/-- The cell-interior test reads the geometry of the mesh only, not the
travel-time slots. -/
def Grid3DunBase.insideReadsGeometry (B : Grid3DunBase T) : Prop :=
  ∀ (w : Nat) (g g' : Grid3Dun T), Grid3Dun.sameButSlot w g g' →
    ∀ (p : sxyz T) (nt : Nat), B.insideTetrahedron g' p nt = B.insideTetrahedron g p nt

/-- The nodes that the seeding of a source at `q` by `initBand` may write when
the list has several sources: the node on which `q` lies, or, without a
source radius, the vertices of the cell that contains `q`. -/
def Grid3Dunfm.seedTargets (E : MathEnv T) (B : Grid3DunBase T) (g : Grid3Dun T)
    (q : sxyz T) : List Nat :=
  match (List.range g.nodes.length).find? (fun nn => (g.nodes.getD nn default).eqPt E q) with
  | some nn => [nn]
  | none =>
    if g.source_radius = 0 then g.neighbors.getD (Grid3Dun.getCellNo B g q) [] else []

/-- The owner list of vertex `v` once the cells before `k` have been pushed:
the cells in ascending order, each as often as `v` occurs among its three
vertex indices. -/
def ownersUpTo (tri : List (List Nat)) (k v : Nat) : List Nat :=
  (List.range k).flatMap (fun c => List.replicate ((cellVertices (tri.getD c [])).count v) c)

/-- The record of a cell with vertex indices `i` as `buildGridNodes` fills it:
the lengths of the edges opposite to the vertices and the angles by the law
of cosines. -/
def builtTriangle (E : MathEnv T) (no : List (sxz T)) (i : List Nat) : triangleElemAngle T :=
  let p0 := no.getD (i.getD 0 0) ⟨0, 0⟩
  let p1 := no.getD (i.getD 1 0) ⟨0, 0⟩
  let p2 := no.getD (i.getD 2 0) ⟨0, 0⟩
  let a := p1.getDistance E p2
  let b := p0.getDistance E p2
  let c := p0.getDistance E p1
  ⟨i, [E.acos ((b * b + c * c - a * a) / (2 * b * c)),
       E.acos ((c * c + a * a - b * b) / (2 * a * c)),
       E.acos ((a * a + b * b - c * c) / (2 * a * b))], [a, b, c]⟩

/-- Two grids that differ at most in the map of virtual nodes. -/
def Grid2Duc.sameButVirtual (g g' : Grid2Duc T) : Prop :=
  g'.nodes = g.nodes ∧ g'.triangles = g.triangles ∧ g'.neighbors = g.neighbors ∧
  g'.slowness = g.slowness ∧ g'.nThreads = g.nThreads ∧ g'.nPrimary = g.nPrimary

/-- The grid while `buildGridNodes` runs, the cells before `k` being done. -/
def Grid2Duifs.builtUpTo (E : MathEnv T) (no : List (sxz T)) (tri : List (List Nat))
    (nt k : Nat) (g : Grid2Duc T) : Prop :=
  g.nodes.length = no.length ∧ g.triangles.length = tri.length ∧
  (∀ v, v < no.length → g.nodes.getD v default =
    ⟨(no.getD v ⟨0, 0⟩).x, (no.getD v ⟨0, 0⟩).z, v, ownersUpTo tri k v, List.replicate nt 0⟩) ∧
  (∀ c, c < tri.length → g.triangles.getD c default =
    if c < k then builtTriangle E no (tri.getD c []) else ⟨tri.getD c [], [0, 0, 0], [0, 0, 0]⟩) ∧
  g.slowness = List.replicate tri.length 0 ∧ g.neighbors = List.replicate tri.length [] ∧
  g.virtualNodes = [] ∧ g.nThreads = nt ∧ g.nPrimary = no.length

/-- The neighbour list of every cell holds the three vertices of the cell and
no other node, as `buildGridNeighbors` leaves it. -/
def Grid2Duc.neighborsAreVertices (g : Grid2Duc T) : Prop :=
  ∀ c, c < g.triangles.length →
    (∀ u ∈ g.neighbors.getD c [], u ∈ cellVertices (g.triangles.getD c default).i) ∧
    (∀ u ∈ cellVertices (g.triangles.getD c default).i, u ∈ g.neighbors.getD c [])

/-- The numeric environment of exact real arithmetic: the library functions
are the real functions and `pi` is the real number. -/
def MathEnv.isReal (E : MathEnv ℝ) : Prop :=
  E.sqrt = Real.sqrt ∧ E.sin = Real.sin ∧ E.asin = Real.arcsin ∧ E.acos = Real.arccos ∧
  E.pi = Real.pi

/-- The path ends as claim C16 is amended: it is the single point `Rx`, or
its last point is a source, or its last point coincides with a node of the
mesh and is within the distance `small` of a source. -/
def Grid2Duc.pathEnds (E : MathEnv T) (g : Grid2Duc T) (Tx : List (sxz T)) (Rx : sxz T)
    (r_data : List (sxz T)) : Prop :=
  r_data = [Rx] ∨ (∃ tx ∈ Tx, r_data.getLast? = some tx) ∨
  (∃ p, r_data.getLast? = some p ∧
    (∃ nn, nn < g.nodes.length ∧ (g.nodes.getD nn default).eqPt E p = true) ∧
    ∃ tx ∈ Tx, p.getDistance E tx < E.small)

/-- What a part of the body of the loop leaves, entered with `reachedTx`
false: a failure, with `reachedTx` set and the reset of `r_data` as last
statement, or the current point pushed last. -/
def RayState.leftBy (st' : RayState T) (ops : List (RayOp T)) : Prop :=
  (st'.reachedTx = true ∧ ∃ pre, ops = pre ++ [RayOp.reset]) ∨
  (st'.reachedTx = false ∧ (∃ pre, ops = pre ++ [RayOp.push st'.curr_pt]) ∧
    RayOp.reset ∉ ops)

/-- A state in which `onNode` is set has its current point on a node. -/
def RayState.consistent (E : MathEnv T) (g : Grid2Duc T) (st : RayState T) : Prop :=
  st.onNode = true →
    ((List.range g.nodes.length).find?
      (fun nn => (g.nodes.getD nn default).eqPt E st.curr_pt)).isSome = true

/-- A state of the sweeping loop on which the local solver changes nothing:
for every node pointer that a sweep does not skip, `localSolver` returns
with the grid as it found it. -/
def SweepState.settled (E : MathEnv T) (w : Nat) (st : SweepState T) : Prop :=
  ∀ v, st.frozen.getD (st.grid.nodes.getD v default).gridIndex false = false →
    Grid2Duc.localSolver E st.grid.toGrid2Duc v w = Outcome.ret st.grid.toGrid2Duc

/-- The second state has the grid and the frozen flags of the first, and no
exception is pending. -/
def SweepState.keeps (st : SweepState T) (r : Outcome (SweepState T) (Exn T)) : Prop :=
  r.exn = none ∧ r.state.grid = st.grid ∧ r.state.frozen = st.frozen

/-- Position of the vertex `i[k]` of the triangle `nt`. -/
def Grid2Duc.corner (g : Grid2Duc T) (nt k : Nat) : sxz T :=
  ⟨(g.nodes.getD ((g.triangles.getD nt default).i.getD k 0) default).x,
    (g.nodes.getD ((g.triangles.getD nt default).i.getD k 0) default).z⟩

/-- The numbers `a` and `b` are barycentric coordinates of the point `v` with
respect to the triangle `nt`: with the origin at the first vertex and the axes
along the two edges from it, `v = v0 + a (v1 - v0) + b (v2 - v0)`. -/
def Grid2Duc.barycentric (g : Grid2Duc T) (nt : Nat) (v : sxz T) (a b : T) : Prop :=
  v.x = (g.corner nt 0).x + a * ((g.corner nt 1).x - (g.corner nt 0).x) +
    b * ((g.corner nt 2).x - (g.corner nt 0).x) ∧
  v.z = (g.corner nt 0).z + a * ((g.corner nt 1).z - (g.corner nt 0).z) +
    b * ((g.corner nt 2).z - (g.corner nt 0).z)

/-- The triangle `nt` is not degenerate: its two edges from the first vertex
are not parallel. -/
def Grid2Duc.nondegenerate (g : Grid2Duc T) (nt : Nat) : Prop :=
  det ⟨(g.corner nt 1).x - (g.corner nt 0).x, (g.corner nt 1).z - (g.corner nt 0).z⟩
    ⟨(g.corner nt 2).x - (g.corner nt 0).x, (g.corner nt 2).z - (g.corner nt 0).z⟩ ≠ 0

instance (g : Grid2Duc T) (nt : Nat) (v : sxz T) (a b : T) :
    Decidable (g.barycentric nt v a b) := by
  unfold Grid2Duc.barycentric
  infer_instance

instance (g : Grid2Duc T) (nt : Nat) : Decidable (g.nondegenerate nt) := by
  unfold Grid2Duc.nondegenerate
  infer_instance

/-- The angle at `p` of the triangle `p q r` by the law of cosines. -/
def sxz.angleAt (E : MathEnv T) (p q r : sxz T) : T :=
  E.acos ((p.getDistance E q * p.getDistance E q + p.getDistance E r * p.getDistance E r -
    q.getDistance E r * q.getDistance E r) / (2 * p.getDistance E q * p.getDistance E r))

/-- The time that the body of the loop of `localSolver` computes for the owner
`triangleNo` of `vertexC`, before it compares it with the time of `vertexC`;
`none` when `virtualNodes.at` throws. -/
def Grid2Duc.candidate (E : MathEnv T) (g : Grid2Duc T) (vertexC threadNo triangleNo : Nat) :
    Option T :=
  match Grid2Duc.solverVars E g vertexC triangleNo with
  | Except.error _ => none
  | Except.ok v =>
    some (Grid2Duc.solverTime E v (g.slowness.getD triangleNo 0)
      (g.getNodeTT v.vertexA threadNo) (g.getNodeTT v.vertexB threadNo))

/-- The quantities of the local solver in terms of the positions `no` of the
nodes, for a cell with the vertex indices `i` and `C = i[i0]`: `A` is the
vertex that follows `C` in the vertex list of the cell, `B` the one after,
`a = |BC|`, `b = |AC|`, `c = |AB|`, `alpha` is the angle at `B` and `beta` the
angle at `A`. -/
def solverGeometry (E : MathEnv T) (no : List (sxz T)) (i : List Nat) (i0 : Nat) :
    Grid2Duc.SolverVars T :=
  let pC := no.getD (i.getD i0 0) ⟨0, 0⟩
  let pA := no.getD (i.getD ((i0 + 1) % 3) 0) ⟨0, 0⟩
  let pB := no.getD (i.getD ((i0 + 2) % 3) 0) ⟨0, 0⟩
  { vertexA := i.getD ((i0 + 1) % 3) 0
    vertexB := i.getD ((i0 + 2) % 3) 0
    a := pB.getDistance E pC
    b := pA.getDistance E pC
    c := pA.getDistance E pB
    alpha := pB.angleAt E pA pC
    beta := pA.angleAt E pB pC }

/-- The quantities of the local solver as the specification names them, for
the same names `A`, `B`, `C` of the vertices: `a = |AC|`, `b = |BC|`,
`c = |AB|`, `alpha` the angle at `A` and `beta` the angle at `B`. -/
def solverGeometrySpec (E : MathEnv T) (no : List (sxz T)) (i : List Nat) (i0 : Nat) :
    Grid2Duc.SolverVars T :=
  let pC := no.getD (i.getD i0 0) ⟨0, 0⟩
  let pA := no.getD (i.getD ((i0 + 1) % 3) 0) ⟨0, 0⟩
  let pB := no.getD (i.getD ((i0 + 2) % 3) 0) ⟨0, 0⟩
  { vertexA := i.getD ((i0 + 1) % 3) 0
    vertexB := i.getD ((i0 + 2) % 3) 0
    a := pA.getDistance E pC
    b := pB.getDistance E pC
    c := pA.getDistance E pB
    alpha := pA.angleAt E pB pC
    beta := pB.angleAt E pA pC }

/-- The incidence angle `theta = asin(Delta / (c s))` with `Delta = |TT[B] -
TT[A]|`. -/
def incidence (E : MathEnv T) (sv : Grid2Duc.SolverVars T) (s ttA ttB : T) : T :=
  E.asin (|ttB - ttA| / (sv.c * s))

/-- The condition of the Snell branch: `Delta ≤ c s` and `max(0, alpha - pi/2)
≤ theta ≤ pi/2 - beta`. -/
def snellApplies (E : MathEnv T) (sv : Grid2Duc.SolverVars T) (s ttA ttB : T) : Prop :=
  |ttB - ttA| ≤ sv.c * s ∧ max 0 (sv.alpha - E.pi / 2) ≤ incidence E sv s ttA ttB ∧
    incidence E sv s ttA ttB ≤ E.pi / 2 - sv.beta

instance (E : MathEnv T) (sv : Grid2Duc.SolverVars T) (s ttA ttB : T) :
    Decidable (snellApplies E sv s ttA ttB) := by
  unfold snellApplies
  infer_instance

/-- The candidate of the Snell branch: `½ (a s sin(alpha - theta) + TT[B]) +
½ (b s sin(beta + theta) + TT[A])`. -/
def snellFormula (E : MathEnv T) (sv : Grid2Duc.SolverVars T) (s ttA ttB : T) : T :=
  1 / 2 * (sv.a * s * E.sin (sv.alpha - incidence E sv s ttA ttB) + ttB) +
    1 / 2 * (sv.b * s * E.sin (sv.beta + incidence E sv s ttA ttB) + ttA)

/-- The candidate of the corner fallback: `min(TT[A] + b s, TT[B] + a s)`. -/
def cornerFormula (sv : Grid2Duc.SolverVars T) (s ttA ttB : T) : T :=
  min (ttA + sv.b * s) (ttB + sv.a * s)

/-- The local solver reads, for the owner `c` of `v`, the times of two nodes
other than `v`: `virtualNodes.at` does not throw and neither `vertexA` nor
`vertexB` is `v`. -/
def Grid2Duc.solverReadsOthers (E : MathEnv T) (g : Grid2Duc T) (v c : Nat) : Bool :=
  match Grid2Duc.solverVars E g v c with
  | Except.ok sv => decide (sv.vertexA ≠ v) && decide (sv.vertexB ≠ v)
  | Except.error _ => false

/-- The least of the time `m` and the candidates of the cells `owners` for the
vertex `v`, computed on the grid `g`. -/
def Grid2Duc.leastCandidate (E : MathEnv T) (g : Grid2Duc T) (v w : Nat) (owners : List Nat)
    (m : T) : T :=
  owners.foldl
    (fun m c =>
      match Grid2Duc.candidate E g v w c with
      | some x => min m x
      | none => m)
    m

/-- The parameter `computeDt` reads the geometry and the slownesses only, not
the travel times: on grids and nodes that differ at most in the values of a
slot it returns the same value. -/
def Grid3DunBase.dtReadsGeometry (B : Grid3DunBase T) : Prop :=
  ∀ (w : Nat) (g g' : Grid3Dun T) (a a' b b' : Node3Dn T), Grid3Dun.sameButSlot w g g' →
    Node3Dn.sameButSlot w a a' → Node3Dn.sameButSlot w b b' →
    B.computeDt g' a' b' = B.computeDt g a b

/-- The body of the loop over the neighbours of an owner cell in the part of
`initBand` that populates around a source on node `nn`. -/
def Grid3Dunfm.populateStep (B : Grid3DunBase T) (nn : Nat) (t0n : T) (threadNo : Nat)
    (st : BandState T) (neibNo : Nat) : BandState T :=
  if neibNo = nn then st
  else
    (Grid3Dunfm.seedNode t0n
      (B.computeDt st.grid (st.grid.nodes.getD nn default) (st.grid.nodes.getD neibNo default))
      threadNo neibNo (st, 0)).1

/-- Node `u` as the seeding around a source leaves it when it has walked over
`u`, for the time `T1` and the flag `b1` that `u` had before and the proposed
time `d`: the time is the smaller of `T1` and `d`, and `u` is in the band,
flagged in the band and frozen when `d` was below `T1` and `u` was not flagged
in the band. -/
def Grid3Dunfm.seededAt (w u : Nat) (T1 d : T) (b1 : Bool) (s : BandState T) : Prop :=
  s.grid.getNodeTT u w = min T1 d ∧
  (d < T1 → b1 = false →
    u ∈ s.narrow_band ∧ s.inBand.getD u false = true ∧ s.frozen.getD u false = true)

/-- Node `u` before the seeding around a source has walked over it, or
after. -/
def Grid3Dunfm.seedingAt (w u : Nat) (T1 d : T) (b1 : Bool) (s1 s : BandState T) : Prop :=
  BandState.sameShape w s1 s ∧
  ((s.grid.getNodeTT u w = T1 ∧ s.inBand.getD u false = b1) ∨
    Grid3Dunfm.seededAt w u T1 d b1 s)

/-- The test of `localSolver` that selects the Snell branch, as the code
writes it: `fabs(TT[B] - TT[A]) <= c*s`, and one of the two alternatives
`(0 > alpha - pi2 ? 0 : alpha - pi2) <= theta && theta <= pi2 - beta` and
`alpha - pi2 <= theta && theta <= (0 < pi2 - beta ? 0 : pi2 - beta)`. -/
def snellTest (E : MathEnv T) (sv : Grid2Duc.SolverVars T) (s ttA ttB : T) : Prop :=
  |ttB - ttA| ≤ sv.c * s ∧
    (((if 0 > sv.alpha - E.pi / 2 then 0 else sv.alpha - E.pi / 2) ≤
          E.asin (|ttB - ttA| / (sv.c * s)) ∧
        E.asin (|ttB - ttA| / (sv.c * s)) ≤ E.pi / 2 - sv.beta) ∨
      (sv.alpha - E.pi / 2 ≤ E.asin (|ttB - ttA| / (sv.c * s)) ∧
        E.asin (|ttB - ttA| / (sv.c * s)) ≤
          (if 0 < E.pi / 2 - sv.beta then 0 else E.pi / 2 - sv.beta)))

instance (E : MathEnv T) (sv : Grid2Duc.SolverVars T) (s ttA ttB : T) :
    Decidable (snellTest E sv s ttA ttB) := by
  unfold snellTest
  infer_instance

/-- The local solver with the first alternative of the angle test alone:
`solverTime` without the alternative `alpha - pi2 <= theta && theta <= (0 <
pi2 - beta ? 0 : pi2 - beta)`. -/
def solverTimeFirstAlternative (E : MathEnv T) (v : Grid2Duc.SolverVars T) (s ttA ttB : T) : T :=
  let pi2 := E.pi / 2
  let corner :=
    let t := ttA + v.b * s
    if t < ttB + v.a * s then t else ttB + v.a * s
  if |ttB - ttA| ≤ v.c * s then
    let theta := E.asin (|ttB - ttA| / (v.c * s))
    if (if 0 > v.alpha - pi2 then 0 else v.alpha - pi2) ≤ theta ∧ theta ≤ pi2 - v.beta then
      let h := v.a * E.sin (v.alpha - theta)
      let H := v.b * E.sin (v.beta + theta)
      1 / 2 * (h * s + ttB) + 1 / 2 * (H * s + ttA)
    else corner
  else corner

/-- The angle that the law of cosines gives between the sides of lengths `x`
and `y` of a triangle, opposite to the side of length `z`. -/
def lawOfCosines (E : MathEnv T) (x y z : T) : T :=
  E.acos ((x * x + y * y - z * z) / (2 * x * y))

/-- The record `vn` describes the triangle of the nodes `node1`, `node2` and
`C`: `e[0] = dist(node1, node2)`, `e[1] = dist(C, node2)`, `e[2] = dist(C,
node1)`, and `a[0]`, `a[1]`, `a[2]` are the angles that the law of cosines
gives at `C`, at `node1` and at `node2`. -/
def Grid2Duc.recordConsistent (E : MathEnv T) (g : Grid2Duc T) (C : Nat) (vn : virtualNode T) :
    Prop :=
  vn.e =
    [(g.nodes.getD vn.node1 default).getDistance E (g.nodes.getD vn.node2 default),
     (g.nodes.getD C default).getDistance E (g.nodes.getD vn.node2 default),
     (g.nodes.getD C default).getDistance E (g.nodes.getD vn.node1 default)] ∧
  vn.a =
    [lawOfCosines E ((g.nodes.getD C default).getDistance E (g.nodes.getD vn.node2 default))
       ((g.nodes.getD C default).getDistance E (g.nodes.getD vn.node1 default))
       ((g.nodes.getD vn.node1 default).getDistance E (g.nodes.getD vn.node2 default)),
     lawOfCosines E ((g.nodes.getD C default).getDistance E (g.nodes.getD vn.node1 default))
       ((g.nodes.getD vn.node1 default).getDistance E (g.nodes.getD vn.node2 default))
       ((g.nodes.getD C default).getDistance E (g.nodes.getD vn.node2 default)),
     lawOfCosines E ((g.nodes.getD vn.node1 default).getDistance E (g.nodes.getD vn.node2 default))
       ((g.nodes.getD C default).getDistance E (g.nodes.getD vn.node2 default))
       ((g.nodes.getD C default).getDistance E (g.nodes.getD vn.node1 default))]

/-- Every record of the table of virtual nodes of `g'` belongs to a triangle
with an angle above `pi/2` at one of its vertices and describes the triangle
of its two nodes and that vertex, the nodes and the triangles being those of
`g`. -/
def Grid2Duc.recordsConsistent (E : MathEnv T) (g g' : Grid2Duc T) : Prop :=
  ∀ (t : Nat) (vn : virtualNode T), g'.virtualNodes.lookup t = some vn →
    ∃ n, n < 3 ∧ (g.triangles.getD t default).a.getD n 0 > E.pi / 2 ∧
      Grid2Duc.recordConsistent E g ((g.triangles.getD t default).i.getD n 0) vn

/-- The distance from the point `pC` to the line through `pA` and `pB`: twice
the area of the triangle over the length of the side `AB`. -/
def heightOver (E : MathEnv T) (pA pB pC : sxz T) : T :=
  |(pB.x - pA.x) * (pC.z - pA.z) - (pB.z - pA.z) * (pC.x - pA.x)| / pA.getDistance E pB

/-- The vector from the node `nodeNo` to the node `nb`, before it is
normalised: `v1` and `v2` of the loop over the owners in `getRaypath`. -/
def Grid2Duc.edgeVector (g : Grid2Duc T) (nodeNo nb : Nat) : sxz T :=
  ⟨(g.nodes.getD nb default).x - (g.nodes.getD nodeNo default).x,
    (g.nodes.getD nb default).z - (g.nodes.getD nodeNo default).z⟩

/-- The parameter `top` of the queue of `initOrdering` returns the position of
an element with the least value `v`, as `std::priority_queue::top` does with a
comparator that puts the least value first. -/
def topIsLeast (top : List (Nat × T) → Nat) : Prop :=
  ∀ q : List (Nat × T), q ≠ [] →
    top q < q.length ∧ ∀ s ∈ q, (q.getD (top q) (0, 0)).2 ≤ s.2

/-- The list `l` holds every node of the grid once, in non-decreasing order of
the distance to the point `p` by the metric `m`. -/
def Grid2Duifs.isOrdering (m : Node2Dn T → sxz T → T) (g : Grid2Duifs T) (p : sxz T)
    (l : List Nat) : Prop :=
  l.Perm (List.range g.nodes.length) ∧
  l.Pairwise (fun a b => m (g.nodes.getD a default) p ≤ m (g.nodes.getD b default) p)

end Predicates

/-! ## A mesh for the examples

The rectangle with corners (0,0), (4,0), (4,3), (0,3), cut along the diagonal
from (0,0) to (4,3) into two triangles with sides 3, 4, 5, over the rational
numbers. -/

section Examples

/-- Square root of a natural number, exact on the squares and rounded up
elsewhere. -/
def exampleSqrt (n : Nat) : Nat :=
  ((List.range (n + 1)).find? (fun k => decide (n ≤ k * k))).getD 0

/-- A numeric environment over the rational numbers: the square root is exact
on the squares of rational numbers, the trigonometric functions are cut after
the cubic term of their series, `pi` is 355/113. -/
def exampleEnv : MathEnv ℚ :=
  { sqrt := fun q => (exampleSqrt q.num.toNat : ℚ) / (exampleSqrt q.den : ℚ)
    sin := fun x => x - x * x * x / 6
    asin := fun x => x + x * x * x / 6
    acos := fun x => 355 / 226 - (x + x * x * x / 6)
    pi := 355 / 113
    small := 1 / 100000
    tmax := 1000000000 }

/-- The rectangle mesh as a `Grid2Duifs` with two worker slots, slowness 1,
the orderings of `initOrdering` for the reference point (0,0), `epsilon =
1/1000` and `nitermax = 10`. -/
def rectangle : Grid2Duifs ℚ :=
  { nThreads := 2
    nPrimary := 4
    nodes :=
      [⟨0, 0, 0, [0, 1], [0, 0]⟩, ⟨4, 0, 1, [0], [0, 0]⟩,
       ⟨4, 3, 2, [0, 1], [0, 0]⟩, ⟨0, 3, 3, [1], [0, 0]⟩]
    slowness := [1, 1]
    neighbors := [[0, 1, 2], [0, 2, 3]]
    triangles :=
      [⟨[0, 1, 2], [1287 / 2000, 355 / 226, 9273 / 10000], [3, 5, 4]⟩,
       ⟨[0, 2, 3], [9273 / 10000, 1287 / 2000, 355 / 226], [4, 3, 5]⟩]
    virtualNodes := []
    epsilon := 1 / 1000
    nitermax := 10
    sorted := [[0, 3, 1, 2]] }

/-- The rectangle mesh while another worker uses slot 1: slot 1 of every node
holds 7. -/
def rectangleInUse : Grid2Duifs ℚ :=
  { rectangle with
    nodes :=
      [⟨0, 0, 0, [0, 1], [0, 7]⟩, ⟨4, 0, 1, [0], [0, 7]⟩,
       ⟨4, 3, 2, [0, 1], [0, 7]⟩, ⟨0, 3, 3, [1], [0, 7]⟩] }

/-- Position of the first element of `band` with the least `key`. -/
def exampleMinPos (key : Nat → ℚ) : List Nat → Nat
  | [] => 0
  | [_] => 0
  | a :: b :: rest =>
    let p := exampleMinPos key (b :: rest)
    if key ((b :: rest).getD p 0) < key a then p + 1 else 0

/-- Determinant of three 3D vectors. -/
def exampleDet3 (u v w : sxyz ℚ) : ℚ :=
  u.x * (v.y * w.z - v.z * w.y) - u.y * (v.x * w.z - v.z * w.x)
    + u.z * (v.x * w.y - v.y * w.x)

/-- Orientation of the tetrahedron `(a, b, c, d)`. -/
def exampleOrient (a b c d : sxyz ℚ) : ℚ :=
  exampleDet3 ⟨b.x - a.x, b.y - a.y, b.z - a.z⟩ ⟨c.x - a.x, c.y - a.y, c.z - a.z⟩
    ⟨d.x - a.x, d.y - a.y, d.z - a.z⟩

/-- A cell-interior predicate: the point is on the inner side of the four
faces of the tetrahedron. -/
def exampleInside (g : Grid3Dun ℚ) (p : sxyz ℚ) (nt : Nat) : Bool :=
  let tet := g.tetrahedra.getD nt []
  let pt : Nat → sxyz ℚ := fun k =>
    let n := g.nodes.getD (tet.getD k 0) default
    ⟨n.x, n.y, n.z⟩
  let d := exampleOrient (pt 0) (pt 1) (pt 2) (pt 3)
  let same : ℚ → Bool := fun x => decide (0 ≤ d * x)
  same (exampleOrient p (pt 1) (pt 2) (pt 3)) && same (exampleOrient (pt 0) p (pt 2) (pt 3)) &&
    same (exampleOrient (pt 0) (pt 1) p (pt 3)) && same (exampleOrient (pt 0) (pt 1) (pt 2) p)

/-- A time between two nodes: the mean of their slownesses times their
distance. -/
def exampleComputeDt (g : Grid3Dun ℚ) (source node : Node3Dn ℚ) : ℚ :=
  (node.slowness + source.slowness) / 2 * source.getDistance exampleEnv node

/-- A local update: the time of the vertex is lowered to the least time
reached along an edge from another vertex of an owner cell. -/
def exampleUpdate (g : Grid3Dun ℚ) (vertex : Nat) (threadNo : Nat) : Grid3Dun ℚ :=
  ((g.nodes.getD vertex default).owners).foldl
    (fun g cellNo =>
      (g.neighbors.getD cellNo []).foldl
        (fun g u =>
          if u = vertex then g
          else
            let t := g.getNodeTT u threadNo
              + exampleComputeDt g (g.nodes.getD u default) (g.nodes.getD vertex default)
            if t < g.getNodeTT vertex threadNo then g.setNodeTT vertex t threadNo else g)
        g)
    g

/-- A time for a receiver inside a cell: the least time through a vertex of
the cell (§4.8). -/
def exampleInterpolate (g : Grid3Dun ℚ) (Rx : sxyz ℚ) (threadNo : Nat) : ℚ :=
  let cellNo := (List.range g.tetrahedra.length).find? (fun n => exampleInside g Rx n)
  let nb := g.neighbors.getD (cellNo.getD 0) []
  let time : Nat → ℚ := fun u =>
    g.getNodeTT u threadNo
      + (g.nodes.getD u default).getDistancePt exampleEnv Rx * (g.nodes.getD u default).slowness
  (nb.drop 1).foldl (fun t u => if time u < t then time u else t) (time (nb.getD 0 0))

/-- Parameters of the Fast Marching driver for the examples; the top of the
band is its first element with the least time. -/
def exampleBase : Grid3DunBase ℚ :=
  { insideTetrahedron := exampleInside
    computeDt := exampleComputeDt
    localUpdate3D := exampleUpdate
    interpolate := exampleInterpolate
    top := fun g threadNo band =>
      Nat.min (exampleMinPos (fun v => g.getNodeTT v threadNo) band) (band.length - 1)
    top_lt := fun _ _ _ h =>
      Nat.lt_of_le_of_lt (Nat.min_le_right _ _)
        (Nat.sub_lt (List.length_pos.mpr h) Nat.one_pos) }

/-- The tetrahedron with vertices (0,0,0), (1,0,0), (0,1,0), (0,0,1) as a
mesh of one cell, with two worker slots, slowness 1 at the nodes and no
source radius. -/
def tetrahedron : Grid3Dun ℚ :=
  { nThreads := 2
    nodes :=
      [⟨0, 0, 0, 0, [0], [0, 0], 1⟩, ⟨1, 0, 0, 1, [0], [0, 0], 1⟩,
       ⟨0, 1, 0, 2, [0], [0, 0], 1⟩, ⟨0, 0, 1, 3, [0], [0, 0], 1⟩]
    neighbors := [[0, 1, 2, 3]]
    tetrahedra := [[0, 1, 2, 3]]
    source_radius := 0 }

/-- The tetrahedron mesh while another worker uses slot 1: slot 1 of every
node holds 7. -/
def tetrahedronInUse : Grid3Dun ℚ :=
  { tetrahedron with
    nodes :=
      [⟨0, 0, 0, 0, [0], [0, 7], 1⟩, ⟨1, 0, 0, 1, [0], [0, 7], 1⟩,
       ⟨0, 1, 0, 2, [0], [0, 7], 1⟩, ⟨0, 0, 1, 3, [0], [0, 7], 1⟩] }

/-- The corners of the rectangle of the examples. -/
def rectangleNodes (T : Type) [LinearOrderedField T] : List (sxz T) :=
  [⟨0, 0⟩, ⟨4, 0⟩, ⟨4, 3⟩, ⟨0, 3⟩]

/-- The two cells of the rectangle of the examples. -/
def rectangleCells : List (List Nat) := [[0, 1, 2], [0, 2, 3]]

/-- The corners of a kite: the triangles (0,0), (4,3), (-4,3) and (4,3),
(-4,3), (0,6) have sides 5, 5, 8 and are obtuse at (0,0) and at (0,6). -/
def kiteNodes (T : Type) [LinearOrderedField T] : List (sxz T) :=
  [⟨0, 0⟩, ⟨4, 3⟩, ⟨-4, 3⟩, ⟨0, 6⟩]

/-- The two cells of the kite; they share the edge between nodes 1 and 2. -/
def kiteCells : List (List Nat) := [[0, 1, 2], [1, 2, 3]]

/-- A numeric environment with a coarse tolerance: `small` is 1/100. -/
def coarseEnv : MathEnv ℚ := { exampleEnv with small := 1 / 100 }

/-- The rectangle mesh with the times 4, 0, 3, 5 in slot 0 of its nodes: the
least time is at the node (4,0). -/
def slope : Grid2Duc ℚ :=
  ((rectangle.toGrid2Duc.setNodeTT 0 4 0).setNodeTT 2 3 0).setNodeTT 3 5 0

/-- The nodes of a fan of four cells around the node (0,0). -/
def fanNodes (T : Type) [LinearOrderedField T] : List (sxz T) :=
  [⟨0, 0⟩, ⟨1, 0⟩, ⟨0, 1⟩, ⟨-1, 0⟩, ⟨0, -1⟩]

/-- The four cells of the fan. -/
def fanCells : List (List Nat) := [[0, 1, 2], [0, 2, 3], [0, 3, 4], [0, 4, 1]]

/-- The fan as the constructor builds it, with the times 0, 1, 1, 2, 2 in
slot 0 of its nodes: the node (0,0) is a local minimum of the field. -/
def fan : Grid2Duc ℚ :=
  ((((Grid2Duifs.new exampleEnv (fanNodes ℚ) fanCells (1 / 1000) 10 1
    true).toGrid2Duc.setNodeTT 1 1 0).setNodeTT 2 1 0).setNodeTT 3 2 0).setNodeTT 4 2 0

/-- The corners of the unit square of scenario S1. -/
def squareNodes (T : Type) [LinearOrderedField T] : List (sxz T) :=
  [⟨0, 0⟩, ⟨1, 0⟩, ⟨1, 1⟩, ⟨0, 1⟩]

/-- The unit square cut along the diagonal from (0,0) to (1,1). -/
def squareCells : List (List Nat) := [[0, 1, 2], [0, 2, 3]]

/-- The unit square cut along the diagonal from (1,0) to (0,1). -/
def squareCellsAcross : List (List Nat) := [[0, 1, 3], [1, 2, 3]]

/-- The grid of scenario S1: the constructor on the unit square with the cells
`cells`, then `setSlowness(1)`, then orderings `sorted` of the nodes, which
`initOrdering` computes from the reference points. -/
def unitSquare {T : Type} [LinearOrderedField T] (E : MathEnv T) (cells : List (List Nat)) (eps : T) (maxit : Int) (nt : Nat)
    (procObtuse : Bool) (sorted : List (List Nat)) : Grid2Duifs T :=
  let g := Grid2Duifs.new E (squareNodes T) cells eps maxit nt procObtuse
  { g with toGrid2Duc := g.toGrid2Duc.setSlowness 1, sorted := sorted }

/-- The kite with its two cells in the other order. -/
def kiteCellsSwapped : List (List Nat) := [[1, 2, 3], [0, 1, 2]]

/-- One cell on the first three corners of the kite: a mesh of one triangle,
obtuse at (0,0), whose three edges are on the boundary. -/
def wedgeCells : List (List Nat) := [[0, 1, 2]]

/-- The rectangle as the constructor builds it, with slowness 1 and the times
5/2, 100, 0, 0 in slot 0 of its nodes. -/
def ramp : Grid2Duc ℚ :=
  (((Grid2Duifs.new exampleEnv (rectangleNodes ℚ) rectangleCells (1 / 1000) 10 1
    true).toGrid2Duc.setSlowness 1).setNodeTT 0 (5 / 2) 0).setNodeTT 1 100 0

/-- The state with which `raytrace` calls `initBand` on the tetrahedron for
worker 0: the times of slot 0 reset, an empty band, no flag set. -/
def tetrahedronStart : BandState ℚ :=
  { grid := Grid3Dunfm.reinitNodes exampleEnv tetrahedron 0
    narrow_band := []
    inBand := List.replicate 4 false
    frozen := List.replicate 4 false
    popped := [] }

/-- The kite as the constructor builds it with `processObtuse`, with slowness
1, the time 1000 in slot 0 of the node (0,0), the time 100 in slot 0 of the
node (0,6) and the time 0 in slot 0 of the nodes (4,3) and (-4,3). -/
def kiteWave : Grid2Duc ℚ :=
  (((Grid2Duifs.new exampleEnv (kiteNodes ℚ) kiteCells (1 / 1000) 10 1
    true).toGrid2Duc.setSlowness 1).setNodeTT 0 1000 0).setNodeTT 3 100 0

/-- A queue for the examples: `top` is the first element with the least
value. -/
def exampleTop : List (Nat × ℚ) → Nat
  | [] => 0
  | [_] => 0
  | a :: b :: rest =>
    let p := exampleTop (b :: rest)
    if ((b :: rest).getD p (0, 0)).2 < a.2 then p + 1 else 0

end Examples

/-! ## Theorems -/

section ListLemmas

variable {α : Type}

/-- A loop `for n < k: l[n] = f n` rewrites the first `k` entries of `l`. -/
theorem foldl_set_range (f : Nat → α) (l : List α) (k : Nat) (hk : k ≤ l.length) :
    (List.range k).foldl (fun sl n => sl.set n (f n)) l
      = (List.range k).map f ++ l.drop k := by
  induction k with
  | zero => simp
  | succ k ih =>
    have hk' : k < l.length := hk
    rw [List.range_succ, List.foldl_append, ih (Nat.le_of_lt hk')]
    simp only [List.foldl_cons, List.foldl_nil, List.map_append, List.map_cons, List.map_nil]
    rw [List.set_append]
    simp only [List.length_map, List.length_range, Nat.lt_irrefl, if_false, Nat.sub_self]
    rw [List.drop_eq_getElem_cons hk']
    simp only [List.set_cons_zero, List.append_assoc, List.cons_append, List.nil_append]

/-- A loop over all indices of `l` replaces `l` by the values written. -/
theorem foldl_set_range_all (f : Nat → α) (l : List α) :
    (List.range l.length).foldl (fun sl n => sl.set n (f n)) l
      = (List.range l.length).map f := by
  rw [foldl_set_range f l l.length (Nat.le_refl _)]
  simp

end ListLemmas

namespace Grid2Duc

variable {T : Type} [LinearOrderedField T]

theorem outsideMesh_iff (E : MathEnv T) (g : Grid2Duc T) (p : sxz T) :
    outsideMesh E g p ↔ (onNode E g p = false ∧ inSomeTriangle g p = false) := by
  unfold outsideMesh onNode inSomeTriangle
  constructor
  · rintro ⟨h1, h2⟩
    refine ⟨?_, ?_⟩
    · rw [Bool.eq_false_iff]
      intro h
      obtain ⟨n, hn, hp⟩ := List.any_eq_true.mp h
      rw [h1 n hn] at hp
      exact Bool.noConfusion hp
    · rw [Bool.eq_false_iff]
      intro h
      obtain ⟨n, hn, hp⟩ := List.any_eq_true.mp h
      rw [h2 n (List.mem_range.mp hn)] at hp
      exact Bool.noConfusion hp
  · rintro ⟨h1, h2⟩
    refine ⟨?_, ?_⟩
    · intro n hn
      rw [Bool.eq_false_iff]
      intro hp
      rw [Bool.eq_false_iff] at h1
      exact h1 (List.any_eq_true.mpr ⟨n, hn, hp⟩)
    · intro nt hnt
      rw [Bool.eq_false_iff]
      intro hp
      rw [Bool.eq_false_iff] at h2
      exact h2 (List.any_eq_true.mpr ⟨nt, List.mem_range.mpr hnt, hp⟩)

/-- The body of the loop of `checkPts` rejects exactly the points outside the
mesh. -/
theorem checkPtsFrom_cons (E : MathEnv T) (g : Grid2Duc T) (n : Nat) (p : sxz T)
    (ps : List (sxz T)) :
    checkPtsFrom E g n (p :: ps)
      = if onNode E g p = false ∧ inSomeTriangle g p = false then
          Outcome.throw g (Exn.pointOutsideMesh n p)
        else checkPtsFrom E g (n + 1) ps := by
  rw [checkPtsFrom]
  cases h1 : onNode E g p <;> cases h2 : inSomeTriangle g p <;> simp

theorem checkPtsFrom_state (E : MathEnv T) (g : Grid2Duc T) (pts : List (sxz T)) :
    ∀ n, (checkPtsFrom E g n pts).state = g := by
  induction pts with
  | nil => intro n; rfl
  | cons p ps ih =>
    intro n
    rw [checkPtsFrom_cons]
    split
    · rfl
    · exact ih (n + 1)

theorem checkPtsFrom_exn (E : MathEnv T) (g : Grid2Duc T) (pts : List (sxz T)) :
    ∀ n e, (checkPtsFrom E g n pts).exn = some e →
      ∃ k, ∃ h : k < pts.length, e = Exn.pointOutsideMesh (n + k) (pts.get ⟨k, h⟩) ∧
        outsideMesh E g (pts.get ⟨k, h⟩) ∧
        ∀ m, ∀ hm : m < pts.length, m < k → ¬ outsideMesh E g (pts.get ⟨m, hm⟩) := by
  induction pts with
  | nil => intro n e h; simp [checkPtsFrom, Outcome.ret] at h
  | cons p ps ih =>
    intro n e h
    rw [checkPtsFrom_cons] at h
    split at h
    · rename_i hout
      refine ⟨0, Nat.succ_pos _, ?_, ?_, ?_⟩
      · simp only [Outcome.throw, Option.some.injEq] at h
        simpa using h.symm
      · exact (outsideMesh_iff E g p).mpr hout
      · intro m _ hm; exact absurd hm (Nat.not_lt_zero m)
    · rename_i hin
      obtain ⟨k, hk, he, hout, hmin⟩ := ih (n + 1) e h
      refine ⟨k + 1, Nat.succ_lt_succ hk, ?_, ?_, ?_⟩
      · rw [he]; simp [Nat.add_assoc, Nat.add_comm 1 k]
      · simpa using hout
      · intro m hm hmk
        cases m with
        | zero => simpa using fun h => hin ((outsideMesh_iff E g p).mp h)
        | succ m =>
          have := hmin m (Nat.lt_of_succ_lt_succ hm) (Nat.lt_of_succ_lt_succ hmk)
          simpa using this

theorem checkPtsFrom_ok (E : MathEnv T) (g : Grid2Duc T) (pts : List (sxz T)) :
    ∀ n, (checkPtsFrom E g n pts).exn = none →
      ∀ p ∈ pts, ¬ outsideMesh E g p := by
  induction pts with
  | nil => intro n _ p hp; simp at hp
  | cons q qs ih =>
    intro n h p hp
    rw [checkPtsFrom_cons] at h
    split at h
    · simp [Outcome.throw] at h
    · rename_i hin
      rcases List.mem_cons.mp hp with rfl | hp
      · exact fun hout => hin ((outsideMesh_iff E g p).mp hout)
      · exact ih (n + 1) h p hp

/-- `checkPts` throws exactly when a point of the list is outside the mesh. -/
theorem checkPts_exn_iff (E : MathEnv T) (g : Grid2Duc T) (pts : List (sxz T)) :
    (checkPts E g pts).exn ≠ none ↔ ∃ p ∈ pts, outsideMesh E g p := by
  constructor
  · intro h
    cases he : (checkPts E g pts).exn with
    | none => exact absurd he h
    | some e =>
      obtain ⟨k, hk, _, hout, _⟩ := checkPtsFrom_exn E g pts 0 e he
      exact ⟨pts.get ⟨k, hk⟩, List.get_mem pts k hk, hout⟩
  · rintro ⟨p, hp, hout⟩ hnone
    exact checkPtsFrom_ok E g pts 0 hnone p hp hout

/-- Claim C1. `checkPts` throws if and only if some point of the list is
outside the mesh (coincident with no node and inside no triangle, per
`insideTriangle`); the exception then carries the smallest index of such a
point, with its coordinates; and `checkPts` leaves the grid as it was. -/
theorem checkPts_contract (E : MathEnv T) (g : Grid2Duc T) (pts : List (sxz T)) :
    ((checkPts E g pts).exn ≠ none ↔ ∃ p ∈ pts, outsideMesh E g p) ∧
    (∀ e, (checkPts E g pts).exn = some e →
      ∃ k, ∃ h : k < pts.length, e = Exn.pointOutsideMesh k (pts.get ⟨k, h⟩) ∧
        outsideMesh E g (pts.get ⟨k, h⟩) ∧
        ∀ m, ∀ hm : m < pts.length, m < k → ¬ outsideMesh E g (pts.get ⟨m, hm⟩)) ∧
    (checkPts E g pts).state = g := by
  refine ⟨checkPts_exn_iff E g pts, ?_, checkPtsFrom_state E g pts 0⟩
  · intro e he
    obtain ⟨k, hk, hek, hout, hmin⟩ := checkPtsFrom_exn E g pts 0 e he
    exact ⟨k, hk, by simpa using hek, hout, hmin⟩

/-- Claim C3. With `slowness` sized to the number of cells (as the constructor
leaves it), the vector and the pointer overloads of `setSlowness` throw a
length error if and only if the given length differs from the number of cells;
when they throw, the grid is unchanged; when they return, `slowness[n] = s[n]`
for every cell `n`. The scalar overload sets the slowness of every cell to `s`. -/
theorem setSlowness_contract (g : Grid2Duc T)
    (hinv : g.slowness.length = g.getNumberOfCells) :
    (∀ s : List T,
      ((g.setSlownessVec s).exn = some Exn.lengthError ↔ s.length ≠ g.getNumberOfCells) ∧
      ((g.setSlownessVec s).exn = none ↔ s.length = g.getNumberOfCells) ∧
      (s.length ≠ g.getNumberOfCells → (g.setSlownessVec s).state = g) ∧
      (s.length = g.getNumberOfCells →
        (g.setSlownessVec s).state.slowness.length = g.getNumberOfCells ∧
        ∀ n, n < g.getNumberOfCells →
          (g.setSlownessVec s).state.slowness.getD n 0 = s.getD n 0)) ∧
    (∀ (s : Nat → T) (ns : Nat),
      ((g.setSlownessPtr s ns).exn = some Exn.lengthError ↔ ns ≠ g.getNumberOfCells) ∧
      ((g.setSlownessPtr s ns).exn = none ↔ ns = g.getNumberOfCells) ∧
      (ns ≠ g.getNumberOfCells → (g.setSlownessPtr s ns).state = g) ∧
      (ns = g.getNumberOfCells →
        (g.setSlownessPtr s ns).state.slowness.length = g.getNumberOfCells ∧
        ∀ n, n < g.getNumberOfCells →
          (g.setSlownessPtr s ns).state.slowness.getD n 0 = s n)) ∧
    (∀ s : T,
      (g.setSlowness s).slowness.length = g.getNumberOfCells ∧
      ∀ n, n < g.getNumberOfCells → (g.setSlowness s).slowness.getD n 0 = s) := by
  refine ⟨?_, ?_, ?_⟩
  · intro s
    by_cases h : g.slowness.length = s.length
    · have hs : s.length = g.getNumberOfCells := by rw [← h, hinv]
      simp only [setSlownessVec, h, ne_eq, not_true_eq_false, if_false, Outcome.ret, hs,
        iff_true, true_implies, false_implies, true_and, reduceCtorEq]
      rw [← hs, ← h, foldl_set_range_all]
      refine ⟨by simp, ?_⟩
      intro n hn
      simp [List.getD_eq_getElem?_getD, hn]
    · have hs : s.length ≠ g.getNumberOfCells := by
        rw [← hinv]; exact fun h' => h h'.symm
      simp [setSlownessVec, h, Outcome.throw, hs]
  · intro s ns
    by_cases h : g.slowness.length = ns
    · have hs : ns = g.getNumberOfCells := by rw [← h, hinv]
      simp only [setSlownessPtr, h, ne_eq, not_true_eq_false, if_false, Outcome.ret, hs,
        iff_true, true_implies, false_implies, true_and, reduceCtorEq]
      rw [← hs, ← h, foldl_set_range_all]
      refine ⟨by simp, ?_⟩
      intro n hn
      simp [List.getD_eq_getElem?_getD, hn]
    · have hs : ns ≠ g.getNumberOfCells := by
        rw [← hinv]; exact fun h' => h h'.symm
      simp [setSlownessPtr, h, Outcome.throw, hs]
  · intro s
    simp only [setSlowness]
    rw [foldl_set_range_all, ← hinv]
    refine ⟨by simp, ?_⟩
    intro n hn
    simp [List.getD_eq_getElem?_getD, hn]

/-- The contract of `setSlowness` (claim C3) on the one-triangle grid made by
the constructor: a vector of two values is refused, a vector of one value is
stored. -/
theorem setSlowness_contract_witness :
    (((Grid2Duc.new [⟨0, 0⟩, ⟨1, 0⟩, ⟨0, 1⟩] [[0, 1, 2]] 1 : Grid2Duc ℚ).setSlownessVec
        [2, 3]).exn = some Exn.lengthError ↔
      ([2, 3] : List ℚ).length ≠
        (Grid2Duc.new [⟨0, 0⟩, ⟨1, 0⟩, ⟨0, 1⟩] [[0, 1, 2]] 1 : Grid2Duc ℚ).getNumberOfCells) ∧
    ((Grid2Duc.new [⟨0, 0⟩, ⟨1, 0⟩, ⟨0, 1⟩] [[0, 1, 2]] 1 : Grid2Duc ℚ).setSlownessVec
        [2]).state.slowness.getD 0 0 = ([2] : List ℚ).getD 0 0 :=
  ⟨((setSlowness_contract
      (Grid2Duc.new [⟨0, 0⟩, ⟨1, 0⟩, ⟨0, 1⟩] [[0, 1, 2]] 1 : Grid2Duc ℚ) (by decide)).1
        [2, 3]).1,
    (((setSlowness_contract
      (Grid2Duc.new [⟨0, 0⟩, ⟨1, 0⟩, ⟨0, 1⟩] [[0, 1, 2]] 1 : Grid2Duc ℚ) (by decide)).1
        [2]).2.2.2 (by decide)).2 0 (by decide)⟩

end Grid2Duc

/-! ### Frame and descent of the node times in `Grid2Duc` -/

section Frame2D

variable {T : Type} [LinearOrderedField T]

theorem Node2Dn.node_sameButSlot_refl (w : Nat) (a : Node2Dn T) : Node2Dn.sameButSlot w a a :=
  ⟨rfl, rfl, rfl, rfl, rfl, fun _ _ => rfl⟩

theorem Node2Dn.node_sameButSlot_trans {w : Nat} {a b c : Node2Dn T}
    (h1 : Node2Dn.sameButSlot w a b) (h2 : Node2Dn.sameButSlot w b c) :
    Node2Dn.sameButSlot w a c := by
  obtain ⟨hl1, hl2, hl3, hl4, hl5, hl6⟩ := h1
  obtain ⟨hr1, hr2, hr3, hr4, hr5, hr6⟩ := h2
  exact ⟨hr1.trans hl1, hr2.trans hl2, hr3.trans hl3, hr4.trans hl4, hr5.trans hl5,
    fun w' h => (hr6 w' h).trans (hl6 w' h)⟩

theorem Node2Dn.getTT_setTT_ne (a : Node2Dn T) (t : T) {w w' : Nat} (h : w' ≠ w) :
    (a.setTT t w).getTT w' = a.getTT w' := by
  simp [Node2Dn.getTT, Node2Dn.setTT, List.getD_eq_getElem?_getD,
    List.getElem?_set_ne (Ne.symm h)]

theorem Node2Dn.getTT_setTT_self (a : Node2Dn T) (t : T) {w : Nat} (h : w < a.tt.length) :
    (a.setTT t w).getTT w = t := by
  simp [Node2Dn.getTT, Node2Dn.setTT, List.getD_eq_getElem?_getD, h]

theorem Node2Dn.setTT_of_le (a : Node2Dn T) (t : T) {w : Nat} (h : a.tt.length ≤ w) :
    a.setTT t w = a := by
  simp [Node2Dn.setTT, List.set_eq_of_length_le h]

theorem Node2Dn.node_sameButSlot_setTT (w : Nat) (a : Node2Dn T) (t : T) :
    Node2Dn.sameButSlot w a (a.setTT t w) :=
  ⟨rfl, rfl, rfl, rfl, by simp [Node2Dn.setTT], fun _ h => Node2Dn.getTT_setTT_ne a t h⟩

/-- Writing a time that is not larger does not raise the time of the slot. -/
theorem Node2Dn.getTT_setTT_le (a : Node2Dn T) (t : T) (w : Nat) (h : t ≤ a.getTT w) :
    (a.setTT t w).getTT w ≤ a.getTT w := by
  by_cases hw : w < a.tt.length
  · rw [Node2Dn.getTT_setTT_self a t hw]; exact h
  · rw [Node2Dn.setTT_of_le a t (Nat.le_of_not_lt hw)]

namespace Grid2Duc

theorem sameButSlot_refl (w : Nat) (g : Grid2Duc T) : sameButSlot w g g :=
  ⟨rfl, rfl, rfl, rfl, rfl, rfl, rfl, fun _ => Node2Dn.node_sameButSlot_refl w _⟩

theorem sameButSlot_trans {w : Nat} {g1 g2 g3 : Grid2Duc T}
    (h1 : sameButSlot w g1 g2) (h2 : sameButSlot w g2 g3) : sameButSlot w g1 g3 := by
  obtain ⟨hl1, hl2, hl3, hl4, hl5, hl6, hl7, hl8⟩ := h1
  obtain ⟨hr1, hr2, hr3, hr4, hr5, hr6, hr7, hr8⟩ := h2
  exact ⟨hr1.trans hl1, hr2.trans hl2, hr3.trans hl3, hr4.trans hl4, hr5.trans hl5, hr6.trans hl6,
    hr7.trans hl7, fun n => Node2Dn.node_sameButSlot_trans (hl8 n) (hr8 n)⟩

/-- The node `n` of the grid after `nodes[nn].setTT(t, w)`. -/
theorem getD_setNodeTT (g : Grid2Duc T) (nn : Nat) (t : T) (w n : Nat) :
    (g.setNodeTT nn t w).nodes.getD n default
      = if n = nn then (g.nodes.getD n default).setTT t w else g.nodes.getD n default := by
  unfold setNodeTT
  by_cases h : n = nn
  · subst h
    simp only [if_true]
    by_cases hn : n < g.nodes.length
    · simp [List.getD_eq_getElem?_getD, hn]
    · rw [List.set_eq_of_length_le (Nat.le_of_not_lt hn),
        List.getD_eq_default _ _ (Nat.le_of_not_lt hn)]
      rfl
  · simp [List.getD_eq_getElem?_getD, List.getElem?_set_ne (Ne.symm h), h]

theorem sameButSlot_setNodeTT (g : Grid2Duc T) (nn : Nat) (t : T) (w : Nat) :
    sameButSlot w g (g.setNodeTT nn t w) := by
  refine ⟨rfl, rfl, rfl, rfl, rfl, rfl, by simp [setNodeTT], fun n => ?_⟩
  rw [getD_setNodeTT]
  split
  · exact Node2Dn.node_sameButSlot_setTT w _ t
  · exact Node2Dn.node_sameButSlot_refl w _

theorem descends_refl (w : Nat) (frozen : List Bool) (g : Grid2Duc T) :
    descends w frozen g g :=
  ⟨sameButSlot_refl w g, fun _ => ⟨le_refl _, fun _ => rfl⟩⟩

theorem descends_trans {w : Nat} {frozen : List Bool} {g1 g2 g3 : Grid2Duc T}
    (h1 : descends w frozen g1 g2) (h2 : descends w frozen g2 g3) :
    descends w frozen g1 g3 := by
  refine ⟨sameButSlot_trans h1.1 h2.1, fun n => ⟨le_trans (h2.2 n).1 (h1.2 n).1, ?_⟩⟩
  intro hf
  have e1 := (h1.2 n).2 hf
  have hgi : (g2.nodes.getD n default).gridIndex = (g1.nodes.getD n default).gridIndex :=
    (h1.1.2.2.2.2.2.2.2 n).2.2.1
  rw [← hgi] at hf
  exact ((h2.2 n).2 hf).trans e1

/-- A write of a smaller time to a node that is not frozen. -/
theorem descends_setNodeTT (g : Grid2Duc T) (frozen : List Bool) (c : Nat) (t : T) (w : Nat)
    (hlt : t ≤ g.getNodeTT c w)
    (hnf : frozen.getD (g.nodes.getD c default).gridIndex false = false) :
    descends w frozen g (g.setNodeTT c t w) := by
  refine ⟨sameButSlot_setNodeTT g c t w, fun n => ?_⟩
  unfold getNodeTT
  rw [getD_setNodeTT]
  by_cases h : n = c
  · subst h
    simp only [if_true]
    refine ⟨Node2Dn.getTT_setTT_le _ t w hlt, ?_⟩
    intro hf
    rw [hnf] at hf
    exact Bool.noConfusion hf
  · rw [if_neg h]
    exact ⟨le_refl _, fun _ => rfl⟩

end Grid2Duc

end Frame2D

/-! ### The local solver and the sweeps -/

section Sweeps

variable {T : Type} [LinearOrderedField T]

theorem Outcome.andThen_rel {σ ε : Type} (R : σ → σ → Prop)
    (htrans : ∀ a b c, R a b → R b c → R a c) (s : σ) (r : Outcome σ ε)
    (f : σ → Outcome σ ε) (h1 : R s r.state) (h2 : R r.state (f r.state).state) :
    R s (r.andThen f).state := by
  unfold Outcome.andThen
  split
  · exact htrans _ _ _ h1 h2
  · exact h1

theorem Outcome.andThen_exn_none {σ ε : Type} (r : Outcome σ ε) (f : σ → Outcome σ ε)
    (h : (r.andThen f).exn = none) : r.exn = none ∧ (f r.state).exn = none := by
  unfold Outcome.andThen at h
  split at h
  · rename_i h0; exact ⟨h0, h⟩
  · rename_i e h0; rw [h0] at h; exact Option.noConfusion h

theorem Outcome.andThen_of_none {σ ε : Type} (r : Outcome σ ε) (f : σ → Outcome σ ε)
    (h : r.exn = none) : r.andThen f = f r.state := by
  unfold Outcome.andThen
  rw [h]

theorem Outcome.andThen_of_some {σ ε : Type} (r : Outcome σ ε) (f : σ → Outcome σ ε) (e : ε)
    (h : r.exn = some e) : r.andThen f = r := by
  unfold Outcome.andThen
  rw [h]

namespace Grid2Duc

/-- The body of the loop of `localSolver` leaves the grid as it is or writes
to `vertexC` a time smaller than the time it holds. -/
theorem localSolverCell_state (E : MathEnv T) (g : Grid2Duc T) (c w tri : Nat) :
    (localSolverCell E g c w tri).state = g ∨
    ∃ t, t < g.getNodeTT c w ∧ (localSolverCell E g c w tri).state = g.setNodeTT c t w := by
  unfold localSolverCell
  split
  · left; rfl
  · dsimp only
    split
    · rename_i h
      right
      exact ⟨_, h, rfl⟩
    · left; rfl

theorem localSolverCell_descends (E : MathEnv T) (g : Grid2Duc T) (frozen : List Bool)
    (c w tri : Nat)
    (hnf : frozen.getD (g.nodes.getD c default).gridIndex false = false) :
    descends w frozen g (localSolverCell E g c w tri).state := by
  rcases localSolverCell_state E g c w tri with h | ⟨t, ht, h⟩
  · rw [h]; exact descends_refl w frozen g
  · rw [h]; exact descends_setNodeTT g frozen c t w (le_of_lt ht) hnf

theorem localSolverLoop_descends (E : MathEnv T) (frozen : List Bool) (c w : Nat)
    (owners : List Nat) :
    ∀ g : Grid2Duc T, frozen.getD (g.nodes.getD c default).gridIndex false = false →
      descends w frozen g (localSolverLoop E c w owners g).state := by
  induction owners with
  | nil => intro g _; exact descends_refl w frozen g
  | cons tri rest ih =>
    intro g hnf
    rw [localSolverLoop]
    have h1 := localSolverCell_descends E g frozen c w tri hnf
    refine Outcome.andThen_rel (descends w frozen)
      (fun _ _ _ => descends_trans) g _ _ h1 (ih _ ?_)
    rw [(h1.1.2.2.2.2.2.2.2 c).2.2.1]
    exact hnf

theorem localSolver_descends (E : MathEnv T) (g : Grid2Duc T) (frozen : List Bool) (c w : Nat)
    (hnf : frozen.getD (g.nodes.getD c default).gridIndex false = false) :
    descends w frozen g (localSolver E g c w).state :=
  localSolverLoop_descends E frozen c w _ g hnf

end Grid2Duc

namespace Grid2Duifs

theorem follows_refl (w : Nat) (st : SweepState T) : SweepState.follows w st st :=
  ⟨rfl, rfl, rfl, rfl, Grid2Duc.descends_refl w _ _⟩

theorem follows_trans {w : Nat} {s1 s2 s3 : SweepState T}
    (h1 : SweepState.follows w s1 s2) (h2 : SweepState.follows w s2 s3) :
    SweepState.follows w s1 s3 := by
  obtain ⟨hl1, hl2, hl3, hl4, hl5⟩ := h1
  obtain ⟨hr1, hr2, hr3, hr4, hr5⟩ := h2
  rw [hl1] at hr5
  exact ⟨hr1.trans hl1, hr2.trans hl2, hr3.trans hl3, hr4.trans hl4, Grid2Duc.descends_trans hl5 hr5⟩

theorem sweep_follows (E : MathEnv T) (w : Nat) (order : List Nat) :
    ∀ st : SweepState T, SweepState.follows w st (sweep E w order st).state := by
  induction order with
  | nil => intro st; exact follows_refl w st
  | cons c rest ih =>
    intro st
    rw [sweep]
    split
    · rename_i hnf
      have hd := Grid2Duc.localSolver_descends E st.grid.toGrid2Duc st.frozen c w hnf
      have hstep : SweepState.follows w st
          { withGrid st (Grid2Duc.localSolver E st.grid.toGrid2Duc c w).state with
            solverCalls := st.solverCalls + 1 } := ⟨rfl, rfl, rfl, rfl, hd⟩
      dsimp only
      split
      · exact hstep
      · exact follows_trans hstep (ih _)
    · exact ih st

theorem updateError_follows (w : Nat) (st : SweepState T) :
    SweepState.follows w st (updateError w st) :=
  ⟨rfl, rfl, rfl, rfl, Grid2Duc.descends_refl w _ _⟩

theorem forSorted_follows (E : MathEnv T) (w : Nat) (orders : List (List Nat)) :
    ∀ st : SweepState T, SweepState.follows w st (forSorted E w orders st).state := by
  induction orders with
  | nil => intro st; exact follows_refl w st
  | cons order rest ih =>
    intro st
    rw [forSorted]
    refine Outcome.andThen_rel (SweepState.follows w) (fun _ _ _ => follows_trans) st _ _
      (sweep_follows E w order st) ?_
    generalize (sweep E w order st).state = s1
    have hu1 := updateError_follows w s1
    dsimp only
    split
    · exact follows_trans hu1 ⟨rfl, rfl, rfl, rfl, Grid2Duc.descends_refl w _ _⟩
    · refine follows_trans hu1 ?_
      refine Outcome.andThen_rel (SweepState.follows w) (fun _ _ _ => follows_trans) _ _ _
        (sweep_follows E w order.reverse _) ?_
      generalize (sweep E w order.reverse (updateError w s1)).state = s2
      have hu2 := updateError_follows w s2
      split
      · exact follows_trans hu2 ⟨rfl, rfl, rfl, rfl, Grid2Duc.descends_refl w _ _⟩
      · exact follows_trans hu2 (ih _)

theorem whilePass_follows (E : MathEnv T) (w : Nat) (st : SweepState T) :
    SweepState.follows w st (whilePass E w st).state := by
  unfold whilePass
  have h0 : SweepState.follows w st { st with passes := st.passes + 1 } :=
    ⟨rfl, rfl, rfl, rfl, Grid2Duc.descends_refl w _ _⟩
  refine follows_trans h0 ?_
  refine Outcome.andThen_rel (SweepState.follows w) (fun _ _ _ => follows_trans) _ _ _
    (forSorted_follows E w _ _) ?_
  exact ⟨rfl, rfl, rfl, rfl, Grid2Duc.descends_refl w _ _⟩

theorem whileLoop_follows (E : MathEnv T) (w : Nat) (fuel : Nat) :
    ∀ st : SweepState T, SweepState.follows w st (whileLoop E w fuel st).state := by
  induction fuel with
  | zero => intro st; exact follows_refl w st
  | succ fuel ih =>
    intro st
    rw [whileLoop]
    split
    · exact Outcome.andThen_rel (SweepState.follows w) (fun _ _ _ => follows_trans) _ _ _
        (whilePass_follows E w st) (ih _)
    · exact follows_refl w st

end Grid2Duifs

end Sweeps

/-! ### Seeding of the sources in `Grid2Duifs` -/

section Seeding2D

variable {T : Type} [LinearOrderedField T]

/-- A loop whose body steps along a reflexive and transitive relation steps
along it as a whole. -/
theorem foldl_rel {α β : Type} (R : α → α → Prop) (hrefl : ∀ a, R a a)
    (htrans : ∀ a b c, R a b → R b c → R a c) (f : α → β → α)
    (hf : ∀ a b, R a (f a b)) : ∀ (l : List β) (a : α), R a (l.foldl f a) := by
  intro l
  induction l with
  | nil => intro a; exact hrefl a
  | cons b l ih => intro a; exact htrans _ _ _ (hf a b) (ih (f a b))

namespace Grid2Duifs

theorem reinitNodes_sameButSlot (E : MathEnv T) (g : Grid2Duc T) (w : Nat) :
    Grid2Duc.sameButSlot w g (reinitNodes E g w) :=
  foldl_rel (Grid2Duc.sameButSlot w) (Grid2Duc.sameButSlot_refl w)
    (fun _ _ _ => Grid2Duc.sameButSlot_trans) _
    (fun g n => Grid2Duc.sameButSlot_setNodeTT g n E.tmax w) _ g

theorem initTxNeighbors_sameButSlot (E : MathEnv T) (nn : Nat) (t0n : T) (w cellNo : Nat)
    (g : Grid2Duc T) :
    Grid2Duc.sameButSlot w g (initTxNeighbors E nn t0n w cellNo g) := by
  unfold initTxNeighbors
  refine foldl_rel (Grid2Duc.sameButSlot w) (Grid2Duc.sameButSlot_refl w)
    (fun _ _ _ => Grid2Duc.sameButSlot_trans) _ ?_ _ g
  intro g neibNo
  dsimp only
  split
  · exact Grid2Duc.sameButSlot_refl w g
  · split
    · exact Grid2Duc.sameButSlot_setNodeTT g neibNo _ w
    · exact Grid2Duc.sameButSlot_refl w g

theorem initTxOnNode_sameButSlot (E : MathEnv T) (nn : Nat) (t0n : T) (w : Nat)
    (gf : Grid2Duc T × List Bool) :
    Grid2Duc.sameButSlot w gf.1 (initTxOnNode E nn t0n w gf).1 := by
  unfold initTxOnNode
  dsimp only
  refine Grid2Duc.sameButSlot_trans (Grid2Duc.sameButSlot_setNodeTT gf.1 nn t0n w) ?_
  exact foldl_rel (Grid2Duc.sameButSlot w) (Grid2Duc.sameButSlot_refl w)
    (fun _ _ _ => Grid2Duc.sameButSlot_trans) _
    (fun g cellNo => initTxNeighbors_sameButSlot E nn t0n w cellNo g) _ _

theorem initTxInCell_sameButSlot (E : MathEnv T) (Txn : sxz T) (t0n : T) (w : Nat)
    (gf : Grid2Duc T × List Bool) :
    Grid2Duc.sameButSlot w gf.1 (initTxInCell E Txn t0n w gf).1 := by
  unfold initTxInCell
  dsimp only
  exact foldl_rel (fun a b : Grid2Duc T × List Bool => Grid2Duc.sameButSlot w a.1 b.1)
    (fun a => Grid2Duc.sameButSlot_refl w a.1)
    (fun _ _ _ => Grid2Duc.sameButSlot_trans) _
    (fun a neibNo => Grid2Duc.sameButSlot_setNodeTT a.1 neibNo _ w) _ gf

theorem initTxOne_sameButSlot (E : MathEnv T) (Txn : sxz T) (t0n : T) (w : Nat)
    (gf : Grid2Duc T × List Bool) :
    Grid2Duc.sameButSlot w gf.1 (initTxOne E Txn t0n w gf).1 := by
  unfold initTxOne
  split
  · exact initTxOnNode_sameButSlot E _ t0n w gf
  · exact initTxInCell_sameButSlot E Txn t0n w gf

theorem initTxFrom_sameButSlot (E : MathEnv T) (t0 : List T) (w : Nat) (Tx : List (sxz T)) :
    ∀ (n : Nat) (gf : Grid2Duc T × List Bool),
      Grid2Duc.sameButSlot w gf.1 (initTxFrom E t0 w n Tx gf).1 := by
  induction Tx with
  | nil => intro n gf; exact Grid2Duc.sameButSlot_refl w gf.1
  | cons Txn rest ih =>
    intro n gf
    rw [initTxFrom]
    exact Grid2Duc.sameButSlot_trans (initTxOne_sameButSlot E Txn _ w gf) (ih _ _)

theorem initTx_sameButSlot (E : MathEnv T) (g : Grid2Duc T) (Tx : List (sxz T)) (t0 : List T)
    (frozen : List Bool) (w : Nat) :
    Grid2Duc.sameButSlot w g (initTx E g Tx t0 frozen w).1 :=
  initTxFrom_sameButSlot E t0 w Tx 0 (g, frozen)

/-- The grid of the state in which the sweeping loop of `raytrace` ends is the
grid given to `raytrace` but for slot `threadNo` of the nodes. -/
theorem raytraceSweeps_sameButSlot (E : MathEnv T) (g : Grid2Duifs T) (Tx : List (sxz T))
    (t0 : List T) (w : Nat) :
    Grid2Duc.sameButSlot w g.toGrid2Duc (raytraceSweeps E g Tx t0 w).state.grid.toGrid2Duc ∧
    (raytraceSweeps E g Tx t0 w).state.grid.epsilon = g.epsilon ∧
    (raytraceSweeps E g Tx t0 w).state.grid.nitermax = g.nitermax ∧
    (raytraceSweeps E g Tx t0 w).state.grid.sorted = g.sorted := by
  unfold raytraceSweeps
  obtain ⟨_, h2, h3, h4, h5⟩ := whileLoop_follows E w g.nitermax.toNat (sweepInit E g Tx t0 w)
  refine ⟨?_, h2, h3, h4⟩
  exact Grid2Duc.sameButSlot_trans
    (Grid2Duc.sameButSlot_trans (reinitNodes_sameButSlot E g.toGrid2Duc w)
      (initTx_sameButSlot E _ Tx t0 _ w)) h5.1

end Grid2Duifs

end Seeding2D

/-! ### Counting the passes of the sweeping loop -/

section Counting

variable {T : Type} [LinearOrderedField T]

namespace Grid2Duifs

theorem sweep_counters (E : MathEnv T) (w : Nat) (order : List Nat) :
    ∀ st : SweepState T,
      (sweep E w order st).state.passes = st.passes ∧
      (sweep E w order st).state.niter = st.niter ∧
      (sweep E w order st).state.error = st.error ∧
      (sweep E w order st).state.times = st.times ∧
      (sweep E w order st).state.solverCalls ≤ st.solverCalls + order.length := by
  induction order with
  | nil => intro st; exact ⟨rfl, rfl, rfl, rfl, Nat.le_refl _⟩
  | cons c rest ih =>
    intro st
    rw [sweep]
    split
    · dsimp only
      split
      · exact ⟨rfl, rfl, rfl, rfl, by simp [Outcome.throw]⟩
      · obtain ⟨h1, h2, h3, h4, h5⟩ := ih
          { withGrid st (Grid2Duc.localSolver E st.grid.toGrid2Duc c w).state with
            solverCalls := st.solverCalls + 1 }
        refine ⟨h1, h2, h3, h4, ?_⟩
        simp only [List.length_cons]
        simp only at h5
        omega
    · obtain ⟨h1, h2, h3, h4, h5⟩ := ih st
      refine ⟨h1, h2, h3, h4, ?_⟩
      simp only [List.length_cons]
      omega

theorem updateError_solverCalls (w : Nat) (st : SweepState T) :
    (updateError w st).solverCalls = st.solverCalls := rfl

theorem updateError_passes (w : Nat) (st : SweepState T) :
    (updateError w st).passes = st.passes := rfl

theorem updateError_niter (w : Nat) (st : SweepState T) :
    (updateError w st).niter = st.niter := rfl

/-- What the loop over `sorted` does to the counters, to `niter` and to
`error`. -/
theorem forSorted_counters (E : MathEnv T) (w : Nat) (orders : List (List Nat)) :
    ∀ st : SweepState T,
      (forSorted E w orders st).state.passes = st.passes ∧
      (forSorted E w orders st).state.solverCalls
        ≤ st.solverCalls + 2 * (orders.map List.length).sum ∧
      ((forSorted E w orders st).exn = none →
        ((forSorted E w orders st).state.niter = st.niter ∨
          ((forSorted E w orders st).state.niter = st.niter + 1 ∧
            (forSorted E w orders st).state.error
              < (forSorted E w orders st).state.grid.epsilon))) := by
  induction orders with
  | nil =>
    intro st
    exact ⟨rfl, by simp [forSorted, Outcome.ret], fun _ => Or.inl rfl⟩
  | cons order rest ih =>
    intro st
    obtain ⟨a1, a2, a3, a4, a5⟩ := sweep_counters E w order st
    rw [forSorted]
    simp only [List.map_cons, List.sum_cons]
    cases hx : (sweep E w order st).exn with
    | some e =>
      rw [Outcome.andThen_of_some _ _ e hx]
      refine ⟨a1, by omega, fun h => ?_⟩
      rw [hx] at h
      exact Option.noConfusion h
    | none =>
      rw [Outcome.andThen_of_none _ _ hx]
      split
      · rename_i hlt
        refine ⟨a1, ?_, fun _ => Or.inr ⟨?_, hlt⟩⟩
        · show (updateError w (sweep E w order st).state).solverCalls ≤ _
          rw [updateError_solverCalls]; omega
        · show (updateError w (sweep E w order st).state).niter + 1 = _
          rw [updateError_niter, a2]
      · obtain ⟨b1, b2, b3, b4, b5⟩ :=
          sweep_counters E w order.reverse (updateError w (sweep E w order st).state)
        rw [updateError_solverCalls, List.length_reverse] at b5
        rw [updateError_passes] at b1
        rw [updateError_niter] at b2
        cases hy : (sweep E w order.reverse (updateError w (sweep E w order st).state)).exn with
        | some e =>
          rw [Outcome.andThen_of_some _ _ e hy]
          refine ⟨b1.trans a1, by omega, fun h => ?_⟩
          rw [hy] at h
          exact Option.noConfusion h
        | none =>
          rw [Outcome.andThen_of_none _ _ hy]
          split
          · rename_i hlt
            refine ⟨b1.trans a1, ?_, fun _ => Or.inr ⟨?_, hlt⟩⟩
            · show (updateError w (sweep E w order.reverse
                (updateError w (sweep E w order st).state)).state).solverCalls ≤ _
              rw [updateError_solverCalls]; omega
            · show (updateError w (sweep E w order.reverse
                (updateError w (sweep E w order st).state)).state).niter + 1 = _
              rw [updateError_niter, b2, a2]
          · obtain ⟨c1, c2, c3⟩ := ih (updateError w
              (sweep E w order.reverse (updateError w (sweep E w order st).state)).state)
            rw [updateError_solverCalls] at c2
            rw [updateError_passes] at c1
            refine ⟨c1.trans (b1.trans a1), by omega, fun h => ?_⟩
            have d1 := c3 h
            rw [updateError_niter, b2, a2] at d1
            exact d1

theorem whilePass_counters (E : MathEnv T) (w : Nat) (st : SweepState T) :
    (whilePass E w st).state.passes = st.passes + 1 ∧
    (whilePass E w st).state.solverCalls
      ≤ st.solverCalls + 2 * (st.grid.sorted.map List.length).sum ∧
    ((whilePass E w st).exn = none →
      ((whilePass E w st).state.niter = st.niter + 1 ∨
        ((whilePass E w st).state.niter = st.niter + 2 ∧
          (whilePass E w st).state.error < (whilePass E w st).state.grid.epsilon))) := by
  obtain ⟨a1, a2, a3⟩ := forSorted_counters E w st.grid.sorted { st with passes := st.passes + 1 }
  unfold whilePass
  cases hx : (forSorted E w st.grid.sorted { st with passes := st.passes + 1 }).exn with
  | some e =>
    rw [Outcome.andThen_of_some _ _ e hx]
    refine ⟨a1, a2, fun h => ?_⟩
    rw [hx] at h
    exact Option.noConfusion h
  | none =>
    rw [Outcome.andThen_of_none _ _ hx]
    have b1 := a3 hx
    refine ⟨a1, a2, fun _ => ?_⟩
    rcases b1 with b1 | ⟨b1, b1'⟩
    · left
      show (forSorted E w st.grid.sorted { st with passes := st.passes + 1 }).state.niter + 1 = _
      rw [b1]
    · right
      refine ⟨?_, b1'⟩
      show (forSorted E w st.grid.sorted { st with passes := st.passes + 1 }).state.niter + 1 = _
      rw [b1]
      show st.niter + 1 + 1 = st.niter + 2
      omega

theorem whileLoop_counters (E : MathEnv T) (w : Nat) (fuel : Nat) :
    ∀ st : SweepState T,
      (whileLoop E w fuel st).state.passes ≤ st.passes + fuel ∧
      (whileLoop E w fuel st).state.solverCalls
        ≤ st.solverCalls + fuel * (2 * (st.grid.sorted.map List.length).sum) := by
  induction fuel with
  | zero => intro st; exact ⟨Nat.le_refl _, by simp [whileLoop, Outcome.ret]⟩
  | succ fuel ih =>
    intro st
    rw [whileLoop]
    split
    · obtain ⟨a1, a2, _⟩ := whilePass_counters E w st
      have hs := (whilePass_follows E w st).2.2.2.1
      cases hx : (whilePass E w st).exn with
      | some e =>
        rw [Outcome.andThen_of_some _ _ e hx]
        refine ⟨by omega, ?_⟩
        rw [Nat.succ_mul]
        omega
      | none =>
        rw [Outcome.andThen_of_none _ _ hx]
        obtain ⟨b1, b2⟩ := ih (whilePass E w st).state
        rw [hs] at b2
        refine ⟨by omega, ?_⟩
        rw [Nat.succ_mul]
        omega
    · refine ⟨by simp [Outcome.ret], ?_⟩
      simp only [Outcome.ret]
      exact Nat.le_add_right _ _

/-- With enough fuel the loop ends because its condition fails. -/
theorem whileLoop_exit (E : MathEnv T) (w : Nat) (fuel : Nat) :
    ∀ st : SweepState T, (whileLoop E w fuel st).exn = none →
      (st.grid.nitermax - st.niter).toNat ≤ fuel →
      ¬ ((whileLoop E w fuel st).state.error ≥ (whileLoop E w fuel st).state.grid.epsilon ∧
          (whileLoop E w fuel st).state.niter < (whileLoop E w fuel st).state.grid.nitermax) := by
  induction fuel with
  | zero =>
    intro st _ hf
    simp only [whileLoop, Outcome.ret]
    rintro ⟨_, h⟩
    omega
  | succ fuel ih =>
    intro st hexn hf
    rw [whileLoop] at hexn ⊢
    split
    · rename_i hc
      rw [if_pos hc] at hexn
      obtain ⟨hx, hexn'⟩ := Outcome.andThen_exn_none _ _ hexn
      rw [Outcome.andThen_of_none _ _ hx]
      refine ih _ hexn' ?_
      have hn := (whilePass_follows E w st).2.2.1
      obtain ⟨_, _, a3⟩ := whilePass_counters E w st
      rcases a3 hx with h | ⟨h, _⟩ <;> rw [hn, h] <;> omega
    · rename_i hc
      exact hc

/-- The loop is left early only with `error < epsilon`. -/
theorem whileLoop_early (E : MathEnv T) (w : Nat) (fuel : Nat) :
    ∀ st : SweepState T, (whileLoop E w fuel st).exn = none →
      (st.niter = (st.passes : Int) ∨ st.error < st.grid.epsilon) →
      st.grid.nitermax ≤ (st.passes : Int) + fuel →
      (whileLoop E w fuel st).state.error < st.grid.epsilon ∨
        st.grid.nitermax ≤ ((whileLoop E w fuel st).state.passes : Int) := by
  induction fuel with
  | zero =>
    intro st _ _ hf
    right
    simpa [whileLoop, Outcome.ret] using hf
  | succ fuel ih =>
    intro st hexn hk hf
    rw [whileLoop] at hexn ⊢
    split
    · rename_i hc
      rw [if_pos hc] at hexn
      obtain ⟨hx, hexn'⟩ := Outcome.andThen_exn_none _ _ hexn
      rw [Outcome.andThen_of_none _ _ hx]
      obtain ⟨_, he, hn, _, _⟩ := whilePass_follows E w st
      obtain ⟨a1, _, a3⟩ := whilePass_counters E w st
      have hnp : st.niter = (st.passes : Int) := by
        rcases hk with hk | hk
        · exact hk
        · exact absurd hk (not_lt.mpr hc.1)
      have := ih (whilePass E w st).state hexn' ?_ ?_
      · rw [he, hn] at this
        exact this
      · rcases a3 hx with h | ⟨_, h⟩
        · left; rw [h, a1, hnp]; push_cast; rfl
        · right; exact h
      · rw [hn, a1]; push_cast; omega
    · rename_i hc
      simp only [Outcome.ret]
      rcases hk with hk | hk
      · by_cases he : st.error < st.grid.epsilon
        · left; exact he
        · right
          have : ¬ st.niter < st.grid.nitermax := fun h => hc ⟨not_lt.mp he, h⟩
          omega
      · left; exact hk

theorem foldl_add_eq_sum (f : Nat → T) :
    ∀ (l : List Nat) (a : T), l.foldl (fun e n => e + f n) a = a + (l.map f).sum := by
  intro l
  induction l with
  | nil => intro a; simp
  | cons x l ih =>
    intro a
    rw [List.foldl_cons, ih, List.map_cons, List.sum_cons, add_assoc]

/-- The loop that sums into `error` computes the summed absolute change from
the grid of which `times` is the snapshot. -/
theorem sumAbsChange_eq_totalChange (w : Nat) (times : List T) (g0 g : Grid2Duc T)
    (hlen : g.nodes.length = g0.nodes.length)
    (hsnap : ∀ n, n < g0.nodes.length → times.getD n 0 = g0.getNodeTT n w) :
    sumAbsChange times g w = Grid2Duc.totalChange w g0 g := by
  unfold sumAbsChange Grid2Duc.totalChange
  rw [foldl_add_eq_sum (fun n => |times.getD n 0 - g.getNodeTT n w|), zero_add]
  congr 1
  apply List.map_congr_left
  intro n hn
  rw [List.mem_range, hlen] at hn
  rw [hsnap n hn]

theorem snapshot_foldl (h : Nat → T) (N : Nat) (t : List T) (ht : t.length = N) :
    ∀ k, k ≤ N →
      ((List.range k).foldl (fun times n => times.set n (h n)) t).length = N ∧
      ∀ n, n < k →
        ((List.range k).foldl (fun times n => times.set n (h n)) t).getD n 0 = h n := by
  intro k
  induction k with
  | zero => intro _; exact ⟨ht, fun n hn => absurd hn (Nat.not_lt_zero n)⟩
  | succ k ih =>
    intro hk
    obtain ⟨h1, h2⟩ := ih (by omega)
    rw [List.range_succ, List.foldl_append, List.foldl_cons, List.foldl_nil]
    refine ⟨by rw [List.length_set]; exact h1, fun n hn => ?_⟩
    by_cases e : n = k
    · subst e
      have : n < ((List.range n).foldl (fun times n => times.set n (h n)) t).length := by
        rw [h1]; omega
      simp [List.getD_eq_getElem?_getD, this]
    · have hlt : n < k := by omega
      rw [List.getD_eq_getElem?_getD, List.getElem?_set_ne (Ne.symm e),
        ← List.getD_eq_getElem?_getD]
      exact h2 n hlt

/-- The update of `error` leaves the snapshot of the node times of the grid. -/
theorem updateError_snapshotTaken (w : Nat) (st : SweepState T)
    (hlen : st.times.length = st.grid.nodes.length) :
    SweepState.snapshotTaken w (updateError w st) := by
  have := snapshot_foldl (fun n => st.grid.getNodeTT n w) st.grid.nodes.length st.times hlen
    st.grid.nodes.length (Nat.le_refl _)
  exact this

theorem sweepInit_snapshotTaken (E : MathEnv T) (g : Grid2Duifs T) (Tx : List (sxz T))
    (t0 : List T) (w : Nat) : SweepState.snapshotTaken w (sweepInit E g Tx t0 w) := by
  have := snapshot_foldl
    (fun n => (initTx E (reinitNodes E g.toGrid2Duc w) Tx t0
      (List.replicate (reinitNodes E g.toGrid2Duc w).nodes.length false) w).1.getNodeTT n w)
    (initTx E (reinitNodes E g.toGrid2Duc w) Tx t0
      (List.replicate (reinitNodes E g.toGrid2Duc w).nodes.length false) w).1.nodes.length
    (List.replicate (initTx E (reinitNodes E g.toGrid2Duc w) Tx t0
      (List.replicate (reinitNodes E g.toGrid2Duc w).nodes.length false) w).1.nodes.length 0)
    (List.length_replicate _ _) _ (Nat.le_refl _)
  exact this

/-- A sweep from a state that holds the snapshot of its node times, followed
by the update of `error`, leaves in `error` the summed absolute change of the
node times over the sweep. -/
theorem updateError_lastSweep (E : MathEnv T) (w : Nat) (init before : SweepState T)
    (order : List Nat)
    (hord : order ∈ init.grid.sorted ∨ order.reverse ∈ init.grid.sorted)
    (hf : SweepState.follows w init before) (hs : before.snapshotTaken w)
    (hx : (sweep E w order before).exn = none) :
    SweepState.lastSweep E w init before order (updateError w (sweep E w order before).state) := by
  obtain ⟨_, _, _, a4, _⟩ := sweep_counters E w order before
  have hlen : (sweep E w order before).state.grid.nodes.length = before.grid.nodes.length :=
    (sweep_follows E w order before).2.2.2.2.1.2.2.2.2.2.2.1
  refine ⟨hord, hf, hs, hx, rfl, ?_, ?_⟩
  · show sumAbsChange (sweep E w order before).state.times
      (sweep E w order before).state.grid.toGrid2Duc w = _
    rw [a4]
    exact sumAbsChange_eq_totalChange w _ _ _ hlen hs.2
  · apply updateError_snapshotTaken
    rw [a4, hlen]
    exact hs.1

/-- The predicate `lastSweep` reads only the grid, `error` and `times` of the
state. -/
theorem lastSweep_congr (E : MathEnv T) (w : Nat) (init before : SweepState T)
    (order : List Nat) (st st' : SweepState T) (hg : st'.grid = st.grid)
    (he : st'.error = st.error) (ht : st'.times = st.times)
    (h : SweepState.lastSweep E w init before order st) :
    SweepState.lastSweep E w init before order st' := by
  obtain ⟨h1, h2, h3, h4, h5, h6, h7⟩ := h
  refine ⟨h1, h2, h3, h4, hg.trans h5, ?_, ?_⟩
  · rw [he, hg]; exact h6
  · unfold SweepState.snapshotTaken
    rw [ht, hg]
    exact h7

/-- The loop over `sorted`, ended normally, either leaves the grid, `error`
and `times` as they were or leaves the state of the update of `error` after
its last sweep. -/
theorem forSorted_lastSweep (E : MathEnv T) (w : Nat) (init : SweepState T)
    (orders : List (List Nat)) :
    ∀ st : SweepState T, (∀ o ∈ orders, o ∈ init.grid.sorted) →
      SweepState.follows w init st → st.snapshotTaken w →
      (forSorted E w orders st).exn = none →
      ((forSorted E w orders st).state.grid = st.grid ∧
        (forSorted E w orders st).state.error = st.error ∧
        (forSorted E w orders st).state.times = st.times) ∨
      ∃ before order,
        SweepState.lastSweep E w init before order (forSorted E w orders st).state := by
  induction orders with
  | nil => intro st _ _ _ _; left; exact ⟨rfl, rfl, rfl⟩
  | cons order rest ih =>
    intro st hsub hf hs hexn
    right
    rw [forSorted] at hexn ⊢
    obtain ⟨hx, hexn1⟩ := Outcome.andThen_exn_none _ _ hexn
    rw [Outcome.andThen_of_none _ _ hx] at hexn ⊢
    have hin : order ∈ init.grid.sorted := hsub order (List.mem_cons_self _ _)
    have L1 := updateError_lastSweep E w init st order (Or.inl hin) hf hs hx
    dsimp only at hexn ⊢
    split
    · exact ⟨st, order, lastSweep_congr E w init st order _ _ rfl rfl rfl L1⟩
    · rename_i hge
      rw [if_neg hge] at hexn
      have hf1 : SweepState.follows w init (updateError w (sweep E w order st).state) :=
        follows_trans hf (follows_trans (sweep_follows E w order st) (updateError_follows w _))
      obtain ⟨hy, hexn2⟩ := Outcome.andThen_exn_none _ _ hexn
      rw [Outcome.andThen_of_none _ _ hy] at hexn ⊢
      have L2 := updateError_lastSweep E w init (updateError w (sweep E w order st).state)
        order.reverse (Or.inr (by rw [List.reverse_reverse]; exact hin)) hf1 L1.2.2.2.2.2.2 hy
      split
      · exact ⟨_, order.reverse, lastSweep_congr E w init _ order.reverse _ _ rfl rfl rfl L2⟩
      · rename_i hge2
        rw [if_neg hge2] at hexn
        have hf2 : SweepState.follows w init (updateError w
            (sweep E w order.reverse (updateError w (sweep E w order st).state)).state) :=
          follows_trans hf1 (follows_trans (sweep_follows E w order.reverse _)
            (updateError_follows w _))
        rcases ih _ (fun o ho => hsub o (List.mem_cons_of_mem _ ho)) hf2 L2.2.2.2.2.2.2 hexn
          with ⟨e1, e2, e3⟩ | h
        · exact ⟨_, order.reverse, lastSweep_congr E w init _ order.reverse _ _ e1 e2 e3 L2⟩
        · exact h

theorem whilePass_lastSweep (E : MathEnv T) (w : Nat) (init st : SweepState T)
    (hsorted : st.grid.sorted = init.grid.sorted)
    (hf : SweepState.follows w init st) (hs : st.snapshotTaken w)
    (hexn : (whilePass E w st).exn = none) :
    ((whilePass E w st).state.grid = st.grid ∧
      (whilePass E w st).state.error = st.error ∧
      (whilePass E w st).state.times = st.times) ∨
    ∃ before order, SweepState.lastSweep E w init before order (whilePass E w st).state := by
  unfold whilePass at hexn ⊢
  obtain ⟨hx, _⟩ := Outcome.andThen_exn_none _ _ hexn
  rw [Outcome.andThen_of_none _ _ hx]
  have := forSorted_lastSweep E w init st.grid.sorted { st with passes := st.passes + 1 }
    (fun o ho => hsorted ▸ ho) hf hs hx
  rcases this with ⟨e1, e2, e3⟩ | ⟨before, order, h⟩
  · left; exact ⟨e1, e2, e3⟩
  · right
    exact ⟨before, order, lastSweep_congr E w init before order _ _ rfl rfl rfl h⟩

theorem whileLoop_lastSweep (E : MathEnv T) (w : Nat) (init : SweepState T) (fuel : Nat) :
    ∀ st : SweepState T, SweepState.follows w init st →
      (st.snapshotTaken w ∨ ∃ before order, SweepState.lastSweep E w init before order st) →
      (whileLoop E w fuel st).exn = none →
      ((whileLoop E w fuel st).state.grid = st.grid ∧
        (whileLoop E w fuel st).state.error = st.error ∧
        (whileLoop E w fuel st).state.times = st.times) ∨
      ∃ before order,
        SweepState.lastSweep E w init before order (whileLoop E w fuel st).state := by
  induction fuel with
  | zero => intro st _ _ _; left; exact ⟨rfl, rfl, rfl⟩
  | succ fuel ih =>
    intro st hf hs hexn
    rw [whileLoop] at hexn ⊢
    split
    · rename_i hc
      rw [if_pos hc] at hexn
      obtain ⟨hx, hexn1⟩ := Outcome.andThen_exn_none _ _ hexn
      rw [Outcome.andThen_of_none _ _ hx]
      have hs0 : st.snapshotTaken w := by
        rcases hs with hs | ⟨_, _, hs⟩
        · exact hs
        · exact hs.2.2.2.2.2.2
      have hf1 := follows_trans hf (whilePass_follows E w st)
      have P := whilePass_lastSweep E w init st hf.2.2.2.1 hf hs0 hx
      have hs1 : (whilePass E w st).state.snapshotTaken w ∨
          ∃ before order, SweepState.lastSweep E w init before order (whilePass E w st).state := by
        rcases P with ⟨e1, _, e3⟩ | h
        · left
          unfold SweepState.snapshotTaken
          rw [e1, e3]
          exact hs0
        · right; exact h
      rcases ih _ hf1 hs1 hexn1 with ⟨e1, e2, e3⟩ | h
      · rcases P with ⟨d1, d2, d3⟩ | ⟨before, order, h⟩
        · left; exact ⟨e1.trans d1, e2.trans d2, e3.trans d3⟩
        · right
          exact ⟨before, order, lastSweep_congr E w init before order _ _ e1 e2 e3 h⟩
      · right; exact h
    · left; exact ⟨rfl, rfl, rfl⟩

/-- Claim C9. The Fast Sweeping loop of `raytrace` ends: it makes at most
`nitermax` passes of its `while` loop and at most `2·nitermax·Σ|sorted[i]|`
calls of the local solver, which is `2·nitermax·|refPts|·|V|` when `sorted`
holds `|refPts|` orderings of the `|V|` nodes; `nitermax` passes of fuel are
enough, the loop ends with its condition false; and when it ends normally
after fewer than `nitermax` passes then `error < epsilon`, and (for `epsilon`
not above the initial value of `error`) the final state is the one left by a
sweep and the update of `error` after it: there are a state `before`, reached
from the state in which the loop is entered and holding the snapshot of its
own node times, and an ordering `order` of `sorted` or the reverse of one,
such that the sweep of `order` from `before` ends in the final grid and
`error` is the sum over the nodes of `|TT_before[n] − TT_final[n]|`, which is
thus below `epsilon`. -/
theorem raytrace_sweeps_terminate (E : MathEnv T) (g : Grid2Duifs T) (Tx : List (sxz T))
    (t0 : List T) (w : Nat) :
    (raytraceSweeps E g Tx t0 w).state.passes ≤ g.nitermax.toNat ∧
    (raytraceSweeps E g Tx t0 w).state.solverCalls
      ≤ 2 * g.nitermax.toNat * (g.sorted.map List.length).sum ∧
    (∀ nRef : Nat, g.sorted.length = nRef →
      (∀ order ∈ g.sorted, order.length = g.nodes.length) →
      (raytraceSweeps E g Tx t0 w).state.solverCalls
        ≤ 2 * g.nitermax.toNat * nRef * g.nodes.length) ∧
    ((raytraceSweeps E g Tx t0 w).exn = none →
      ¬ ((raytraceSweeps E g Tx t0 w).state.error ≥ g.epsilon ∧
          (raytraceSweeps E g Tx t0 w).state.niter < g.nitermax)) ∧
    ((raytraceSweeps E g Tx t0 w).exn = none →
      ((raytraceSweeps E g Tx t0 w).state.passes : Int) < g.nitermax →
      (raytraceSweeps E g Tx t0 w).state.error < g.epsilon) ∧
    ((raytraceSweeps E g Tx t0 w).exn = none → g.epsilon ≤ E.tmax →
      ((raytraceSweeps E g Tx t0 w).state.passes : Int) < g.nitermax →
      ∃ before order,
        SweepState.lastSweep E w (sweepInit E g Tx t0 w) before order
          (raytraceSweeps E g Tx t0 w).state ∧
        Grid2Duc.totalChange w before.grid.toGrid2Duc
          (raytraceSweeps E g Tx t0 w).state.grid.toGrid2Duc < g.epsilon) := by
  have hc := whileLoop_counters E w g.nitermax.toNat (sweepInit E g Tx t0 w)
  have hf := whileLoop_follows E w g.nitermax.toNat (sweepInit E g Tx t0 w)
  have hpass : (raytraceSweeps E g Tx t0 w).state.passes ≤ g.nitermax.toNat := by
    have := hc.1
    simpa [raytraceSweeps, sweepInit] using this
  have hcalls : (raytraceSweeps E g Tx t0 w).state.solverCalls
      ≤ 2 * g.nitermax.toNat * (g.sorted.map List.length).sum := by
    have := hc.2
    have e : (sweepInit E g Tx t0 w).solverCalls = 0 := rfl
    have e2 : (sweepInit E g Tx t0 w).grid.sorted = g.sorted := rfl
    rw [e, e2, Nat.zero_add] at this
    calc (raytraceSweeps E g Tx t0 w).state.solverCalls
        ≤ g.nitermax.toNat * (2 * (g.sorted.map List.length).sum) := this
      _ = 2 * g.nitermax.toNat * (g.sorted.map List.length).sum := by ring
  have hearly : (raytraceSweeps E g Tx t0 w).exn = none →
      ((raytraceSweeps E g Tx t0 w).state.passes : Int) < g.nitermax →
      (raytraceSweeps E g Tx t0 w).state.error < g.epsilon := by
    intro hexn hp
    have := whileLoop_early E w g.nitermax.toNat (sweepInit E g Tx t0 w) hexn
      (Or.inl rfl) (by
        show g.nitermax ≤ ((0 : Nat) : Int) + (g.nitermax.toNat : Int)
        have := Int.self_le_toNat g.nitermax
        omega)
    rcases this with h | h
    · exact h
    · exact absurd hp (not_lt.mpr h)
  refine ⟨hpass, hcalls, ?_, ?_, hearly, ?_⟩
  · intro nRef hlen hall
    have hsum : (g.sorted.map List.length).sum = nRef * g.nodes.length := by
      rw [← hlen]
      have : ∀ l : List (List Nat), (∀ order ∈ l, order.length = g.nodes.length) →
          (l.map List.length).sum = l.length * g.nodes.length := by
        intro l
        induction l with
        | nil => intro _; simp
        | cons a l ih =>
          intro h
          simp only [List.map_cons, List.sum_cons, List.length_cons]
          rw [ih (fun o ho => h o (List.mem_cons_of_mem _ ho)), h a (List.mem_cons_self _ _)]
          ring
      exact this g.sorted hall
    rw [hsum] at hcalls
    calc (raytraceSweeps E g Tx t0 w).state.solverCalls
        ≤ 2 * g.nitermax.toNat * (nRef * g.nodes.length) := hcalls
      _ = 2 * g.nitermax.toNat * nRef * g.nodes.length := by ring
  · intro hexn
    have := whileLoop_exit E w g.nitermax.toNat (sweepInit E g Tx t0 w) hexn (by
      show (g.nitermax - 0).toNat ≤ g.nitermax.toNat
      simp)
    rw [hf.2.1, hf.2.2.1] at this
    exact this
  · intro hexn heps hp
    have hlt := hearly hexn hp
    rcases whileLoop_lastSweep E w (sweepInit E g Tx t0 w) g.nitermax.toNat
        (sweepInit E g Tx t0 w) (follows_refl w _)
        (Or.inl (sweepInit_snapshotTaken E g Tx t0 w)) hexn with ⟨_, h, _⟩ | ⟨before, order, h⟩
    · have h' : (raytraceSweeps E g Tx t0 w).state.error = E.tmax := h
      rw [h'] at hlt
      exact absurd hlt (not_lt.mpr heps)
    · refine ⟨before, order, h, ?_⟩
      have e : (raytraceSweeps E g Tx t0 w).state.error =
          Grid2Duc.totalChange w before.grid.toGrid2Duc
            (raytraceSweeps E g Tx t0 w).state.grid.toGrid2Duc := h.2.2.2.2.2.1
      rw [e] at hlt
      exact hlt

/-- The bounds of claim C9 on the rectangle mesh for a source at the corner
(0,0): the call ends normally after fewer than `nitermax = 10` passes, and the
summed change of the node times over its last sweep is below `epsilon`. -/
theorem raytrace_sweeps_terminate_witness :
    (raytraceSweeps exampleEnv rectangle [⟨0, 0⟩] [0] 0).state.solverCalls ≤ 2 * 10 * 1 * 4 ∧
    (raytraceSweeps exampleEnv rectangle [⟨0, 0⟩] [0] 0).state.error < 1 / 1000 ∧
    ∃ before order,
      SweepState.lastSweep exampleEnv 0 (sweepInit exampleEnv rectangle [⟨0, 0⟩] [0] 0)
        before order (raytraceSweeps exampleEnv rectangle [⟨0, 0⟩] [0] 0).state ∧
      Grid2Duc.totalChange 0 before.grid.toGrid2Duc
        (raytraceSweeps exampleEnv rectangle [⟨0, 0⟩] [0] 0).state.grid.toGrid2Duc
          < rectangle.epsilon :=
  ⟨(raytrace_sweeps_terminate exampleEnv rectangle [⟨0, 0⟩] [0] 0).2.2.1 1 (by decide)
      (by decide),
    (raytrace_sweeps_terminate exampleEnv rectangle [⟨0, 0⟩] [0] 0).2.2.2.2.1 (by decide!)
      (by decide!),
    (raytrace_sweeps_terminate exampleEnv rectangle [⟨0, 0⟩] [0] 0).2.2.2.2.2 (by decide!)
      (by decide!) (by decide!)⟩

end Grid2Duifs

end Counting

/-! ### Monotone refinement -/

section Monotone

variable {T : Type} [LinearOrderedField T]

namespace Grid2Duifs

/-- Claim C6. For every node `n`, the travel time of `n` after a sweep is at
most its travel time before the sweep, whatever the ordering swept and
whether it is swept ascending (`order`) or descending (`order.reverse`). -/
theorem sweep_nonincreasing (E : MathEnv T) (w : Nat) (order : List Nat) (st : SweepState T)
    (n : Nat) :
    (sweep E w order st).state.grid.getNodeTT n w ≤ st.grid.getNodeTT n w ∧
    (sweep E w order.reverse st).state.grid.getNodeTT n w ≤ st.grid.getNodeTT n w :=
  ⟨((sweep_follows E w order st).2.2.2.2.2 n).1,
    ((sweep_follows E w order.reverse st).2.2.2.2.2 n).1⟩

/-- The loop of `reinit` over the first `k` nodes. -/
theorem reinit_range (E : MathEnv T) (w : Nat) (g : Grid2Duc T) (k : Nat)
    (hk : k ≤ g.nodes.length) :
    (List.range k).foldl (fun g n => reinitNode E g n w) g
      = { g with nodes := (g.nodes.take k).map (fun nd => nd.reinit E w) ++ g.nodes.drop k } := by
  induction k with
  | zero => simp
  | succ k ih =>
    have hk' : k < g.nodes.length := hk
    rw [List.range_succ, List.foldl_append, ih (Nat.le_of_lt hk')]
    simp only [List.foldl_cons, List.foldl_nil, reinitNode]
    congr 1
    rw [List.set_append]
    have hl : ((g.nodes.take k).map (fun nd => nd.reinit E w)).length = k := by
      simp [Nat.min_eq_left (Nat.le_of_lt hk')]
    simp only [hl, Nat.lt_irrefl, if_false, Nat.sub_self]
    rw [List.getD_eq_getElem?_getD, List.getElem?_append_right (by rw [hl]), hl, Nat.sub_self,
      List.drop_eq_getElem_cons hk']
    simp only [List.set_cons_zero, List.getElem?_cons_zero, Option.getD_some]
    rw [List.take_succ, List.getElem?_eq_getElem hk']
    simp only [List.map_append, Option.toList, List.map_cons, List.map_nil, List.append_assoc,
      List.cons_append, List.nil_append]

/-- The nodes after the reset are the nodes before it, each with slot
`threadNo` reset. -/
theorem reinitNodes_nodes (E : MathEnv T) (g : Grid2Duc T) (w : Nat) :
    (reinitNodes E g w).nodes = g.nodes.map (fun nd => nd.reinit E w) := by
  unfold reinitNodes
  rw [reinit_range E w g g.nodes.length (Nat.le_refl _)]
  simp

/-- After the reset a slot that exists holds the largest value. -/
theorem reinitNodes_getNodeTT (E : MathEnv T) (g : Grid2Duc T) (w n : Nat)
    (hv : w < ((reinitNodes E g w).nodes.getD n default).tt.length) :
    (reinitNodes E g w).getNodeTT n w = E.tmax := by
  unfold Grid2Duc.getNodeTT
  rw [reinitNodes_nodes] at hv ⊢
  by_cases hn : n < g.nodes.length
  · have e : (g.nodes.map (fun nd => nd.reinit E w)).getD n default
        = (g.nodes.getD n default).reinit E w := by
      simp [List.getD_eq_getElem?_getD, hn]
    rw [e] at hv ⊢
    unfold Node2Dn.reinit at hv ⊢
    have hv' : w < (g.nodes.getD n default).tt.length := by
      simpa [Node2Dn.setTT] using hv
    exact Node2Dn.getTT_setTT_self _ _ hv'
  · have e : (g.nodes.map (fun nd => nd.reinit E w)).getD n default = default := by
      apply List.getD_eq_default
      simp only [List.length_map]
      exact Nat.le_of_not_lt hn
    rw [e] at hv
    exact absurd hv (Nat.not_lt_zero _)

/-- `insideTriangle` reads the triangles and the coordinates only. -/
theorem insideTriangle_congr {w : Nat} {g g' : Grid2Duc T}
    (h : Grid2Duc.sameButSlot w g g') (p : sxz T) (nt : Nat) :
    Grid2Duc.insideTriangle g' p nt = Grid2Duc.insideTriangle g p nt := by
  obtain ⟨_, _, _, _, ht, _, _, hn⟩ := h
  unfold Grid2Duc.insideTriangle
  simp only [ht, (hn _).1, (hn _).2.1]

theorem getCellNo_congr {w : Nat} {g g' : Grid2Duc T}
    (h : Grid2Duc.sameButSlot w g g') (p : sxz T) :
    Grid2Duc.getCellNo g' p = Grid2Duc.getCellNo g p := by
  unfold Grid2Duc.getCellNo
  have e : (fun n => Grid2Duc.insideTriangle g' p n) = (fun n => Grid2Duc.insideTriangle g p n) :=
    funext (fun n => insideTriangle_congr h p n)
  rw [e, h.2.2.2.2.1]

theorem eqPt_congr (E : MathEnv T) {w : Nat} {a b : Node2Dn T}
    (h : Node2Dn.sameButSlot w a b) (p : sxz T) : b.eqPt E p = a.eqPt E p := by
  unfold Node2Dn.eqPt
  rw [h.1, h.2.1]

/-- The search of the node on which a point lies reads the coordinates only. -/
theorem findNode_congr (E : MathEnv T) {w : Nat} {g g' : Grid2Duc T}
    (h : Grid2Duc.sameButSlot w g g') (p : sxz T) :
    (List.range g'.nodes.length).find? (fun nn => (g'.nodes.getD nn default).eqPt E p)
      = (List.range g.nodes.length).find? (fun nn => (g.nodes.getD nn default).eqPt E p) := by
  have e : (fun nn => (g'.nodes.getD nn default).eqPt E p)
      = (fun nn => (g.nodes.getD nn default).eqPt E p) :=
    funext (fun nn => eqPt_congr E (h.2.2.2.2.2.2.2 nn) p)
  rw [e, h.2.2.2.2.2.2.1]

/-- `computeDt` reads the slowness and the coordinates only. -/
theorem computeDt_congr (E : MathEnv T) {w : Nat} {g g' : Grid2Duc T}
    (h : Grid2Duc.sameButSlot w g g') (k : Nat) (p : sxz T) (c : Nat) :
    Grid2Duc.computeDt E g' (g'.nodes.getD k default) p c
      = Grid2Duc.computeDt E g (g.nodes.getD k default) p c := by
  obtain ⟨_, _, hs, _, _, _, _, hn⟩ := h
  obtain ⟨hx, hz, _⟩ := hn k
  simp only [Grid2Duc.computeDt, Node2Dn.getDistancePt, hs, hx, hz]

/-- A write of a time that is at most the reset value keeps every slot at or
below the value it has in `g1`, when the slots of `g1` hold the reset value. -/
theorem descends_write_bounded (E : MathEnv T) (w : Nat) (g1 g' : Grid2Duc T)
    (hreset : ∀ n, w < (g1.nodes.getD n default).tt.length → g1.getNodeTT n w = E.tmax)
    (h : Grid2Duc.descends w [] g1 g') (k : Nat) (v : T) (hv : v ≤ E.tmax) :
    Grid2Duc.descends w [] g1 (g'.setNodeTT k v w) := by
  refine ⟨Grid2Duc.sameButSlot_trans h.1 (Grid2Duc.sameButSlot_setNodeTT g' k v w), fun n => ?_⟩
  refine ⟨?_, fun hf => Bool.noConfusion hf⟩
  unfold Grid2Duc.getNodeTT
  rw [Grid2Duc.getD_setNodeTT]
  by_cases hnk : n = k
  · rw [if_pos hnk]
    by_cases hw : w < (g'.nodes.getD n default).tt.length
    · rw [Node2Dn.getTT_setTT_self _ _ hw]
      have hlen := (h.1.2.2.2.2.2.2.2 n).2.2.2.2.1
      rw [hlen] at hw
      have := hreset n hw
      unfold Grid2Duc.getNodeTT at this
      rw [this]
      exact hv
    · rw [Node2Dn.setTT_of_le _ _ (Nat.le_of_not_lt hw)]
      exact (h.2 n).1
  · rw [if_neg hnk]
    exact (h.2 n).1

theorem initTxNeighbors_descends (E : MathEnv T) (nn : Nat) (t0n : T) (w cellNo : Nat)
    (g : Grid2Duc T) :
    Grid2Duc.descends w [] g (initTxNeighbors E nn t0n w cellNo g) := by
  unfold initTxNeighbors
  refine foldl_rel (Grid2Duc.descends w []) (Grid2Duc.descends_refl w [])
    (fun _ _ _ => Grid2Duc.descends_trans) _ ?_ _ g
  intro g neibNo
  dsimp only
  split
  · exact Grid2Duc.descends_refl w [] g
  · split
    · rename_i hlt
      exact Grid2Duc.descends_setNodeTT g [] neibNo _ w (le_of_lt hlt) rfl
    · exact Grid2Duc.descends_refl w [] g

/-- Seeding one source after the reset leaves every slot at or below its
reset value, when the seeded times are at most the reset value. -/
theorem initTxOne_descends (E : MathEnv T) (g1 : Grid2Duc T) (frozen : List Bool) (p : sxz T)
    (t : T) (w : Nat)
    (hreset : ∀ n, w < (g1.nodes.getD n default).tt.length → g1.getNodeTT n w = E.tmax)
    (ht : t ≤ E.tmax)
    (hdt : ∀ k ∈ g1.neighbors.getD (Grid2Duc.getCellNo g1 p) [],
      t + Grid2Duc.computeDt E g1 (g1.nodes.getD k default) p (Grid2Duc.getCellNo g1 p)
        ≤ E.tmax) :
    Grid2Duc.descends w [] g1 (initTxOne E p t w (g1, frozen)).1 := by
  unfold initTxOne
  split
  · rename_i nn _
    unfold initTxOnNode
    dsimp only
    have h1 : Grid2Duc.descends w [] g1 (g1.setNodeTT nn t w) :=
      descends_write_bounded E w g1 g1 hreset (Grid2Duc.descends_refl w [] g1) nn t ht
    refine Grid2Duc.descends_trans h1 ?_
    exact foldl_rel (Grid2Duc.descends w []) (Grid2Duc.descends_refl w [])
      (fun _ _ _ => Grid2Duc.descends_trans) _
      (fun g cellNo => initTxNeighbors_descends E nn t w cellNo g) _ _
  · unfold initTxInCell
    dsimp only
    have key : ∀ (l : List Nat) (gf : Grid2Duc T × List Bool),
        (∀ k ∈ l, t + Grid2Duc.computeDt E g1 (g1.nodes.getD k default) p
          (Grid2Duc.getCellNo g1 p) ≤ E.tmax) →
        Grid2Duc.descends w [] g1 gf.1 →
        Grid2Duc.descends w [] g1 (l.foldl
          (fun gf neibNo =>
            (gf.1.setNodeTT neibNo
              (t + Grid2Duc.computeDt E gf.1 (gf.1.nodes.getD neibNo default) p
                (Grid2Duc.getCellNo g1 p)) w, gf.2.set neibNo true)) gf).1 := by
      intro l
      induction l with
      | nil => intro gf _ h; exact h
      | cons k l ih =>
        intro gf hb h
        rw [List.foldl_cons]
        apply ih _ (fun k' hk' => hb k' (List.mem_cons_of_mem _ hk'))
        apply descends_write_bounded E w g1 gf.1 hreset h
        rw [computeDt_congr E h.1]
        exact hb k (List.mem_cons_self _ _)
    exact key _ (g1, frozen) hdt (Grid2Duc.descends_refl w [] g1)

/-- Claim C5, amended. In a call of `raytrace` for worker `w`:
every call of the local solver leaves every slot at or below the value it
held; so, for every list of sources, does the whole sweeping loop from the
state left by the seeding; in the seeding, so does every write to the
neighbours of a source vertex; and the seeding of a list of one source leaves
every slot at or below its reset value when the seeded times (`t0`, or
`t0 + dt` for the vertices of the cell of the source) are at most the reset
value. The writes of `initTx` to the vertex of a source and to the vertices of
the cell of a source are unconditional. -/
theorem slots_nonincreasing (E : MathEnv T) (g : Grid2Duifs T) (Tx : List (sxz T))
    (t0 : List T) (w : Nat) :
    (∀ (h : Grid2Duc T) (c n : Nat),
      (Grid2Duc.localSolver E h c w).state.getNodeTT n w ≤ h.getNodeTT n w) ∧
    (∀ n, (raytraceSweeps E g Tx t0 w).state.grid.getNodeTT n w
      ≤ (sweepInit E g Tx t0 w).grid.getNodeTT n w) ∧
    (∀ (h : Grid2Duc T) (nn cellNo n : Nat) (t : T),
      (initTxNeighbors E nn t w cellNo h).getNodeTT n w ≤ h.getNodeTT n w) ∧
    (∀ (p : sxz T) (t : T), t ≤ E.tmax →
      (∀ k ∈ g.neighbors.getD (Grid2Duc.getCellNo g.toGrid2Duc p) [],
        t + Grid2Duc.computeDt E g.toGrid2Duc (g.nodes.getD k default) p
          (Grid2Duc.getCellNo g.toGrid2Duc p) ≤ E.tmax) →
      ∀ n, (sweepInit E g [p] [t] w).grid.getNodeTT n w
        ≤ (reinitNodes E g.toGrid2Duc w).getNodeTT n w) := by
  refine ⟨?_, ?_, ?_, ?_⟩
  · intro h c n
    exact ((Grid2Duc.localSolver_descends E h [] c w rfl).2 n).1
  · intro n
    exact ((whileLoop_follows E w g.nitermax.toNat (sweepInit E g Tx t0 w)).2.2.2.2.2 n).1
  · intro h nn cellNo n t
    exact ((initTxNeighbors_descends E nn t w cellNo h).2 n).1
  · intro p t ht hdt n
    have hs := reinitNodes_sameButSlot E g.toGrid2Duc w
    have hd := initTxOne_descends E (reinitNodes E g.toGrid2Duc w)
      (List.replicate (reinitNodes E g.toGrid2Duc w).nodes.length false) p t w
      (fun n hv => reinitNodes_getNodeTT E g.toGrid2Duc w n hv) ht (by
        rw [getCellNo_congr hs, hs.2.2.2.1]
        intro k hk
        rw [computeDt_congr E hs]
        exact hdt k hk)
    exact (hd.2 n).1

/-- The seeding of a second source raises a slot (against claim C5): on the
rectangle mesh with sources (4,0) at time 0 and (0,0) at time 10, the slot of
node 0 holds 4 after the first source is seeded and 10 after the second; with
the source (0,0) given twice, at times 0 and 10, it holds 0 after the first
and 10 after the second. -/
theorem seeding_raises_slot :
    (initTx exampleEnv (reinitNodes exampleEnv rectangle.toGrid2Duc 0) [⟨4, 0⟩] [0]
      (List.replicate 4 false) 0).1.getNodeTT 0 0 = 4 ∧
    initTx exampleEnv (reinitNodes exampleEnv rectangle.toGrid2Duc 0) [⟨4, 0⟩, ⟨0, 0⟩] [0, 10]
        (List.replicate 4 false) 0
      = initTxOne exampleEnv ⟨0, 0⟩ 10 0
          (initTx exampleEnv (reinitNodes exampleEnv rectangle.toGrid2Duc 0) [⟨4, 0⟩] [0]
            (List.replicate 4 false) 0) ∧
    (sweepInit exampleEnv rectangle [⟨4, 0⟩, ⟨0, 0⟩] [0, 10] 0).grid.getNodeTT 0 0 = 10 ∧
    (initTx exampleEnv (reinitNodes exampleEnv rectangle.toGrid2Duc 0) [⟨0, 0⟩] [0]
      (List.replicate 4 false) 0).1.getNodeTT 0 0 = 0 ∧
    initTx exampleEnv (reinitNodes exampleEnv rectangle.toGrid2Duc 0) [⟨0, 0⟩, ⟨0, 0⟩] [0, 10]
        (List.replicate 4 false) 0
      = initTxOne exampleEnv ⟨0, 0⟩ 10 0
          (initTx exampleEnv (reinitNodes exampleEnv rectangle.toGrid2Duc 0) [⟨0, 0⟩] [0]
            (List.replicate 4 false) 0) ∧
    (sweepInit exampleEnv rectangle [⟨0, 0⟩, ⟨0, 0⟩] [0, 10] 0).grid.getNodeTT 0 0 = 10 := by
  decide!

/-- Claim C5 as amended, on the rectangle mesh: seeding the source (0,0) at
time 0 leaves the slot of node 2 at or below its reset value. -/
theorem slots_nonincreasing_witness :
    (sweepInit exampleEnv rectangle [⟨0, 0⟩] [0] 0).grid.getNodeTT 2 0
      ≤ (reinitNodes exampleEnv rectangle.toGrid2Duc 0).getNodeTT 2 0 :=
  (slots_nonincreasing exampleEnv rectangle [⟨0, 0⟩] [0] 0).2.2.2 ⟨0, 0⟩ 0 (by decide!)
    (by decide!) 2

end Grid2Duifs

end Monotone

/-! ### Frame of the node times in `Grid3Dun` and the band -/

section Frame3D

variable {T : Type} [LinearOrderedField T]

theorem Node3Dn.node3_sameButSlot_refl (w : Nat) (a : Node3Dn T) : Node3Dn.sameButSlot w a a :=
  ⟨rfl, rfl, rfl, rfl, rfl, rfl, rfl, fun _ _ => rfl⟩

theorem Node3Dn.node3_sameButSlot_trans {w : Nat} {a b c : Node3Dn T}
    (h1 : Node3Dn.sameButSlot w a b) (h2 : Node3Dn.sameButSlot w b c) :
    Node3Dn.sameButSlot w a c := by
  obtain ⟨hl1, hl2, hl3, hl4, hl5, hl6, hl7, hl8⟩ := h1
  obtain ⟨hr1, hr2, hr3, hr4, hr5, hr6, hr7, hr8⟩ := h2
  exact ⟨hr1.trans hl1, hr2.trans hl2, hr3.trans hl3, hr4.trans hl4, hr5.trans hl5, hr6.trans hl6,
    hr7.trans hl7, fun w' h => (hr8 w' h).trans (hl8 w' h)⟩

theorem Node3Dn.node3_getTT_setTT_ne (a : Node3Dn T) (t : T) {w w' : Nat} (h : w' ≠ w) :
    (a.setTT t w).getTT w' = a.getTT w' := by
  simp [Node3Dn.getTT, Node3Dn.setTT, List.getD_eq_getElem?_getD,
    List.getElem?_set_ne (Ne.symm h)]

theorem Node3Dn.node3_getTT_setTT_self (a : Node3Dn T) (t : T) {w : Nat}
    (h : w < a.tt.length) : (a.setTT t w).getTT w = t := by
  simp [Node3Dn.getTT, Node3Dn.setTT, List.getD_eq_getElem?_getD, h]

theorem Node3Dn.node3_sameButSlot_setTT (w : Nat) (a : Node3Dn T) (t : T) :
    Node3Dn.sameButSlot w a (a.setTT t w) :=
  ⟨rfl, rfl, rfl, rfl, rfl, rfl, by simp [Node3Dn.setTT],
    fun _ h => Node3Dn.node3_getTT_setTT_ne a t h⟩

namespace Grid3Dun

theorem grid3_sameButSlot_refl (w : Nat) (g : Grid3Dun T) : sameButSlot w g g :=
  ⟨rfl, rfl, rfl, rfl, rfl, fun _ => Node3Dn.node3_sameButSlot_refl w _⟩

theorem grid3_sameButSlot_trans {w : Nat} {g1 g2 g3 : Grid3Dun T}
    (h1 : sameButSlot w g1 g2) (h2 : sameButSlot w g2 g3) : sameButSlot w g1 g3 := by
  obtain ⟨hl1, hl2, hl3, hl4, hl5, hl6⟩ := h1
  obtain ⟨hr1, hr2, hr3, hr4, hr5, hr6⟩ := h2
  exact ⟨hr1.trans hl1, hr2.trans hl2, hr3.trans hl3, hr4.trans hl4, hr5.trans hl5,
    fun n => Node3Dn.node3_sameButSlot_trans (hl6 n) (hr6 n)⟩

/-- The node `n` of the grid after `nodes[nn].setTT(t, w)`. -/
theorem grid3_getD_setNodeTT (g : Grid3Dun T) (nn : Nat) (t : T) (w n : Nat) :
    (g.setNodeTT nn t w).nodes.getD n default
      = if n = nn then (g.nodes.getD n default).setTT t w else g.nodes.getD n default := by
  unfold setNodeTT
  by_cases h : n = nn
  · subst h
    simp only [if_true]
    by_cases hn : n < g.nodes.length
    · simp [List.getD_eq_getElem?_getD, hn]
    · rw [List.set_eq_of_length_le (Nat.le_of_not_lt hn),
        List.getD_eq_default _ _ (Nat.le_of_not_lt hn)]
      rfl
  · simp [List.getD_eq_getElem?_getD, List.getElem?_set_ne (Ne.symm h), h]

theorem grid3_sameButSlot_setNodeTT (g : Grid3Dun T) (nn : Nat) (t : T) (w : Nat) :
    sameButSlot w g (g.setNodeTT nn t w) := by
  refine ⟨rfl, rfl, rfl, rfl, by simp [setNodeTT], fun n => ?_⟩
  rw [grid3_getD_setNodeTT]
  split
  · exact Node3Dn.node3_sameButSlot_setTT w _ t
  · exact Node3Dn.node3_sameButSlot_refl w _

end Grid3Dun

namespace Grid3Dunfm

theorem band_follows_refl (w : Nat) (st : BandState T) : BandState.follows w st st :=
  ⟨Grid3Dun.grid3_sameButSlot_refl w _, rfl, rfl, fun _ h => ⟨h, rfl⟩⟩

theorem band_follows_trans {w : Nat} {s1 s2 s3 : BandState T}
    (h1 : BandState.follows w s1 s2) (h2 : BandState.follows w s2 s3) :
    BandState.follows w s1 s3 := by
  obtain ⟨hl1, hl2, hl3, hl4⟩ := h1
  obtain ⟨hr1, hr2, hr3, hr4⟩ := h2
  refine ⟨Grid3Dun.grid3_sameButSlot_trans hl1 hr1, hr2.trans hl2, hr3.trans hl3, fun v hv => ?_⟩
  obtain ⟨c1, c2⟩ := hl4 v hv
  obtain ⟨d1, d2⟩ := hr4 v c1
  exact ⟨d1, d2.trans c2⟩

/-- The body of the inner loop of `propagate` writes no frozen node. -/
theorem relax_follows (B : Grid3DunBase T) (hB : B.updatesOnlyVertex) (w source : Nat)
    (st : BandState T) (neibNo : Nat) :
    BandState.follows w st (relax B w source st neibNo) := by
  unfold relax
  split
  · exact band_follows_refl w st
  · rename_i hc
    have hnf : ¬ st.frozen.getD neibNo false = true := fun h => hc (Or.inr h)
    obtain ⟨hs, ho⟩ := hB st.grid neibNo w
    have hkeep : ∀ v, st.frozen.getD v false = true →
        (B.localUpdate3D st.grid neibNo w).nodes.getD v default = st.grid.nodes.getD v default := by
      intro v hv
      apply ho
      intro hvn
      rw [hvn] at hv
      exact hnf hv
    dsimp only
    split
    · exact ⟨hs, by simp, rfl, fun v hv => ⟨hv, hkeep v hv⟩⟩
    · exact ⟨hs, rfl, rfl, fun v hv => ⟨hv, hkeep v hv⟩⟩

theorem getD_set_true (l : List Bool) (i v : Nat) (h : l.getD v false = true) :
    (l.set i true).getD v false = true := by
  by_cases hiv : i = v
  · subst hiv
    by_cases hi : i < l.length
    · simp [List.getD_eq_getElem?_getD, hi]
    · rw [List.set_eq_of_length_le (Nat.le_of_not_lt hi)]; exact h
  · rw [List.getD_eq_getElem?_getD, List.getElem?_set_ne hiv, ← List.getD_eq_getElem?_getD]
    exact h

theorem popTop_follows (B : Grid3DunBase T) (w : Nat) (st : BandState T) :
    BandState.follows w st (popTop B w st) :=
  ⟨Grid3Dun.grid3_sameButSlot_refl w _, by simp [popTop], by simp [popTop],
    fun v hv => ⟨getD_set_true _ _ _ hv, rfl⟩⟩

/-- The loops of the body of the loop of `propagate` write no frozen node. -/
theorem popStep_follows_popTop (B : Grid3DunBase T) (hB : B.updatesOnlyVertex) (w : Nat)
    (st : BandState T) : BandState.follows w (popTop B w st) (popStep B w st) := by
  unfold popStep
  exact foldl_rel (BandState.follows w) (band_follows_refl w)
    (fun _ _ _ => band_follows_trans) _
    (fun st cellNo => foldl_rel (BandState.follows w) (band_follows_refl w)
      (fun _ _ _ => band_follows_trans) _ (fun st neibNo => relax_follows B hB w _ st neibNo)
      _ st) _ _

/-- The body of the loop of `propagate` writes no frozen node. -/
theorem popStep_follows (B : Grid3DunBase T) (hB : B.updatesOnlyVertex) (w : Nat)
    (st : BandState T) : BandState.follows w st (popStep B w st) :=
  band_follows_trans (popTop_follows B w st) (popStep_follows_popTop B hB w st)

theorem propagate_follows (B : Grid3DunBase T) (hB : B.updatesOnlyVertex) (w : Nat)
    (fuel : Nat) :
    ∀ st st' : BandState T, propagate B w fuel st = some st' → BandState.follows w st st' := by
  induction fuel with
  | zero =>
    intro st st' h
    rw [propagate] at h
    split at h
    · injection h with h; rw [← h]; exact band_follows_refl w st
    · exact Option.noConfusion h
  | succ fuel ih =>
    intro st st' h
    rw [propagate] at h
    split at h
    · injection h with h; rw [← h]; exact band_follows_refl w st
    · exact band_follows_trans (popStep_follows B hB w st) (ih _ _ h)

theorem relax_popped (B : Grid3DunBase T) (w source : Nat) (st : BandState T) (neibNo : Nat) :
    (relax B w source st neibNo).popped = st.popped := by
  unfold relax
  split
  · rfl
  · dsimp only
    split <;> rfl

theorem popStep_popped (B : Grid3DunBase T) (w : Nat) (st : BandState T) :
    (popStep B w st).popped = st.popped ++ [topNode B w st] := by
  unfold popStep
  have h : (popTop B w st).popped = st.popped ++ [topNode B w st] := rfl
  rw [← h]
  exact foldl_rel (fun a b : BandState T => b.popped = a.popped) (fun _ => rfl)
    (fun _ _ _ h1 h2 => h2.trans h1) _
    (fun st cellNo => foldl_rel (fun a b : BandState T => b.popped = a.popped) (fun _ => rfl)
      (fun _ _ _ h1 h2 => h2.trans h1) _ (fun st neibNo => relax_popped B w _ st neibNo)
      _ st) _ _

/-- Claim C7. Given that the 3D local update of a vertex writes only the slot
of that vertex: a node that is frozen in a state of the loop of `propagate`
(it was marked by `initBand` or popped earlier) stays frozen and is the same,
in every slot, in every later state of the call: when the loop ends, after
every pass of the loop, and after every update of a neighbour inside a pass;
and the pass that pops a node (recorded in `popped`) marks it frozen and does
not write it. -/
theorem propagate_causality (B : Grid3DunBase T) (hB : B.updatesOnlyVertex) (w : Nat) :
    (∀ (fuel : Nat) (st st' : BandState T), propagate B w fuel st = some st' →
      ∀ v, st.frozen.getD v false = true →
        st'.frozen.getD v false = true ∧
        st'.grid.nodes.getD v default = st.grid.nodes.getD v default) ∧
    (∀ (st : BandState T) (v : Nat), st.frozen.getD v false = true →
      (popStep B w st).frozen.getD v false = true ∧
      (popStep B w st).grid.nodes.getD v default = st.grid.nodes.getD v default) ∧
    (∀ (source : Nat) (st : BandState T) (neibNo v : Nat), st.frozen.getD v false = true →
      (relax B w source st neibNo).frozen.getD v false = true ∧
      (relax B w source st neibNo).grid.nodes.getD v default = st.grid.nodes.getD v default) ∧
    (∀ st : BandState T,
      (st.grid.nodes.getD (topNode B w st) default).gridIndex = topNode B w st →
      topNode B w st < st.frozen.length →
      (popStep B w st).popped = st.popped ++ [topNode B w st] ∧
      (popStep B w st).frozen.getD (topNode B w st) false = true ∧
      (popStep B w st).grid.nodes.getD (topNode B w st) default
        = st.grid.nodes.getD (topNode B w st) default) := by
  refine ⟨fun fuel st st' h => (propagate_follows B hB w fuel st st' h).2.2.2,
    fun st => (popStep_follows B hB w st).2.2.2,
    fun source st neibNo => (relax_follows B hB w source st neibNo).2.2.2, ?_⟩
  intro st hgi hlt
  have h1 : (popTop B w st).frozen.getD (topNode B w st) false = true := by
    simp only [popTop, hgi]
    simp [List.getD_eq_getElem?_getD, hlt]
  obtain ⟨h2, h3⟩ := (popStep_follows_popTop B hB w st).2.2.2 _ h1
  exact ⟨popStep_popped B w st, h2, h3⟩

end Grid3Dunfm

end Frame3D

/-! ### Termination of the Fast Marching loop -/

section Marching

variable {T : Type} [LinearOrderedField T]

/-- A loop whose body, for the elements of the list, steps along a reflexive
and transitive relation steps along it as a whole. -/
theorem foldl_rel_mem {α β : Type} (R : α → α → Prop) (hrefl : ∀ a, R a a)
    (htrans : ∀ a b c, R a b → R b c → R a c) (f : α → β → α) :
    ∀ (l : List β), (∀ a, ∀ b ∈ l, R a (f a b)) → ∀ a : α, R a (l.foldl f a) := by
  intro l
  induction l with
  | nil => intro _ a; exact hrefl a
  | cons b l ih =>
    intro hf a
    exact htrans _ _ _ (hf a b (List.mem_cons_self _ _))
      (ih (fun a' b' hb' => hf a' b' (List.mem_cons_of_mem _ hb')) (f a b))

theorem countP_lt_of_mem (l : List Nat) (p p' : Nat → Bool) (v : Nat) (hv : v ∈ l)
    (hle : ∀ u, p' u = true → p u = true) (hp : p v = true) (hp' : p' v = false) :
    l.countP p' < l.countP p := by
  induction l with
  | nil => simp at hv
  | cons a l ih =>
    have hmono : l.countP p' ≤ l.countP p := List.countP_mono_left (fun x _ h => hle x h)
    rw [List.countP_cons, List.countP_cons]
    rcases List.mem_cons.mp hv with rfl | hv
    · rw [hp, hp']
      simp only [if_true, Bool.false_eq_true, if_false]
      omega
    · have := ih hv
      by_cases hpa : p' a = true
      · rw [hpa, hle a hpa]
        simp only [if_true]
        omega
      · have : p' a = false := by simpa using hpa
        rw [this]
        simp only [Bool.false_eq_true, if_false]
        split <;> omega

theorem mem_getD_of_mem {l : List (List Nat)} {c v : Nat} (h : v ∈ l.getD c []) :
    ∃ nb ∈ l, v ∈ nb := by
  by_cases hc : c < l.length
  · refine ⟨l.get ⟨c, hc⟩, List.get_mem l c hc, ?_⟩
    simpa [List.getD_eq_getElem?_getD, hc] using h
  · rw [List.getD_eq_default _ _ (Nat.le_of_not_lt hc)] at h
    simp at h

namespace Grid3Dunfm

/-- The body of the inner loop of `propagate` does not raise the measure. -/
theorem relax_measure (B : Grid3DunBase T) (hB : B.updatesOnlyVertex) (w source : Nat)
    (N : Nat) (nbrs : List (List Nat)) (st : BandState T) (neibNo : Nat)
    (hs : st.sized N nbrs) (hn : neibNo < N) :
    (relax B w source st neibNo).sized N nbrs ∧
    (relax B w source st neibNo).measure ≤ st.measure := by
  obtain ⟨h1, h2, h3⟩ := hs
  unfold relax
  split
  · exact ⟨⟨h1, h2, h3⟩, Nat.le_refl _⟩
  · rename_i hc
    have hnf : st.frozen.getD neibNo false = false := by
      cases h : st.frozen.getD neibNo false
      · rfl
      · exact absurd (Or.inr h) hc
    have hnb : (B.localUpdate3D st.grid neibNo w).neighbors = nbrs :=
      (hB st.grid neibNo w).1.2.1.trans h3
    dsimp only
    split
    · rename_i hib
      refine ⟨⟨by simp [h1], h2, hnb⟩, ?_⟩
      unfold BandState.measure BandState.waiting
      simp only [List.length_append, List.length_singleton]
      have := countP_lt_of_mem (List.range st.frozen.length)
        (fun v => !(st.frozen.getD v false) && !(st.inBand.getD v false))
        (fun v => !(st.frozen.getD v false) && !((st.inBand.set neibNo true).getD v false))
        neibNo (List.mem_range.mpr (h2 ▸ hn)) ?_ ?_ ?_
      · omega
      · intro u hu
        simp only [Bool.and_eq_true, Bool.not_eq_true'] at hu ⊢
        refine ⟨hu.1, ?_⟩
        cases hq : st.inBand.getD u false
        · rfl
        · rw [getD_set_true _ _ _ hq] at hu
          exact Bool.noConfusion hu.2
      · show (!(st.frozen.getD neibNo false) && !(st.inBand.getD neibNo false)) = true
        rw [hnf, hib]
        rfl
      · have : (st.inBand.set neibNo true).getD neibNo false = true := by
          simp [List.getD_eq_getElem?_getD, h1, hn]
        show (!(st.frozen.getD neibNo false) &&
          !((st.inBand.set neibNo true).getD neibNo false)) = false
        rw [this, hnf]
        rfl
    · exact ⟨⟨h1, h2, hnb⟩, Nat.le_refl _⟩

/-- Popping the top of a band that is not empty lowers the measure. -/
theorem popTop_measure (B : Grid3DunBase T) (w : Nat) (N : Nat) (nbrs : List (List Nat))
    (st : BandState T) (hs : st.sized N nbrs) (hne : st.narrow_band ≠ []) :
    (popTop B w st).sized N nbrs ∧ (popTop B w st).measure + 1 ≤ st.measure := by
  obtain ⟨h1, h2, h3⟩ := hs
  refine ⟨⟨by simp [popTop, h1], by simp [popTop, h2], h3⟩, ?_⟩
  have hpos := B.top_lt st.grid w st.narrow_band hne
  have hlen : (popTop B w st).narrow_band.length + 1 = st.narrow_band.length := by
    simp only [popTop, List.length_eraseIdx, hpos, if_true]
    omega
  have hwait : (popTop B w st).waiting ≤ st.waiting := by
    unfold BandState.waiting
    have e : (popTop B w st).frozen.length = st.frozen.length := by simp [popTop]
    rw [e]
    apply List.countP_mono_left
    intro u _ hu
    simp only [popTop, Bool.and_eq_true, Bool.not_eq_true'] at hu ⊢
    generalize (st.grid.nodes.getD (topNode B w st) default).gridIndex = gi at hu
    by_cases hgu : gi = u
    · subst hgu
      by_cases hlt : gi < st.frozen.length
      · have : (st.frozen.set gi true).getD gi false = true := by
          simp [List.getD_eq_getElem?_getD, hlt]
        rw [this] at hu
        exact Bool.noConfusion hu.1
      · have hlt' : ¬ gi < st.inBand.length := by rw [h1, ← h2]; exact hlt
        rw [List.set_eq_of_length_le (Nat.le_of_not_lt hlt),
          List.set_eq_of_length_le (Nat.le_of_not_lt hlt')] at hu
        exact hu
    · rw [List.getD_eq_getElem?_getD, List.getElem?_set_ne hgu,
        List.getD_eq_getElem?_getD, List.getElem?_set_ne hgu] at hu
      rw [List.getD_eq_getElem?_getD, List.getD_eq_getElem?_getD]
      exact hu
  unfold BandState.measure
  omega

/-- A pass of the loop of `propagate` lowers the measure. -/
theorem popStep_measure (B : Grid3DunBase T) (hB : B.updatesOnlyVertex) (w : Nat) (N : Nat)
    (nbrs : List (List Nat)) (hnb : ∀ nb ∈ nbrs, ∀ v ∈ nb, v < N) (st : BandState T)
    (hs : st.sized N nbrs) (hne : st.narrow_band ≠ []) :
    (popStep B w st).sized N nbrs ∧ (popStep B w st).measure + 1 ≤ st.measure := by
  obtain ⟨hs1, hm1⟩ := popTop_measure B w N nbrs st hs hne
  have key : (popTop B w st).sized N nbrs →
      (popStep B w st).sized N nbrs ∧ (popStep B w st).measure ≤ (popTop B w st).measure := by
    unfold popStep
    dsimp only
    refine foldl_rel
      (fun a b : BandState T => a.sized N nbrs → b.sized N nbrs ∧ b.measure ≤ a.measure)
      (fun a h => ⟨h, Nat.le_refl _⟩)
      (fun a b c h1 h2 ha => ⟨(h2 (h1 ha).1).1, Nat.le_trans (h2 (h1 ha).1).2 (h1 ha).2⟩)
      _ ?_ _ _
    intro a cellNo ha
    have hl : a.grid.neighbors.getD cellNo [] = nbrs.getD cellNo [] := by rw [ha.2.2]
    rw [hl]
    refine foldl_rel_mem
      (fun a b : BandState T => a.sized N nbrs → b.sized N nbrs ∧ b.measure ≤ a.measure)
      (fun a h => ⟨h, Nat.le_refl _⟩)
      (fun a b c h1 h2 ha => ⟨(h2 (h1 ha).1).1, Nat.le_trans (h2 (h1 ha).1).2 (h1 ha).2⟩)
      _ _ ?_ a ha
    intro a' v hv ha'
    obtain ⟨nb, hnbm, hvn⟩ := mem_getD_of_mem hv
    exact relax_measure B hB w _ N nbrs a' v ha' (hnb nb hnbm v hvn)
  obtain ⟨hs2, hm2⟩ := key hs1
  exact ⟨hs2, by omega⟩

/-- With fuel for `measure` passes, `propagate` ends, after at most `measure`
pops. -/
theorem propagate_terminates (B : Grid3DunBase T) (hB : B.updatesOnlyVertex) (w : Nat)
    (N : Nat) (nbrs : List (List Nat)) (hnb : ∀ nb ∈ nbrs, ∀ v ∈ nb, v < N) (fuel : Nat) :
    ∀ st : BandState T, st.sized N nbrs → st.measure ≤ fuel →
      ∃ st', propagate B w fuel st = some st' ∧ st'.narrow_band = [] ∧
        st'.popped.length + st'.measure ≤ st.popped.length + st.measure := by
  induction fuel with
  | zero =>
    intro st _ hm
    have : st.narrow_band = [] := by
      unfold BandState.measure at hm
      exact List.length_eq_zero.mp (by omega)
    exact ⟨st, by simp [propagate, this], this, Nat.le_refl _⟩
  | succ fuel ih =>
    intro st hs hm
    by_cases hne : st.narrow_band = []
    · exact ⟨st, by simp [propagate, hne], hne, Nat.le_refl _⟩
    · obtain ⟨hs', hm'⟩ := popStep_measure B hB w N nbrs hnb st hs hne
      obtain ⟨st', h1, h2, h3⟩ := ih (popStep B w st) hs' (by omega)
      refine ⟨st', by rw [propagate, if_neg hne]; exact h1, h2, ?_⟩
      have hp := popStep_popped B w st
      have : (popStep B w st).popped.length = st.popped.length + 1 := by
        rw [hp]; simp
      omega

/-- More fuel does not change the result of `propagate`. -/
theorem propagate_fuel_mono (B : Grid3DunBase T) (w : Nat) (fuel : Nat) :
    ∀ (st st' : BandState T) (k : Nat), propagate B w fuel st = some st' →
      propagate B w (fuel + k) st = some st' := by
  induction fuel with
  | zero =>
    intro st st' k h
    rw [propagate] at h
    split at h
    · rename_i he
      cases k with
      | zero => simp [propagate, he, h]
      | succ k => rw [Nat.zero_add, propagate, if_pos he]; exact h
    · exact Option.noConfusion h
  | succ fuel ih =>
    intro st st' k h
    rw [propagate] at h
    rw [Nat.succ_add, propagate]
    split
    · rename_i he
      rw [if_pos he] at h
      exact h
    · rename_i he
      rw [if_neg he] at h
      exact ih _ _ k h

/-- When the band holds no node twice and only flagged nodes, the measure is at
most the number of nodes. -/
theorem measure_le_of_nodup (N : Nat) (nbrs : List (List Nat)) (st : BandState T)
    (h : st.seeded N nbrs) (hnd : st.narrow_band.Nodup) : st.measure ≤ N := by
  obtain ⟨⟨hi, hf, _⟩, hlen, hb⟩ := h
  have h1 : st.narrow_band.length
      ≤ (List.range N).countP (fun v => st.frozen.getD v false) := by
    rw [List.countP_eq_length_filter]
    apply List.Subperm.length_le
    apply List.subperm_of_subset hnd
    intro v hv
    obtain ⟨hvN, _, hvf⟩ := hb v hv
    rw [hlen] at hvN
    exact List.mem_filter.mpr ⟨List.mem_range.mpr hvN, hvf⟩
  have h2 : st.waiting
      ≤ (List.range N).countP (fun v => decide ¬ (st.frozen.getD v false) = true) := by
    unfold BandState.waiting
    rw [hf]
    apply List.countP_mono_left
    intro v _ hv
    simp only [Bool.and_eq_true, Bool.not_eq_true'] at hv
    show decide (¬ st.frozen.getD v false = true) = true
    rw [hv.1]
    rfl
  have h3 := List.length_eq_countP_add_countP (fun v => st.frozen.getD v false) (List.range N)
  rw [List.length_range] at h3
  unfold BandState.measure
  omega

theorem getD_set_ne_bool (l : List Bool) (i v : Nat) (b : Bool) (h : i ≠ v) :
    (l.set i b).getD v false = l.getD v false := by
  rw [List.getD_eq_getElem?_getD, List.getElem?_set_ne h, ← List.getD_eq_getElem?_getD]

theorem getD_set_self_bool (l : List Bool) (i : Nat) (b : Bool) (h : i < l.length) :
    (l.set i b).getD i false = b := by
  simp [List.getD_eq_getElem?_getD, h]

/-- Popping the top keeps the band and the record of the pops without
repetition. -/
theorem popTop_popsOnce (B : Grid3DunBase T) (w : Nat) (N : Nat) (nbrs : List (List Nat))
    (st : BandState T) (h : st.popsOnce N nbrs) (hne : st.narrow_band ≠ []) :
    (popTop B w st).popsOnce N nbrs := by
  obtain ⟨⟨hi, hf, hn⟩, hlen, hidx, hbn, hbf, hpn, hpf⟩ := h
  have hpos := B.top_lt st.grid w st.narrow_band hne
  have hsrc : topNode B w st = st.narrow_band.get ⟨_, hpos⟩ := by
    simp [topNode, List.getD_eq_getElem?_getD, hpos]
  have hmem : topNode B w st ∈ st.narrow_band := by
    rw [hsrc]; exact List.get_mem _ _ _
  obtain ⟨hsN, hsb⟩ := hbf _ hmem
  have hgi : (st.grid.nodes.getD (topNode B w st) default).gridIndex = topNode B w st :=
    hidx _ hsN
  have hnot : ∀ v ∈ st.narrow_band.eraseIdx (B.top st.grid w st.narrow_band),
      v ≠ topNode B w st := by
    intro v hv heq
    obtain ⟨k, hk, hkne, hkv⟩ := List.mem_eraseIdx_iff_getElem.mp hv
    rw [heq, hsrc] at hkv
    have := (List.Nodup.getElem_inj_iff hbn).mp hkv
    exact hkne this
  refine ⟨⟨by simp [popTop, hi], by simp [popTop, hf], hn⟩, hlen, hidx,
    List.Nodup.eraseIdx _ hbn, ?_, ?_, ?_⟩
  · intro v hv
    have hv' : v ∈ st.narrow_band := (List.eraseIdx_sublist _ _).subset hv
    refine ⟨(hbf v hv').1, ?_⟩
    simp only [popTop, hgi]
    rw [getD_set_ne_bool _ _ _ _ (Ne.symm (hnot v hv))]
    exact (hbf v hv').2
  · simp only [popTop]
    refine List.Nodup.append hpn (List.nodup_singleton _) ?_
    intro x hx hx'
    rw [List.mem_singleton.mp hx'] at hx
    have := (hpf _ hx).2
    rw [hsb] at this
    exact Bool.noConfusion this
  · intro v hv
    simp only [popTop, List.mem_append, List.mem_singleton] at hv
    simp only [popTop, hgi]
    rcases hv with hv | rfl
    · have hne' : topNode B w st ≠ v := by
        intro heq
        have := (hpf v hv).2
        rw [← heq, hsb] at this
        exact Bool.noConfusion this
      exact ⟨getD_set_true _ _ _ (hpf v hv).1,
        by rw [getD_set_ne_bool _ _ _ _ hne']; exact (hpf v hv).2⟩
    · exact ⟨getD_set_self_bool _ _ _ (by rw [hf]; exact hsN),
        getD_set_self_bool _ _ _ (by rw [hi]; exact hsN)⟩

/-- The body of the inner loop of `propagate` keeps the band and the record
of the pops without repetition. -/
theorem relax_popsOnce (B : Grid3DunBase T) (hB : B.updatesOnlyVertex) (w source : Nat)
    (N : Nat) (nbrs : List (List Nat)) (st : BandState T) (neibNo : Nat)
    (h : st.popsOnce N nbrs) (hno : neibNo < N) :
    (relax B w source st neibNo).popsOnce N nbrs := by
  obtain ⟨⟨hi, hf, hn⟩, hlen, hidx, hbn, hbf, hpn, hpf⟩ := h
  unfold relax
  split
  · exact ⟨⟨hi, hf, hn⟩, hlen, hidx, hbn, hbf, hpn, hpf⟩
  · rename_i hc
    have hnf : st.frozen.getD neibNo false = false := by
      cases hq : st.frozen.getD neibNo false
      · rfl
      · exact absurd (Or.inr hq) hc
    obtain ⟨hs, _⟩ := hB st.grid neibNo w
    have hlen' : (B.localUpdate3D st.grid neibNo w).nodes.length = N := hs.2.2.2.2.1.trans hlen
    have hidx' : ∀ v, v < N →
        ((B.localUpdate3D st.grid neibNo w).nodes.getD v default).gridIndex = v :=
      fun v hv => ((hs.2.2.2.2.2 v).2.2.2.1).trans (hidx v hv)
    have hn' : (B.localUpdate3D st.grid neibNo w).neighbors = nbrs := hs.2.1.trans hn
    dsimp only
    split
    · rename_i hib
      refine ⟨⟨by simp [hi], hf, hn'⟩, hlen', hidx', ?_, ?_, hpn, ?_⟩
      · refine List.Nodup.append hbn (List.nodup_singleton _) ?_
        intro x hx hx'
        rw [List.mem_singleton.mp hx'] at hx
        have := (hbf _ hx).2
        rw [hib] at this
        exact Bool.noConfusion this
      · intro v hv
        simp only [List.mem_append, List.mem_singleton] at hv
        rcases hv with hv | rfl
        · exact ⟨(hbf v hv).1, getD_set_true _ _ _ (hbf v hv).2⟩
        · exact ⟨hno, getD_set_self_bool _ _ _ (by rw [hi]; exact hno)⟩
      · intro v hv
        have hne' : neibNo ≠ v := by
          intro heq
          have := (hpf v hv).1
          rw [← heq, hnf] at this
          exact Bool.noConfusion this
        exact ⟨(hpf v hv).1, by rw [getD_set_ne_bool _ _ _ _ hne']; exact (hpf v hv).2⟩
    · exact ⟨⟨hi, hf, hn'⟩, hlen', hidx', hbn, hbf, hpn, hpf⟩

theorem popStep_popsOnce (B : Grid3DunBase T) (hB : B.updatesOnlyVertex) (w : Nat) (N : Nat)
    (nbrs : List (List Nat)) (hnb : ∀ nb ∈ nbrs, ∀ v ∈ nb, v < N) (st : BandState T)
    (h : st.popsOnce N nbrs) (hne : st.narrow_band ≠ []) :
    (popStep B w st).popsOnce N nbrs := by
  have h1 := popTop_popsOnce B w N nbrs st h hne
  unfold popStep
  dsimp only
  refine foldl_rel (fun a b : BandState T => a.popsOnce N nbrs → b.popsOnce N nbrs)
    (fun a ha => ha) (fun a b c hab hbc ha => hbc (hab ha)) _ ?_ _ _ h1
  intro a cellNo ha
  have hl : a.grid.neighbors.getD cellNo [] = nbrs.getD cellNo [] := by rw [ha.1.2.2]
  rw [hl]
  refine foldl_rel_mem (fun a b : BandState T => a.popsOnce N nbrs → b.popsOnce N nbrs)
    (fun a ha => ha) (fun a b c hab hbc ha => hbc (hab ha)) _ _ ?_ a ha
  intro a' v hv ha'
  obtain ⟨nb, hnbm, hvn⟩ := mem_getD_of_mem hv
  exact relax_popsOnce B hB w _ N nbrs a' v ha' (hnb nb hnbm v hvn)

theorem propagate_popsOnce (B : Grid3DunBase T) (hB : B.updatesOnlyVertex) (w : Nat) (N : Nat)
    (nbrs : List (List Nat)) (hnb : ∀ nb ∈ nbrs, ∀ v ∈ nb, v < N) (fuel : Nat) :
    ∀ st st' : BandState T, propagate B w fuel st = some st' → st.popsOnce N nbrs →
      st'.popsOnce N nbrs := by
  induction fuel with
  | zero =>
    intro st st' h hk
    rw [propagate] at h
    split at h
    · injection h with h; rw [← h]; exact hk
    · exact Option.noConfusion h
  | succ fuel ih =>
    intro st st' h hk
    rw [propagate] at h
    split at h
    · injection h with h; rw [← h]; exact hk
    · rename_i hne
      exact ih _ _ h (popStep_popsOnce B hB w N nbrs hnb st hk hne)

end Grid3Dunfm

end Marching

/-! ### Seeding of the band -/

section Seeding3D

variable {T : Type} [LinearOrderedField T]

namespace Grid3Dunfm

theorem sameShape_refl (w : Nat) (st : BandState T) : BandState.sameShape w st st :=
  ⟨Grid3Dun.grid3_sameButSlot_refl w _, rfl, rfl, rfl⟩

theorem sameShape_trans {w : Nat} {s1 s2 s3 : BandState T}
    (h1 : BandState.sameShape w s1 s2) (h2 : BandState.sameShape w s2 s3) :
    BandState.sameShape w s1 s3 :=
  ⟨Grid3Dun.grid3_sameButSlot_trans h1.1 h2.1, h2.2.1.trans h1.2.1,
    h2.2.2.1.trans h1.2.2.1, h2.2.2.2.trans h1.2.2.2⟩

theorem pushFrozen_sameShape (w : Nat) (st : BandState T) (no : Nat) :
    BandState.sameShape w st (pushFrozen st no) :=
  ⟨Grid3Dun.grid3_sameButSlot_refl w _, by simp [pushFrozen], by simp [pushFrozen], rfl⟩

theorem setTT_sameShape (w : Nat) (st : BandState T) (no : Nat) (t : T) :
    BandState.sameShape w st { st with grid := st.grid.setNodeTT no t w } :=
  ⟨Grid3Dun.grid3_sameButSlot_setNodeTT _ _ _ _, rfl, rfl, rfl⟩

theorem seedNode_sameShape (t0n dt : T) (w no : Nat) (sa : BandState T × Nat) :
    BandState.sameShape w sa.1 (seedNode t0n dt w no sa).1 := by
  unfold seedNode
  split
  · dsimp only
    split
    · exact sameShape_trans (setTT_sameShape w sa.1 no _) (pushFrozen_sameShape w _ no)
    · exact setTT_sameShape w sa.1 no _
  · exact sameShape_refl w _

theorem populateAround_sameShape (B : Grid3DunBase T) (nn : Nat) (t0n : T) (w : Nat)
    (st : BandState T) : BandState.sameShape w st (populateAround B nn t0n w st) := by
  unfold populateAround
  refine foldl_rel (BandState.sameShape w) (sameShape_refl w)
    (fun _ _ _ => sameShape_trans) _ ?_ _ _
  intro st cellNo
  refine foldl_rel (BandState.sameShape w) (sameShape_refl w)
    (fun _ _ _ => sameShape_trans) _ ?_ _ _
  intro st neibNo
  dsimp only
  split
  · exact sameShape_refl w _
  · exact seedNode_sameShape t0n _ w neibNo (st, 0)

theorem withinRadiusOfNode_sameShape (E : MathEnv T) (B : Grid3DunBase T) (nn : Nat) (t0n : T)
    (w : Nat) (st : BandState T) :
    BandState.sameShape w st (withinRadiusOfNode E B nn t0n w st).1 := by
  unfold withinRadiusOfNode
  refine foldl_rel (fun a b : BandState T × Nat => BandState.sameShape w a.1 b.1)
    (fun a => sameShape_refl w a.1) (fun _ _ _ => sameShape_trans) _ ?_ _ (st, 0)
  intro sa no
  dsimp only
  split
  · exact sameShape_refl w _
  · split
    · exact seedNode_sameShape t0n _ w no sa
    · exact sameShape_refl w _

theorem withinRadiusOfPoint_sameShape (E : MathEnv T) (Txn : sxyz T) (t0n : T)
    (w : Nat) (st : BandState T) :
    BandState.sameShape w st (withinRadiusOfPoint E Txn t0n w st).1 := by
  unfold withinRadiusOfPoint
  refine foldl_rel (fun a b : BandState T × Nat => BandState.sameShape w a.1 b.1)
    (fun a => sameShape_refl w a.1) (fun _ _ _ => sameShape_trans) _ ?_ _ (st, 0)
  intro sa no
  dsimp only
  split
  · exact seedNode_sameShape t0n _ w no sa
  · exact sameShape_refl w _

theorem abortIfNone_state (sa : BandState T × Nat) : (abortIfNone sa).state = sa.1 := by
  unfold abortIfNone
  split <;> rfl

theorem initBandOnNode_sameShape (E : MathEnv T) (B : Grid3DunBase T) (single : Bool)
    (nn : Nat) (t0n : T) (w : Nat) (st : BandState T) :
    BandState.sameShape w st (initBandOnNode E B single nn t0n w st).state := by
  unfold initBandOnNode
  have h0 : BandState.sameShape w st
      (pushFrozen { st with grid := st.grid.setNodeTT nn t0n w } nn) :=
    sameShape_trans (setTT_sameShape w st nn t0n) (pushFrozen_sameShape w _ nn)
  dsimp only
  split
  · split
    · exact sameShape_trans h0 (populateAround_sameShape B nn t0n w _)
    · rw [abortIfNone_state]
      exact sameShape_trans h0 (withinRadiusOfNode_sameShape E B nn t0n w _)
  · exact h0

theorem initBandInCell_sameShape (E : MathEnv T) (B : Grid3DunBase T) (single : Bool)
    (Txn : sxyz T) (t0n : T) (w : Nat) (st : BandState T) :
    BandState.sameShape w st (initBandInCell E B single Txn t0n w st).state := by
  unfold initBandInCell
  dsimp only
  split
  · refine foldl_rel (BandState.sameShape w) (sameShape_refl w)
      (fun _ _ _ => sameShape_trans) _ ?_ _ _
    intro st neibNo
    exact sameShape_trans (setTT_sameShape w st neibNo _) (pushFrozen_sameShape w _ neibNo)
  · split
    · rw [abortIfNone_state]
      exact withinRadiusOfPoint_sameShape E Txn t0n w st
    · exact sameShape_refl w _

theorem initBandOne_sameShape (E : MathEnv T) (B : Grid3DunBase T) (single : Bool)
    (Txn : sxyz T) (t0n : T) (w : Nat) (st : BandState T) :
    BandState.sameShape w st (initBandOne E B single Txn t0n w st).state := by
  unfold initBandOne
  split
  · exact initBandOnNode_sameShape E B single _ t0n w st
  · exact initBandInCell_sameShape E B single Txn t0n w st

theorem initBandFrom_sameShape (E : MathEnv T) (B : Grid3DunBase T) (single : Bool)
    (t0 : List T) (w : Nat) (Tx : List (sxyz T)) :
    ∀ (n : Nat) (st : BandState T),
      BandState.sameShape w st (initBandFrom E B single t0 w n Tx st).state := by
  induction Tx with
  | nil => intro n st; exact sameShape_refl w st
  | cons Txn rest ih =>
    intro n st
    rw [initBandFrom]
    exact Outcome.andThen_rel (BandState.sameShape w) (fun _ _ _ => sameShape_trans) _ _ _
      (initBandOne_sameShape E B single Txn _ w st) (ih _ _)

theorem grid3_reinitNodes_sameButSlot (E : MathEnv T) (g : Grid3Dun T) (w : Nat) :
    Grid3Dun.sameButSlot w g (reinitNodes E g w) :=
  foldl_rel (Grid3Dun.sameButSlot w) (Grid3Dun.grid3_sameButSlot_refl w)
    (fun _ _ _ => Grid3Dun.grid3_sameButSlot_trans) _
    (fun g n => Grid3Dun.grid3_sameButSlot_setNodeTT g n E.tmax w) _ g

/-- The state of the band after the seeding: the grid is the grid given to
`raytrace` but for slot `threadNo`, and the flag vectors have one entry per
node. -/
theorem raytraceSeed_shape (E : MathEnv T) (B : Grid3DunBase T) (g : Grid3Dun T)
    (Tx : List (sxyz T)) (t0 : List T) (w : Nat) :
    Grid3Dun.sameButSlot w g (raytraceSeed E B g Tx t0 w).state.grid ∧
    (raytraceSeed E B g Tx t0 w).state.sized g.nodes.length g.neighbors ∧
    (raytraceSeed E B g Tx t0 w).state.popped = [] := by
  have hr := grid3_reinitNodes_sameButSlot E g w
  have h := initBandFrom_sameShape E B (decide (Tx.length = 1)) t0 w Tx 0
    { grid := reinitNodes E g w
      narrow_band := []
      inBand := List.replicate (reinitNodes E g w).nodes.length false
      frozen := List.replicate (reinitNodes E g w).nodes.length false
      popped := [] }
  obtain ⟨h1, h2, h3, h4⟩ := h
  have hlen : (reinitNodes E g w).nodes.length = g.nodes.length := hr.2.2.2.2.1
  refine ⟨Grid3Dun.grid3_sameButSlot_trans hr h1, ⟨?_, ?_, ?_⟩, h4⟩
  · rw [show (raytraceSeed E B g Tx t0 w).state.inBand.length = _ from h2]
    simp [hlen]
  · rw [show (raytraceSeed E B g Tx t0 w).state.frozen.length = _ from h3]
    simp [hlen]
  · exact (h1.2.1).trans hr.2.1

/-- A push with the flags set keeps every node of the band flagged, and keeps
the band without repetition when the node pushed is not in it. -/
theorem pushFrozen_seeded (N : Nat) (nbrs : List (List Nat)) (st : BandState T) (no : Nat)
    (h : st.seeded N nbrs) (hno : no < N) :
    (pushFrozen st no).seeded N nbrs ∧
    (st.narrow_band.Nodup → no ∉ st.narrow_band → (pushFrozen st no).narrow_band.Nodup) := by
  obtain ⟨⟨hi, hf, hn⟩, hlen, hb⟩ := h
  refine ⟨⟨⟨by simp [pushFrozen, hi], by simp [pushFrozen, hf], hn⟩, hlen, ?_⟩, ?_⟩
  · intro v hv
    simp only [pushFrozen, List.mem_append, List.mem_singleton] at hv
    rcases hv with hv | rfl
    · obtain ⟨h1, h2, h3⟩ := hb v hv
      exact ⟨h1, getD_set_true _ _ _ h2, getD_set_true _ _ _ h3⟩
    · refine ⟨by rw [show (pushFrozen st v).grid = st.grid from rfl, hlen]; exact hno, ?_, ?_⟩
      · simp [pushFrozen, List.getD_eq_getElem?_getD, hi, hno]
      · simp [pushFrozen, List.getD_eq_getElem?_getD, hf, hno]
  · intro hnd hnotin
    simp only [pushFrozen]
    exact List.Nodup.append hnd (List.nodup_singleton no)
      (fun x hx hx' => hnotin (by rw [← List.mem_singleton.mp hx']; exact hx))

theorem setTT_seeded (N : Nat) (nbrs : List (List Nat)) (st : BandState T) (no : Nat) (t : T)
    (w : Nat) (h : st.seeded N nbrs) :
    BandState.seeded N nbrs { st with grid := st.grid.setNodeTT no t w } := by
  obtain ⟨⟨hi, hf, hn⟩, hlen, hb⟩ := h
  have hl : (st.grid.setNodeTT no t w).nodes.length = st.grid.nodes.length := by
    simp [Grid3Dun.setNodeTT]
  exact ⟨⟨hi, hf, hn⟩, hl.trans hlen, fun v hv => ⟨by
    show v < (st.grid.setNodeTT no t w).nodes.length
    rw [hl]; exact (hb v hv).1, (hb v hv).2⟩⟩

/-- The guarded seeding of a node keeps the band flagged and without
repetition. -/
theorem seedNode_seeded (N : Nat) (nbrs : List (List Nat)) (t0n dt : T) (w no : Nat)
    (sa : BandState T × Nat) (h : sa.1.seeded N nbrs) (hno : no < N) :
    (seedNode t0n dt w no sa).1.seeded N nbrs ∧
    (sa.1.narrow_band.Nodup → (seedNode t0n dt w no sa).1.narrow_band.Nodup) := by
  unfold seedNode
  split
  · dsimp only
    have h1 := setTT_seeded N nbrs sa.1 no (t0n + dt) w h
    split
    · rename_i hib
      obtain ⟨h2, h3⟩ := pushFrozen_seeded N nbrs _ no h1 hno
      refine ⟨h2, fun hnd => h3 hnd ?_⟩
      intro hmem
      have := (h.2.2 no hmem).2.1
      rw [show ({ sa.1 with grid := sa.1.grid.setNodeTT no (t0n + dt) w } : BandState T).inBand
        = sa.1.inBand from rfl] at hib
      rw [hib] at this
      exact Bool.noConfusion this
    · exact ⟨h1, fun hnd => hnd⟩
  · exact ⟨h, fun hnd => hnd⟩

theorem keepsSeeded_refl (N : Nat) (nbrs : List (List Nat)) (a : BandState T) :
    keepsSeeded N nbrs a a := fun h => ⟨h, fun hnd => hnd⟩

theorem keepsSeeded_trans (N : Nat) (nbrs : List (List Nat)) (a b c : BandState T)
    (h1 : keepsSeeded N nbrs a b) (h2 : keepsSeeded N nbrs b c) : keepsSeeded N nbrs a c :=
  fun h => ⟨(h2 (h1 h).1).1, fun hnd => (h2 (h1 h).1).2 ((h1 h).2 hnd)⟩

theorem populateAround_seeded (B : Grid3DunBase T) (N : Nat) (nbrs : List (List Nat))
    (hmesh : ∀ nb ∈ nbrs, ∀ v ∈ nb, v < N) (nn : Nat) (t0n : T) (w : Nat) (st : BandState T) :
    keepsSeeded N nbrs st (populateAround B nn t0n w st) := by
  unfold populateAround
  refine foldl_rel (keepsSeeded N nbrs) (keepsSeeded_refl N nbrs) (keepsSeeded_trans N nbrs)
    _ ?_ _ _
  intro a cellNo ha
  have hl : a.grid.neighbors.getD cellNo [] = nbrs.getD cellNo [] := by rw [ha.1.2.2]
  rw [hl]
  refine foldl_rel_mem (keepsSeeded N nbrs) (keepsSeeded_refl N nbrs)
    (keepsSeeded_trans N nbrs) _ _ ?_ a ha
  intro a' v hv ha'
  obtain ⟨nb, hnbm, hvn⟩ := mem_getD_of_mem hv
  dsimp only
  split
  · exact ⟨ha', fun hnd => hnd⟩
  · exact seedNode_seeded N nbrs t0n _ w v (a', 0) ha' (hmesh nb hnbm v hvn)

theorem withinRadiusOfNode_seeded (E : MathEnv T) (B : Grid3DunBase T) (N : Nat)
    (nbrs : List (List Nat)) (nn : Nat) (t0n : T) (w : Nat) (st : BandState T) :
    keepsSeeded N nbrs st (withinRadiusOfNode E B nn t0n w st).1 := by
  intro hst
  unfold withinRadiusOfNode
  rw [hst.2.1]
  refine foldl_rel_mem (fun a b : BandState T × Nat => keepsSeeded N nbrs a.1 b.1)
    (fun a => keepsSeeded_refl N nbrs a.1) (fun a b c => keepsSeeded_trans N nbrs a.1 b.1 c.1)
    _ _ ?_ (st, 0) hst
  intro sa no hno hsa
  dsimp only
  split
  · exact ⟨hsa, fun hnd => hnd⟩
  · split
    · exact seedNode_seeded N nbrs t0n _ w no sa hsa (List.mem_range.mp hno)
    · exact ⟨hsa, fun hnd => hnd⟩

theorem withinRadiusOfPoint_seeded (E : MathEnv T) (N : Nat) (nbrs : List (List Nat))
    (Txn : sxyz T) (t0n : T) (w : Nat) (st : BandState T) :
    keepsSeeded N nbrs st (withinRadiusOfPoint E Txn t0n w st).1 := by
  intro hst
  unfold withinRadiusOfPoint
  rw [hst.2.1]
  refine foldl_rel_mem (fun a b : BandState T × Nat => keepsSeeded N nbrs a.1 b.1)
    (fun a => keepsSeeded_refl N nbrs a.1) (fun a b c => keepsSeeded_trans N nbrs a.1 b.1 c.1)
    _ _ ?_ (st, 0) hst
  intro sa no hno hsa
  dsimp only
  split
  · exact seedNode_seeded N nbrs t0n _ w no sa hsa (List.mem_range.mp hno)
  · exact ⟨hsa, fun hnd => hnd⟩

/-- Seeding a source on a node keeps the band flagged, and leaves a band
without repetition when the band was empty. -/
theorem initBandOnNode_seeded (E : MathEnv T) (B : Grid3DunBase T) (N : Nat)
    (nbrs : List (List Nat)) (hmesh : ∀ nb ∈ nbrs, ∀ v ∈ nb, v < N) (single : Bool) (nn : Nat)
    (hnn : nn < N) (t0n : T) (w : Nat) (st : BandState T) (hst : st.seeded N nbrs) :
    (initBandOnNode E B single nn t0n w st).state.seeded N nbrs ∧
    (st.narrow_band = [] → (initBandOnNode E B single nn t0n w st).state.narrow_band.Nodup) := by
  unfold initBandOnNode
  obtain ⟨h1, h2⟩ := pushFrozen_seeded N nbrs _ nn (setTT_seeded N nbrs st nn t0n w hst) hnn
  have h3 : st.narrow_band = [] →
      (pushFrozen { st with grid := st.grid.setNodeTT nn t0n w } nn).narrow_band.Nodup := by
    intro he
    apply h2
    · show st.narrow_band.Nodup
      rw [he]; exact List.nodup_nil
    · show nn ∉ st.narrow_band
      rw [he]; exact List.not_mem_nil nn
  dsimp only
  split
  · split
    · obtain ⟨h4, h5⟩ := populateAround_seeded B N nbrs hmesh nn t0n w _ h1
      exact ⟨h4, fun he => h5 (h3 he)⟩
    · rw [abortIfNone_state]
      obtain ⟨h4, h5⟩ := withinRadiusOfNode_seeded E B N nbrs nn t0n w _ h1
      exact ⟨h4, fun he => h5 (h3 he)⟩
  · exact ⟨h1, h3⟩

/-- The unguarded seeding of the vertices of a cell pushes them in order. -/
theorem seedCell_band (f : BandState T → Nat → Grid3Dun T) (l : List Nat) :
    ∀ st : BandState T,
      (l.foldl (fun st neibNo => pushFrozen { st with grid := f st neibNo } neibNo)
        st).narrow_band = st.narrow_band ++ l := by
  induction l with
  | nil => intro st; simp
  | cons a l ih =>
    intro st
    rw [List.foldl_cons, ih]
    simp [pushFrozen]

/-- Seeding a source inside a cell keeps the band flagged, and leaves a band
without repetition when the band was empty and the cell lists its vertices
once. -/
theorem initBandInCell_seeded (E : MathEnv T) (B : Grid3DunBase T) (N : Nat)
    (nbrs : List (List Nat)) (hmesh : ∀ nb ∈ nbrs, ∀ v ∈ nb, v < N) (single : Bool)
    (Txn : sxyz T) (t0n : T) (w : Nat) (st : BandState T) (hst : st.seeded N nbrs) :
    (initBandInCell E B single Txn t0n w st).state.seeded N nbrs ∧
    (st.narrow_band = [] → (∀ nb ∈ nbrs, nb.Nodup) →
      (initBandInCell E B single Txn t0n w st).state.narrow_band.Nodup) := by
  unfold initBandInCell
  dsimp only
  split
  · constructor
    · have hl : st.grid.neighbors.getD (Grid3Dun.getCellNo B st.grid Txn) []
          = nbrs.getD (Grid3Dun.getCellNo B st.grid Txn) [] := by rw [hst.1.2.2]
      simp only [Outcome.ret]
      rw [hl]
      refine foldl_rel_mem (fun a b : BandState T => a.seeded N nbrs → b.seeded N nbrs)
        (fun a h => h) (fun a b c h1 h2 h => h2 (h1 h)) _ _ ?_ st hst
      intro a v hv ha
      obtain ⟨nb, hnbm, hvn⟩ := mem_getD_of_mem hv
      exact (pushFrozen_seeded N nbrs _ v (setTT_seeded N nbrs a v _ w ha)
        (hmesh nb hnbm v hvn)).1
    · intro he hnd
      simp only [Outcome.ret]
      rw [seedCell_band (fun st neibNo => st.grid.setNodeTT neibNo
        (t0n + (st.grid.nodes.getD neibNo default).getDistancePt E Txn
          * (st.grid.nodes.getD neibNo default).slowness) w), he, List.nil_append, hst.1.2.2]
      by_cases hc : Grid3Dun.getCellNo B st.grid Txn < nbrs.length
      · have : nbrs.getD (Grid3Dun.getCellNo B st.grid Txn) []
            = nbrs.get ⟨_, hc⟩ := by
          simp [List.getD_eq_getElem?_getD, hc]
        rw [this]
        exact hnd _ (List.get_mem nbrs _ hc)
      · rw [List.getD_eq_default _ _ (Nat.le_of_not_lt hc)]
        exact List.nodup_nil
  · split
    · rw [abortIfNone_state]
      obtain ⟨h4, h5⟩ := withinRadiusOfPoint_seeded E N nbrs Txn t0n w st hst
      exact ⟨h4, fun he _ => h5 (by rw [he]; exact List.nodup_nil)⟩
    · exact ⟨hst, fun he _ => by
        show st.narrow_band.Nodup
        rw [he]; exact List.nodup_nil⟩

theorem initBandOne_seeded (E : MathEnv T) (B : Grid3DunBase T) (N : Nat)
    (nbrs : List (List Nat)) (hmesh : ∀ nb ∈ nbrs, ∀ v ∈ nb, v < N) (single : Bool)
    (Txn : sxyz T) (t0n : T) (w : Nat) (st : BandState T) (hst : st.seeded N nbrs) :
    (initBandOne E B single Txn t0n w st).state.seeded N nbrs ∧
    (st.narrow_band = [] → (∀ nb ∈ nbrs, nb.Nodup) →
      (initBandOne E B single Txn t0n w st).state.narrow_band.Nodup) := by
  unfold initBandOne
  split
  · rename_i nn hfind
    have hnn : nn < N := by
      have := List.mem_of_find?_eq_some hfind
      rw [← hst.2.1]
      exact List.mem_range.mp this
    obtain ⟨h1, h2⟩ := initBandOnNode_seeded E B N nbrs hmesh single nn hnn t0n w st hst
    exact ⟨h1, fun he _ => h2 he⟩
  · exact initBandInCell_seeded E B N nbrs hmesh single Txn t0n w st hst

theorem initBandFrom_seeded (E : MathEnv T) (B : Grid3DunBase T) (N : Nat)
    (nbrs : List (List Nat)) (hmesh : ∀ nb ∈ nbrs, ∀ v ∈ nb, v < N) (single : Bool)
    (t0 : List T) (w : Nat) (Tx : List (sxyz T)) :
    ∀ (n : Nat) (st : BandState T), st.seeded N nbrs →
      (initBandFrom E B single t0 w n Tx st).state.seeded N nbrs := by
  induction Tx with
  | nil => intro n st h; exact h
  | cons Txn rest ih =>
    intro n st h
    rw [initBandFrom]
    exact Outcome.andThen_rel
      (fun a b : BandState T => a.seeded N nbrs → b.seeded N nbrs)
      (fun a b c h1 h2 h => h2 (h1 h)) st _ _
      (fun h => (initBandOne_seeded E B N nbrs hmesh single Txn _ w st h).1)
      (fun h => ih _ _ h) h

/-- After the seeding every node of the band is flagged; for a list of one
source, on a mesh whose cells list their vertices once, the band holds no
node twice. -/
theorem raytraceSeed_seeded (E : MathEnv T) (B : Grid3DunBase T) (g : Grid3Dun T)
    (hmesh : ∀ nb ∈ g.neighbors, ∀ v ∈ nb, v < g.nodes.length)
    (Tx : List (sxyz T)) (t0 : List T) (w : Nat) :
    (raytraceSeed E B g Tx t0 w).state.seeded g.nodes.length g.neighbors ∧
    (Tx.length = 1 → (∀ nb ∈ g.neighbors, nb.Nodup) →
      (raytraceSeed E B g Tx t0 w).state.narrow_band.Nodup) := by
  have hr := grid3_reinitNodes_sameButSlot E g w
  have hlen : (reinitNodes E g w).nodes.length = g.nodes.length := hr.2.2.2.2.1
  have h0 : BandState.seeded g.nodes.length g.neighbors
      { grid := reinitNodes E g w
        narrow_band := []
        inBand := List.replicate (reinitNodes E g w).nodes.length false
        frozen := List.replicate (reinitNodes E g w).nodes.length false
        popped := [] } :=
    ⟨⟨by simp [hlen], by simp [hlen], hr.2.1⟩, hlen,
      fun v hv => absurd hv (List.not_mem_nil v)⟩
  refine ⟨initBandFrom_seeded E B _ _ hmesh _ t0 w Tx 0 _ h0, ?_⟩
  intro h1 hnd
  match Tx, h1 with
  | [p], _ =>
    have := (initBandOne_seeded E B _ _ hmesh (decide ([p].length = 1)) p (t0.getD 0 0) w _
      h0).2 rfl hnd
    unfold raytraceSeed initBand
    dsimp only
    rw [initBandFrom]
    unfold Outcome.andThen
    split
    · exact this
    · exact this

end Grid3Dunfm

end Seeding3D

/-! ### The parameters of the examples -/

section ExampleBase

/-- The local update of the examples writes only the slot of its vertex. -/
theorem exampleBase_updatesOnlyVertex : exampleBase.updatesOnlyVertex := by
  intro g v w
  show Grid3Dun.sameButSlot w g (exampleUpdate g v w) ∧
    ∀ n, n ≠ v → (exampleUpdate g v w).nodes.getD n default = g.nodes.getD n default
  unfold exampleUpdate
  refine foldl_rel
    (fun a b : Grid3Dun ℚ => Grid3Dun.sameButSlot w a b ∧
      ∀ n, n ≠ v → b.nodes.getD n default = a.nodes.getD n default)
    (fun a => ⟨Grid3Dun.grid3_sameButSlot_refl w a, fun _ _ => rfl⟩)
    (fun a b c h1 h2 => ⟨Grid3Dun.grid3_sameButSlot_trans h1.1 h2.1,
      fun n hn => (h2.2 n hn).trans (h1.2 n hn)⟩) _ ?_ _ g
  intro a cellNo
  refine foldl_rel
    (fun a b : Grid3Dun ℚ => Grid3Dun.sameButSlot w a b ∧
      ∀ n, n ≠ v → b.nodes.getD n default = a.nodes.getD n default)
    (fun a => ⟨Grid3Dun.grid3_sameButSlot_refl w a, fun _ _ => rfl⟩)
    (fun a b c h1 h2 => ⟨Grid3Dun.grid3_sameButSlot_trans h1.1 h2.1,
      fun n hn => (h2.2 n hn).trans (h1.2 n hn)⟩) _ ?_ _ a
  intro a u
  dsimp only
  split
  · exact ⟨Grid3Dun.grid3_sameButSlot_refl w a, fun _ _ => rfl⟩
  · split
    · refine ⟨Grid3Dun.grid3_sameButSlot_setNodeTT a v _ w, fun n hn => ?_⟩
      rw [Grid3Dun.grid3_getD_setNodeTT, if_neg hn]
    · exact ⟨Grid3Dun.grid3_sameButSlot_refl w a, fun _ _ => rfl⟩

/-- Claim C7 on the tetrahedron mesh with the source (0,0,0): the first pass
of `propagate` pops a node, marks it frozen and leaves it as it was. -/
theorem propagate_causality_witness :
    (Grid3Dunfm.popStep exampleBase 0
      (Grid3Dunfm.raytraceSeed exampleEnv exampleBase tetrahedron [⟨0, 0, 0⟩] [0] 0).state).popped
      = (Grid3Dunfm.raytraceSeed exampleEnv exampleBase tetrahedron [⟨0, 0, 0⟩] [0] 0).state.popped
        ++ [Grid3Dunfm.topNode exampleBase 0
          (Grid3Dunfm.raytraceSeed exampleEnv exampleBase tetrahedron [⟨0, 0, 0⟩] [0] 0).state] ∧
    (Grid3Dunfm.popStep exampleBase 0
      (Grid3Dunfm.raytraceSeed exampleEnv exampleBase tetrahedron [⟨0, 0, 0⟩] [0] 0).state).frozen.getD
      (Grid3Dunfm.topNode exampleBase 0
        (Grid3Dunfm.raytraceSeed exampleEnv exampleBase tetrahedron [⟨0, 0, 0⟩] [0] 0).state)
      false = true ∧
    (Grid3Dunfm.popStep exampleBase 0
      (Grid3Dunfm.raytraceSeed exampleEnv exampleBase tetrahedron [⟨0, 0, 0⟩] [0] 0).state).grid.nodes.getD
      (Grid3Dunfm.topNode exampleBase 0
        (Grid3Dunfm.raytraceSeed exampleEnv exampleBase tetrahedron [⟨0, 0, 0⟩] [0] 0).state)
      default
      = (Grid3Dunfm.raytraceSeed exampleEnv exampleBase tetrahedron [⟨0, 0, 0⟩] [0] 0).state.grid.nodes.getD
        (Grid3Dunfm.topNode exampleBase 0
          (Grid3Dunfm.raytraceSeed exampleEnv exampleBase tetrahedron [⟨0, 0, 0⟩] [0] 0).state)
        default :=
  (Grid3Dunfm.propagate_causality exampleBase exampleBase_updatesOnlyVertex 0).2.2.2
    (Grid3Dunfm.raytraceSeed exampleEnv exampleBase tetrahedron [⟨0, 0, 0⟩] [0] 0).state
    (by decide!) (by decide!)

end ExampleBase

/-! ### Rejection of points outside the mesh -/

section Rejection

variable {T : Type} [LinearOrderedField T]

namespace Grid3Dun

theorem outsideMesh3_iff (E : MathEnv T) (B : Grid3DunBase T) (g : Grid3Dun T) (p : sxyz T) :
    outsideMesh E B g p ↔ (onNode E g p = false ∧ inSomeCell B g p = false) := by
  unfold outsideMesh onNode inSomeCell
  constructor
  · rintro ⟨hnode, hcell⟩
    constructor
    · rw [Bool.eq_false_iff]
      intro hany
      obtain ⟨n, hn, hp⟩ := List.any_eq_true.mp hany
      rw [hnode n hn] at hp
      exact Bool.noConfusion hp
    · rw [Bool.eq_false_iff]
      intro hany
      obtain ⟨n, hn, hp⟩ := List.any_eq_true.mp hany
      rw [hcell n (List.mem_range.mp hn)] at hp
      exact Bool.noConfusion hp
  · rintro ⟨hnode, hcell⟩
    constructor
    · intro n hn
      rw [Bool.eq_false_iff]
      intro hp
      rw [Bool.eq_false_iff] at hnode
      exact hnode (List.any_eq_true.mpr ⟨n, hn, hp⟩)
    · intro nt hnt
      rw [Bool.eq_false_iff]
      intro hp
      rw [Bool.eq_false_iff] at hcell
      exact hcell (List.any_eq_true.mpr ⟨nt, List.mem_range.mpr hnt, hp⟩)

theorem checkPtsFrom3_cons (E : MathEnv T) (B : Grid3DunBase T) (g : Grid3Dun T) (n : Nat)
    (p : sxyz T) (ps : List (sxyz T)) :
    checkPtsFrom E B g n (p :: ps)
      = if onNode E g p = false ∧ inSomeCell B g p = false then
          Outcome.throw g (Exn.pointOutsideMesh3 n p)
        else checkPtsFrom E B g (n + 1) ps := by
  rw [checkPtsFrom]
  cases hnode : onNode E g p <;> cases hcell : inSomeCell B g p <;> simp

theorem checkPtsFrom3_state (E : MathEnv T) (B : Grid3DunBase T) (g : Grid3Dun T)
    (pts : List (sxyz T)) : ∀ n, (checkPtsFrom E B g n pts).state = g := by
  induction pts with
  | nil => intro n; rfl
  | cons p ps ih =>
    intro n
    rw [checkPtsFrom3_cons]
    split
    · rfl
    · exact ih (n + 1)

/-- The 3D `checkPts` throws exactly when a point is outside the mesh, and the
exception names such a point. -/
theorem checkPtsFrom3_exn (E : MathEnv T) (B : Grid3DunBase T) (g : Grid3Dun T)
    (pts : List (sxyz T)) :
    ∀ n, ((∃ p ∈ pts, outsideMesh E B g p) →
        ∃ k q, (checkPtsFrom E B g n pts).exn = some (Exn.pointOutsideMesh3 k q) ∧
          outsideMesh E B g q) ∧
      ((checkPtsFrom E B g n pts).exn ≠ none → ∃ p ∈ pts, outsideMesh E B g p) := by
  induction pts with
  | nil =>
    intro n
    exact ⟨fun ⟨p, hp, _⟩ => absurd hp (List.not_mem_nil p),
      fun h => absurd rfl h⟩
  | cons p ps ih =>
    intro n
    rw [checkPtsFrom3_cons]
    by_cases hout : onNode E g p = false ∧ inSomeCell B g p = false
    · rw [if_pos hout]
      exact ⟨fun _ => ⟨n, p, rfl, (outsideMesh3_iff E B g p).mpr hout⟩,
        fun _ => ⟨p, List.mem_cons_self _ _, (outsideMesh3_iff E B g p).mpr hout⟩⟩
    · rw [if_neg hout]
      constructor
      · rintro ⟨q, hq, hqo⟩
        rcases List.mem_cons.mp hq with rfl | hq
        · exact absurd ((outsideMesh3_iff E B g q).mp hqo) hout
        · exact (ih (n + 1)).1 ⟨q, hq, hqo⟩
      · intro h
        obtain ⟨q, hq, hqo⟩ := (ih (n + 1)).2 h
        exact ⟨q, List.mem_cons_of_mem _ hq, hqo⟩

end Grid3Dun

namespace Grid2Duifs

/-- `check_pts` returns 1 exactly when a point is outside the mesh. -/
theorem check_pts_eq_one (E : MathEnv T) (g : Grid2Duifs T) (pts : List (sxz T)) :
    check_pts E g pts = 1 ↔ ∃ p ∈ pts, Grid2Duc.outsideMesh E g.toGrid2Duc p := by
  have h := Grid2Duc.checkPts_exn_iff E g.toGrid2Duc pts
  unfold check_pts
  cases hx : (Grid2Duc.checkPts E g.toGrid2Duc pts).exn with
  | none =>
    rw [hx] at h
    simp only [ne_eq, not_true_eq_false, false_iff] at h
    simp only [h, iff_false]
    decide
  | some e =>
    rw [hx] at h
    simp only [ne_eq, reduceCtorEq, not_false_eq_true, true_iff] at h
    simp only [h, iff_true]

end Grid2Duifs

end Rejection

/-! ### Worker isolation: a call reads only the slot of its worker -/

section ReadsOnlySlot2D

variable {T : Type} [LinearOrderedField T]

/-- Two runs of a loop from related states with the same body end in related
states. -/
theorem foldl_rel2 {α β : Type} (R : α → α → Prop) (f1 f2 : α → β → α)
    (hf : ∀ a b x, R a b → R (f1 a x) (f2 b x)) :
    ∀ (l : List β) (a b : α), R a b → R (l.foldl f1 a) (l.foldl f2 b) := by
  intro l
  induction l with
  | nil => intro a b h; exact h
  | cons x l ih => intro a b h; exact ih _ _ (hf a b x h)

theorem Outcome.agrees_ret {σ ε : Type} (R : σ → σ → Prop) (s1 s2 : σ) (h : R s1 s2) :
    Outcome.agrees R (Outcome.ret s1 : Outcome σ ε) (Outcome.ret s2) := ⟨rfl, h⟩

theorem Outcome.agrees_throw {σ ε : Type} (R : σ → σ → Prop) (s1 s2 : σ) (e : ε)
    (h : R s1 s2) : Outcome.agrees R (Outcome.throw s1 e) (Outcome.throw s2 e) := ⟨rfl, h⟩

/-- Sequencing keeps the agreement of two runs. -/
theorem Outcome.agrees_andThen {σ ε : Type} (R : σ → σ → Prop) (r1 r2 : Outcome σ ε)
    (f1 f2 : σ → Outcome σ ε) (h : Outcome.agrees R r1 r2)
    (hf : ∀ s1 s2, R s1 s2 → Outcome.agrees R (f1 s1) (f2 s2)) :
    Outcome.agrees R (r1.andThen f1) (r2.andThen f2) := by
  cases hx : r1.exn with
  | none =>
    rw [Outcome.andThen_of_none r1 f1 hx, Outcome.andThen_of_none r2 f2 (h.1.trans hx)]
    exact hf _ _ h.2
  | some e =>
    rw [Outcome.andThen_of_some r1 f1 e hx, Outcome.andThen_of_some r2 f2 e (h.1.trans hx)]
    exact h

/-- Lists of the same length whose elements of the same index are related. -/
theorem forall2_of_getD {α : Type} [Inhabited α] (Q : α → α → Prop) :
    ∀ (l1 l2 : List α), l2.length = l1.length →
      (∀ n, Q (l1.getD n default) (l2.getD n default)) → List.Forall₂ Q l1 l2 := by
  intro l1
  induction l1 with
  | nil =>
    intro l2 hl _
    rw [List.length_nil, List.length_eq_zero] at hl
    rw [hl]
    exact List.Forall₂.nil
  | cons a l1 ih =>
    intro l2 hl hq
    cases l2 with
    | nil => exact absurd hl (by simp)
    | cons b l2 =>
      refine List.Forall₂.cons (hq 0) (ih l2 ?_ (fun n => hq (n + 1)))
      simpa using hl

/-- The searches of two related lists for related tests give related
results. -/
theorem find_forall2 {α : Type} (Q : α → α → Prop) (P1 P2 : α → Bool)
    (hP : ∀ a b, Q a b → P2 b = P1 a) :
    ∀ (l1 l2 : List α), List.Forall₂ Q l1 l2 →
      (l1.find? P1 = none ∧ l2.find? P2 = none) ∨
      ∃ a b, l1.find? P1 = some a ∧ l2.find? P2 = some b ∧ Q a b := by
  intro l1 l2 h
  induction h with
  | nil => exact Or.inl ⟨rfl, rfl⟩
  | @cons a b l1 l2 hab _ ih =>
    rw [List.find?_cons, List.find?_cons, hP a b hab]
    cases hpa : P1 a with
    | true => exact Or.inr ⟨a, b, rfl, rfl, hab⟩
    | false => exact ih

theorem any_forall2 {α : Type} (Q : α → α → Prop) (P1 P2 : α → Bool)
    (hP : ∀ a b, Q a b → P2 b = P1 a) :
    ∀ (l1 l2 : List α), List.Forall₂ Q l1 l2 → l2.any P2 = l1.any P1 := by
  intro l1 l2 h
  induction h with
  | nil => rfl
  | @cons a b l1 l2 hab _ ih =>
    rw [List.any_cons, List.any_cons, hP a b hab, ih]

theorem Node2Dn.agreesOnSlot_setTT (w : Nat) (a b : Node2Dn T) (t : T)
    (h : Node2Dn.agreesOnSlot w a b) :
    Node2Dn.agreesOnSlot w (a.setTT t w) (b.setTT t w) := by
  refine ⟨h.1, h.2.1, h.2.2.1, h.2.2.2.1, by simp [Node2Dn.setTT, h.2.2.2.2.1], ?_⟩
  by_cases hw : w < a.tt.length
  · rw [Node2Dn.getTT_setTT_self a t hw,
      Node2Dn.getTT_setTT_self b t (by rw [h.2.2.2.2.1]; exact hw)]
  · rw [Node2Dn.setTT_of_le a t (Nat.le_of_not_lt hw),
      Node2Dn.setTT_of_le b t (by rw [h.2.2.2.2.1]; exact Nat.le_of_not_lt hw)]
    exact h.2.2.2.2.2

namespace Grid2Duifs

theorem agrees_getNodeTT {w : Nat} {g g' : Grid2Duc T} (h : Grid2Duc.agreesOnSlot w g g')
    (n : Nat) : g'.getNodeTT n w = g.getNodeTT n w :=
  (h.2.2.2.2.2.2.2 n).2.2.2.2.2

theorem agrees_setNodeTT {w : Nat} {g g' : Grid2Duc T} (h : Grid2Duc.agreesOnSlot w g g')
    (nn : Nat) (t : T) :
    Grid2Duc.agreesOnSlot w (g.setNodeTT nn t w) (g'.setNodeTT nn t w) := by
  refine ⟨h.1, h.2.1, h.2.2.1, h.2.2.2.1, h.2.2.2.2.1, h.2.2.2.2.2.1, ?_, fun n => ?_⟩
  · simp only [Grid2Duc.setNodeTT, List.length_set]
    exact h.2.2.2.2.2.2.1
  · rw [Grid2Duc.getD_setNodeTT, Grid2Duc.getD_setNodeTT]
    split
    · exact Node2Dn.agreesOnSlot_setTT w _ _ t (h.2.2.2.2.2.2.2 n)
    · exact h.2.2.2.2.2.2.2 n

theorem agrees_nodes {w : Nat} {g g' : Grid2Duc T} (h : Grid2Duc.agreesOnSlot w g g') :
    List.Forall₂ (Node2Dn.agreesOnSlot w) g.nodes g'.nodes :=
  forall2_of_getD _ _ _ h.2.2.2.2.2.2.1 h.2.2.2.2.2.2.2

theorem agrees_insideTriangle {w : Nat} {g g' : Grid2Duc T}
    (h : Grid2Duc.agreesOnSlot w g g') (p : sxz T) (nt : Nat) :
    Grid2Duc.insideTriangle g' p nt = Grid2Duc.insideTriangle g p nt := by
  have ht := h.2.2.2.2.1
  have hn := h.2.2.2.2.2.2.2
  unfold Grid2Duc.insideTriangle
  simp only [ht, (hn _).1, (hn _).2.1]

theorem agrees_getCellNo {w : Nat} {g g' : Grid2Duc T}
    (h : Grid2Duc.agreesOnSlot w g g') (p : sxz T) :
    Grid2Duc.getCellNo g' p = Grid2Duc.getCellNo g p := by
  unfold Grid2Duc.getCellNo
  have e : (fun n => Grid2Duc.insideTriangle g' p n) = (fun n => Grid2Duc.insideTriangle g p n) :=
    funext (fun n => agrees_insideTriangle h p n)
  rw [e, h.2.2.2.2.1]

theorem agrees_eqPt (E : MathEnv T) {w : Nat} {a b : Node2Dn T}
    (h : Node2Dn.agreesOnSlot w a b) (p : sxz T) : b.eqPt E p = a.eqPt E p := by
  unfold Node2Dn.eqPt
  rw [h.1, h.2.1]

theorem agrees_findNode (E : MathEnv T) {w : Nat} {g g' : Grid2Duc T}
    (h : Grid2Duc.agreesOnSlot w g g') (p : sxz T) :
    (List.range g'.nodes.length).find? (fun nn => (g'.nodes.getD nn default).eqPt E p)
      = (List.range g.nodes.length).find? (fun nn => (g.nodes.getD nn default).eqPt E p) := by
  have e : (fun nn => (g'.nodes.getD nn default).eqPt E p)
      = (fun nn => (g.nodes.getD nn default).eqPt E p) :=
    funext (fun nn => agrees_eqPt E (h.2.2.2.2.2.2.2 nn) p)
  rw [e, h.2.2.2.2.2.2.1]

theorem agrees_computeDt (E : MathEnv T) {w : Nat} {g g' : Grid2Duc T}
    (h : Grid2Duc.agreesOnSlot w g g') (k : Nat) (p : sxz T) (c : Nat) :
    Grid2Duc.computeDt E g' (g'.nodes.getD k default) p c
      = Grid2Duc.computeDt E g (g.nodes.getD k default) p c := by
  have hs := h.2.2.1
  have hk := h.2.2.2.2.2.2.2 k
  simp only [Grid2Duc.computeDt, Node2Dn.getDistancePt, hs, hk.1, hk.2.1]

theorem agrees_computeDt2 (E : MathEnv T) {w : Nat} {g g' : Grid2Duc T}
    (h : Grid2Duc.agreesOnSlot w g g') (nn k c : Nat) :
    computeDt2 E g' (g'.nodes.getD nn default) (g'.nodes.getD k default) c
      = computeDt2 E g (g.nodes.getD nn default) (g.nodes.getD k default) c := by
  have hs := h.2.2.1
  have hk := h.2.2.2.2.2.2.2 k
  have hnn := h.2.2.2.2.2.2.2 nn
  simp only [computeDt2, Grid2Duc.computeDtNode, Node2Dn.getDistance, hs, hk.1, hk.2.1, hnn.1,
    hnn.2.1]

theorem agrees_solverVars (E : MathEnv T) {w : Nat} {g g' : Grid2Duc T}
    (h : Grid2Duc.agreesOnSlot w g g') (vertexC triangleNo : Nat) :
    Grid2Duc.solverVars E g' vertexC triangleNo = Grid2Duc.solverVars E g vertexC triangleNo := by
  unfold Grid2Duc.solverVars Grid2Duc.virtualNodesAt
  rw [h.2.2.2.2.1, h.2.2.2.2.2.1, (h.2.2.2.2.2.2.2 vertexC).2.2.1]

theorem agrees_localSolverCell (E : MathEnv T) {w : Nat} {g g' : Grid2Duc T}
    (h : Grid2Duc.agreesOnSlot w g g') (vertexC triangleNo : Nat) :
    Outcome.agrees (Grid2Duc.agreesOnSlot w) (Grid2Duc.localSolverCell E g vertexC w triangleNo)
      (Grid2Duc.localSolverCell E g' vertexC w triangleNo) := by
  unfold Grid2Duc.localSolverCell
  rw [agrees_solverVars E h]
  cases Grid2Duc.solverVars E g vertexC triangleNo with
  | error e => exact Outcome.agrees_throw _ _ _ e h
  | ok v =>
    dsimp only
    rw [h.2.2.1, agrees_getNodeTT h, agrees_getNodeTT h, agrees_getNodeTT h]
    split
    · exact Outcome.agrees_ret _ _ _ (agrees_setNodeTT h _ _)
    · exact Outcome.agrees_ret _ _ _ h

theorem agrees_localSolverLoop (E : MathEnv T) (w vertexC : Nat) (owners : List Nat) :
    ∀ (g g' : Grid2Duc T), Grid2Duc.agreesOnSlot w g g' →
      Outcome.agrees (Grid2Duc.agreesOnSlot w) (Grid2Duc.localSolverLoop E vertexC w owners g)
        (Grid2Duc.localSolverLoop E vertexC w owners g') := by
  induction owners with
  | nil => intro g g' h; exact Outcome.agrees_ret _ _ _ h
  | cons c rest ih =>
    intro g g' h
    rw [Grid2Duc.localSolverLoop, Grid2Duc.localSolverLoop]
    exact Outcome.agrees_andThen _ _ _ _ _ (agrees_localSolverCell E h vertexC c) ih

/-- Two calls of the local solver on grids that differ at most in the slots
other than `w` throw alike and leave grids that differ at most in those
slots. -/
theorem agrees_localSolver (E : MathEnv T) {w : Nat} {g g' : Grid2Duc T}
    (h : Grid2Duc.agreesOnSlot w g g') (vertexC : Nat) :
    Outcome.agrees (Grid2Duc.agreesOnSlot w) (Grid2Duc.localSolver E g vertexC w)
      (Grid2Duc.localSolver E g' vertexC w) := by
  unfold Grid2Duc.localSolver
  rw [(h.2.2.2.2.2.2.2 vertexC).2.2.2.1]
  exact agrees_localSolverLoop E w vertexC _ g g' h

theorem agrees_sweep (E : MathEnv T) (w : Nat) (order : List Nat) :
    ∀ (st st' : SweepState T), SweepState.agreesOnSlot w st st' →
      Outcome.agrees (SweepState.agreesOnSlot w) (sweep E w order st) (sweep E w order st') := by
  induction order with
  | nil => intro st st' h; exact Outcome.agrees_ret _ _ _ h
  | cons vertexC rest ih =>
    intro st st' h
    rw [sweep, sweep]
    have hloc := agrees_localSolver E h.1.1 vertexC
    rw [h.2.1, (h.1.1.2.2.2.2.2.2.2 vertexC).2.2.1]
    split
    · dsimp only
      have hst : SweepState.agreesOnSlot w
          { withGrid st (Grid2Duc.localSolver E st.grid.toGrid2Duc vertexC w).state with
            solverCalls := st.solverCalls + 1 }
          { withGrid st' (Grid2Duc.localSolver E st'.grid.toGrid2Duc vertexC w).state with
            solverCalls := st'.solverCalls + 1 } :=
        ⟨⟨hloc.2, h.1.2.1, h.1.2.2.1, h.1.2.2.2⟩, h.2.1, h.2.2.1, h.2.2.2.1, h.2.2.2.2.1,
          h.2.2.2.2.2.1, by show st'.solverCalls + 1 = st.solverCalls + 1; rw [h.2.2.2.2.2.2]⟩
      rw [hloc.1]
      cases (Grid2Duc.localSolver E st.grid.toGrid2Duc vertexC w).exn with
      | some e => exact Outcome.agrees_throw _ _ _ e hst
      | none => exact ih _ _ hst
    · exact ih _ _ h

theorem agrees_sumAbsChange {w : Nat} {g g' : Grid2Duc T} (h : Grid2Duc.agreesOnSlot w g g')
    (times : List T) : sumAbsChange times g' w = sumAbsChange times g w := by
  unfold sumAbsChange
  have e : (fun (error : T) n => error + |times.getD n 0 - g'.getNodeTT n w|)
      = (fun (error : T) n => error + |times.getD n 0 - g.getNodeTT n w|) :=
    funext (fun error => funext (fun n => by rw [agrees_getNodeTT h]))
  rw [e, h.2.2.2.2.2.2.1]

theorem agrees_snapshot {w : Nat} {g g' : Grid2Duc T} (h : Grid2Duc.agreesOnSlot w g g')
    (times : List T) :
    (List.range g'.nodes.length).foldl (fun times n => times.set n (g'.getNodeTT n w)) times
      = (List.range g.nodes.length).foldl (fun times n => times.set n (g.getNodeTT n w))
          times := by
  have e : (fun (times : List T) n => times.set n (g'.getNodeTT n w))
      = (fun (times : List T) n => times.set n (g.getNodeTT n w)) :=
    funext (fun times => funext (fun n => by rw [agrees_getNodeTT h]))
  rw [e, h.2.2.2.2.2.2.1]

theorem agrees_updateError (w : Nat) (st st' : SweepState T)
    (h : SweepState.agreesOnSlot w st st') :
    SweepState.agreesOnSlot w (updateError w st) (updateError w st') := by
  unfold updateError
  dsimp only
  refine ⟨h.1, h.2.1, ?_, ?_, h.2.2.2.2.1, h.2.2.2.2.2.1, h.2.2.2.2.2.2⟩
  · show (List.range st'.grid.nodes.length).foldl _ st'.times = _
    rw [h.2.2.1]
    exact agrees_snapshot h.1.1 st.times
  · show sumAbsChange st'.times st'.grid.toGrid2Duc w = _
    rw [h.2.2.1]
    exact agrees_sumAbsChange h.1.1 st.times

theorem agrees_niter (w : Nat) (st st' : SweepState T)
    (h : SweepState.agreesOnSlot w st st') :
    SweepState.agreesOnSlot w { st with niter := st.niter + 1 }
      { st' with niter := st'.niter + 1 } :=
  ⟨h.1, h.2.1, h.2.2.1, h.2.2.2.1,
    by show st'.niter + 1 = st.niter + 1; rw [h.2.2.2.2.1], h.2.2.2.2.2.1, h.2.2.2.2.2.2⟩

theorem agrees_forSorted (E : MathEnv T) (w : Nat) (orders : List (List Nat)) :
    ∀ (st st' : SweepState T), SweepState.agreesOnSlot w st st' →
      Outcome.agrees (SweepState.agreesOnSlot w) (forSorted E w orders st)
        (forSorted E w orders st') := by
  induction orders with
  | nil => intro st st' h; exact Outcome.agrees_ret _ _ _ h
  | cons order rest ih =>
    intro st st' h
    rw [forSorted, forSorted]
    refine Outcome.agrees_andThen _ _ _ _ _ (agrees_sweep E w order st st' h) ?_
    intro s1 s2 hs
    have hu := agrees_updateError w s1 s2 hs
    have hc : (updateError w s2).error < (updateError w s2).grid.epsilon ↔
        (updateError w s1).error < (updateError w s1).grid.epsilon := by
      rw [hu.2.2.2.1, hu.1.2.1]
    by_cases hlt : (updateError w s1).error < (updateError w s1).grid.epsilon
    · rw [if_pos hlt, if_pos (hc.mpr hlt)]
      exact Outcome.agrees_ret _ _ _ (agrees_niter w _ _ hu)
    · rw [if_neg hlt, if_neg (fun h' => hlt (hc.mp h'))]
      refine Outcome.agrees_andThen _ _ _ _ _ (agrees_sweep E w order.reverse _ _ hu) ?_
      intro s3 s4 hs'
      have hu' := agrees_updateError w s3 s4 hs'
      have hc' : (updateError w s4).error < (updateError w s4).grid.epsilon ↔
          (updateError w s3).error < (updateError w s3).grid.epsilon := by
        rw [hu'.2.2.2.1, hu'.1.2.1]
      by_cases hlt' : (updateError w s3).error < (updateError w s3).grid.epsilon
      · rw [if_pos hlt', if_pos (hc'.mpr hlt')]
        exact Outcome.agrees_ret _ _ _ (agrees_niter w _ _ hu')
      · rw [if_neg hlt', if_neg (fun h' => hlt' (hc'.mp h'))]
        exact ih _ _ hu'

theorem agrees_whilePass (E : MathEnv T) (w : Nat) (st st' : SweepState T)
    (h : SweepState.agreesOnSlot w st st') :
    Outcome.agrees (SweepState.agreesOnSlot w) (whilePass E w st) (whilePass E w st') := by
  unfold whilePass
  rw [h.1.2.2.2]
  refine Outcome.agrees_andThen _ _ _ _ _ (agrees_forSorted E w _ _ _ ?_) ?_
  · exact ⟨h.1, h.2.1, h.2.2.1, h.2.2.2.1, h.2.2.2.2.1,
      by show st'.passes + 1 = st.passes + 1; rw [h.2.2.2.2.2.1], h.2.2.2.2.2.2⟩
  · intro s1 s2 hs
    exact Outcome.agrees_ret _ _ _ (agrees_niter w _ _ hs)

theorem agrees_whileLoop (E : MathEnv T) (w : Nat) (fuel : Nat) :
    ∀ (st st' : SweepState T), SweepState.agreesOnSlot w st st' →
      Outcome.agrees (SweepState.agreesOnSlot w) (whileLoop E w fuel st)
        (whileLoop E w fuel st') := by
  induction fuel with
  | zero => intro st st' h; exact Outcome.agrees_ret _ _ _ h
  | succ fuel ih =>
    intro st st' h
    rw [whileLoop, whileLoop, h.2.2.2.1, h.1.2.1, h.2.2.2.2.1, h.1.2.2.1]
    split
    · exact Outcome.agrees_andThen _ _ _ _ _ (agrees_whilePass E w st st' h) ih
    · exact Outcome.agrees_ret _ _ _ h

theorem agrees_reinitNodes (E : MathEnv T) {w : Nat} {g g' : Grid2Duc T}
    (h : Grid2Duc.agreesOnSlot w g g') :
    Grid2Duc.agreesOnSlot w (reinitNodes E g w) (reinitNodes E g' w) := by
  unfold reinitNodes
  rw [h.2.2.2.2.2.2.1]
  exact foldl_rel2 (Grid2Duc.agreesOnSlot w) _ _
    (fun a b n hab => agrees_setNodeTT hab n E.tmax) _ g g' h

theorem agrees_initTxNeighbors (E : MathEnv T) (nn : Nat) (t0n : T) (w cellNo : Nat)
    {g g' : Grid2Duc T} (h : Grid2Duc.agreesOnSlot w g g') :
    Grid2Duc.agreesOnSlot w (initTxNeighbors E nn t0n w cellNo g)
      (initTxNeighbors E nn t0n w cellNo g') := by
  unfold initTxNeighbors
  rw [h.2.2.2.1]
  refine foldl_rel2 (Grid2Duc.agreesOnSlot w) _ _ ?_ _ g g' h
  intro a b k hab
  dsimp only
  split
  · exact hab
  · rw [agrees_computeDt2 E hab, agrees_getNodeTT hab]
    split
    · exact agrees_setNodeTT hab _ _
    · exact hab

theorem agrees_initTxOne (E : MathEnv T) (q : sxz T) (t0n : T) (w : Nat)
    (gf gf' : Grid2Duc T × List Bool) (h : Grid2Duc.agreesOnSlot w gf.1 gf'.1)
    (hf : gf'.2 = gf.2) :
    Grid2Duc.agreesOnSlot w (initTxOne E q t0n w gf).1 (initTxOne E q t0n w gf').1 ∧
    (initTxOne E q t0n w gf').2 = (initTxOne E q t0n w gf).2 := by
  unfold initTxOne
  rw [agrees_findNode E h q]
  split
  · rename_i nn _
    unfold initTxOnNode
    dsimp only
    refine ⟨?_, by rw [hf]⟩
    have h1 := agrees_setNodeTT h nn t0n
    rw [(h1.2.2.2.2.2.2.2 nn).2.2.2.1]
    exact foldl_rel2 (Grid2Duc.agreesOnSlot w) _ _
      (fun a b c hab => agrees_initTxNeighbors E nn t0n w c hab) _ _ _ h1
  · unfold initTxInCell
    dsimp only
    rw [agrees_getCellNo h q, h.2.2.2.1]
    exact foldl_rel2
      (fun a b : Grid2Duc T × List Bool => Grid2Duc.agreesOnSlot w a.1 b.1 ∧ b.2 = a.2) _ _
      (fun a b k hab => ⟨by
          show Grid2Duc.agreesOnSlot w (a.1.setNodeTT k _ w) (b.1.setNodeTT k _ w)
          rw [agrees_computeDt E hab.1]
          exact agrees_setNodeTT hab.1 _ _,
        by show b.2.set k true = a.2.set k true; rw [hab.2]⟩) _ gf gf' ⟨h, hf⟩

theorem agrees_initTxFrom (E : MathEnv T) (t0 : List T) (w : Nat) (Tx : List (sxz T)) :
    ∀ (n : Nat) (gf gf' : Grid2Duc T × List Bool), Grid2Duc.agreesOnSlot w gf.1 gf'.1 →
      gf'.2 = gf.2 →
      Grid2Duc.agreesOnSlot w (initTxFrom E t0 w n Tx gf).1 (initTxFrom E t0 w n Tx gf').1 ∧
      (initTxFrom E t0 w n Tx gf').2 = (initTxFrom E t0 w n Tx gf).2 := by
  induction Tx with
  | nil => intro n gf gf' h hf; exact ⟨h, hf⟩
  | cons q rest ih =>
    intro n gf gf' h hf
    rw [initTxFrom, initTxFrom]
    have h1 := agrees_initTxOne E q (t0.getD n 0) w gf gf' h hf
    exact ih _ _ _ h1.1 h1.2

/-- Two runs of the reset of the nodes and of the seeding on grids that differ
at most in the slots other than `w` enter the sweeping loop in states that
differ at most in those slots. -/
theorem agrees_sweepInit (E : MathEnv T) {w : Nat} {g g' : Grid2Duifs T}
    (h : Grid2Duifs.agreesOnSlot w g g') (Tx : List (sxz T)) (t0 : List T) :
    SweepState.agreesOnSlot w (sweepInit E g Tx t0 w) (sweepInit E g' Tx t0 w) := by
  have hr := agrees_reinitNodes E h.1
  have hlen : (reinitNodes E g'.toGrid2Duc w).nodes.length
      = (reinitNodes E g.toGrid2Duc w).nodes.length := hr.2.2.2.2.2.2.1
  have hi := agrees_initTxFrom E t0 w Tx 0
    (reinitNodes E g.toGrid2Duc w, List.replicate (reinitNodes E g.toGrid2Duc w).nodes.length false)
    (reinitNodes E g'.toGrid2Duc w,
      List.replicate (reinitNodes E g'.toGrid2Duc w).nodes.length false)
    hr (by show List.replicate _ false = List.replicate _ false; rw [hlen])
  refine ⟨⟨hi.1, h.2.1, h.2.2.1, h.2.2.2⟩, hi.2, ?_, rfl, rfl, rfl, rfl⟩
  have hl := hi.1.2.2.2.2.2.2.1
  unfold sweepInit initTx
  dsimp only
  rw [agrees_snapshot hi.1, hl]

theorem agrees_raytraceSweeps (E : MathEnv T) {w : Nat} {g g' : Grid2Duifs T}
    (h : Grid2Duifs.agreesOnSlot w g g') (Tx : List (sxz T)) (t0 : List T) :
    Outcome.agrees (SweepState.agreesOnSlot w) (raytraceSweeps E g Tx t0 w)
      (raytraceSweeps E g' Tx t0 w) := by
  unfold raytraceSweeps
  rw [h.2.2.1]
  exact agrees_whileLoop E w _ _ _ (agrees_sweepInit E h Tx t0)

theorem agrees_checkPtsFrom (E : MathEnv T) {w : Nat} {g g' : Grid2Duc T}
    (h : Grid2Duc.agreesOnSlot w g g') (pts : List (sxz T)) :
    ∀ n, (Grid2Duc.checkPtsFrom E g' n pts).exn = (Grid2Duc.checkPtsFrom E g n pts).exn := by
  induction pts with
  | nil => intro n; rfl
  | cons p rest ih =>
    intro n
    have h1 : Grid2Duc.onNode E g' p = Grid2Duc.onNode E g p :=
      any_forall2 (Node2Dn.agreesOnSlot w) _ _ (fun a b hab => agrees_eqPt E hab p) _ _
        (agrees_nodes h)
    have h2 : Grid2Duc.inSomeTriangle g' p = Grid2Duc.inSomeTriangle g p := by
      unfold Grid2Duc.inSomeTriangle
      have e : (fun nt => Grid2Duc.insideTriangle g' p nt)
          = (fun nt => Grid2Duc.insideTriangle g p nt) :=
        funext (fun nt => agrees_insideTriangle h p nt)
      rw [e, h.2.2.2.2.1]
    rw [Grid2Duc.checkPtsFrom, Grid2Duc.checkPtsFrom]
    rw [h1, h2]
    split
    · split
      · rfl
      · exact ih (n + 1)
    · exact ih (n + 1)

theorem agrees_check_pts (E : MathEnv T) {w : Nat} {g g' : Grid2Duifs T}
    (h : Grid2Duifs.agreesOnSlot w g g') (pts : List (sxz T)) :
    check_pts E g' pts = check_pts E g pts := by
  unfold check_pts Grid2Duc.checkPts
  rw [agrees_checkPtsFrom E h.1 pts 0]

/-- The time returned for a receiver reads slot `w` only. -/
theorem agrees_getTraveltime (E : MathEnv T) {w : Nat} {g g' : Grid2Duc T}
    (h : Grid2Duc.agreesOnSlot w g g') (p : sxz T) :
    Grid2Duc.getTraveltime E g' p w = Grid2Duc.getTraveltime E g p w := by
  unfold Grid2Duc.getTraveltime
  rcases find_forall2 (Node2Dn.agreesOnSlot w) (fun n => n.eqPt E p) (fun n => n.eqPt E p)
    (fun a b hab => agrees_eqPt E hab p) _ _ (agrees_nodes h) with ⟨h1, h2⟩ | ⟨a, b, h1, h2, hab⟩
  · rw [h1, h2]
    simp only [agrees_getCellNo h, h.2.2.2.1, agrees_computeDt E h, agrees_getNodeTT h]
  · rw [h1, h2]
    exact hab.2.2.2.2.2

/-- Two calls of `raytrace` for worker `w` on grids that differ at most in the
slots other than `w` return alike and leave grids that differ at most in those
slots. -/
theorem agrees_raytrace (E : MathEnv T) {w : Nat} {g g' : Grid2Duifs T}
    (h : Grid2Duifs.agreesOnSlot w g g') (Tx : List (sxz T)) (t0 : List T)
    (Rx : List (sxz T)) (tts : List T) :
    (raytrace E g' Tx t0 Rx tts w).ret = (raytrace E g Tx t0 Rx tts w).ret ∧
    (raytrace E g' Tx t0 Rx tts w).exn = (raytrace E g Tx t0 Rx tts w).exn ∧
    (raytrace E g' Tx t0 Rx tts w).traveltimes = (raytrace E g Tx t0 Rx tts w).traveltimes ∧
    Grid2Duifs.agreesOnSlot w (raytrace E g Tx t0 Rx tts w).grid
      (raytrace E g' Tx t0 Rx tts w).grid := by
  unfold raytrace
  rw [agrees_check_pts E h Tx, agrees_check_pts E h Rx]
  by_cases h1 : check_pts E g Tx = 1
  · rw [if_pos h1, if_pos h1]
    exact ⟨rfl, rfl, rfl, h⟩
  · rw [if_neg h1, if_neg h1]
    by_cases h2 : check_pts E g Rx = 1
    · rw [if_pos h2, if_pos h2]
      exact ⟨rfl, rfl, rfl, h⟩
    · rw [if_neg h2, if_neg h2]
      have hs := agrees_raytraceSweeps E h Tx t0
      dsimp only
      rw [hs.1]
      cases (raytraceSweeps E g Tx t0 w).exn with
      | some e => exact ⟨rfl, rfl, rfl, hs.2.1⟩
      | none =>
        refine ⟨rfl, rfl, ?_, hs.2.1⟩
        dsimp only
        exact List.map_congr_left (fun q _ => agrees_getTraveltime E hs.2.1.1 q)

theorem agrees_raytraceBatches (E : MathEnv T) {w : Nat} {g g' : Grid2Duifs T}
    (h : Grid2Duifs.agreesOnSlot w g g') (Tx : List (sxz T)) (t0 : List T)
    (Rx : List (List (sxz T))) (tts : List (List T)) :
    (raytraceBatches E g' Tx t0 Rx tts w).ret = (raytraceBatches E g Tx t0 Rx tts w).ret ∧
    (raytraceBatches E g' Tx t0 Rx tts w).exn = (raytraceBatches E g Tx t0 Rx tts w).exn ∧
    (raytraceBatches E g' Tx t0 Rx tts w).traveltimes
      = (raytraceBatches E g Tx t0 Rx tts w).traveltimes ∧
    Grid2Duifs.agreesOnSlot w (raytraceBatches E g Tx t0 Rx tts w).grid
      (raytraceBatches E g' Tx t0 Rx tts w).grid := by
  unfold raytraceBatches
  have hany : Rx.any (fun Rxn => decide (check_pts E g' Rxn = 1))
      = Rx.any (fun Rxn => decide (check_pts E g Rxn = 1)) := by
    have e : (fun Rxn => decide (check_pts E g' Rxn = 1))
        = (fun Rxn => decide (check_pts E g Rxn = 1)) :=
      funext (fun Rxn => by rw [agrees_check_pts E h Rxn])
    rw [e]
  rw [agrees_check_pts E h Tx, hany]
  by_cases h1 : check_pts E g Tx = 1
  · rw [if_pos h1, if_pos h1]
    exact ⟨rfl, rfl, rfl, h⟩
  · rw [if_neg h1, if_neg h1]
    by_cases h2 : Rx.any (fun Rxn => decide (check_pts E g Rxn = 1)) = true
    · rw [if_pos h2, if_pos h2]
      exact ⟨rfl, rfl, rfl, h⟩
    · rw [if_neg h2, if_neg h2]
      have hs := agrees_raytraceSweeps E h Tx t0
      dsimp only
      rw [hs.1]
      cases (raytraceSweeps E g Tx t0 w).exn with
      | some e => exact ⟨rfl, rfl, rfl, hs.2.1⟩
      | none =>
        refine ⟨rfl, rfl, ?_, hs.2.1⟩
        dsimp only
        exact List.map_congr_left (fun batch _ =>
          List.map_congr_left (fun q _ => agrees_getTraveltime E hs.2.1.1 q))

end Grid2Duifs

end ReadsOnlySlot2D

section ReadsOnlySlot3D

variable {T : Type} [LinearOrderedField T]

theorem Node3Dn.node3_setTT_of_le (a : Node3Dn T) (t : T) {w : Nat} (h : a.tt.length ≤ w) :
    a.setTT t w = a := by
  simp [Node3Dn.setTT, List.set_eq_of_length_le h]

theorem Node3Dn.node3_agreesOnSlot_setTT (w : Nat) (a b : Node3Dn T) (t : T)
    (h : Node3Dn.agreesOnSlot w a b) :
    Node3Dn.agreesOnSlot w (a.setTT t w) (b.setTT t w) := by
  refine ⟨h.1, h.2.1, h.2.2.1, h.2.2.2.1, h.2.2.2.2.1, h.2.2.2.2.2.1,
    by simp [Node3Dn.setTT, h.2.2.2.2.2.2.1], ?_⟩
  by_cases hw : w < a.tt.length
  · rw [Node3Dn.node3_getTT_setTT_self a t hw,
      Node3Dn.node3_getTT_setTT_self b t (by rw [h.2.2.2.2.2.2.1]; exact hw)]
  · rw [Node3Dn.node3_setTT_of_le a t (Nat.le_of_not_lt hw),
      Node3Dn.node3_setTT_of_le b t (by rw [h.2.2.2.2.2.2.1]; exact Nat.le_of_not_lt hw)]
    exact h.2.2.2.2.2.2.2

namespace Grid3Dunfm

theorem agrees3_getNodeTT {w : Nat} {g g' : Grid3Dun T} (h : Grid3Dun.agreesOnSlot w g g')
    (n : Nat) : g'.getNodeTT n w = g.getNodeTT n w :=
  (h.2.2.2.2.2 n).2.2.2.2.2.2.2

theorem agrees3_setNodeTT {w : Nat} {g g' : Grid3Dun T} (h : Grid3Dun.agreesOnSlot w g g')
    (nn : Nat) (t : T) :
    Grid3Dun.agreesOnSlot w (g.setNodeTT nn t w) (g'.setNodeTT nn t w) := by
  refine ⟨h.1, h.2.1, h.2.2.1, h.2.2.2.1, ?_, fun n => ?_⟩
  · simp only [Grid3Dun.setNodeTT, List.length_set]
    exact h.2.2.2.2.1
  · rw [Grid3Dun.grid3_getD_setNodeTT, Grid3Dun.grid3_getD_setNodeTT]
    split
    · exact Node3Dn.node3_agreesOnSlot_setTT w _ _ t (h.2.2.2.2.2 n)
    · exact h.2.2.2.2.2 n

theorem agrees3_nodes {w : Nat} {g g' : Grid3Dun T} (h : Grid3Dun.agreesOnSlot w g g') :
    List.Forall₂ (Node3Dn.agreesOnSlot w) g.nodes g'.nodes :=
  forall2_of_getD _ _ _ h.2.2.2.2.1 h.2.2.2.2.2

theorem agrees3_eqPt (E : MathEnv T) {w : Nat} {a b : Node3Dn T}
    (h : Node3Dn.agreesOnSlot w a b) (p : sxyz T) : b.eqPt E p = a.eqPt E p := by
  unfold Node3Dn.eqPt
  rw [h.1, h.2.1, h.2.2.1]

theorem agrees3_findNode (E : MathEnv T) {w : Nat} {g g' : Grid3Dun T}
    (h : Grid3Dun.agreesOnSlot w g g') (p : sxyz T) :
    (List.range g'.nodes.length).find? (fun nn => (g'.nodes.getD nn default).eqPt E p)
      = (List.range g.nodes.length).find? (fun nn => (g.nodes.getD nn default).eqPt E p) := by
  have e : (fun nn => (g'.nodes.getD nn default).eqPt E p)
      = (fun nn => (g.nodes.getD nn default).eqPt E p) :=
    funext (fun nn => agrees3_eqPt E (h.2.2.2.2.2 nn) p)
  rw [e, h.2.2.2.2.1]

theorem agrees3_getCellNo (B : Grid3DunBase T) {w : Nat} (hR : B.readsOnlySlot w)
    {g g' : Grid3Dun T} (h : Grid3Dun.agreesOnSlot w g g') (p : sxyz T) :
    Grid3Dun.getCellNo B g' p = Grid3Dun.getCellNo B g p := by
  unfold Grid3Dun.getCellNo
  have e : (fun n => B.insideTetrahedron g' p n) = (fun n => B.insideTetrahedron g p n) :=
    funext (fun n => (hR g g' h).1 p n)
  rw [e, h.2.2.1]

theorem agrees3_pushFrozen (w : Nat) (st st' : BandState T) (h : BandState.agreesOnSlot w st st')
    (no : Nat) : BandState.agreesOnSlot w (pushFrozen st no) (pushFrozen st' no) := by
  unfold pushFrozen
  exact ⟨h.1, by rw [h.2.1], by rw [h.2.2.1], by rw [h.2.2.2.1], h.2.2.2.2⟩

theorem agrees3_setTT (w : Nat) (st st' : BandState T) (h : BandState.agreesOnSlot w st st')
    (no : Nat) (t : T) :
    BandState.agreesOnSlot w { st with grid := st.grid.setNodeTT no t w }
      { st' with grid := st'.grid.setNodeTT no t w } :=
  ⟨agrees3_setNodeTT h.1 no t, h.2.1, h.2.2.1, h.2.2.2.1, h.2.2.2.2⟩

theorem agrees3_seedNode (t0n dt : T) (w no : Nat) (sa sa' : BandState T × Nat)
    (h : BandState.agreesOnSlot w sa.1 sa'.1) (hc : sa'.2 = sa.2) :
    BandState.agreesOnSlot w (seedNode t0n dt w no sa).1 (seedNode t0n dt w no sa').1 ∧
    (seedNode t0n dt w no sa').2 = (seedNode t0n dt w no sa).2 := by
  unfold seedNode
  rw [agrees3_getNodeTT h.1]
  split
  · dsimp only
    have hq : sa'.1.inBand.getD no false = sa.1.inBand.getD no false := by rw [h.2.2.1]
    by_cases hb : sa.1.inBand.getD no false = false
    · rw [if_pos hb, if_pos (hq.trans hb)]
      exact ⟨agrees3_pushFrozen w _ _ (agrees3_setTT w _ _ h no _) no, by rw [hc]⟩
    · rw [if_neg hb, if_neg (fun hx => hb (hq.symm.trans hx))]
      exact ⟨agrees3_setTT w _ _ h no _, hc⟩
  · exact ⟨h, hc⟩

theorem agrees3_populateAround (B : Grid3DunBase T) {w : Nat} (hR : B.readsOnlySlot w)
    (nn : Nat) (t0n : T) (st st' : BandState T) (h : BandState.agreesOnSlot w st st') :
    BandState.agreesOnSlot w (populateAround B nn t0n w st) (populateAround B nn t0n w st') := by
  unfold populateAround
  rw [(h.1.2.2.2.2.2 nn).2.2.2.2.1]
  refine foldl_rel2 (BandState.agreesOnSlot w) _ _ ?_ _ st st' h
  intro a b cellNo hab
  rw [hab.1.2.1]
  refine foldl_rel2 (BandState.agreesOnSlot w) _ _ ?_ _ a b hab
  intro c d neibNo hcd
  dsimp only
  split
  · exact hcd
  · rw [(hR c.grid d.grid hcd.1).2.1 _ _ _ _ (hcd.1.2.2.2.2.2 nn) (hcd.1.2.2.2.2.2 neibNo)]
    exact (agrees3_seedNode t0n _ w neibNo (c, 0) (d, 0) hcd rfl).1

theorem agrees3_getDistance (E : MathEnv T) {w : Nat} {a a' b b' : Node3Dn T}
    (ha : Node3Dn.agreesOnSlot w a a') (hb : Node3Dn.agreesOnSlot w b b') :
    a'.getDistance E b' = a.getDistance E b := by
  unfold Node3Dn.getDistance
  rw [ha.1, ha.2.1, ha.2.2.1, hb.1, hb.2.1, hb.2.2.1]

theorem agrees3_getDistancePt (E : MathEnv T) {w : Nat} {a a' : Node3Dn T}
    (ha : Node3Dn.agreesOnSlot w a a') (p : sxyz T) :
    a'.getDistancePt E p = a.getDistancePt E p := by
  unfold Node3Dn.getDistancePt
  rw [ha.1, ha.2.1, ha.2.2.1]

theorem agrees3_withinRadiusOfNode (E : MathEnv T) (B : Grid3DunBase T) {w : Nat}
    (hR : B.readsOnlySlot w) (nn : Nat) (t0n : T) (st st' : BandState T)
    (h : BandState.agreesOnSlot w st st') :
    BandState.agreesOnSlot w (withinRadiusOfNode E B nn t0n w st).1
      (withinRadiusOfNode E B nn t0n w st').1 ∧
    (withinRadiusOfNode E B nn t0n w st').2 = (withinRadiusOfNode E B nn t0n w st).2 := by
  unfold withinRadiusOfNode
  rw [h.1.2.2.2.2.1]
  refine foldl_rel2
    (fun a b : BandState T × Nat => BandState.agreesOnSlot w a.1 b.1 ∧ b.2 = a.2) _ _ ?_ _
    (st, 0) (st', 0) ⟨h, rfl⟩
  intro a b no hab
  dsimp only
  split
  · exact hab
  · rw [agrees3_getDistance E (hab.1.1.2.2.2.2.2 nn) (hab.1.1.2.2.2.2.2 no), hab.1.1.2.2.2.1,
      (hR a.1.grid b.1.grid hab.1.1).2.1 _ _ _ _ (hab.1.1.2.2.2.2.2 nn) (hab.1.1.2.2.2.2.2 no)]
    split
    · exact agrees3_seedNode t0n _ w no a b hab.1 hab.2
    · exact hab

theorem agrees3_withinRadiusOfPoint (E : MathEnv T) {w : Nat} (q : sxyz T) (t0n : T)
    (st st' : BandState T) (h : BandState.agreesOnSlot w st st') :
    BandState.agreesOnSlot w (withinRadiusOfPoint E q t0n w st).1
      (withinRadiusOfPoint E q t0n w st').1 ∧
    (withinRadiusOfPoint E q t0n w st').2 = (withinRadiusOfPoint E q t0n w st).2 := by
  unfold withinRadiusOfPoint
  rw [h.1.2.2.2.2.1]
  refine foldl_rel2
    (fun a b : BandState T × Nat => BandState.agreesOnSlot w a.1 b.1 ∧ b.2 = a.2) _ _ ?_ _
    (st, 0) (st', 0) ⟨h, rfl⟩
  intro a b no hab
  dsimp only
  rw [agrees3_getDistancePt E (hab.1.1.2.2.2.2.2 no) q, hab.1.1.2.2.2.1,
    (hab.1.1.2.2.2.2.2 no).2.2.2.2.2.1]
  split
  · exact agrees3_seedNode t0n _ w no a b hab.1 hab.2
  · exact hab

theorem agrees3_abortIfNone (w : Nat) (sa sa' : BandState T × Nat)
    (h : BandState.agreesOnSlot w sa.1 sa'.1) (hc : sa'.2 = sa.2) :
    Outcome.agrees (BandState.agreesOnSlot w) (abortIfNone sa) (abortIfNone sa') := by
  unfold abortIfNone
  rw [hc]
  split
  · exact Outcome.agrees_throw _ _ _ _ h
  · exact Outcome.agrees_ret _ _ _ h

theorem agrees3_initBandOnNode (E : MathEnv T) (B : Grid3DunBase T) {w : Nat}
    (hR : B.readsOnlySlot w) (single : Bool) (nn : Nat) (t0n : T) (st st' : BandState T)
    (h : BandState.agreesOnSlot w st st') :
    Outcome.agrees (BandState.agreesOnSlot w) (initBandOnNode E B single nn t0n w st)
      (initBandOnNode E B single nn t0n w st') := by
  have h0 : BandState.agreesOnSlot w
      (pushFrozen { st with grid := st.grid.setNodeTT nn t0n w } nn)
      (pushFrozen { st' with grid := st'.grid.setNodeTT nn t0n w } nn) :=
    agrees3_pushFrozen w _ _ (agrees3_setTT w _ _ h nn t0n) nn
  have hr : (pushFrozen { st' with grid := st'.grid.setNodeTT nn t0n w } nn).grid.source_radius
      = (pushFrozen { st with grid := st.grid.setNodeTT nn t0n w } nn).grid.source_radius :=
    h0.1.2.2.2.1
  unfold initBandOnNode
  dsimp only
  cases single with
  | true =>
    rw [if_pos rfl, if_pos rfl]
    by_cases hz : (pushFrozen { st with grid := st.grid.setNodeTT nn t0n w } nn).grid.source_radius
        = 0
    · rw [if_pos hz, if_pos (hr.trans hz)]
      exact Outcome.agrees_ret _ _ _ (agrees3_populateAround B hR nn t0n _ _ h0)
    · rw [if_neg hz, if_neg (fun hx => hz (hr.symm.trans hx))]
      have hw := agrees3_withinRadiusOfNode E B hR nn t0n _ _ h0
      exact agrees3_abortIfNone w _ _ hw.1 hw.2
  | false =>
    rw [if_neg (by decide), if_neg (by decide)]
    exact Outcome.agrees_ret _ _ _ h0

theorem agrees3_initBandInCell (E : MathEnv T) (B : Grid3DunBase T) {w : Nat}
    (hR : B.readsOnlySlot w) (single : Bool) (q : sxyz T) (t0n : T) (st st' : BandState T)
    (h : BandState.agreesOnSlot w st st') :
    Outcome.agrees (BandState.agreesOnSlot w) (initBandInCell E B single q t0n w st)
      (initBandInCell E B single q t0n w st') := by
  unfold initBandInCell
  dsimp only
  rw [h.1.2.2.2.1, agrees3_getCellNo B hR h.1 q, h.1.2.1]
  split
  · refine Outcome.agrees_ret _ _ _ ?_
    refine foldl_rel2 (BandState.agreesOnSlot w) _ _ ?_ _ st st' h
    intro a b k hab
    dsimp only
    rw [agrees3_getDistancePt E (hab.1.2.2.2.2.2 k) q, (hab.1.2.2.2.2.2 k).2.2.2.2.2.1]
    exact agrees3_pushFrozen w _ _ (agrees3_setTT w _ _ hab k _) k
  · split
    · have hw := agrees3_withinRadiusOfPoint E q t0n st st' h
      exact agrees3_abortIfNone w _ _ hw.1 hw.2
    · exact Outcome.agrees_ret _ _ _ h

theorem agrees3_initBandOne (E : MathEnv T) (B : Grid3DunBase T) {w : Nat}
    (hR : B.readsOnlySlot w) (single : Bool) (q : sxyz T) (t0n : T) (st st' : BandState T)
    (h : BandState.agreesOnSlot w st st') :
    Outcome.agrees (BandState.agreesOnSlot w) (initBandOne E B single q t0n w st)
      (initBandOne E B single q t0n w st') := by
  unfold initBandOne
  rw [agrees3_findNode E h.1 q]
  split
  · exact agrees3_initBandOnNode E B hR single _ t0n st st' h
  · exact agrees3_initBandInCell E B hR single q t0n st st' h

theorem agrees3_initBandFrom (E : MathEnv T) (B : Grid3DunBase T) {w : Nat}
    (hR : B.readsOnlySlot w) (single : Bool) (t0 : List T) (Tx : List (sxyz T)) :
    ∀ (n : Nat) (st st' : BandState T), BandState.agreesOnSlot w st st' →
      Outcome.agrees (BandState.agreesOnSlot w) (initBandFrom E B single t0 w n Tx st)
        (initBandFrom E B single t0 w n Tx st') := by
  induction Tx with
  | nil => intro n st st' h; exact Outcome.agrees_ret _ _ _ h
  | cons q rest ih =>
    intro n st st' h
    rw [initBandFrom, initBandFrom]
    exact Outcome.agrees_andThen _ _ _ _ _ (agrees3_initBandOne E B hR single q _ st st' h)
      (ih (n + 1))

theorem agrees3_reinitNodes (E : MathEnv T) {w : Nat} {g g' : Grid3Dun T}
    (h : Grid3Dun.agreesOnSlot w g g') :
    Grid3Dun.agreesOnSlot w (reinitNodes E g w) (reinitNodes E g' w) := by
  unfold reinitNodes
  rw [h.2.2.2.2.1]
  exact foldl_rel2 (Grid3Dun.agreesOnSlot w) _ _
    (fun a b n hab => agrees3_setNodeTT hab n E.tmax) _ g g' h

/-- Two runs of the reset of the nodes and of `initBand` on grids that differ
at most in the slots other than `w` throw alike and leave states that differ
at most in those slots. -/
theorem agrees3_raytraceSeed (E : MathEnv T) (B : Grid3DunBase T) {w : Nat}
    (hR : B.readsOnlySlot w) {g g' : Grid3Dun T} (h : Grid3Dun.agreesOnSlot w g g')
    (Tx : List (sxyz T)) (t0 : List T) :
    Outcome.agrees (BandState.agreesOnSlot w) (raytraceSeed E B g Tx t0 w)
      (raytraceSeed E B g' Tx t0 w) := by
  have hr := agrees3_reinitNodes E h
  unfold raytraceSeed initBand
  dsimp only
  refine agrees3_initBandFrom E B hR _ t0 Tx 0 _ _ ⟨hr, rfl, ?_, ?_, rfl⟩
  · show List.replicate _ false = List.replicate _ false
    rw [hr.2.2.2.2.1]
  · show List.replicate _ false = List.replicate _ false
    rw [hr.2.2.2.2.1]

theorem agrees3_relax (B : Grid3DunBase T) {w : Nat} (hR : B.readsOnlySlot w) (source : Nat)
    (st st' : BandState T) (h : BandState.agreesOnSlot w st st') (neibNo : Nat) :
    BandState.agreesOnSlot w (relax B w source st neibNo) (relax B w source st' neibNo) := by
  unfold relax
  have hc : (neibNo = (st'.grid.nodes.getD source default).gridIndex ∨
      st'.frozen.getD neibNo false = true) ↔
      (neibNo = (st.grid.nodes.getD source default).gridIndex ∨
        st.frozen.getD neibNo false = true) := by
    rw [(h.1.2.2.2.2.2 source).2.2.2.1, h.2.2.2.1]
  by_cases hs : neibNo = (st.grid.nodes.getD source default).gridIndex ∨
      st.frozen.getD neibNo false = true
  · rw [if_pos hs, if_pos (hc.mpr hs)]
    exact h
  · rw [if_neg hs, if_neg (fun hx => hs (hc.mp hx))]
    dsimp only
    have hu := (hR st.grid st'.grid h.1).2.2.1 neibNo
    have hq : st'.inBand.getD neibNo false = st.inBand.getD neibNo false := by rw [h.2.2.1]
    by_cases hb : st.inBand.getD neibNo false = false
    · rw [if_pos hb, if_pos (hq.trans hb)]
      exact ⟨hu, by show st'.narrow_band ++ [neibNo] = st.narrow_band ++ [neibNo]; rw [h.2.1],
        by show st'.inBand.set neibNo true = st.inBand.set neibNo true; rw [h.2.2.1],
        h.2.2.2.1, h.2.2.2.2⟩
    · rw [if_neg hb, if_neg (fun hx => hb (hq.symm.trans hx))]
      exact ⟨hu, h.2.1, h.2.2.1, h.2.2.2.1, h.2.2.2.2⟩

theorem agrees3_topNode (B : Grid3DunBase T) {w : Nat} (hR : B.readsOnlySlot w)
    (st st' : BandState T) (h : BandState.agreesOnSlot w st st') :
    topNode B w st' = topNode B w st := by
  unfold topNode
  rw [h.2.1, (hR st.grid st'.grid h.1).2.2.2.2 st.narrow_band]

theorem agrees3_popTop (B : Grid3DunBase T) {w : Nat} (hR : B.readsOnlySlot w)
    (st st' : BandState T) (h : BandState.agreesOnSlot w st st') :
    BandState.agreesOnSlot w (popTop B w st) (popTop B w st') := by
  have ht := agrees3_topNode B hR st st' h
  have hg : (st'.grid.nodes.getD (topNode B w st') default).gridIndex
      = (st.grid.nodes.getD (topNode B w st) default).gridIndex := by
    rw [ht]
    exact (h.1.2.2.2.2.2 _).2.2.2.1
  unfold popTop
  dsimp only
  refine ⟨h.1, ?_, ?_, ?_, ?_⟩
  · show st'.narrow_band.eraseIdx _ = st.narrow_band.eraseIdx _
    rw [h.2.1, (hR st.grid st'.grid h.1).2.2.2.2 st.narrow_band]
  · show st'.inBand.set _ false = st.inBand.set _ false
    rw [h.2.2.1, hg]
  · show st'.frozen.set _ true = st.frozen.set _ true
    rw [h.2.2.2.1, hg]
  · show st'.popped ++ [_] = st.popped ++ [_]
    rw [h.2.2.2.2, ht]

theorem agrees3_popStep (B : Grid3DunBase T) {w : Nat} (hR : B.readsOnlySlot w)
    (st st' : BandState T) (h : BandState.agreesOnSlot w st st') :
    BandState.agreesOnSlot w (popStep B w st) (popStep B w st') := by
  unfold popStep
  dsimp only
  rw [agrees3_topNode B hR st st' h, (h.1.2.2.2.2.2 _).2.2.2.2.1]
  refine foldl_rel2 (BandState.agreesOnSlot w) _ _ ?_ _ _ _ (agrees3_popTop B hR st st' h)
  intro a b cellNo hab
  rw [hab.1.2.1]
  exact foldl_rel2 (BandState.agreesOnSlot w) _ _
    (fun c d k hcd => agrees3_relax B hR _ c d hcd k) _ a b hab

/-- Two runs of `propagate` from states that differ at most in the slots other
than `w` end after the same number of passes in states that differ at most in
those slots. -/
theorem agrees3_propagate (B : Grid3DunBase T) {w : Nat} (hR : B.readsOnlySlot w)
    (fuel : Nat) :
    ∀ (st st' : BandState T), BandState.agreesOnSlot w st st' →
      (propagate B w fuel st = none ∧ propagate B w fuel st' = none) ∨
      ∃ s s', propagate B w fuel st = some s ∧ propagate B w fuel st' = some s' ∧
        BandState.agreesOnSlot w s s' := by
  induction fuel with
  | zero =>
    intro st st' h
    rw [propagate, propagate, h.2.1]
    split
    · exact Or.inr ⟨st, st', rfl, rfl, h⟩
    · exact Or.inl ⟨rfl, rfl⟩
  | succ fuel ih =>
    intro st st' h
    rw [propagate, propagate, h.2.1]
    split
    · exact Or.inr ⟨st, st', rfl, rfl, h⟩
    · exact ih _ _ (agrees3_popStep B hR st st' h)

theorem agrees3_checkPtsFrom (E : MathEnv T) (B : Grid3DunBase T) {w : Nat}
    (hR : B.readsOnlySlot w) {g g' : Grid3Dun T} (h : Grid3Dun.agreesOnSlot w g g')
    (pts : List (sxyz T)) :
    ∀ n, (Grid3Dun.checkPtsFrom E B g' n pts).exn = (Grid3Dun.checkPtsFrom E B g n pts).exn := by
  induction pts with
  | nil => intro n; rfl
  | cons p rest ih =>
    intro n
    have h1 : Grid3Dun.onNode E g' p = Grid3Dun.onNode E g p :=
      any_forall2 (Node3Dn.agreesOnSlot w) _ _ (fun a b hab => agrees3_eqPt E hab p) _ _
        (agrees3_nodes h)
    have h2 : Grid3Dun.inSomeCell B g' p = Grid3Dun.inSomeCell B g p := by
      unfold Grid3Dun.inSomeCell
      have e : (fun nt => B.insideTetrahedron g' p nt) = (fun nt => B.insideTetrahedron g p nt) :=
        funext (fun nt => (hR g g' h).1 p nt)
      rw [e, h.2.2.1]
    rw [Grid3Dun.checkPtsFrom, Grid3Dun.checkPtsFrom]
    rw [h1, h2]
    split
    · split
      · rfl
      · exact ih (n + 1)
    · exact ih (n + 1)

theorem agrees3_checkPts (E : MathEnv T) (B : Grid3DunBase T) {w : Nat}
    (hR : B.readsOnlySlot w) {g g' : Grid3Dun T} (h : Grid3Dun.agreesOnSlot w g g')
    (pts : List (sxyz T)) :
    (Grid3Dun.checkPts E B g' pts).exn = (Grid3Dun.checkPts E B g pts).exn :=
  agrees3_checkPtsFrom E B hR h pts 0

theorem agrees3_getTraveltime (E : MathEnv T) (B : Grid3DunBase T) {w : Nat}
    (hR : B.readsOnlySlot w) {g g' : Grid3Dun T} (h : Grid3Dun.agreesOnSlot w g g')
    (p : sxyz T) :
    Grid3Dun.getTraveltime E B g' p w = Grid3Dun.getTraveltime E B g p w := by
  unfold Grid3Dun.getTraveltime
  rcases find_forall2 (Node3Dn.agreesOnSlot w) (fun n => n.eqPt E p) (fun n => n.eqPt E p)
    (fun a b hab => agrees3_eqPt E hab p) _ _ (agrees3_nodes h) with ⟨h1, h2⟩ | ⟨a, b, h1, h2, hab⟩
  · rw [h1, h2]
    exact (hR g g' h).2.2.2.1 p
  · rw [h1, h2]
    exact hab.2.2.2.2.2.2.2

theorem agrees3_checkBatches (E : MathEnv T) (B : Grid3DunBase T) {w : Nat}
    (hR : B.readsOnlySlot w) {g g' : Grid3Dun T} (h : Grid3Dun.agreesOnSlot w g g')
    (Rx : List (List (sxyz T))) : checkBatches E B g' Rx = checkBatches E B g Rx := by
  induction Rx with
  | nil => rfl
  | cons batch rest ih =>
    rw [checkBatches, checkBatches, agrees3_checkPts E B hR h batch, ih]

/-- Two calls of `raytrace` for worker `w` on grids that differ at most in the
slots other than `w` end alike, with the same exception or the same travel
times, and leave grids that differ at most in those slots. -/
theorem agrees3_raytrace (E : MathEnv T) (B : Grid3DunBase T) {w : Nat}
    (hR : B.readsOnlySlot w) (fuel : Nat) {g g' : Grid3Dun T}
    (h : Grid3Dun.agreesOnSlot w g g') (Tx : List (sxyz T)) (t0 : List T)
    (Rx : List (sxyz T)) (tts : List T) :
    (raytrace E B fuel g Tx t0 Rx tts w = none ∧ raytrace E B fuel g' Tx t0 Rx tts w = none) ∨
    ∃ r r', raytrace E B fuel g Tx t0 Rx tts w = some r ∧
      raytrace E B fuel g' Tx t0 Rx tts w = some r' ∧ r'.exn = r.exn ∧
      r'.traveltimes = r.traveltimes ∧ BandState.agreesOnSlot w r.band r'.band := by
  have hidle : BandState.agreesOnSlot w ⟨g, [], [], [], []⟩ ⟨g', [], [], [], []⟩ :=
    ⟨h, rfl, rfl, rfl, rfl⟩
  have hseed := agrees3_raytraceSeed E B hR h Tx t0
  unfold raytrace
  dsimp only
  rw [agrees3_checkPts E B hR h Tx, agrees3_checkPts E B hR h Rx, hseed.1]
  cases (Grid3Dun.checkPts E B g Tx).exn with
  | some e => exact Or.inr ⟨_, _, rfl, rfl, rfl, rfl, hidle⟩
  | none =>
    dsimp only
    cases (Grid3Dun.checkPts E B g Rx).exn with
    | some e => exact Or.inr ⟨_, _, rfl, rfl, rfl, rfl, hidle⟩
    | none =>
      dsimp only
      cases (raytraceSeed E B g Tx t0 w).exn with
      | some e => exact Or.inr ⟨_, _, rfl, rfl, rfl, rfl, hseed.2⟩
      | none =>
        dsimp only
        rcases agrees3_propagate B hR fuel _ _ hseed.2 with ⟨h1, h2⟩ | ⟨s, s', h1, h2, hs⟩
        · rw [h1, h2]
          exact Or.inl ⟨rfl, rfl⟩
        · rw [h1, h2]
          refine Or.inr ⟨_, _, rfl, rfl, rfl, ?_, hs⟩
          exact List.map_congr_left (fun q _ => agrees3_getTraveltime E B hR hs.1 q)

theorem agrees3_raytraceBatches (E : MathEnv T) (B : Grid3DunBase T) {w : Nat}
    (hR : B.readsOnlySlot w) (fuel : Nat) {g g' : Grid3Dun T}
    (h : Grid3Dun.agreesOnSlot w g g') (Tx : List (sxyz T)) (t0 : List T)
    (Rx : List (List (sxyz T))) (tts : List (List T)) :
    (raytraceBatches E B fuel g Tx t0 Rx tts w = none ∧
      raytraceBatches E B fuel g' Tx t0 Rx tts w = none) ∨
    ∃ r r', raytraceBatches E B fuel g Tx t0 Rx tts w = some r ∧
      raytraceBatches E B fuel g' Tx t0 Rx tts w = some r' ∧ r'.exn = r.exn ∧
      r'.traveltimes = r.traveltimes ∧ BandState.agreesOnSlot w r.band r'.band := by
  have hidle : BandState.agreesOnSlot w ⟨g, [], [], [], []⟩ ⟨g', [], [], [], []⟩ :=
    ⟨h, rfl, rfl, rfl, rfl⟩
  have hseed := agrees3_raytraceSeed E B hR h Tx t0
  unfold raytraceBatches
  dsimp only
  rw [agrees3_checkPts E B hR h Tx, agrees3_checkBatches E B hR h Rx, hseed.1]
  cases (Grid3Dun.checkPts E B g Tx).exn with
  | some e => exact Or.inr ⟨_, _, rfl, rfl, rfl, rfl, hidle⟩
  | none =>
    dsimp only
    cases checkBatches E B g Rx with
    | some e => exact Or.inr ⟨_, _, rfl, rfl, rfl, rfl, hidle⟩
    | none =>
      dsimp only
      cases (raytraceSeed E B g Tx t0 w).exn with
      | some e => exact Or.inr ⟨_, _, rfl, rfl, rfl, rfl, hseed.2⟩
      | none =>
        dsimp only
        rcases agrees3_propagate B hR fuel _ _ hseed.2 with ⟨h1, h2⟩ | ⟨s, s', h1, h2, hs⟩
        · rw [h1, h2]
          exact Or.inl ⟨rfl, rfl⟩
        · rw [h1, h2]
          refine Or.inr ⟨_, _, rfl, rfl, rfl, ?_, hs⟩
          exact List.map_congr_left (fun batch _ =>
            List.map_congr_left (fun q _ => agrees3_getTraveltime E B hR hs.1 q))

end Grid3Dunfm

/-- The parameters of the examples read slot `w` only. -/
theorem exampleBase_readsOnlySlot (w : Nat) : exampleBase.readsOnlySlot w := by
  intro g g' h
  have hx : ∀ n, (g'.nodes.getD n default).x = (g.nodes.getD n default).x :=
    fun n => (h.2.2.2.2.2 n).1
  have hy : ∀ n, (g'.nodes.getD n default).y = (g.nodes.getD n default).y :=
    fun n => (h.2.2.2.2.2 n).2.1
  have hz : ∀ n, (g'.nodes.getD n default).z = (g.nodes.getD n default).z :=
    fun n => (h.2.2.2.2.2 n).2.2.1
  have hsl : ∀ n, (g'.nodes.getD n default).slowness = (g.nodes.getD n default).slowness :=
    fun n => (h.2.2.2.2.2 n).2.2.2.2.2.1
  have hin : ∀ (p : sxyz ℚ) (nt : Nat), exampleInside g' p nt = exampleInside g p nt := by
    intro p nt
    unfold exampleInside
    simp only [h.2.2.1, hx, hy, hz]
  have hdt : ∀ (g1 g2 : Grid3Dun ℚ) (a a' b b' : Node3Dn ℚ), Node3Dn.agreesOnSlot w a a' →
      Node3Dn.agreesOnSlot w b b' → exampleComputeDt g2 a' b' = exampleComputeDt g1 a b := by
    intro g1 g2 a a' b b' ha hb
    unfold exampleComputeDt
    rw [Grid3Dunfm.agrees3_getDistance exampleEnv ha hb, ha.2.2.2.2.2.1, hb.2.2.2.2.2.1]
  refine ⟨hin, hdt g g', ?_, ?_, ?_⟩
  · intro v
    show Grid3Dun.agreesOnSlot w (exampleUpdate g v w) (exampleUpdate g' v w)
    unfold exampleUpdate
    rw [(h.2.2.2.2.2 v).2.2.2.2.1]
    refine foldl_rel2 (Grid3Dun.agreesOnSlot w) _ _ ?_ _ g g' h
    intro a b cellNo hab
    rw [hab.2.1]
    refine foldl_rel2 (Grid3Dun.agreesOnSlot w) _ _ ?_ _ a b hab
    intro c d u hcd
    dsimp only
    split
    · exact hcd
    · rw [Grid3Dunfm.agrees3_getNodeTT hcd, Grid3Dunfm.agrees3_getNodeTT hcd,
        hdt c d _ _ _ _ (hcd.2.2.2.2.2 u) (hcd.2.2.2.2.2 v)]
      split
      · exact Grid3Dunfm.agrees3_setNodeTT hcd _ _
      · exact hcd
  · intro p
    show exampleInterpolate g' p w = exampleInterpolate g p w
    unfold exampleInterpolate
    have e : (fun n => exampleInside g' p n) = (fun n => exampleInside g p n) :=
      funext (fun n => hin p n)
    have ht : ∀ u, g'.getNodeTT u w = g.getNodeTT u w :=
      fun u => Grid3Dunfm.agrees3_getNodeTT h u
    have hd : ∀ u, (g'.nodes.getD u default).getDistancePt exampleEnv p
        = (g.nodes.getD u default).getDistancePt exampleEnv p :=
      fun u => Grid3Dunfm.agrees3_getDistancePt exampleEnv (h.2.2.2.2.2 u) p
    simp only [e, h.2.2.1, h.2.1, ht, hd, hsl]
  · intro band
    show Nat.min (exampleMinPos (fun v => g'.getNodeTT v w) band) (band.length - 1)
      = Nat.min (exampleMinPos (fun v => g.getNodeTT v w) band) (band.length - 1)
    have e : (fun v => g'.getNodeTT v w) = (fun v => g.getNodeTT v w) :=
      funext (fun v => Grid3Dunfm.agrees3_getNodeTT h v)
    rw [e]

end ReadsOnlySlot3D

/-! ### Contracts of `raytrace` -/

section Contracts

variable {T : Type} [LinearOrderedField T]

theorem any_check_pts (E : MathEnv T) (g : Grid2Duifs T) (Rx : List (List (sxz T))) :
    Rx.any (fun Rxn => decide (Grid2Duifs.check_pts E g Rxn = 1)) = true ↔
      ∃ batch ∈ Rx, ∃ p ∈ batch, Grid2Duc.outsideMesh E g.toGrid2Duc p := by
  rw [List.any_eq_true]
  constructor
  · rintro ⟨batch, hb, hc⟩
    exact ⟨batch, hb, (Grid2Duifs.check_pts_eq_one E g batch).mp (of_decide_eq_true hc)⟩
  · rintro ⟨batch, hb, hp⟩
    exact ⟨batch, hb, decide_eq_true ((Grid2Duifs.check_pts_eq_one E g batch).mpr hp)⟩

theorem checkBatches_exn (E : MathEnv T) (B : Grid3DunBase T) (g : Grid3Dun T)
    (Rx : List (List (sxyz T))) :
    (∃ batch ∈ Rx, ∃ p ∈ batch, Grid3Dun.outsideMesh E B g p) →
      ∃ k q, Grid3Dunfm.checkBatches E B g Rx = some (Exn.pointOutsideMesh3 k q) ∧
        Grid3Dun.outsideMesh E B g q := by
  induction Rx with
  | nil => rintro ⟨batch, hb, _⟩; exact absurd hb (List.not_mem_nil batch)
  | cons first rest ih =>
    rintro ⟨batch, hb, hp⟩
    rw [Grid3Dunfm.checkBatches]
    cases hx : (Grid3Dun.checkPts E B g first).exn with
    | some e =>
      obtain ⟨k, q, hk, hq⟩ := (Grid3Dun.checkPtsFrom3_exn E B g first 0).1
        ((Grid3Dun.checkPtsFrom3_exn E B g first 0).2 (by
          show (Grid3Dun.checkPts E B g first).exn ≠ none
          rw [hx]; exact Option.some_ne_none e))
      have hk' : (Grid3Dun.checkPts E B g first).exn = some (Exn.pointOutsideMesh3 k q) := hk
      rw [hx] at hk'
      exact ⟨k, q, hk', hq⟩
    | none =>
      rcases List.mem_cons.mp hb with rfl | hb
      · obtain ⟨k, q, hk, _⟩ := (Grid3Dun.checkPtsFrom3_exn E B g batch 0).1 hp
        have hk' : (Grid3Dun.checkPts E B g batch).exn = some (Exn.pointOutsideMesh3 k q) := hk
        rw [hx] at hk'
        exact Option.noConfusion hk'
      · exact ih ⟨batch, hb, hp⟩

/-- Claim C2. If a `Tx` or `Rx` point (of any batch) is outside the mesh,
the 2D sweeping `raytrace` returns 1 and the 3D marching `raytrace` throws
the exception of `checkPts`, and the call leaves the grid, every slot of
every node, and the output vector as they were. -/
theorem raytrace_rejects_outside (E : MathEnv T) (B : Grid3DunBase T) :
    (∀ (g : Grid2Duifs T) (Tx : List (sxz T)) (t0 : List T) (Rx : List (sxz T))
        (tts : List T) (w : Nat),
      (∃ p ∈ Tx ++ Rx, Grid2Duc.outsideMesh E g.toGrid2Duc p) →
      Grid2Duifs.raytrace E g Tx t0 Rx tts w = ⟨g, tts, some 1, none⟩) ∧
    (∀ (g : Grid2Duifs T) (Tx : List (sxz T)) (t0 : List T) (Rx : List (List (sxz T)))
        (tts : List (List T)) (w : Nat),
      ((∃ p ∈ Tx, Grid2Duc.outsideMesh E g.toGrid2Duc p) ∨
        ∃ batch ∈ Rx, ∃ p ∈ batch, Grid2Duc.outsideMesh E g.toGrid2Duc p) →
      Grid2Duifs.raytraceBatches E g Tx t0 Rx tts w = ⟨g, tts, some 1, none⟩) ∧
    (∀ (fuel : Nat) (g : Grid3Dun T) (Tx : List (sxyz T)) (t0 : List T) (Rx : List (sxyz T))
        (tts : List T) (w : Nat),
      (∃ p ∈ Tx ++ Rx, Grid3Dun.outsideMesh E B g p) →
      ∃ k q, Grid3Dun.outsideMesh E B g q ∧
        Grid3Dunfm.raytrace E B fuel g Tx t0 Rx tts w
          = some ⟨⟨g, [], [], [], []⟩, tts, some (Exn.pointOutsideMesh3 k q)⟩) ∧
    (∀ (fuel : Nat) (g : Grid3Dun T) (Tx : List (sxyz T)) (t0 : List T)
        (Rx : List (List (sxyz T))) (tts : List (List T)) (w : Nat),
      ((∃ p ∈ Tx, Grid3Dun.outsideMesh E B g p) ∨
        ∃ batch ∈ Rx, ∃ p ∈ batch, Grid3Dun.outsideMesh E B g p) →
      ∃ k q, Grid3Dun.outsideMesh E B g q ∧
        Grid3Dunfm.raytraceBatches E B fuel g Tx t0 Rx tts w
          = some ⟨⟨g, [], [], [], []⟩, tts, some (Exn.pointOutsideMesh3 k q)⟩) := by
  refine ⟨?_, ?_, ?_, ?_⟩
  · rintro g Tx t0 Rx tts w ⟨p, hp, hout⟩
    unfold Grid2Duifs.raytrace
    rcases List.mem_append.mp hp with hp | hp
    · rw [if_pos ((Grid2Duifs.check_pts_eq_one E g Tx).mpr ⟨p, hp, hout⟩)]
    · have h2 := (Grid2Duifs.check_pts_eq_one E g Rx).mpr ⟨p, hp, hout⟩
      by_cases h1 : Grid2Duifs.check_pts E g Tx = 1
      · rw [if_pos h1]
      · rw [if_neg h1, if_pos h2]
  · rintro g Tx t0 Rx tts w h
    unfold Grid2Duifs.raytraceBatches
    rcases h with ⟨p, hp, hout⟩ | h
    · rw [if_pos ((Grid2Duifs.check_pts_eq_one E g Tx).mpr ⟨p, hp, hout⟩)]
    · have h2 := (any_check_pts E g Rx).mpr h
      by_cases h1 : Grid2Duifs.check_pts E g Tx = 1
      · rw [if_pos h1]
      · rw [if_neg h1, if_pos h2]
  · rintro fuel g Tx t0 Rx tts w ⟨p, hp, hout⟩
    unfold Grid3Dunfm.raytrace
    dsimp only
    cases hx : (Grid3Dun.checkPts E B g Tx).exn with
    | some e =>
      obtain ⟨k, q, hk, hq⟩ := (Grid3Dun.checkPtsFrom3_exn E B g Tx 0).1
        ((Grid3Dun.checkPtsFrom3_exn E B g Tx 0).2 (by
          show (Grid3Dun.checkPts E B g Tx).exn ≠ none
          rw [hx]; exact Option.some_ne_none e))
      have hk' : (Grid3Dun.checkPts E B g Tx).exn = some (Exn.pointOutsideMesh3 k q) := hk
      rw [hx] at hk'
      exact ⟨k, q, hq, by rw [hk']⟩
    | none =>
      rcases List.mem_append.mp hp with hp | hp
      · obtain ⟨k, q, hk, _⟩ := (Grid3Dun.checkPtsFrom3_exn E B g Tx 0).1 ⟨p, hp, hout⟩
        have hk' : (Grid3Dun.checkPts E B g Tx).exn = some (Exn.pointOutsideMesh3 k q) := hk
        rw [hx] at hk'
        exact Option.noConfusion hk'
      · obtain ⟨k, q, hk, hq⟩ := (Grid3Dun.checkPtsFrom3_exn E B g Rx 0).1 ⟨p, hp, hout⟩
        have hk' : (Grid3Dun.checkPts E B g Rx).exn = some (Exn.pointOutsideMesh3 k q) := hk
        exact ⟨k, q, hq, by simp only [hk']⟩
  · rintro fuel g Tx t0 Rx tts w h
    unfold Grid3Dunfm.raytraceBatches
    dsimp only
    cases hx : (Grid3Dun.checkPts E B g Tx).exn with
    | some e =>
      obtain ⟨k, q, hk, hq⟩ := (Grid3Dun.checkPtsFrom3_exn E B g Tx 0).1
        ((Grid3Dun.checkPtsFrom3_exn E B g Tx 0).2 (by
          show (Grid3Dun.checkPts E B g Tx).exn ≠ none
          rw [hx]; exact Option.some_ne_none e))
      have hk' : (Grid3Dun.checkPts E B g Tx).exn = some (Exn.pointOutsideMesh3 k q) := hk
      rw [hx] at hk'
      exact ⟨k, q, hq, by rw [hk']⟩
    | none =>
      rcases h with ⟨p, hp, hout⟩ | h
      · obtain ⟨k, q, hk, _⟩ := (Grid3Dun.checkPtsFrom3_exn E B g Tx 0).1 ⟨p, hp, hout⟩
        have hk' : (Grid3Dun.checkPts E B g Tx).exn = some (Exn.pointOutsideMesh3 k q) := hk
        rw [hx] at hk'
        exact Option.noConfusion hk'
      · obtain ⟨k, q, hk, hq⟩ := checkBatches_exn E B g Rx h
        exact ⟨k, q, hq, by simp only [hk]⟩

/-- Claim C2 on the rectangle mesh (scenario S4): with a receiver at (5,5),
outside the mesh, `raytrace` returns 1 and leaves the grid as it was. -/
theorem raytrace_rejects_outside_witness :
    Grid2Duifs.raytrace exampleEnv rectangle [⟨0, 0⟩] [0] [⟨5, 5⟩] [] 0
      = ⟨rectangle, [], some 1, none⟩ :=
  (raytrace_rejects_outside exampleEnv exampleBase).1 rectangle [⟨0, 0⟩] [0] [⟨5, 5⟩] [] 0
    ⟨⟨5, 5⟩, by decide, by decide!⟩

/-- Claim C8. A call of `raytrace` with worker id `w` writes only slot `w`:
it leaves the grid as it was but for slot `w` of the nodes (for every node the
coordinates, the grid index, the owners, the number of slots and the value of
every slot `w'` different from `w` are the same after the call as before, and
so are the slowness, the neighbour lists, the cells, the virtual-node table
and the parameters of the driver). And it reads only slot `w`: two calls on
grids that differ at most in the values of the other slots return alike (the
same return code, exception and travel times) and leave grids that differ at
most in the values of the other slots. For the 3D driver, whose base class is
not among the sources, this is given that the 3D local update of a vertex
writes only slot `w` of that vertex, and that the members of the base class
read slot `w` only. -/
theorem raytrace_worker_isolation (E : MathEnv T) (B : Grid3DunBase T)
    (hB : B.updatesOnlyVertex) (w : Nat) :
    (∀ (g : Grid2Duifs T) (Tx : List (sxz T)) (t0 : List T) (Rx : List (sxz T))
        (tts : List T),
      Grid2Duc.sameButSlot w g.toGrid2Duc
        (Grid2Duifs.raytrace E g Tx t0 Rx tts w).grid.toGrid2Duc ∧
      (Grid2Duifs.raytrace E g Tx t0 Rx tts w).grid.epsilon = g.epsilon ∧
      (Grid2Duifs.raytrace E g Tx t0 Rx tts w).grid.nitermax = g.nitermax ∧
      (Grid2Duifs.raytrace E g Tx t0 Rx tts w).grid.sorted = g.sorted) ∧
    (∀ (g : Grid2Duifs T) (Tx : List (sxz T)) (t0 : List T) (Rx : List (List (sxz T)))
        (tts : List (List T)),
      Grid2Duc.sameButSlot w g.toGrid2Duc
        (Grid2Duifs.raytraceBatches E g Tx t0 Rx tts w).grid.toGrid2Duc ∧
      (Grid2Duifs.raytraceBatches E g Tx t0 Rx tts w).grid.epsilon = g.epsilon ∧
      (Grid2Duifs.raytraceBatches E g Tx t0 Rx tts w).grid.nitermax = g.nitermax ∧
      (Grid2Duifs.raytraceBatches E g Tx t0 Rx tts w).grid.sorted = g.sorted) ∧
    (∀ (fuel : Nat) (g : Grid3Dun T) (Tx : List (sxyz T)) (t0 : List T) (Rx : List (sxyz T))
        (tts : List T) (r : Grid3Dunfm.Result T (List T)),
      Grid3Dunfm.raytrace E B fuel g Tx t0 Rx tts w = some r →
      Grid3Dun.sameButSlot w g r.band.grid) ∧
    (∀ (fuel : Nat) (g : Grid3Dun T) (Tx : List (sxyz T)) (t0 : List T)
        (Rx : List (List (sxyz T))) (tts : List (List T))
        (r : Grid3Dunfm.Result T (List (List T))),
      Grid3Dunfm.raytraceBatches E B fuel g Tx t0 Rx tts w = some r →
      Grid3Dun.sameButSlot w g r.band.grid) ∧
    (∀ (g g' : Grid2Duifs T) (Tx : List (sxz T)) (t0 : List T) (Rx : List (sxz T))
        (tts : List T),
      Grid2Duifs.agreesOnSlot w g g' →
      (Grid2Duifs.raytrace E g' Tx t0 Rx tts w).ret
        = (Grid2Duifs.raytrace E g Tx t0 Rx tts w).ret ∧
      (Grid2Duifs.raytrace E g' Tx t0 Rx tts w).exn
        = (Grid2Duifs.raytrace E g Tx t0 Rx tts w).exn ∧
      (Grid2Duifs.raytrace E g' Tx t0 Rx tts w).traveltimes
        = (Grid2Duifs.raytrace E g Tx t0 Rx tts w).traveltimes ∧
      Grid2Duifs.agreesOnSlot w (Grid2Duifs.raytrace E g Tx t0 Rx tts w).grid
        (Grid2Duifs.raytrace E g' Tx t0 Rx tts w).grid) ∧
    (∀ (g g' : Grid2Duifs T) (Tx : List (sxz T)) (t0 : List T) (Rx : List (List (sxz T)))
        (tts : List (List T)),
      Grid2Duifs.agreesOnSlot w g g' →
      (Grid2Duifs.raytraceBatches E g' Tx t0 Rx tts w).ret
        = (Grid2Duifs.raytraceBatches E g Tx t0 Rx tts w).ret ∧
      (Grid2Duifs.raytraceBatches E g' Tx t0 Rx tts w).exn
        = (Grid2Duifs.raytraceBatches E g Tx t0 Rx tts w).exn ∧
      (Grid2Duifs.raytraceBatches E g' Tx t0 Rx tts w).traveltimes
        = (Grid2Duifs.raytraceBatches E g Tx t0 Rx tts w).traveltimes ∧
      Grid2Duifs.agreesOnSlot w (Grid2Duifs.raytraceBatches E g Tx t0 Rx tts w).grid
        (Grid2Duifs.raytraceBatches E g' Tx t0 Rx tts w).grid) ∧
    (B.readsOnlySlot w →
      ∀ (fuel : Nat) (g g' : Grid3Dun T) (Tx : List (sxyz T)) (t0 : List T)
        (Rx : List (sxyz T)) (tts : List T),
      Grid3Dun.agreesOnSlot w g g' →
      (Grid3Dunfm.raytrace E B fuel g Tx t0 Rx tts w = none ∧
        Grid3Dunfm.raytrace E B fuel g' Tx t0 Rx tts w = none) ∨
      ∃ r r', Grid3Dunfm.raytrace E B fuel g Tx t0 Rx tts w = some r ∧
        Grid3Dunfm.raytrace E B fuel g' Tx t0 Rx tts w = some r' ∧ r'.exn = r.exn ∧
        r'.traveltimes = r.traveltimes ∧ BandState.agreesOnSlot w r.band r'.band) ∧
    (B.readsOnlySlot w →
      ∀ (fuel : Nat) (g g' : Grid3Dun T) (Tx : List (sxyz T)) (t0 : List T)
        (Rx : List (List (sxyz T))) (tts : List (List T)),
      Grid3Dun.agreesOnSlot w g g' →
      (Grid3Dunfm.raytraceBatches E B fuel g Tx t0 Rx tts w = none ∧
        Grid3Dunfm.raytraceBatches E B fuel g' Tx t0 Rx tts w = none) ∨
      ∃ r r', Grid3Dunfm.raytraceBatches E B fuel g Tx t0 Rx tts w = some r ∧
        Grid3Dunfm.raytraceBatches E B fuel g' Tx t0 Rx tts w = some r' ∧ r'.exn = r.exn ∧
        r'.traveltimes = r.traveltimes ∧ BandState.agreesOnSlot w r.band r'.band) := by
  have h2d : ∀ (g : Grid2Duifs T), Grid2Duc.sameButSlot w g.toGrid2Duc g.toGrid2Duc ∧
      g.epsilon = g.epsilon ∧ g.nitermax = g.nitermax ∧ g.sorted = g.sorted :=
    fun g => ⟨Grid2Duc.sameButSlot_refl w _, rfl, rfl, rfl⟩
  have h3d : ∀ (fuel : Nat) (g : Grid3Dun T) (Tx : List (sxyz T)) (t0 : List T)
      (st : BandState T),
      Grid3Dunfm.propagate B w fuel (Grid3Dunfm.raytraceSeed E B g Tx t0 w).state = some st →
      Grid3Dun.sameButSlot w g st.grid := fun fuel g Tx t0 st h =>
    Grid3Dun.grid3_sameButSlot_trans (Grid3Dunfm.raytraceSeed_shape E B g Tx t0 w).1
      (Grid3Dunfm.propagate_follows B hB w fuel _ st h).1
  refine ⟨?_, ?_, ?_, ?_,
    fun g g' Tx t0 Rx tts h => Grid2Duifs.agrees_raytrace E h Tx t0 Rx tts,
    fun g g' Tx t0 Rx tts h => Grid2Duifs.agrees_raytraceBatches E h Tx t0 Rx tts,
    fun hR fuel g g' Tx t0 Rx tts h => Grid3Dunfm.agrees3_raytrace E B hR fuel h Tx t0 Rx tts,
    fun hR fuel g g' Tx t0 Rx tts h =>
      Grid3Dunfm.agrees3_raytraceBatches E B hR fuel h Tx t0 Rx tts⟩
  · intro g Tx t0 Rx tts
    unfold Grid2Duifs.raytrace
    split
    · exact h2d g
    · split
      · exact h2d g
      · dsimp only
        split <;> exact Grid2Duifs.raytraceSweeps_sameButSlot E g Tx t0 w
  · intro g Tx t0 Rx tts
    unfold Grid2Duifs.raytraceBatches
    split
    · exact h2d g
    · split
      · exact h2d g
      · dsimp only
        split <;> exact Grid2Duifs.raytraceSweeps_sameButSlot E g Tx t0 w
  · intro fuel g Tx t0 Rx tts r h
    unfold Grid3Dunfm.raytrace at h
    dsimp only at h
    split at h
    · injection h with h; rw [← h]; exact Grid3Dun.grid3_sameButSlot_refl w g
    · split at h
      · injection h with h; rw [← h]; exact Grid3Dun.grid3_sameButSlot_refl w g
      · split at h
        · injection h with h; rw [← h]
          exact (Grid3Dunfm.raytraceSeed_shape E B g Tx t0 w).1
        · split at h
          · exact Option.noConfusion h
          · rename_i st hst
            injection h with h; rw [← h]
            exact h3d fuel g Tx t0 st hst
  · intro fuel g Tx t0 Rx tts r h
    unfold Grid3Dunfm.raytraceBatches at h
    dsimp only at h
    split at h
    · injection h with h; rw [← h]; exact Grid3Dun.grid3_sameButSlot_refl w g
    · split at h
      · injection h with h; rw [← h]; exact Grid3Dun.grid3_sameButSlot_refl w g
      · split at h
        · injection h with h; rw [← h]
          exact (Grid3Dunfm.raytraceSeed_shape E B g Tx t0 w).1
        · split at h
          · exact Option.noConfusion h
          · rename_i st hst
            injection h with h; rw [← h]
            exact h3d fuel g Tx t0 st hst

/-- The rectangle mesh with slot 1 in use differs from the rectangle mesh
in slot 1 only. -/
theorem rectangleInUse_agrees : Grid2Duifs.agreesOnSlot 0 rectangle rectangleInUse := by
  refine ⟨⟨rfl, rfl, rfl, rfl, rfl, rfl, rfl, fun n => ?_⟩, rfl, rfl, rfl⟩
  match n with
  | 0 => exact ⟨rfl, rfl, rfl, rfl, rfl, rfl⟩
  | 1 => exact ⟨rfl, rfl, rfl, rfl, rfl, rfl⟩
  | 2 => exact ⟨rfl, rfl, rfl, rfl, rfl, rfl⟩
  | 3 => exact ⟨rfl, rfl, rfl, rfl, rfl, rfl⟩
  | _ + 4 => exact ⟨rfl, rfl, rfl, rfl, rfl, rfl⟩

/-- The tetrahedron mesh with slot 1 in use differs from the tetrahedron mesh
in slot 1 only. -/
theorem tetrahedronInUse_agrees : Grid3Dun.agreesOnSlot 0 tetrahedron tetrahedronInUse := by
  refine ⟨rfl, rfl, rfl, rfl, rfl, fun n => ?_⟩
  match n with
  | 0 => exact ⟨rfl, rfl, rfl, rfl, rfl, rfl, rfl, rfl⟩
  | 1 => exact ⟨rfl, rfl, rfl, rfl, rfl, rfl, rfl, rfl⟩
  | 2 => exact ⟨rfl, rfl, rfl, rfl, rfl, rfl, rfl, rfl⟩
  | 3 => exact ⟨rfl, rfl, rfl, rfl, rfl, rfl, rfl, rfl⟩
  | _ + 4 => exact ⟨rfl, rfl, rfl, rfl, rfl, rfl, rfl, rfl⟩

/-- Claim C8 on the rectangle and the tetrahedron meshes: a call with worker
id 0 leaves slot 1 of node 2 as it was, and the calls on the mesh with slot 1
in use give the travel times of the calls on the mesh. -/
theorem raytrace_worker_isolation_witness :
    ((Grid2Duifs.raytrace exampleEnv rectangle [⟨0, 0⟩] [0] [⟨4, 3⟩] [] 0).grid.nodes.getD 2
        default).getTT 1
      = (rectangle.nodes.getD 2 default).getTT 1 ∧
    (Grid2Duifs.raytrace exampleEnv rectangleInUse [⟨0, 0⟩] [0] [⟨4, 3⟩] [] 0).traveltimes
      = (Grid2Duifs.raytrace exampleEnv rectangle [⟨0, 0⟩] [0] [⟨4, 3⟩] [] 0).traveltimes ∧
    (Grid3Dunfm.raytrace exampleEnv exampleBase 8 tetrahedronInUse [⟨0, 0, 0⟩] [0]
        [⟨0, 0, 1⟩] [] 0).map (fun r => r.traveltimes)
      = (Grid3Dunfm.raytrace exampleEnv exampleBase 8 tetrahedron [⟨0, 0, 0⟩] [0]
        [⟨0, 0, 1⟩] [] 0).map (fun r => r.traveltimes) := by
  have h := raytrace_worker_isolation exampleEnv exampleBase exampleBase_updatesOnlyVertex 0
  refine ⟨((h.1 rectangle [⟨0, 0⟩] [0] [⟨4, 3⟩] []).1.2.2.2.2.2.2.2 2).2.2.2.2.2 1 (by decide),
    (h.2.2.2.2.1 rectangle rectangleInUse [⟨0, 0⟩] [0] [⟨4, 3⟩] []
      rectangleInUse_agrees).2.2.1, ?_⟩
  rcases h.2.2.2.2.2.2.1 (exampleBase_readsOnlySlot 0) 8 tetrahedron tetrahedronInUse
    [⟨0, 0, 0⟩] [0] [⟨0, 0, 1⟩] [] tetrahedronInUse_agrees with ⟨h1, h2⟩ | ⟨r, r', h1, h2, _, h4, _⟩
  · rw [h1, h2]
  · rw [h1, h2, Option.map_some', Option.map_some', h4]

end Contracts

/-! ### The number of pops of the Fast Marching loop -/

section MarchingBound

variable {T : Type} [LinearOrderedField T]

namespace Grid3Dunfm

/-- Claim C10, amended. On a mesh whose neighbour lists hold node indices,
and given that the 3D local update of a vertex writes only the slot of that
vertex, `propagate` after `initBand` ends for every source list: with fuel
for `measure` passes or more it returns a state `st'` with an empty band, and
so does `raytrace`. The number of pops is at most the length of the band left
by `initBand` plus the number of nodes it left neither frozen nor in the
band. When the band left by `initBand` holds no node twice, the number of
pops is at most the number of nodes, and (the grid index of every node being
its index) no node is popped twice; this is so for every list of one source
on a mesh whose cells list their vertices once. `initBand` pushes a node once
for each source that seeds it, so that several sources can make it push a
node more than once. -/
theorem marching_terminates (E : MathEnv T) (B : Grid3DunBase T) (hB : B.updatesOnlyVertex)
    (g : Grid3Dun T) (hmesh : ∀ nb ∈ g.neighbors, ∀ v ∈ nb, v < g.nodes.length)
    (Tx : List (sxyz T)) (t0 : List T) (w : Nat) :
    ∃ st' : BandState T,
      (∀ k, propagate B w ((raytraceSeed E B g Tx t0 w).state.measure + k)
        (raytraceSeed E B g Tx t0 w).state = some st') ∧
      (∀ (Rx : List (sxyz T)) (tts : List T) (k : Nat),
        (raytrace E B ((raytraceSeed E B g Tx t0 w).state.measure + k) g Tx t0 Rx tts w).isSome
          = true) ∧
      st'.narrow_band = [] ∧
      st'.popped.length ≤ (raytraceSeed E B g Tx t0 w).state.narrow_band.length
        + (raytraceSeed E B g Tx t0 w).state.waiting ∧
      ((raytraceSeed E B g Tx t0 w).state.narrow_band.Nodup →
        st'.popped.length ≤ g.nodes.length) ∧
      ((raytraceSeed E B g Tx t0 w).state.narrow_band.Nodup →
        (∀ v, v < g.nodes.length → (g.nodes.getD v default).gridIndex = v) →
        st'.popped.Nodup) ∧
      (Tx.length = 1 → (∀ nb ∈ g.neighbors, nb.Nodup) →
        (raytraceSeed E B g Tx t0 w).state.narrow_band.Nodup) := by
  obtain ⟨hsame, hsized, hpop⟩ := raytraceSeed_shape E B g Tx t0 w
  obtain ⟨hseeded, hsingle⟩ := raytraceSeed_seeded E B g hmesh Tx t0 w
  obtain ⟨st', hrun, hempty, hcount⟩ := propagate_terminates B hB w g.nodes.length g.neighbors
    hmesh _ (raytraceSeed E B g Tx t0 w).state hsized (Nat.le_refl _)
  have hlen : st'.popped.length ≤ (raytraceSeed E B g Tx t0 w).state.measure := by
    rw [hpop] at hcount
    simp only [List.length_nil, Nat.zero_add] at hcount
    omega
  refine ⟨st', fun k => propagate_fuel_mono B w _ _ _ k hrun, ?_, hempty, hlen, ?_, ?_,
    hsingle⟩
  · intro Rx tts k
    unfold raytrace
    dsimp only
    split
    · rfl
    · split
      · rfl
      · split
        · rfl
        · rw [propagate_fuel_mono B w _ _ _ k hrun]
          rfl
  · intro hnd
    exact Nat.le_trans hlen (measure_le_of_nodup _ _ _ hseeded hnd)
  · intro hnd hidx
    have hk : (raytraceSeed E B g Tx t0 w).state.popsOnce g.nodes.length g.neighbors :=
      ⟨hsized, hseeded.2.1,
        fun v hv => ((hsame.2.2.2.2.2 v).2.2.2.1).trans (hidx v hv), hnd,
        fun v hv => ⟨by rw [← hseeded.2.1]; exact (hseeded.2.2 v hv).1, (hseeded.2.2 v hv).2.1⟩,
        by rw [hpop]; exact List.nodup_nil,
        fun v hv => by rw [hpop] at hv; exact absurd hv (List.not_mem_nil v)⟩
    exact (propagate_popsOnce B hB w _ _ hmesh _ _ st' hrun hk).2.2.2.2.2.1

end Grid3Dunfm

/-- Several sources make `propagate` pop a node twice (against claim C10), on
the tetrahedron mesh, of 4 nodes. With the sources (1/10,1/10,1/10) and
(1/5,1/5,1/5), both inside the cell and passing `checkPts`, `initBand` throws
nothing and leaves the band `[0, 1, 2, 3, 0, 1, 2, 3]`, and 8 nodes are
popped. With the sources (0,0,0) and (0,0,0) at times 0 and 5, the band left
by `initBand` is `[0, 0]` and the nodes popped are 0, 0, 1, 2, 3. -/
theorem marching_pops_node_twice :
    tetrahedron.nodes.length = 4 ∧
    (Grid3Dun.checkPts exampleEnv exampleBase tetrahedron
      [⟨1 / 10, 1 / 10, 1 / 10⟩, ⟨1 / 5, 1 / 5, 1 / 5⟩]).exn = none ∧
    (Grid3Dunfm.raytraceSeed exampleEnv exampleBase tetrahedron
      [⟨1 / 10, 1 / 10, 1 / 10⟩, ⟨1 / 5, 1 / 5, 1 / 5⟩] [0, 0] 0).exn = none ∧
    (Grid3Dunfm.raytraceSeed exampleEnv exampleBase tetrahedron
      [⟨1 / 10, 1 / 10, 1 / 10⟩, ⟨1 / 5, 1 / 5, 1 / 5⟩] [0, 0] 0).state.narrow_band
      = [0, 1, 2, 3, 0, 1, 2, 3] ∧
    (Grid3Dunfm.propagate exampleBase 0 10
      (Grid3Dunfm.raytraceSeed exampleEnv exampleBase tetrahedron
        [⟨1 / 10, 1 / 10, 1 / 10⟩, ⟨1 / 5, 1 / 5, 1 / 5⟩] [0, 0] 0).state).map
        (fun st => st.popped) = some [0, 0, 1, 2, 3, 1, 2, 3] ∧
    (Grid3Dunfm.raytraceSeed exampleEnv exampleBase tetrahedron [⟨0, 0, 0⟩, ⟨0, 0, 0⟩] [0, 5]
      0).state.narrow_band = [0, 0] ∧
    (Grid3Dunfm.propagate exampleBase 0 10
      (Grid3Dunfm.raytraceSeed exampleEnv exampleBase tetrahedron [⟨0, 0, 0⟩, ⟨0, 0, 0⟩] [0, 5]
        0).state).map (fun st => st.popped) = some [0, 0, 1, 2, 3] := by
  decide!

/-- Claim C10 as amended, on the tetrahedron mesh with the source (0,0,0). -/
theorem marching_terminates_witness :
    ∃ st' : BandState ℚ,
      (∀ k, Grid3Dunfm.propagate exampleBase 0
        ((Grid3Dunfm.raytraceSeed exampleEnv exampleBase tetrahedron [⟨0, 0, 0⟩] [0]
          0).state.measure + k)
        (Grid3Dunfm.raytraceSeed exampleEnv exampleBase tetrahedron [⟨0, 0, 0⟩] [0] 0).state
          = some st') ∧
      st'.narrow_band = [] ∧ st'.popped.length ≤ tetrahedron.nodes.length ∧
      st'.popped.Nodup := by
  obtain ⟨st', h1, _, h3, _, h5, h6, h7⟩ :=
    Grid3Dunfm.marching_terminates exampleEnv exampleBase exampleBase_updatesOnlyVertex
      tetrahedron (by decide) [⟨0, 0, 0⟩] [0] 0
  exact ⟨st', h1, h3, h5 (h7 rfl (by decide)), h6 (h7 rfl (by decide)) (by decide)⟩

end MarchingBound

/-! ### Source identity in the Fast Sweeping driver -/

section SourceIdentity2D

variable {T : Type} [LinearOrderedField T]

/-- The search of the first index of a list whose element satisfies `P` finds
the first element that satisfies `P`. -/
theorem find_of_range_find {α : Type} [Inhabited α] (P : α → Bool) :
    ∀ (l : List α) (v : Nat),
      (List.range l.length).find? (fun i => P (l.getD i default)) = some v →
      l.find? P = some (l.getD v default) := by
  intro l
  induction l with
  | nil => intro v h; simp at h
  | cons a l ih =>
    intro v h
    rw [List.length_cons, List.range_succ_eq_map, List.find?_cons] at h
    rw [List.find?_cons]
    by_cases ha : P a = true
    · rw [show (a :: l).getD 0 default = a from rfl, ha] at h
      rw [ha]
      injection h with h
      rw [← h]
      rfl
    · rw [Bool.not_eq_true] at ha
      rw [show (a :: l).getD 0 default = a from rfl, ha] at h
      rw [ha]
      dsimp only at h ⊢
      rw [List.find?_map] at h
      cases hf : (List.range l.length).find? (fun i => P (l.getD i default)) with
      | none =>
        rw [show ((fun i => P ((a :: l).getD i default)) ∘ Nat.succ)
          = (fun i => P (l.getD i default)) from rfl, hf] at h
        exact Option.noConfusion h
      | some v' =>
        rw [show ((fun i => P ((a :: l).getD i default)) ∘ Nat.succ)
          = (fun i => P (l.getD i default)) from rfl, hf] at h
        injection h with h
        rw [← h]
        exact ih v' hf

namespace Grid2Duifs

theorem leavesNode_refl (w : Nat) (g0 : Grid2Duc T) (v : Nat) (a : Grid2Duc T) :
    leavesNode w g0 v a a := fun h => ⟨h, rfl⟩

theorem leavesNode_trans (w : Nat) (g0 : Grid2Duc T) (v : Nat) (a b c : Grid2Duc T)
    (h1 : leavesNode w g0 v a b) (h2 : leavesNode w g0 v b c) : leavesNode w g0 v a c :=
  fun h => ⟨(h2 (h1 h).1).1, ((h2 (h1 h).1).2).trans (h1 h).2⟩

theorem leavesNode_setNodeTT (w : Nat) (g0 : Grid2Duc T) (v : Nat) (a : Grid2Duc T) (k : Nat)
    (t : T) (hk : k ≠ v) : leavesNode w g0 v a (a.setNodeTT k t w) := by
  intro h
  refine ⟨Grid2Duc.sameButSlot_trans h (Grid2Duc.sameButSlot_setNodeTT a k t w), ?_⟩
  rw [Grid2Duc.getD_setNodeTT, if_neg (Ne.symm hk)]

/-- The loop that populates around a source on a node does not write a node
that is not a vertex of the cell. -/
theorem initTxNeighbors_leaves (E : MathEnv T) (g0 : Grid2Duc T) (nn : Nat) (t0n : T)
    (w cellNo v : Nat) (hv : v ∉ g0.neighbors.getD cellNo []) (g : Grid2Duc T) :
    leavesNode w g0 v g (initTxNeighbors E nn t0n w cellNo g) := by
  intro hg
  unfold initTxNeighbors
  rw [hg.2.2.2.1]
  refine foldl_rel_mem (leavesNode w g0 v) (leavesNode_refl w g0 v)
    (leavesNode_trans w g0 v) _ _ ?_ g hg
  intro a k hk
  dsimp only
  split
  · exact leavesNode_refl w g0 v a
  · split
    · exact leavesNode_setNodeTT w g0 v a k _ (fun h => hv (h ▸ hk))
    · exact leavesNode_refl w g0 v a

/-- The search of the node on which a point lies returns a node of the grid on
which the point lies. -/
theorem findNode_some (E : MathEnv T) (g : Grid2Duc T) (p : sxz T) (v : Nat)
    (h : (List.range g.nodes.length).find? (fun nn => (g.nodes.getD nn default).eqPt E p)
      = some v) :
    v < g.nodes.length ∧ (g.nodes.getD v default).eqPt E p = true :=
  ⟨List.mem_range.mp (List.mem_of_find?_eq_some h),
    List.find?_some (p := fun nn => (g.nodes.getD nn default).eqPt E p) h⟩

/-- Seeding a source on the node `nn` sets its slot to the time of the source
and marks it frozen. -/
theorem initTxOnNode_self (E : MathEnv T) (g0 : Grid2Duc T) (nn : Nat) (t0n : T) (w : Nat)
    (gf : Grid2Duc T × List Bool) (hg : Grid2Duc.sameButSlot w g0 gf.1)
    (hslot : w < (g0.nodes.getD nn default).tt.length) (hfl : nn < gf.2.length) :
    (initTxOnNode E nn t0n w gf).1.getNodeTT nn w = t0n ∧
    (initTxOnNode E nn t0n w gf).2.getD nn false = true := by
  unfold initTxOnNode
  dsimp only
  refine ⟨?_, Grid3Dunfm.getD_set_self_bool _ _ _ hfl⟩
  have hset : (gf.1.setNodeTT nn t0n w).getNodeTT nn w = t0n := by
    unfold Grid2Duc.getNodeTT
    rw [Grid2Duc.getD_setNodeTT, if_pos rfl]
    apply Node2Dn.getTT_setTT_self
    rw [(hg.2.2.2.2.2.2.2 nn).2.2.2.2.1]
    exact hslot
  have key : ∀ (l : List Nat) (a : Grid2Duc T), a.getNodeTT nn w = t0n →
      (l.foldl (fun g cellNo => initTxNeighbors E nn t0n w cellNo g) a).getNodeTT nn w
        = t0n := by
    intro l
    induction l with
    | nil => intro a ha; exact ha
    | cons c l ih =>
      intro a ha
      rw [List.foldl_cons]
      apply ih
      unfold initTxNeighbors
      have inner : ∀ (m : List Nat) (b : Grid2Duc T), b.getNodeTT nn w = t0n →
          (m.foldl (fun g neibNo =>
            if neibNo = nn then g
            else
              if t0n + computeDt2 E g (g.nodes.getD nn default) (g.nodes.getD neibNo default) c
                  < g.getNodeTT neibNo w then
                g.setNodeTT neibNo (t0n + computeDt2 E g (g.nodes.getD nn default)
                  (g.nodes.getD neibNo default) c) w
              else g) b).getNodeTT nn w = t0n := by
        intro m
        induction m with
        | nil => intro b hb; exact hb
        | cons k m ihm =>
          intro b hb
          rw [List.foldl_cons]
          apply ihm
          split
          · exact hb
          · rename_i hk
            split
            · unfold Grid2Duc.getNodeTT
              rw [Grid2Duc.getD_setNodeTT, if_neg (Ne.symm hk)]
              exact hb
            · exact hb
      exact inner _ a ha
  exact key _ _ hset

/-- Seeding a source keeps the size of `frozen` and the marks it holds. -/
theorem initTxOne_frozen (E : MathEnv T) (q : sxz T) (t0n : T) (w v : Nat)
    (gf : Grid2Duc T × List Bool) :
    (initTxOne E q t0n w gf).2.length = gf.2.length ∧
    (gf.2.getD v false = true → (initTxOne E q t0n w gf).2.getD v false = true) := by
  unfold initTxOne
  split
  · unfold initTxOnNode
    dsimp only
    exact ⟨List.length_set _ _ _, Grid3Dunfm.getD_set_true _ _ _⟩
  · unfold initTxInCell
    dsimp only
    refine foldl_rel (fun a b : Grid2Duc T × List Bool => b.2.length = a.2.length ∧
        (a.2.getD v false = true → b.2.getD v false = true))
      (fun a => ⟨rfl, fun h => h⟩)
      (fun a b c h1 h2 => ⟨h2.1.trans h1.1, fun h => h2.2 (h1.2 h)⟩) _ ?_ _ gf
    intro a k
    exact ⟨List.length_set _ _ _, Grid3Dunfm.getD_set_true _ _ _⟩

/-- Seeding a source does not write a node that is not among its targets. -/
theorem initTxOne_leaves (E : MathEnv T) (g0 : Grid2Duc T) (q : sxz T) (t0n : T) (w v : Nat)
    (hv : v ∉ seedTargets E g0 q) (gf : Grid2Duc T × List Bool) :
    leavesNode w g0 v gf.1 (initTxOne E q t0n w gf).1 := by
  intro hg
  unfold seedTargets at hv
  unfold initTxOne
  rw [findNode_congr E hg q]
  split at hv
  · rename_i nn hnn
    rw [List.mem_cons, not_or, List.mem_flatMap] at hv
    unfold initTxOnNode
    dsimp only
    have h1 := leavesNode_setNodeTT w g0 v gf.1 nn t0n (fun h => hv.1 h.symm) hg
    have hown : ((gf.1.setNodeTT nn t0n w).nodes.getD nn default).owners
        = (g0.nodes.getD nn default).owners := (h1.1.2.2.2.2.2.2.2 nn).2.2.2.1
    rw [hown]
    have h2 := foldl_rel_mem (leavesNode w g0 v) (leavesNode_refl w g0 v)
      (leavesNode_trans w g0 v)
      (fun g cellNo => initTxNeighbors E nn t0n w cellNo g)
      (g0.nodes.getD nn default).owners
      (fun a c hc => initTxNeighbors_leaves E g0 nn t0n w c v
        (fun hmem => hv.2 ⟨c, hc, hmem⟩) a)
      (gf.1.setNodeTT nn t0n w) h1.1
    exact ⟨h2.1, h2.2.trans h1.2⟩
  · unfold initTxInCell
    dsimp only
    rw [getCellNo_congr hg q, hg.2.2.2.1]
    refine foldl_rel_mem (fun a b : Grid2Duc T × List Bool => leavesNode w g0 v a.1 b.1)
      (fun a => leavesNode_refl w g0 v a.1)
      (fun a b c => leavesNode_trans w g0 v a.1 b.1 c.1) _ _ ?_ gf hg
    intro a k hk
    exact leavesNode_setNodeTT w g0 v a.1 k _ (fun h => hv (h ▸ hk))

/-- The seeding of the sources from index `n` on keeps the size of `frozen`
and the marks it holds. -/
theorem initTxFrom_frozen (E : MathEnv T) (t0 : List T) (w v : Nat) (Tx : List (sxz T)) :
    ∀ (n : Nat) (gf : Grid2Duc T × List Bool),
      (initTxFrom E t0 w n Tx gf).2.length = gf.2.length ∧
      (gf.2.getD v false = true → (initTxFrom E t0 w n Tx gf).2.getD v false = true) := by
  induction Tx with
  | nil => intro n gf; exact ⟨rfl, fun h => h⟩
  | cons q rest ih =>
    intro n gf
    rw [initTxFrom]
    have h1 := initTxOne_frozen E q (t0.getD n 0) w v gf
    have h2 := ih (n + 1) (initTxOne E q (t0.getD n 0) w gf)
    exact ⟨h2.1.trans h1.1, fun h => h2.2 (h1.2 h)⟩

/-- The seeding of sources none of which has node `v` among its targets does
not write node `v`. -/
theorem initTxFrom_leaves (E : MathEnv T) (g0 : Grid2Duc T) (t0 : List T) (w v : Nat)
    (Tx : List (sxz T)) (hv : ∀ q ∈ Tx, v ∉ seedTargets E g0 q) :
    ∀ (n : Nat) (gf : Grid2Duc T × List Bool),
      leavesNode w g0 v gf.1 (initTxFrom E t0 w n Tx gf).1 := by
  induction Tx with
  | nil => intro n gf; exact leavesNode_refl w g0 v gf.1
  | cons q rest ih =>
    intro n gf
    rw [initTxFrom]
    exact leavesNode_trans w g0 v _ _ _
      (initTxOne_leaves E g0 q _ w v (hv q (List.mem_cons_self _ _)) gf)
      (ih (fun q' hq' => hv q' (List.mem_cons_of_mem _ hq')) _ _)

/-- The seeding of a list of sources is the seeding of its first part followed
by the seeding of the rest. -/
theorem initTxFrom_append (E : MathEnv T) (t0 : List T) (w : Nat) (pre post : List (sxz T)) :
    ∀ (n : Nat) (gf : Grid2Duc T × List Bool),
      initTxFrom E t0 w n (pre ++ post) gf
        = initTxFrom E t0 w (n + pre.length) post (initTxFrom E t0 w n pre gf) := by
  induction pre with
  | nil => intro n gf; rfl
  | cons q rest ih =>
    intro n gf
    rw [List.cons_append, initTxFrom, initTxFrom, ih, List.length_cons]
    congr 1
    omega

/-- The seeding of `raytrace` leaves the time of a source on a node in the
slot of the node, and the node frozen, when no later source has the node
among its targets. -/
theorem sweepInit_source (E : MathEnv T) (g : Grid2Duifs T) (pre post : List (sxz T))
    (p : sxz T) (t0 : List T) (w v : Nat)
    (hfind : (List.range g.nodes.length).find?
      (fun nn => (g.nodes.getD nn default).eqPt E p) = some v)
    (hslot : w < (g.nodes.getD v default).tt.length)
    (hpost : ∀ q ∈ post, v ∉ seedTargets E g.toGrid2Duc q) :
    Grid2Duc.sameButSlot w g.toGrid2Duc (sweepInit E g (pre ++ p :: post) t0 w).grid.toGrid2Duc ∧
    (sweepInit E g (pre ++ p :: post) t0 w).grid.getNodeTT v w = t0.getD pre.length 0 ∧
    (sweepInit E g (pre ++ p :: post) t0 w).frozen.getD v false = true := by
  have hg1 := reinitNodes_sameButSlot E g.toGrid2Duc w
  have hA := Grid2Duc.sameButSlot_trans hg1
    (initTxFrom_sameButSlot E t0 w pre 0
      (reinitNodes E g.toGrid2Duc w,
        List.replicate (reinitNodes E g.toGrid2Duc w).nodes.length false))
  have hAf := (initTxFrom_frozen E t0 w v pre 0
      (reinitNodes E g.toGrid2Duc w,
        List.replicate (reinitNodes E g.toGrid2Duc w).nodes.length false)).1
  have hvl := (findNode_some E g.toGrid2Duc p v hfind).1
  have hfl : v < (initTxFrom E t0 w 0 pre
      (reinitNodes E g.toGrid2Duc w,
        List.replicate (reinitNodes E g.toGrid2Duc w).nodes.length false)).2.length := by
    rw [hAf]
    show v < (List.replicate (reinitNodes E g.toGrid2Duc w).nodes.length false).length
    rw [List.length_replicate, hg1.2.2.2.2.2.2.1]
    exact hvl
  have hone : initTxOne E p (t0.getD (0 + pre.length) 0) w (initTxFrom E t0 w 0 pre
      (reinitNodes E g.toGrid2Duc w,
        List.replicate (reinitNodes E g.toGrid2Duc w).nodes.length false))
      = initTxOnNode E v (t0.getD (0 + pre.length) 0) w (initTxFrom E t0 w 0 pre
      (reinitNodes E g.toGrid2Duc w,
        List.replicate (reinitNodes E g.toGrid2Duc w).nodes.length false)) := by
    unfold initTxOne
    rw [findNode_congr E hA p, hfind]
  have hB := initTxOnNode_self E g.toGrid2Duc v (t0.getD (0 + pre.length) 0) w _ hA hslot hfl
  have hBs := Grid2Duc.sameButSlot_trans hA
    (initTxOnNode_sameButSlot E v (t0.getD (0 + pre.length) 0) w (initTxFrom E t0 w 0 pre
      (reinitNodes E g.toGrid2Duc w,
        List.replicate (reinitNodes E g.toGrid2Duc w).nodes.length false)))
  have hC := initTxFrom_leaves E g.toGrid2Duc t0 w v post hpost (0 + pre.length + 1)
    (initTxOnNode E v (t0.getD (0 + pre.length) 0) w (initTxFrom E t0 w 0 pre
      (reinitNodes E g.toGrid2Duc w,
        List.replicate (reinitNodes E g.toGrid2Duc w).nodes.length false))) hBs
  have hCf := (initTxFrom_frozen E t0 w v post (0 + pre.length + 1)
    (initTxOnNode E v (t0.getD (0 + pre.length) 0) w (initTxFrom E t0 w 0 pre
      (reinitNodes E g.toGrid2Duc w,
        List.replicate (reinitNodes E g.toGrid2Duc w).nodes.length false)))).2 hB.2
  have hinit : (sweepInit E g (pre ++ p :: post) t0 w).grid.toGrid2Duc
      = (initTxFrom E t0 w (0 + pre.length + 1) post
        (initTxOnNode E v (t0.getD (0 + pre.length) 0) w (initTxFrom E t0 w 0 pre
          (reinitNodes E g.toGrid2Duc w,
            List.replicate (reinitNodes E g.toGrid2Duc w).nodes.length false)))).1 := by
    show (initTx E _ (pre ++ p :: post) t0 _ w).1 = _
    unfold initTx
    rw [initTxFrom_append, initTxFrom, hone]
  have hinitf : (sweepInit E g (pre ++ p :: post) t0 w).frozen
      = (initTxFrom E t0 w (0 + pre.length + 1) post
        (initTxOnNode E v (t0.getD (0 + pre.length) 0) w (initTxFrom E t0 w 0 pre
          (reinitNodes E g.toGrid2Duc w,
            List.replicate (reinitNodes E g.toGrid2Duc w).nodes.length false)))).2 := by
    show (initTx E _ (pre ++ p :: post) t0 _ w).2 = _
    unfold initTx
    rw [initTxFrom_append, initTxFrom, hone]
  refine ⟨by rw [hinit]; exact hC.1, ?_, by rw [hinitf]; exact hCf⟩
  show (sweepInit E g (pre ++ p :: post) t0 w).grid.toGrid2Duc.getNodeTT v w = _
  rw [hinit]
  unfold Grid2Duc.getNodeTT
  rw [hC.2]
  have := hB.1
  unfold Grid2Duc.getNodeTT at this
  rw [this, Nat.zero_add]

/-- The sweeps of `raytrace` leave the time of a source on a node in the slot
of the node when no later source has the node among its targets. -/
theorem raytraceSweeps_source (E : MathEnv T) (g : Grid2Duifs T) (pre post : List (sxz T))
    (p : sxz T) (t0 : List T) (w v : Nat)
    (hfind : (List.range g.nodes.length).find?
      (fun nn => (g.nodes.getD nn default).eqPt E p) = some v)
    (hslot : w < (g.nodes.getD v default).tt.length)
    (hgi : (g.nodes.getD v default).gridIndex = v)
    (hpost : ∀ q ∈ post, v ∉ seedTargets E g.toGrid2Duc q) :
    (raytraceSweeps E g (pre ++ p :: post) t0 w).state.grid.getNodeTT v w
      = t0.getD pre.length 0 := by
  obtain ⟨hs, ht, hf⟩ := sweepInit_source E g pre post p t0 w v hfind hslot hpost
  have hfol := whileLoop_follows E w g.nitermax.toNat (sweepInit E g (pre ++ p :: post) t0 w)
  have hkeep := ((hfol.2.2.2.2).2 v).2
  rw [(hs.2.2.2.2.2.2.2 v).2.2.1, hgi] at hkeep
  unfold raytraceSweeps
  show (whileLoop E w g.nitermax.toNat
    (sweepInit E g (pre ++ p :: post) t0 w)).state.grid.toGrid2Duc.getNodeTT v w = _
  unfold Grid2Duc.getNodeTT
  rw [hkeep hf]
  exact ht

/-- The time returned for a receiver on a node is the time of the node. -/
theorem getTraveltime_onNode (E : MathEnv T) (g : Grid2Duc T) (p : sxz T) (w v : Nat)
    (hfind : (List.range g.nodes.length).find?
      (fun nn => (g.nodes.getD nn default).eqPt E p) = some v) :
    Grid2Duc.getTraveltime E g p w = g.getNodeTT v w := by
  unfold Grid2Duc.getTraveltime
  rw [find_of_range_find (fun n : Node2Dn T => n.eqPt E p) g.nodes v hfind]
  rfl

end Grid2Duifs

end SourceIdentity2D

/-! ### Source identity in the Fast Marching driver -/

section SourceIdentity3D

variable {T : Type} [LinearOrderedField T]

namespace Grid3Dunfm

theorem eqPt3_congr (E : MathEnv T) {w : Nat} {a b : Node3Dn T}
    (h : Node3Dn.sameButSlot w a b) (p : sxyz T) : b.eqPt E p = a.eqPt E p := by
  unfold Node3Dn.eqPt
  rw [h.1, h.2.1, h.2.2.1]

/-- The search of the node on which a point lies reads the coordinates only. -/
theorem findNode3_congr (E : MathEnv T) {w : Nat} {g g' : Grid3Dun T}
    (h : Grid3Dun.sameButSlot w g g') (p : sxyz T) :
    (List.range g'.nodes.length).find? (fun nn => (g'.nodes.getD nn default).eqPt E p)
      = (List.range g.nodes.length).find? (fun nn => (g.nodes.getD nn default).eqPt E p) := by
  have e : (fun nn => (g'.nodes.getD nn default).eqPt E p)
      = (fun nn => (g.nodes.getD nn default).eqPt E p) :=
    funext (fun nn => eqPt3_congr E (h.2.2.2.2.2 nn) p)
  rw [e, h.2.2.2.2.1]

theorem getCellNo3_congr (B : Grid3DunBase T) (hin : B.insideReadsGeometry) {w : Nat}
    {g g' : Grid3Dun T} (h : Grid3Dun.sameButSlot w g g') (p : sxyz T) :
    Grid3Dun.getCellNo B g' p = Grid3Dun.getCellNo B g p := by
  unfold Grid3Dun.getCellNo
  have e : (fun n => B.insideTetrahedron g' p n) = (fun n => B.insideTetrahedron g p n) :=
    funext (fun n => hin w g g' h p n)
  rw [e, h.2.2.1]

theorem keepsNode_refl (v : Nat) (a : BandState T) : BandState.keepsNode v a a :=
  ⟨rfl, fun h => h⟩

theorem keepsNode_trans (v : Nat) (a b c : BandState T) (h1 : BandState.keepsNode v a b)
    (h2 : BandState.keepsNode v b c) : BandState.keepsNode v a c :=
  ⟨h2.1.trans h1.1, fun h => h2.2 (h1.2 h)⟩

theorem pushFrozen_keepsNode (v : Nat) (st : BandState T) (no : Nat) :
    BandState.keepsNode v st (pushFrozen st no) :=
  ⟨rfl, getD_set_true _ _ _⟩

theorem setTT_keepsNode (v : Nat) (st : BandState T) (no : Nat) (t : T) (w : Nat)
    (hne : no ≠ v) :
    BandState.keepsNode v st { st with grid := st.grid.setNodeTT no t w } := by
  refine ⟨?_, fun h => h⟩
  show (st.grid.setNodeTT no t w).nodes.getD v default = _
  rw [Grid3Dun.grid3_getD_setNodeTT, if_neg (Ne.symm hne)]

theorem seedNode_keepsNode (v : Nat) (t0n dt : T) (w no : Nat) (hne : no ≠ v)
    (sa : BandState T × Nat) :
    BandState.keepsNode v sa.1 (seedNode t0n dt w no sa).1 := by
  unfold seedNode
  split
  · dsimp only
    split
    · exact keepsNode_trans v _ _ _ (setTT_keepsNode v sa.1 no _ w hne)
        (pushFrozen_keepsNode v _ no)
    · exact setTT_keepsNode v sa.1 no _ w hne
  · exact keepsNode_refl v sa.1

/-- The loops that populate around a source on node `nn` do not write node
`nn`. -/
theorem populateAround_keepsNode (B : Grid3DunBase T) (nn : Nat) (t0n : T) (w : Nat)
    (st : BandState T) : BandState.keepsNode nn st (populateAround B nn t0n w st) := by
  unfold populateAround
  refine foldl_rel (BandState.keepsNode nn) (keepsNode_refl nn) (keepsNode_trans nn) _ ?_ _ st
  intro a cellNo
  refine foldl_rel (BandState.keepsNode nn) (keepsNode_refl nn) (keepsNode_trans nn) _ ?_ _ a
  intro b neibNo
  dsimp only
  split
  · exact keepsNode_refl nn b
  · rename_i hne
    exact seedNode_keepsNode nn t0n _ w neibNo hne (b, 0)

theorem withinRadiusOfNode_keepsNode (E : MathEnv T) (B : Grid3DunBase T) (nn : Nat) (t0n : T)
    (w : Nat) (st : BandState T) :
    BandState.keepsNode nn st (withinRadiusOfNode E B nn t0n w st).1 := by
  unfold withinRadiusOfNode
  refine foldl_rel (fun a b : BandState T × Nat => BandState.keepsNode nn a.1 b.1)
    (fun a => keepsNode_refl nn a.1) (fun a b c => keepsNode_trans nn a.1 b.1 c.1) _ ?_ _ (st, 0)
  intro sa no
  dsimp only
  split
  · exact keepsNode_refl nn sa.1
  · rename_i hne
    split
    · exact seedNode_keepsNode nn t0n _ w no hne sa
    · exact keepsNode_refl nn sa.1

/-- Seeding a source on the node `nn` sets its slot to the time of the source
and marks it frozen. -/
theorem initBandOnNode_self (E : MathEnv T) (B : Grid3DunBase T) (single : Bool) (nn : Nat)
    (t0n : T) (w : Nat) (st : BandState T)
    (hslot : w < (st.grid.nodes.getD nn default).tt.length) (hfl : nn < st.frozen.length) :
    (initBandOnNode E B single nn t0n w st).state.grid.getNodeTT nn w = t0n ∧
    (initBandOnNode E B single nn t0n w st).state.frozen.getD nn false = true := by
  have h0 : (pushFrozen { st with grid := st.grid.setNodeTT nn t0n w } nn).grid.getNodeTT nn w
      = t0n := by
    show (st.grid.setNodeTT nn t0n w).getNodeTT nn w = t0n
    unfold Grid3Dun.getNodeTT
    rw [Grid3Dun.grid3_getD_setNodeTT, if_pos rfl]
    exact Node3Dn.node3_getTT_setTT_self _ t0n hslot
  have h1 : (pushFrozen { st with grid := st.grid.setNodeTT nn t0n w } nn).frozen.getD nn false
      = true := getD_set_self_bool _ _ _ hfl
  have key : ∀ st' : BandState T,
      BandState.keepsNode nn (pushFrozen { st with grid := st.grid.setNodeTT nn t0n w } nn) st' →
      st'.grid.getNodeTT nn w = t0n ∧ st'.frozen.getD nn false = true := by
    intro st' hk
    refine ⟨?_, hk.2 h1⟩
    unfold Grid3Dun.getNodeTT at h0 ⊢
    rw [hk.1]
    exact h0
  unfold initBandOnNode
  dsimp only
  split
  · split
    · exact key _ (populateAround_keepsNode B nn t0n w _)
    · rw [abortIfNone_state]
      exact key _ (withinRadiusOfNode_keepsNode E B nn t0n w _)
  · exact key _ (keepsNode_refl nn _)

/-- With several sources, the seeding of a source throws nothing and does not
write a node that is not among its targets. -/
theorem initBandOne_keepsNode (E : MathEnv T) (B : Grid3DunBase T)
    (hin : B.insideReadsGeometry) (g0 : Grid3Dun T) (q : sxyz T) (t0n : T) (w v : Nat)
    (hv : v ∉ seedTargets E B g0 q) (st : BandState T)
    (hg : Grid3Dun.sameButSlot w g0 st.grid) :
    (initBandOne E B false q t0n w st).exn = none ∧
    BandState.keepsNode v st (initBandOne E B false q t0n w st).state := by
  unfold seedTargets at hv
  unfold initBandOne
  rw [findNode3_congr E hg q]
  split at hv
  · rename_i nn hnn
    have hne : nn ≠ v := fun h => hv (h ▸ List.mem_singleton_self _)
    unfold initBandOnNode
    exact ⟨rfl, keepsNode_trans v _ _ _ (setTT_keepsNode v st nn t0n w hne)
      (pushFrozen_keepsNode v _ nn)⟩
  · unfold initBandInCell
    dsimp only
    rw [hg.2.2.2.1]
    split
    · rename_i hr
      rw [if_pos hr] at hv
      refine ⟨rfl, ?_⟩
      show BandState.keepsNode v st (List.foldl _ st _)
      rw [getCellNo3_congr B hin hg q, hg.2.1]
      refine foldl_rel_mem (BandState.keepsNode v) (keepsNode_refl v) (keepsNode_trans v) _ _ ?_ st
      intro a k hk
      exact keepsNode_trans v _ _ _
        (setTT_keepsNode v a k _ w (fun h => hv (h ▸ hk))) (pushFrozen_keepsNode v _ k)
    · exact ⟨rfl, keepsNode_refl v st⟩

/-- With several sources, the seeding of a source throws nothing. -/
theorem initBandOne_exn (E : MathEnv T) (B : Grid3DunBase T) (q : sxyz T) (t0n : T) (w : Nat)
    (st : BandState T) : (initBandOne E B false q t0n w st).exn = none := by
  unfold initBandOne
  split
  · rfl
  · unfold initBandInCell
    dsimp only
    split
    · rfl
    · rfl

/-- With several sources, the seeding of sources none of which has node `v`
among its targets throws nothing and does not write node `v`. -/
theorem initBandFrom_keepsNode (E : MathEnv T) (B : Grid3DunBase T)
    (hin : B.insideReadsGeometry) (g0 : Grid3Dun T) (t0 : List T) (w v : Nat)
    (Tx : List (sxyz T)) (hv : ∀ q ∈ Tx, v ∉ seedTargets E B g0 q) :
    ∀ (n : Nat) (st : BandState T), Grid3Dun.sameButSlot w g0 st.grid →
      BandState.keepsNode v st (initBandFrom E B false t0 w n Tx st).state := by
  induction Tx with
  | nil => intro n st _; exact keepsNode_refl v st
  | cons q rest ih =>
    intro n st hg
    rw [initBandFrom, Outcome.andThen_of_none _ _ (initBandOne_exn E B q _ w st)]
    exact keepsNode_trans v _ _ _
      (initBandOne_keepsNode E B hin g0 q _ w v (hv q (List.mem_cons_self _ _)) st hg).2
      (ih (fun q' hq' => hv q' (List.mem_cons_of_mem _ hq')) _ _
        (Grid3Dun.grid3_sameButSlot_trans hg (initBandOne_sameShape E B false q _ w st).1))

/-- With several sources, the seeding leaves the time of a source on a node in
the slot of the node, and the node frozen, when no later source has the node
among its targets. -/
theorem initBandFrom_source (E : MathEnv T) (B : Grid3DunBase T)
    (hin : B.insideReadsGeometry) (g0 : Grid3Dun T) (post : List (sxyz T)) (p : sxyz T)
    (t0 : List T) (w v : Nat)
    (hfind : (List.range g0.nodes.length).find?
      (fun nn => (g0.nodes.getD nn default).eqPt E p) = some v)
    (hslot : w < (g0.nodes.getD v default).tt.length)
    (hpost : ∀ q ∈ post, v ∉ seedTargets E B g0 q) (pre : List (sxyz T)) :
    ∀ (n : Nat) (st : BandState T), Grid3Dun.sameButSlot w g0 st.grid →
      v < st.frozen.length →
      (initBandFrom E B false t0 w n (pre ++ p :: post) st).state.grid.getNodeTT v w
        = t0.getD (n + pre.length) 0 ∧
      (initBandFrom E B false t0 w n (pre ++ p :: post) st).state.frozen.getD v false
        = true := by
  induction pre with
  | nil =>
    intro n st hg hfl
    rw [List.nil_append, initBandFrom, Outcome.andThen_of_none _ _ (initBandOne_exn E B p _ w st)]
    have hone : initBandOne E B false p (t0.getD n 0) w st
        = initBandOnNode E B false v (t0.getD n 0) w st := by
      unfold initBandOne
      rw [findNode3_congr E hg p, hfind]
    rw [hone]
    have hs := initBandOnNode_self E B false v (t0.getD n 0) w st
      (by rw [(hg.2.2.2.2.2 v).2.2.2.2.2.2.1]; exact hslot) hfl
    have hk := initBandFrom_keepsNode E B hin g0 t0 w v post hpost (n + 1)
      (initBandOnNode E B false v (t0.getD n 0) w st).state
      (Grid3Dun.grid3_sameButSlot_trans hg (initBandOnNode_sameShape E B false v _ w st).1)
    refine ⟨?_, hk.2 hs.2⟩
    have := hs.1
    unfold Grid3Dun.getNodeTT at this ⊢
    rw [hk.1, this]
    rfl
  | cons q pre ih =>
    intro n st hg hfl
    rw [List.cons_append, initBandFrom,
      Outcome.andThen_of_none _ _ (initBandOne_exn E B q _ w st)]
    have hsh := initBandOne_sameShape E B false q (t0.getD n 0) w st
    have := ih (n + 1) (initBandOne E B false q (t0.getD n 0) w st).state
      (Grid3Dun.grid3_sameButSlot_trans hg hsh.1) (by rw [hsh.2.2.1]; exact hfl)
    rw [List.length_cons, show n + (pre.length + 1) = n + 1 + pre.length by omega]
    exact this

/-- The seeding of `raytrace` leaves the time of a source on a node in the
slot of the node, and the node frozen, when no later source has the node
among its targets. -/
theorem raytraceSeed_source (E : MathEnv T) (B : Grid3DunBase T)
    (hin : B.insideReadsGeometry) (g : Grid3Dun T) (pre post : List (sxyz T)) (p : sxyz T)
    (t0 : List T) (w v : Nat)
    (hfind : (List.range g.nodes.length).find?
      (fun nn => (g.nodes.getD nn default).eqPt E p) = some v)
    (hslot : w < (g.nodes.getD v default).tt.length)
    (hpost : ∀ q ∈ post, v ∉ seedTargets E B g q) :
    (raytraceSeed E B g (pre ++ p :: post) t0 w).state.grid.getNodeTT v w
      = t0.getD pre.length 0 ∧
    (raytraceSeed E B g (pre ++ p :: post) t0 w).state.frozen.getD v false = true := by
  have hr := grid3_reinitNodes_sameButSlot E g w
  have hvl : v < g.nodes.length := List.mem_range.mp (List.mem_of_find?_eq_some hfind)
  have hfl : v < (List.replicate (reinitNodes E g w).nodes.length false).length := by
    rw [List.length_replicate, hr.2.2.2.2.1]
    exact hvl
  unfold raytraceSeed initBand
  dsimp only
  by_cases hlen : (pre ++ p :: post).length = 1
  · have hpre : pre = [] := by
      cases pre with
      | nil => rfl
      | cons a l => simp at hlen
    subst hpre
    have hpo : post = [] := by
      cases post with
      | nil => rfl
      | cons a l => simp at hlen
    subst hpo
    rw [List.nil_append, initBandFrom]
    have hone : initBandOne E B (decide ([p].length = 1)) p (t0.getD 0 0) w
        { grid := reinitNodes E g w
          narrow_band := []
          inBand := List.replicate (reinitNodes E g w).nodes.length false
          frozen := List.replicate (reinitNodes E g w).nodes.length false
          popped := [] }
        = initBandOnNode E B (decide ([p].length = 1)) v (t0.getD 0 0) w
        { grid := reinitNodes E g w
          narrow_band := []
          inBand := List.replicate (reinitNodes E g w).nodes.length false
          frozen := List.replicate (reinitNodes E g w).nodes.length false
          popped := [] } := by
      unfold initBandOne
      dsimp only
      rw [findNode3_congr E hr p, hfind]
    rw [hone]
    have hs := initBandOnNode_self E B (decide ([p].length = 1)) v (t0.getD 0 0) w
      { grid := reinitNodes E g w
        narrow_band := []
        inBand := List.replicate (reinitNodes E g w).nodes.length false
        frozen := List.replicate (reinitNodes E g w).nodes.length false
        popped := [] }
      (by rw [(hr.2.2.2.2.2 v).2.2.2.2.2.2.1]; exact hslot) hfl
    exact Outcome.andThen_rel
      (fun _ b : BandState T => b.grid.getNodeTT v w = t0.getD ([] : List (sxyz T)).length 0 ∧
        b.frozen.getD v false = true)
      (fun _ _ _ _ h => h)
      { grid := reinitNodes E g w
        narrow_band := []
        inBand := List.replicate (reinitNodes E g w).nodes.length false
        frozen := List.replicate (reinitNodes E g w).nodes.length false
        popped := [] } _ _ hs hs
  · rw [decide_eq_false hlen]
    have := initBandFrom_source E B hin g post p t0 w v hfind hslot hpost pre 0
      { grid := reinitNodes E g w
        narrow_band := []
        inBand := List.replicate (reinitNodes E g w).nodes.length false
        frozen := List.replicate (reinitNodes E g w).nodes.length false
        popped := [] } hr hfl
    rw [Nat.zero_add] at this
    exact this

/-- The time returned for a receiver on a node is the time of the node. -/
theorem getTraveltime3_onNode (E : MathEnv T) (B : Grid3DunBase T) (g : Grid3Dun T)
    (p : sxyz T) (w v : Nat)
    (hfind : (List.range g.nodes.length).find?
      (fun nn => (g.nodes.getD nn default).eqPt E p) = some v) :
    Grid3Dun.getTraveltime E B g p w = g.getNodeTT v w := by
  unfold Grid3Dun.getTraveltime
  rw [find_of_range_find (fun n : Node3Dn T => n.eqPt E p) g.nodes v hfind]
  rfl

/-- Fast Marching leaves the time of a source on a node in the slot of the
node when no later source has the node among its targets. -/
theorem propagate_source (E : MathEnv T) (B : Grid3DunBase T) (hB : B.updatesOnlyVertex)
    (hin : B.insideReadsGeometry) (g : Grid3Dun T) (pre post : List (sxyz T)) (p : sxyz T)
    (t0 : List T) (w v : Nat)
    (hfind : (List.range g.nodes.length).find?
      (fun nn => (g.nodes.getD nn default).eqPt E p) = some v)
    (hslot : w < (g.nodes.getD v default).tt.length)
    (hpost : ∀ q ∈ post, v ∉ seedTargets E B g q) (fuel : Nat) (st' : BandState T)
    (hrun : propagate B w fuel (raytraceSeed E B g (pre ++ p :: post) t0 w).state = some st') :
    st'.grid.getNodeTT v w = t0.getD pre.length 0 ∧
    Grid3Dun.getTraveltime E B st'.grid p w = t0.getD pre.length 0 := by
  obtain ⟨hs, hf⟩ := raytraceSeed_source E B hin g pre post p t0 w v hfind hslot hpost
  have hfol := propagate_follows B hB w fuel _ st' hrun
  have hnode := (hfol.2.2.2 v hf).2
  have hsame := Grid3Dun.grid3_sameButSlot_trans
    (raytraceSeed_shape E B g (pre ++ p :: post) t0 w).1 hfol.1
  have hslotv : st'.grid.getNodeTT v w = t0.getD pre.length 0 := by
    unfold Grid3Dun.getNodeTT at hs ⊢
    rw [hnode]
    exact hs
  refine ⟨hslotv, ?_⟩
  rw [getTraveltime3_onNode E B st'.grid p w v (by rw [findNode3_congr E hsame p]; exact hfind)]
  exact hslotv

end Grid3Dunfm

end SourceIdentity3D

/-! ### Source identity (claim C4) -/

section SourceIdentity

/-- The cell-interior test of the examples reads the geometry only. -/
theorem exampleBase_insideReadsGeometry : exampleBase.insideReadsGeometry := by
  intro w g g' h p nt
  show exampleInside g' p nt = exampleInside g p nt
  have hx : ∀ n, (g'.nodes.getD n default).x = (g.nodes.getD n default).x :=
    fun n => (h.2.2.2.2.2 n).1
  have hy : ∀ n, (g'.nodes.getD n default).y = (g.nodes.getD n default).y :=
    fun n => (h.2.2.2.2.2 n).2.1
  have hz : ∀ n, (g'.nodes.getD n default).z = (g.nodes.getD n default).z :=
    fun n => (h.2.2.2.2.2 n).2.2.1
  unfold exampleInside
  simp only [h.2.2.1, hx, hy, hz]

variable {T : Type} [LinearOrderedField T]

/-- Claim C4, amended. Let the source `p` of index `i = pre.length` in the
list `pre ++ p :: post` lie on the node `v` (the first node of the grid equal
to `p`), let slot `w` of `v` exist, and let no later source have `v` among
the nodes its seeding may write (`seedTargets`). In the Fast Sweeping driver,
where the grid index of `v` is `v`, a call of `raytrace` that returns 0
leaves `t0[i]` in slot `w` of `v` and returns `t0[i]` for every receiver
placed at `p`. In the Fast Marching driver, given that the 3D local update of
a vertex writes only the slot of that vertex and that the cell-interior test
reads the geometry only, a call of `raytrace` that throws nothing leaves
`t0[i]` in slot `w` of `v` and returns `t0[i]` for every receiver placed at
`p`; on a mesh whose neighbour lists hold node indices the call returns. In
particular this holds for the last source of every list and for every list of
one source. A later source that seeds `v` overwrites the slot. -/
theorem source_identity (E : MathEnv T) :
    (∀ (g : Grid2Duifs T) (pre post : List (sxz T)) (p : sxz T) (t0 : List T)
      (Rx : List (sxz T)) (tts : List T) (w v : Nat),
      (List.range g.nodes.length).find? (fun nn => (g.nodes.getD nn default).eqPt E p)
        = some v →
      w < (g.nodes.getD v default).tt.length →
      (g.nodes.getD v default).gridIndex = v →
      (∀ q ∈ post, v ∉ Grid2Duifs.seedTargets E g.toGrid2Duc q) →
      (Grid2Duifs.raytrace E g (pre ++ p :: post) t0 Rx tts w).ret = some 0 →
      (Grid2Duifs.raytrace E g (pre ++ p :: post) t0 Rx tts w).grid.getNodeTT v w
        = t0.getD pre.length 0 ∧
      ∀ j : Nat, Rx[j]? = some p →
        (Grid2Duifs.raytrace E g (pre ++ p :: post) t0 Rx tts w).traveltimes[j]?
          = some (t0.getD pre.length 0)) ∧
    (∀ (B : Grid3DunBase T), B.updatesOnlyVertex → B.insideReadsGeometry →
      ∀ (g : Grid3Dun T) (pre post : List (sxyz T)) (p : sxyz T) (t0 : List T)
        (Rx : List (sxyz T)) (tts : List T) (w v : Nat),
      (List.range g.nodes.length).find? (fun nn => (g.nodes.getD nn default).eqPt E p)
        = some v →
      w < (g.nodes.getD v default).tt.length →
      (∀ q ∈ post, v ∉ Grid3Dunfm.seedTargets E B g q) →
      ((∀ nb ∈ g.neighbors, ∀ u ∈ nb, u < g.nodes.length) →
        ∀ k, (Grid3Dunfm.raytrace E B
          ((Grid3Dunfm.raytraceSeed E B g (pre ++ p :: post) t0 w).state.measure + k)
          g (pre ++ p :: post) t0 Rx tts w).isSome = true) ∧
      ∀ (fuel : Nat) (r : Grid3Dunfm.Result T (List T)),
        Grid3Dunfm.raytrace E B fuel g (pre ++ p :: post) t0 Rx tts w = some r →
        r.exn = none →
        r.band.grid.getNodeTT v w = t0.getD pre.length 0 ∧
        ∀ j : Nat, Rx[j]? = some p → r.traveltimes[j]? = some (t0.getD pre.length 0)) := by
  constructor
  · intro g pre post p t0 Rx tts w v hfind hslot hgi hpost hret
    have hsrc := Grid2Duifs.raytraceSweeps_source E g pre post p t0 w v hfind hslot hgi hpost
    have hsame := (Grid2Duifs.raytraceSweeps_sameButSlot E g (pre ++ p :: post) t0 w).1
    unfold Grid2Duifs.raytrace at hret ⊢
    by_cases h1 : Grid2Duifs.check_pts E g (pre ++ p :: post) = 1
    · rw [if_pos h1] at hret
      exact absurd (show (some 1 : Option Int) = some 0 from hret) (by decide)
    · rw [if_neg h1] at hret ⊢
      by_cases h2 : Grid2Duifs.check_pts E g Rx = 1
      · rw [if_pos h2] at hret
        exact absurd (show (some 1 : Option Int) = some 0 from hret) (by decide)
      · rw [if_neg h2] at hret ⊢
        dsimp only at hret ⊢
        split
        · rename_i e he
          rw [he] at hret
          exact absurd hret (by simp)
        · refine ⟨hsrc, fun j hj => ?_⟩
          show (Rx.map _)[j]? = _
          rw [List.getElem?_map, hj, Option.map_some',
            Grid2Duifs.getTraveltime_onNode E _ p w v
              (by rw [Grid2Duifs.findNode_congr E hsame p]; exact hfind)]
          exact congrArg some hsrc
  · intro B hB hin g pre post p t0 Rx tts w v hfind hslot hpost
    constructor
    · intro hmesh k
      obtain ⟨_, hsized, _⟩ := Grid3Dunfm.raytraceSeed_shape E B g (pre ++ p :: post) t0 w
      obtain ⟨st', hrun, _, _⟩ := Grid3Dunfm.propagate_terminates B hB w g.nodes.length
        g.neighbors hmesh _ (Grid3Dunfm.raytraceSeed E B g (pre ++ p :: post) t0 w).state
        hsized (Nat.le_refl _)
      unfold Grid3Dunfm.raytrace
      dsimp only
      split
      · rfl
      · split
        · rfl
        · split
          · rfl
          · rw [Grid3Dunfm.propagate_fuel_mono B w _ _ _ k hrun]
            rfl
    · intro fuel r hr hexn
      unfold Grid3Dunfm.raytrace at hr
      dsimp only at hr
      split at hr
      · injection hr with hr
        rw [← hr] at hexn
        rename_i e he
        exact Option.noConfusion hexn
      · split at hr
        · injection hr with hr
          rw [← hr] at hexn
          exact Option.noConfusion hexn
        · split at hr
          · injection hr with hr
            rw [← hr] at hexn
            exact Option.noConfusion hexn
          · split at hr
            · exact Option.noConfusion hr
            · rename_i st' hrun
              injection hr with hr
              rw [← hr]
              have hs := Grid3Dunfm.propagate_source E B hB hin g pre post p t0 w v hfind hslot
                hpost fuel st' hrun
              refine ⟨hs.1, fun j hj => ?_⟩
              show (Rx.map _)[j]? = _
              rw [List.getElem?_map, hj, Option.map_some']
              exact congrArg some hs.2

/-- The slot of a source vertex does not hold the time of the source (against
claim C4). On the rectangle mesh with sources (0,0) at time 10 and (4,0) at
time 0, the source (0,0) lies on node 0, `raytrace` returns 0, slot 0 of node
0 holds 4 and the receiver placed at (0,0) gets 4, not 10. With the source
(0,0) given twice, at times 0 and 10, the slot and the receiver get 10, not
0. On the tetrahedron mesh with the source (0,0,0) given twice, at times 0
and 5, the source lies on node 0 and slot 0 of node 0 holds 5 after
`raytrace`, as does the time of the receiver placed at (0,0,0). -/
theorem source_time_overwritten :
    (rectangle.nodes.getD 0 default).eqPt exampleEnv ⟨0, 0⟩ = true ∧
    (Grid2Duifs.raytrace exampleEnv rectangle [⟨0, 0⟩, ⟨4, 0⟩] [10, 0] [⟨0, 0⟩] [] 0).ret
      = some 0 ∧
    (Grid2Duifs.raytrace exampleEnv rectangle [⟨0, 0⟩, ⟨4, 0⟩] [10, 0] [⟨0, 0⟩] []
      0).grid.getNodeTT 0 0 = 4 ∧
    (Grid2Duifs.raytrace exampleEnv rectangle [⟨0, 0⟩, ⟨4, 0⟩] [10, 0] [⟨0, 0⟩] []
      0).traveltimes = [4] ∧
    (Grid2Duifs.raytrace exampleEnv rectangle [⟨0, 0⟩, ⟨0, 0⟩] [0, 10] [⟨0, 0⟩] [] 0).ret
      = some 0 ∧
    (Grid2Duifs.raytrace exampleEnv rectangle [⟨0, 0⟩, ⟨0, 0⟩] [0, 10] [⟨0, 0⟩] []
      0).grid.getNodeTT 0 0 = 10 ∧
    (Grid2Duifs.raytrace exampleEnv rectangle [⟨0, 0⟩, ⟨0, 0⟩] [0, 10] [⟨0, 0⟩] []
      0).traveltimes = [10] ∧
    (tetrahedron.nodes.getD 0 default).eqPt exampleEnv ⟨0, 0, 0⟩ = true ∧
    (Grid3Dunfm.raytrace exampleEnv exampleBase 8 tetrahedron [⟨0, 0, 0⟩, ⟨0, 0, 0⟩] [0, 5]
      [⟨0, 0, 0⟩] [] 0).map (fun r => (r.exn, r.band.grid.getNodeTT 0 0, r.traveltimes))
      = some (none, 5, [5]) := by
  decide!

/-- Claim C4 as amended, on the rectangle mesh with the sources (4,0) at time
7 and (0,3) at time 0, and on the tetrahedron mesh with the sources (1,0,0),
(0,0,0), (0,1,0) at times 0, 5, 1. -/
theorem source_identity_witness :
    ((Grid2Duifs.raytrace exampleEnv rectangle [⟨4, 0⟩, ⟨0, 3⟩] [7, 0] [⟨4, 0⟩] []
        0).grid.getNodeTT 1 0 = 7 ∧
      (Grid2Duifs.raytrace exampleEnv rectangle [⟨4, 0⟩, ⟨0, 3⟩] [7, 0] [⟨4, 0⟩] []
        0).traveltimes[0]? = some 7) ∧
    ∃ r, Grid3Dunfm.raytrace exampleEnv exampleBase 8 tetrahedron
        [⟨1, 0, 0⟩, ⟨0, 0, 0⟩, ⟨0, 1, 0⟩] [0, 5, 1] [⟨0, 0, 0⟩] [] 0 = some r ∧
      r.exn = none ∧ r.band.grid.getNodeTT 0 0 = 5 ∧ r.traveltimes[0]? = some 5 := by
  refine ⟨?_, ?_⟩
  · have h := (source_identity exampleEnv).1 rectangle [] [⟨0, 3⟩] ⟨4, 0⟩ [7, 0] [⟨4, 0⟩] [] 0 1
      (by decide!) (by decide) (by decide) (by decide!) (by decide!)
    exact ⟨h.1, h.2 0 rfl⟩
  · have hsome : (Grid3Dunfm.raytrace exampleEnv exampleBase 8 tetrahedron
        [⟨1, 0, 0⟩, ⟨0, 0, 0⟩, ⟨0, 1, 0⟩] [0, 5, 1] [⟨0, 0, 0⟩] [] 0).map (fun r => r.exn)
        = some none := by decide!
    cases hr : Grid3Dunfm.raytrace exampleEnv exampleBase 8 tetrahedron
        [⟨1, 0, 0⟩, ⟨0, 0, 0⟩, ⟨0, 1, 0⟩] [0, 5, 1] [⟨0, 0, 0⟩] [] 0 with
    | none =>
      rw [hr] at hsome
      exact Option.noConfusion hsome
    | some r =>
      rw [hr] at hsome
      have hexn : r.exn = none := Option.some.inj hsome
      have h := ((source_identity exampleEnv).2 exampleBase exampleBase_updatesOnlyVertex
        exampleBase_insideReadsGeometry tetrahedron [⟨1, 0, 0⟩] [⟨0, 1, 0⟩] ⟨0, 0, 0⟩ [0, 5, 1]
        [⟨0, 0, 0⟩] [] 0 0 (by decide!) (by decide) (by decide!)).2 8 r hr hexn
      exact ⟨r, rfl, hexn, h.1, h.2 0 rfl⟩

end SourceIdentity

section Construction
variable {T : Type} [LinearOrderedField T]

theorem getD_set_ite {α : Type} (l : List α) (i j : Nat) (a d : α) :
    (l.set i a).getD j d = if i = j ∧ i < l.length then a else l.getD j d := by
  by_cases h : i = j
  · subst h
    by_cases hi : i < l.length
    · simp [List.getD_eq_getElem?_getD, hi]
    · rw [if_neg (fun h => hi h.2), List.getD_eq_default _ _ (by simpa using hi),
        List.getD_eq_default _ _ (Nat.le_of_not_lt hi)]
  · simp [List.getD_eq_getElem?_getD, List.getElem?_set_ne h, h]

theorem take_succ_getD {α : Type} (l : List α) (p : Nat) (d : α) (hp : p < l.length) :
    l.take (p + 1) = l.take p ++ [l.getD p d] := by
  rw [List.take_succ, List.getD_eq_getElem?_getD, List.getElem?_eq_getElem hp]
  rfl

namespace Grid2Duifs

theorem pushOwnerAt_node (g : Grid2Duc T) (v0 ntri v : Nat) :
    (pushOwnerAt g v0 ntri).nodes.getD v default =
      if v0 = v ∧ v < g.nodes.length then (g.nodes.getD v default).pushOwner ntri
      else g.nodes.getD v default := by
  unfold pushOwnerAt
  dsimp only
  rw [getD_set_ite]
  by_cases h : v0 = v
  · subst h; rfl
  · simp [h]

theorem pushOwnerAt_length (g : Grid2Duc T) (v0 ntri : Nat) :
    (pushOwnerAt g v0 ntri).nodes.length = g.nodes.length := by
  simp [pushOwnerAt]

theorem pushOwners_eq (g : Grid2Duc T) (ntri : Nat) :
    pushOwners g ntri =
      pushOwnerAt (pushOwnerAt (pushOwnerAt g ((g.triangles.getD ntri default).i.getD 0 0) ntri)
        ((g.triangles.getD ntri default).i.getD 1 0) ntri)
        ((g.triangles.getD ntri default).i.getD 2 0) ntri := rfl

theorem pushOwners_triangles (g : Grid2Duc T) (ntri : Nat) :
    (pushOwners g ntri).triangles = g.triangles := rfl

theorem pushOwners_length (g : Grid2Duc T) (ntri : Nat) :
    (pushOwners g ntri).nodes.length = g.nodes.length := by
  rw [pushOwners_eq, pushOwnerAt_length, pushOwnerAt_length, pushOwnerAt_length]

theorem pushOwners_node (g : Grid2Duc T) (ntri v : Nat) (hv : v < g.nodes.length) :
    (pushOwners g ntri).nodes.getD v default =
      { g.nodes.getD v default with
        owners := (g.nodes.getD v default).owners ++
          List.replicate ((cellVertices (g.triangles.getD ntri default).i).count v) ntri } := by
  rw [pushOwners_eq, pushOwnerAt_node, pushOwnerAt_node, pushOwnerAt_node]
  simp only [pushOwnerAt_length, cellVertices, hv, and_true]
  generalize (g.triangles.getD ntri default).i.getD 0 0 = x0
  generalize (g.triangles.getD ntri default).i.getD 1 0 = x1
  generalize (g.triangles.getD ntri default).i.getD 2 0 = x2
  generalize g.nodes.getD v default = nd
  by_cases h0 : x0 = v <;> by_cases h1 : x1 = v <;> by_cases h2 : x2 = v <;>
  simp [h0, h1, h2, Node2Dn.pushOwner, List.count_cons, List.replicate]

theorem pushOwners_node_ge (g : Grid2Duc T) (ntri v : Nat) (hv : g.nodes.length ≤ v) :
    (pushOwners g ntri).nodes.getD v default = default :=
  List.getD_eq_default _ _ (by rw [pushOwners_length]; exact hv)

theorem setPrimaryNodes_prefix (no : List (sxz T)) (tri : List (List Nat)) (nt : Nat) :
    ∀ j, j ≤ no.length →
      let g := (List.range j).foldl
        (fun (g : Grid2Duc T) n =>
          let p := no.getD n ⟨0, 0⟩
          { g with nodes := g.nodes.set n ((g.nodes.getD n default).setXZindex p.x p.z n) })
        (Grid2Duc.new no tri nt)
      g.nodes.length = no.length ∧ g.triangles = (Grid2Duc.new no tri nt).triangles ∧
      (∀ v, v < no.length → g.nodes.getD v default =
        if v < j then ⟨(no.getD v ⟨0, 0⟩).x, (no.getD v ⟨0, 0⟩).z, v, [], List.replicate nt 0⟩
        else ⟨0, 0, 0, [], List.replicate nt 0⟩) ∧
      g.slowness = List.replicate tri.length 0 ∧ g.neighbors = List.replicate tri.length [] ∧
      g.virtualNodes = [] ∧ g.nThreads = nt ∧ g.nPrimary = no.length := by
  intro j
  induction j with
  | zero =>
    intro _
    refine ⟨by simp [Grid2Duc.new], rfl, ?_, rfl, rfl, rfl, rfl, rfl⟩
    intro v hv
    simp [Grid2Duc.new, List.getD_eq_getElem?_getD, hv]
  | succ j ih =>
    intro hj
    obtain ⟨h1, h2, h3, h4, h5, h6, h7, h8⟩ := ih (Nat.le_of_succ_le hj)
    rw [List.range_succ, List.foldl_append]
    dsimp only [List.foldl]
    refine ⟨by rw [List.length_set]; exact h1, h2, ?_, h4, h5, h6, h7, h8⟩
    intro v hv
    rw [getD_set_ite]
    by_cases hjv : j = v
    · subst hjv
      rw [if_pos ⟨rfl, by rw [h1]; exact hv⟩, if_pos (Nat.lt_succ_self _), h3 j hv,
        if_neg (Nat.lt_irrefl _)]
      rfl
    · rw [if_neg (fun h => hjv h.1), h3 v hv]
      by_cases hlt : v < j
      · rw [if_pos hlt, if_pos (Nat.lt_succ_of_lt hlt)]
      · rw [if_neg hlt, if_neg (by omega)]

theorem setPrimaryNodes_builtUpTo (E : MathEnv T) (no : List (sxz T)) (tri : List (List Nat))
    (nt : Nat) : builtUpTo E no tri nt 0 (setPrimaryNodes (Grid2Duc.new no tri nt) no) := by
  obtain ⟨h1, h2, h3, h4, h5, h6, h7, h8⟩ := setPrimaryNodes_prefix no tri nt no.length (le_refl _)
  refine ⟨h1, ?_, ?_, ?_, h4, h5, h6, h7, h8⟩
  · show (setPrimaryNodes (Grid2Duc.new no tri nt) no).triangles.length = tri.length
    unfold setPrimaryNodes
    rw [h2]
    simp [Grid2Duc.new]
  · intro v hv
    have := h3 v hv
    rw [if_pos hv] at this
    rw [show ownersUpTo tri 0 v = [] from rfl]
    exact this
  · intro c hc
    rw [if_neg (Nat.not_lt_zero _)]
    show (setPrimaryNodes (Grid2Duc.new no tri nt) no).triangles.getD c default = _
    unfold setPrimaryNodes
    rw [h2]
    simp [Grid2Duc.new, List.getD_eq_getElem?_getD, hc]

theorem builtUpTo_pos {E : MathEnv T} {no : List (sxz T)} {tri : List (List Nat)}
    {nt k : Nat} {g : Grid2Duc T} (h : builtUpTo E no tri nt k g) (v : Nat) :
    (g.nodes.getD v default).x = (no.getD v ⟨0, 0⟩).x ∧
    (g.nodes.getD v default).z = (no.getD v ⟨0, 0⟩).z := by
  by_cases hv : v < no.length
  · rw [h.2.2.1 v hv]
    exact ⟨rfl, rfl⟩
  · rw [List.getD_eq_default _ _ (by rw [h.1]; exact Nat.le_of_not_lt hv),
      List.getD_eq_default _ _ (Nat.le_of_not_lt hv)]
    exact ⟨rfl, rfl⟩

theorem builtUpTo_dist {E : MathEnv T} {no : List (sxz T)} {tri : List (List Nat)}
    {nt k : Nat} {g : Grid2Duc T} (h : builtUpTo E no tri nt k g) (u v : Nat) :
    (g.nodes.getD u default).getDistance E (g.nodes.getD v default) =
      (no.getD u ⟨0, 0⟩).getDistance E (no.getD v ⟨0, 0⟩) := by
  unfold Node2Dn.getDistance sxz.getDistance
  rw [(builtUpTo_pos h u).1, (builtUpTo_pos h u).2, (builtUpTo_pos h v).1, (builtUpTo_pos h v).2]

theorem ownersUpTo_succ (tri : List (List Nat)) (k v : Nat) :
    ownersUpTo tri (k + 1) v =
      ownersUpTo tri k v ++ List.replicate ((cellVertices (tri.getD k [])).count v) k := by
  unfold ownersUpTo
  rw [List.range_succ, List.flatMap_append]
  simp

theorem pushOwners_builtUpTo {E : MathEnv T} {no : List (sxz T)} {tri : List (List Nat)}
    {nt k : Nat} {g : Grid2Duc T} (h : builtUpTo E no tri nt k g) (hk : k < tri.length) :
    (pushOwners g k).nodes.length = no.length ∧
    (∀ v, v < no.length → (pushOwners g k).nodes.getD v default =
      ⟨(no.getD v ⟨0, 0⟩).x, (no.getD v ⟨0, 0⟩).z, v, ownersUpTo tri (k + 1) v,
        List.replicate nt 0⟩) ∧
    (∀ u v, ((pushOwners g k).nodes.getD u default).getDistance E
        ((pushOwners g k).nodes.getD v default) =
      (no.getD u ⟨0, 0⟩).getDistance E (no.getD v ⟨0, 0⟩)) := by
  obtain ⟨h1, h2, h3, h4, _⟩ := h
  have hi : (g.triangles.getD k default).i = tri.getD k [] := by
    rw [h4 k hk, if_neg (Nat.lt_irrefl _)]
  have hnode : ∀ v, v < no.length → (pushOwners g k).nodes.getD v default =
      ⟨(no.getD v ⟨0, 0⟩).x, (no.getD v ⟨0, 0⟩).z, v, ownersUpTo tri (k + 1) v,
        List.replicate nt 0⟩ := by
    intro v hv
    rw [pushOwners_node g k v (by rw [h1]; exact hv), hi, h3 v hv, ownersUpTo_succ]
  refine ⟨by rw [pushOwners_length, h1], hnode, ?_⟩
  have hpos : ∀ v, ((pushOwners g k).nodes.getD v default).x = (no.getD v ⟨0, 0⟩).x ∧
      ((pushOwners g k).nodes.getD v default).z = (no.getD v ⟨0, 0⟩).z := by
    intro v
    by_cases hv : v < no.length
    · rw [hnode v hv]
      exact ⟨rfl, rfl⟩
    · rw [pushOwners_node_ge g k v (by rw [h1]; exact Nat.le_of_not_lt hv),
        List.getD_eq_default _ _ (Nat.le_of_not_lt hv)]
      exact ⟨rfl, rfl⟩
  intro u v
  unfold Node2Dn.getDistance sxz.getDistance
  rw [(hpos u).1, (hpos u).2, (hpos v).1, (hpos v).2]

theorem buildTriangle_builtUpTo {E : MathEnv T} {no : List (sxz T)} {tri : List (List Nat)}
    {nt k : Nat} {g : Grid2Duc T} (h : builtUpTo E no tri nt k g) (hk : k < tri.length) :
    builtUpTo E no tri nt (k + 1) (buildTriangle E g k) := by
  obtain ⟨hp1, hp2, hp3⟩ := pushOwners_builtUpTo h hk
  obtain ⟨h1, h2, h3, h4, h5, h6, h7, h8, h9⟩ := h
  have ht : g.triangles.getD k default = ⟨tri.getD k [], [0, 0, 0], [0, 0, 0]⟩ := by
    rw [h4 k hk, if_neg (Nat.lt_irrefl _)]
  refine ⟨hp1, ?_, hp2, ?_, h5, h6, h7, h8, h9⟩
  · show (g.triangles.set k _).length = tri.length
    rw [List.length_set, h2]
  · intro c hc
    show (g.triangles.set k _).getD c default = _
    rw [getD_set_ite]
    by_cases hkc : k = c
    · subst hkc
      rw [if_pos ⟨rfl, by rw [h2]; exact hk⟩, if_pos (Nat.lt_succ_self _)]
      rw [pushOwners_triangles, ht]
      dsimp only
      rw [hp3, hp3, hp3]
      rfl
    · rw [if_neg (fun h => hkc h.1), h4 c hc]
      by_cases hlt : c < k
      · rw [if_pos hlt, if_pos (Nat.lt_succ_of_lt hlt)]
      · rw [if_neg hlt, if_neg (by omega)]

theorem buildGridNodes_prefix (E : MathEnv T) (no : List (sxz T)) (tri : List (List Nat))
    (nt : Nat) (g : Grid2Duc T) (h : builtUpTo E no tri nt 0 g) :
    ∀ k, k ≤ tri.length → builtUpTo E no tri nt k ((List.range k).foldl (buildTriangle E) g) := by
  intro k
  induction k with
  | zero => intro _; exact h
  | succ k ih =>
    intro hk
    rw [List.range_succ, List.foldl_append]
    exact buildTriangle_builtUpTo (ih (Nat.le_of_succ_le hk)) hk

theorem buildGridNodes_builtUpTo (E : MathEnv T) (no : List (sxz T)) (tri : List (List Nat))
    (nt : Nat) :
    builtUpTo E no tri nt tri.length (buildGridNodes E (Grid2Duc.new no tri nt) no) := by
  have h0 := setPrimaryNodes_builtUpTo E no tri nt
  unfold buildGridNodes
  dsimp only
  rw [h0.2.1]
  exact buildGridNodes_prefix E no tri nt _ h0 tri.length (le_refl _)

theorem count_ownersUpTo (tri : List (List Nat)) (v c : Nat) :
    ∀ k, (ownersUpTo tri k v).count c =
      if c < k then (cellVertices (tri.getD c [])).count v else 0 := by
  intro k
  induction k with
  | zero => simp [ownersUpTo]
  | succ k ih =>
    rw [ownersUpTo_succ, List.count_append, ih, List.count_replicate]
    by_cases hck : c < k
    · have hne : ¬ k = c := by omega
      simp [hck, Nat.lt_succ_of_lt hck, hne]
    · by_cases hkc : k = c
      · subst hkc
        simp
      · have : ¬ c < k + 1 := by omega
        simp [hck, hkc, this]

end Grid2Duifs

namespace Grid2Duc

theorem neighborsInner_prefix (g : Grid2Duc T) (n : Nat) :
    ∀ p, p ≤ (g.nodes.getD n default).owners.length →
      let g' := (List.range p).foldl
        (fun (g : Grid2Duc T) n2 =>
          let c := (g.nodes.getD n default).owners.getD n2 0
          { g with neighbors := g.neighbors.set c (g.neighbors.getD c [] ++ [n]) })
        g
      g'.nodes = g.nodes ∧ g'.triangles = g.triangles ∧ g'.slowness = g.slowness ∧
      g'.virtualNodes = g.virtualNodes ∧ g'.nThreads = g.nThreads ∧ g'.nPrimary = g.nPrimary ∧
      g'.neighbors.length = g.neighbors.length ∧
      ∀ c, c < g.neighbors.length → g'.neighbors.getD c [] =
        g.neighbors.getD c [] ++
          List.replicate (((g.nodes.getD n default).owners.take p).count c) n := by
  intro p
  induction p with
  | zero =>
    intro _
    refine ⟨rfl, rfl, rfl, rfl, rfl, rfl, rfl, ?_⟩
    intro c _
    simp
  | succ p ih =>
    intro hp
    obtain ⟨h1, h2, h3, h4, h5, h6, h7, h8⟩ := ih (Nat.le_of_succ_le hp)
    rw [List.range_succ, List.foldl_append]
    dsimp only [List.foldl]
    refine ⟨h1, h2, h3, h4, h5, h6, by rw [List.length_set]; exact h7, ?_⟩
    intro c hc
    have htake := take_succ_getD (g.nodes.getD n default).owners p 0 hp
    rw [getD_set_ite, h1, htake, List.count_append, h7]
    by_cases hcc : (g.nodes.getD n default).owners.getD p 0 = c
    · rw [if_pos ⟨hcc, by rw [hcc]; exact hc⟩, hcc, h8 c hc]
      simp [List.replicate_succ', List.append_assoc]
    · rw [if_neg (fun h => hcc h.1), h8 c hc]
      generalize (g.nodes.getD n default).owners.getD p 0 = x at hcc
      simp [List.count_cons, hcc]

/-- The neighbour list of cell `c` once the nodes before `j` have been
visited by `buildGridNeighbors`. -/
theorem buildGridNeighbors_prefix (g : Grid2Duc T) :
    ∀ j, j ≤ g.nodes.length →
      let g' := (List.range j).foldl
        (fun (g : Grid2Duc T) n =>
          (List.range (g.nodes.getD n default).owners.length).foldl
            (fun (g : Grid2Duc T) n2 =>
              let c := (g.nodes.getD n default).owners.getD n2 0
              { g with neighbors := g.neighbors.set c (g.neighbors.getD c [] ++ [n]) })
            g)
        g
      g'.nodes = g.nodes ∧ g'.triangles = g.triangles ∧ g'.slowness = g.slowness ∧
      g'.virtualNodes = g.virtualNodes ∧ g'.nThreads = g.nThreads ∧ g'.nPrimary = g.nPrimary ∧
      g'.neighbors.length = g.neighbors.length ∧
      ∀ c, c < g.neighbors.length → g'.neighbors.getD c [] =
        g.neighbors.getD c [] ++ (List.range j).flatMap (fun n =>
          List.replicate ((g.nodes.getD n default).owners.count c) n) := by
  intro j
  induction j with
  | zero =>
    intro _
    refine ⟨rfl, rfl, rfl, rfl, rfl, rfl, rfl, ?_⟩
    intro c _
    simp
  | succ j ih =>
    intro hj
    obtain ⟨h1, h2, h3, h4, h5, h6, h7, h8⟩ := ih (Nat.le_of_succ_le hj)
    rw [List.range_succ, List.foldl_append]
    dsimp only [List.foldl]
    obtain ⟨k1, k2, k3, k4, k5, k6, k7, k8⟩ := neighborsInner_prefix
      ((List.range j).foldl
        (fun (g : Grid2Duc T) n =>
          (List.range (g.nodes.getD n default).owners.length).foldl
            (fun (g : Grid2Duc T) n2 =>
              let c := (g.nodes.getD n default).owners.getD n2 0
              { g with neighbors := g.neighbors.set c (g.neighbors.getD c [] ++ [n]) })
            g)
        g) j _ (le_refl _)
    refine ⟨k1.trans h1, k2.trans h2, k3.trans h3, k4.trans h4, k5.trans h5, k6.trans h6,
      k7.trans h7, ?_⟩
    intro c hc
    rw [k8 c (by rw [h7]; exact hc), h8 c hc, List.take_length, h1, List.flatMap_append,
      List.append_assoc]
    simp

theorem buildGridNeighbors_spec (g : Grid2Duc T) :
    g.buildGridNeighbors.nodes = g.nodes ∧ g.buildGridNeighbors.triangles = g.triangles ∧
    g.buildGridNeighbors.slowness = g.slowness ∧
    g.buildGridNeighbors.virtualNodes = g.virtualNodes ∧
    g.buildGridNeighbors.nThreads = g.nThreads ∧ g.buildGridNeighbors.nPrimary = g.nPrimary ∧
    g.buildGridNeighbors.neighbors.length = g.neighbors.length ∧
    ∀ c, c < g.neighbors.length → g.buildGridNeighbors.neighbors.getD c [] =
      g.neighbors.getD c [] ++ (List.range g.nodes.length).flatMap (fun n =>
        List.replicate ((g.nodes.getD n default).owners.count c) n) :=
  buildGridNeighbors_prefix g g.nodes.length (le_refl _)

theorem sameButVirtual_refl (g : Grid2Duc T) : sameButVirtual g g :=
  ⟨rfl, rfl, rfl, rfl, rfl, rfl⟩

theorem sameButVirtual_trans (a b c : Grid2Duc T) (h1 : sameButVirtual a b)
    (h2 : sameButVirtual b c) : sameButVirtual a c :=
  ⟨h2.1.trans h1.1, h2.2.1.trans h1.2.1, h2.2.2.1.trans h1.2.2.1,
    h2.2.2.2.1.trans h1.2.2.2.1, h2.2.2.2.2.1.trans h1.2.2.2.2.1,
    h2.2.2.2.2.2.trans h1.2.2.2.2.2⟩

theorem processVertex_sameButVirtual (E : MathEnv T) (g : Grid2Duc T) (ntri n : Nat) :
    sameButVirtual g (processVertex E g ntri n) := by
  unfold processVertex
  dsimp only
  split
  · split
    · exact sameButVirtual_refl g
    · exact ⟨rfl, rfl, rfl, rfl, rfl, rfl⟩
  · exact sameButVirtual_refl g

theorem processObtuse_sameButVirtual (E : MathEnv T) (g : Grid2Duc T) :
    sameButVirtual g (processObtuse E g) :=
  foldl_rel sameButVirtual sameButVirtual_refl sameButVirtual_trans _
    (fun a ntri => foldl_rel sameButVirtual sameButVirtual_refl sameButVirtual_trans _
      (fun a n => processVertex_sameButVirtual E a ntri n) _ a) _ g

end Grid2Duc
end Construction

section Interpolation
variable {T : Type} [LinearOrderedField T]

/-- The fold of `getTraveltime` over the neighbours keeps the smallest
candidate. -/
theorem foldl_min_spec {α : Type} (cand : α → T) :
    ∀ (l : List α) (t0 : T),
      let r := l.foldl (fun t u => if t > cand u then cand u else t) t0
      r ≤ t0 ∧ (∀ u ∈ l, r ≤ cand u) ∧ (r = t0 ∨ ∃ u ∈ l, r = cand u) := by
  intro l
  induction l with
  | nil => intro t0; exact ⟨le_refl _, fun u hu => absurd hu (List.not_mem_nil u), Or.inl rfl⟩
  | cons a l ih =>
    intro t0
    rw [List.foldl_cons]
    obtain ⟨h1, h2, h3⟩ := ih (if t0 > cand a then cand a else t0)
    have hle0 : (if t0 > cand a then cand a else t0) ≤ t0 := by
      split
      · rename_i h; exact le_of_lt h
      · exact le_refl _
    have hlea : (if t0 > cand a then cand a else t0) ≤ cand a := by
      split
      · exact le_refl _
      · rename_i h; exact not_lt.mp h
    refine ⟨le_trans h1 hle0, ?_, ?_⟩
    · intro u hu
      rcases List.mem_cons.mp hu with rfl | hu
      · exact le_trans h1 hlea
      · exact h2 u hu
    · rcases h3 with h3 | ⟨u, hu, h3⟩
      · by_cases hc : t0 > cand a
        · rw [if_pos hc] at h3 ⊢
          exact Or.inr ⟨a, List.mem_cons_self _ _, h3⟩
        · rw [if_neg hc] at h3 ⊢
          exact Or.inl h3
      · exact Or.inr ⟨u, List.mem_cons_of_mem _ hu, h3⟩

namespace Grid2Duc

/-- A point that `checkPts` accepts and that is on no node is in the
triangle that `getCellNo` returns. -/
theorem getCellNo_of_accepted (E : MathEnv T) (g : Grid2Duc T) (R : sxz T)
    (hacc : ¬ outsideMesh E g R) (hnone : g.nodes.find? (fun n => n.eqPt E R) = none) :
    getCellNo g R < g.triangles.length ∧ insideTriangle g R (getCellNo g R) = true ∧
    ∀ m, m < getCellNo g R → insideTriangle g R m = false := by
  have hnodes : ∀ n ∈ g.nodes, n.eqPt E R = false := by
    intro n hn
    have := List.find?_eq_none.mp hnone n hn
    simpa using this
  have htri : ∃ nt, nt < g.triangles.length ∧ insideTriangle g R nt = true := by
    by_contra hcon
    apply hacc
    refine ⟨hnodes, ?_⟩
    intro nt hnt
    cases h : insideTriangle g R nt with
    | false => rfl
    | true => exact absurd ⟨nt, hnt, h⟩ hcon
  obtain ⟨nt, hnt, hin⟩ := htri
  unfold getCellNo
  cases hf : (List.range g.triangles.length).find? (fun n => insideTriangle g R n) with
  | none =>
    have := List.find?_eq_none.mp hf nt (List.mem_range.mpr hnt)
    simp [hin] at this
  | some c =>
    dsimp only
    have hmem := List.mem_of_find?_eq_some hf
    have hp := List.find?_some hf
    refine ⟨List.mem_range.mp hmem, hp, ?_⟩
    intro m hm
    rw [List.find?_range_eq_some] at hf
    have := hf.2.2 m hm
    simpa using this

/-- Claim C11. For a receiver `R` on a node, `getTraveltime` returns the slot
of the first node coincident with `R`. For a receiver that `checkPts` accepts
and that is on no node, `getCellNo` returns a cell `c` of the mesh that
contains `R`, never the value `-1`, and `getTraveltime` returns the least of
the candidates `TT[u] + slowness[c] * |R - u|` over the three vertices `u` of
`c`: it is below every candidate and equal to one of them. The neighbour list
of a cell is taken to hold the vertices of the cell, as the constructor
leaves it, and the number of cells to fit the index type. -/
theorem getTraveltime_contract (E : MathEnv T) (g : Grid2Duc T) (R : sxz T) (w : Nat)
    (hnb : g.neighborsAreVertices) (hsize : g.triangles.length ≤ T2_max)
    (hacc : (checkPts E g [R]).exn = none) :
    (∀ n, g.nodes.find? (fun n => n.eqPt E R) = some n →
      n ∈ g.nodes ∧ n.eqPt E R = true ∧ getTraveltime E g R w = n.getTT w) ∧
    (g.nodes.find? (fun n => n.eqPt E R) = none →
      getCellNo g R ≠ T2_max ∧ getCellNo g R < g.triangles.length ∧
      insideTriangle g R (getCellNo g R) = true ∧
      (∀ u ∈ cellVertices (g.triangles.getD (getCellNo g R) default).i,
        getTraveltime E g R w ≤ g.getNodeTT u w +
          g.slowness.getD (getCellNo g R) 0 * (g.nodes.getD u default).getDistancePt E R) ∧
      (∃ u ∈ cellVertices (g.triangles.getD (getCellNo g R) default).i,
        getTraveltime E g R w = g.getNodeTT u w +
          g.slowness.getD (getCellNo g R) 0 * (g.nodes.getD u default).getDistancePt E R)) := by
  constructor
  · intro n hn
    refine ⟨List.mem_of_find?_eq_some hn, ?_, ?_⟩
    · have := List.find?_some (p := fun n : Node2Dn T => n.eqPt E R) hn
      exact this
    · unfold getTraveltime
      rw [hn]
  · intro hnone
    have hok : ¬ outsideMesh E g R :=
      checkPtsFrom_ok E g [R] 0 hacc R (List.mem_singleton_self R)
    obtain ⟨hlt, hin, _⟩ := getCellNo_of_accepted E g R hok hnone
    obtain ⟨hnb1, hnb2⟩ := hnb _ hlt
    refine ⟨fun h => absurd (h ▸ hlt) (Nat.not_lt.mpr hsize), hlt, hin, ?_⟩
    have hval : getTraveltime E g R w =
        ((g.neighbors.getD (getCellNo g R) []).drop 1).foldl
          (fun t u =>
            if t > g.getNodeTT u w + g.slowness.getD (getCellNo g R) 0 *
                (g.nodes.getD u default).getDistancePt E R
            then g.getNodeTT u w + g.slowness.getD (getCellNo g R) 0 *
                (g.nodes.getD u default).getDistancePt E R
            else t)
          (g.getNodeTT ((g.neighbors.getD (getCellNo g R) []).getD 0 0) w +
            g.slowness.getD (getCellNo g R) 0 *
              (g.nodes.getD ((g.neighbors.getD (getCellNo g R) []).getD 0 0) default).getDistancePt
                E R) := by
      unfold getTraveltime
      rw [hnone]
      rfl
    have hne : g.neighbors.getD (getCellNo g R) [] ≠ [] :=
      List.ne_nil_of_mem (hnb2 _ (List.mem_cons_self _ _))
    obtain ⟨h1, h2, h3⟩ := foldl_min_spec
      (fun u => g.getNodeTT u w + g.slowness.getD (getCellNo g R) 0 *
        (g.nodes.getD u default).getDistancePt E R)
      ((g.neighbors.getD (getCellNo g R) []).drop 1)
      (g.getNodeTT ((g.neighbors.getD (getCellNo g R) []).getD 0 0) w +
        g.slowness.getD (getCellNo g R) 0 *
          (g.nodes.getD ((g.neighbors.getD (getCellNo g R) []).getD 0 0) default).getDistancePt
            E R)
    rw [← hval] at h1 h2 h3
    have hsplit : ∀ u ∈ g.neighbors.getD (getCellNo g R) [],
        u = (g.neighbors.getD (getCellNo g R) []).getD 0 0 ∨
        u ∈ (g.neighbors.getD (getCellNo g R) []).drop 1 := by
      intro u hu
      cases hl : g.neighbors.getD (getCellNo g R) [] with
      | nil => exact absurd hl hne
      | cons a l =>
        rw [hl] at hu
        rcases List.mem_cons.mp hu with rfl | hu
        · exact Or.inl rfl
        · exact Or.inr hu
    have hhead : (g.neighbors.getD (getCellNo g R) []).getD 0 0 ∈
        g.neighbors.getD (getCellNo g R) [] := by
      cases hl : g.neighbors.getD (getCellNo g R) [] with
      | nil => exact absurd hl hne
      | cons a l => exact List.mem_cons_self _ _
    constructor
    · intro u hu
      rcases hsplit u (hnb2 u hu) with rfl | hu
      · exact h1
      · exact h2 u hu
    · rcases h3 with h3 | ⟨u, hu, h3⟩
      · exact ⟨_, hnb1 _ hhead, h3⟩
      · exact ⟨u, hnb1 u (List.mem_of_mem_drop hu), h3⟩

end Grid2Duc
end Interpolation

section ConstructedGrid
variable {T : Type} [LinearOrderedField T]

theorem flatMap_congr_mem {α β : Type} (f g : α → List β) :
    ∀ l : List α, (∀ a ∈ l, f a = g a) → l.flatMap f = l.flatMap g := by
  intro l
  induction l with
  | nil => intro _; rfl
  | cons a l ih =>
    intro h
    rw [List.flatMap_cons, List.flatMap_cons, h a (List.mem_cons_self _ _),
      ih (fun b hb => h b (List.mem_cons_of_mem _ hb))]

namespace Grid2Duifs

theorem mem_ownersUpTo (tri : List (List Nat)) (k v c : Nat) (h : c ∈ ownersUpTo tri k v) :
    c < k := by
  rw [← List.count_pos_iff, count_ownersUpTo] at h
  by_contra hc
  rw [if_neg hc] at h
  exact Nat.lt_irrefl 0 h

theorem ownersUpTo_pairwise (tri : List (List Nat)) (v K : Nat)
    (h : ∀ c, c < K → (cellVertices (tri.getD c [])).count v ≤ 1) :
    ∀ k, k ≤ K → (ownersUpTo tri k v).Pairwise (fun a b => a < b) := by
  intro k
  induction k with
  | zero => intro _; exact List.Pairwise.nil
  | succ k ih =>
    intro hk
    rw [ownersUpTo_succ, List.pairwise_append]
    refine ⟨ih (Nat.le_of_succ_le hk), ?_, ?_⟩
    · have := h k hk
      interval_cases hcnt : (cellVertices (tri.getD k [])).count v
      · exact List.Pairwise.nil
      · exact List.pairwise_singleton _ _
    · intro a ha b hb
      rw [(List.mem_replicate.mp hb).2]
      exact mem_ownersUpTo tri k v a ha

/-- The grid as the constructor leaves it. -/
theorem new_spec (E : MathEnv T) (no : List (sxz T)) (tri : List (List Nat)) (eps : T)
    (maxit : Int) (nt : Nat) (po : Bool) :
    (Grid2Duifs.new E no tri eps maxit nt po).nodes.length = no.length ∧
    (Grid2Duifs.new E no tri eps maxit nt po).triangles.length = tri.length ∧
    (∀ v, v < no.length → (Grid2Duifs.new E no tri eps maxit nt po).nodes.getD v default =
      ⟨(no.getD v ⟨0, 0⟩).x, (no.getD v ⟨0, 0⟩).z, v, ownersUpTo tri tri.length v,
        List.replicate nt 0⟩) ∧
    (∀ c, c < tri.length → (Grid2Duifs.new E no tri eps maxit nt po).triangles.getD c default =
      builtTriangle E no (tri.getD c [])) ∧
    (Grid2Duifs.new E no tri eps maxit nt po).neighbors.length = tri.length ∧
    (∀ c, c < tri.length → (Grid2Duifs.new E no tri eps maxit nt po).neighbors.getD c [] =
      (List.range no.length).flatMap (fun n =>
        List.replicate ((ownersUpTo tri tri.length n).count c) n)) ∧
    (Grid2Duifs.new E no tri eps maxit nt po).slowness = List.replicate tri.length 0 := by
  obtain ⟨b1, b2, b3, b4, b5, b6, b7, b8, b9⟩ := buildGridNodes_builtUpTo E no tri nt
  obtain ⟨n1, n2, n3, n4, n5, n6, n7, n8⟩ :=
    Grid2Duc.buildGridNeighbors_spec (buildGridNodes E (Grid2Duc.new no tri nt) no)
  have hsv : Grid2Duc.sameButVirtual
      (buildGridNodes E (Grid2Duc.new no tri nt) no).buildGridNeighbors
      (Grid2Duifs.new E no tri eps maxit nt po).toGrid2Duc := by
    unfold Grid2Duifs.new
    dsimp only
    cases po
    · exact Grid2Duc.sameButVirtual_refl _
    · exact Grid2Duc.processObtuse_sameButVirtual E _
  obtain ⟨s1, s2, s3, s4, s5, s6⟩ := hsv
  have hnbc : ∀ c, c < tri.length →
      (buildGridNodes E (Grid2Duc.new no tri nt) no).buildGridNeighbors.neighbors.getD c [] =
        (List.range no.length).flatMap (fun n =>
          List.replicate ((ownersUpTo tri tri.length n).count c) n) := by
    intro c hc
    rw [n8 c (by rw [b6]; simpa using hc), b6, b1]
    have h0 : (List.replicate tri.length ([] : List Nat)).getD c [] = [] := by
      simp [List.getD_eq_getElem?_getD, hc]
    rw [h0, List.nil_append]
    apply flatMap_congr_mem
    intro n hn
    rw [b3 n (List.mem_range.mp hn)]
  refine ⟨?_, ?_, ?_, ?_, ?_, ?_, ?_⟩
  · rw [s1, n1]; exact b1
  · rw [s2, n2]; exact b2
  · intro v hv; rw [s1, n1]; exact b3 v hv
  · intro c hc
    rw [s2, n2, b4 c hc, if_pos hc]
  · rw [s3, n7, b6]; simp
  · intro c hc; rw [s3]; exact hnbc c hc
  · rw [s4, n3]; exact b5

/-- The constructor leaves in the neighbour list of every cell the vertices of
the cell, when the vertex indices of the cells are indices of nodes. -/
theorem new_neighborsAreVertices (E : MathEnv T) (no : List (sxz T)) (tri : List (List Nat))
    (eps : T) (maxit : Int) (nt : Nat) (po : Bool)
    (hvalid : ∀ c, c < tri.length → ∀ u ∈ cellVertices (tri.getD c []), u < no.length) :
    (Grid2Duifs.new E no tri eps maxit nt po).toGrid2Duc.neighborsAreVertices := by
  obtain ⟨h1, h2, h3, h4, h5, h6, h7⟩ := new_spec E no tri eps maxit nt po
  intro c hc
  rw [h2] at hc
  have hi : ((Grid2Duifs.new E no tri eps maxit nt po).triangles.getD c default).i =
      tri.getD c [] := by
    rw [h4 c hc]
    rfl
  have hmem : ∀ u, u ∈ (Grid2Duifs.new E no tri eps maxit nt po).neighbors.getD c [] ↔
      u < no.length ∧ u ∈ cellVertices (tri.getD c []) := by
    intro u
    rw [h6 c hc, List.mem_flatMap]
    constructor
    · rintro ⟨n, hn, hu⟩
      rw [List.mem_replicate, count_ownersUpTo, if_pos hc] at hu
      obtain ⟨hcnt, rfl⟩ := hu
      exact ⟨List.mem_range.mp hn, List.count_pos_iff.mp (Nat.pos_of_ne_zero hcnt)⟩
    · rintro ⟨hu, hin⟩
      refine ⟨u, List.mem_range.mpr hu, ?_⟩
      rw [List.mem_replicate, count_ownersUpTo, if_pos hc]
      exact ⟨Nat.pos_iff_ne_zero.mp (List.count_pos_iff.mpr hin), rfl⟩
  rw [hi]
  exact ⟨fun u hu => ((hmem u).mp hu).2, fun u hu => (hmem u).mpr ⟨hvalid c hc u hu, hu⟩⟩

/-- Claim C13. After the construction of the grid, the owner list of every
vertex `v` holds the indices of the cells that have `v` among their three
vertices and no other index, each once and in ascending order, the three
vertex indices of every cell being distinct. -/
theorem owners_exact (E : MathEnv T) (no : List (sxz T)) (tri : List (List Nat)) (eps : T)
    (maxit : Int) (nt : Nat) (po : Bool) (v : Nat) (hv : v < no.length)
    (huniq : ∀ c, c < tri.length → (cellVertices (tri.getD c [])).Nodup) :
    (∀ c, c ∈ ((Grid2Duifs.new E no tri eps maxit nt po).nodes.getD v default).owners ↔
      c < (Grid2Duifs.new E no tri eps maxit nt po).triangles.length ∧
      v ∈ cellVertices
        ((Grid2Duifs.new E no tri eps maxit nt po).triangles.getD c default).i) ∧
    ((Grid2Duifs.new E no tri eps maxit nt po).nodes.getD v default).owners.Nodup ∧
    ((Grid2Duifs.new E no tri eps maxit nt po).nodes.getD v default).owners.Pairwise
      (fun a b => a < b) ∧
    (∀ c, c < (Grid2Duifs.new E no tri eps maxit nt po).triangles.length →
      ((Grid2Duifs.new E no tri eps maxit nt po).triangles.getD c default).i = tri.getD c []) := by
  obtain ⟨h1, h2, h3, h4, h5, h6, h7⟩ := new_spec E no tri eps maxit nt po
  have hi : ∀ c, c < tri.length →
      ((Grid2Duifs.new E no tri eps maxit nt po).triangles.getD c default).i = tri.getD c [] := by
    intro c hc
    rw [h4 c hc]
    rfl
  have hcount : ∀ c, (ownersUpTo tri tri.length v).count c ≤ 1 := by
    intro c
    rw [count_ownersUpTo]
    split
    · rename_i hc
      exact List.nodup_iff_count_le_one.mp (huniq c hc) v
    · exact Nat.zero_le _
  rw [h3 v hv, h2]
  dsimp only
  refine ⟨?_, List.nodup_iff_count_le_one.mpr hcount, ?_, hi⟩
  · intro c
    rw [← List.count_pos_iff, count_ownersUpTo]
    constructor
    · intro h
      split at h
      · rename_i hc
        rw [hi c hc]
        exact ⟨hc, List.count_pos_iff.mp h⟩
      · exact absurd h (Nat.lt_irrefl 0)
    · rintro ⟨hc, hin⟩
      rw [if_pos hc]
      rw [hi c hc] at hin
      exact List.count_pos_iff.mpr hin
  · exact ownersUpTo_pairwise tri v tri.length
      (fun c hc => List.nodup_iff_count_le_one.mp (huniq c hc) v) tri.length (le_refl _)

end Grid2Duifs
end ConstructedGrid

section AngleSum

/-- The distance of two points of the plane as the distance of complex
numbers. -/
theorem sxz_dist_eq (E : MathEnv ℝ) (hE : E.isReal) (p q : sxz ℝ) :
    p.getDistance E q = dist (⟨p.x, p.z⟩ : ℂ) ⟨q.x, q.z⟩ := by
  unfold sxz.getDistance
  rw [hE.1, Complex.dist_eq, Complex.abs_apply, Complex.normSq_apply]
  simp

theorem sxz_ne_complex (p q : sxz ℝ) (h : p ≠ q) : (⟨p.x, p.z⟩ : ℂ) ≠ ⟨q.x, q.z⟩ := by
  intro hc
  apply h
  cases p
  cases q
  simp only [Complex.mk.injEq] at hc
  simp [hc.1, hc.2]

/-- Law of cosines: the angle at `p0` of the triangle `p0 p1 p2`. -/
theorem arccos_law_cos (p0 p1 p2 : ℂ) (h01 : p0 ≠ p1) (h02 : p0 ≠ p2) :
    Real.arccos ((dist p0 p2 * dist p0 p2 + dist p0 p1 * dist p0 p1 - dist p1 p2 * dist p1 p2) /
      (2 * dist p0 p2 * dist p0 p1)) = EuclideanGeometry.angle p1 p0 p2 := by
  have hl := EuclideanGeometry.law_cos p1 p0 p2
  have hb : dist p0 p2 ≠ 0 := dist_ne_zero.mpr h02
  have hc : dist p0 p1 ≠ 0 := dist_ne_zero.mpr h01
  have hcos : Real.cos (EuclideanGeometry.angle p1 p0 p2) =
      (dist p0 p2 * dist p0 p2 + dist p0 p1 * dist p0 p1 - dist p1 p2 * dist p1 p2) /
        (2 * dist p0 p2 * dist p0 p1) := by
    rw [dist_comm p1 p0, dist_comm p2 p0] at hl
    field_simp
    linarith
  rw [← hcos, Real.arccos_cos (EuclideanGeometry.angle_nonneg _ _ _)
    (EuclideanGeometry.angle_le_pi _ _ _)]

/-- The three angles that the law of cosines gives for a triangle with
distinct vertices sum to `pi`. -/
theorem law_cos_angle_sum (p0 p1 p2 : ℂ) (h01 : p0 ≠ p1) (h02 : p0 ≠ p2) (h12 : p1 ≠ p2) :
    Real.arccos ((dist p0 p2 * dist p0 p2 + dist p0 p1 * dist p0 p1 - dist p1 p2 * dist p1 p2) /
      (2 * dist p0 p2 * dist p0 p1)) +
    Real.arccos ((dist p0 p1 * dist p0 p1 + dist p1 p2 * dist p1 p2 - dist p0 p2 * dist p0 p2) /
      (2 * dist p1 p2 * dist p0 p1)) +
    Real.arccos ((dist p1 p2 * dist p1 p2 + dist p0 p2 * dist p0 p2 - dist p0 p1 * dist p0 p1) /
      (2 * dist p1 p2 * dist p0 p2)) = Real.pi := by
  have e0 := arccos_law_cos p0 p1 p2 h01 h02
  have e1 := arccos_law_cos p1 p2 p0 h12 (Ne.symm h01)
  have e2 := arccos_law_cos p2 p0 p1 (Ne.symm h02) (Ne.symm h12)
  rw [dist_comm p1 p0, dist_comm p2 p0] at e1
  rw [dist_comm p2 p1, dist_comm p2 p0] at e2
  have hsum : EuclideanGeometry.angle p1 p0 p2 + EuclideanGeometry.angle p0 p2 p1 +
      EuclideanGeometry.angle p2 p1 p0 = Real.pi :=
    EuclideanGeometry.angle_add_angle_add_angle_eq_pi h01 (Ne.symm h12)
  have f1 : 2 * dist p1 p2 * dist p0 p1 = 2 * dist p0 p1 * dist p1 p2 := by ring
  rw [e0, f1, e1, e2]
  linarith

end AngleSum

section AngleSumGrid

namespace Grid2Duifs

/-- Claim C12. In exact real arithmetic, for every cell of the constructed
grid whose three vertices have pairwise distinct positions, the stored
lengths `l[0]`, `l[1]`, `l[2]` are the lengths of the edges opposite to the
vertices 0, 1, 2, the stored angles are those that the law of cosines gives
from these lengths, and the three angles sum to `pi`. -/
theorem angle_sum (E : MathEnv ℝ) (hE : E.isReal) (no : List (sxz ℝ)) (tri : List (List Nat))
    (eps : ℝ) (maxit : Int) (nt : Nat) (po : Bool) (c : Nat) (hc : c < tri.length)
    (h01 : no.getD ((tri.getD c []).getD 0 0) ⟨0, 0⟩ ≠ no.getD ((tri.getD c []).getD 1 0) ⟨0, 0⟩)
    (h02 : no.getD ((tri.getD c []).getD 0 0) ⟨0, 0⟩ ≠ no.getD ((tri.getD c []).getD 2 0) ⟨0, 0⟩)
    (h12 : no.getD ((tri.getD c []).getD 1 0) ⟨0, 0⟩ ≠ no.getD ((tri.getD c []).getD 2 0) ⟨0, 0⟩) :
    ((Grid2Duifs.new E no tri eps maxit nt po).triangles.getD c default).a.getD 0 0 +
      ((Grid2Duifs.new E no tri eps maxit nt po).triangles.getD c default).a.getD 1 0 +
      ((Grid2Duifs.new E no tri eps maxit nt po).triangles.getD c default).a.getD 2 0 = Real.pi ∧
    ((Grid2Duifs.new E no tri eps maxit nt po).triangles.getD c default).l =
      [(no.getD ((tri.getD c []).getD 1 0) ⟨0, 0⟩).getDistance E
          (no.getD ((tri.getD c []).getD 2 0) ⟨0, 0⟩),
       (no.getD ((tri.getD c []).getD 0 0) ⟨0, 0⟩).getDistance E
          (no.getD ((tri.getD c []).getD 2 0) ⟨0, 0⟩),
       (no.getD ((tri.getD c []).getD 0 0) ⟨0, 0⟩).getDistance E
          (no.getD ((tri.getD c []).getD 1 0) ⟨0, 0⟩)] ∧
    (∀ k, k < 3 →
      ((Grid2Duifs.new E no tri eps maxit nt po).triangles.getD c default).a.getD k 0 =
        Real.arccos
          ((((Grid2Duifs.new E no tri eps maxit nt po).triangles.getD c default).l.getD
                ((k + 1) % 3) 0 ^ 2 +
            ((Grid2Duifs.new E no tri eps maxit nt po).triangles.getD c default).l.getD
                ((k + 2) % 3) 0 ^ 2 -
            ((Grid2Duifs.new E no tri eps maxit nt po).triangles.getD c default).l.getD k 0 ^ 2) /
          (2 * ((Grid2Duifs.new E no tri eps maxit nt po).triangles.getD c default).l.getD
                ((k + 1) % 3) 0 *
            ((Grid2Duifs.new E no tri eps maxit nt po).triangles.getD c default).l.getD
                ((k + 2) % 3) 0))) := by
  obtain ⟨_, _, _, h4, _⟩ := new_spec E no tri eps maxit nt po
  rw [h4 c hc]
  unfold builtTriangle
  dsimp only
  refine ⟨?_, rfl, ?_⟩
  · show E.acos _ + E.acos _ + E.acos _ = Real.pi
    rw [hE.2.2.2.1, sxz_dist_eq E hE, sxz_dist_eq E hE, sxz_dist_eq E hE]
    exact law_cos_angle_sum _ _ _ (sxz_ne_complex _ _ h01) (sxz_ne_complex _ _ h02)
      (sxz_ne_complex _ _ h12)
  · intro k hk
    rw [hE.2.2.2.1]
    interval_cases k
    · show Real.arccos _ = Real.arccos _
      congr 1
      simp only [show (0 + 1) % 3 = 1 from rfl, show (0 + 2) % 3 = 2 from rfl,
        show (1 + 1) % 3 = 2 from rfl, show (1 + 2) % 3 = 0 from rfl,
        show (2 + 1) % 3 = 0 from rfl, show (2 + 2) % 3 = 1 from rfl,
        List.getD_cons_succ, List.getD_cons_zero]
      ring
    · show Real.arccos _ = Real.arccos _
      congr 1
      simp only [show (0 + 1) % 3 = 1 from rfl, show (0 + 2) % 3 = 2 from rfl,
        show (1 + 1) % 3 = 2 from rfl, show (1 + 2) % 3 = 0 from rfl,
        show (2 + 1) % 3 = 0 from rfl, show (2 + 2) % 3 = 1 from rfl,
        List.getD_cons_succ, List.getD_cons_zero]
      ring
    · show Real.arccos _ = Real.arccos _
      congr 1
      simp only [show (0 + 1) % 3 = 1 from rfl, show (0 + 2) % 3 = 2 from rfl,
        show (1 + 1) % 3 = 2 from rfl, show (1 + 2) % 3 = 0 from rfl,
        show (2 + 1) % 3 = 0 from rfl, show (2 + 2) % 3 = 1 from rfl,
        List.getD_cons_succ, List.getD_cons_zero]
      ring

theorem angle_sum_witness :
    ∃ E : MathEnv ℝ, E.isReal ∧
      ((Grid2Duifs.new E (rectangleNodes ℝ) rectangleCells (1 / 1000) 10 2
          true).triangles.getD 0 default).a.getD 0 0 +
        ((Grid2Duifs.new E (rectangleNodes ℝ) rectangleCells (1 / 1000) 10 2
          true).triangles.getD 0 default).a.getD 1 0 +
        ((Grid2Duifs.new E (rectangleNodes ℝ) rectangleCells (1 / 1000) 10 2
          true).triangles.getD 0 default).a.getD 2 0 = Real.pi :=
  ⟨⟨Real.sqrt, Real.sin, Real.arcsin, Real.arccos, Real.pi, 1 / 100000, 1000000000⟩,
    ⟨rfl, rfl, rfl, rfl, rfl⟩,
    (angle_sum ⟨Real.sqrt, Real.sin, Real.arcsin, Real.arccos, Real.pi, 1 / 100000, 1000000000⟩
      ⟨rfl, rfl, rfl, rfl, rfl⟩ (rectangleNodes ℝ) rectangleCells (1 / 1000) 10 2 true 0
      (by decide) (by simp [rectangleNodes, rectangleCells])
      (by simp [rectangleNodes, rectangleCells])
      (by simp [rectangleNodes, rectangleCells])).1⟩

end Grid2Duifs
end AngleSumGrid

section ConstructionWitnesses

theorem getTraveltime_contract_witness :
    rectangle.toGrid2Duc.neighborsAreVertices ∧
    rectangle.toGrid2Duc.triangles.length ≤ T2_max ∧
    (Grid2Duc.checkPts exampleEnv rectangle.toGrid2Duc [⟨3, 1⟩]).exn = none ∧
    Grid2Duc.getCellNo rectangle.toGrid2Duc ⟨3, 1⟩ ≠ T2_max ∧
    (∀ u ∈ cellVertices (rectangle.toGrid2Duc.triangles.getD
        (Grid2Duc.getCellNo rectangle.toGrid2Duc ⟨3, 1⟩) default).i,
      Grid2Duc.getTraveltime exampleEnv rectangle.toGrid2Duc ⟨3, 1⟩ 0 ≤
        rectangle.toGrid2Duc.getNodeTT u 0 +
          rectangle.toGrid2Duc.slowness.getD (Grid2Duc.getCellNo rectangle.toGrid2Duc ⟨3, 1⟩) 0 *
            (rectangle.toGrid2Duc.nodes.getD u default).getDistancePt exampleEnv ⟨3, 1⟩) :=
  ⟨by unfold Grid2Duc.neighborsAreVertices; decide!, by decide, by decide!,
    ((Grid2Duc.getTraveltime_contract exampleEnv rectangle.toGrid2Duc ⟨3, 1⟩ 0
      (by unfold Grid2Duc.neighborsAreVertices; decide!) (by decide) (by decide!)).2
        (by decide!)).1,
    ((Grid2Duc.getTraveltime_contract exampleEnv rectangle.toGrid2Duc ⟨3, 1⟩ 0
      (by unfold Grid2Duc.neighborsAreVertices; decide!) (by decide) (by decide!)).2
        (by decide!)).2.2.2.1⟩

theorem owners_exact_witness :
    (∀ c, c < rectangleCells.length → (cellVertices (rectangleCells.getD c [])).Nodup) ∧
    ((Grid2Duifs.new exampleEnv (rectangleNodes ℚ) rectangleCells (1 / 1000) 10 2
        true).nodes.getD 2 default).owners.Nodup ∧
    (∀ c, c ∈ ((Grid2Duifs.new exampleEnv (rectangleNodes ℚ) rectangleCells (1 / 1000) 10 2
        true).nodes.getD 2 default).owners ↔
      c < (Grid2Duifs.new exampleEnv (rectangleNodes ℚ) rectangleCells (1 / 1000) 10 2
        true).triangles.length ∧
      2 ∈ cellVertices ((Grid2Duifs.new exampleEnv (rectangleNodes ℚ) rectangleCells (1 / 1000)
        10 2 true).triangles.getD c default).i) :=
  ⟨by decide,
    (Grid2Duifs.owners_exact exampleEnv (rectangleNodes ℚ) rectangleCells (1 / 1000) 10 2 true 2
      (by decide) (by decide)).2.1,
    (Grid2Duifs.owners_exact exampleEnv (rectangleNodes ℚ) rectangleCells (1 / 1000) 10 2 true 2
      (by decide) (by decide)).1⟩

end ConstructionWitnesses

section VirtualNodes

variable {T : Type} [LinearOrderedField T]

namespace Grid2Duc

theorem lookup_insertVirtualNode (m : List (Nat × virtualNode T)) (ntri : Nat)
    (vn : virtualNode T) (h : m.lookup ntri = none) :
    (insertVirtualNode m ntri vn).lookup ntri = some vn := by
  unfold insertVirtualNode
  rw [h]
  dsimp only
  rw [List.lookup_append, h]
  simp [List.lookup]

/-- The virtual node built with the obtuse vertex itself as opposite node has
the obtuse vertex among its two other nodes and an edge from the obtuse
vertex to itself. -/
theorem makeVirtualNode_self (E : MathEnv T) (g : Grid2Duc T) (i0 i1 i2 : Nat) :
    ((makeVirtualNode E g i0 i1 i2 i0).node1 = i0 ∨ (makeVirtualNode E g i0 i1 i2 i0).node2 = i0) ∧
    ((makeVirtualNode E g i0 i1 i2 i0).e.getD 1 0 =
        (g.nodes.getD i0 default).getDistance E (g.nodes.getD i0 default) ∨
      (makeVirtualNode E g i0 i1 i2 i0).e.getD 2 0 =
        (g.nodes.getD i0 default).getDistance E (g.nodes.getD i0 default)) := by
  unfold makeVirtualNode
  dsimp only
  split
  · exact ⟨Or.inl rfl, Or.inr rfl⟩
  · exact ⟨Or.inr rfl, Or.inl rfl⟩

theorem getDistance_self (E : MathEnv T) (n : Node2Dn T) : n.getDistance E n = E.sqrt 0 := by
  unfold Node2Dn.getDistance
  simp

/-- The search for the opposite triangle returns the first owner of `i1`
that owns `i2` as well. -/
theorem oppositeTriangle_first (g : Grid2Duc T) (i1 i2 m : Nat)
    (hsorted : (g.nodes.getD i1 default).owners.Pairwise (fun a b => a < b))
    (h1 : m ∈ (g.nodes.getD i1 default).owners) (h2 : m ∈ (g.nodes.getD i2 default).owners)
    (hleast : ∀ c, c < m → c ∈ (g.nodes.getD i1 default).owners →
      c ∉ (g.nodes.getD i2 default).owners) :
    oppositeTriangle g i1 i2 = some m := by
  unfold oppositeTriangle
  generalize (g.nodes.getD i1 default).owners = l1 at hsorted h1 hleast
  generalize (g.nodes.getD i2 default).owners = l2 at h2 hleast
  induction l1 with
  | nil => exact absurd h1 (List.not_mem_nil m)
  | cons a l ih =>
    rw [List.findSome?_cons]
    by_cases ham : a = m
    · subst ham
      have hf : l2.find? (fun o2 => decide (o2 = a)) = some a := by
        cases hq : l2.find? (fun o2 => decide (o2 = a)) with
        | none =>
          have := List.find?_eq_none.mp hq a h2
          simp at this
        | some b =>
          have := List.find?_some hq
          simp at this
          rw [this]
      rw [hf]
    · have hml : m ∈ l := by
        rcases List.mem_cons.mp h1 with h | h
        · exact absurd h.symm ham
        · exact h
      have halt : a < m := (List.pairwise_cons.mp hsorted).1 m hml
      have hnot : a ∉ l2 := hleast a halt (List.mem_cons_self _ _)
      have hf : l2.find? (fun o2 => decide (o2 = a)) = none := by
        rw [List.find?_eq_none]
        intro x hx hxa
        simp at hxa
        exact hnot (hxa ▸ hx)
      rw [hf]
      exact ih (List.pairwise_cons.mp hsorted).2 hml
        (fun c hc hcl => hleast c hc (List.mem_cons_of_mem _ hcl))

/-- Claim C14, the divergence. When the search for the opposite triangle of
the cell `ntri`, obtuse at its vertex `n` (`n` being 0 or 1), returns `ntri`
itself, `processObtuse` stores for `ntri` a record that has the obtuse vertex
itself among its two other nodes, and an edge of length `sqrt 0`: the stored
angles are values of `acos` at quotients with denominator 0. -/
theorem processVertex_self_opposite (E : MathEnv T) (g : Grid2Duc T) (ntri n : Nat) (hn : n < 2)
    (hob : (g.triangles.getD ntri default).a.getD n 0 > E.pi / 2)
    (hopp : oppositeTriangle g ((g.triangles.getD ntri default).i.getD ((n + 1) % 3) 0)
      ((g.triangles.getD ntri default).i.getD ((n + 2) % 3) 0) = some ntri)
    (hd1 : (g.triangles.getD ntri default).i.getD n 0 ≠
      (g.triangles.getD ntri default).i.getD ((n + 1) % 3) 0)
    (hd2 : (g.triangles.getD ntri default).i.getD n 0 ≠
      (g.triangles.getD ntri default).i.getD ((n + 2) % 3) 0)
    (hfresh : g.virtualNodes.lookup ntri = none) :
    ∃ vn, (processVertex E g ntri n).virtualNodes.lookup ntri = some vn ∧
      (vn.node1 = (g.triangles.getD ntri default).i.getD n 0 ∨
        vn.node2 = (g.triangles.getD ntri default).i.getD n 0) ∧
      (vn.e.getD 1 0 = E.sqrt 0 ∨ vn.e.getD 2 0 = E.sqrt 0) := by
  have hi3 : oppositeNode g ntri ((g.triangles.getD ntri default).i.getD ((n + 1) % 3) 0)
      ((g.triangles.getD ntri default).i.getD ((n + 2) % 3) 0) =
      (g.triangles.getD ntri default).i.getD n 0 := by
    unfold oppositeNode
    dsimp only
    interval_cases n
    · rw [if_neg (fun h => h.elim hd1 hd2), if_neg (fun h => h.elim hd1 hd2)]
    · rw [if_pos (Or.inr rfl)]
  unfold processVertex
  dsimp only
  rw [if_pos hob, hopp]
  dsimp only
  rw [hi3]
  refine ⟨_, lookup_insertVirtualNode _ _ _ hfresh, (makeVirtualNode_self E g _ _ _).1, ?_⟩
  have := (makeVirtualNode_self E g ((g.triangles.getD ntri default).i.getD n 0)
    ((g.triangles.getD ntri default).i.getD ((n + 1) % 3) 0)
    ((g.triangles.getD ntri default).i.getD ((n + 2) % 3) 0)).2
  rw [getDistance_self] at this
  exact this

end Grid2Duc

theorem mem_ownersUpTo_iff (tri : List (List Nat)) (k v c : Nat) :
    c ∈ ownersUpTo tri k v ↔ c < k ∧ v ∈ cellVertices (tri.getD c []) := by
  rw [← List.count_pos_iff, Grid2Duifs.count_ownersUpTo]
  constructor
  · intro h
    split at h
    · rename_i hc
      exact ⟨hc, List.count_pos_iff.mp h⟩
    · exact absurd h (Nat.lt_irrefl 0)
  · rintro ⟨hc, hin⟩
    rw [if_pos hc]
    exact List.count_pos_iff.mpr hin

/-- In a constructed grid the search for the opposite triangle across the
edge `i1 i2` of the cell `ntri` returns `ntri` itself when no cell of smaller
index has both `i1` and `i2` among its vertices: so it does for every edge on
the boundary of the mesh, and for every inner edge seen from the cell of
smaller index. -/
theorem Grid2Duifs.new_oppositeTriangle_self (E : MathEnv T) (no : List (sxz T))
    (tri : List (List Nat)) (eps : T) (maxit : Int) (nt : Nat) (po : Bool) (ntri i1 i2 : Nat)
    (hntri : ntri < tri.length) (hv1 : i1 < no.length) (hv2 : i2 < no.length)
    (huniq : ∀ c, c < tri.length → (cellVertices (tri.getD c [])).Nodup)
    (h1 : i1 ∈ cellVertices (tri.getD ntri [])) (h2 : i2 ∈ cellVertices (tri.getD ntri []))
    (hleast : ∀ c, c < ntri → i1 ∈ cellVertices (tri.getD c []) →
      i2 ∉ cellVertices (tri.getD c [])) :
    Grid2Duc.oppositeTriangle (Grid2Duifs.new E no tri eps maxit nt po).toGrid2Duc i1 i2 =
      some ntri := by
  obtain ⟨_, _, h3, _⟩ := Grid2Duifs.new_spec E no tri eps maxit nt po
  apply Grid2Duc.oppositeTriangle_first
  · rw [h3 i1 hv1]
    exact Grid2Duifs.ownersUpTo_pairwise tri i1 tri.length
      (fun c hc => List.nodup_iff_count_le_one.mp (huniq c hc) i1) tri.length (le_refl _)
  · rw [h3 i1 hv1]
    exact (mem_ownersUpTo_iff tri tri.length i1 ntri).mpr ⟨hntri, h1⟩
  · rw [h3 i2 hv2]
    exact (mem_ownersUpTo_iff tri tri.length i2 ntri).mpr ⟨hntri, h2⟩
  · intro c hc hc1
    rw [h3 i1 hv1] at hc1
    rw [h3 i2 hv2]
    intro hc2
    exact hleast c hc ((mem_ownersUpTo_iff tri tri.length i1 c).mp hc1).2
      ((mem_ownersUpTo_iff tri tri.length i2 c).mp hc2).2

/-- On the kite, the record stored for cell 0, obtuse at node 0, has node 0
itself as its second node and an edge of length 0, while the record stored
for cell 1, obtuse at node 3, is the triangle of the nodes 3, 1 and 0 with
sides 5, 6 and 5. -/
theorem kite_virtualNodes :
    (((Grid2Duifs.new exampleEnv (kiteNodes ℚ) kiteCells (1 / 1000) 10 1
        true).virtualNodes.lookup 0).map (fun vn => (vn.node1, vn.node2, vn.e))
      = some (1, 0, [5, 0, 5])) ∧
    (((Grid2Duifs.new exampleEnv (kiteNodes ℚ) kiteCells (1 / 1000) 10 1
        true).virtualNodes.lookup 1).map (fun vn => (vn.node1, vn.node2, vn.e))
      = some (1, 0, [5, 6, 5])) := by
  decide!

theorem processVertex_self_opposite_witness :
    ((Grid2Duifs.new exampleEnv (kiteNodes ℚ) kiteCells (1 / 1000) 10 1
        false).triangles.getD 0 default).a.getD 0 0 > exampleEnv.pi / 2 ∧
    Grid2Duc.oppositeTriangle
      (Grid2Duifs.new exampleEnv (kiteNodes ℚ) kiteCells (1 / 1000) 10 1 false).toGrid2Duc
      1 2 = some 0 ∧
    ∃ vn, (Grid2Duc.processVertex exampleEnv
        (Grid2Duifs.new exampleEnv (kiteNodes ℚ) kiteCells (1 / 1000) 10 1 false).toGrid2Duc
        0 0).virtualNodes.lookup 0 = some vn ∧
      (vn.node1 = 0 ∨ vn.node2 = 0) ∧
      (vn.e.getD 1 0 = exampleEnv.sqrt 0 ∨ vn.e.getD 2 0 = exampleEnv.sqrt 0) :=
  ⟨by decide!, by decide!,
    Grid2Duc.processVertex_self_opposite exampleEnv
      (Grid2Duifs.new exampleEnv (kiteNodes ℚ) kiteCells (1 / 1000) 10 1 false).toGrid2Duc
      0 0 (by decide) (by decide!) (by decide!) (by decide!) (by decide!) (by decide!)⟩

end VirtualNodes

section CellSeeding2D
variable {T : Type} [LinearOrderedField T]

namespace Grid2Duifs

/-- The seeding of a source inside a cell leaves in every node of the
neighbour list of the cell the time of the source plus the time from the
source to the node, and marks the node frozen. -/
theorem initTxInCell_fold (E : MathEnv T) (g0 : Grid2Duc T) (q : sxz T) (t0n : T)
    (w c : Nat) :
    ∀ (l : List Nat) (gf : Grid2Duc T × List Bool), Grid2Duc.sameButSlot w g0 gf.1 →
      Grid2Duc.sameButSlot w g0 (l.foldl
        (fun (gf : Grid2Duc T × List Bool) neibNo =>
          let dt := Grid2Duc.computeDt E gf.1 (gf.1.nodes.getD neibNo default) q c
          (gf.1.setNodeTT neibNo (t0n + dt) w, gf.2.set neibNo true)) gf).1 ∧
      (l.foldl
        (fun (gf : Grid2Duc T × List Bool) neibNo =>
          let dt := Grid2Duc.computeDt E gf.1 (gf.1.nodes.getD neibNo default) q c
          (gf.1.setNodeTT neibNo (t0n + dt) w, gf.2.set neibNo true)) gf).2.length
        = gf.2.length ∧
      ∀ u, w < (g0.nodes.getD u default).tt.length → u < gf.2.length →
        (u ∈ l ∨ (gf.1.getNodeTT u w = t0n + g0.slowness.getD c 0 *
            (g0.nodes.getD u default).getDistancePt E q ∧ gf.2.getD u false = true)) →
        (l.foldl
          (fun (gf : Grid2Duc T × List Bool) neibNo =>
            let dt := Grid2Duc.computeDt E gf.1 (gf.1.nodes.getD neibNo default) q c
            (gf.1.setNodeTT neibNo (t0n + dt) w, gf.2.set neibNo true)) gf).1.getNodeTT u w
          = t0n + g0.slowness.getD c 0 * (g0.nodes.getD u default).getDistancePt E q ∧
        (l.foldl
          (fun (gf : Grid2Duc T × List Bool) neibNo =>
            let dt := Grid2Duc.computeDt E gf.1 (gf.1.nodes.getD neibNo default) q c
            (gf.1.setNodeTT neibNo (t0n + dt) w, gf.2.set neibNo true)) gf).2.getD u false
          = true := by
  intro l
  induction l with
  | nil =>
    intro gf hs
    refine ⟨hs, rfl, ?_⟩
    intro u _ _ h
    rcases h with h | h
    · exact absurd h (List.not_mem_nil u)
    · exact h
  | cons n l ih =>
    intro gf hs
    rw [List.foldl_cons]
    have hs' : Grid2Duc.sameButSlot w g0
        (gf.1.setNodeTT n (t0n + Grid2Duc.computeDt E gf.1 (gf.1.nodes.getD n default) q c) w) :=
      Grid2Duc.sameButSlot_trans hs (Grid2Duc.sameButSlot_setNodeTT gf.1 n _ w)
    obtain ⟨i1, i2, i3⟩ := ih
      (gf.1.setNodeTT n (t0n + Grid2Duc.computeDt E gf.1 (gf.1.nodes.getD n default) q c) w,
        gf.2.set n true) hs'
    refine ⟨i1, by rw [i2]; simp, ?_⟩
    intro u hw hu h
    apply i3 u hw (by simpa using hu)
    have hdt : ∀ m, Grid2Duc.computeDt E gf.1 (gf.1.nodes.getD m default) q c =
        g0.slowness.getD c 0 * (g0.nodes.getD m default).getDistancePt E q := by
      intro m
      unfold Grid2Duc.computeDt Node2Dn.getDistancePt
      rw [hs.2.2.1, (hs.2.2.2.2.2.2.2 m).1, (hs.2.2.2.2.2.2.2 m).2.1]
    have hwl : w < (gf.1.nodes.getD u default).tt.length := by
      rw [(hs.2.2.2.2.2.2.2 u).2.2.2.2.1]
      exact hw
    by_cases hun : u = n
    · subst hun
      right
      dsimp only
      constructor
      · unfold Grid2Duc.getNodeTT
        rw [Grid2Duc.getD_setNodeTT, if_pos rfl, Node2Dn.getTT_setTT_self _ _ hwl, hdt]
      · simp [List.getD_eq_getElem?_getD, hu]
    · rcases h with h | h
      · left
        rcases List.mem_cons.mp h with h | h
        · exact absurd h hun
        · exact h
      · right
        dsimp only
        constructor
        · unfold Grid2Duc.getNodeTT
          rw [Grid2Duc.getD_setNodeTT, if_neg hun]
          exact h.1
        · exact Grid3Dunfm.getD_set_true _ _ _ h.2

/-- The state in which the sweeping loop is entered for one source inside a
cell. -/
theorem sweepInit_inCell (E : MathEnv T) (g : Grid2Duifs T) (q : sxz T) (t0 : List T)
    (w u : Nat)
    (hnone : (List.range g.nodes.length).find?
      (fun nn => (g.nodes.getD nn default).eqPt E q) = none)
    (hu : u ∈ g.neighbors.getD (Grid2Duc.getCellNo g.toGrid2Duc q) [])
    (hul : u < g.nodes.length) (hslot : w < (g.nodes.getD u default).tt.length) :
    Grid2Duc.sameButSlot w g.toGrid2Duc (sweepInit E g [q] t0 w).grid.toGrid2Duc ∧
    (sweepInit E g [q] t0 w).grid.getNodeTT u w =
      t0.getD 0 0 + g.slowness.getD (Grid2Duc.getCellNo g.toGrid2Duc q) 0 *
        (g.nodes.getD u default).getDistancePt E q ∧
    (sweepInit E g [q] t0 w).frozen.getD u false = true := by
  have hg1 := reinitNodes_sameButSlot E g.toGrid2Duc w
  have hone : initTx E (reinitNodes E g.toGrid2Duc w) [q] t0
      (List.replicate (reinitNodes E g.toGrid2Duc w).nodes.length false) w =
      ((g.neighbors.getD (Grid2Duc.getCellNo g.toGrid2Duc q) []).foldl
        (fun (gf : Grid2Duc T × List Bool) neibNo =>
          let dt := Grid2Duc.computeDt E gf.1 (gf.1.nodes.getD neibNo default) q
            (Grid2Duc.getCellNo g.toGrid2Duc q)
          (gf.1.setNodeTT neibNo (t0.getD 0 0 + dt) w, gf.2.set neibNo true))
        (reinitNodes E g.toGrid2Duc w,
          List.replicate (reinitNodes E g.toGrid2Duc w).nodes.length false)) := by
    unfold initTx
    rw [initTxFrom, initTxFrom]
    unfold initTxOne
    dsimp only
    rw [findNode_congr E hg1 q, hnone]
    dsimp only
    unfold initTxInCell
    dsimp only
    rw [getCellNo_congr hg1 q, hg1.2.2.2.1]
  obtain ⟨f1, f2, f3⟩ := initTxInCell_fold E g.toGrid2Duc q (t0.getD 0 0) w
    (Grid2Duc.getCellNo g.toGrid2Duc q) (g.neighbors.getD (Grid2Duc.getCellNo g.toGrid2Duc q) [])
    (reinitNodes E g.toGrid2Duc w,
      List.replicate (reinitNodes E g.toGrid2Duc w).nodes.length false) hg1
  have hfl : u < (List.replicate (reinitNodes E g.toGrid2Duc w).nodes.length false).length := by
    rw [List.length_replicate, hg1.2.2.2.2.2.2.1]
    exact hul
  obtain ⟨k1, k2⟩ := f3 u hslot hfl (Or.inl hu)
  have hgrid : (sweepInit E g [q] t0 w).grid.toGrid2Duc =
      (initTx E (reinitNodes E g.toGrid2Duc w) [q] t0
        (List.replicate (reinitNodes E g.toGrid2Duc w).nodes.length false) w).1 := rfl
  have hfrozen : (sweepInit E g [q] t0 w).frozen =
      (initTx E (reinitNodes E g.toGrid2Duc w) [q] t0
        (List.replicate (reinitNodes E g.toGrid2Duc w).nodes.length false) w).2 := rfl
  refine ⟨?_, ?_, ?_⟩
  · rw [hgrid, hone]
    exact f1
  · show (sweepInit E g [q] t0 w).grid.toGrid2Duc.getNodeTT u w = _
    rw [hgrid, hone]
    exact k1
  · rw [hfrozen, hone]
    exact k2

/-- Claim C19. In the Fast Sweeping driver, let the single source `q` be on
no node, and let `u` be a vertex of the cell `c` that `getCellNo` finds for
`q`, with `u` a node of the grid that has slot `w` and whose grid index is
`u`. The seeding sets slot `w` of `u` to `t0 + slowness[c] * |u - q|` and
marks `u` frozen, and a call of `raytrace` that passes the check of the
points leaves this time in the slot. The neighbour list of a cell is taken to
hold the vertices of the cell, as the constructor leaves it. -/
theorem source_in_cell (E : MathEnv T) (g : Grid2Duifs T) (q : sxz T) (t0 : List T)
    (Rx : List (sxz T)) (tts : List T) (w u : Nat)
    (hnb : g.toGrid2Duc.neighborsAreVertices)
    (hnone : (List.range g.nodes.length).find?
      (fun nn => (g.nodes.getD nn default).eqPt E q) = none)
    (hc : Grid2Duc.getCellNo g.toGrid2Duc q < g.triangles.length)
    (hu : u ∈ cellVertices (g.triangles.getD (Grid2Duc.getCellNo g.toGrid2Duc q) default).i)
    (hul : u < g.nodes.length) (hslot : w < (g.nodes.getD u default).tt.length)
    (hgi : (g.nodes.getD u default).gridIndex = u)
    (hret : (raytrace E g [q] t0 Rx tts w).ret ≠ some 1) :
    (sweepInit E g [q] t0 w).grid.getNodeTT u w =
      t0.getD 0 0 + g.slowness.getD (Grid2Duc.getCellNo g.toGrid2Duc q) 0 *
        (g.nodes.getD u default).getDistancePt E q ∧
    (sweepInit E g [q] t0 w).frozen.getD u false = true ∧
    (raytrace E g [q] t0 Rx tts w).grid.getNodeTT u w =
      t0.getD 0 0 + g.slowness.getD (Grid2Duc.getCellNo g.toGrid2Duc q) 0 *
        (g.nodes.getD u default).getDistancePt E q := by
  have hu' := (hnb _ hc).2 u hu
  obtain ⟨hs, ht, hf⟩ := sweepInit_inCell E g q t0 w u hnone hu' hul hslot
  refine ⟨ht, hf, ?_⟩
  have hfol := whileLoop_follows E w g.nitermax.toNat (sweepInit E g [q] t0 w)
  have hkeep := ((hfol.2.2.2.2).2 u).2
  rw [(hs.2.2.2.2.2.2.2 u).2.2.1, hgi] at hkeep
  have hfinal : (raytraceSweeps E g [q] t0 w).state.grid.toGrid2Duc.getNodeTT u w =
      t0.getD 0 0 + g.slowness.getD (Grid2Duc.getCellNo g.toGrid2Duc q) 0 *
        (g.nodes.getD u default).getDistancePt E q := by
    unfold raytraceSweeps Grid2Duc.getNodeTT
    rw [hkeep hf]
    exact ht
  unfold raytrace at hret ⊢
  by_cases h1 : check_pts E g [q] = 1
  · rw [if_pos h1] at hret
    exact absurd rfl hret
  · rw [if_neg h1] at hret ⊢
    by_cases h2 : check_pts E g Rx = 1
    · rw [if_pos h2] at hret
      exact absurd rfl hret
    · rw [if_neg h2]
      dsimp only
      split
      · exact hfinal
      · exact hfinal

theorem source_in_cell_witness :
    (List.range rectangle.nodes.length).find?
      (fun nn => (rectangle.nodes.getD nn default).eqPt exampleEnv ⟨3, 1⟩) = none ∧
    (raytrace exampleEnv rectangle [⟨3, 1⟩] [2] [⟨0, 3⟩] [] 0).ret ≠ some 1 ∧
    (raytrace exampleEnv rectangle [⟨3, 1⟩] [2] [⟨0, 3⟩] [] 0).grid.getNodeTT 1 0 =
      [(2 : ℚ)].getD 0 0 + rectangle.slowness.getD
          (Grid2Duc.getCellNo rectangle.toGrid2Duc ⟨3, 1⟩) 0 *
        (rectangle.nodes.getD 1 default).getDistancePt exampleEnv ⟨3, 1⟩ :=
  ⟨by decide!, by decide!,
    (source_in_cell exampleEnv rectangle ⟨3, 1⟩ [2] [⟨0, 3⟩] [] 0 1
      (by unfold Grid2Duc.neighborsAreVertices; decide!) (by decide!) (by decide!)
      (by decide!) (by decide) (by decide) (by decide) (by decide!)).2.2⟩

end Grid2Duifs
end CellSeeding2D

section CellSeeding3D
variable {T : Type} [LinearOrderedField T]

namespace Grid3Dunfm

/-- The loop of `initBand` over the vertices of the cell of a source,
without a source radius: every node of the list gets the time of the source
plus the time from the source to the node, is pushed to the band and is
flagged in the band and frozen. -/
theorem initBandInCell_fold (E : MathEnv T) (g0 : Grid3Dun T) (q : sxyz T) (t0n : T)
    (w : Nat) :
    ∀ (l : List Nat) (st : BandState T), Grid3Dun.sameButSlot w g0 st.grid →
      Grid3Dun.sameButSlot w g0 (l.foldl
        (fun (st : BandState T) neibNo =>
          let node := st.grid.nodes.getD neibNo default
          let dt := node.getDistancePt E q * node.slowness
          pushFrozen { st with grid := st.grid.setNodeTT neibNo (t0n + dt) w } neibNo) st).grid ∧
      (l.foldl
        (fun (st : BandState T) neibNo =>
          let node := st.grid.nodes.getD neibNo default
          let dt := node.getDistancePt E q * node.slowness
          pushFrozen { st with grid := st.grid.setNodeTT neibNo (t0n + dt) w } neibNo)
        st).inBand.length = st.inBand.length ∧
      (l.foldl
        (fun (st : BandState T) neibNo =>
          let node := st.grid.nodes.getD neibNo default
          let dt := node.getDistancePt E q * node.slowness
          pushFrozen { st with grid := st.grid.setNodeTT neibNo (t0n + dt) w } neibNo)
        st).frozen.length = st.frozen.length ∧
      ∀ u, w < (g0.nodes.getD u default).tt.length → u < st.inBand.length →
        u < st.frozen.length →
        (u ∈ l ∨ (st.grid.getNodeTT u w = t0n + (g0.nodes.getD u default).getDistancePt E q *
            (g0.nodes.getD u default).slowness ∧ u ∈ st.narrow_band ∧
            st.inBand.getD u false = true ∧ st.frozen.getD u false = true)) →
        (l.foldl
          (fun (st : BandState T) neibNo =>
            let node := st.grid.nodes.getD neibNo default
            let dt := node.getDistancePt E q * node.slowness
            pushFrozen { st with grid := st.grid.setNodeTT neibNo (t0n + dt) w } neibNo)
          st).grid.getNodeTT u w = t0n + (g0.nodes.getD u default).getDistancePt E q *
            (g0.nodes.getD u default).slowness ∧
        u ∈ (l.foldl
          (fun (st : BandState T) neibNo =>
            let node := st.grid.nodes.getD neibNo default
            let dt := node.getDistancePt E q * node.slowness
            pushFrozen { st with grid := st.grid.setNodeTT neibNo (t0n + dt) w } neibNo)
          st).narrow_band ∧
        (l.foldl
          (fun (st : BandState T) neibNo =>
            let node := st.grid.nodes.getD neibNo default
            let dt := node.getDistancePt E q * node.slowness
            pushFrozen { st with grid := st.grid.setNodeTT neibNo (t0n + dt) w } neibNo)
          st).inBand.getD u false = true ∧
        (l.foldl
          (fun (st : BandState T) neibNo =>
            let node := st.grid.nodes.getD neibNo default
            let dt := node.getDistancePt E q * node.slowness
            pushFrozen { st with grid := st.grid.setNodeTT neibNo (t0n + dt) w } neibNo)
          st).frozen.getD u false = true := by
  intro l
  induction l with
  | nil =>
    intro st hs
    refine ⟨hs, rfl, rfl, ?_⟩
    intro u _ _ _ h
    rcases h with h | h
    · exact absurd h (List.not_mem_nil u)
    · exact h
  | cons n l ih =>
    intro st hs
    rw [List.foldl_cons]
    have hs' : Grid3Dun.sameButSlot w g0
        (st.grid.setNodeTT n (t0n + (st.grid.nodes.getD n default).getDistancePt E q *
          (st.grid.nodes.getD n default).slowness) w) :=
      Grid3Dun.grid3_sameButSlot_trans hs (Grid3Dun.grid3_sameButSlot_setNodeTT st.grid n _ w)
    obtain ⟨i1, i2, i3, i4⟩ := ih
      (pushFrozen
        { st with
          grid := st.grid.setNodeTT n (t0n + (st.grid.nodes.getD n default).getDistancePt E q *
                    (st.grid.nodes.getD n default).slowness) w } n) hs'
    refine ⟨i1, by rw [i2]; simp [pushFrozen], by rw [i3]; simp [pushFrozen], ?_⟩
    intro u hw hib hfr h
    apply i4 u hw (by simpa [pushFrozen] using hib) (by simpa [pushFrozen] using hfr)
    have hdt : (st.grid.nodes.getD n default).getDistancePt E q *
        (st.grid.nodes.getD n default).slowness =
        (g0.nodes.getD n default).getDistancePt E q * (g0.nodes.getD n default).slowness := by
      unfold Node3Dn.getDistancePt
      rw [(hs.2.2.2.2.2 n).1, (hs.2.2.2.2.2 n).2.1, (hs.2.2.2.2.2 n).2.2.1,
        (hs.2.2.2.2.2 n).2.2.2.2.2.1]
    have hwl : w < (st.grid.nodes.getD u default).tt.length := by
      rw [(hs.2.2.2.2.2 u).2.2.2.2.2.2.1]
      exact hw
    by_cases hun : u = n
    · subst hun
      right
      refine ⟨?_, ?_, ?_, ?_⟩
      · show Grid3Dun.getNodeTT (Grid3Dun.setNodeTT st.grid u _ w) u w = _
        unfold Grid3Dun.getNodeTT
        rw [Grid3Dun.grid3_getD_setNodeTT, if_pos rfl, Node3Dn.node3_getTT_setTT_self _ _ hwl, hdt]
      · show u ∈ st.narrow_band ++ [u]
        simp
      · show (st.inBand.set u true).getD u false = true
        simp [List.getD_eq_getElem?_getD, hib]
      · show (st.frozen.set u true).getD u false = true
        simp [List.getD_eq_getElem?_getD, hfr]
    · rcases h with h | h
      · left
        rcases List.mem_cons.mp h with h | h
        · exact absurd h hun
        · exact h
      · right
        refine ⟨?_, ?_, ?_, ?_⟩
        · show Grid3Dun.getNodeTT (Grid3Dun.setNodeTT st.grid n _ w) u w = _
          unfold Grid3Dun.getNodeTT
          rw [Grid3Dun.grid3_getD_setNodeTT, if_neg hun]
          exact h.1
        · show u ∈ st.narrow_band ++ [n]
          exact List.mem_append_left _ h.2.1
        · exact getD_set_true _ _ _ h.2.2.1
        · exact getD_set_true _ _ _ h.2.2.2

/-- Claim C20, what `initBand` does for a source `q` on no node. With
`source_radius == 0` the step of `initBand` for `q` throws nothing and, for
every node `u` of the neighbour list of the cell that `getCellNo` finds for
`q` (`u` having slot `w` and a flag in `inBand` and in `frozen`), sets slot
`w` of `u` to `t0 + |u - q| * slowness(u)`, pushes `u` to the band and flags
it in the band and frozen. With `source_radius` other than 0 and more than
one source, the case that the branches of `initBand` leave out, the step
leaves the state as it is: the source seeds no node. -/
theorem cell_seeding (E : MathEnv T) (B : Grid3DunBase T) :
    (∀ (single : Bool) (st : BandState T) (q : sxyz T) (t0n : T) (w : Nat),
      (List.range st.grid.nodes.length).find?
        (fun nn => (st.grid.nodes.getD nn default).eqPt E q) = none →
      st.grid.source_radius = 0 →
      (initBandOne E B single q t0n w st).exn = none ∧
      ∀ u ∈ st.grid.neighbors.getD (Grid3Dun.getCellNo B st.grid q) [],
        w < (st.grid.nodes.getD u default).tt.length → u < st.inBand.length →
        u < st.frozen.length →
        (initBandOne E B single q t0n w st).state.grid.getNodeTT u w =
          t0n + (st.grid.nodes.getD u default).getDistancePt E q *
            (st.grid.nodes.getD u default).slowness ∧
        u ∈ (initBandOne E B single q t0n w st).state.narrow_band ∧
        (initBandOne E B single q t0n w st).state.inBand.getD u false = true ∧
        (initBandOne E B single q t0n w st).state.frozen.getD u false = true) ∧
    (∀ (st : BandState T) (q : sxyz T) (t0n : T) (w : Nat),
      (List.range st.grid.nodes.length).find?
        (fun nn => (st.grid.nodes.getD nn default).eqPt E q) = none →
      st.grid.source_radius ≠ 0 →
      initBandOne E B false q t0n w st = Outcome.ret st) := by
  constructor
  · intro single st q t0n w hnone hr
    have hone : initBandOne E B single q t0n w st =
        Outcome.ret ((st.grid.neighbors.getD (Grid3Dun.getCellNo B st.grid q) []).foldl
          (fun (st : BandState T) neibNo =>
            let node := st.grid.nodes.getD neibNo default
            let dt := node.getDistancePt E q * node.slowness
            pushFrozen { st with grid := st.grid.setNodeTT neibNo (t0n + dt) w } neibNo) st) := by
      unfold initBandOne
      rw [hnone]
      dsimp only
      unfold initBandInCell
      dsimp only
      rw [if_pos hr]
    rw [hone]
    refine ⟨rfl, ?_⟩
    intro u hu hw hib hfr
    exact (initBandInCell_fold E st.grid q t0n w _ st
      (Grid3Dun.grid3_sameButSlot_refl w st.grid)).2.2.2 u hw hib hfr (Or.inl hu)
  · intro st q t0n w hnone hr
    unfold initBandOne
    rw [hnone]
    dsimp only
    unfold initBandInCell
    dsimp only
    rw [if_neg hr]
    rfl

end Grid3Dunfm

/-- Claim C20, the divergence. On the tetrahedron mesh with `source_radius =
1` and the two sources (1/10, 1/10, 1/10) and (1/5, 1/5, 1/5), both inside the
cell and on no node, `initBand` seeds nothing: the band is empty, no node is
frozen, and slot 0 of node 0 holds the largest value, not the time 1/5 that
the first source would give it. -/
theorem cell_source_not_seeded :
    (Grid3Dunfm.raytraceSeed exampleEnv exampleBase { tetrahedron with source_radius := 1 }
      [⟨1 / 10, 1 / 10, 1 / 10⟩, ⟨1 / 5, 1 / 5, 1 / 5⟩] [0, 0] 0).state.narrow_band = [] ∧
    (Grid3Dunfm.raytraceSeed exampleEnv exampleBase { tetrahedron with source_radius := 1 }
      [⟨1 / 10, 1 / 10, 1 / 10⟩, ⟨1 / 5, 1 / 5, 1 / 5⟩] [0, 0] 0).state.frozen
        = [false, false, false, false] ∧
    (Grid3Dunfm.raytraceSeed exampleEnv exampleBase { tetrahedron with source_radius := 1 }
      [⟨1 / 10, 1 / 10, 1 / 10⟩, ⟨1 / 5, 1 / 5, 1 / 5⟩] [0, 0] 0).state.grid.getNodeTT 0 0
        = exampleEnv.tmax ∧
    (0 : ℚ) + (tetrahedron.nodes.getD 0 default).getDistancePt exampleEnv
        ⟨1 / 10, 1 / 10, 1 / 10⟩ * (tetrahedron.nodes.getD 0 default).slowness ≠
      exampleEnv.tmax ∧
    (Grid3Dunfm.raytraceSeed exampleEnv exampleBase { tetrahedron with source_radius := 1 }
      [⟨1 / 10, 1 / 10, 1 / 10⟩, ⟨1 / 5, 1 / 5, 1 / 5⟩] [0, 0] 0).exn = none := by
  decide!

theorem cell_seeding_witness :
    (Grid3Dunfm.initBandOne exampleEnv exampleBase false ⟨1 / 10, 1 / 10, 1 / 10⟩ 2 0
      ⟨tetrahedron, [], [false, false, false, false], [false, false, false, false],
        []⟩).state.grid.getNodeTT 3 0 =
      2 + (tetrahedron.nodes.getD 3 default).getDistancePt exampleEnv ⟨1 / 10, 1 / 10, 1 / 10⟩ *
        (tetrahedron.nodes.getD 3 default).slowness ∧
    Grid3Dunfm.initBandOne exampleEnv exampleBase false ⟨1 / 10, 1 / 10, 1 / 10⟩ 2 0
      ⟨{ tetrahedron with source_radius := 1 }, [], [false, false, false, false],
        [false, false, false, false], []⟩ =
      Outcome.ret ⟨{ tetrahedron with source_radius := 1 }, [],
        [false, false, false, false], [false, false, false, false], []⟩ :=
  ⟨(((Grid3Dunfm.cell_seeding exampleEnv exampleBase).1 false
      ⟨tetrahedron, [], [false, false, false, false], [false, false, false, false], []⟩
      ⟨1 / 10, 1 / 10, 1 / 10⟩ 2 0 (by decide!) (by decide!)).2 3 (by decide!) (by decide)
      (by decide) (by decide)).1,
    (Grid3Dunfm.cell_seeding exampleEnv exampleBase).2
      ⟨{ tetrahedron with source_radius := 1 }, [], [false, false, false, false],
        [false, false, false, false], []⟩
      ⟨1 / 10, 1 / 10, 1 / 10⟩ 2 0 (by decide!) (by decide!)⟩

end CellSeeding3D

section RaypathSteps
variable {T : Type} [LinearOrderedField T]

theorem RayOp.foldl_apply_append (Rx : sxz T) (a b : List (RayOp T)) (rd : List (sxz T)) :
    (a ++ b).foldl (RayOp.apply Rx) rd = b.foldl (RayOp.apply Rx) (a.foldl (RayOp.apply Rx) rd) :=
  List.foldl_append _ _ _ _

theorem RayOp.apply_reset (Rx : sxz T) (rd : List (sxz T)) :
    RayOp.apply Rx rd RayOp.reset = [Rx] := by
  cases rd <;> rfl

theorem RayOp.apply_head (Rx : sxz T) (rd : List (sxz T)) (op : RayOp T)
    (h : rd.head? = some Rx) : (RayOp.apply Rx rd op).head? = some Rx := by
  cases op with
  | push p =>
    cases rd with
    | nil => simp at h
    | cons a l => simpa [RayOp.apply] using h
  | reset => rw [RayOp.apply_reset]; rfl

theorem RayOp.foldl_apply_head (Rx : sxz T) (ops : List (RayOp T)) :
    ∀ rd : List (sxz T), rd.head? = some Rx → (ops.foldl (RayOp.apply Rx) rd).head? = some Rx := by
  induction ops with
  | nil => intro rd h; exact h
  | cons op ops ih => intro rd h; exact ih _ (RayOp.apply_head Rx rd op h)

theorem RayOp.foldl_apply_reset_last (Rx : sxz T) (pre : List (RayOp T)) (rd : List (sxz T)) :
    (pre ++ [RayOp.reset]).foldl (RayOp.apply Rx) rd = [Rx] := by
  rw [RayOp.foldl_apply_append]
  exact RayOp.apply_reset Rx _

theorem RayOp.foldl_apply_push_last (Rx : sxz T) (pre : List (RayOp T)) (p : sxz T)
    (rd : List (sxz T)) :
    (pre ++ [RayOp.push p]).foldl (RayOp.apply Rx) rd = pre.foldl (RayOp.apply Rx) rd ++ [p] := by
  rw [RayOp.foldl_apply_append]
  rfl

/-- Without a reset the statements only append to `r_data`. -/
theorem RayOp.foldl_apply_no_reset (Rx : sxz T) (ops : List (RayOp T)) :
    RayOp.reset ∉ ops → ∀ rd : List (sxz T), ∃ l, ops.foldl (RayOp.apply Rx) rd = rd ++ l := by
  induction ops with
  | nil => intro _ rd; exact ⟨[], by simp⟩
  | cons op ops ih =>
    intro h rd
    have hop : op ≠ RayOp.reset := fun e => h (e ▸ List.mem_cons_self _ _)
    obtain ⟨l, hl⟩ := ih (fun hm => h (List.mem_cons_of_mem _ hm)) (RayOp.apply Rx rd op)
    cases op with
    | push p =>
      refine ⟨p :: l, ?_⟩
      rw [List.foldl_cons, hl]
      simp [RayOp.apply]
    | reset => exact absurd rfl hop

namespace Grid2Duc

theorem acceptOwner_leftBy (g : Grid2Duc T) (nb0 nb1 : Nat) (gv : sxz T) (st : RayState T)
    (h : st.reachedTx = false) :
    (acceptOwner g nb0 nb1 gv st).1.leftBy (acceptOwner g nb0 nb1 gv st).2 ∧
    ((acceptOwner g nb0 nb1 gv st).1.reachedTx = true →
      (acceptOwner g nb0 nb1 gv st).1.cellNo = T2_max) ∧
    ((acceptOwner g nb0 nb1 gv st).1.reachedTx = false →
      (acceptOwner g nb0 nb1 gv st).1.onNode = st.onNode) := by
  unfold acceptOwner
  dsimp only
  split
  · refine ⟨Or.inr ⟨h, ⟨[], rfl⟩, by simp⟩, ?_, fun _ => rfl⟩
    intro hr
    rw [h] at hr
    exact absurd hr (by decide)
  · split
    · rename_i hmax
      exact ⟨Or.inl ⟨rfl, ⟨[RayOp.push _], rfl⟩⟩, fun _ => hmax,
        fun hr => Bool.noConfusion hr⟩
    · refine ⟨Or.inr ⟨h, ⟨[], rfl⟩, by simp⟩, ?_, fun _ => rfl⟩
      intro hr
      rw [h] at hr
      exact absurd hr (by decide)

theorem firstLoop_leftBy (E : MathEnv T) (grad : Node2Dn T → Node2Dn T → Node2Dn T → Nat → sxz T)
    (g : Grid2Duc T) (w : Nat) (st : RayState T) (h : st.reachedTx = false) :
    ∀ (owners : List Nat) (grads : List (sxz T)) (r : RayState T × List (RayOp T)),
      (firstLoop E grad g w st owners grads).1 = some r →
      r.1.leftBy r.2 ∧ (r.1.reachedTx = true → r.1.cellNo = T2_max) := by
  intro owners
  induction owners with
  | nil => intro grads r hr; simp [firstLoop] at hr
  | cons nc rest ih =>
    intro grads r hr
    rw [firstLoop] at hr
    split at hr
    · simp only [Option.some.injEq] at hr
      rw [← hr]
      exact ⟨(acceptOwner_leftBy g _ _ _ st h).1, (acceptOwner_leftBy g _ _ _ st h).2.1⟩
    · exact ih _ r hr

theorem secondLoop_leftBy (E : MathEnv T) (g : Grid2Duc T) (st : RayState T)
    (h : st.reachedTx = false) :
    ∀ (owners : List Nat) (gv : sxz T) (r : RayState T × List (RayOp T)),
      secondLoop E g st owners gv = some r →
      r.1.leftBy r.2 ∧ (r.1.reachedTx = true → r.1.cellNo = T2_max) := by
  intro owners
  induction owners with
  | nil => intro gv r hr; simp [secondLoop] at hr
  | cons nc rest ih =>
    intro gv r hr
    rw [secondLoop] at hr
    split at hr
    · simp only [Option.some.injEq] at hr
      rw [← hr]
      exact ⟨(acceptOwner_leftBy g _ _ _ st h).1, (acceptOwner_leftBy g _ _ _ st h).2.1⟩
    · exact ih _ r hr

/-- What the branch `if ( onNode )` leaves: a failure with the index `-1` in
`cellNo`, a failure with the state as it was, or the current point pushed
last. -/
theorem vertexStep_leftBy (E : MathEnv T) (grad : Node2Dn T → Node2Dn T → Node2Dn T → Nat → sxz T)
    (g : Grid2Duc T) (w : Nat) (st : RayState T) (h : st.reachedTx = false) :
    (vertexStep E grad g w st).1.leftBy (vertexStep E grad g w st).2 ∧
    ((vertexStep E grad g w st).1.reachedTx = true →
      (vertexStep E grad g w st).1.cellNo = T2_max ∨
      ((vertexStep E grad g w st).1.onNode = st.onNode ∧
        (vertexStep E grad g w st).1.curr_pt = st.curr_pt)) := by
  unfold vertexStep
  dsimp only
  split
  · rename_i r grads hr
    have := firstLoop_leftBy E grad g w st h _ _ r (by rw [hr])
    exact ⟨this.1, fun hre => Or.inl (this.2 hre)⟩
  · split
    · rename_i r hr
      have := secondLoop_leftBy E g st h _ _ r hr
      exact ⟨this.1, fun hre => Or.inl (this.2 hre)⟩
    · exact ⟨Or.inl ⟨rfl, ⟨[], rfl⟩⟩, fun _ => Or.inr ⟨rfl, rfl⟩⟩

theorem edgeLoop_leftBy (E : MathEnv T) (g : Grid2Duc T) (gv : sxz T) (st : RayState T)
    (h : st.reachedTx = false) :
    ∀ (inds : List (Nat × Nat)) (r : RayState T × List (RayOp T)),
      edgeLoop E g gv st inds = some r →
      r.1.leftBy r.2 ∧ (r.1.reachedTx = true → r.1.cellNo = T2_max) := by
  intro inds
  induction inds with
  | nil => intro r hr; simp [edgeLoop] at hr
  | cons ind rest ih =>
    intro r hr
    rw [edgeLoop] at hr
    dsimp only at hr
    split at hr
    · split at hr
      · split at hr
        · simp only [Option.some.injEq] at hr
          rw [← hr]
          refine ⟨Or.inr ⟨h, ⟨[], rfl⟩, by simp⟩, ?_⟩
          intro hre
          exact absurd (h ▸ hre : false = true) (by decide)
        · simp only [Option.some.injEq] at hr
          rw [← hr]
          refine ⟨Or.inr ⟨h, ⟨[], rfl⟩, by simp⟩, ?_⟩
          intro hre
          exact absurd (h ▸ hre : false = true) (by decide)
      · exact ih r hr
    · split at hr
      · exact ih r hr
      · split at hr
        · exact ih r hr
        · split at hr
          · split at hr
            · rename_i hmax
              simp only [Option.some.injEq] at hr
              rw [← hr]
              exact ⟨Or.inl ⟨rfl, ⟨[RayOp.push _], rfl⟩⟩, fun _ => hmax⟩
            · simp only [Option.some.injEq] at hr
              rw [← hr]
              refine ⟨Or.inr ⟨h, ⟨[], rfl⟩, by simp⟩, ?_⟩
              intro hre
              exact absurd (h ▸ hre : false = true) (by decide)
          · exact ih r hr

theorem cellStep_leftBy (E : MathEnv T) (grad : Node2Dn T → Node2Dn T → Node2Dn T → Nat → sxz T)
    (g : Grid2Duc T) (w : Nat) (st : RayState T) (h : st.reachedTx = false) :
    (cellStep E grad g w st).1.leftBy (cellStep E grad g w st).2 ∧
    ((cellStep E grad g w st).1.reachedTx = true →
      (cellStep E grad g w st).1.cellNo = T2_max) := by
  unfold cellStep
  dsimp only
  split
  · rename_i r hr
    exact edgeLoop_leftBy E g _ st h _ r hr
  · split
    · refine ⟨Or.inr ⟨h, ⟨[], rfl⟩, by simp⟩, ?_⟩
      intro hre
      exact absurd (h ▸ hre : false = true) (by decide)
    · refine ⟨Or.inr ⟨h, ⟨[], rfl⟩, by simp⟩, ?_⟩
      intro hre
      exact absurd (h ▸ hre : false = true) (by decide)

theorem txCheck_spec (E : MathEnv T) (g : Grid2Duc T) (cellNo : Nat) (tx : sxz T) (r : Bool) :
    txCheck E g cellNo tx r = ([], r) ∨ txCheck E g cellNo tx r = ([RayOp.push tx], true) := by
  unfold txCheck
  split
  · split
    · exact Or.inr rfl
    · exact Or.inl rfl
  · split
    · exact Or.inr rfl
    · exact Or.inl rfl

/-- The loop over the sources pushes a source and sets `reachedTx`, or does
nothing. -/
theorem txLoop_spec (E : MathEnv T) (g : Grid2Duc T) (cellNo : Nat) :
    ∀ (Tx : List (sxz T)) (r : Bool),
      ((txLoop E g cellNo Tx r).1 = [] ∧ (txLoop E g cellNo Tx r).2 = r) ∨
      (∃ tx ∈ Tx, (txLoop E g cellNo Tx r).1 = [RayOp.push tx] ∧
        (txLoop E g cellNo Tx r).2 = true) := by
  intro Tx
  induction Tx with
  | nil => intro r; exact Or.inl ⟨rfl, rfl⟩
  | cons tx rest ih =>
    intro r
    rw [txLoop]
    rcases txCheck_spec E g cellNo tx r with hc | hc
    · rw [hc]
      dsimp only
      cases r with
      | true => exact Or.inl ⟨rfl, rfl⟩
      | false =>
        rw [if_neg (by decide)]
        rcases ih false with h | ⟨t, ht, h1, h2⟩
        · exact Or.inl h
        · exact Or.inr ⟨t, List.mem_cons_of_mem _ ht, h1, h2⟩
    · rw [hc]
      exact Or.inr ⟨tx, List.mem_cons_self _ _, rfl, rfl⟩

end Grid2Duc
end RaypathSteps

section RaypathWalk
variable {T : Type} [LinearOrderedField T]

namespace Grid2Duc

/-- What the branch of the body of the loop leaves. -/
theorem body_leftBy (E : MathEnv T) (grad : Node2Dn T → Node2Dn T → Node2Dn T → Nat → sxz T)
    (g : Grid2Duc T) (w : Nat) (st : RayState T) (h : st.reachedTx = false) :
    (if st.onNode then vertexStep E grad g w st else cellStep E grad g w st).1.leftBy
      (if st.onNode then vertexStep E grad g w st else cellStep E grad g w st).2 ∧
    ((if st.onNode then vertexStep E grad g w st else cellStep E grad g w st).1.reachedTx = true →
      (if st.onNode then vertexStep E grad g w st else cellStep E grad g w st).1.cellNo = T2_max ∨
      (st.onNode = true ∧
        (if st.onNode then vertexStep E grad g w st else cellStep E grad g w st).1.curr_pt
          = st.curr_pt)) := by
  by_cases hon : st.onNode = true
  · rw [if_pos hon]
    obtain ⟨h1, h2⟩ := vertexStep_leftBy E grad g w st h
    refine ⟨h1, fun hre => ?_⟩
    rcases h2 hre with h3 | h3
    · exact Or.inl h3
    · exact Or.inr ⟨hon, h3.2⟩
  · rw [if_neg hon]
    obtain ⟨h1, h2⟩ := cellStep_leftBy E grad g w st h
    exact ⟨h1, fun hre => Or.inl (h2 hre)⟩

/-- The body of the loop of `getRaypath` in terms of what its branch leaves:
the current point is that of the branch; when it is on a node, nothing more
is pushed and `reachedTx` is set if it was or if a source is within `small`;
when it is on no node, the loop over the sources follows. -/
theorem rayStep_spec (E : MathEnv T) (grad : Node2Dn T → Node2Dn T → Node2Dn T → Nat → sxz T)
    (g : Grid2Duc T) (Tx : List (sxz T)) (w : Nat) (st : RayState T)
    (r : RayState T × List (RayOp T))
    (hr : r = if st.onNode then vertexStep E grad g w st else cellStep E grad g w st) :
    (rayStep E grad g Tx w st).1.curr_pt = r.1.curr_pt ∧
    (((∃ nn, (List.range g.nodes.length).find?
          (fun nn => (g.nodes.getD nn default).eqPt E r.1.curr_pt) = some nn) ∧
        (rayStep E grad g Tx w st).1.onNode = true ∧
        (rayStep E grad g Tx w st).2 = r.2 ∧
        ((rayStep E grad g Tx w st).1.reachedTx = true ↔
          (r.1.reachedTx = true ∨
            Tx.any (fun tx => decide (r.1.curr_pt.getDistance E tx < E.small)) = true))) ∨
      ((List.range g.nodes.length).find?
          (fun nn => (g.nodes.getD nn default).eqPt E r.1.curr_pt) = none ∧
        (rayStep E grad g Tx w st).1.onNode = false ∧
        (rayStep E grad g Tx w st).2 = r.2 ++ (txLoop E g r.1.cellNo Tx r.1.reachedTx).1 ∧
        (rayStep E grad g Tx w st).1.reachedTx = (txLoop E g r.1.cellNo Tx r.1.reachedTx).2)) := by
  unfold rayStep
  rw [← hr]
  dsimp only
  cases hf : (List.range g.nodes.length).find?
      (fun nn => (g.nodes.getD nn default).eqPt E r.1.curr_pt) with
  | none =>
    dsimp only
    rw [if_neg (by decide)]
    exact ⟨rfl, Or.inr ⟨rfl, rfl, rfl, rfl⟩⟩
  | some nn =>
    dsimp only
    rw [if_pos rfl]
    by_cases hnear : Tx.any (fun tx => decide (r.1.curr_pt.getDistance E tx < E.small)) = true
    · rw [if_pos hnear]
      exact ⟨rfl, Or.inl ⟨⟨nn, rfl⟩, rfl, rfl, ⟨fun _ => Or.inr hnear, fun _ => rfl⟩⟩⟩
    · rw [if_neg hnear]
      refine ⟨rfl, Or.inl ⟨⟨nn, rfl⟩, rfl, rfl, ⟨fun h => Or.inl h, fun h => ?_⟩⟩⟩
      rcases h with h | h
      · exact h
      · exact absurd h hnear

/-- One pass of the loop of `getRaypath`, entered with `reachedTx` false and
with `Rx` as first point of `r_data`: `Rx` stays the first point; when the
pass sets `reachedTx` the path ends as `pathEnds` says; when it does not, the
pass has not reset `r_data`. -/
theorem rayStep_pathEnds (E : MathEnv T) (grad : Node2Dn T → Node2Dn T → Node2Dn T → Nat → sxz T)
    (g : Grid2Duc T) (Tx : List (sxz T)) (Rx : sxz T) (w : Nat) (st : RayState T)
    (h : st.reachedTx = false) (rd : List (sxz T)) (hrd : rd.head? = some Rx) :
    ((rayStep E grad g Tx w st).2.foldl (RayOp.apply Rx) rd).head? = some Rx ∧
    ((rayStep E grad g Tx w st).1.reachedTx = true →
      pathEnds E g Tx Rx ((rayStep E grad g Tx w st).2.foldl (RayOp.apply Rx) rd)) ∧
    ((rayStep E grad g Tx w st).1.reachedTx = false →
      RayOp.reset ∉ (rayStep E grad g Tx w st).2) := by
  refine ⟨RayOp.foldl_apply_head Rx _ rd hrd, ?_⟩
  obtain ⟨hb, _⟩ := body_leftBy E grad g w st h
  obtain ⟨hcur, hsp⟩ := rayStep_spec E grad g Tx w st _ rfl
  generalize (if st.onNode then vertexStep E grad g w st else cellStep E grad g w st) = r
    at hb hcur hsp
  rcases hb with ⟨hre, pre, hops⟩ | ⟨hre, ⟨pre, hops⟩, hnr⟩
  · -- failure in the branch
    rcases hsp with ⟨_, _, ho, hiff⟩ | ⟨_, _, ho, hreach⟩
    · rw [ho, hops, RayOp.foldl_apply_reset_last]
      refine ⟨fun _ => Or.inl rfl, fun hf => ?_⟩
      rw [hiff.mpr (Or.inl hre)] at hf
      exact Bool.noConfusion hf
    · rw [hre] at ho hreach
      rcases txLoop_spec E g r.1.cellNo Tx true with ⟨h1, h2⟩ | ⟨tx, htx, h1, h2⟩
      · rw [ho, h1, List.append_nil, hops, RayOp.foldl_apply_reset_last]
        refine ⟨fun _ => Or.inl rfl, fun hf => ?_⟩
        rw [hreach, h2] at hf
        exact Bool.noConfusion hf
      · rw [ho, h1, hops, RayOp.foldl_apply_append, RayOp.foldl_apply_reset_last]
        refine ⟨fun _ => Or.inr (Or.inl ⟨tx, htx, ?_⟩), fun hf => ?_⟩
        · simp [RayOp.apply]
        · rw [hreach, h2] at hf
          exact Bool.noConfusion hf
  · -- the current point pushed last
    rcases hsp with ⟨⟨nn, hnn⟩, _, ho, hiff⟩ | ⟨_, _, ho, hreach⟩
    · rw [ho]
      refine ⟨fun hr => ?_, fun _ => hnr⟩
      rcases hiff.mp hr with hr' | hnear
      · rw [hre] at hr'
        exact Bool.noConfusion hr'
      · rw [hops, RayOp.foldl_apply_push_last]
        obtain ⟨tx, htx, hd⟩ := List.any_eq_true.mp hnear
        refine Or.inr (Or.inr ⟨r.1.curr_pt, by simp, ⟨nn, ?_, ?_⟩, tx, htx, ?_⟩)
        · exact List.mem_range.mp (List.mem_of_find?_eq_some hnn)
        · exact List.find?_some (p := fun nn => (g.nodes.getD nn default).eqPt E r.1.curr_pt) hnn
        · simpa using hd
    · rw [hre] at ho hreach
      rcases txLoop_spec E g r.1.cellNo Tx false with ⟨h1, h2⟩ | ⟨tx, htx, h1, h2⟩
      · rw [ho, h1, List.append_nil]
        refine ⟨fun hr => ?_, fun _ => hnr⟩
        rw [hreach, h2] at hr
        exact Bool.noConfusion hr
      · rw [ho, h1]
        refine ⟨fun _ => Or.inr (Or.inl ⟨tx, htx, ?_⟩), fun hf => ?_⟩
        · rw [RayOp.foldl_apply_append]
          simp [RayOp.apply]
        · rw [hreach, h2] at hf
          exact Bool.noConfusion hf

theorem rayInit_consistent (E : MathEnv T) (g : Grid2Duc T) (Rx : sxz T) :
    (rayInit E g Rx).consistent E g ∧ (rayInit E g Rx).reachedTx = false := by
  unfold rayInit
  cases hf : (List.range g.nodes.length).find? (fun nn => (g.nodes.getD nn default).eqPt E Rx) with
  | none => exact ⟨fun hon => Bool.noConfusion hon, rfl⟩
  | some nn =>
    refine ⟨fun _ => ?_, rfl⟩
    show ((List.range g.nodes.length).find?
      (fun nn => (g.nodes.getD nn default).eqPt E Rx)).isSome = true
    rw [hf]
    rfl

end Grid2Duc
end RaypathWalk

section RaypathClaims
variable {T : Type} [LinearOrderedField T]

namespace Grid2Duc

theorem walk_reached (E : MathEnv T) (grad : Node2Dn T → Node2Dn T → Node2Dn T → Nat → sxz T)
    (g : Grid2Duc T) (Tx : List (sxz T)) (w : Nat) (fuel : Nat) (st : RayState T)
    (h : st.reachedTx = true) : walk E grad g Tx w fuel st = some [] := by
  cases fuel with
  | zero => rw [walk, if_pos h]
  | succ n => rw [walk, if_pos h]

theorem walk_zero (E : MathEnv T) (grad : Node2Dn T → Node2Dn T → Node2Dn T → Nat → sxz T)
    (g : Grid2Duc T) (Tx : List (sxz T)) (w : Nat) (st : RayState T)
    (h : st.reachedTx = false) : walk E grad g Tx w 0 st = none := by
  rw [walk, if_neg (by rw [h]; decide)]

theorem walk_succ (E : MathEnv T) (grad : Node2Dn T → Node2Dn T → Node2Dn T → Nat → sxz T)
    (g : Grid2Duc T) (Tx : List (sxz T)) (w : Nat) (fuel : Nat) (st : RayState T)
    (h : st.reachedTx = false) :
    walk E grad g Tx w (fuel + 1) st =
      (walk E grad g Tx w fuel (rayStep E grad g Tx w st).1).map
        (fun ops => (rayStep E grad g Tx w st).2 ++ ops) := by
  rw [walk, if_neg (by rw [h]; decide)]

/-- More passes do not change the result of a walk that has ended. -/
theorem walk_fuel_mono (E : MathEnv T) (grad : Node2Dn T → Node2Dn T → Node2Dn T → Nat → sxz T)
    (g : Grid2Duc T) (Tx : List (sxz T)) (w : Nat) :
    ∀ (fuel : Nat) (st : RayState T) (ops : List (RayOp T)) (k : Nat),
      walk E grad g Tx w fuel st = some ops → walk E grad g Tx w (fuel + k) st = some ops := by
  intro fuel
  induction fuel with
  | zero =>
    intro st ops k h
    by_cases hr : st.reachedTx = true
    · rw [walk_reached E grad g Tx w _ st hr] at h ⊢
      exact h
    · rw [walk_zero E grad g Tx w st (by simpa using hr)] at h
      exact Option.noConfusion h
  | succ n ih =>
    intro st ops k h
    by_cases hr : st.reachedTx = true
    · rw [walk_reached E grad g Tx w _ st hr] at h ⊢
      exact h
    · have hf : st.reachedTx = false := by simpa using hr
      rw [walk_succ E grad g Tx w n st hf] at h
      rw [show n + 1 + k = (n + k) + 1 by omega, walk_succ E grad g Tx w (n + k) st hf]
      cases hw : walk E grad g Tx w n (rayStep E grad g Tx w st).1 with
      | none => rw [hw] at h; exact Option.noConfusion h
      | some ops' =>
        rw [hw] at h
        rw [ih _ ops' k hw]
        exact h

/-- A walk that ends leaves `Rx` as first point of `r_data` and a path that
ends as `pathEnds` says. -/
theorem walk_pathEnds (E : MathEnv T) (grad : Node2Dn T → Node2Dn T → Node2Dn T → Nat → sxz T)
    (g : Grid2Duc T) (Tx : List (sxz T)) (Rx : sxz T) (w : Nat) :
    ∀ (fuel : Nat) (st : RayState T) (rd : List (sxz T)) (ops : List (RayOp T)),
      rd.head? = some Rx → (st.reachedTx = true → pathEnds E g Tx Rx rd) →
      walk E grad g Tx w fuel st = some ops →
      (ops.foldl (RayOp.apply Rx) rd).head? = some Rx ∧
      pathEnds E g Tx Rx (ops.foldl (RayOp.apply Rx) rd) := by
  intro fuel
  induction fuel with
  | zero =>
    intro st rd ops hrd hpe h
    by_cases hr : st.reachedTx = true
    · rw [walk_reached E grad g Tx w _ st hr] at h
      simp only [Option.some.injEq] at h
      rw [← h]
      exact ⟨hrd, hpe hr⟩
    · rw [walk_zero E grad g Tx w st (by simpa using hr)] at h
      exact Option.noConfusion h
  | succ n ih =>
    intro st rd ops hrd hpe h
    by_cases hr : st.reachedTx = true
    · rw [walk_reached E grad g Tx w _ st hr] at h
      simp only [Option.some.injEq] at h
      rw [← h]
      exact ⟨hrd, hpe hr⟩
    · have hf : st.reachedTx = false := by simpa using hr
      rw [walk_succ E grad g Tx w n st hf] at h
      cases hw : walk E grad g Tx w n (rayStep E grad g Tx w st).1 with
      | none => rw [hw] at h; exact Option.noConfusion h
      | some ops' =>
        rw [hw] at h
        simp only [Option.map_some', Option.some.injEq] at h
        rw [← h, RayOp.foldl_apply_append]
        obtain ⟨s1, s2, _⟩ := rayStep_pathEnds E grad g Tx Rx w st hf rd hrd
        exact ih _ _ ops' s1 s2 hw

/-- The first `k` passes of a walk that does not end in them. -/
theorem walk_iterate (E : MathEnv T) (grad : Node2Dn T → Node2Dn T → Node2Dn T → Nat → sxz T)
    (g : Grid2Duc T) (Tx : List (sxz T)) (w : Nat) :
    ∀ (k : Nat) (st : RayState T),
      (∀ j, j < k → ((fun s => (rayStep E grad g Tx w s).1)^[j] st).reachedTx = false) →
      ∃ pre : List (RayOp T), ∀ fuel,
        walk E grad g Tx w (k + fuel) st =
          (walk E grad g Tx w fuel ((fun s => (rayStep E grad g Tx w s).1)^[k] st)).map
            (fun ops => pre ++ ops) := by
  intro k
  induction k with
  | zero =>
    intro st _
    refine ⟨[], fun fuel => ?_⟩
    rw [Nat.zero_add]
    simp
  | succ k ih =>
    intro st h
    have h0 : st.reachedTx = false := h 0 (Nat.succ_pos k)
    obtain ⟨pre, hpre⟩ := ih (rayStep E grad g Tx w st).1 (fun j hj => by
      have := h (j + 1) (Nat.succ_lt_succ hj)
      rwa [Function.iterate_succ_apply] at this)
    refine ⟨(rayStep E grad g Tx w st).2 ++ pre, fun fuel => ?_⟩
    rw [show k + 1 + fuel = (k + fuel) + 1 by omega, walk_succ E grad g Tx w _ st h0, hpre fuel,
      Function.iterate_succ_apply, Option.map_map]
    congr 1
    funext ops
    simp [List.append_assoc]

/-- A walk whose state comes back after `k` passes, none of which sets
`reachedTx`, does not end. -/
theorem walk_cycle (E : MathEnv T) (grad : Node2Dn T → Node2Dn T → Node2Dn T → Nat → sxz T)
    (g : Grid2Duc T) (Tx : List (sxz T)) (w : Nat) (k : Nat) (st : RayState T) (hk : 0 < k)
    (hback : (fun s => (rayStep E grad g Tx w s).1)^[k] st = st)
    (hnot : ∀ j, j < k → ((fun s => (rayStep E grad g Tx w s).1)^[j] st).reachedTx = false) :
    ∀ fuel, walk E grad g Tx w fuel st = none := by
  have hall : ∀ fuel, ∀ j, j < k →
      walk E grad g Tx w fuel ((fun s => (rayStep E grad g Tx w s).1)^[j] st) = none := by
    intro fuel
    induction fuel with
    | zero => intro j hj; exact walk_zero E grad g Tx w _ (hnot j hj)
    | succ n ih =>
      intro j hj
      have e : (rayStep E grad g Tx w ((fun s => (rayStep E grad g Tx w s).1)^[j] st)).1 =
          (fun s => (rayStep E grad g Tx w s).1)^[j + 1] st :=
        (Function.iterate_succ_apply' (fun s => (rayStep E grad g Tx w s).1) j st).symm
      rw [walk_succ E grad g Tx w n _ (hnot j hj), e]
      by_cases hlast : j + 1 < k
      · rw [ih (j + 1) hlast]
        rfl
      · have hjk : j + 1 = k := by omega
        rw [hjk, hback]
        have := ih 0 hk
        rw [Function.iterate_zero_apply] at this
        rw [this]
        rfl
  intro fuel
  have := hall fuel 0 hk
  rwa [Function.iterate_zero_apply] at this

end Grid2Duc
end RaypathClaims

section RaypathTheorems

variable {T : Type} [LinearOrderedField T]

namespace Grid2Duc

/-- Claim C16, amended. Whenever `getRaypath`, called with an empty output
vector, returns, the first point of the path is `Rx`, and the path is the
single point `Rx`, or its last point is one of the sources, or its last
point coincides with a node of the mesh and is within the distance `small`
of a source: the walk ends on such a node without pushing the source. -/
theorem getRaypath_endpoints (E : MathEnv T)
    (grad : Node2Dn T → Node2Dn T → Node2Dn T → Nat → sxz T) (g : Grid2Duc T)
    (Tx : List (sxz T)) (Rx : sxz T) (w fuel : Nat) (r : List (sxz T))
    (h : getRaypath E grad g Tx Rx [] w fuel = some r) :
    r.head? = some Rx ∧
    (r = [Rx] ∨ (∃ tx ∈ Tx, r.getLast? = some tx) ∨
      (∃ p, r.getLast? = some p ∧
        (∃ nn, nn < g.nodes.length ∧ (g.nodes.getD nn default).eqPt E p = true) ∧
        ∃ tx ∈ Tx, p.getDistance E tx < E.small)) := by
  unfold getRaypath at h
  split at h
  · simp only [List.nil_append, Option.some.injEq] at h
    rw [← h]
    exact ⟨rfl, Or.inl rfl⟩
  · cases hw : walk E grad g Tx w fuel (rayInit E g Rx) with
    | none => rw [hw] at h; exact Option.noConfusion h
    | some ops =>
      rw [hw] at h
      simp only [List.nil_append, Option.map_some', Option.some.injEq] at h
      rw [← h]
      exact walk_pathEnds E grad g Tx Rx w fuel _ [Rx] ops rfl
        (fun hr => by rw [(rayInit_consistent E g Rx).2] at hr; exact Bool.noConfusion hr) hw

/-- A walk whose state recurs does not return, whatever the number of passes
allowed. -/
theorem getRaypath_of_recurring (E : MathEnv T)
    (grad : Node2Dn T → Node2Dn T → Node2Dn T → Nat → sxz T) (g : Grid2Duc T)
    (Tx : List (sxz T)) (w : Nat) (Rx : sxz T) (rd : List (sxz T)) (n k : Nat) (hk : 0 < k)
    (hne : Tx.any (fun tx => Rx.eqPt E tx) = false)
    (hback : (fun s => (rayStep E grad g Tx w s).1)^[n + k] (rayInit E g Rx) =
      (fun s => (rayStep E grad g Tx w s).1)^[n] (rayInit E g Rx))
    (hnot : ∀ j, j < n + k →
      ((fun s => (rayStep E grad g Tx w s).1)^[j] (rayInit E g Rx)).reachedTx = false) :
    ∀ fuel, getRaypath E grad g Tx Rx rd w fuel = none := by
  intro fuel
  unfold getRaypath
  rw [hne, if_neg (by decide)]
  obtain ⟨pre, hpre⟩ := walk_iterate E grad g Tx w n (rayInit E g Rx)
    (fun j hj => hnot j (by omega))
  have hcyc := walk_cycle E grad g Tx w k
    ((fun s => (rayStep E grad g Tx w s).1)^[n] (rayInit E g Rx)) hk
    (by rw [← Function.iterate_add_apply, Nat.add_comm k n]; exact hback)
    (fun j hj => by
      rw [← Function.iterate_add_apply, Nat.add_comm j n]
      exact hnot (n + j) (by omega))
  have hmono : walk E grad g Tx w fuel (rayInit E g Rx) = none := by
    cases hw : walk E grad g Tx w fuel (rayInit E g Rx) with
    | none => rfl
    | some ops =>
      have h2 := walk_fuel_mono E grad g Tx w fuel _ ops n hw
      rw [Nat.add_comm fuel n, hpre fuel, hcyc fuel] at h2
      exact Option.noConfusion h2
  rw [hmono]
  rfl

/-- More passes do not change what `getRaypath` returns. -/
theorem getRaypath_fuel_mono (E : MathEnv T)
    (grad : Node2Dn T → Node2Dn T → Node2Dn T → Nat → sxz T) (g : Grid2Duc T)
    (Tx : List (sxz T)) (w : Nat) (Rx : sxz T) (rd : List (sxz T)) (fuel m : Nat)
    (r : List (sxz T)) (h : getRaypath E grad g Tx Rx rd w fuel = some r) :
    getRaypath E grad g Tx Rx rd w (fuel + m) = some r := by
  unfold getRaypath at h ⊢
  split
  · rename_i hany
    rw [if_pos hany] at h
    exact h
  · rename_i hany
    rw [if_neg hany] at h
    cases hw : walk E grad g Tx w fuel (rayInit E g Rx) with
    | none => rw [hw] at h; exact Option.noConfusion h
    | some ops =>
      rw [hw] at h
      rw [walk_fuel_mono E grad g Tx w fuel _ ops m hw]
      exact h

/-- Claim C17, amended. The loop of `getRaypath` has no bound on the number
of its passes: it ends only when a pass sets `reachedTx`. What the call
returns does not change with more passes allowed; and a walk whose state
after `n + k` passes is its state after `n` passes, `reachedTx` being set in
none of them, does not return, whatever the number of passes allowed. -/
theorem getRaypath_no_step_bound (E : MathEnv T)
    (grad : Node2Dn T → Node2Dn T → Node2Dn T → Nat → sxz T) (g : Grid2Duc T)
    (Tx : List (sxz T)) (w : Nat) :
    (∀ (Rx : sxz T) (rd : List (sxz T)) (fuel m : Nat) (r : List (sxz T)),
      getRaypath E grad g Tx Rx rd w fuel = some r →
      getRaypath E grad g Tx Rx rd w (fuel + m) = some r) ∧
    (∀ (Rx : sxz T) (rd : List (sxz T)) (n k : Nat), 0 < k →
      Tx.any (fun tx => Rx.eqPt E tx) = false →
      (fun s => (rayStep E grad g Tx w s).1)^[n + k] (rayInit E g Rx) =
        (fun s => (rayStep E grad g Tx w s).1)^[n] (rayInit E g Rx) →
      (∀ j, j < n + k →
        ((fun s => (rayStep E grad g Tx w s).1)^[j] (rayInit E g Rx)).reachedTx = false) →
      ∀ fuel, getRaypath E grad g Tx Rx rd w fuel = none) :=
  ⟨fun Rx rd fuel m r h => getRaypath_fuel_mono E grad g Tx w Rx rd fuel m r h,
    fun Rx rd n k hk hne hback hnot =>
      getRaypath_of_recurring E grad g Tx w Rx rd n k hk hne hback hnot⟩

end Grid2Duc

/-- Claim C16 as stated fails. On the rectangle with the least time at the
node (4,0), with `small = 1/100`, the source (4, 1/200) and the receiver
(3,1), both accepted by `checkPts`, the path returned is (3,1), (4,0): it is
not the single point `Rx`, and its last point is the node, not the source. -/
theorem raypath_ends_on_node :
    (Grid2Duc.checkPts coarseEnv slope [⟨4, 1 / 200⟩, ⟨3, 1⟩]).exn = none ∧
    Grid2Duc.getRaypath coarseEnv ls_grad slope [⟨4, 1 / 200⟩] ⟨3, 1⟩ [] 0 2 =
      some [⟨3, 1⟩, ⟨4, 0⟩] ∧
    ([⟨3, 1⟩, ⟨4, 0⟩] : List (sxz ℚ)) ≠ [⟨3, 1⟩] ∧
    (⟨4, 0⟩ : sxz ℚ) ∉ [(⟨4, 1 / 200⟩ : sxz ℚ)] := by
  decide!

theorem getRaypath_endpoints_witness :
    Grid2Duc.getRaypath exampleEnv ls_grad slope [⟨3, 1⟩] ⟨1, 2⟩ [] 0 3 =
      some [⟨1, 2⟩, ⟨32 / 17, 24 / 17⟩, ⟨3, 1⟩] ∧
    ([⟨1, 2⟩, ⟨32 / 17, 24 / 17⟩, ⟨3, 1⟩] : List (sxz ℚ)).head? = some ⟨1, 2⟩ :=
  ⟨by decide!,
    (Grid2Duc.getRaypath_endpoints exampleEnv ls_grad slope [⟨3, 1⟩] ⟨1, 2⟩ 0 3
      [⟨1, 2⟩, ⟨32 / 17, 24 / 17⟩, ⟨3, 1⟩] (by decide!)).1⟩

/-- Claim C17 as stated fails. On the fan with a local minimum of the field
at the node (0,0), with the source (-1/4, -1/4) and the receiver (0,0), both
accepted by `checkPts`, the walk goes from the node to the point (1/2, 1/2)
and back for ever: no number of passes makes `getRaypath` return. -/
theorem raypath_cycles :
    (Grid2Duc.checkPts exampleEnv fan [⟨-1 / 4, -1 / 4⟩, ⟨0, 0⟩]).exn = none ∧
    ¬ ∃ fuel r, Grid2Duc.getRaypath exampleEnv ls_grad fan [⟨-1 / 4, -1 / 4⟩] ⟨0, 0⟩ [] 0 fuel
      = some r := by
  refine ⟨by decide!, ?_⟩
  rintro ⟨fuel, r, h⟩
  rw [Grid2Duc.getRaypath_of_recurring exampleEnv ls_grad fan [⟨-1 / 4, -1 / 4⟩] 0 ⟨0, 0⟩ [] 1 2
    (by decide) (by decide!) (by decide!) (by decide!) fuel] at h
  exact Option.noConfusion h

theorem getRaypath_no_step_bound_witness :
    Grid2Duc.getRaypath exampleEnv ls_grad fan [⟨-1 / 4, -1 / 4⟩] ⟨0, 0⟩ [] 0 1000 = none ∧
    Grid2Duc.getRaypath exampleEnv ls_grad slope [⟨3, 1⟩] ⟨1, 2⟩ [] 0 (3 + 1000) =
      some [⟨1, 2⟩, ⟨32 / 17, 24 / 17⟩, ⟨3, 1⟩] :=
  ⟨(Grid2Duc.getRaypath_no_step_bound exampleEnv ls_grad fan [⟨-1 / 4, -1 / 4⟩] 0).2 ⟨0, 0⟩ [] 1 2
      (by decide) (by decide!) (by decide!) (by decide!) 1000,
    (Grid2Duc.getRaypath_no_step_bound exampleEnv ls_grad slope [⟨3, 1⟩] 0).1 ⟨1, 2⟩ [] 3 1000
      _ (by decide!)⟩

end RaypathTheorems

section Settled

variable {T : Type} [LinearOrderedField T]

namespace Grid2Duifs

theorem settled_congr (E : MathEnv T) (w : Nat) (st st' : SweepState T)
    (hg : st'.grid = st.grid) (hf : st'.frozen = st.frozen)
    (h : SweepState.settled E w st) : SweepState.settled E w st' := by
  intro v hv
  rw [hg, hf] at hv
  rw [hg]
  exact h v hv

theorem keeps_andThen (st : SweepState T) (r : Outcome (SweepState T) (Exn T))
    (f : SweepState T → Outcome (SweepState T) (Exn T)) (h1 : SweepState.keeps st r)
    (h2 : SweepState.keeps r.state (f r.state)) : SweepState.keeps st (r.andThen f) := by
  obtain ⟨a1, a2, a3⟩ := h1
  obtain ⟨c1, c2, c3⟩ := h2
  unfold Outcome.andThen
  rw [a1]
  exact ⟨c1, c2.trans a2, c3.trans a3⟩

theorem sweep_settled (E : MathEnv T) (w : Nat) (order : List Nat) :
    ∀ st : SweepState T, SweepState.settled E w st → SweepState.keeps st (sweep E w order st) := by
  induction order with
  | nil => intro st _; exact ⟨rfl, rfl, rfl⟩
  | cons c rest ih =>
    intro st hst
    rw [sweep]
    split
    · rename_i hnf
      have hfix := hst c hnf
      dsimp only
      rw [hfix]
      have hs : SweepState.settled E w
          { withGrid st (Outcome.ret st.grid.toGrid2Duc : Outcome _ (Exn T)).state with
            solverCalls := st.solverCalls + 1 } :=
        settled_congr E w st _ rfl rfl hst
      exact ih _ hs
    · exact ih st hst

theorem forSorted_settled (E : MathEnv T) (w : Nat) (orders : List (List Nat)) :
    ∀ st : SweepState T, SweepState.settled E w st →
      SweepState.keeps st (forSorted E w orders st) := by
  induction orders with
  | nil => intro st _; exact ⟨rfl, rfl, rfl⟩
  | cons order rest ih =>
    intro st hst
    rw [forSorted]
    have h1 := sweep_settled E w order st hst
    refine keeps_andThen st _ _ h1 ?_
    have hs1 : SweepState.settled E w (updateError w (sweep E w order st).state) :=
      settled_congr E w st _ h1.2.1 h1.2.2 hst
    generalize (sweep E w order st).state = s1 at hs1 ⊢
    dsimp only
    split
    · exact ⟨rfl, rfl, rfl⟩
    · have h2 := sweep_settled E w order.reverse _ hs1
      have h2' : SweepState.keeps s1 (sweep E w order.reverse (updateError w s1)) := h2
      refine keeps_andThen s1 _ _ h2' ?_
      have hs2 : SweepState.settled E w
          (updateError w (sweep E w order.reverse (updateError w s1)).state) :=
        settled_congr E w (updateError w s1) _ h2.2.1 h2.2.2 hs1
      generalize (sweep E w order.reverse (updateError w s1)).state = s2 at hs2 ⊢
      split
      · exact ⟨rfl, rfl, rfl⟩
      · exact ih _ hs2

theorem whilePass_settled (E : MathEnv T) (w : Nat) (st : SweepState T)
    (hst : SweepState.settled E w st) : SweepState.keeps st (whilePass E w st) := by
  unfold whilePass
  have h1 : SweepState.keeps st
      (forSorted E w st.grid.sorted { st with passes := st.passes + 1 }) :=
    forSorted_settled E w _ _ (settled_congr E w st _ rfl rfl hst)
  exact keeps_andThen st _ _ h1 ⟨rfl, rfl, rfl⟩

theorem whileLoop_settled (E : MathEnv T) (w : Nat) (fuel : Nat) :
    ∀ st : SweepState T, SweepState.settled E w st →
      SweepState.keeps st (whileLoop E w fuel st) := by
  induction fuel with
  | zero => intro st _; exact ⟨rfl, rfl, rfl⟩
  | succ fuel ih =>
    intro st hst
    rw [whileLoop]
    split
    · have h1 := whilePass_settled E w st hst
      exact keeps_andThen st _ _ h1 (ih _ (settled_congr E w st _ h1.2.1 h1.2.2 hst))
    · exact ⟨rfl, rfl, rfl⟩

end Grid2Duifs

end Settled

section UnitSquare

variable {T : Type} [LinearOrderedField T]

theorem list_eq_getD2 {α : Type} (l : List α) (d : α) (h : l.length = 2) :
    l = [l.getD 0 d, l.getD 1 d] := by
  match l, h with
  | [a, b], _ => rfl

theorem list_eq_getD4 {α : Type} (l : List α) (d : α) (h : l.length = 4) :
    l = [l.getD 0 d, l.getD 1 d, l.getD 2 d, l.getD 3 d] := by
  match l, h with
  | [a, b, c, e], _ => rfl

/-- The grid of scenario S1 for the cut through the source. -/
theorem unitSquare_grid (E : MathEnv T) (eps : T) (maxit : Int) (nt : Nat) (po : Bool)
    (sorted : List (List Nat)) :
    (unitSquare E squareCells eps maxit nt po sorted).nodes =
      [⟨0, 0, 0, [0, 1], List.replicate nt 0⟩, ⟨1, 0, 1, [0], List.replicate nt 0⟩,
        ⟨1, 1, 2, [0, 1], List.replicate nt 0⟩, ⟨0, 1, 3, [1], List.replicate nt 0⟩] ∧
    (unitSquare E squareCells eps maxit nt po sorted).triangles =
      [builtTriangle E (squareNodes T) [0, 1, 2], builtTriangle E (squareNodes T) [0, 2, 3]] ∧
    (unitSquare E squareCells eps maxit nt po sorted).neighbors = [[0, 1, 2], [0, 2, 3]] ∧
    (unitSquare E squareCells eps maxit nt po sorted).slowness = [1, 1] := by
  obtain ⟨h1, h2, h3, h4, h5, h6, h7⟩ :=
    Grid2Duifs.new_spec E (squareNodes T) squareCells eps maxit nt po
  refine ⟨?_, ?_, ?_, ?_⟩
  · show (Grid2Duifs.new E (squareNodes T) squareCells eps maxit nt po).nodes = _
    rw [list_eq_getD4 _ default h1, h3 0 (by simp [squareNodes]), h3 1 (by simp [squareNodes]),
      h3 2 (by simp [squareNodes]), h3 3 (by simp [squareNodes])]
    simp [squareNodes]
    exact ⟨rfl, rfl, rfl, rfl⟩
  · show (Grid2Duifs.new E (squareNodes T) squareCells eps maxit nt po).triangles = _
    rw [list_eq_getD2 _ default h2, h4 0 (by decide), h4 1 (by decide)]
    rfl
  · show (Grid2Duifs.new E (squareNodes T) squareCells eps maxit nt po).neighbors = _
    rw [list_eq_getD2 _ [] h5, h6 0 (by decide), h6 1 (by decide)]
    rfl
  · show ((Grid2Duifs.new E (squareNodes T) squareCells eps maxit nt po).toGrid2Duc.setSlowness
      1).slowness = _
    unfold Grid2Duc.setSlowness
    rw [h7]
    rfl

end UnitSquare

section UnitSquareReal

theorem sqrt_two_mul_self : Real.sqrt 2 * Real.sqrt 2 = 2 :=
  Real.mul_self_sqrt (by norm_num)

theorem arccos_half_sqrt_two : Real.arccos (Real.sqrt 2 / 2) = Real.pi / 4 := by
  rw [← Real.cos_pi_div_four]
  exact Real.arccos_cos (by positivity) (by linarith [Real.pi_pos])

theorem two_div_two_sqrt_two : (2 : ℝ) / (2 * Real.sqrt 2) = Real.sqrt 2 / 2 := by
  have h := sqrt_two_mul_self
  have hp : (0 : ℝ) < Real.sqrt 2 := Real.sqrt_pos.mpr (by norm_num)
  rw [div_eq_div_iff (by positivity) (by norm_num)]
  linarith

theorem builtTriangle_main0 (E : MathEnv ℝ) (hE : E.isReal) :
    builtTriangle E (squareNodes ℝ) [0, 1, 2] =
      ⟨[0, 1, 2], [Real.pi / 4, Real.pi / 2, Real.pi / 4], [1, Real.sqrt 2, 1]⟩ := by
  obtain ⟨hs, -, -, hacos, -⟩ := hE
  have h2 : (1 : ℝ) + 1 = 2 := by norm_num
  simp [builtTriangle, squareNodes, sxz.getDistance, hs, hacos, h2, two_div_two_sqrt_two,
    arccos_half_sqrt_two]

theorem builtTriangle_main1 (E : MathEnv ℝ) (hE : E.isReal) :
    builtTriangle E (squareNodes ℝ) [0, 2, 3] =
      ⟨[0, 2, 3], [Real.pi / 4, Real.pi / 4, Real.pi / 2], [1, 1, Real.sqrt 2]⟩ := by
  obtain ⟨hs, -, -, hacos, -⟩ := hE
  have h2 : (1 : ℝ) + 1 = 2 := by norm_num
  simp [builtTriangle, squareNodes, sxz.getDistance, hs, hacos, h2, two_div_two_sqrt_two,
    arccos_half_sqrt_two]

theorem builtTriangle_across0 (E : MathEnv ℝ) (hE : E.isReal) :
    builtTriangle E (squareNodes ℝ) [0, 1, 3] =
      ⟨[0, 1, 3], [Real.pi / 2, Real.pi / 4, Real.pi / 4], [Real.sqrt 2, 1, 1]⟩ := by
  obtain ⟨hs, -, -, hacos, -⟩ := hE
  have h2 : (1 : ℝ) + 1 = 2 := by norm_num
  simp [builtTriangle, squareNodes, sxz.getDistance, hs, hacos, h2, two_div_two_sqrt_two,
    arccos_half_sqrt_two]

theorem builtTriangle_across1 (E : MathEnv ℝ) (hE : E.isReal) :
    builtTriangle E (squareNodes ℝ) [1, 2, 3] =
      ⟨[1, 2, 3], [Real.pi / 4, Real.pi / 2, Real.pi / 4], [1, Real.sqrt 2, 1]⟩ := by
  obtain ⟨hs, -, -, hacos, -⟩ := hE
  have h2 : (1 : ℝ) + 1 = 2 := by norm_num
  simp [builtTriangle, squareNodes, sxz.getDistance, hs, hacos, h2, two_div_two_sqrt_two,
    arccos_half_sqrt_two]

end UnitSquareReal

section UnitSquareSeed

open Grid2Duifs

theorem sqrt_two_lt_two : Real.sqrt 2 < 2 := by
  have h := sqrt_two_mul_self
  have hp : (0 : ℝ) ≤ Real.sqrt 2 := Real.sqrt_nonneg 2
  nlinarith

theorem one_lt_sqrt_two : 1 < Real.sqrt 2 := by
  have h := sqrt_two_mul_self
  have hp : (0 : ℝ) ≤ Real.sqrt 2 := Real.sqrt_nonneg 2
  nlinarith

/-- The state in which the sweeps begin on the square cut through the
source: the source node has the time 0 and is frozen, its three neighbours
have their distances to it. -/
theorem sweepInit_square (E : MathEnv ℝ) (hE : E.isReal) (hs0 : 0 < E.small)
    (ht : 2 < E.tmax) (g : Grid2Duifs ℝ) (w : Nat)
    (tt0 tt1 tt2 tt3 : List ℝ) (h0 : w < tt0.length) (h1 : w < tt1.length)
    (h2 : w < tt2.length) (h3 : w < tt3.length)
    (hn : g.nodes =
      [⟨0, 0, 0, [0, 1], tt0⟩, ⟨1, 0, 1, [0], tt1⟩, ⟨1, 1, 2, [0, 1], tt2⟩, ⟨0, 1, 3, [1], tt3⟩])
    (hnb : g.neighbors = [[0, 1, 2], [0, 2, 3]])
    (hsl : g.slowness = [1, 1]) :
    (sweepInit E g [⟨0, 0⟩] [0] w).grid =
      { g with
        nodes := [⟨0, 0, 0, [0, 1], tt0.set w 0⟩, ⟨1, 0, 1, [0], tt1.set w 1⟩,
          ⟨1, 1, 2, [0, 1], tt2.set w (Real.sqrt 2)⟩, ⟨0, 1, 3, [1], tt3.set w 1⟩] } ∧
    (sweepInit E g [⟨0, 0⟩] [0] w).frozen = [true, false, false, false] := by
  obtain ⟨⟨nth, np, nodes, slow, nbs, tris, vn⟩, eps, maxit, sorted⟩ := g
  simp only at hn hnb hsl
  subst hn hnb hsl
  obtain ⟨hs, -, -, -, -⟩ := hE
  have e2 : (1 : ℝ) + 1 = 2 := by norm_num
  have t1 : 1 < E.tmax := by linarith
  have t2 : Real.sqrt 2 < E.tmax := by linarith [sqrt_two_lt_two]
  simp [sweepInit, reinitNodes, reinitNode, initTx, initTxFrom, initTxOne, initTxOnNode,
    initTxNeighbors, Node2Dn.reinit, Node2Dn.setTT, Node2Dn.eqPt, Node2Dn.getTT,
    Grid2Duc.setNodeTT, Grid2Duc.getNodeTT, computeDt2, Grid2Duc.computeDtNode,
    Node2Dn.getDistance, hs, hs0, e2, List.range_succ, h0, h1, h2, h3, t1, t2]

end UnitSquareSeed

section SolverSteps

variable {T : Type} [LinearOrderedField T]

namespace Grid2Duc

/-- The body of the loop of `localSolver` leaves the grid when the time it
computes is not below the time of `vertexC`. -/
theorem localSolverCell_keep (E : MathEnv T) (g : Grid2Duc T) (v w c : Nat) (sv : SolverVars T)
    (hsv : solverVars E g v c = Except.ok sv)
    (hge : ¬ solverTime E sv (g.slowness.getD c 0) (g.getNodeTT sv.vertexA w)
      (g.getNodeTT sv.vertexB w) < g.getNodeTT v w) :
    localSolverCell E g v w c = Outcome.ret g := by
  unfold localSolverCell
  rw [hsv]
  dsimp only
  rw [if_neg hge]

/-- The body of the loop of `localSolver` writes the time it computes when it
is below the time of `vertexC`. -/
theorem localSolverCell_write (E : MathEnv T) (g : Grid2Duc T) (v w c : Nat) (sv : SolverVars T)
    (t : T) (hsv : solverVars E g v c = Except.ok sv)
    (ht : solverTime E sv (g.slowness.getD c 0) (g.getNodeTT sv.vertexA w)
      (g.getNodeTT sv.vertexB w) = t)
    (hlt : t < g.getNodeTT v w) :
    localSolverCell E g v w c = Outcome.ret (g.setNodeTT v t w) := by
  unfold localSolverCell
  rw [hsv]
  dsimp only
  rw [ht, if_pos hlt]

end Grid2Duc

end SolverSteps

section SolverTimes

namespace Grid2Duc

/-- The time of the local solver when the difference of the two times is the
largest that the edge allows: the angle `theta` is a right angle and the time
is the smaller of the two times along the edges. -/
theorem solverTime_grazing (E : MathEnv ℝ) (hE : E.isReal) (sv : SolverVars ℝ) (s ttA ttB : ℝ)
    (hd : |ttB - ttA| = sv.c * s) (hcs : sv.c * s ≠ 0) (hb : 0 < sv.beta) :
    solverTime E sv s ttA ttB =
      if ttA + sv.b * s < ttB + sv.a * s then ttA + sv.b * s else ttB + sv.a * s := by
  obtain ⟨-, -, hasin, -, hpi⟩ := hE
  have hp := Real.pi_pos
  unfold solverTime
  dsimp only
  rw [if_pos (le_of_eq hd), hd, div_self hcs, hasin, Real.arcsin_one, hpi]
  rw [if_neg]
  intro h
  rcases h with ⟨-, h⟩ | ⟨-, h⟩
  · linarith
  · split at h <;> linarith

/-- The time of the local solver when the two times differ by more than the
edge allows: the smaller of the two times along the edges. -/
theorem solverTime_far (E : MathEnv ℝ) (sv : SolverVars ℝ) (s ttA ttB : ℝ)
    (hd : sv.c * s < |ttB - ttA|) :
    solverTime E sv s ttA ttB =
      if ttA + sv.b * s < ttB + sv.a * s then ttA + sv.b * s else ttB + sv.a * s := by
  unfold solverTime
  dsimp only
  rw [if_neg (not_le.mpr hd)]

end Grid2Duc

end SolverTimes

section UnitSquareSettled

open Grid2Duifs

/-- On the seeded square cut through the source the local solver changes no
node. -/
theorem square_localSolver (E : MathEnv ℝ) (hE : E.isReal) (g : Grid2Duc ℝ) (w : Nat)
    (tt0 tt1 tt2 tt3 : List ℝ) (h0 : w < tt0.length) (h1 : w < tt1.length)
    (h2 : w < tt2.length) (h3 : w < tt3.length)
    (hn : g.nodes =
      [⟨0, 0, 0, [0, 1], tt0.set w 0⟩, ⟨1, 0, 1, [0], tt1.set w 1⟩,
        ⟨1, 1, 2, [0, 1], tt2.set w (Real.sqrt 2)⟩, ⟨0, 1, 3, [1], tt3.set w 1⟩])
    (htri : g.triangles =
      [⟨[0, 1, 2], [Real.pi / 4, Real.pi / 2, Real.pi / 4], [1, Real.sqrt 2, 1]⟩,
        ⟨[0, 2, 3], [Real.pi / 4, Real.pi / 4, Real.pi / 2], [1, 1, Real.sqrt 2]⟩])
    (hsl : g.slowness = [1, 1]) :
    Grid2Duc.localSolver E g 1 w = Outcome.ret g ∧
    Grid2Duc.localSolver E g 2 w = Outcome.ret g ∧
    Grid2Duc.localSolver E g 3 w = Outcome.ret g := by
  have hp := Real.pi_pos
  have hp1 : ¬ Real.pi / 2 < Real.pi / 4 := by linarith
  have r1 := one_lt_sqrt_two
  have r3 := sqrt_two_lt_two
  have r0 : (0 : ℝ) ≤ Real.sqrt 2 := Real.sqrt_nonneg 2
  have r2 : Real.sqrt 2 ≠ 0 := by linarith
  have hpi := hE.2.2.2.2
  have t0 : g.getNodeTT 0 w = 0 := by simp [Grid2Duc.getNodeTT, Node2Dn.getTT, hn, h0]
  have t1 : g.getNodeTT 1 w = 1 := by simp [Grid2Duc.getNodeTT, Node2Dn.getTT, hn, h1]
  have t2 : g.getNodeTT 2 w = Real.sqrt 2 := by simp [Grid2Duc.getNodeTT, Node2Dn.getTT, hn, h2]
  have t3 : g.getNodeTT 3 w = 1 := by simp [Grid2Duc.getNodeTT, Node2Dn.getTT, hn, h3]
  have s0 : g.slowness.getD 0 0 = 1 := by simp [hsl]
  have s1 : g.slowness.getD 1 0 = 1 := by simp [hsl]
  have c10 : Grid2Duc.localSolverCell E g 1 w 0 = Outcome.ret g := by
    apply Grid2Duc.localSolverCell_keep E g 1 w 0
      ⟨2, 0, 1, 1, Real.sqrt 2, Real.pi / 4, Real.pi / 4⟩
    · simp [Grid2Duc.solverVars, Grid2Duc.findI0, hn, htri, hpi, hp1]
    · dsimp only
      rw [s0, t0, t1, t2, Grid2Duc.solverTime_grazing E hE _ _ _ _
        (by simp [abs_of_nonneg r0]) (by simp) (by simp; positivity)]
      dsimp only
      rw [if_neg (by linarith)]
      linarith
  have c20 : Grid2Duc.localSolverCell E g 2 w 0 = Outcome.ret g := by
    apply Grid2Duc.localSolverCell_keep E g 2 w 0
      ⟨0, 1, 1, Real.sqrt 2, 1, Real.pi / 2, Real.pi / 4⟩
    · simp [Grid2Duc.solverVars, Grid2Duc.findI0, hn, htri, hpi, hp1]
    · dsimp only
      rw [s0, t0, t1, t2, Grid2Duc.solverTime_grazing E hE _ _ _ _
        (by simp) (by simp) (by simp; positivity)]
      dsimp only
      rw [if_pos (by linarith)]
      linarith
  have c21 : Grid2Duc.localSolverCell E g 2 w 1 = Outcome.ret g := by
    apply Grid2Duc.localSolverCell_keep E g 2 w 1
      ⟨3, 0, Real.sqrt 2, 1, 1, Real.pi / 4, Real.pi / 2⟩
    · simp [Grid2Duc.solverVars, Grid2Duc.findI0, hn, htri, hpi, hp1]
    · dsimp only
      rw [s1, t0, t3, t2, Grid2Duc.solverTime_grazing E hE _ _ _ _
        (by simp) (by simp) (by simp; positivity)]
      dsimp only
      rw [if_neg (by linarith)]
      linarith
  have c31 : Grid2Duc.localSolverCell E g 3 w 1 = Outcome.ret g := by
    apply Grid2Duc.localSolverCell_keep E g 3 w 1
      ⟨0, 2, 1, 1, Real.sqrt 2, Real.pi / 4, Real.pi / 4⟩
    · simp [Grid2Duc.solverVars, Grid2Duc.findI0, hn, htri, hpi, hp1]
    · dsimp only
      rw [s1, t0, t3, t2, Grid2Duc.solverTime_grazing E hE _ _ _ _
        (by simp [abs_of_nonneg r0]) (by simp) (by simp; positivity)]
      dsimp only
      rw [if_pos (by linarith)]
      linarith
  have o1 : (g.nodes.getD 1 default).owners = [0] := by simp [hn]
  have o2 : (g.nodes.getD 2 default).owners = [0, 1] := by simp [hn]
  have o3 : (g.nodes.getD 3 default).owners = [1] := by simp [hn]
  refine ⟨?_, ?_, ?_⟩
  · unfold Grid2Duc.localSolver
    rw [o1, Grid2Duc.localSolverLoop, c10]
    rfl
  · unfold Grid2Duc.localSolver
    rw [o2, Grid2Duc.localSolverLoop, c20]
    show Grid2Duc.localSolverLoop E 2 w [1] g = _
    rw [Grid2Duc.localSolverLoop, c21]
    rfl
  · unfold Grid2Duc.localSolver
    rw [o3, Grid2Duc.localSolverLoop, c31]
    rfl

theorem square_settled (E : MathEnv ℝ) (hE : E.isReal) (st : SweepState ℝ) (w : Nat)
    (tt0 tt1 tt2 tt3 : List ℝ) (h0 : w < tt0.length) (h1 : w < tt1.length)
    (h2 : w < tt2.length) (h3 : w < tt3.length)
    (hn : st.grid.nodes =
      [⟨0, 0, 0, [0, 1], tt0.set w 0⟩, ⟨1, 0, 1, [0], tt1.set w 1⟩,
        ⟨1, 1, 2, [0, 1], tt2.set w (Real.sqrt 2)⟩, ⟨0, 1, 3, [1], tt3.set w 1⟩])
    (htri : st.grid.triangles =
      [⟨[0, 1, 2], [Real.pi / 4, Real.pi / 2, Real.pi / 4], [1, Real.sqrt 2, 1]⟩,
        ⟨[0, 2, 3], [Real.pi / 4, Real.pi / 4, Real.pi / 2], [1, 1, Real.sqrt 2]⟩])
    (hsl : st.grid.slowness = [1, 1])
    (hf : st.frozen = [true, false, false, false]) :
    SweepState.settled E w st := by
  obtain ⟨f1, f2, f3⟩ :=
    square_localSolver E hE st.grid.toGrid2Duc w tt0 tt1 tt2 tt3 h0 h1 h2 h3 hn htri hsl
  intro v hv
  rw [hf, hn] at hv
  rcases v with _ | _ | _ | _ | v
  · simp at hv
  · exact f1
  · exact f2
  · exact f3
  · have hd : (default : Node2Dn ℝ).gridIndex = 0 := rfl
    simp [hd] at hv

end UnitSquareSettled

section UnitSquareRun

open Grid2Duifs

/-- A point on a node of the grid passes `check_pts`. -/
theorem check_pts_onNode (E : MathEnv ℝ) (g : Grid2Duifs ℝ) (p : sxz ℝ)
    (h : Grid2Duc.onNode E g.toGrid2Duc p = true) : check_pts E g [p] = 0 := by
  simp [check_pts, Grid2Duc.checkPts, Grid2Duc.checkPtsFrom, h, Outcome.ret]

/-- Scenario S1 on the square cut through the source, the cells being
(0,1,2) and (0,2,3): `raytrace` returns 0 and the travel time `sqrt 2` for the
receiver (1,1), whatever the orderings `sorted`, `epsilon`, `nitermax`, the
number of workers and the worker slot. -/
theorem unit_square_through (E : MathEnv ℝ) (hE : E.isReal) (hs0 : 0 < E.small)
    (hs1 : E.small ≤ 1) (ht : 2 < E.tmax) (eps : ℝ) (maxit : Int) (nt w : Nat) (hw : w < nt)
    (po : Bool) (sorted : List (List Nat)) (tt : List ℝ) :
    (raytrace E (unitSquare E squareCells eps maxit nt po sorted) [⟨0, 0⟩] [0] [⟨1, 1⟩] tt w).ret =
      some 0 ∧
    (raytrace E (unitSquare E squareCells eps maxit nt po sorted) [⟨0, 0⟩] [0] [⟨1, 1⟩] tt
      w).traveltimes = [Real.sqrt 2] := by
  obtain ⟨hn, htri, hnb, hsl⟩ := unitSquare_grid E eps maxit nt po sorted
  rw [builtTriangle_main0 E hE, builtTriangle_main1 E hE] at htri
  generalize unitSquare E squareCells eps maxit nt po sorted = g at hn htri hnb hsl ⊢
  have hl : w < (List.replicate nt (0 : ℝ)).length := by simpa using hw
  have hns : ¬ (1 : ℝ) < E.small := not_lt.mpr hs1
  have hc1 : check_pts E g [⟨0, 0⟩] = 0 :=
    check_pts_onNode E g _ (by simp [Grid2Duc.onNode, hn, Node2Dn.eqPt, hs0])
  have hc2 : check_pts E g [⟨1, 1⟩] = 0 :=
    check_pts_onNode E g _ (by simp [Grid2Duc.onNode, hn, Node2Dn.eqPt, hs0])
  obtain ⟨i1, i2⟩ := sweepInit_square E hE hs0 ht g w _ _ _ _ hl hl hl hl hn hnb hsl
  have hset : SweepState.settled E w (sweepInit E g [⟨0, 0⟩] [0] w) :=
    square_settled E hE _ w _ _ _ _ hl hl hl hl (by rw [i1]) (by rw [i1]; exact htri)
      (by rw [i1]; exact hsl) i2
  obtain ⟨k1, k2, -⟩ := whileLoop_settled E w g.nitermax.toNat _ hset
  have hr : (raytraceSweeps E g [⟨0, 0⟩] [0] w).exn = none := k1
  have hg : (raytraceSweeps E g [⟨0, 0⟩] [0] w).state.grid =
      (sweepInit E g [⟨0, 0⟩] [0] w).grid := k2
  unfold raytrace
  rw [hc1, hc2, if_neg (by decide), if_neg (by decide)]
  dsimp only
  rw [hr]
  dsimp only
  rw [hg, i1]
  refine ⟨rfl, ?_⟩
  simp [Grid2Duc.getTraveltime, Node2Dn.eqPt, Node2Dn.getTT, hs0, hns, hl, hw]

end UnitSquareRun

section SolverTimesGeneric

variable {T : Type} [LinearOrderedField T]

namespace Grid2Duc

/-- The time of the local solver when the angle `theta` is positive and
above `pi/2 - beta`: the smaller of the two times along the edges. -/
theorem solverTime_corner (E : MathEnv T) (sv : SolverVars T) (s ttA ttB : T)
    (h1 : E.pi / 2 - sv.beta < E.asin (|ttB - ttA| / (sv.c * s)))
    (h2 : 0 < E.asin (|ttB - ttA| / (sv.c * s))) :
    solverTime E sv s ttA ttB =
      if ttA + sv.b * s < ttB + sv.a * s then ttA + sv.b * s else ttB + sv.a * s := by
  unfold solverTime
  dsimp only
  split
  · rw [if_neg]
    intro h
    rcases h with ⟨-, h⟩ | ⟨-, h⟩
    · exact absurd h (not_le.mpr h1)
    · split at h
      · exact absurd h (not_le.mpr h2)
      · exact absurd h (not_le.mpr h1)
  · rfl

/-- The time of the local solver when the plane wave enters through the edge
opposite to `vertexC`. -/
theorem solverTime_wave (E : MathEnv T) (sv : SolverVars T) (s ttA ttB th : T)
    (hd : |ttB - ttA| ≤ sv.c * s) (hth : E.asin (|ttB - ttA| / (sv.c * s)) = th)
    (h1 : (if 0 > sv.alpha - E.pi / 2 then 0 else sv.alpha - E.pi / 2) ≤ th)
    (h2 : th ≤ E.pi / 2 - sv.beta) :
    solverTime E sv s ttA ttB =
      1 / 2 * (sv.a * E.sin (sv.alpha - th) * s + ttB) +
        1 / 2 * (sv.b * E.sin (sv.beta + th) * s + ttA) := by
  unfold solverTime
  dsimp only
  rw [if_pos hd, hth, if_pos (Or.inl ⟨h1, h2⟩)]

end Grid2Duc

end SolverTimesGeneric

section UnitSquareAcross

open Grid2Duifs

variable {T : Type} [LinearOrderedField T]

/-- The grid of scenario S1 for the cut that does not pass through the
source. -/
theorem unitSquare_grid_across (E : MathEnv T) (eps : T) (maxit : Int) (nt : Nat) (po : Bool)
    (sorted : List (List Nat)) :
    (unitSquare E squareCellsAcross eps maxit nt po sorted).nodes =
      [⟨0, 0, 0, [0], List.replicate nt 0⟩, ⟨1, 0, 1, [0, 1], List.replicate nt 0⟩,
        ⟨1, 1, 2, [1], List.replicate nt 0⟩, ⟨0, 1, 3, [0, 1], List.replicate nt 0⟩] ∧
    (unitSquare E squareCellsAcross eps maxit nt po sorted).triangles =
      [builtTriangle E (squareNodes T) [0, 1, 3], builtTriangle E (squareNodes T) [1, 2, 3]] ∧
    (unitSquare E squareCellsAcross eps maxit nt po sorted).neighbors = [[0, 1, 3], [1, 2, 3]] ∧
    (unitSquare E squareCellsAcross eps maxit nt po sorted).slowness = [1, 1] ∧
    (unitSquare E squareCellsAcross eps maxit nt po sorted).epsilon = eps ∧
    (unitSquare E squareCellsAcross eps maxit nt po sorted).nitermax = maxit ∧
    (unitSquare E squareCellsAcross eps maxit nt po sorted).sorted = sorted := by
  obtain ⟨h1, h2, h3, h4, h5, h6, h7⟩ :=
    Grid2Duifs.new_spec E (squareNodes T) squareCellsAcross eps maxit nt po
  refine ⟨?_, ?_, ?_, ?_, ?_, ?_, rfl⟩
  · show (Grid2Duifs.new E (squareNodes T) squareCellsAcross eps maxit nt po).nodes = _
    rw [list_eq_getD4 _ default h1, h3 0 (by simp [squareNodes]), h3 1 (by simp [squareNodes]),
      h3 2 (by simp [squareNodes]), h3 3 (by simp [squareNodes])]
    simp [squareNodes]
    exact ⟨rfl, rfl, rfl, rfl⟩
  · show (Grid2Duifs.new E (squareNodes T) squareCellsAcross eps maxit nt po).triangles = _
    rw [list_eq_getD2 _ default h2, h4 0 (by decide), h4 1 (by decide)]
    rfl
  · show (Grid2Duifs.new E (squareNodes T) squareCellsAcross eps maxit nt po).neighbors = _
    rw [list_eq_getD2 _ [] h5, h6 0 (by decide), h6 1 (by decide)]
    rfl
  · show ((Grid2Duifs.new E (squareNodes T) squareCellsAcross eps maxit nt
      po).toGrid2Duc.setSlowness 1).slowness = _
    unfold Grid2Duc.setSlowness
    rw [h7]
    rfl
  · cases po <;> rfl
  · cases po <;> rfl

end UnitSquareAcross

section UnitSquareAcrossReal

open Grid2Duifs

/-- The state in which the sweeps begin on the square cut across: the node
(1,1) is no neighbour of the source and keeps the largest value. -/
theorem sweepInit_across (E : MathEnv ℝ) (hE : E.isReal) (hs0 : 0 < E.small)
    (ht : 2 < E.tmax) (g : Grid2Duifs ℝ) (w : Nat)
    (tt0 tt1 tt2 tt3 : List ℝ) (h0 : w < tt0.length) (h1 : w < tt1.length)
    (h2 : w < tt2.length) (h3 : w < tt3.length)
    (hn : g.nodes =
      [⟨0, 0, 0, [0], tt0⟩, ⟨1, 0, 1, [0, 1], tt1⟩, ⟨1, 1, 2, [1], tt2⟩, ⟨0, 1, 3, [0, 1], tt3⟩])
    (hnb : g.neighbors = [[0, 1, 3], [1, 2, 3]])
    (hsl : g.slowness = [1, 1]) :
    (sweepInit E g [⟨0, 0⟩] [0] w).grid =
      { g with
        nodes := [⟨0, 0, 0, [0], tt0.set w 0⟩, ⟨1, 0, 1, [0, 1], tt1.set w 1⟩,
          ⟨1, 1, 2, [1], tt2.set w E.tmax⟩, ⟨0, 1, 3, [0, 1], tt3.set w 1⟩] } ∧
    (sweepInit E g [⟨0, 0⟩] [0] w).frozen = [true, false, false, false] := by
  obtain ⟨⟨nth, np, nodes, slow, nbs, tris, vn⟩, eps, maxit, sorted⟩ := g
  simp only at hn hnb hsl
  subst hn hnb hsl
  obtain ⟨hs, -, -, -, -⟩ := hE
  have t1 : 1 < E.tmax := by linarith
  simp [sweepInit, reinitNodes, reinitNode, initTx, initTxFrom, initTxOne, initTxOnNode,
    initTxNeighbors, Node2Dn.reinit, Node2Dn.setTT, Node2Dn.eqPt, Node2Dn.getTT,
    Grid2Duc.setNodeTT, Grid2Duc.getNodeTT, computeDt2, Grid2Duc.computeDtNode,
    Node2Dn.getDistance, hs, hs0, List.range_succ, h0, h1, h2, h3, t1]

end UnitSquareAcrossReal

section UnitSquareAcrossSolver

open Grid2Duifs

theorem arcsin_half_sqrt_two : Real.arcsin (Real.sqrt 2 / 2) = Real.pi / 4 := by
  rw [← Real.sin_pi_div_four]
  exact Real.arcsin_sin (by linarith [Real.pi_pos]) (by linarith [Real.pi_pos])

/-- On the seeded square cut across, the local solver leaves the two
neighbours of the source and gives the node (1,1) the time of a plane wave
from the edge between them. -/
theorem across_seed_solver (E : MathEnv ℝ) (hE : E.isReal) (ht : 2 < E.tmax) (g : Grid2Duc ℝ)
    (w : Nat) (tt0 tt1 tt2 tt3 : List ℝ) (h0 : w < tt0.length) (h1 : w < tt1.length)
    (h2 : w < tt2.length) (h3 : w < tt3.length)
    (hn : g.nodes =
      [⟨0, 0, 0, [0], tt0.set w 0⟩, ⟨1, 0, 1, [0, 1], tt1.set w 1⟩,
        ⟨1, 1, 2, [1], tt2.set w E.tmax⟩, ⟨0, 1, 3, [0, 1], tt3.set w 1⟩])
    (htri : g.triangles =
      [⟨[0, 1, 3], [Real.pi / 2, Real.pi / 4, Real.pi / 4], [Real.sqrt 2, 1, 1]⟩,
        ⟨[1, 2, 3], [Real.pi / 4, Real.pi / 2, Real.pi / 4], [1, Real.sqrt 2, 1]⟩])
    (hsl : g.slowness = [1, 1]) :
    Grid2Duc.localSolver E g 1 w = Outcome.ret g ∧
    Grid2Duc.localSolver E g 3 w = Outcome.ret g ∧
    Grid2Duc.localSolver E g 2 w = Outcome.ret (g.setNodeTT 2 (1 + Real.sqrt 2 / 2) w) := by
  have hp := Real.pi_pos
  have hp1 : ¬ Real.pi / 2 < Real.pi / 4 := by linarith
  have r1 := one_lt_sqrt_two
  have r3 := sqrt_two_lt_two
  have r0 : (0 : ℝ) ≤ Real.sqrt 2 := Real.sqrt_nonneg 2
  have r2 : Real.sqrt 2 ≠ 0 := by linarith
  obtain ⟨-, hsin, hasin, -, hpi⟩ := id hE
  have t0 : g.getNodeTT 0 w = 0 := by simp [Grid2Duc.getNodeTT, Node2Dn.getTT, hn, h0]
  have t1 : g.getNodeTT 1 w = 1 := by simp [Grid2Duc.getNodeTT, Node2Dn.getTT, hn, h1]
  have t2 : g.getNodeTT 2 w = E.tmax := by simp [Grid2Duc.getNodeTT, Node2Dn.getTT, hn, h2]
  have t3 : g.getNodeTT 3 w = 1 := by simp [Grid2Duc.getNodeTT, Node2Dn.getTT, hn, h3]
  have s0 : g.slowness.getD 0 0 = 1 := by simp [hsl]
  have s1 : g.slowness.getD 1 0 = 1 := by simp [hsl]
  have c10 : Grid2Duc.localSolverCell E g 1 w 0 = Outcome.ret g := by
    apply Grid2Duc.localSolverCell_keep E g 1 w 0
      ⟨3, 0, 1, Real.sqrt 2, 1, Real.pi / 2, Real.pi / 4⟩
    · simp [Grid2Duc.solverVars, Grid2Duc.findI0, hn, htri, hpi, hp1]
    · dsimp only
      rw [s0, t0, t1, t3, Grid2Duc.solverTime_grazing E hE _ _ _ _
        (by simp) (by simp) (by simp; positivity)]
      dsimp only
      rw [if_neg (by linarith)]
      linarith
  have c11 : Grid2Duc.localSolverCell E g 1 w 1 = Outcome.ret g := by
    apply Grid2Duc.localSolverCell_keep E g 1 w 1
      ⟨2, 3, Real.sqrt 2, 1, 1, Real.pi / 4, Real.pi / 2⟩
    · simp [Grid2Duc.solverVars, Grid2Duc.findI0, hn, htri, hpi, hp1]
    · dsimp only
      rw [s1, t1, t2, t3, Grid2Duc.solverTime_far E _ _ _ _
        (by
          dsimp only
          rw [abs_sub_comm, abs_of_nonneg (by linarith)]
          linarith)]
      dsimp only
      rw [if_neg (by linarith)]
      linarith
  have c30 : Grid2Duc.localSolverCell E g 3 w 0 = Outcome.ret g := by
    apply Grid2Duc.localSolverCell_keep E g 3 w 0
      ⟨0, 1, Real.sqrt 2, 1, 1, Real.pi / 4, Real.pi / 2⟩
    · simp [Grid2Duc.solverVars, Grid2Duc.findI0, hn, htri, hpi, hp1]
    · dsimp only
      rw [s0, t0, t1, t3, Grid2Duc.solverTime_grazing E hE _ _ _ _
        (by simp) (by simp) (by simp; positivity)]
      dsimp only
      rw [if_pos (by linarith)]
      linarith
  have c31 : Grid2Duc.localSolverCell E g 3 w 1 = Outcome.ret g := by
    apply Grid2Duc.localSolverCell_keep E g 3 w 1
      ⟨1, 2, 1, Real.sqrt 2, 1, Real.pi / 2, Real.pi / 4⟩
    · simp [Grid2Duc.solverVars, Grid2Duc.findI0, hn, htri, hpi, hp1]
    · dsimp only
      rw [s1, t1, t2, t3, Grid2Duc.solverTime_far E _ _ _ _
        (by
          dsimp only
          rw [abs_of_nonneg (by linarith)]
          linarith)]
      dsimp only
      rw [if_pos (by linarith)]
      linarith
  have c21 : Grid2Duc.localSolverCell E g 2 w 1 =
      Outcome.ret (g.setNodeTT 2 (1 + Real.sqrt 2 / 2) w) := by
    apply Grid2Duc.localSolverCell_write E g 2 w 1
      ⟨3, 1, 1, 1, Real.sqrt 2, Real.pi / 4, Real.pi / 4⟩
    · simp [Grid2Duc.solverVars, Grid2Duc.findI0, hn, htri, hpi, hp1]
    · dsimp only
      rw [s1, t1, t3, Grid2Duc.solverTime_wave E _ _ _ _ 0 (by simp)
        (by simp [hasin]) (by dsimp only; rw [hpi, if_pos (by linarith)])
        (by dsimp only; rw [hpi]; linarith)]
      dsimp only
      rw [hsin, sub_zero, add_zero, Real.sin_pi_div_four]
      ring
    · rw [t2]
      linarith
  have o1 : (g.nodes.getD 1 default).owners = [0, 1] := by simp [hn]
  have o2 : (g.nodes.getD 2 default).owners = [1] := by simp [hn]
  have o3 : (g.nodes.getD 3 default).owners = [0, 1] := by simp [hn]
  refine ⟨?_, ?_, ?_⟩
  · unfold Grid2Duc.localSolver
    rw [o1, Grid2Duc.localSolverLoop, c10]
    show Grid2Duc.localSolverLoop E 1 w [1] g = _
    rw [Grid2Duc.localSolverLoop, c11]
    rfl
  · unfold Grid2Duc.localSolver
    rw [o3, Grid2Duc.localSolverLoop, c30]
    show Grid2Duc.localSolverLoop E 3 w [1] g = _
    rw [Grid2Duc.localSolverLoop, c31]
    rfl
  · unfold Grid2Duc.localSolver
    rw [o2, Grid2Duc.localSolverLoop, c21]
    rfl

/-- On the square cut across, once the node (1,1) has the time of the plane
wave, the local solver changes no node. -/
theorem across_localSolver (E : MathEnv ℝ) (hE : E.isReal) (g : Grid2Duc ℝ)
    (w : Nat) (tt0 tt1 tt2 tt3 : List ℝ) (h0 : w < tt0.length) (h1 : w < tt1.length)
    (h2 : w < tt2.length) (h3 : w < tt3.length)
    (hn : g.nodes =
      [⟨0, 0, 0, [0], tt0.set w 0⟩, ⟨1, 0, 1, [0, 1], tt1.set w 1⟩,
        ⟨1, 1, 2, [1], tt2.set w (1 + Real.sqrt 2 / 2)⟩, ⟨0, 1, 3, [0, 1], tt3.set w 1⟩])
    (htri : g.triangles =
      [⟨[0, 1, 3], [Real.pi / 2, Real.pi / 4, Real.pi / 4], [Real.sqrt 2, 1, 1]⟩,
        ⟨[1, 2, 3], [Real.pi / 4, Real.pi / 2, Real.pi / 4], [1, Real.sqrt 2, 1]⟩])
    (hsl : g.slowness = [1, 1]) :
    Grid2Duc.localSolver E g 1 w = Outcome.ret g ∧
    Grid2Duc.localSolver E g 2 w = Outcome.ret g ∧
    Grid2Duc.localSolver E g 3 w = Outcome.ret g := by
  have hp := Real.pi_pos
  have hp1 : ¬ Real.pi / 2 < Real.pi / 4 := by linarith
  have r1 := one_lt_sqrt_two
  have r3 := sqrt_two_lt_two
  have r0 : (0 : ℝ) ≤ Real.sqrt 2 := Real.sqrt_nonneg 2
  have r2 : Real.sqrt 2 ≠ 0 := by linarith
  obtain ⟨-, hsin, hasin, -, hpi⟩ := id hE
  have t0 : g.getNodeTT 0 w = 0 := by simp [Grid2Duc.getNodeTT, Node2Dn.getTT, hn, h0]
  have t1 : g.getNodeTT 1 w = 1 := by simp [Grid2Duc.getNodeTT, Node2Dn.getTT, hn, h1]
  have t2 : g.getNodeTT 2 w = 1 + Real.sqrt 2 / 2 := by
    simp [Grid2Duc.getNodeTT, Node2Dn.getTT, hn, h2]
  have t3 : g.getNodeTT 3 w = 1 := by simp [Grid2Duc.getNodeTT, Node2Dn.getTT, hn, h3]
  have s0 : g.slowness.getD 0 0 = 1 := by simp [hsl]
  have s1 : g.slowness.getD 1 0 = 1 := by simp [hsl]
  have hab : |(1 : ℝ) - (1 + Real.sqrt 2 / 2)| = Real.sqrt 2 / 2 := by
    rw [abs_sub_comm, abs_of_nonneg (by linarith)]
    ring
  have hab2 : |(1 : ℝ) + Real.sqrt 2 / 2 - 1| = Real.sqrt 2 / 2 := by
    rw [abs_of_nonneg (by linarith)]
    ring
  have c10 : Grid2Duc.localSolverCell E g 1 w 0 = Outcome.ret g := by
    apply Grid2Duc.localSolverCell_keep E g 1 w 0
      ⟨3, 0, 1, Real.sqrt 2, 1, Real.pi / 2, Real.pi / 4⟩
    · simp [Grid2Duc.solverVars, Grid2Duc.findI0, hn, htri, hpi, hp1]
    · dsimp only
      rw [s0, t0, t1, t3, Grid2Duc.solverTime_grazing E hE _ _ _ _
        (by simp) (by simp) (by simp; positivity)]
      dsimp only
      rw [if_neg (by linarith)]
      linarith
  have c11 : Grid2Duc.localSolverCell E g 1 w 1 = Outcome.ret g := by
    apply Grid2Duc.localSolverCell_keep E g 1 w 1
      ⟨2, 3, Real.sqrt 2, 1, 1, Real.pi / 4, Real.pi / 2⟩
    · simp [Grid2Duc.solverVars, Grid2Duc.findI0, hn, htri, hpi, hp1]
    · dsimp only
      have hth : E.asin (|(1 : ℝ) - (1 + Real.sqrt 2 / 2)| / (1 * 1)) = Real.pi / 4 := by
        rw [hab, hasin, mul_one, div_one, arcsin_half_sqrt_two]
      rw [s1, t1, t2, t3, Grid2Duc.solverTime_corner E _ _ _ _
        (by dsimp only; rw [hth, hpi]; linarith) (by dsimp only; rw [hth]; linarith)]
      dsimp only
      rw [if_neg (by linarith)]
      linarith
  have c30 : Grid2Duc.localSolverCell E g 3 w 0 = Outcome.ret g := by
    apply Grid2Duc.localSolverCell_keep E g 3 w 0
      ⟨0, 1, Real.sqrt 2, 1, 1, Real.pi / 4, Real.pi / 2⟩
    · simp [Grid2Duc.solverVars, Grid2Duc.findI0, hn, htri, hpi, hp1]
    · dsimp only
      rw [s0, t0, t1, t3, Grid2Duc.solverTime_grazing E hE _ _ _ _
        (by simp) (by simp) (by simp; positivity)]
      dsimp only
      rw [if_pos (by linarith)]
      linarith
  have c31 : Grid2Duc.localSolverCell E g 3 w 1 = Outcome.ret g := by
    apply Grid2Duc.localSolverCell_keep E g 3 w 1
      ⟨1, 2, 1, Real.sqrt 2, 1, Real.pi / 2, Real.pi / 4⟩
    · simp [Grid2Duc.solverVars, Grid2Duc.findI0, hn, htri, hpi, hp1]
    · dsimp only
      have hth : E.asin (|(1 : ℝ) + Real.sqrt 2 / 2 - 1| / (1 * 1)) = Real.pi / 4 := by
        rw [hab2, hasin, mul_one, div_one, arcsin_half_sqrt_two]
      rw [s1, t1, t2, t3, Grid2Duc.solverTime_wave E _ _ _ _ (Real.pi / 4)
        (by dsimp only; rw [hab2]; linarith) hth
        (by dsimp only; rw [hpi, if_neg (by linarith)]; linarith)
        (by dsimp only; rw [hpi]; linarith)]
      dsimp only
      have e1 : Real.pi / 2 - Real.pi / 4 = Real.pi / 4 := by ring
      have e2 : Real.pi / 4 + Real.pi / 4 = Real.pi / 2 := by ring
      rw [hsin, e1, e2, Real.sin_pi_div_four, Real.sin_pi_div_two]
      linarith
  have c21 : Grid2Duc.localSolverCell E g 2 w 1 = Outcome.ret g := by
    apply Grid2Duc.localSolverCell_keep E g 2 w 1
      ⟨3, 1, 1, 1, Real.sqrt 2, Real.pi / 4, Real.pi / 4⟩
    · simp [Grid2Duc.solverVars, Grid2Duc.findI0, hn, htri, hpi, hp1]
    · dsimp only
      rw [s1, t1, t2, t3, Grid2Duc.solverTime_wave E _ _ _ _ 0 (by simp)
        (by simp [hasin]) (by dsimp only; rw [hpi, if_pos (by linarith)])
        (by dsimp only; rw [hpi]; linarith)]
      dsimp only
      rw [hsin, sub_zero, add_zero, Real.sin_pi_div_four]
      linarith
  have o1 : (g.nodes.getD 1 default).owners = [0, 1] := by simp [hn]
  have o2 : (g.nodes.getD 2 default).owners = [1] := by simp [hn]
  have o3 : (g.nodes.getD 3 default).owners = [0, 1] := by simp [hn]
  refine ⟨?_, ?_, ?_⟩
  · unfold Grid2Duc.localSolver
    rw [o1, Grid2Duc.localSolverLoop, c10]
    show Grid2Duc.localSolverLoop E 1 w [1] g = _
    rw [Grid2Duc.localSolverLoop, c11]
    rfl
  · unfold Grid2Duc.localSolver
    rw [o2, Grid2Duc.localSolverLoop, c21]
    rfl
  · unfold Grid2Duc.localSolver
    rw [o3, Grid2Duc.localSolverLoop, c30]
    show Grid2Duc.localSolverLoop E 3 w [1] g = _
    rw [Grid2Duc.localSolverLoop, c31]
    rfl

end UnitSquareAcrossSolver

section SettledAfter

variable {T : Type} [LinearOrderedField T]

namespace Grid2Duifs

/-- A pass of the loop over `sorted` whose first sweep ends in a settled
state keeps the grid of that state. -/
theorem forSorted_after (E : MathEnv T) (w : Nat) (order : List Nat) (rest : List (List Nat))
    (st : SweepState T) (h1 : (sweep E w order st).exn = none)
    (hs : SweepState.settled E w (sweep E w order st).state) :
    SweepState.keeps (sweep E w order st).state (forSorted E w (order :: rest) st) := by
  rw [forSorted]
  unfold Outcome.andThen
  rw [h1]
  dsimp only
  have hs1 : SweepState.settled E w (updateError w (sweep E w order st).state) :=
    settled_congr E w _ _ rfl rfl hs
  generalize (sweep E w order st).state = s1 at hs hs1 ⊢
  split
  · exact ⟨rfl, rfl, rfl⟩
  · obtain ⟨q1, q2, q3⟩ := sweep_settled E w order.reverse _ hs1
    have hs2 : SweepState.settled E w
        (updateError w (sweep E w order.reverse (updateError w s1)).state) :=
      settled_congr E w (updateError w s1) _ q2 q3 hs1
    rw [q1]
    dsimp only
    generalize (sweep E w order.reverse (updateError w s1)).state = s2 at q2 q3 hs2 ⊢
    have q2' : s2.grid = s1.grid := q2
    have q3' : s2.frozen = s1.frozen := q3
    split
    · exact ⟨rfl, q2', q3'⟩
    · obtain ⟨p1, p2, p3⟩ := forSorted_settled E w rest _ hs2
      exact ⟨p1, p2.trans q2', p3.trans q3'⟩

end Grid2Duifs

end SettledAfter

section UnitSquareAcrossRun

open Grid2Duifs

theorem across_settled (E : MathEnv ℝ) (hE : E.isReal) (st : SweepState ℝ) (w : Nat)
    (tt0 tt1 tt2 tt3 : List ℝ) (h0 : w < tt0.length) (h1 : w < tt1.length)
    (h2 : w < tt2.length) (h3 : w < tt3.length)
    (hn : st.grid.nodes =
      [⟨0, 0, 0, [0], tt0.set w 0⟩, ⟨1, 0, 1, [0, 1], tt1.set w 1⟩,
        ⟨1, 1, 2, [1], tt2.set w (1 + Real.sqrt 2 / 2)⟩, ⟨0, 1, 3, [0, 1], tt3.set w 1⟩])
    (htri : st.grid.triangles =
      [⟨[0, 1, 3], [Real.pi / 2, Real.pi / 4, Real.pi / 4], [Real.sqrt 2, 1, 1]⟩,
        ⟨[1, 2, 3], [Real.pi / 4, Real.pi / 2, Real.pi / 4], [1, Real.sqrt 2, 1]⟩])
    (hsl : st.grid.slowness = [1, 1])
    (hf : st.frozen = [true, false, false, false]) :
    SweepState.settled E w st := by
  obtain ⟨f1, f2, f3⟩ :=
    across_localSolver E hE st.grid.toGrid2Duc w tt0 tt1 tt2 tt3 h0 h1 h2 h3 hn htri hsl
  intro v hv
  rw [hf, hn] at hv
  rcases v with _ | _ | _ | _ | v
  · simp at hv
  · exact f1
  · exact f2
  · exact f3
  · have hd : (default : Node2Dn ℝ).gridIndex = 0 := rfl
    simp [hd] at hv

/-- A sweep from the seeded state of the square cut across: it raises no
exception and keeps the frozen flags; when the node (1,1) is in the ordering
it ends in the settled state in which that node has the time of the plane
wave, otherwise it leaves the grid. -/
theorem across_sweep (E : MathEnv ℝ) (hE : E.isReal) (ht : 2 < E.tmax) (w : Nat)
    (tt0 tt1 tt2 tt3 : List ℝ) (h0 : w < tt0.length) (h1 : w < tt1.length)
    (h2 : w < tt2.length) (h3 : w < tt3.length) (order : List Nat) :
    ∀ st : SweepState ℝ,
      st.grid.nodes =
        [⟨0, 0, 0, [0], tt0.set w 0⟩, ⟨1, 0, 1, [0, 1], tt1.set w 1⟩,
          ⟨1, 1, 2, [1], tt2.set w E.tmax⟩, ⟨0, 1, 3, [0, 1], tt3.set w 1⟩] →
      st.grid.triangles =
        [⟨[0, 1, 3], [Real.pi / 2, Real.pi / 4, Real.pi / 4], [Real.sqrt 2, 1, 1]⟩,
          ⟨[1, 2, 3], [Real.pi / 4, Real.pi / 2, Real.pi / 4], [1, Real.sqrt 2, 1]⟩] →
      st.grid.slowness = [1, 1] →
      st.frozen = [true, false, false, false] →
      (sweep E w order st).exn = none ∧
      (sweep E w order st).state.frozen = st.frozen ∧
      (2 ∈ order →
        (sweep E w order st).state.grid =
          { st.grid with toGrid2Duc := st.grid.toGrid2Duc.setNodeTT 2 (1 + Real.sqrt 2 / 2) w }) ∧
      (2 ∉ order → (sweep E w order st).state.grid = st.grid) := by
  induction order with
  | nil =>
    intro st _ _ _ _
    exact ⟨rfl, rfl, fun h => absurd h (List.not_mem_nil 2), fun _ => rfl⟩
  | cons c rest ih =>
    intro st hn htri hsl hf
    obtain ⟨f1, f3, f2⟩ :=
      across_seed_solver E hE ht st.grid.toGrid2Duc w tt0 tt1 tt2 tt3 h0 h1 h2 h3 hn htri hsl
    have hd : (default : Node2Dn ℝ).gridIndex = 0 := rfl
    have hskip : ∀ s : SweepState ℝ, s.grid = st.grid → s.frozen = st.frozen →
        ((sweep E w rest s).exn = none ∧
        (sweep E w rest s).state.frozen = st.frozen ∧
        (2 ∈ rest →
          (sweep E w rest s).state.grid =
            { st.grid with
              toGrid2Duc := st.grid.toGrid2Duc.setNodeTT 2 (1 + Real.sqrt 2 / 2) w }) ∧
        (2 ∉ rest → (sweep E w rest s).state.grid = st.grid)) := by
      intro s hg hfr
      have := ih s (by rw [hg]; exact hn) (by rw [hg]; exact htri) (by rw [hg]; exact hsl)
        (by rw [hfr]; exact hf)
      rw [hg, hfr] at this
      exact this
    rw [sweep]
    rcases c with _ | _ | _ | _ | c
    · rw [if_neg (by rw [hf, hn]; simp)]
      obtain ⟨a1, a2, a3, a4⟩ := hskip st rfl rfl
      exact ⟨a1, a2, fun h => a3 (by simpa using h), fun h => a4 (by simpa using h)⟩
    · rw [if_pos (by rw [hf, hn]; simp)]
      dsimp only
      rw [f1]
      obtain ⟨a1, a2, a3, a4⟩ := hskip
        { withGrid st (Outcome.ret st.grid.toGrid2Duc : Outcome _ (Exn ℝ)).state with
          solverCalls := st.solverCalls + 1 } rfl rfl
      exact ⟨a1, a2, fun h => a3 (by simpa using h), fun h => a4 (by simpa using h)⟩
    · rw [if_pos (by rw [hf, hn]; simp)]
      dsimp only
      rw [f2]
      have hset : SweepState.settled E w
          { withGrid st (Outcome.ret (st.grid.toGrid2Duc.setNodeTT 2 (1 + Real.sqrt 2 / 2) w) :
              Outcome _ (Exn ℝ)).state with
            solverCalls := st.solverCalls + 1 } := by
        refine across_settled E hE _ w tt0 tt1 (tt2.set w E.tmax) tt3 h0 h1
          (by simpa using h2) h3 ?_ htri hsl hf
        show (st.grid.toGrid2Duc.setNodeTT 2 (1 + Real.sqrt 2 / 2) w).nodes = _
        simp [Grid2Duc.setNodeTT, Node2Dn.setTT, hn]
      obtain ⟨k1, k2, k3⟩ := sweep_settled E w rest _ hset
      exact ⟨k1, k3, fun _ => k2, fun h => absurd (List.mem_cons_self 2 rest) h⟩
    · rw [if_pos (by rw [hf, hn]; simp)]
      dsimp only
      rw [f3]
      obtain ⟨a1, a2, a3, a4⟩ := hskip
        { withGrid st (Outcome.ret st.grid.toGrid2Duc : Outcome _ (Exn ℝ)).state with
          solverCalls := st.solverCalls + 1 } rfl rfl
      exact ⟨a1, a2, fun h => a3 (by simpa using h), fun h => a4 (by simpa using h)⟩
    · rw [if_neg (by rw [hf, hn]; simp [hd])]
      obtain ⟨a1, a2, a3, a4⟩ := hskip st rfl rfl
      have hne : ¬ 2 = c + 1 + 1 + 1 + 1 := by omega
      exact ⟨a1, a2, fun h => a3 (by simpa [hne] using h), fun h => a4 (by simpa [hne] using h)⟩

end UnitSquareAcrossRun

section UnitSquareAcrossResult

open Grid2Duifs

/-- Scenario S1 on the square cut across, the cells being (0,1,3) and
(1,2,3): when the first ordering contains the node (1,1), `epsilon` is at most
the largest value and `nitermax` is at least 1, `raytrace` returns the time
`1 + sqrt 2 / 2` for the receiver (1,1). -/
theorem unit_square_across (E : MathEnv ℝ) (hE : E.isReal) (hs0 : 0 < E.small)
    (hs1 : E.small ≤ 1) (ht : 2 < E.tmax) (eps : ℝ) (heps : eps ≤ E.tmax) (maxit : Int)
    (hmax : 1 ≤ maxit) (nt w : Nat) (hw : w < nt) (po : Bool) (order : List Nat)
    (rest : List (List Nat)) (hin : 2 ∈ order) (tt : List ℝ) :
    (raytrace E (unitSquare E squareCellsAcross eps maxit nt po (order :: rest)) [⟨0, 0⟩] [0]
      [⟨1, 1⟩] tt w).ret = some 0 ∧
    (raytrace E (unitSquare E squareCellsAcross eps maxit nt po (order :: rest)) [⟨0, 0⟩] [0]
      [⟨1, 1⟩] tt w).traveltimes = [1 + Real.sqrt 2 / 2] := by
  obtain ⟨hn, htri, hnb, hsl, he, hm, hso⟩ :=
    unitSquare_grid_across E eps maxit nt po (order :: rest)
  rw [builtTriangle_across0 E hE, builtTriangle_across1 E hE] at htri
  generalize unitSquare E squareCellsAcross eps maxit nt po (order :: rest) = g
    at hn htri hnb hsl he hm hso ⊢
  have hl : w < (List.replicate nt (0 : ℝ)).length := by simpa using hw
  have hns : ¬ (1 : ℝ) < E.small := not_lt.mpr hs1
  have hc1 : check_pts E g [⟨0, 0⟩] = 0 :=
    check_pts_onNode E g _ (by simp [Grid2Duc.onNode, hn, Node2Dn.eqPt, hs0])
  have hc2 : check_pts E g [⟨1, 1⟩] = 0 :=
    check_pts_onNode E g _ (by simp [Grid2Duc.onNode, hn, Node2Dn.eqPt, hs0])
  obtain ⟨i1, i2⟩ := sweepInit_across E hE hs0 ht g w _ _ _ _ hl hl hl hl hn hnb hsl
  obtain ⟨k, hk⟩ : ∃ k, g.nitermax.toNat = k + 1 := by
    refine ⟨g.nitermax.toNat - 1, ?_⟩
    rw [hm]
    omega
  have herr : (sweepInit E g [⟨0, 0⟩] [0] w).error = E.tmax := rfl
  have hni : (sweepInit E g [⟨0, 0⟩] [0] w).niter = 0 := rfl
  have hcond : (sweepInit E g [⟨0, 0⟩] [0] w).error ≥ (sweepInit E g [⟨0, 0⟩] [0] w).grid.epsilon ∧
      (sweepInit E g [⟨0, 0⟩] [0] w).niter < (sweepInit E g [⟨0, 0⟩] [0] w).grid.nitermax := by
    rw [herr, hni, i1]
    show g.epsilon ≤ E.tmax ∧ 0 < g.nitermax
    rw [he, hm]
    exact ⟨heps, by omega⟩
  have hsorted : (sweepInit E g [⟨0, 0⟩] [0] w).grid.sorted = order :: rest := by
    rw [i1]
    exact hso
  generalize hst0 : sweepInit E g [⟨0, 0⟩] [0] w = st0 at i1 i2 hcond hsorted
  obtain ⟨a1, a2, a3, -⟩ := across_sweep E hE ht w _ _ _ _ hl hl hl hl order
    { st0 with passes := st0.passes + 1 } (by rw [i1]) (by rw [i1]; exact htri)
    (by rw [i1]; exact hsl) i2
  have a3' := a3 hin
  have hset : SweepState.settled E w
      (sweep E w order { st0 with passes := st0.passes + 1 }).state := by
    refine across_settled E hE _ w _ _ ((List.replicate nt 0).set w E.tmax) _ hl hl
      (by simpa using hw) hl ?_ ?_ ?_ (a2.trans i2)
    · rw [a3']
      show (st0.grid.toGrid2Duc.setNodeTT 2 (1 + Real.sqrt 2 / 2) w).nodes = _
      rw [i1]
      simp [Grid2Duc.setNodeTT, Node2Dn.setTT]
    · rw [a3']
      show st0.grid.triangles = _
      rw [i1]
      exact htri
    · rw [a3']
      show st0.grid.slowness = _
      rw [i1]
      exact hsl
  have hP : SweepState.keeps (sweep E w order { st0 with passes := st0.passes + 1 }).state
      (whilePass E w st0) := by
    unfold whilePass
    rw [hsorted]
    exact keeps_andThen _ _ _ (forSorted_after E w order rest _ a1 hset) ⟨rfl, rfl, rfl⟩
  have hW : SweepState.keeps (sweep E w order { st0 with passes := st0.passes + 1 }).state
      (whileLoop E w (k + 1) st0) := by
    rw [whileLoop, if_pos hcond]
    exact keeps_andThen _ _ _ hP
      (whileLoop_settled E w k _ (settled_congr E w _ _ hP.2.1 hP.2.2 hset))
  have hrs : raytraceSweeps E g [⟨0, 0⟩] [0] w = whileLoop E w (k + 1) st0 := by
    unfold raytraceSweeps
    rw [hk, hst0]
  obtain ⟨w1, w2, -⟩ := hW
  unfold raytrace
  rw [hc1, hc2, if_neg (by decide), if_neg (by decide)]
  dsimp only
  rw [hrs, w1]
  dsimp only
  rw [w2, a3']
  refine ⟨rfl, ?_⟩
  show [Grid2Duc.getTraveltime E (st0.grid.toGrid2Duc.setNodeTT 2 (1 + Real.sqrt 2 / 2) w)
    ⟨1, 1⟩ w] = _
  rw [i1]
  simp [Grid2Duc.getTraveltime, Grid2Duc.setNodeTT, Node2Dn.setTT, Node2Dn.eqPt, Node2Dn.getTT,
    hs0, hns, hl, hw]

end UnitSquareAcrossResult

section UnitSquareClaim

open Grid2Duifs

/-- Claim C15, amended. In exact real arithmetic, on the unit square with
corners (0,0),(1,0),(1,1),(0,1), slowness 1, the source (0,0) with `t0 = 0`
and the receiver (1,1): when the square is cut through the source, into the
cells (0,1,2) and (0,2,3), `raytrace` returns the travel time `sqrt 2`,
whatever the orderings, `epsilon`, `nitermax` and the flag `procObtuse`; when
it is cut along the other diagonal, into the cells (0,1,3) and (1,2,3), the
grid is constructed with `procObtuse = false`, the first ordering contains the
node (1,1), `epsilon` is at most the largest value and `nitermax` is at least
1, `raytrace` returns `1 + sqrt 2 / 2`. -/
theorem unit_square_traveltime (E : MathEnv ℝ) (hE : E.isReal) (hs0 : 0 < E.small)
    (hs1 : E.small ≤ 1) (ht : 2 < E.tmax) (eps : ℝ) (maxit : Int) (nt w : Nat) (hw : w < nt)
    (tt : List ℝ) :
    (∀ (po : Bool) (sorted : List (List Nat)),
      (raytrace E (unitSquare E squareCells eps maxit nt po sorted) [⟨0, 0⟩] [0] [⟨1, 1⟩] tt
        w).ret = some 0 ∧
      (raytrace E (unitSquare E squareCells eps maxit nt po sorted) [⟨0, 0⟩] [0] [⟨1, 1⟩] tt
        w).traveltimes = [Real.sqrt 2]) ∧
    (eps ≤ E.tmax → 1 ≤ maxit → ∀ (order : List Nat) (rest : List (List Nat)), 2 ∈ order →
      (raytrace E (unitSquare E squareCellsAcross eps maxit nt false (order :: rest)) [⟨0, 0⟩]
        [0] [⟨1, 1⟩] tt w).ret = some 0 ∧
      (raytrace E (unitSquare E squareCellsAcross eps maxit nt false (order :: rest)) [⟨0, 0⟩]
        [0] [⟨1, 1⟩] tt w).traveltimes = [1 + Real.sqrt 2 / 2]) :=
  ⟨fun po sorted => unit_square_through E hE hs0 hs1 ht eps maxit nt w hw po sorted tt,
    fun heps hmax order rest hin =>
      unit_square_across E hE hs0 hs1 ht eps heps maxit hmax nt w hw false order rest hin tt⟩

/-- Claim C15 as amended, on both cuts of the square with the ordering of the
nodes by distance from (0,0), `epsilon = 1/1000`, `nitermax = 10` and
`procObtuse = false`. -/
theorem unit_square_traveltime_witness :
    ∃ E : MathEnv ℝ, E.isReal ∧ 0 < E.small ∧ E.small ≤ 1 ∧ 2 < E.tmax ∧ 0 < 2 ∧
      (raytrace E (unitSquare E squareCells (1 / 1000) 10 2 false [[0, 1, 3, 2]]) [⟨0, 0⟩] [0]
        [⟨1, 1⟩] [] 0).traveltimes = [Real.sqrt 2] ∧
      (raytrace E (unitSquare E squareCellsAcross (1 / 1000) 10 2 false [[0, 1, 3, 2]])
        [⟨0, 0⟩] [0] [⟨1, 1⟩] [] 0).traveltimes = [1 + Real.sqrt 2 / 2] :=
  ⟨⟨Real.sqrt, Real.sin, Real.arcsin, Real.arccos, Real.pi, 1 / 100000, 1000000000⟩,
    ⟨rfl, rfl, rfl, rfl, rfl⟩, by norm_num, by norm_num, by norm_num, by decide,
    ((unit_square_traveltime
      ⟨Real.sqrt, Real.sin, Real.arcsin, Real.arccos, Real.pi, 1 / 100000, 1000000000⟩
      ⟨rfl, rfl, rfl, rfl, rfl⟩ (by norm_num) (by norm_num) (by norm_num) (1 / 1000) 10 2 0
      (by decide) []).1 false [[0, 1, 3, 2]]).2,
    ((unit_square_traveltime
      ⟨Real.sqrt, Real.sin, Real.arcsin, Real.arccos, Real.pi, 1 / 100000, 1000000000⟩
      ⟨rfl, rfl, rfl, rfl, rfl⟩ (by norm_num) (by norm_num) (by norm_num) (1 / 1000) 10 2 0
      (by decide) []).2 (by norm_num) (by decide) [0, 1, 3, 2] [] (by decide)).2⟩

/-- Scenario S1 on the square cut along the diagonal that does not pass
through the source, constructed with `procObtuse = false`, with the ordering
of `initOrdering` for the reference point (0,0), `epsilon = 1/1000` and
`nitermax = 10`: the travel time returned for the receiver (1,1) is
`1 + sqrt 2 / 2`, which is not `sqrt 2`. -/
theorem unit_square_across_not_sqrt_two :
    (raytrace ⟨Real.sqrt, Real.sin, Real.arcsin, Real.arccos, Real.pi, 1 / 100000, 1000000000⟩
      (unitSquare ⟨Real.sqrt, Real.sin, Real.arcsin, Real.arccos, Real.pi, 1 / 100000, 1000000000⟩
        squareCellsAcross (1 / 1000) 10 2 false [[0, 1, 3, 2]])
      [⟨0, 0⟩] [0] [⟨1, 1⟩] [] 0).ret = some 0 ∧
    (raytrace ⟨Real.sqrt, Real.sin, Real.arcsin, Real.arccos, Real.pi, 1 / 100000, 1000000000⟩
      (unitSquare ⟨Real.sqrt, Real.sin, Real.arcsin, Real.arccos, Real.pi, 1 / 100000, 1000000000⟩
        squareCellsAcross (1 / 1000) 10 2 false [[0, 1, 3, 2]])
      [⟨0, 0⟩] [0] [⟨1, 1⟩] [] 0).traveltimes = [1 + Real.sqrt 2 / 2] ∧
    (raytrace ⟨Real.sqrt, Real.sin, Real.arcsin, Real.arccos, Real.pi, 1 / 100000, 1000000000⟩
      (unitSquare ⟨Real.sqrt, Real.sin, Real.arcsin, Real.arccos, Real.pi, 1 / 100000, 1000000000⟩
        squareCellsAcross (1 / 1000) 10 2 false [[0, 1, 3, 2]])
      [⟨0, 0⟩] [0] [⟨1, 1⟩] [] 0).traveltimes ≠ [Real.sqrt 2] := by
  obtain ⟨h1, h2⟩ := unit_square_across
    ⟨Real.sqrt, Real.sin, Real.arcsin, Real.arccos, Real.pi, 1 / 100000, 1000000000⟩
    ⟨rfl, rfl, rfl, rfl, rfl⟩ (by norm_num) (by norm_num) (by norm_num) (1 / 1000)
    (by norm_num) 10 (by decide) 2 0 (by decide) false [0, 1, 3, 2] [] (by decide) []
  refine ⟨h1, h2, ?_⟩
  rw [h2]
  intro h
  have h3 : 1 + Real.sqrt 2 / 2 = Real.sqrt 2 := by simpa using h
  linarith [sqrt_two_lt_two]

end UnitSquareClaim

section InsideTriangle

variable {T : Type} [LinearOrderedField T]

namespace Grid2Duc

/-- The test of `insideTriangle` on barycentric coordinates of the point. -/
theorem insideTriangle_of_coords (g : Grid2Duc T) (nt : Nat) (hdet : g.nondegenerate nt)
    (v : sxz T) (a b : T) (hab : g.barycentric nt v a b) :
    insideTriangle g v nt = true ↔ 0 ≤ a ∧ 0 ≤ b ∧ a + b < 1 := by
  obtain ⟨hx, hz⟩ := hab
  unfold nondegenerate at hdet
  unfold corner at hx hz hdet
  unfold insideTriangle det
  dsimp only
  generalize (g.nodes.getD ((g.triangles.getD nt default).i.getD 0 0) default) = n0 at hdet hx hz ⊢
  generalize (g.nodes.getD ((g.triangles.getD nt default).i.getD 1 0) default) = n1 at hdet hx hz ⊢
  generalize (g.nodes.getD ((g.triangles.getD nt default).i.getD 2 0) default) = n2 at hdet hx hz ⊢
  unfold det at hdet
  dsimp only at hdet hx hz
  rw [if_neg hdet]
  have ha : (v.x * (n2.z - n0.z) - v.z * (n2.x - n0.x) -
      (n0.x * (n2.z - n0.z) - n0.z * (n2.x - n0.x))) *
      (1 / ((n1.x - n0.x) * (n2.z - n0.z) - (n1.z - n0.z) * (n2.x - n0.x))) = a := by
    rw [hx, hz]
    field_simp
    ring
  have hb : -(v.x * (n1.z - n0.z) - v.z * (n1.x - n0.x) -
      (n0.x * (n1.z - n0.z) - n0.z * (n1.x - n0.x))) *
      (1 / ((n1.x - n0.x) * (n2.z - n0.z) - (n1.z - n0.z) * (n2.x - n0.x))) = b := by
    rw [hx, hz]
    field_simp
    ring
  rw [ha, hb]
  simp [Bool.and_eq_true, decide_eq_true_eq, and_assoc]

/-- Every point has barycentric coordinates with respect to a triangle that
is not degenerate. -/
theorem barycentric_exists (g : Grid2Duc T) (nt : Nat) (hdet : g.nondegenerate nt)
    (v : sxz T) : ∃ a b, g.barycentric nt v a b := by
  unfold nondegenerate at hdet
  unfold barycentric
  generalize g.corner nt 0 = p0 at hdet ⊢
  generalize g.corner nt 1 = p1 at hdet ⊢
  generalize g.corner nt 2 = p2 at hdet ⊢
  unfold det at hdet
  dsimp only at hdet
  refine ⟨((v.x - p0.x) * (p2.z - p0.z) - (v.z - p0.z) * (p2.x - p0.x)) /
      ((p1.x - p0.x) * (p2.z - p0.z) - (p1.z - p0.z) * (p2.x - p0.x)),
    ((p1.x - p0.x) * (v.z - p0.z) - (p1.z - p0.z) * (v.x - p0.x)) /
      ((p1.x - p0.x) * (p2.z - p0.z) - (p1.z - p0.z) * (p2.x - p0.x)), ?_, ?_⟩
  · field_simp
    ring
  · field_simp
    ring

/-- Claim C22, amended. In exact arithmetic, for a triangle `nt` that is not
degenerate, every point has barycentric coordinates `(a, b)` (origin at the
first vertex, axes along the two edges from it), and `insideTriangle(v, nt)`
is true if and only if `a ≥ 0`, `b ≥ 0` and `a + b < 1`, the last inequality
being strict. -/
theorem insideTriangle_iff (g : Grid2Duc T) (nt : Nat) (hdet : g.nondegenerate nt) :
    (∀ v : sxz T, ∃ a b, g.barycentric nt v a b) ∧
    (∀ (v : sxz T) (a b : T), g.barycentric nt v a b →
      (insideTriangle g v nt = true ↔ 0 ≤ a ∧ 0 ≤ b ∧ a + b < 1)) :=
  ⟨barycentric_exists g nt hdet, insideTriangle_of_coords g nt hdet⟩

end Grid2Duc

/-- Claim C22 as amended, on the cell 0 of the rectangle, the triangle
(0,0), (4,0), (4,3), and the point (3,1), of coordinates (5/12, 1/3). -/
theorem insideTriangle_iff_witness :
    rectangle.toGrid2Duc.nondegenerate 0 ∧
    (Grid2Duc.insideTriangle rectangle.toGrid2Duc ⟨3, 1⟩ 0 = true ↔
      (0 : ℚ) ≤ 5 / 12 ∧ (0 : ℚ) ≤ 1 / 3 ∧ (5 / 12 + 1 / 3 : ℚ) < 1) :=
  ⟨by decide!, (Grid2Duc.insideTriangle_iff rectangle.toGrid2Duc 0 (by decide!)).2
    ⟨3, 1⟩ (5 / 12) (1 / 3) (by decide!)⟩

/-- Claim C22 as stated fails. In the cell 0 of the rectangle, with vertices
(0,0), (4,0), (4,3), the midpoint (4, 3/2) of the edge opposite to the first
vertex has the barycentric coordinates (1/2, 1/2), which satisfy `a ≥ 0`,
`b ≥ 0` and `a + b ≤ 1`, and `insideTriangle` returns false for it; the
point is in no cell of the mesh. -/
theorem edge_point_not_inside :
    rectangle.toGrid2Duc.nondegenerate 0 ∧
    rectangle.toGrid2Duc.barycentric 0 ⟨4, 3 / 2⟩ (1 / 2) (1 / 2) ∧
    ((0 : ℚ) ≤ 1 / 2 ∧ (0 : ℚ) ≤ 1 / 2 ∧ (1 / 2 + 1 / 2 : ℚ) ≤ 1) ∧
    Grid2Duc.insideTriangle rectangle.toGrid2Duc ⟨4, 3 / 2⟩ 0 = false ∧
    Grid2Duc.inSomeTriangle rectangle.toGrid2Duc ⟨4, 3 / 2⟩ = false := by
  decide!

end InsideTriangle

section ObtuseSearch

variable {T : Type} [LinearOrderedField T]

/-- A loop reaches a property that the step for one of its elements
establishes and that every step keeps. -/
theorem foldl_reaches {α β : Type} (f : α → β → α) (Inv Q : α → Prop)
    (hInv : ∀ a b, Inv a → Inv (f a b)) (hQ : ∀ a b, Inv a → Q a → Q (f a b)) (x : β)
    (hx : ∀ a, Inv a → Q (f a x)) :
    ∀ (l : List β) (a : α), x ∈ l → Inv a → Q (l.foldl f a) ∧ Inv (l.foldl f a) := by
  have hkeep : ∀ (l : List β) (a : α), Inv a → Q a → Q (l.foldl f a) ∧ Inv (l.foldl f a) := by
    intro l
    induction l with
    | nil => intro a ha hq; exact ⟨hq, ha⟩
    | cons b l ih => intro a ha hq; exact ih (f a b) (hInv a b ha) (hQ a b ha hq)
  intro l
  induction l with
  | nil => intro a h; exact absurd h (List.not_mem_nil x)
  | cons b l ih =>
    intro a hmem ha
    rw [List.foldl_cons]
    rcases List.mem_cons.mp hmem with h | h
    · subst h
      exact hkeep l (f a x) (hInv a x ha) (hx a ha)
    · exact ih (f a b) h (hInv a b ha)

namespace Grid2Duc

theorem insertVirtualNode_keeps (m : List (Nat × virtualNode T)) (ntri k : Nat)
    (vn : virtualNode T) (h : (m.lookup k).isSome = true) :
    ((insertVirtualNode m ntri vn).lookup k).isSome = true := by
  unfold insertVirtualNode
  split
  · exact h
  · rw [List.lookup_append]
    cases hk : m.lookup k with
    | none => rw [hk] at h; exact Bool.noConfusion h
    | some v => rfl

theorem insertVirtualNode_stores (m : List (Nat × virtualNode T)) (ntri : Nat)
    (vn : virtualNode T) : ((insertVirtualNode m ntri vn).lookup ntri).isSome = true := by
  cases hk : m.lookup ntri with
  | none => rw [lookup_insertVirtualNode m ntri vn hk]; rfl
  | some v =>
    unfold insertVirtualNode
    rw [hk]
    dsimp only
    rw [hk]
    rfl

/-- The search for the opposite triangle finds a triangle as soon as the two
nodes have a common owner. -/
theorem oppositeTriangle_isSome (g : Grid2Duc T) (i1 i2 m : Nat)
    (h1 : m ∈ (g.nodes.getD i1 default).owners) (h2 : m ∈ (g.nodes.getD i2 default).owners) :
    ∃ o, oppositeTriangle g i1 i2 = some o := by
  unfold oppositeTriangle
  cases hq : (g.nodes.getD i1 default).owners.findSome? (fun o1 =>
      (g.nodes.getD i2 default).owners.find? (fun o2 => o2 = o1)) with
  | some o => exact ⟨o, rfl⟩
  | none =>
    have h := List.findSome?_eq_none_iff.mp hq m h1
    have h' := List.find?_eq_none.mp h m h2
    simp at h'

theorem processVertex_keeps (E : MathEnv T) (g : Grid2Duc T) (ntri n k : Nat)
    (h : (g.virtualNodes.lookup k).isSome = true) :
    ((processVertex E g ntri n).virtualNodes.lookup k).isSome = true := by
  unfold processVertex
  dsimp only
  split
  · split
    · exact h
    · exact insertVirtualNode_keeps _ _ _ _ h
  · exact h

/-- The step of `processObtuse` for a vertex with an angle above `pi/2` stores
a record for the triangle as soon as the triangle is among the owners of the
two other vertices. -/
theorem processVertex_stores (E : MathEnv T) (g : Grid2Duc T) (ntri n : Nat)
    (hob : (g.triangles.getD ntri default).a.getD n 0 > E.pi / 2)
    (h1 : ntri ∈ (g.nodes.getD ((g.triangles.getD ntri default).i.getD ((n + 1) % 3) 0)
      default).owners)
    (h2 : ntri ∈ (g.nodes.getD ((g.triangles.getD ntri default).i.getD ((n + 2) % 3) 0)
      default).owners) :
    ((processVertex E g ntri n).virtualNodes.lookup ntri).isSome = true := by
  obtain ⟨o, ho⟩ := oppositeTriangle_isSome g _ _ ntri h1 h2
  unfold processVertex
  dsimp only
  rw [if_pos hob, ho]
  exact insertVirtualNode_stores _ _ _

/-- `processObtuse` stores a record for every triangle that has an angle above
`pi/2` and is among the owners of the two other vertices. -/
theorem processObtuse_stores (E : MathEnv T) (g : Grid2Duc T) (ntri n : Nat)
    (ht : ntri < g.triangles.length) (hn : n < 3)
    (hob : (g.triangles.getD ntri default).a.getD n 0 > E.pi / 2)
    (h1 : ntri ∈ (g.nodes.getD ((g.triangles.getD ntri default).i.getD ((n + 1) % 3) 0)
      default).owners)
    (h2 : ntri ∈ (g.nodes.getD ((g.triangles.getD ntri default).i.getD ((n + 2) % 3) 0)
      default).owners) :
    (((processObtuse E g).virtualNodes.lookup ntri).isSome = true) := by
  have hInvV : ∀ (a : Grid2Duc T) (t m : Nat), sameButVirtual g a →
      sameButVirtual g (processVertex E a t m) :=
    fun a t m ha => sameButVirtual_trans _ _ _ ha (processVertex_sameButVirtual E a t m)
  have hinner : ∀ (a : Grid2Duc T) (t : Nat), sameButVirtual g a →
      sameButVirtual g ((List.range 3).foldl (fun g n => processVertex E g t n) a) :=
    fun a t ha => sameButVirtual_trans _ _ _ ha
      (foldl_rel sameButVirtual sameButVirtual_refl sameButVirtual_trans _
        (fun a n => processVertex_sameButVirtual E a t n) _ a)
  have hkeepInner : ∀ (a : Grid2Duc T) (t : Nat),
      (a.virtualNodes.lookup ntri).isSome = true →
      (((List.range 3).foldl (fun g n => processVertex E g t n) a).virtualNodes.lookup
        ntri).isSome = true := by
    intro a t ha
    exact foldl_rel (fun (x y : Grid2Duc T) => (x.virtualNodes.lookup ntri).isSome = true →
        (y.virtualNodes.lookup ntri).isSome = true) (fun _ h => h)
      (fun _ _ _ h1 h2 h => h2 (h1 h)) _
      (fun x m => processVertex_keeps E x t m ntri) _ a ha
  unfold processObtuse
  refine (foldl_reaches (fun g t => (List.range 3).foldl (fun g n => processVertex E g t n) g)
    (sameButVirtual g) (fun a => (a.virtualNodes.lookup ntri).isSome = true)
    (fun a t ha => hinner a t ha) (fun a t _ hq => hkeepInner a t hq) ntri ?_
    (List.range g.triangles.length) g (List.mem_range.mpr ht) (sameButVirtual_refl g)).1
  intro a ha
  refine (foldl_reaches (fun g n => processVertex E g ntri n)
    (sameButVirtual g) (fun a => (a.virtualNodes.lookup ntri).isSome = true)
    (fun a m ha => hInvV a ntri m ha) (fun a m _ hq => processVertex_keeps E a ntri m ntri hq) n ?_
    (List.range 3) a (List.mem_range.mpr hn) ha).1
  intro b hb
  obtain ⟨e1, e2, -⟩ := hb
  apply processVertex_stores
  · rw [e2]; exact hob
  · rw [e1, e2]; exact h1
  · rw [e1, e2]; exact h2

end Grid2Duc

end ObtuseSearch

section ObtuseSearchGrid

variable {T : Type} [LinearOrderedField T]

theorem getD_mem_cellVertices (i : List Nat) (n : Nat) (hn : n < 3) :
    i.getD n 0 ∈ cellVertices i := by
  unfold cellVertices
  interval_cases n <;> simp

/-- Claim C26, the divergence. In the constructed grid, `processObtuse` stores
a record for every triangle `t` that has an angle above `pi/2` at one of its
vertices, whether the opposite edge belongs to another triangle or not: the
search among the owners of the two other vertices always finds a triangle, if
none else `t` itself, so that the branch for an edge of the boundary is never
taken. -/
theorem Grid2Duifs.boundary_record_stored (E : MathEnv T) (no : List (sxz T))
    (tri : List (List Nat)) (eps : T) (maxit : Int) (nt : Nat) (t n : Nat)
    (ht : t < tri.length) (hn : n < 3)
    (hv1 : (tri.getD t []).getD ((n + 1) % 3) 0 < no.length)
    (hv2 : (tri.getD t []).getD ((n + 2) % 3) 0 < no.length)
    (hob : ((Grid2Duifs.new E no tri eps maxit nt true).triangles.getD t default).a.getD n 0 >
      E.pi / 2) :
    ((Grid2Duifs.new E no tri eps maxit nt true).virtualNodes.lookup t).isSome = true := by
  obtain ⟨-, a2, a3, a4, -⟩ := Grid2Duifs.new_spec E no tri eps maxit nt false
  obtain ⟨-, -, -, b4, -⟩ := Grid2Duifs.new_spec E no tri eps maxit nt true
  have hi : ((Grid2Duifs.new E no tri eps maxit nt false).triangles.getD t default).i =
      tri.getD t [] := by
    rw [a4 t ht]
    rfl
  have hstep : (Grid2Duifs.new E no tri eps maxit nt true).toGrid2Duc =
      (Grid2Duifs.new E no tri eps maxit nt false).toGrid2Duc.processObtuse E := rfl
  show ((Grid2Duifs.new E no tri eps maxit nt true).toGrid2Duc.virtualNodes.lookup t).isSome = true
  rw [hstep]
  apply Grid2Duc.processObtuse_stores E _ t n (by rw [a2]; exact ht) hn
  · rw [a4 t ht, ← b4 t ht]
    exact hob
  · rw [hi, a3 _ hv1]
    exact (mem_ownersUpTo_iff tri tri.length _ t).mpr
      ⟨ht, getD_mem_cellVertices _ _ (Nat.mod_lt _ (by decide))⟩
  · rw [hi, a3 _ hv2]
    exact (mem_ownersUpTo_iff tri tri.length _ t).mpr
      ⟨ht, getD_mem_cellVertices _ _ (Nat.mod_lt _ (by decide))⟩

theorem boundary_record_stored_witness :
    0 < wedgeCells.length ∧ 0 < 3 ∧
    (wedgeCells.getD 0 []).getD ((0 + 1) % 3) 0 < (kiteNodes ℚ).length ∧
    (wedgeCells.getD 0 []).getD ((0 + 2) % 3) 0 < (kiteNodes ℚ).length ∧
    ((Grid2Duifs.new exampleEnv (kiteNodes ℚ) wedgeCells (1 / 1000) 10 1
      true).triangles.getD 0 default).a.getD 0 0 > exampleEnv.pi / 2 ∧
    ((Grid2Duifs.new exampleEnv (kiteNodes ℚ) wedgeCells (1 / 1000) 10 1
      true).virtualNodes.lookup 0).isSome = true :=
  ⟨by decide, by decide, by decide, by decide, by decide!,
    Grid2Duifs.boundary_record_stored exampleEnv (kiteNodes ℚ) wedgeCells (1 / 1000) 10 1 0 0
      (by decide) (by decide) (by decide) (by decide) (by decide!)⟩

/-- On the mesh of the one triangle (0,0), (4,3), (-4,3), obtuse at (0,0),
the edge opposite to the obtuse vertex is on the boundary, and `processObtuse`
stores for the triangle a record with the obtuse vertex itself as second node
and the edges 5, 0, 5. -/
theorem wedge_record_stored :
    (∀ c, c < wedgeCells.length → c ≠ 0 →
      ¬ (1 ∈ cellVertices (wedgeCells.getD c []) ∧ 2 ∈ cellVertices (wedgeCells.getD c []))) ∧
    ((Grid2Duifs.new exampleEnv (kiteNodes ℚ) wedgeCells (1 / 1000) 10 1
      true).triangles.getD 0 default).a.getD 0 0 > exampleEnv.pi / 2 ∧
    ((Grid2Duifs.new exampleEnv (kiteNodes ℚ) wedgeCells (1 / 1000) 10 1
        true).virtualNodes.lookup 0).map (fun vn => (vn.node1, vn.node2, vn.e))
      = some (1, 0, [5, 0, 5]) := by
  decide!

/-- Claim C27, the divergence. In the constructed grid, when the edge between
the nodes `i1` and `i2` belongs to the two triangles `t < t'` and to no other,
the search for the opposite triangle across that edge returns `t`, the one of
smaller index: made for the triangle `t'` it selects the other triangle, made
for the triangle `t` it selects `t` itself. -/
theorem Grid2Duifs.oppositeTriangle_least (E : MathEnv T) (no : List (sxz T))
    (tri : List (List Nat)) (eps : T) (maxit : Int) (nt : Nat) (po : Bool) (t t' i1 i2 : Nat)
    (hlt : t < t') (ht' : t' < tri.length) (hv1 : i1 < no.length) (hv2 : i2 < no.length)
    (huniq : ∀ c, c < tri.length → (cellVertices (tri.getD c [])).Nodup)
    (h1 : i1 ∈ cellVertices (tri.getD t [])) (h2 : i2 ∈ cellVertices (tri.getD t []))
    (honly : ∀ c, c < tri.length → i1 ∈ cellVertices (tri.getD c []) →
      i2 ∈ cellVertices (tri.getD c []) → c = t ∨ c = t') :
    Grid2Duc.oppositeTriangle (Grid2Duifs.new E no tri eps maxit nt po).toGrid2Duc i1 i2 =
      some t ∧ t ≠ t' := by
  refine ⟨?_, Nat.ne_of_lt hlt⟩
  apply Grid2Duifs.new_oppositeTriangle_self E no tri eps maxit nt po t i1 i2
    (Nat.lt_trans hlt ht') hv1 hv2 huniq h1 h2
  intro c hc hc1 hc2
  rcases honly c (Nat.lt_trans hc (Nat.lt_trans hlt ht')) hc1 hc2 with h | h
  · exact absurd h (Nat.ne_of_lt hc)
  · exact absurd h (Nat.ne_of_lt (Nat.lt_trans hc hlt))

theorem oppositeTriangle_least_witness :
    0 < 1 ∧ 1 < kiteCells.length ∧ 1 < (kiteNodes ℚ).length ∧ 2 < (kiteNodes ℚ).length ∧
    (∀ c, c < kiteCells.length → (cellVertices (kiteCells.getD c [])).Nodup) ∧
    1 ∈ cellVertices (kiteCells.getD 0 []) ∧ 2 ∈ cellVertices (kiteCells.getD 0 []) ∧
    (∀ c, c < kiteCells.length → 1 ∈ cellVertices (kiteCells.getD c []) →
      2 ∈ cellVertices (kiteCells.getD c []) → c = 0 ∨ c = 1) ∧
    Grid2Duc.oppositeTriangle
      (Grid2Duifs.new exampleEnv (kiteNodes ℚ) kiteCells (1 / 1000) 10 1 true).toGrid2Duc 1 2 =
        some 0 ∧ 0 ≠ 1 :=
  ⟨by decide, by decide, by decide, by decide, by decide, by decide, by decide, by decide,
    Grid2Duifs.oppositeTriangle_least exampleEnv (kiteNodes ℚ) kiteCells (1 / 1000) 10 1 true
      0 1 1 2 (by decide) (by decide) (by decide) (by decide) (by decide) (by decide)
      (by decide) (by decide)⟩

/-- On the kite, cell 0 is obtuse at node 0 and its opposite edge, between
the nodes 1 and 2, is shared with cell 1 only; the search made for cell 0
returns cell 0, and the node taken as opposite is node 0 itself. -/
theorem kite_opposite_self :
    ((Grid2Duifs.new exampleEnv (kiteNodes ℚ) kiteCells (1 / 1000) 10 1
      false).triangles.getD 0 default).a.getD 0 0 > exampleEnv.pi / 2 ∧
    Grid2Duc.oppositeTriangle
      (Grid2Duifs.new exampleEnv (kiteNodes ℚ) kiteCells (1 / 1000) 10 1 false).toGrid2Duc
      1 2 = some 0 ∧
    Grid2Duc.oppositeNode
      (Grid2Duifs.new exampleEnv (kiteNodes ℚ) kiteCells (1 / 1000) 10 1 false).toGrid2Duc
      0 1 2 = 0 := by
  decide!

namespace Grid2Duc

/-- Claim C28, the divergence. The node that `processObtuse` takes from the
opposite triangle is its first vertex when that is neither `i1` nor `i2`, and
its second vertex otherwise; the third vertex is never taken. When the first
two vertices of the opposite triangle are `i1` and `i2`, in either order, the
node taken is therefore `i1` or `i2`. -/
theorem oppositeNode_never_third (g : Grid2Duc T) (opp i1 i2 : Nat)
    (h0 : (g.triangles.getD opp default).i.getD 0 0 = i1 ∨
      (g.triangles.getD opp default).i.getD 0 0 = i2)
    (h1 : (g.triangles.getD opp default).i.getD 1 0 = i1 ∨
      (g.triangles.getD opp default).i.getD 1 0 = i2) :
    oppositeNode g opp i1 i2 = (g.triangles.getD opp default).i.getD 1 0 ∧
    (oppositeNode g opp i1 i2 = i1 ∨ oppositeNode g opp i1 i2 = i2) := by
  have h : oppositeNode g opp i1 i2 = (g.triangles.getD opp default).i.getD 1 0 := by
    unfold oppositeNode
    dsimp only
    rw [if_pos h0]
  rw [h]
  exact ⟨rfl, h1⟩

/-- The node that `processObtuse` takes from the opposite triangle, in the
two cases in which it is neither `i1` nor `i2`. -/
theorem oppositeNode_cases (g : Grid2Duc T) (opp i1 i2 : Nat) :
    (¬ ((g.triangles.getD opp default).i.getD 0 0 = i1 ∨
        (g.triangles.getD opp default).i.getD 0 0 = i2) →
      oppositeNode g opp i1 i2 = (g.triangles.getD opp default).i.getD 0 0) ∧
    (((g.triangles.getD opp default).i.getD 0 0 = i1 ∨
        (g.triangles.getD opp default).i.getD 0 0 = i2) →
      oppositeNode g opp i1 i2 = (g.triangles.getD opp default).i.getD 1 0) := by
  unfold oppositeNode
  dsimp only
  constructor
  · intro h
    rw [if_neg h, if_neg h]
  · intro h
    rw [if_pos h]

end Grid2Duc

theorem oppositeNode_never_third_witness :
    (((Grid2Duifs.new exampleEnv (kiteNodes ℚ) kiteCellsSwapped (1 / 1000) 10 1
        false).triangles.getD 0 default).i.getD 0 0 = 1 ∨
      ((Grid2Duifs.new exampleEnv (kiteNodes ℚ) kiteCellsSwapped (1 / 1000) 10 1
        false).triangles.getD 0 default).i.getD 0 0 = 2) ∧
    (((Grid2Duifs.new exampleEnv (kiteNodes ℚ) kiteCellsSwapped (1 / 1000) 10 1
        false).triangles.getD 0 default).i.getD 1 0 = 1 ∨
      ((Grid2Duifs.new exampleEnv (kiteNodes ℚ) kiteCellsSwapped (1 / 1000) 10 1
        false).triangles.getD 0 default).i.getD 1 0 = 2) ∧
    (Grid2Duc.oppositeNode
        (Grid2Duifs.new exampleEnv (kiteNodes ℚ) kiteCellsSwapped (1 / 1000) 10 1
          false).toGrid2Duc 0 1 2 = 1 ∨
      Grid2Duc.oppositeNode
        (Grid2Duifs.new exampleEnv (kiteNodes ℚ) kiteCellsSwapped (1 / 1000) 10 1
          false).toGrid2Duc 0 1 2 = 2) :=
  ⟨by decide, by decide,
    (Grid2Duc.oppositeNode_never_third
      (Grid2Duifs.new exampleEnv (kiteNodes ℚ) kiteCellsSwapped (1 / 1000) 10 1
        false).toGrid2Duc 0 1 2 (by decide) (by decide)).2⟩

/-- On the kite with its cells in the order (1,2,3), (0,1,2), cell 1 is obtuse
at node 0, the triangle found across its edge between the nodes 1 and 2 is
cell 0, whose vertices are 1, 2, 3, and the node taken from it is node 2, an
end of the shared edge, not node 3; the record stored for cell 1 has node 2
as both of its nodes and the edges 0, 5, 5. -/
theorem kite_swapped_opposite_node :
    ((Grid2Duifs.new exampleEnv (kiteNodes ℚ) kiteCellsSwapped (1 / 1000) 10 1
      false).triangles.getD 1 default).a.getD 0 0 > exampleEnv.pi / 2 ∧
    Grid2Duc.oppositeTriangle
      (Grid2Duifs.new exampleEnv (kiteNodes ℚ) kiteCellsSwapped (1 / 1000) 10 1
        false).toGrid2Duc 1 2 = some 0 ∧
    Grid2Duc.oppositeNode
      (Grid2Duifs.new exampleEnv (kiteNodes ℚ) kiteCellsSwapped (1 / 1000) 10 1
        false).toGrid2Duc 0 1 2 = 2 ∧
    ((Grid2Duifs.new exampleEnv (kiteNodes ℚ) kiteCellsSwapped (1 / 1000) 10 1
        true).virtualNodes.lookup 1).map (fun vn => (vn.node1, vn.node2, vn.e))
      = some (2, 2, [0, 5, 5]) := by
  decide!

end ObtuseSearchGrid

section SolverGeometry

variable {T : Type} [LinearOrderedField T]

theorem sxz.getDistance_comm (E : MathEnv T) (p q : sxz T) :
    p.getDistance E q = q.getDistance E p := by
  unfold sxz.getDistance
  congr 1
  ring

namespace Grid2Duc

/-- The body of the loop of `localSolver` in terms of the candidate. -/
theorem localSolverCell_candidate (E : MathEnv T) (g : Grid2Duc T) (v w t : Nat) :
    localSolverCell E g v w t =
      match candidate E g v w t with
      | none => localSolverCell E g v w t
      | some c => if c < g.getNodeTT v w then Outcome.ret (g.setNodeTT v c w) else Outcome.ret g := by
  unfold candidate localSolverCell
  cases solverVars E g v t with
  | error e => rfl
  | ok sv => rfl

/-- In a cell whose record is the one that the constructor builds from the
positions `no`, and that is not replaced by its virtual triangle, the local
variables of `localSolver` are the quantities of `solverGeometry`. -/
theorem solverVars_geometry (E : MathEnv T) (g : Grid2Duc T) (no : List (sxz T)) (v t i0 : Nat)
    (hi0 : i0 < 3)
    (htri : g.triangles.getD t default = builtTriangle E no (g.triangles.getD t default).i)
    (hC : findI0 (g.nodes.getD v default).gridIndex (g.triangles.getD t default).i = i0)
    (hv : ¬ ((g.triangles.getD t default).a.getD i0 0 > E.pi / 2 ∧ ¬ g.virtualNodes.isEmpty)) :
    solverVars E g v t = Except.ok (solverGeometry E no (g.triangles.getD t default).i i0) := by
  unfold solverVars
  dsimp only
  rw [hC, if_neg hv]
  generalize (g.triangles.getD t default).i = i at htri
  rw [htri]
  unfold solverGeometry builtTriangle sxz.angleAt
  have e01 := sxz.getDistance_comm E (no.getD (i.getD 1 0) ⟨0, 0⟩) (no.getD (i.getD 0 0) ⟨0, 0⟩)
  have e02 := sxz.getDistance_comm E (no.getD (i.getD 2 0) ⟨0, 0⟩) (no.getD (i.getD 0 0) ⟨0, 0⟩)
  have e12 := sxz.getDistance_comm E (no.getD (i.getD 2 0) ⟨0, 0⟩) (no.getD (i.getD 1 0) ⟨0, 0⟩)
  interval_cases i0
  · simp only [show (0 + 1) % 3 = 1 from rfl, show (0 + 2) % 3 = 2 from rfl,
      List.getD_cons_succ, List.getD_cons_zero, e01, e02, e12]
    congr 3
    all_goals ring
  · simp only [show (1 + 1) % 3 = 2 from rfl, show (1 + 2) % 3 = 0 from rfl,
      List.getD_cons_succ, List.getD_cons_zero, e01, e02, e12]
    congr 3
    all_goals ring
  · simp only [show (2 + 1) % 3 = 0 from rfl, show (2 + 2) % 3 = 1 from rfl,
      List.getD_cons_succ, List.getD_cons_zero, e01, e02, e12]
    congr 3
    all_goals ring

/-- The time computed by the local solver is the candidate of the Snell
branch when its condition holds and the candidate of the corner fallback
otherwise, given that `asin` is not negative on numbers that are not
negative. -/
theorem solverTime_spec (E : MathEnv T) (hasin : ∀ x : T, 0 ≤ x → 0 ≤ E.asin x)
    (sv : SolverVars T) (s ttA ttB : T) :
    solverTime E sv s ttA ttB =
      if snellApplies E sv s ttA ttB then snellFormula E sv s ttA ttB
      else cornerFormula sv s ttA ttB := by
  have hcorner : (if ttA + sv.b * s < ttB + sv.a * s then ttA + sv.b * s else ttB + sv.a * s) =
      cornerFormula sv s ttA ttB := by
    unfold cornerFormula
    rw [min_def]
    by_cases h : ttA + sv.b * s < ttB + sv.a * s
    · rw [if_pos h, if_pos (le_of_lt h)]
    · rw [if_neg h]
      by_cases h' : ttA + sv.b * s ≤ ttB + sv.a * s
      · rw [if_pos h']
        exact le_antisymm (not_lt.mp h) h'
      · rw [if_neg h']
  have hmax : (if 0 > sv.alpha - E.pi / 2 then 0 else sv.alpha - E.pi / 2) =
      max 0 (sv.alpha - E.pi / 2) := by
    rw [max_def]
    by_cases h : 0 > sv.alpha - E.pi / 2
    · rw [if_pos h, if_neg (not_le.mpr h)]
    · rw [if_neg h, if_pos (not_lt.mp h)]
  unfold solverTime
  dsimp only
  rw [hcorner, hmax]
  unfold snellApplies snellFormula incidence
  by_cases hd : |ttB - ttA| ≤ sv.c * s
  · rw [if_pos hd]
    have hth : 0 ≤ E.asin (|ttB - ttA| / (sv.c * s)) :=
      hasin _ (div_nonneg (abs_nonneg _) (le_trans (abs_nonneg _) hd))
    by_cases h1 : max 0 (sv.alpha - E.pi / 2) ≤ E.asin (|ttB - ttA| / (sv.c * s)) ∧
        E.asin (|ttB - ttA| / (sv.c * s)) ≤ E.pi / 2 - sv.beta
    · rw [if_pos (Or.inl h1), if_pos ⟨hd, h1⟩]
      ring
    · rw [if_neg, if_neg (fun h => h1 h.2)]
      intro h
      rcases h with h | ⟨h2, h3⟩
      · exact h1 h
      · apply h1
        by_cases hb : 0 < E.pi / 2 - sv.beta
        · rw [if_pos hb] at h3
          have h0 : E.asin (|ttB - ttA| / (sv.c * s)) = 0 := le_antisymm h3 hth
          rw [h0] at h2 ⊢
          exact ⟨max_le (le_refl 0) h2, le_of_lt hb⟩
        · rw [if_neg hb] at h3
          have h0 : E.asin (|ttB - ttA| / (sv.c * s)) = 0 :=
            le_antisymm (le_trans h3 (not_lt.mp hb)) hth
          refine ⟨?_, h3⟩
          rw [h0] at h2 ⊢
          exact max_le (le_refl 0) h2
  · rw [if_neg hd, if_neg (fun h => hd h.1)]

/-- The time computed by the local solver when the condition of the Snell
branch holds. -/
theorem solverTime_snell (E : MathEnv T) (sv : SolverVars T) (s ttA ttB : T)
    (h : snellApplies E sv s ttA ttB) :
    solverTime E sv s ttA ttB = snellFormula E sv s ttA ttB := by
  have hmax : (if 0 > sv.alpha - E.pi / 2 then 0 else sv.alpha - E.pi / 2) =
      max 0 (sv.alpha - E.pi / 2) := by
    rw [max_def]
    by_cases h : 0 > sv.alpha - E.pi / 2
    · rw [if_pos h, if_neg (not_le.mpr h)]
    · rw [if_neg h, if_pos (not_lt.mp h)]
  obtain ⟨hd, h1, h2⟩ := h
  unfold incidence at h1 h2
  unfold solverTime snellFormula incidence
  dsimp only
  rw [hmax, if_pos hd, if_pos (Or.inl ⟨h1, h2⟩)]
  ring

theorem candidate_of_solverVars (E : MathEnv T) (g : Grid2Duc T) (v w t : Nat)
    (sv : SolverVars T) (h : solverVars E g v t = Except.ok sv) :
    candidate E g v w t = some (solverTime E sv (g.slowness.getD t 0)
      (g.getNodeTT sv.vertexA w) (g.getNodeTT sv.vertexB w)) := by
  unfold candidate
  rw [h]

/-- Claim C24, amended. Let the cell `t` have the record that the constructor
builds from the node positions, let `C` be its vertex `i[i0]` with an angle
that is not replaced by a virtual triangle, `A` the vertex that follows `C`
in the vertex list of `t` and `B` the one after, `a = |BC|`, `b = |AC|`,
`c = |AB|`, `alpha` the angle at `B`, `beta` the angle at `A`, `s` the
slowness of `t`. When `Delta = |TT[B] - TT[A]| ≤ c s` and `theta =
asin(Delta / (c s))` satisfies `max(0, alpha - pi/2) ≤ theta ≤ pi/2 - beta`,
the candidate that `localSolver` computes for `t` is `½ (a s sin(alpha -
theta) + TT[B]) + ½ (b s sin(beta + theta) + TT[A])`. -/
theorem snell_candidate (E : MathEnv T) (g : Grid2Duc T) (no : List (sxz T)) (v w t i0 : Nat)
    (hi0 : i0 < 3)
    (htri : g.triangles.getD t default = builtTriangle E no (g.triangles.getD t default).i)
    (hC : findI0 (g.nodes.getD v default).gridIndex (g.triangles.getD t default).i = i0)
    (hv : ¬ ((g.triangles.getD t default).a.getD i0 0 > E.pi / 2 ∧ ¬ g.virtualNodes.isEmpty))
    (happ : snellApplies E (solverGeometry E no (g.triangles.getD t default).i i0)
      (g.slowness.getD t 0)
      (g.getNodeTT ((g.triangles.getD t default).i.getD ((i0 + 1) % 3) 0) w)
      (g.getNodeTT ((g.triangles.getD t default).i.getD ((i0 + 2) % 3) 0) w)) :
    candidate E g v w t =
      some (snellFormula E (solverGeometry E no (g.triangles.getD t default).i i0)
        (g.slowness.getD t 0)
        (g.getNodeTT ((g.triangles.getD t default).i.getD ((i0 + 1) % 3) 0) w)
        (g.getNodeTT ((g.triangles.getD t default).i.getD ((i0 + 2) % 3) 0) w)) := by
  rw [candidate_of_solverVars E g v w t _ (solverVars_geometry E g no v t i0 hi0 htri hC hv)]
  exact congrArg some (solverTime_snell E _ _ _ _ happ)

/-- Claim C25, amended. With the cell, `C`, `A`, `B`, `a = |BC|`, `b = |AC|`,
`c`, `alpha`, `beta` and `s` as for the Snell branch, and `asin` not negative
on numbers that are not negative: whenever the Snell branch does not apply
(`Delta > c s`, or `theta` outside the interval from `max(0, alpha - pi/2)`
to `pi/2 - beta`), the candidate that `localSolver` computes for the cell is
`min(TT[A] + b s, TT[B] + a s)`: each time is taken with the edge from its
own vertex to `C`. -/
theorem corner_candidate (E : MathEnv T) (hasin : ∀ x : T, 0 ≤ x → 0 ≤ E.asin x)
    (g : Grid2Duc T) (no : List (sxz T)) (v w t i0 : Nat) (hi0 : i0 < 3)
    (htri : g.triangles.getD t default = builtTriangle E no (g.triangles.getD t default).i)
    (hC : findI0 (g.nodes.getD v default).gridIndex (g.triangles.getD t default).i = i0)
    (hv : ¬ ((g.triangles.getD t default).a.getD i0 0 > E.pi / 2 ∧ ¬ g.virtualNodes.isEmpty))
    (happ : ¬ snellApplies E (solverGeometry E no (g.triangles.getD t default).i i0)
      (g.slowness.getD t 0)
      (g.getNodeTT ((g.triangles.getD t default).i.getD ((i0 + 1) % 3) 0) w)
      (g.getNodeTT ((g.triangles.getD t default).i.getD ((i0 + 2) % 3) 0) w)) :
    candidate E g v w t =
      some (cornerFormula (solverGeometry E no (g.triangles.getD t default).i i0)
        (g.slowness.getD t 0)
        (g.getNodeTT ((g.triangles.getD t default).i.getD ((i0 + 1) % 3) 0) w)
        (g.getNodeTT ((g.triangles.getD t default).i.getD ((i0 + 2) % 3) 0) w)) := by
  rw [candidate_of_solverVars E g v w t _ (solverVars_geometry E g no v t i0 hi0 htri hC hv)]
  refine congrArg some ?_
  rw [solverTime_spec E hasin]
  exact if_neg happ

end Grid2Duc

theorem exampleEnv_asin_nonneg : ∀ x : ℚ, 0 ≤ x → 0 ≤ exampleEnv.asin x := by
  intro x hx
  show 0 ≤ x + x * x * x / 6
  positivity

theorem snell_candidate_witness :
    1 < 3 ∧
    ramp.triangles.getD 0 default =
      builtTriangle exampleEnv (rectangleNodes ℚ) (ramp.triangles.getD 0 default).i ∧
    Grid2Duc.findI0 (ramp.nodes.getD 1 default).gridIndex (ramp.triangles.getD 0 default).i = 1 ∧
    ¬ ((ramp.triangles.getD 0 default).a.getD 1 0 > exampleEnv.pi / 2 ∧
      ¬ ramp.virtualNodes.isEmpty) ∧
    snellApplies exampleEnv
      (solverGeometry exampleEnv (rectangleNodes ℚ) (ramp.triangles.getD 0 default).i 1)
      (ramp.slowness.getD 0 0)
      (ramp.getNodeTT ((ramp.triangles.getD 0 default).i.getD ((1 + 1) % 3) 0) 0)
      (ramp.getNodeTT ((ramp.triangles.getD 0 default).i.getD ((1 + 2) % 3) 0) 0) ∧
    Grid2Duc.candidate exampleEnv ramp 1 0 0 =
      some (snellFormula exampleEnv
        (solverGeometry exampleEnv (rectangleNodes ℚ) (ramp.triangles.getD 0 default).i 1)
        (ramp.slowness.getD 0 0)
        (ramp.getNodeTT ((ramp.triangles.getD 0 default).i.getD ((1 + 1) % 3) 0) 0)
        (ramp.getNodeTT ((ramp.triangles.getD 0 default).i.getD ((1 + 2) % 3) 0) 0)) :=
  ⟨by decide, by decide!, by decide!, by decide!, by decide!,
    Grid2Duc.snell_candidate exampleEnv ramp (rectangleNodes ℚ) 1 0 0 1 (by decide)
      (by decide!) (by decide!) (by decide!) (by decide!)⟩

theorem corner_candidate_witness :
    (∀ x : ℚ, 0 ≤ x → 0 ≤ exampleEnv.asin x) ∧ 0 < 3 ∧
    ramp.triangles.getD 0 default =
      builtTriangle exampleEnv (rectangleNodes ℚ) (ramp.triangles.getD 0 default).i ∧
    Grid2Duc.findI0 (ramp.nodes.getD 0 default).gridIndex (ramp.triangles.getD 0 default).i = 0 ∧
    ¬ ((ramp.triangles.getD 0 default).a.getD 0 0 > exampleEnv.pi / 2 ∧
      ¬ ramp.virtualNodes.isEmpty) ∧
    ¬ snellApplies exampleEnv
      (solverGeometry exampleEnv (rectangleNodes ℚ) (ramp.triangles.getD 0 default).i 0)
      (ramp.slowness.getD 0 0)
      (ramp.getNodeTT ((ramp.triangles.getD 0 default).i.getD ((0 + 1) % 3) 0) 0)
      (ramp.getNodeTT ((ramp.triangles.getD 0 default).i.getD ((0 + 2) % 3) 0) 0) ∧
    Grid2Duc.candidate exampleEnv ramp 0 0 0 =
      some (cornerFormula
        (solverGeometry exampleEnv (rectangleNodes ℚ) (ramp.triangles.getD 0 default).i 0)
        (ramp.slowness.getD 0 0)
        (ramp.getNodeTT ((ramp.triangles.getD 0 default).i.getD ((0 + 1) % 3) 0) 0)
        (ramp.getNodeTT ((ramp.triangles.getD 0 default).i.getD ((0 + 2) % 3) 0) 0)) :=
  ⟨exampleEnv_asin_nonneg, by decide, by decide!, by decide!, by decide!, by decide!,
    Grid2Duc.corner_candidate exampleEnv exampleEnv_asin_nonneg ramp (rectangleNodes ℚ) 0 0 0 0
      (by decide) (by decide!) (by decide!) (by decide!) (by decide!)⟩

/-- Claim C25 as stated fails. In cell 0 of the rectangle, with `C` the node
(0,0), `A` the node (4,0) and `B` the node (4,3), slowness 1, `TT[A] = 100`
and `TT[B] = 0`, the difference of the times is above `c s = 3`, so that the
Snell branch does not apply; the candidate of `localSolver` is 5, the time
`TT[B] + |BC|`, while `min(TT[A] + b s, TT[B] + a s)` with `a = |AC| = 4` and
`b = |BC| = 5` is 4. -/
theorem corner_names_exchanged :
    ¬ snellApplies exampleEnv
      (solverGeometrySpec exampleEnv (rectangleNodes ℚ) (ramp.triangles.getD 0 default).i 0)
      (ramp.slowness.getD 0 0) (ramp.getNodeTT 1 0) (ramp.getNodeTT 2 0) ∧
    (solverGeometrySpec exampleEnv (rectangleNodes ℚ) (ramp.triangles.getD 0 default).i 0).a = 4 ∧
    (solverGeometrySpec exampleEnv (rectangleNodes ℚ) (ramp.triangles.getD 0 default).i 0).b = 5 ∧
    cornerFormula
      (solverGeometrySpec exampleEnv (rectangleNodes ℚ) (ramp.triangles.getD 0 default).i 0)
      (ramp.slowness.getD 0 0) (ramp.getNodeTT 1 0) (ramp.getNodeTT 2 0) = 4 ∧
    Grid2Duc.candidate exampleEnv ramp 0 0 0 = some 5 ∧
    (Grid2Duc.localSolverCell exampleEnv (ramp.setNodeTT 0 1000 0) 0 0 0).state.getNodeTT 0 0 =
      5 := by
  decide!

end SolverGeometry

section SnellOnSquare

/-- On the unit square cut through the source, with the time `sqrt 2 / 2` at
the node (1,1) and 0 at the node (1,0): for `C` the node (0,0), `A` the node
(1,0) and `B` the node (1,1), the condition of the Snell branch holds with the
quantities as the specification names them and its formula gives `sqrt 2`,
while the candidate that `localSolver` computes is 1. -/
theorem unit_square_snell (E : MathEnv ℝ) (hE : E.isReal) (eps : ℝ) (maxit : Int) (nt w : Nat)
    (hw : w < nt) (po : Bool) (sorted : List (List Nat)) :
    snellApplies E (solverGeometrySpec E (squareNodes ℝ) [0, 1, 2] 0) 1
      (((unitSquare E squareCells eps maxit nt po sorted).toGrid2Duc.setNodeTT 2
        (Real.sqrt 2 / 2) w).getNodeTT 1 w)
      (((unitSquare E squareCells eps maxit nt po sorted).toGrid2Duc.setNodeTT 2
        (Real.sqrt 2 / 2) w).getNodeTT 2 w) ∧
    snellFormula E (solverGeometrySpec E (squareNodes ℝ) [0, 1, 2] 0) 1
      (((unitSquare E squareCells eps maxit nt po sorted).toGrid2Duc.setNodeTT 2
        (Real.sqrt 2 / 2) w).getNodeTT 1 w)
      (((unitSquare E squareCells eps maxit nt po sorted).toGrid2Duc.setNodeTT 2
        (Real.sqrt 2 / 2) w).getNodeTT 2 w) = Real.sqrt 2 ∧
    Grid2Duc.candidate E ((unitSquare E squareCells eps maxit nt po sorted).toGrid2Duc.setNodeTT 2
      (Real.sqrt 2 / 2) w) 0 w 0 = some 1 := by
  obtain ⟨hn, htri, -, hsl⟩ := unitSquare_grid E eps maxit nt po sorted
  generalize (unitSquare E squareCells eps maxit nt po sorted).toGrid2Duc = g0 at hn htri hsl ⊢
  have hl : w < (List.replicate nt (0 : ℝ)).length := by simpa using hw
  obtain ⟨hs, hsin, hasin, hacos, hpi⟩ := id hE
  have hp := Real.pi_pos
  have r1 := one_lt_sqrt_two
  have r0 : (0 : ℝ) ≤ Real.sqrt 2 := Real.sqrt_nonneg 2
  have e2 : (1 : ℝ) + 1 = 2 := by norm_num
  have t1 : (g0.setNodeTT 2 (Real.sqrt 2 / 2) w).getNodeTT 1 w = 0 := by
    simp [Grid2Duc.getNodeTT, Grid2Duc.setNodeTT, Node2Dn.getTT, Node2Dn.setTT, hn, hw]
  have t2 : (g0.setNodeTT 2 (Real.sqrt 2 / 2) w).getNodeTT 2 w = Real.sqrt 2 / 2 := by
    simp [Grid2Duc.getNodeTT, Grid2Duc.setNodeTT, Node2Dn.getTT, Node2Dn.setTT, hn, hw]
  have hspec : solverGeometrySpec E (squareNodes ℝ) [0, 1, 2] 0 =
      ⟨1, 2, 1, Real.sqrt 2, 1, Real.pi / 2, Real.pi / 4⟩ := by
    simp [solverGeometrySpec, sxz.angleAt, squareNodes, sxz.getDistance, hs, hacos, e2,
      two_div_two_sqrt_two, arccos_half_sqrt_two]
  have hcode : solverGeometry E (squareNodes ℝ) [0, 1, 2] 0 =
      ⟨1, 2, Real.sqrt 2, 1, 1, Real.pi / 4, Real.pi / 2⟩ := by
    simp [solverGeometry, sxz.angleAt, squareNodes, sxz.getDistance, hs, hacos, e2,
      two_div_two_sqrt_two, arccos_half_sqrt_two]
  have hab : |Real.sqrt 2 / 2 - 0| = Real.sqrt 2 / 2 := by
    rw [sub_zero, abs_of_nonneg (by positivity)]
  have hth : E.asin (|Real.sqrt 2 / 2 - 0| / (1 * 1)) = Real.pi / 4 := by
    rw [hab, hasin, mul_one, div_one, arcsin_half_sqrt_two]
  rw [t1, t2, hspec]
  refine ⟨?_, ?_, ?_⟩
  · unfold snellApplies incidence
    dsimp only
    rw [hth, hab, hpi]
    refine ⟨by linarith [sqrt_two_lt_two], ?_, by linarith⟩
    rw [sub_self, max_self]
    linarith
  · unfold snellFormula incidence
    dsimp only
    rw [hth, hsin]
    have e3 : Real.pi / 2 - Real.pi / 4 = Real.pi / 4 := by ring
    have e4 : Real.pi / 4 + Real.pi / 4 = Real.pi / 2 := by ring
    rw [e3, e4, Real.sin_pi_div_four, Real.sin_pi_div_two]
    ring
  · have hsv : Grid2Duc.solverVars E (g0.setNodeTT 2 (Real.sqrt 2 / 2) w) 0 0 =
        Except.ok (solverGeometry E (squareNodes ℝ) [0, 1, 2] 0) := by
      have hi : ((g0.setNodeTT 2 (Real.sqrt 2 / 2) w).triangles.getD 0 default).i = [0, 1, 2] := by
        show (g0.triangles.getD 0 default).i = _
        rw [htri]
        rfl
      have := Grid2Duc.solverVars_geometry E (g0.setNodeTT 2 (Real.sqrt 2 / 2) w)
        (squareNodes ℝ) 0 0 0 (by decide)
        (by
          rw [hi]
          show g0.triangles.getD 0 default = _
          rw [htri]
          rfl)
        (by
          rw [hi]
          simp [Grid2Duc.findI0, Grid2Duc.setNodeTT, hn])
        (by
          intro h
          have h1 := h.1
          have ha : ((g0.setNodeTT 2 (Real.sqrt 2 / 2) w).triangles.getD 0 default).a.getD 0 0 =
              Real.pi / 4 := by
            show (g0.triangles.getD 0 default).a.getD 0 0 = _
            rw [htri, List.getD_cons_zero, builtTriangle_main0 E hE]
            rfl
          rw [ha, hpi] at h1
          linarith)
      rw [hi] at this
      exact this
    rw [Grid2Duc.candidate_of_solverVars E _ 0 w 0 _ hsv, hcode]
    dsimp only
    have hs0 : (g0.setNodeTT 2 (Real.sqrt 2 / 2) w).slowness.getD 0 0 = 1 := by
      show g0.slowness.getD 0 0 = 1
      rw [hsl]
      rfl
    rw [hs0, t1, t2, Grid2Duc.solverTime_corner E _ _ _ _
      (by dsimp only; rw [hth, hpi]; linarith) (by dsimp only; rw [hth]; linarith)]
    dsimp only
    rw [if_pos (by linarith)]
    norm_num

/-- Claim C24 as stated fails. In exact real arithmetic, on the unit square
cut through the source, with `C` the node (0,0), `A` the node (1,0), `B` the
node (1,1), `TT[A] = 0`, `TT[B] = sqrt 2 / 2` and slowness 1: with `a = |AC|`,
`b = |BC|`, `alpha` the angle at `A` and `beta` the angle at `B` the
condition of the Snell branch holds and its formula gives `sqrt 2`, while the
candidate that `localSolver` computes for the cell is 1. -/
theorem snell_names_exchanged :
    ∃ E : MathEnv ℝ, E.isReal ∧
      snellApplies E (solverGeometrySpec E (squareNodes ℝ) [0, 1, 2] 0) 1
        (((unitSquare E squareCells (1 / 1000) 10 1 true []).toGrid2Duc.setNodeTT 2
          (Real.sqrt 2 / 2) 0).getNodeTT 1 0)
        (((unitSquare E squareCells (1 / 1000) 10 1 true []).toGrid2Duc.setNodeTT 2
          (Real.sqrt 2 / 2) 0).getNodeTT 2 0) ∧
      snellFormula E (solverGeometrySpec E (squareNodes ℝ) [0, 1, 2] 0) 1
        (((unitSquare E squareCells (1 / 1000) 10 1 true []).toGrid2Duc.setNodeTT 2
          (Real.sqrt 2 / 2) 0).getNodeTT 1 0)
        (((unitSquare E squareCells (1 / 1000) 10 1 true []).toGrid2Duc.setNodeTT 2
          (Real.sqrt 2 / 2) 0).getNodeTT 2 0) = Real.sqrt 2 ∧
      Grid2Duc.candidate E ((unitSquare E squareCells (1 / 1000) 10 1 true []).toGrid2Duc.setNodeTT
        2 (Real.sqrt 2 / 2) 0) 0 0 0 = some 1 ∧
      Real.sqrt 2 ≠ 1 :=
  ⟨⟨Real.sqrt, Real.sin, Real.arcsin, Real.arccos, Real.pi, 1 / 100000, 1000000000⟩,
    ⟨rfl, rfl, rfl, rfl, rfl⟩,
    (unit_square_snell _ ⟨rfl, rfl, rfl, rfl, rfl⟩ (1 / 1000) 10 1 0 (by decide) true []).1,
    (unit_square_snell _ ⟨rfl, rfl, rfl, rfl, rfl⟩ (1 / 1000) 10 1 0 (by decide) true []).2.1,
    (unit_square_snell _ ⟨rfl, rfl, rfl, rfl, rfl⟩ (1 / 1000) 10 1 0 (by decide) true []).2.2,
    ne_of_gt one_lt_sqrt_two⟩

end SnellOnSquare

section SolverFrame

variable {T : Type} [LinearOrderedField T]

namespace Grid2Duc

theorem getNodeTT_setNodeTT_self (g : Grid2Duc T) (v : Nat) (a : T) (w : Nat)
    (hw : w < (g.nodes.getD v default).tt.length) :
    (g.setNodeTT v a w).getNodeTT v w = a := by
  unfold getNodeTT
  rw [getD_setNodeTT, if_pos rfl]
  exact Node2Dn.getTT_setTT_self _ a hw

theorem solverVars_setNodeTT (E : MathEnv T) (g : Grid2Duc T) (v u c : Nat) (a : T) (w : Nat) :
    solverVars E (g.setNodeTT u a w) v c = solverVars E g v c := by
  have hgi : ((g.setNodeTT u a w).nodes.getD v default).gridIndex =
      (g.nodes.getD v default).gridIndex := by
    rw [getD_setNodeTT]
    split <;> rfl
  unfold solverVars virtualNodesAt
  rw [hgi]
  rfl

/-- The least candidate is at most the time it starts from. -/
theorem leastCandidate_le (E : MathEnv T) (g : Grid2Duc T) (v w : Nat) :
    ∀ (owners : List Nat) (m : T), leastCandidate E g v w owners m ≤ m := by
  intro owners
  induction owners with
  | nil => intro m; exact le_refl m
  | cons c rest ih =>
    intro m
    unfold leastCandidate
    rw [List.foldl_cons]
    cases hx : candidate E g v w c with
    | none => exact ih m
    | some x => exact le_trans (ih (min m x)) (min_le_left m x)

end Grid2Duc

end SolverFrame

section SolverFrameClaim

variable {T : Type} [LinearOrderedField T]

namespace Grid2Duc

/-- In a cell with three different vertex indices that has `v` among them and
is not replaced by its virtual triangle, the two nodes that the local solver
reads for `v` are the two other vertices of the cell. -/
theorem solverReadsOthers_of_nodup (E : MathEnv T) (g : Grid2Duc T) (v c : Nat)
    (hgi : (g.nodes.getD v default).gridIndex = v)
    (hmem : v ∈ cellVertices (g.triangles.getD c default).i)
    (hnd : (cellVertices (g.triangles.getD c default).i).Nodup)
    (hv : ¬ ((g.triangles.getD c default).a.getD (findI0 v (g.triangles.getD c default).i) 0 >
      E.pi / 2 ∧ ¬ g.virtualNodes.isEmpty)) :
    solverReadsOthers E g v c = true := by
  unfold solverReadsOthers solverVars
  dsimp only
  rw [hgi, if_neg hv]
  dsimp only
  unfold cellVertices at hmem hnd
  unfold findI0
  generalize hx0 : (g.triangles.getD c default).i.getD 0 0 = x0 at hmem hnd ⊢
  generalize hx1 : (g.triangles.getD c default).i.getD 1 0 = x1 at hmem hnd ⊢
  generalize hx2 : (g.triangles.getD c default).i.getD 2 0 = x2 at hmem hnd ⊢
  simp only [List.nodup_cons, List.mem_cons, List.mem_singleton, List.not_mem_nil, not_or,
    List.nodup_nil, not_false_eq_true, and_true, or_false] at hmem hnd
  obtain ⟨⟨h01, h02⟩, h12⟩ := hnd
  simp only [Bool.and_eq_true, decide_eq_true_eq]
  rcases hmem with h | h | h
  · subst h
    rw [if_pos rfl]
    show (g.triangles.getD c default).i.getD 1 0 ≠ v ∧ (g.triangles.getD c default).i.getD 2 0 ≠ v
    rw [hx1, hx2]
    exact ⟨fun h => h01 h.symm, fun h => h02 h.symm⟩
  · subst h
    rw [if_neg (fun h => h01 h.symm), if_pos rfl]
    show (g.triangles.getD c default).i.getD 2 0 ≠ v ∧ (g.triangles.getD c default).i.getD 0 0 ≠ v
    rw [hx0, hx2]
    exact ⟨fun h => h12 h.symm, fun h => h01 h⟩
  · subst h
    rw [if_neg (fun h => h02 h.symm), if_neg (fun h => h12 h.symm), if_pos rfl]
    show (g.triangles.getD c default).i.getD 0 0 ≠ v ∧ (g.triangles.getD c default).i.getD 1 0 ≠ v
    rw [hx0, hx1]
    exact ⟨fun h => h02 h, fun h => h12 h⟩

end Grid2Duc

end SolverFrameClaim

section FrozenNodes

variable {T : Type} [LinearOrderedField T]

namespace Grid2Duifs

/-- A sweep does not pass to the local solver a node whose grid index is
flagged in `frozen`. -/
theorem sweep_skips_frozen (E : MathEnv T) (w u : Nat) (rest : List Nat) (st : SweepState T)
    (hf : st.frozen.getD (st.grid.nodes.getD u default).gridIndex false = true) :
    sweep E w (u :: rest) st = sweep E w rest st := by
  rw [sweep, if_neg]
  rw [hf]
  exact Bool.noConfusion

theorem sweepInit_sameButSlot (E : MathEnv T) (g : Grid2Duifs T) (Tx : List (sxz T))
    (t0 : List T) (w : Nat) :
    Grid2Duc.sameButSlot w g.toGrid2Duc (sweepInit E g Tx t0 w).grid.toGrid2Duc :=
  Grid2Duc.sameButSlot_trans (reinitNodes_sameButSlot E g.toGrid2Duc w)
    (initTx_sameButSlot E _ Tx t0 _ w)

/-- Claim C29. In the Fast Sweeping driver, let `u` be a node whose grid
index is `u`, as the constructor numbers the nodes, and that `initTx` marks
frozen. In every state that follows the state in which the sweeps begin, a
sweep does not pass `u` to the local solver, and the record of `u` at the end
of the sweeps, so its travel-time slot, is the one it had after the
seeding. -/
theorem frozen_node_kept (E : MathEnv T) (g : Grid2Duifs T) (Tx : List (sxz T)) (t0 : List T)
    (w u : Nat) (hgi : (g.nodes.getD u default).gridIndex = u)
    (hf : (sweepInit E g Tx t0 w).frozen.getD u false = true) :
    (∀ st : SweepState T, SweepState.follows w (sweepInit E g Tx t0 w) st →
      ∀ rest : List Nat, sweep E w (u :: rest) st = sweep E w rest st) ∧
    SweepState.follows w (sweepInit E g Tx t0 w) (raytraceSweeps E g Tx t0 w).state ∧
    (raytraceSweeps E g Tx t0 w).state.grid.nodes.getD u default =
      (sweepInit E g Tx t0 w).grid.nodes.getD u default ∧
    (raytraceSweeps E g Tx t0 w).state.grid.getNodeTT u w =
      (sweepInit E g Tx t0 w).grid.getNodeTT u w := by
  have hs := sweepInit_sameButSlot E g Tx t0 w
  have hgi0 : ((sweepInit E g Tx t0 w).grid.nodes.getD u default).gridIndex = u := by
    rw [(hs.2.2.2.2.2.2.2 u).2.2.1]
    exact hgi
  have hfol := whileLoop_follows E w g.nitermax.toNat (sweepInit E g Tx t0 w)
  have hkeep : (raytraceSweeps E g Tx t0 w).state.grid.nodes.getD u default =
      (sweepInit E g Tx t0 w).grid.nodes.getD u default := by
    have h := ((hfol.2.2.2.2).2 u).2
    rw [hgi0] at h
    exact h hf
  refine ⟨?_, hfol, hkeep, ?_⟩
  · intro st hst rest
    apply sweep_skips_frozen
    rw [hst.1, (hst.2.2.2.2.1.2.2.2.2.2.2.2 u).2.2.1, hgi0]
    exact hf
  · unfold Grid2Duc.getNodeTT
    rw [hkeep]

end Grid2Duifs

theorem frozen_node_kept_witness :
    (rectangle.nodes.getD 1 default).gridIndex = 1 ∧
    (Grid2Duifs.sweepInit exampleEnv rectangle [⟨3, 1⟩] [2] 0).frozen.getD 1 false = true ∧
    (Grid2Duifs.raytraceSweeps exampleEnv rectangle [⟨3, 1⟩] [2] 0).state.grid.getNodeTT 1 0 =
      (Grid2Duifs.sweepInit exampleEnv rectangle [⟨3, 1⟩] [2] 0).grid.getNodeTT 1 0 :=
  ⟨by decide, by decide!,
    (Grid2Duifs.frozen_node_kept exampleEnv rectangle [⟨3, 1⟩] [2] 0 1 (by decide)
      (by decide!)).2.2.2⟩

end FrozenNodes

section ParentOverloadTheorems

variable {T : Type} [LinearOrderedField T]

/-- The fold that keeps the smallest candidate together with the element that
gives it: its first component is the fold of the candidates alone, it is the
candidate of its second component, which is the start element or an element
of the list. -/
theorem foldl_argmin_spec {α : Type} (cand : α → T) :
    ∀ (l : List α) (t0 : T) (u0 : α), t0 = cand u0 →
      (l.foldl (fun (r : T × α) u => if r.1 > cand u then (cand u, u) else r) (t0, u0)).1 =
        l.foldl (fun t u => if t > cand u then cand u else t) t0 ∧
      (l.foldl (fun (r : T × α) u => if r.1 > cand u then (cand u, u) else r) (t0, u0)).1 =
        cand (l.foldl (fun (r : T × α) u => if r.1 > cand u then (cand u, u) else r) (t0, u0)).2 ∧
      ((l.foldl (fun (r : T × α) u => if r.1 > cand u then (cand u, u) else r) (t0, u0)).2 = u0 ∨
        (l.foldl (fun (r : T × α) u => if r.1 > cand u then (cand u, u) else r) (t0, u0)).2 ∈ l) := by
  intro l
  induction l with
  | nil => intro t0 u0 h; exact ⟨rfl, h, Or.inl rfl⟩
  | cons a l ih =>
    intro t0 u0 h
    rw [List.foldl_cons, List.foldl_cons]
    by_cases hc : t0 > cand a
    · rw [if_pos hc]
      have hc' : (t0, u0).1 > cand a := hc
      rw [if_pos hc']
      obtain ⟨h1, h2, h3⟩ := ih (cand a) a rfl
      refine ⟨h1, h2, Or.inr ?_⟩
      rcases h3 with h3 | h3
      · rw [h3]; exact List.mem_cons_self _ _
      · exact List.mem_cons_of_mem _ h3
    · rw [if_neg hc]
      have hc' : ¬ (t0, u0).1 > cand a := hc
      rw [if_neg hc']
      obtain ⟨h1, h2, h3⟩ := ih t0 u0 h
      refine ⟨h1, h2, ?_⟩
      rcases h3 with h3 | h3
      · exact Or.inl h3
      · exact Or.inr (List.mem_cons_of_mem _ h3)

namespace Grid2Duc

/-- Claim C30. The overload of `getTraveltime` that records the parents
returns the travel time of the plain overload, for every receiver and every
state of the nodes. For a receiver on no node it leaves in `cellParentRx` the
cell `c` that `getCellNo` returns and in `nodeParentRx` a node `u` with
`TT[u] + slowness[c] * |R - u|` equal to the time returned, which is below the
candidate of every node of the neighbour list of `c`; when the neighbour list
of a cell holds the vertices of the cell, as the constructor leaves it, and
`checkPts` accepts the receiver, `c` is a cell of the mesh that contains the
receiver and `u` is a vertex of `c` that attains the minimum over the vertices
of `c`. -/
theorem getTraveltimeParents_refines (E : MathEnv T)
    (nodeParent cellParent : Node2Dn T → Nat → Nat) (g : Grid2Duc T) (R : sxz T) (w : Nat) :
    (getTraveltimeParents E nodeParent cellParent g R w).1 = getTraveltime E g R w ∧
    (g.nodes.find? (fun n => n.eqPt E R) = none →
      (getTraveltimeParents E nodeParent cellParent g R w).2.2 = getCellNo g R ∧
      getTraveltime E g R w =
        g.getNodeTT (getTraveltimeParents E nodeParent cellParent g R w).2.1 w +
          g.slowness.getD (getCellNo g R) 0 *
            (g.nodes.getD (getTraveltimeParents E nodeParent cellParent g R w).2.1
              default).getDistancePt E R ∧
      (∀ u ∈ g.neighbors.getD (getCellNo g R) [],
        getTraveltime E g R w ≤ g.getNodeTT u w +
          g.slowness.getD (getCellNo g R) 0 * (g.nodes.getD u default).getDistancePt E R) ∧
      (g.neighborsAreVertices → (checkPts E g [R]).exn = none →
        getCellNo g R < g.triangles.length ∧ insideTriangle g R (getCellNo g R) = true ∧
        (getTraveltimeParents E nodeParent cellParent g R w).2.1 ∈
          cellVertices (g.triangles.getD (getCellNo g R) default).i ∧
        ∀ u ∈ cellVertices (g.triangles.getD (getCellNo g R) default).i,
          getTraveltime E g R w ≤ g.getNodeTT u w +
            g.slowness.getD (getCellNo g R) 0 * (g.nodes.getD u default).getDistancePt E R)) := by
  cases hfind : g.nodes.find? (fun n => n.eqPt E R) with
  | some n =>
    refine ⟨?_, fun h => Option.noConfusion h⟩
    unfold getTraveltimeParents getTraveltime
    rw [hfind]
  | none =>
    have hA := foldl_argmin_spec
      (fun u => g.getNodeTT u w + g.slowness.getD (getCellNo g R) 0 *
        (g.nodes.getD u default).getDistancePt E R)
      ((g.neighbors.getD (getCellNo g R) []).drop 1)
      (g.getNodeTT ((g.neighbors.getD (getCellNo g R) []).getD 0 0) w +
        g.slowness.getD (getCellNo g R) 0 *
          (g.nodes.getD ((g.neighbors.getD (getCellNo g R) []).getD 0 0) default).getDistancePt
            E R)
      ((g.neighbors.getD (getCellNo g R) []).getD 0 0) rfl
    have hM := foldl_min_spec
      (fun u => g.getNodeTT u w + g.slowness.getD (getCellNo g R) 0 *
        (g.nodes.getD u default).getDistancePt E R)
      ((g.neighbors.getD (getCellNo g R) []).drop 1)
      (g.getNodeTT ((g.neighbors.getD (getCellNo g R) []).getD 0 0) w +
        g.slowness.getD (getCellNo g R) 0 *
          (g.nodes.getD ((g.neighbors.getD (getCellNo g R) []).getD 0 0) default).getDistancePt
            E R)
    have hplain : getTraveltime E g R w =
        ((g.neighbors.getD (getCellNo g R) []).drop 1).foldl
          (fun t u =>
            if t > g.getNodeTT u w + g.slowness.getD (getCellNo g R) 0 *
                (g.nodes.getD u default).getDistancePt E R
            then g.getNodeTT u w + g.slowness.getD (getCellNo g R) 0 *
                (g.nodes.getD u default).getDistancePt E R
            else t)
          (g.getNodeTT ((g.neighbors.getD (getCellNo g R) []).getD 0 0) w +
            g.slowness.getD (getCellNo g R) 0 *
              (g.nodes.getD ((g.neighbors.getD (getCellNo g R) []).getD 0 0) default).getDistancePt
                E R) := by
      unfold getTraveltime
      rw [hfind]
      rfl
    have hpar : getTraveltimeParents E nodeParent cellParent g R w =
        ((((g.neighbors.getD (getCellNo g R) []).drop 1).foldl
          (fun (r : T × Nat) u =>
            if r.1 > g.getNodeTT u w + g.slowness.getD (getCellNo g R) 0 *
                (g.nodes.getD u default).getDistancePt E R
            then (g.getNodeTT u w + g.slowness.getD (getCellNo g R) 0 *
                (g.nodes.getD u default).getDistancePt E R, u)
            else r)
          (g.getNodeTT ((g.neighbors.getD (getCellNo g R) []).getD 0 0) w +
            g.slowness.getD (getCellNo g R) 0 *
              (g.nodes.getD ((g.neighbors.getD (getCellNo g R) []).getD 0 0) default).getDistancePt
                E R, (g.neighbors.getD (getCellNo g R) []).getD 0 0)).1,
         (((g.neighbors.getD (getCellNo g R) []).drop 1).foldl
          (fun (r : T × Nat) u =>
            if r.1 > g.getNodeTT u w + g.slowness.getD (getCellNo g R) 0 *
                (g.nodes.getD u default).getDistancePt E R
            then (g.getNodeTT u w + g.slowness.getD (getCellNo g R) 0 *
                (g.nodes.getD u default).getDistancePt E R, u)
            else r)
          (g.getNodeTT ((g.neighbors.getD (getCellNo g R) []).getD 0 0) w +
            g.slowness.getD (getCellNo g R) 0 *
              (g.nodes.getD ((g.neighbors.getD (getCellNo g R) []).getD 0 0) default).getDistancePt
                E R, (g.neighbors.getD (getCellNo g R) []).getD 0 0)).2,
         getCellNo g R) := by
      unfold getTraveltimeParents
      rw [hfind]
      rfl
    rw [hpar, hplain]
    dsimp only at hA hM ⊢
    generalize ((g.neighbors.getD (getCellNo g R) []).drop 1).foldl
      (fun (r : T × Nat) u =>
        if r.1 > g.getNodeTT u w + g.slowness.getD (getCellNo g R) 0 *
            (g.nodes.getD u default).getDistancePt E R
        then (g.getNodeTT u w + g.slowness.getD (getCellNo g R) 0 *
            (g.nodes.getD u default).getDistancePt E R, u)
        else r)
      (g.getNodeTT ((g.neighbors.getD (getCellNo g R) []).getD 0 0) w +
        g.slowness.getD (getCellNo g R) 0 *
          (g.nodes.getD ((g.neighbors.getD (getCellNo g R) []).getD 0 0) default).getDistancePt
            E R, (g.neighbors.getD (getCellNo g R) []).getD 0 0) = r at hA ⊢
    obtain ⟨a1, a2, a3⟩ := hA
    rw [← a1] at hM ⊢
    obtain ⟨m1, m2, -⟩ := hM
    have hsplit : ∀ u ∈ g.neighbors.getD (getCellNo g R) [],
        u = (g.neighbors.getD (getCellNo g R) []).getD 0 0 ∨
        u ∈ (g.neighbors.getD (getCellNo g R) []).drop 1 := by
      intro u hu
      cases hl : g.neighbors.getD (getCellNo g R) [] with
      | nil => rw [hl] at hu; exact absurd hu (List.not_mem_nil u)
      | cons a l =>
        rw [hl] at hu
        rcases List.mem_cons.mp hu with rfl | hu
        · exact Or.inl rfl
        · exact Or.inr hu
    have hall : ∀ u ∈ g.neighbors.getD (getCellNo g R) [],
        r.1 ≤ g.getNodeTT u w +
          g.slowness.getD (getCellNo g R) 0 * (g.nodes.getD u default).getDistancePt E R := by
      intro u hu
      rcases hsplit u hu with rfl | hu
      · exact m1
      · exact m2 u hu
    refine ⟨rfl, fun _ => ⟨rfl, a2, hall, ?_⟩⟩
    intro hnb hacc
    have hok : ¬ outsideMesh E g R :=
      checkPtsFrom_ok E g [R] 0 hacc R (List.mem_singleton_self R)
    obtain ⟨hlt, hin, _⟩ := getCellNo_of_accepted E g R hok hfind
    obtain ⟨hnb1, hnb2⟩ := hnb _ hlt
    have hne : g.neighbors.getD (getCellNo g R) [] ≠ [] :=
      List.ne_nil_of_mem (hnb2 _ (List.mem_cons_self _ _))
    have hhead : (g.neighbors.getD (getCellNo g R) []).getD 0 0 ∈
        g.neighbors.getD (getCellNo g R) [] := by
      cases hl : g.neighbors.getD (getCellNo g R) [] with
      | nil => exact absurd hl hne
      | cons a l => exact List.mem_cons_self _ _
    refine ⟨hlt, hin, ?_, fun u hu => hall u (hnb2 u hu)⟩
    rcases a3 with h3 | h3
    · rw [h3]; exact hnb1 _ hhead
    · exact hnb1 _ (List.mem_of_mem_drop h3)

end Grid2Duc

theorem getTraveltimeParents_refines_witness :
    rectangle.toGrid2Duc.nodes.find? (fun n => n.eqPt exampleEnv ⟨3, 1⟩) = none ∧
    rectangle.toGrid2Duc.neighborsAreVertices ∧
    (Grid2Duc.checkPts exampleEnv rectangle.toGrid2Duc [⟨3, 1⟩]).exn = none ∧
    (Grid2Duc.getTraveltimeParents exampleEnv (fun _ _ => 0) (fun _ _ => 0)
      rectangle.toGrid2Duc ⟨3, 1⟩ 0).2.1 ∈
        cellVertices (rectangle.toGrid2Duc.triangles.getD
          (Grid2Duc.getCellNo rectangle.toGrid2Duc ⟨3, 1⟩) default).i :=
  ⟨by decide!, by unfold Grid2Duc.neighborsAreVertices; decide!, by decide!,
    (((Grid2Duc.getTraveltimeParents_refines exampleEnv (fun _ _ => 0) (fun _ _ => 0)
      rectangle.toGrid2Duc ⟨3, 1⟩ 0).2 (by decide!)).2.2.2
        (by unfold Grid2Duc.neighborsAreVertices; decide!) (by decide!)).2.2.1⟩

end ParentOverloadTheorems

section SeedAround

variable {T : Type} [LinearOrderedField T]

/-- A loop keeps a property that every step keeps. -/
theorem foldl_keeps {α β : Type} (f : α → β → α) (P : α → Prop)
    (h : ∀ a b, P a → P (f a b)) : ∀ (l : List β) (a : α), P a → P (l.foldl f a) := by
  intro l
  induction l with
  | nil => intro a ha; exact ha
  | cons b l ih => intro a ha; exact ih (f a b) (h a b ha)

namespace Grid3Dunfm

theorem populateAround_eq (B : Grid3DunBase T) (nn : Nat) (t0n : T) (w : Nat)
    (st : BandState T) :
    populateAround B nn t0n w st =
      ((st.grid.nodes.getD nn default).owners).foldl
        (fun s cellNo => (s.grid.neighbors.getD cellNo []).foldl (populateStep B nn t0n w) s)
        st := rfl

theorem getNodeTT_setNodeTT_other (g : Grid3Dun T) (v u : Nat) (t : T) (w : Nat) (h : v ≠ u) :
    (g.setNodeTT v t w).getNodeTT u w = g.getNodeTT u w := by
  unfold Grid3Dun.getNodeTT
  rw [Grid3Dun.grid3_getD_setNodeTT, if_neg (Ne.symm h)]

theorem getNodeTT_setNodeTT_same (g : Grid3Dun T) (u : Nat) (t : T) (w : Nat)
    (h : w < (g.nodes.getD u default).tt.length) :
    (g.setNodeTT u t w).getNodeTT u w = t := by
  unfold Grid3Dun.getNodeTT
  rw [Grid3Dun.grid3_getD_setNodeTT, if_pos rfl]
  exact Node3Dn.node3_getTT_setTT_self _ t h

theorem getD_set_other (l : List Bool) (v u : Nat) (b : Bool) (h : v ≠ u) :
    (l.set v b).getD u false = l.getD u false := by
  simp [List.getD_eq_getElem?_getD, List.getElem?_set_ne h]

theorem getD_set_same (l : List Bool) (u : Nat) (b : Bool) (h : u < l.length) :
    (l.set u b).getD u false = b := by
  simp [List.getD_eq_getElem?_getD, h]

/-- The seeding of a node leaves the other nodes, their flags and the band
members as they are. -/
theorem seedNode_other (t0n dt : T) (w v u : Nat) (s : BandState T) (h : v ≠ u) :
    (seedNode t0n dt w v (s, 0)).1.grid.getNodeTT u w = s.grid.getNodeTT u w ∧
    (seedNode t0n dt w v (s, 0)).1.inBand.getD u false = s.inBand.getD u false ∧
    (seedNode t0n dt w v (s, 0)).1.frozen.getD u false = s.frozen.getD u false ∧
    (u ∈ s.narrow_band → u ∈ (seedNode t0n dt w v (s, 0)).1.narrow_band) := by
  unfold seedNode
  split
  · dsimp only
    split
    · refine ⟨getNodeTT_setNodeTT_other _ _ _ _ _ h, getD_set_other _ _ _ _ h,
        getD_set_other _ _ _ _ h, fun hu => ?_⟩
      exact List.mem_append_left _ hu
    · exact ⟨getNodeTT_setNodeTT_other _ _ _ _ _ h, rfl, rfl, fun hu => hu⟩
  · exact ⟨rfl, rfl, rfl, fun hu => hu⟩

/-- The seeding of node `u`: its time becomes the smaller of its time and the
proposed time; when the proposed time is smaller and `u` is not flagged in the
band, `u` is pushed, flagged and frozen; when the proposed time is not
smaller, nothing changes. -/
theorem seedNode_same (t0n dt : T) (w u : Nat) (s : BandState T)
    (hslot : w < (s.grid.nodes.getD u default).tt.length) (hi : u < s.inBand.length)
    (hf : u < s.frozen.length) :
    (seedNode t0n dt w u (s, 0)).1.grid.getNodeTT u w = min (s.grid.getNodeTT u w) (t0n + dt) ∧
    (t0n + dt < s.grid.getNodeTT u w → s.inBand.getD u false = false →
      u ∈ (seedNode t0n dt w u (s, 0)).1.narrow_band ∧
      (seedNode t0n dt w u (s, 0)).1.inBand.getD u false = true ∧
      (seedNode t0n dt w u (s, 0)).1.frozen.getD u false = true) ∧
    (¬ t0n + dt < s.grid.getNodeTT u w → (seedNode t0n dt w u (s, 0)).1 = s) := by
  unfold seedNode
  by_cases hlt : t0n + dt < s.grid.getNodeTT u w
  · rw [if_pos hlt]
    dsimp only
    by_cases hb : s.inBand.getD u false = false
    · rw [if_pos hb]
      refine ⟨?_, fun _ _ => ⟨?_, ?_, ?_⟩, fun h => absurd hlt h⟩
      · show (s.grid.setNodeTT u (t0n + dt) w).getNodeTT u w = _
        rw [getNodeTT_setNodeTT_same _ _ _ _ hslot, min_eq_right (le_of_lt hlt)]
      · show u ∈ s.narrow_band ++ [u]
        exact List.mem_append_right _ (List.mem_singleton_self u)
      · show (s.inBand.set u true).getD u false = true
        exact getD_set_same _ _ _ hi
      · show (s.frozen.set u true).getD u false = true
        exact getD_set_same _ _ _ hf
    · rw [if_neg hb]
      refine ⟨?_, fun _ h => absurd h hb, fun h => absurd hlt h⟩
      show (s.grid.setNodeTT u (t0n + dt) w).getNodeTT u w = _
      rw [getNodeTT_setNodeTT_same _ _ _ _ hslot, min_eq_right (le_of_lt hlt)]
  · rw [if_neg hlt]
    exact ⟨(min_eq_left (not_lt.mp hlt)).symm, fun h => absurd h hlt, fun _ => rfl⟩

theorem populateStep_sameShape (B : Grid3DunBase T) (nn : Nat) (t0n : T) (w : Nat)
    (s : BandState T) (v : Nat) : BandState.sameShape w s (populateStep B nn t0n w s v) := by
  unfold populateStep
  split
  · exact sameShape_refl w _
  · exact seedNode_sameShape t0n _ w v (s, 0)

/-- A step of the seeding around a source keeps node `u` seeded. -/
theorem populateStep_seededAt (B : Grid3DunBase T) (nn : Nat) (t0n : T) (w u : Nat) (T1 d : T)
    (b1 : Bool) (s : BandState T) (v : Nat)
    (hd : v = u → v ≠ nn → t0n + B.computeDt s.grid (s.grid.nodes.getD nn default)
      (s.grid.nodes.getD v default) = d)
    (hslot : w < (s.grid.nodes.getD u default).tt.length) (hi : u < s.inBand.length)
    (hf : u < s.frozen.length) (hq : seededAt w u T1 d b1 s) :
    seededAt w u T1 d b1 (populateStep B nn t0n w s v) := by
  unfold populateStep
  by_cases hv : v = nn
  · rw [if_pos hv]; exact hq
  · rw [if_neg hv]
    by_cases hvu : v = u
    · have hd' := hd hvu hv
      subst hvu
      obtain ⟨-, -, h3⟩ := seedNode_same t0n
        (B.computeDt s.grid (s.grid.nodes.getD nn default) (s.grid.nodes.getD v default))
        w v s hslot hi hf
      rw [hd'] at h3
      have hnot : ¬ d < s.grid.getNodeTT v w := by
        rw [hq.1]
        exact not_lt.mpr (min_le_right _ _)
      rw [h3 hnot]
      exact hq
    · obtain ⟨h1, h2, h3, h4⟩ := seedNode_other t0n
        (B.computeDt s.grid (s.grid.nodes.getD nn default) (s.grid.nodes.getD v default))
        w v u s hvu
      refine ⟨h1.trans hq.1, fun ha hb => ?_⟩
      obtain ⟨q1, q2, q3⟩ := hq.2 ha hb
      exact ⟨h4 q1, h2.trans q2, h3.trans q3⟩

/-- The step of the seeding around a source for node `u` leaves it seeded. -/
theorem populateStep_seeds (B : Grid3DunBase T) (nn : Nat) (t0n : T) (w u : Nat) (T1 d : T)
    (b1 : Bool) (s : BandState T) (hne : u ≠ nn)
    (hd : t0n + B.computeDt s.grid (s.grid.nodes.getD nn default)
      (s.grid.nodes.getD u default) = d)
    (hslot : w < (s.grid.nodes.getD u default).tt.length) (hi : u < s.inBand.length)
    (hf : u < s.frozen.length)
    (hq : (s.grid.getNodeTT u w = T1 ∧ s.inBand.getD u false = b1) ∨ seededAt w u T1 d b1 s) :
    seededAt w u T1 d b1 (populateStep B nn t0n w s u) := by
  rcases hq with ⟨hT, hb⟩ | hq
  · unfold populateStep
    rw [if_neg hne]
    obtain ⟨h1, h2, -⟩ := seedNode_same t0n
      (B.computeDt s.grid (s.grid.nodes.getD nn default) (s.grid.nodes.getD u default))
      w u s hslot hi hf
    rw [hd] at h1 h2
    rw [hT] at h1 h2
    exact ⟨h1, fun ha hb' => h2 ha (hb.trans hb')⟩
  · exact populateStep_seededAt B nn t0n w u T1 d b1 s u (fun _ _ => hd) hslot hi hf hq

/-- A step of the seeding around a source on another node than `u` leaves `u`
not seeded, or seeded, as it was. -/
theorem populateStep_keeps (B : Grid3DunBase T) (nn : Nat) (t0n : T) (w u : Nat)
    (s : BandState T) (v : Nat) (hvu : v ≠ u) :
    (populateStep B nn t0n w s v).grid.getNodeTT u w = s.grid.getNodeTT u w ∧
    (populateStep B nn t0n w s v).inBand.getD u false = s.inBand.getD u false := by
  unfold populateStep
  split
  · exact ⟨rfl, rfl⟩
  · obtain ⟨h1, h2, -, -⟩ := seedNode_other t0n
      (B.computeDt s.grid (s.grid.nodes.getD nn default) (s.grid.nodes.getD v default))
      w v u s hvu
    exact ⟨h1, h2⟩

end Grid3Dunfm

end SeedAround

section SeedAroundClaim

variable {T : Type} [LinearOrderedField T]

namespace Grid3Dunfm

/-- The seeding around a source on node `nn` leaves every other node of the
neighbour list of an owner cell of `nn` seeded. -/
theorem populateAround_seeds (B : Grid3DunBase T) (hdt : B.dtReadsGeometry) (nn : Nat) (t0n : T)
    (w u : Nat) (s1 : BandState T) (c : Nat) (hne : u ≠ nn)
    (hc : c ∈ (s1.grid.nodes.getD nn default).owners) (hu : u ∈ s1.grid.neighbors.getD c [])
    (hslot : w < (s1.grid.nodes.getD u default).tt.length) (hi : u < s1.inBand.length)
    (hf : u < s1.frozen.length) :
    seededAt w u (s1.grid.getNodeTT u w)
      (t0n + B.computeDt s1.grid (s1.grid.nodes.getD nn default) (s1.grid.nodes.getD u default))
      (s1.inBand.getD u false) (populateAround B nn t0n w s1) := by
  rw [populateAround_eq]
  generalize hT1 : s1.grid.getNodeTT u w = T1
  generalize hd : t0n + B.computeDt s1.grid (s1.grid.nodes.getD nn default)
    (s1.grid.nodes.getD u default) = d
  generalize hb1 : s1.inBand.getD u false = b1
  have hdt' : ∀ s : BandState T, BandState.sameShape w s1 s →
      t0n + B.computeDt s.grid (s.grid.nodes.getD nn default) (s.grid.nodes.getD u default)
        = d := by
    intro s hs
    rw [hdt w s1.grid s.grid _ _ _ _ hs.1 (hs.1.2.2.2.2.2 nn) (hs.1.2.2.2.2.2 u)]
    exact hd
  have hslot' : ∀ s : BandState T, BandState.sameShape w s1 s →
      w < (s.grid.nodes.getD u default).tt.length := by
    intro s hs
    rw [(hs.1.2.2.2.2.2 u).2.2.2.2.2.2.1]
    exact hslot
  have hi' : ∀ s : BandState T, BandState.sameShape w s1 s → u < s.inBand.length := by
    intro s hs; rw [hs.2.1]; exact hi
  have hf' : ∀ s : BandState T, BandState.sameShape w s1 s → u < s.frozen.length := by
    intro s hs; rw [hs.2.2.1]; exact hf
  have hInv : ∀ (a : BandState T) (v : Nat), seedingAt w u T1 d b1 s1 a →
      seedingAt w u T1 d b1 s1 (populateStep B nn t0n w a v) := by
    intro a v ha
    refine ⟨sameShape_trans ha.1 (populateStep_sameShape B nn t0n w a v), ?_⟩
    by_cases hvu : v = u
    · subst hvu
      exact Or.inr (populateStep_seeds B nn t0n w v T1 d b1 a hne (hdt' a ha.1)
        (hslot' a ha.1) (hi' a ha.1) (hf' a ha.1) ha.2)
    · rcases ha.2 with h | h
      · obtain ⟨k1, k2⟩ := populateStep_keeps B nn t0n w u a v hvu
        exact Or.inl ⟨k1.trans h.1, k2.trans h.2⟩
      · exact Or.inr (populateStep_seededAt B nn t0n w u T1 d b1 a v
          (fun h _ => absurd h hvu) (hslot' a ha.1) (hi' a ha.1) (hf' a ha.1) h)
  have hQ : ∀ (a : BandState T) (v : Nat), seedingAt w u T1 d b1 s1 a →
      seededAt w u T1 d b1 a → seededAt w u T1 d b1 (populateStep B nn t0n w a v) := by
    intro a v ha hq
    refine populateStep_seededAt B nn t0n w u T1 d b1 a v ?_
      (hslot' a ha.1) (hi' a ha.1) (hf' a ha.1) hq
    intro h _
    subst h
    exact hdt' a ha.1
  have hx : ∀ a : BandState T, seedingAt w u T1 d b1 s1 a →
      seededAt w u T1 d b1 (populateStep B nn t0n w a u) := by
    intro a ha
    exact populateStep_seeds B nn t0n w u T1 d b1 a hne (hdt' a ha.1)
      (hslot' a ha.1) (hi' a ha.1) (hf' a ha.1) ha.2
  have hInv2 : ∀ (a : BandState T) (c' : Nat), seedingAt w u T1 d b1 s1 a →
      seedingAt w u T1 d b1 s1
        ((a.grid.neighbors.getD c' []).foldl (populateStep B nn t0n w) a) := by
    intro a c' ha
    exact foldl_keeps _ _ hInv _ a ha
  have hQ2 : ∀ (a : BandState T) (c' : Nat), seedingAt w u T1 d b1 s1 a →
      seededAt w u T1 d b1 a →
      seededAt w u T1 d b1 ((a.grid.neighbors.getD c' []).foldl (populateStep B nn t0n w) a) := by
    intro a c' ha hq
    exact (foldl_keeps (populateStep B nn t0n w)
      (fun s => seedingAt w u T1 d b1 s1 s ∧ seededAt w u T1 d b1 s)
      (fun s v hs => ⟨hInv s v hs.1, hQ s v hs.1 hs.2⟩) _ a ⟨ha, hq⟩).2
  have hx2 : ∀ a : BandState T, seedingAt w u T1 d b1 s1 a →
      seededAt w u T1 d b1 ((a.grid.neighbors.getD c []).foldl (populateStep B nn t0n w) a) := by
    intro a ha
    have hmem : u ∈ a.grid.neighbors.getD c [] := by
      rw [ha.1.1.2.1]; exact hu
    exact (foldl_reaches (populateStep B nn t0n w) (seedingAt w u T1 d b1 s1)
      (seededAt w u T1 d b1) hInv hQ u hx _ a hmem ha).1
  exact (foldl_reaches
    (fun s cellNo => (s.grid.neighbors.getD cellNo []).foldl (populateStep B nn t0n w) s)
    (seedingAt w u T1 d b1 s1) (seededAt w u T1 d b1) hInv2 hQ2 c hx2 _ s1 hc
    ⟨sameShape_refl w s1, Or.inl ⟨hT1, hb1⟩⟩).1

/-- Claim C21, amended. With a source radius of 0 and a source list of one
point that is on node `nn`, `initBand` returns, and every node `u` other than
`nn` of the neighbour list of an owner cell of `nn` has afterwards the smaller
of the time it had and of `t0 + computeDt(nodes[nn], nodes[u])`, hence a time
that is not above `t0 + computeDt(nodes[nn], nodes[u])`; when that value was
below the time of `u` and `u` was not flagged in the band, as after the reset
by `raytrace`, `u` is in the band, flagged in the band and frozen. `computeDt`
is the member of the base class, which reads no travel time. -/
theorem single_source_seeds (E : MathEnv T) (B : Grid3DunBase T) (hdt : B.dtReadsGeometry)
    (p : sxyz T) (t0n : T) (w nn : Nat) (st : BandState T)
    (hfind : (List.range st.grid.nodes.length).find?
      (fun nn => (st.grid.nodes.getD nn default).eqPt E p) = some nn)
    (hsr : st.grid.source_radius = 0) (c u : Nat)
    (hc : c ∈ (st.grid.nodes.getD nn default).owners) (hu : u ∈ st.grid.neighbors.getD c [])
    (hne : u ≠ nn) (hslot : w < (st.grid.nodes.getD u default).tt.length)
    (hi : u < st.inBand.length) (hf : u < st.frozen.length) :
    (initBand E B [p] [t0n] w st).exn = none ∧
    (initBand E B [p] [t0n] w st).state.grid.getNodeTT u w =
      min (st.grid.getNodeTT u w)
        (t0n + B.computeDt st.grid (st.grid.nodes.getD nn default)
          (st.grid.nodes.getD u default)) ∧
    (initBand E B [p] [t0n] w st).state.grid.getNodeTT u w ≤
      t0n + B.computeDt st.grid (st.grid.nodes.getD nn default) (st.grid.nodes.getD u default) ∧
    (t0n + B.computeDt st.grid (st.grid.nodes.getD nn default) (st.grid.nodes.getD u default)
        < st.grid.getNodeTT u w →
      st.inBand.getD u false = false →
      u ∈ (initBand E B [p] [t0n] w st).state.narrow_band ∧
      (initBand E B [p] [t0n] w st).state.inBand.getD u false = true ∧
      (initBand E B [p] [t0n] w st).state.frozen.getD u false = true) := by
  have hrun : initBand E B [p] [t0n] w st =
      Outcome.ret (populateAround B nn t0n w
        (pushFrozen { st with grid := st.grid.setNodeTT nn t0n w } nn)) := by
    unfold initBand
    simp only [List.length_singleton, decide_True, initBandFrom, List.getD_cons_zero]
    unfold initBandOne
    rw [hfind]
    unfold initBandOnNode
    have hsr' : (pushFrozen { st with grid := st.grid.setNodeTT nn t0n w } nn).grid.source_radius
        = 0 := hsr
    simp only [if_true, hsr']
    rfl
  have hnode : ∀ n, Node3Dn.sameButSlot w (st.grid.nodes.getD n default)
      ((st.grid.setNodeTT nn t0n w).nodes.getD n default) :=
    (Grid3Dun.grid3_sameButSlot_setNodeTT st.grid nn t0n w).2.2.2.2.2
  have hnu : (st.grid.setNodeTT nn t0n w).nodes.getD u default = st.grid.nodes.getD u default := by
    rw [Grid3Dun.grid3_getD_setNodeTT, if_neg hne]
  have h := populateAround_seeds B hdt nn t0n w u
    (pushFrozen { st with grid := st.grid.setNodeTT nn t0n w } nn) c hne
    (by
      show c ∈ ((st.grid.setNodeTT nn t0n w).nodes.getD nn default).owners
      rw [(hnode nn).2.2.2.2.1]; exact hc)
    hu
    (by
      show w < ((st.grid.setNodeTT nn t0n w).nodes.getD u default).tt.length
      rw [hnu]; exact hslot)
    (by simp [pushFrozen, hi]) (by simp [pushFrozen, hf])
  have e1 : (pushFrozen { st with grid := st.grid.setNodeTT nn t0n w } nn).grid.getNodeTT u w
      = st.grid.getNodeTT u w := getNodeTT_setNodeTT_other _ _ _ _ _ (Ne.symm hne)
  have e2 : B.computeDt (pushFrozen { st with grid := st.grid.setNodeTT nn t0n w } nn).grid
      ((pushFrozen { st with grid := st.grid.setNodeTT nn t0n w } nn).grid.nodes.getD nn default)
      ((pushFrozen { st with grid := st.grid.setNodeTT nn t0n w } nn).grid.nodes.getD u default)
      = B.computeDt st.grid (st.grid.nodes.getD nn default) (st.grid.nodes.getD u default) :=
    hdt w st.grid _ _ _ _ _ (Grid3Dun.grid3_sameButSlot_setNodeTT st.grid nn t0n w)
      (hnode nn) (hnode u)
  have e3 : (pushFrozen { st with grid := st.grid.setNodeTT nn t0n w } nn).inBand.getD u false
      = st.inBand.getD u false := getD_set_other _ _ _ _ (Ne.symm hne)
  rw [e1, e2, e3] at h
  rw [hrun]
  refine ⟨rfl, h.1, ?_, h.2⟩
  show (populateAround B nn t0n w
    (pushFrozen { st with grid := st.grid.setNodeTT nn t0n w } nn)).grid.getNodeTT u w ≤ _
  rw [h.1]
  exact min_le_right _ _

end Grid3Dunfm

theorem exampleBase_dtReadsGeometry : exampleBase.dtReadsGeometry := by
  intro w g g' a a' b b' _ ha hb
  show exampleComputeDt g' a' b' = exampleComputeDt g a b
  unfold exampleComputeDt Node3Dn.getDistance
  obtain ⟨a1, a2, a3, -, -, a6, -, -⟩ := ha
  obtain ⟨b1, b2, b3, -, -, b6, -, -⟩ := hb
  rw [a1, a2, a3, a6, b1, b2, b3, b6]

theorem single_source_seeds_witness :
    (Grid3Dunfm.initBand exampleEnv exampleBase [⟨0, 0, 0⟩] [0] 0 tetrahedronStart).exn = none ∧
    (Grid3Dunfm.initBand exampleEnv exampleBase [⟨0, 0, 0⟩] [0] 0
      tetrahedronStart).state.grid.getNodeTT 2 0 ≤ 1 ∧
    2 ∈ (Grid3Dunfm.initBand exampleEnv exampleBase [⟨0, 0, 0⟩] [0] 0
      tetrahedronStart).state.narrow_band ∧
    (Grid3Dunfm.initBand exampleEnv exampleBase [⟨0, 0, 0⟩] [0] 0
      tetrahedronStart).state.frozen.getD 2 false = true :=
  have h := Grid3Dunfm.single_source_seeds exampleEnv exampleBase exampleBase_dtReadsGeometry
    ⟨0, 0, 0⟩ 0 0 0 tetrahedronStart (by decide!) (by decide!) 0 2 (by decide!) (by decide!)
    (by decide) (by decide!) (by decide!) (by decide!)
  have hd : (0 : ℚ) + exampleBase.computeDt tetrahedronStart.grid
      (tetrahedronStart.grid.nodes.getD 0 default) (tetrahedronStart.grid.nodes.getD 2 default)
      = 1 := by decide!
  ⟨h.1, hd ▸ h.2.2.1, (h.2.2.2 (by decide!) (by decide!)).1,
    (h.2.2.2 (by decide!) (by decide!)).2.2⟩

/-- With two sources, on the nodes 0 and 1 of the tetrahedron, `initBand`
seeds the two nodes only: node 2, which shares the cell with both, keeps the
largest time, above `t0 + computeDt = 1`, is not in the band and is not
frozen. -/
theorem two_sources_neighbours_unseeded :
    (Grid3Dunfm.initBand exampleEnv exampleBase [⟨0, 0, 0⟩, ⟨1, 0, 0⟩] [0, 0] 0
      tetrahedronStart).exn = none ∧
    tetrahedronStart.grid.source_radius = 0 ∧
    0 ∈ (tetrahedronStart.grid.nodes.getD 0 default).owners ∧
    2 ∈ tetrahedronStart.grid.neighbors.getD 0 [] ∧
    (0 : ℚ) + exampleBase.computeDt tetrahedronStart.grid
      (tetrahedronStart.grid.nodes.getD 0 default)
      (tetrahedronStart.grid.nodes.getD 2 default) = 1 ∧
    (Grid3Dunfm.initBand exampleEnv exampleBase [⟨0, 0, 0⟩, ⟨1, 0, 0⟩] [0, 0] 0
      tetrahedronStart).state.grid.getNodeTT 2 0 = 1000000000 ∧
    (Grid3Dunfm.initBand exampleEnv exampleBase [⟨0, 0, 0⟩, ⟨1, 0, 0⟩] [0, 0] 0
      tetrahedronStart).state.narrow_band = [0, 1] ∧
    (Grid3Dunfm.initBand exampleEnv exampleBase [⟨0, 0, 0⟩, ⟨1, 0, 0⟩] [0, 0] 0
      tetrahedronStart).state.frozen.getD 2 false = false ∧
    Grid3Dunfm.raytraceSeed exampleEnv exampleBase tetrahedron [⟨0, 0, 0⟩, ⟨1, 0, 0⟩] [0, 0] 0 =
      Grid3Dunfm.initBand exampleEnv exampleBase [⟨0, 0, 0⟩, ⟨1, 0, 0⟩] [0, 0] 0
        tetrahedronStart := by
  decide!

end SeedAroundClaim

section NeighbourLists

variable {T : Type} [LinearOrderedField T]

/-- The indices below `N`, each as often as it occurs in `l`, count like `l`
below `N`. -/
theorem count_flatMap_replicate (l : List Nat) (a : Nat) :
    ∀ N, ((List.range N).flatMap (fun n => List.replicate (l.count n) n)).count a =
      if a < N then l.count a else 0 := by
  intro N
  induction N with
  | zero => simp
  | succ N ih =>
    rw [List.range_succ, List.flatMap_append, List.count_append, ih]
    simp only [List.flatMap_cons, List.flatMap_nil, List.append_nil, List.count_replicate]
    by_cases h1 : a < N
    · have h2 : ¬ (N == a) = true := by simp; omega
      rw [if_pos h1, if_neg h2, if_pos (Nat.lt_succ_of_lt h1)]
      rfl
    · by_cases h3 : N = a
      · subst h3
        simp
      · have h2 : ¬ (N == a) = true := by simp [h3]
        rw [if_neg h1, if_neg h2, if_neg (by omega)]

theorem mem_flatMap_replicate (l : List Nat) (N a : Nat)
    (h : a ∈ (List.range N).flatMap (fun n => List.replicate (l.count n) n)) : a < N := by
  rw [List.mem_flatMap] at h
  obtain ⟨n, hn, ha⟩ := h
  rw [(List.mem_replicate.mp ha).2]
  exact List.mem_range.mp hn

/-- The indices below `N`, each as often as it occurs in `l`, are in
ascending order. -/
theorem pairwise_flatMap_replicate (l : List Nat) :
    ∀ N, ((List.range N).flatMap (fun n => List.replicate (l.count n) n)).Pairwise
      (fun a b => a ≤ b) := by
  intro N
  induction N with
  | zero => simp
  | succ N ih =>
    rw [List.range_succ, List.flatMap_append, List.pairwise_append]
    refine ⟨ih, ?_, ?_⟩
    · simp only [List.flatMap_cons, List.flatMap_nil, List.append_nil]
      rw [List.pairwise_replicate]
      exact Or.inr (le_refl N)
    · intro a ha b hb
      simp only [List.flatMap_cons, List.flatMap_nil, List.append_nil] at hb
      rw [(List.mem_replicate.mp hb).2]
      exact Nat.le_of_lt (mem_flatMap_replicate l N a ha)

/-- The indices below `N`, each as often as it occurs in `l`, are the elements
of `l` when these are below `N`. -/
theorem perm_flatMap_replicate (l : List Nat) (N : Nat) (h : ∀ u ∈ l, u < N) :
    List.Perm ((List.range N).flatMap (fun n => List.replicate (l.count n) n)) l := by
  rw [List.perm_iff_count]
  intro a
  rw [count_flatMap_replicate]
  split
  · rfl
  · rename_i hlt
    symm
    rw [List.count_eq_zero]
    intro hm
    exact hlt (h a hm)

/-- The neighbour list of the cell `c` of the constructed grid. -/
theorem new_neighbors_eq (E : MathEnv T) (no : List (sxz T)) (tri : List (List Nat)) (eps : T)
    (maxit : Int) (nt : Nat) (po : Bool) (c : Nat) (hc : c < tri.length) :
    (Grid2Duifs.new E no tri eps maxit nt po).neighbors.getD c [] =
      (List.range no.length).flatMap
        (fun n => List.replicate ((cellVertices (tri.getD c [])).count n) n) ∧
    ((Grid2Duifs.new E no tri eps maxit nt po).triangles.getD c default).i = tri.getD c [] := by
  obtain ⟨-, -, -, k4, -, k6, -⟩ := Grid2Duifs.new_spec E no tri eps maxit nt po
  refine ⟨?_, ?_⟩
  · rw [k6 c hc]
    congr 1
    funext n
    rw [Grid2Duifs.count_ownersUpTo, if_pos hc]
  · rw [k4 c hc]
    rfl

/-- Claim C31. In the grid that the constructor builds, for every cell `c`
whose vertex indices are indices of nodes, the neighbour list `neighbors[c]`
holds the vertex indices of the vertex list of `c`, each as often as the
vertex list does, and nothing else, in ascending order; when the three vertex
indices are distinct, these are three entries, each vertex once, in strictly
ascending order. -/
theorem Grid2Duifs.neighbors_ascending (E : MathEnv T) (no : List (sxz T))
    (tri : List (List Nat)) (eps : T) (maxit : Int) (nt : Nat) (po : Bool) (c : Nat)
    (hc : c < tri.length) (hvalid : ∀ u ∈ cellVertices (tri.getD c []), u < no.length) :
    List.Perm ((Grid2Duifs.new E no tri eps maxit nt po).neighbors.getD c [])
      (cellVertices ((Grid2Duifs.new E no tri eps maxit nt po).triangles.getD c default).i) ∧
    ((Grid2Duifs.new E no tri eps maxit nt po).neighbors.getD c []).Pairwise
      (fun a b => a ≤ b) ∧
    ((cellVertices (tri.getD c [])).Nodup →
      ((Grid2Duifs.new E no tri eps maxit nt po).neighbors.getD c []).length = 3 ∧
      ((Grid2Duifs.new E no tri eps maxit nt po).neighbors.getD c []).Nodup ∧
      ((Grid2Duifs.new E no tri eps maxit nt po).neighbors.getD c []).Pairwise
        (fun a b => a < b)) := by
  obtain ⟨e1, e2⟩ := new_neighbors_eq E no tri eps maxit nt po c hc
  have hperm := perm_flatMap_replicate (cellVertices (tri.getD c [])) no.length hvalid
  have hpw := pairwise_flatMap_replicate (cellVertices (tri.getD c [])) no.length
  rw [e1, e2]
  refine ⟨hperm, hpw, fun hnd => ?_⟩
  have hnd' := (List.Perm.nodup_iff hperm).mpr hnd
  refine ⟨by rw [List.Perm.length_eq hperm]; rfl, hnd', ?_⟩
  have hboth := List.Pairwise.and hpw hnd'
  exact List.Pairwise.imp (fun h => lt_of_le_of_ne h.1 h.2) hboth

theorem neighbors_ascending_witness :
    (1 : Nat) < rectangleCells.length ∧
    (∀ u ∈ cellVertices (rectangleCells.getD 1 []), u < (rectangleNodes ℚ).length) ∧
    ((Grid2Duifs.new exampleEnv (rectangleNodes ℚ) rectangleCells (1 / 1000) 10 1
      false).neighbors.getD 1 []).Pairwise (fun a b => a ≤ b) :=
  ⟨by decide, by decide,
    (Grid2Duifs.neighbors_ascending exampleEnv (rectangleNodes ℚ) rectangleCells (1 / 1000) 10 1
      false 1 (by decide) (by decide)).2.1⟩

end NeighbourLists

section NextCell

variable {T : Type} [LinearOrderedField T]

/-- Two lists in strictly ascending order with the same elements are equal. -/
theorem eq_of_pairwise_lt (l l' : List Nat) (h : l.Pairwise (fun a b => a < b))
    (h' : l'.Pairwise (fun a b => a < b)) (hmem : ∀ x, x ∈ l ↔ x ∈ l') : l = l' := by
  have d : l.Nodup := List.Pairwise.imp (fun hab => ne_of_lt hab) h
  have d' : l'.Nodup := List.Pairwise.imp (fun hab => ne_of_lt hab) h'
  exact List.eq_of_perm_of_sorted ((List.perm_ext_iff_of_nodup d d').mpr hmem) h h'

namespace Grid2Duifs

/-- The vector `cells` of `findNextCell1` and `findNextCell2` on the
constructed grid: the cells that have both `i0` and `i1` among their vertices,
in ascending order. -/
theorem commonOwners_new (E : MathEnv T) (no : List (sxz T)) (tri : List (List Nat)) (eps : T)
    (maxit : Int) (nt : Nat) (po : Bool) (i0 i1 : Nat) (hi0 : i0 < no.length)
    (hi1 : i1 < no.length)
    (huniq : ∀ k, k < tri.length → (cellVertices (tri.getD k [])).Nodup) :
    (∀ k, k ∈ Grid2Duc.commonOwners (Grid2Duifs.new E no tri eps maxit nt po).toGrid2Duc i0 i1 ↔
      k < tri.length ∧ i0 ∈ cellVertices (tri.getD k []) ∧ i1 ∈ cellVertices (tri.getD k [])) ∧
    (Grid2Duc.commonOwners (Grid2Duifs.new E no tri eps maxit nt po).toGrid2Duc i0 i1).Pairwise
      (fun a b => a < b) := by
  obtain ⟨-, -, k3, -, -, -, -⟩ := new_spec E no tri eps maxit nt po
  have e : Grid2Duc.commonOwners (Grid2Duifs.new E no tri eps maxit nt po).toGrid2Duc i0 i1 =
      (ownersUpTo tri tri.length i0).filter
        (fun nc0 => (ownersUpTo tri tri.length i1).contains nc0) := by
    unfold Grid2Duc.commonOwners
    rw [k3 i0 hi0, k3 i1 hi1]
  rw [e]
  refine ⟨fun k => ?_, ?_⟩
  · have hcont : (ownersUpTo tri tri.length i1).contains k = true ↔
        k ∈ ownersUpTo tri tri.length i1 := by simp
    rw [List.mem_filter, hcont, mem_ownersUpTo_iff, mem_ownersUpTo_iff]
    constructor
    · rintro ⟨⟨a, b⟩, -, c⟩
      exact ⟨a, b, c⟩
    · rintro ⟨a, b, c⟩
      exact ⟨⟨a, b⟩, a, c⟩
  · refine List.Pairwise.filter _ (ownersUpTo_pairwise tri i0 tri.length ?_ tri.length (le_refl _))
    intro c hc
    exact List.nodup_iff_count_le_one.mp (huniq c hc) i0

/-- The vector `cells` for an edge that belongs to the two cells `c < c'` and
to no other. -/
theorem commonOwners_pair (E : MathEnv T) (no : List (sxz T)) (tri : List (List Nat)) (eps : T)
    (maxit : Int) (nt : Nat) (po : Bool) (i0 i1 c c' : Nat) (hi0 : i0 < no.length)
    (hi1 : i1 < no.length)
    (huniq : ∀ k, k < tri.length → (cellVertices (tri.getD k [])).Nodup)
    (hlt : c < c') (hc' : c' < tri.length)
    (h0 : i0 ∈ cellVertices (tri.getD c [])) (h1 : i1 ∈ cellVertices (tri.getD c []))
    (h0' : i0 ∈ cellVertices (tri.getD c' [])) (h1' : i1 ∈ cellVertices (tri.getD c' []))
    (honly : ∀ k, k < tri.length → i0 ∈ cellVertices (tri.getD k []) →
      i1 ∈ cellVertices (tri.getD k []) → k = c ∨ k = c') :
    Grid2Duc.commonOwners (Grid2Duifs.new E no tri eps maxit nt po).toGrid2Duc i0 i1 =
      [c, c'] := by
  obtain ⟨hm, hp⟩ := commonOwners_new E no tri eps maxit nt po i0 i1 hi0 hi1 huniq
  refine eq_of_pairwise_lt _ _ hp (by simp [hlt]) ?_
  intro x
  rw [hm x]
  constructor
  · rintro ⟨a, b, d⟩
    rcases honly x a b d with h | h
    · rw [h]; exact List.mem_cons_self _ _
    · rw [h]; exact List.mem_cons_of_mem _ (List.mem_singleton_self _)
  · intro hx
    rcases List.mem_cons.mp hx with h | h
    · rw [h]; exact ⟨lt_trans hlt hc', h0, h1⟩
    · rw [List.mem_singleton.mp h]; exact ⟨hc', h0', h1'⟩

/-- The vector `cells` for an edge that belongs to the cell `c` alone. -/
theorem commonOwners_single (E : MathEnv T) (no : List (sxz T)) (tri : List (List Nat))
    (eps : T) (maxit : Int) (nt : Nat) (po : Bool) (i0 i1 c : Nat) (hi0 : i0 < no.length)
    (hi1 : i1 < no.length)
    (huniq : ∀ k, k < tri.length → (cellVertices (tri.getD k [])).Nodup)
    (hc : c < tri.length)
    (h0 : i0 ∈ cellVertices (tri.getD c [])) (h1 : i1 ∈ cellVertices (tri.getD c []))
    (honly : ∀ k, k < tri.length → i0 ∈ cellVertices (tri.getD k []) →
      i1 ∈ cellVertices (tri.getD k []) → k = c) :
    Grid2Duc.commonOwners (Grid2Duifs.new E no tri eps maxit nt po).toGrid2Duc i0 i1 = [c] := by
  obtain ⟨hm, hp⟩ := commonOwners_new E no tri eps maxit nt po i0 i1 hi0 hi1 huniq
  refine eq_of_pairwise_lt _ _ hp (by simp) ?_
  intro x
  rw [hm x]
  constructor
  · rintro ⟨a, b, d⟩
    rw [honly x a b d]; exact List.mem_singleton_self _
  · intro hx
    rw [List.mem_singleton.mp hx]; exact ⟨hc, h0, h1⟩

end Grid2Duifs

namespace Grid2Duc

/-- `findNextCell2` on a vector `cells` of two cells returns the other
cell. -/
theorem findNextCell2_of_pair (g : Grid2Duc T) (i0 i1 p q : Nat)
    (h : commonOwners g i0 i1 = [p, q]) (hpq : p ≠ q) :
    findNextCell2 g i0 i1 p = q ∧ findNextCell2 g i0 i1 q = p := by
  unfold findNextCell2
  rw [h]
  simp [hpq, Ne.symm hpq]

/-- `findNextCell1` on a vector `cells` of two cells, for a node that has the
first among its owners and not the second, returns the second, and the other
way round. -/
theorem findNextCell1_of_pair (g : Grid2Duc T) (i0 i1 v p q : Nat)
    (h : commonOwners g i0 i1 = [p, q]) (hpq : p ≠ q) :
    (p ∈ (g.nodes.getD v default).owners → q ∉ (g.nodes.getD v default).owners →
      findNextCell1 g i0 i1 v = q) ∧
    (q ∈ (g.nodes.getD v default).owners → p ∉ (g.nodes.getD v default).owners →
      findNextCell1 g i0 i1 v = p) := by
  unfold findNextCell1
  rw [h]
  simp only [List.length_cons, List.length_nil, List.getD_cons_zero, List.getD_cons_succ]
  have hlen : ¬ (0 + 1 + 1 = 1) := by omega
  rw [if_neg hlen]
  constructor
  · intro hp hq
    cases hf : (g.nodes.getD v default).owners.find?
        (fun nc0 => decide (nc0 = p) || decide (nc0 = q)) with
    | none =>
      have := List.find?_eq_none.mp hf p hp
      simp at this
    | some x =>
      have hx := List.find?_some hf
      have hxm := List.mem_of_find?_eq_some hf
      simp only [Bool.or_eq_true, decide_eq_true_eq] at hx
      rcases hx with hx | hx
      · simp [hx]
      · rw [hx] at hxm; exact absurd hxm hq
  · intro hq hp
    cases hf : (g.nodes.getD v default).owners.find?
        (fun nc0 => decide (nc0 = p) || decide (nc0 = q)) with
    | none =>
      have := List.find?_eq_none.mp hf q hq
      simp at this
    | some x =>
      have hx := List.find?_some hf
      have hxm := List.mem_of_find?_eq_some hf
      simp only [Bool.or_eq_true, decide_eq_true_eq] at hx
      rcases hx with hx | hx
      · rw [hx] at hxm; exact absurd hxm hp
      · simp [hx, Ne.symm hpq]

end Grid2Duc

/-- Claim C33. In the constructed grid, whose cells have three different
vertex indices each, let the edge between the nodes `i0` and `i1` of the cell
`c` belong to the two cells `c` and `c'` and to no other. Then
`findNextCell2(i0, i1, c)` returns `c'`; and `findNextCell1(i0, i1, v)` returns
`c'` for a vertex `v` of `c` that is not a vertex of `c'`, as the third vertex
of `c` is when `c` and `c'` are two different triangles. -/
theorem Grid2Duifs.findNextCell_other (E : MathEnv T) (no : List (sxz T))
    (tri : List (List Nat)) (eps : T) (maxit : Int) (nt : Nat) (po : Bool)
    (i0 i1 c c' v : Nat) (hi0 : i0 < no.length) (hi1 : i1 < no.length) (hv : v < no.length)
    (huniq : ∀ k, k < tri.length → (cellVertices (tri.getD k [])).Nodup)
    (hc : c < tri.length) (hc' : c' < tri.length) (hne : c ≠ c')
    (h0 : i0 ∈ cellVertices (tri.getD c [])) (h1 : i1 ∈ cellVertices (tri.getD c []))
    (h0' : i0 ∈ cellVertices (tri.getD c' [])) (h1' : i1 ∈ cellVertices (tri.getD c' []))
    (honly : ∀ k, k < tri.length → i0 ∈ cellVertices (tri.getD k []) →
      i1 ∈ cellVertices (tri.getD k []) → k = c ∨ k = c')
    (hvc : v ∈ cellVertices (tri.getD c [])) (hvc' : v ∉ cellVertices (tri.getD c' [])) :
    Grid2Duc.findNextCell2 (Grid2Duifs.new E no tri eps maxit nt po).toGrid2Duc i0 i1 c = c' ∧
    Grid2Duc.findNextCell1 (Grid2Duifs.new E no tri eps maxit nt po).toGrid2Duc i0 i1 v = c' := by
  obtain ⟨-, -, k3, -, -, -, -⟩ := Grid2Duifs.new_spec E no tri eps maxit nt po
  have hown : ((Grid2Duifs.new E no tri eps maxit nt po).nodes.getD v default).owners =
      ownersUpTo tri tri.length v := by rw [k3 v hv]
  have hin : c ∈ ((Grid2Duifs.new E no tri eps maxit nt po).nodes.getD v default).owners := by
    rw [hown, mem_ownersUpTo_iff]; exact ⟨hc, hvc⟩
  have hout : c' ∉ ((Grid2Duifs.new E no tri eps maxit nt po).nodes.getD v default).owners := by
    rw [hown, mem_ownersUpTo_iff]; exact fun h => hvc' h.2
  rcases Nat.lt_or_gt_of_ne hne with hlt | hlt
  · have hco := Grid2Duifs.commonOwners_pair E no tri eps maxit nt po i0 i1 c c' hi0 hi1 huniq
      hlt hc' h0 h1 h0' h1' honly
    exact ⟨(Grid2Duc.findNextCell2_of_pair _ i0 i1 c c' hco hne).1,
      (Grid2Duc.findNextCell1_of_pair _ i0 i1 v c c' hco hne).1 hin hout⟩
  · have hco := Grid2Duifs.commonOwners_pair E no tri eps maxit nt po i0 i1 c' c hi0 hi1 huniq
      hlt hc h0' h1' h0 h1 (fun k hk a b => (honly k hk a b).symm)
    exact ⟨(Grid2Duc.findNextCell2_of_pair _ i0 i1 c' c hco (Ne.symm hne)).2,
      (Grid2Duc.findNextCell1_of_pair _ i0 i1 v c' c hco (Ne.symm hne)).2 hin hout⟩

theorem findNextCell_other_witness :
    Grid2Duc.findNextCell2 (Grid2Duifs.new exampleEnv (rectangleNodes ℚ) rectangleCells
      (1 / 1000) 10 1 false).toGrid2Duc 0 2 1 = 0 ∧
    Grid2Duc.findNextCell1 (Grid2Duifs.new exampleEnv (rectangleNodes ℚ) rectangleCells
      (1 / 1000) 10 1 false).toGrid2Duc 0 2 3 = 0 :=
  Grid2Duifs.findNextCell_other exampleEnv (rectangleNodes ℚ) rectangleCells (1 / 1000) 10 1
    false 0 2 1 0 3 (by decide) (by decide) (by decide) (by decide) (by decide) (by decide)
    (by decide) (by decide) (by decide) (by decide) (by decide) (by decide) (by decide)
    (by decide)

/-- Claim C40. In the constructed grid, whose cells have three different
vertex indices each and are fewer than the sentinel
`std::numeric_limits<T2>::max()`, let `i0` and `i1` be two vertices of the cell
`c`. When the edge belongs to `c` alone, `findNextCell2(i0, i1, c)` returns `c`
itself, which is not the sentinel. In every case it returns the sentinel if
and only if the vector `cells` of the owners of the edge has three entries or
more and `c` is neither of the first two; so it does not return the sentinel
when the edge has at most two owner cells. -/
theorem Grid2Duifs.findNextCell2_boundary (E : MathEnv T) (no : List (sxz T))
    (tri : List (List Nat)) (eps : T) (maxit : Int) (nt : Nat) (po : Bool)
    (i0 i1 c : Nat) (hi0 : i0 < no.length) (hi1 : i1 < no.length)
    (huniq : ∀ k, k < tri.length → (cellVertices (tri.getD k [])).Nodup)
    (hsize : tri.length ≤ T2_max) (hc : c < tri.length)
    (h0 : i0 ∈ cellVertices (tri.getD c [])) (h1 : i1 ∈ cellVertices (tri.getD c [])) :
    ((∀ k, k < tri.length → i0 ∈ cellVertices (tri.getD k []) →
        i1 ∈ cellVertices (tri.getD k []) → k = c) →
      Grid2Duc.findNextCell2 (Grid2Duifs.new E no tri eps maxit nt po).toGrid2Duc i0 i1 c = c ∧
      c ≠ T2_max) ∧
    (Grid2Duc.findNextCell2 (Grid2Duifs.new E no tri eps maxit nt po).toGrid2Duc i0 i1 c = T2_max ↔
      3 ≤ (Grid2Duc.commonOwners
        (Grid2Duifs.new E no tri eps maxit nt po).toGrid2Duc i0 i1).length ∧
      c ≠ (Grid2Duc.commonOwners
        (Grid2Duifs.new E no tri eps maxit nt po).toGrid2Duc i0 i1).getD 0 0 ∧
      c ≠ (Grid2Duc.commonOwners
        (Grid2Duifs.new E no tri eps maxit nt po).toGrid2Duc i0 i1).getD 1 0) ∧
    ((Grid2Duc.commonOwners
        (Grid2Duifs.new E no tri eps maxit nt po).toGrid2Duc i0 i1).length ≤ 2 →
      Grid2Duc.findNextCell2 (Grid2Duifs.new E no tri eps maxit nt po).toGrid2Duc i0 i1 c ≠
        T2_max) := by
  obtain ⟨hm, hp⟩ := Grid2Duifs.commonOwners_new E no tri eps maxit nt po i0 i1 hi0 hi1 huniq
  have hcm : c ∈ Grid2Duc.commonOwners
      (Grid2Duifs.new E no tri eps maxit nt po).toGrid2Duc i0 i1 := (hm c).mpr ⟨hc, h0, h1⟩
  have hbound : ∀ x ∈ Grid2Duc.commonOwners
      (Grid2Duifs.new E no tri eps maxit nt po).toGrid2Duc i0 i1, x ≠ T2_max := by
    intro x hx
    exact ne_of_lt (lt_of_lt_of_le ((hm x).mp hx).1 hsize)
  have hiff : Grid2Duc.findNextCell2
        (Grid2Duifs.new E no tri eps maxit nt po).toGrid2Duc i0 i1 c = T2_max ↔
      3 ≤ (Grid2Duc.commonOwners
        (Grid2Duifs.new E no tri eps maxit nt po).toGrid2Duc i0 i1).length ∧
      c ≠ (Grid2Duc.commonOwners
        (Grid2Duifs.new E no tri eps maxit nt po).toGrid2Duc i0 i1).getD 0 0 ∧
      c ≠ (Grid2Duc.commonOwners
        (Grid2Duifs.new E no tri eps maxit nt po).toGrid2Duc i0 i1).getD 1 0 := by
    unfold Grid2Duc.findNextCell2
    dsimp only
    generalize Grid2Duc.commonOwners
      (Grid2Duifs.new E no tri eps maxit nt po).toGrid2Duc i0 i1 = cells at hcm hbound
    match cells, hcm, hbound with
    | [], hcm, _ => exact absurd hcm (List.not_mem_nil c)
    | [x], hcm, hbound =>
      simp only [List.length_singleton, if_true, List.getD_cons_zero]
      constructor
      · intro h
        exact absurd h (hbound x (List.mem_singleton_self x))
      · rintro ⟨h, -⟩
        omega
    | [x, y], hcm, hbound =>
      have hxy : c = x ∨ c = y := by simpa using hcm
      simp only [List.length_cons, List.length_nil, List.getD_cons_zero, List.getD_cons_succ]
      rw [if_neg (by omega)]
      constructor
      · intro h
        exfalso
        split at h
        · exact hbound y (by simp) h
        · split at h
          · exact hbound x (by simp) h
          · rcases hxy with r | r
            · rename_i n1 _; exact n1 r
            · rename_i _ n2; exact n2 r
      · rintro ⟨h, -⟩
        omega
    | x :: y :: z :: rest, hcm, hbound =>
      simp only [List.length_cons, List.getD_cons_zero, List.getD_cons_succ]
      rw [if_neg (by omega)]
      constructor
      · intro h
        refine ⟨by omega, ?_, ?_⟩
        · intro r
          rw [if_pos r] at h
          exact hbound y (by simp) h
        · intro r
          split at h
          · exact hbound y (by simp) h
          · exact hbound x (by simp) h
      · rintro ⟨-, n1, n2⟩
        rw [if_neg n1, if_neg n2]
  refine ⟨?_, hiff, ?_⟩
  · intro honly
    have hco := Grid2Duifs.commonOwners_single E no tri eps maxit nt po i0 i1 c hi0 hi1 huniq hc
      h0 h1 honly
    refine ⟨?_, ne_of_lt (lt_of_lt_of_le hc hsize)⟩
    unfold Grid2Duc.findNextCell2
    rw [hco]
    rfl
  · intro hle h
    have := (hiff.mp h).1
    omega

theorem findNextCell2_boundary_witness :
    Grid2Duc.findNextCell2 (Grid2Duifs.new exampleEnv (rectangleNodes ℚ) rectangleCells
      (1 / 1000) 10 1 false).toGrid2Duc 0 1 0 = 0 ∧ (0 : Nat) ≠ T2_max :=
  (Grid2Duifs.findNextCell2_boundary exampleEnv (rectangleNodes ℚ) rectangleCells (1 / 1000) 10
    1 false 0 1 0 (by decide) (by decide) (by decide) (by decide) (by decide) (by decide)
    (by decide)).1 (by decide)

end NextCell

section AngleTest

variable {T : Type} [LinearOrderedField T]

namespace Grid2Duc

/-- The time of the local solver by the test of the code: the expression of
the Snell branch when the test holds, the smaller of the two times along the
edges otherwise. -/
theorem solverTime_by_test (E : MathEnv T) (sv : SolverVars T) (s ttA ttB : T) :
    solverTime E sv s ttA ttB =
      if snellTest E sv s ttA ttB then
        1 / 2 * (sv.a * E.sin (sv.alpha - E.asin (|ttB - ttA| / (sv.c * s))) * s + ttB) +
          1 / 2 * (sv.b * E.sin (sv.beta + E.asin (|ttB - ttA| / (sv.c * s))) * s + ttA)
      else min (ttA + sv.b * s) (ttB + sv.a * s) := by
  have hmin : (if ttA + sv.b * s < ttB + sv.a * s then ttA + sv.b * s else ttB + sv.a * s) =
      min (ttA + sv.b * s) (ttB + sv.a * s) := by
    by_cases h : ttA + sv.b * s < ttB + sv.a * s
    · rw [if_pos h, min_eq_left (le_of_lt h)]
    · rw [if_neg h, min_eq_right (not_lt.mp h)]
  unfold solverTime snellTest
  dsimp only
  rw [hmin]
  by_cases hd : |ttB - ttA| ≤ sv.c * s
  · rw [if_pos hd]
    by_cases ht : ((if 0 > sv.alpha - E.pi / 2 then 0 else sv.alpha - E.pi / 2) ≤
          E.asin (|ttB - ttA| / (sv.c * s)) ∧
        E.asin (|ttB - ttA| / (sv.c * s)) ≤ E.pi / 2 - sv.beta) ∨
      (sv.alpha - E.pi / 2 ≤ E.asin (|ttB - ttA| / (sv.c * s)) ∧
        E.asin (|ttB - ttA| / (sv.c * s)) ≤
          (if 0 < E.pi / 2 - sv.beta then 0 else E.pi / 2 - sv.beta))
    · rw [if_pos ht, if_pos ⟨hd, ht⟩]
    · rw [if_neg ht, if_neg (fun h => ht h.2)]
  · rw [if_neg hd, if_neg (fun h => hd h.1)]

/-- The second alternative of the angle test implies the first when `theta`
is not negative. -/
theorem second_implies_first (pi2 alpha beta theta : T) (h0 : 0 ≤ theta)
    (h : alpha - pi2 ≤ theta ∧ theta ≤ (if 0 < pi2 - beta then 0 else pi2 - beta)) :
    (if 0 > alpha - pi2 then 0 else alpha - pi2) ≤ theta ∧ theta ≤ pi2 - beta := by
  obtain ⟨h1, h2⟩ := h
  by_cases hb : 0 < pi2 - beta
  · rw [if_pos hb] at h2
    refine ⟨?_, le_trans h2 (le_of_lt hb)⟩
    split
    · exact h0
    · exact h1
  · rw [if_neg hb] at h2
    refine ⟨?_, h2⟩
    split
    · exact h0
    · exact h1

/-- The test of the code is the condition of the Snell branch with the first
alternative alone, when `asin` is not negative on numbers that are not
negative. -/
theorem snellTest_iff (E : MathEnv T) (hasin : ∀ x : T, 0 ≤ x → 0 ≤ E.asin x)
    (sv : SolverVars T) (s ttA ttB : T) :
    snellTest E sv s ttA ttB ↔ snellApplies E sv s ttA ttB := by
  unfold snellTest snellApplies incidence
  have hmax : max 0 (sv.alpha - E.pi / 2) =
      if 0 > sv.alpha - E.pi / 2 then 0 else sv.alpha - E.pi / 2 := by
    by_cases h : 0 > sv.alpha - E.pi / 2
    · rw [if_pos h, max_eq_left (le_of_lt h)]
    · rw [if_neg h, max_eq_right (not_lt.mp h)]
  rw [hmax]
  constructor
  · rintro ⟨hd, h | h⟩
    · exact ⟨hd, h⟩
    · have hq : 0 ≤ |ttB - ttA| / (sv.c * s) :=
        div_nonneg (abs_nonneg _) (le_trans (abs_nonneg _) hd)
      exact ⟨hd, second_implies_first _ _ _ _ (hasin _ hq) h⟩
  · rintro ⟨hd, h⟩
    exact ⟨hd, Or.inl h⟩

end Grid2Duc

/-- Claim C38. Let `asin` be not negative on numbers that are not negative,
as the arc sine of real numbers is. In `localSolver`, whenever `Delta ≤ c s`,
the angle `theta = asin(Delta / (c s))` is not negative and the second
alternative of the angle test, `alpha - pi/2 ≤ theta ≤ min(0, pi/2 - beta)`,
implies the first, `max(0, alpha - pi/2) ≤ theta ≤ pi/2 - beta`; the test of
the code holds if and only if `Delta ≤ c s` and the first alternative hold,
and the time that the local solver computes is the one it computes with the
first alternative alone. -/
theorem Grid2Duc.second_alternative_redundant (E : MathEnv T)
    (hasin : ∀ x : T, 0 ≤ x → 0 ≤ E.asin x) (sv : Grid2Duc.SolverVars T) (s ttA ttB : T) :
    (|ttB - ttA| ≤ sv.c * s →
      0 ≤ E.asin (|ttB - ttA| / (sv.c * s)) ∧
      ((sv.alpha - E.pi / 2 ≤ E.asin (|ttB - ttA| / (sv.c * s)) ∧
          E.asin (|ttB - ttA| / (sv.c * s)) ≤ min 0 (E.pi / 2 - sv.beta)) →
        (max 0 (sv.alpha - E.pi / 2) ≤ E.asin (|ttB - ttA| / (sv.c * s)) ∧
          E.asin (|ttB - ttA| / (sv.c * s)) ≤ E.pi / 2 - sv.beta))) ∧
    (snellTest E sv s ttA ttB ↔ snellApplies E sv s ttA ttB) ∧
    Grid2Duc.solverTime E sv s ttA ttB = solverTimeFirstAlternative E sv s ttA ttB := by
  refine ⟨fun hd => ?_, Grid2Duc.snellTest_iff E hasin sv s ttA ttB, ?_⟩
  · have hq : 0 ≤ |ttB - ttA| / (sv.c * s) :=
      div_nonneg (abs_nonneg _) (le_trans (abs_nonneg _) hd)
    refine ⟨hasin _ hq, fun h => ?_⟩
    have h0 := hasin _ hq
    obtain ⟨h1, h2⟩ := h
    exact ⟨max_le h0 h1, le_trans h2 (min_le_right _ _)⟩
  · unfold Grid2Duc.solverTime solverTimeFirstAlternative
    dsimp only
    by_cases hd : |ttB - ttA| ≤ sv.c * s
    · rw [if_pos hd, if_pos hd]
      have hq : 0 ≤ |ttB - ttA| / (sv.c * s) :=
        div_nonneg (abs_nonneg _) (le_trans (abs_nonneg _) hd)
      by_cases h1 : (if 0 > sv.alpha - E.pi / 2 then 0 else sv.alpha - E.pi / 2) ≤
            E.asin (|ttB - ttA| / (sv.c * s)) ∧
          E.asin (|ttB - ttA| / (sv.c * s)) ≤ E.pi / 2 - sv.beta
      · rw [if_pos (Or.inl h1), if_pos h1]
      · have h2 : ¬ ((((if 0 > sv.alpha - E.pi / 2 then 0 else sv.alpha - E.pi / 2) ≤
              E.asin (|ttB - ttA| / (sv.c * s)) ∧
            E.asin (|ttB - ttA| / (sv.c * s)) ≤ E.pi / 2 - sv.beta)) ∨
            (sv.alpha - E.pi / 2 ≤ E.asin (|ttB - ttA| / (sv.c * s)) ∧
              E.asin (|ttB - ttA| / (sv.c * s)) ≤
                (if 0 < E.pi / 2 - sv.beta then 0 else E.pi / 2 - sv.beta))) := by
          rintro (h | h)
          · exact h1 h
          · exact h1 (Grid2Duc.second_implies_first _ _ _ _ (hasin _ hq) h)
        rw [if_neg h2, if_neg h1]
    · rw [if_neg hd, if_neg hd]

theorem second_alternative_redundant_witness :
    ∃ E : MathEnv ℝ, E.isReal ∧ (∀ x : ℝ, 0 ≤ x → 0 ≤ E.asin x) ∧
      (snellTest E ⟨1, 2, 1, 1, 1, 0, 0⟩ 1 0 0 ↔ snellApplies E ⟨1, 2, 1, 1, 1, 0, 0⟩ 1 0 0) ∧
      Grid2Duc.solverTime E ⟨1, 2, 1, 1, 1, 0, 0⟩ 1 0 0 =
        solverTimeFirstAlternative E ⟨1, 2, 1, 1, 1, 0, 0⟩ 1 0 0 :=
  ⟨⟨Real.sqrt, Real.sin, Real.arcsin, Real.arccos, Real.pi, 1 / 100000, 1000000000⟩,
    ⟨rfl, rfl, rfl, rfl, rfl⟩, fun _ hx => Real.arcsin_nonneg.mpr hx,
    (Grid2Duc.second_alternative_redundant
      ⟨Real.sqrt, Real.sin, Real.arcsin, Real.arccos, Real.pi, 1 / 100000, 1000000000⟩
      (fun _ hx => Real.arcsin_nonneg.mpr hx) ⟨1, 2, 1, 1, 1, 0, 0⟩ 1 0 0).2⟩

end AngleTest

section Fallback

variable {T : Type} [LinearOrderedField T]

namespace Grid2Duc

/-- The local variables of `localSolver` for a cell that is replaced by its
virtual triangle. -/
theorem solverVars_virtual (E : MathEnv T) (g : Grid2Duc T) (v t : Nat) (vn : virtualNode T)
    (hv : (g.triangles.getD t default).a.getD
        (findI0 (g.nodes.getD v default).gridIndex (g.triangles.getD t default).i) 0 > E.pi / 2 ∧
      ¬ g.virtualNodes.isEmpty)
    (hvn : g.virtualNodes.lookup t = some vn) :
    solverVars E g v t = Except.ok
      { vertexA := vn.node1
        vertexB := vn.node2
        c := vn.e.getD 0 0
        a := vn.e.getD 1 0
        b := vn.e.getD 2 0
        alpha := vn.a.getD 2 0
        beta := vn.a.getD 1 0 } := by
  unfold solverVars
  dsimp only
  rw [if_pos hv]
  unfold virtualNodesAt
  rw [hvn]

/-- Claim C36. In `localSolver`, for an owner cell `t` of `C` for which the
local variables are set (`virtualNodes.at` does not throw), whenever the test
of the Snell branch fails, the candidate is `min(TT[A] + s b, TT[B] + s a)`,
`A` and `B` being the two nodes that the solver reads. In a cell with the
record that the constructor builds, not replaced by its virtual triangle, `A`
and `B` are the two other vertices of the cell, `b = dist(A, C)` and
`a = dist(B, C)`; in a cell replaced by its virtual triangle, `A` and `B` are
the two nodes of the record and `b`, `a` the edge lengths `e[2]`, `e[1]` of the
record. -/
theorem fallback_candidate (E : MathEnv T) (g : Grid2Duc T) (v w t : Nat) (sv : SolverVars T)
    (hsv : solverVars E g v t = Except.ok sv)
    (htest : ¬ snellTest E sv (g.slowness.getD t 0) (g.getNodeTT sv.vertexA w)
      (g.getNodeTT sv.vertexB w)) :
    candidate E g v w t =
      some (min (g.getNodeTT sv.vertexA w + g.slowness.getD t 0 * sv.b)
        (g.getNodeTT sv.vertexB w + g.slowness.getD t 0 * sv.a)) ∧
    (∀ (no : List (sxz T)) (i0 : Nat), i0 < 3 →
      g.triangles.getD t default = builtTriangle E no (g.triangles.getD t default).i →
      findI0 (g.nodes.getD v default).gridIndex (g.triangles.getD t default).i = i0 →
      ¬ ((g.triangles.getD t default).a.getD i0 0 > E.pi / 2 ∧ ¬ g.virtualNodes.isEmpty) →
      sv.vertexA = (g.triangles.getD t default).i.getD ((i0 + 1) % 3) 0 ∧
      sv.vertexB = (g.triangles.getD t default).i.getD ((i0 + 2) % 3) 0 ∧
      sv.b = (no.getD sv.vertexA ⟨0, 0⟩).getDistance E
        (no.getD ((g.triangles.getD t default).i.getD i0 0) ⟨0, 0⟩) ∧
      sv.a = (no.getD sv.vertexB ⟨0, 0⟩).getDistance E
        (no.getD ((g.triangles.getD t default).i.getD i0 0) ⟨0, 0⟩)) ∧
    (∀ vn : virtualNode T,
      ((g.triangles.getD t default).a.getD
          (findI0 (g.nodes.getD v default).gridIndex (g.triangles.getD t default).i) 0 >
            E.pi / 2 ∧ ¬ g.virtualNodes.isEmpty) →
      g.virtualNodes.lookup t = some vn →
      sv.vertexA = vn.node1 ∧ sv.vertexB = vn.node2 ∧ sv.b = vn.e.getD 2 0 ∧
      sv.a = vn.e.getD 1 0) := by
  refine ⟨?_, ?_, ?_⟩
  · rw [candidate_of_solverVars E g v w t sv hsv, solverTime_by_test, if_neg htest,
      mul_comm sv.b, mul_comm sv.a]
  · intro no i0 hi0 htri hC hv
    have h := solverVars_geometry E g no v t i0 hi0 htri hC hv
    rw [hsv] at h
    rw [Except.ok.inj h]
    exact ⟨rfl, rfl, rfl, rfl⟩
  · intro vn hv hvn
    have h := solverVars_virtual E g v t vn hv hvn
    rw [hsv] at h
    rw [Except.ok.inj h]
    exact ⟨rfl, rfl, rfl, rfl⟩

end Grid2Duc

theorem fallback_candidate_witness :
    ¬ snellTest exampleEnv
      (solverGeometry exampleEnv (rectangleNodes ℚ) (ramp.triangles.getD 0 default).i 0)
      (ramp.slowness.getD 0 0)
      (ramp.getNodeTT
        (solverGeometry exampleEnv (rectangleNodes ℚ) (ramp.triangles.getD 0 default).i 0).vertexA
        0)
      (ramp.getNodeTT
        (solverGeometry exampleEnv (rectangleNodes ℚ) (ramp.triangles.getD 0 default).i 0).vertexB
        0) ∧
    Grid2Duc.candidate exampleEnv ramp 0 0 0 =
      some (min
        (ramp.getNodeTT
          (solverGeometry exampleEnv (rectangleNodes ℚ)
            (ramp.triangles.getD 0 default).i 0).vertexA 0 +
          ramp.slowness.getD 0 0 *
            (solverGeometry exampleEnv (rectangleNodes ℚ) (ramp.triangles.getD 0 default).i 0).b)
        (ramp.getNodeTT
          (solverGeometry exampleEnv (rectangleNodes ℚ)
            (ramp.triangles.getD 0 default).i 0).vertexB 0 +
          ramp.slowness.getD 0 0 *
            (solverGeometry exampleEnv (rectangleNodes ℚ)
              (ramp.triangles.getD 0 default).i 0).a)) ∧
    min (ramp.getNodeTT 1 0 + ramp.slowness.getD 0 0 * 4)
      (ramp.getNodeTT 2 0 + ramp.slowness.getD 0 0 * 5) = 5 :=
  ⟨by decide!,
    (Grid2Duc.fallback_candidate exampleEnv ramp 0 0 0
      (solverGeometry exampleEnv (rectangleNodes ℚ) (ramp.triangles.getD 0 default).i 0)
      (Grid2Duc.solverVars_geometry exampleEnv ramp (rectangleNodes ℚ) 0 0 0 (by decide)
        (by decide!) (by decide!) (by decide!))
      (by decide!)).1, by decide!⟩

end Fallback

section VirtualRecords

variable {T : Type} [LinearOrderedField T]

theorem Node2Dn.node_getDistance_comm (E : MathEnv T) (p q : Node2Dn T) :
    p.getDistance E q = q.getDistance E p := by
  unfold Node2Dn.getDistance
  congr 1
  ring

namespace Grid2Duc

/-- The record that `processObtuse` computes describes the triangle of its two
nodes and the obtuse vertex, whether the nodes are exchanged or not. -/
theorem makeVirtualNode_consistent (E : MathEnv T) (g : Grid2Duc T) (i0 i1 i2 i3 : Nat) :
    recordConsistent E g i0 (makeVirtualNode E g i0 i1 i2 i3) ∧
    (((makeVirtualNode E g i0 i1 i2 i3).node1 = i1 ∧ (makeVirtualNode E g i0 i1 i2 i3).node2 = i3) ∨
      ((makeVirtualNode E g i0 i1 i2 i3).node1 = i3 ∧
        (makeVirtualNode E g i0 i1 i2 i3).node2 = i2)) := by
  unfold makeVirtualNode recordConsistent lawOfCosines
  dsimp only
  split
  · refine ⟨⟨?_, ?_⟩, Or.inr ⟨rfl, rfl⟩⟩
    · simp only [List.set_cons_zero, List.set_cons_succ]
      rw [Node2Dn.node_getDistance_comm E (g.nodes.getD i2 default)]
    · simp only [List.set_cons_zero, List.set_cons_succ]
      rw [Node2Dn.node_getDistance_comm E (g.nodes.getD i2 default)]
      congr 3
      ring
  · refine ⟨⟨?_, ?_⟩, Or.inl ⟨rfl, rfl⟩⟩
    · simp only [List.set_cons_zero, List.set_cons_succ]
    · simp only [List.set_cons_zero, List.set_cons_succ]
      congr 3
      ring

theorem lookup_insertVirtualNode_some (m : List (Nat × virtualNode T)) (ntri k : Nat)
    (vn x : virtualNode T) (h : (insertVirtualNode m ntri vn).lookup k = some x) :
    m.lookup k = some x ∨ (k = ntri ∧ x = vn) := by
  unfold insertVirtualNode at h
  split at h
  · exact Or.inl h
  · rw [List.lookup_append] at h
    cases hk : m.lookup k with
    | some y => rw [hk] at h; exact Or.inl h
    | none =>
      rw [hk] at h
      simp only [Option.none_or, List.lookup] at h
      split at h
      · rename_i heq
        refine Or.inr ⟨?_, ?_⟩
        · exact eq_of_beq heq
        · exact (Option.some.inj h).symm
      · exact Option.noConfusion h

/-- The step of `processObtuse` for a vertex keeps the records consistent. -/
theorem processVertex_consistent (E : MathEnv T) (g g' : Grid2Duc T) (ntri n : Nat)
    (hn : n < 3) (hs : sameButVirtual g g') (h : recordsConsistent E g g') :
    recordsConsistent E g (processVertex E g' ntri n) := by
  unfold processVertex
  dsimp only
  split
  · rename_i hob
    split
    · exact h
    · rename_i opp hopp
      intro t vn hl
      rcases lookup_insertVirtualNode_some _ _ _ _ _ hl with h1 | ⟨h1, h2⟩
      · exact h t vn h1
      · refine ⟨n, hn, ?_, ?_⟩
        · rw [h1, ← hs.2.1]; exact hob
        · rw [h1, h2, ← hs.2.1]
          have hc := (makeVirtualNode_consistent E g' ((g'.triangles.getD ntri default).i.getD n 0)
            ((g'.triangles.getD ntri default).i.getD ((n + 1) % 3) 0)
            ((g'.triangles.getD ntri default).i.getD ((n + 2) % 3) 0)
            (oppositeNode g' opp ((g'.triangles.getD ntri default).i.getD ((n + 1) % 3) 0)
              ((g'.triangles.getD ntri default).i.getD ((n + 2) % 3) 0))).1
          unfold recordConsistent at hc ⊢
          rw [hs.1] at hc
          exact hc
  · exact h

/-- `processObtuse` leaves consistent records only, on a grid whose table of
virtual nodes is empty. -/
theorem processObtuse_consistent (E : MathEnv T) (g : Grid2Duc T) (h0 : g.virtualNodes = []) :
    recordsConsistent E g (processObtuse E g) := by
  have hstart : sameButVirtual g g ∧ recordsConsistent E g g := by
    refine ⟨sameButVirtual_refl g, ?_⟩
    intro t vn hl
    rw [h0] at hl
    exact Option.noConfusion hl
  unfold processObtuse
  refine (foldl_keeps _ (fun g' => sameButVirtual g g' ∧ recordsConsistent E g g') ?_ _ g
    hstart).2
  intro a ntri ha
  have hinner : ∀ (l : List Nat), (∀ n ∈ l, n < 3) → ∀ b : Grid2Duc T,
      (sameButVirtual g b ∧ recordsConsistent E g b) →
      (sameButVirtual g (l.foldl (fun g n => processVertex E g ntri n) b) ∧
        recordsConsistent E g (l.foldl (fun g n => processVertex E g ntri n) b)) := by
    intro l
    induction l with
    | nil => intro _ b hb; exact hb
    | cons n l ih =>
      intro hl b hb
      rw [List.foldl_cons]
      refine ih (fun m hm => hl m (List.mem_cons_of_mem _ hm)) _ ⟨?_, ?_⟩
      · exact sameButVirtual_trans _ _ _ hb.1 (processVertex_sameButVirtual E b ntri n)
      · exact processVertex_consistent E g b ntri n (hl n (List.mem_cons_self _ _)) hb.1 hb.2
  exact hinner (List.range 3) (fun n hn => List.mem_range.mp hn) a ha

end Grid2Duc

namespace Grid2Duifs

/-- The constructed grid before `processObtuse`. -/
theorem new_false_virtualNodes (E : MathEnv T) (no : List (sxz T)) (tri : List (List Nat))
    (eps : T) (maxit : Int) (nt : Nat) :
    (Grid2Duifs.new E no tri eps maxit nt false).virtualNodes = [] ∧
    (Grid2Duifs.new E no tri eps maxit nt true).toGrid2Duc =
      (Grid2Duifs.new E no tri eps maxit nt false).toGrid2Duc.processObtuse E := by
  obtain ⟨-, -, -, -, -, -, b7, -, -⟩ := buildGridNodes_builtUpTo E no tri nt
  obtain ⟨-, -, -, n4, -⟩ :=
    Grid2Duc.buildGridNeighbors_spec (buildGridNodes E (Grid2Duc.new no tri nt) no)
  refine ⟨?_, rfl⟩
  show (buildGridNodes E (Grid2Duc.new no tri nt) no).buildGridNeighbors.virtualNodes = []
  rw [n4, b7]

/-- Claim C39. In the grid that the constructor builds with `processObtuse`,
every record `vn` of the table of virtual nodes, stored for a triangle `t`,
was stored for a vertex `C = i[n]` of `t` with an angle above `pi/2`, and,
whether `processObtuse` exchanged the nodes or not, `e[0] = dist(node1,
node2)`, `e[1] = dist(C, node2)`, `e[2] = dist(C, node1)`, `a[0]` is the angle
of the law of cosines at `C`, `a[1]` the one at `node1` and `a[2]` the one at
`node2` of the triangle `(node1, node2, C)`; so the variables that
`localSolver` reads from the record are `c = |AB|`, `a = |BC|`, `b = |AC|`,
`alpha` the angle at `B` and `beta` the angle at `A`, with `A = node1` and
`B = node2`. -/
theorem virtual_record_consistent (E : MathEnv T) (no : List (sxz T)) (tri : List (List Nat))
    (eps : T) (maxit : Int) (nt : Nat) (t : Nat) (vn : virtualNode T)
    (hl : (Grid2Duifs.new E no tri eps maxit nt true).virtualNodes.lookup t = some vn) :
    ∃ n, n < 3 ∧
      ((Grid2Duifs.new E no tri eps maxit nt true).triangles.getD t default).a.getD n 0 >
        E.pi / 2 ∧
      Grid2Duc.recordConsistent E (Grid2Duifs.new E no tri eps maxit nt true).toGrid2Duc
        (((Grid2Duifs.new E no tri eps maxit nt true).triangles.getD t default).i.getD n 0) vn ∧
      ∀ v : Nat,
        (((Grid2Duifs.new E no tri eps maxit nt true).triangles.getD t default).a.getD
            (Grid2Duc.findI0
              ((Grid2Duifs.new E no tri eps maxit nt true).nodes.getD v default).gridIndex
              ((Grid2Duifs.new E no tri eps maxit nt true).triangles.getD t default).i) 0 >
          E.pi / 2) →
        Grid2Duc.solverVars E (Grid2Duifs.new E no tri eps maxit nt true).toGrid2Duc v t =
          Except.ok
            { vertexA := vn.node1
              vertexB := vn.node2
              c := vn.e.getD 0 0
              a := vn.e.getD 1 0
              b := vn.e.getD 2 0
              alpha := vn.a.getD 2 0
              beta := vn.a.getD 1 0 } := by
  obtain ⟨h0, hstep⟩ := new_false_virtualNodes E no tri eps maxit nt
  have hc := Grid2Duc.processObtuse_consistent E
    (Grid2Duifs.new E no tri eps maxit nt false).toGrid2Duc h0
  have hsv := Grid2Duc.processObtuse_sameButVirtual E
    (Grid2Duifs.new E no tri eps maxit nt false).toGrid2Duc
  rw [← hstep] at hc hsv
  obtain ⟨n, hn, hob, hrc⟩ := hc t vn hl
  refine ⟨n, hn, ?_, ?_, ?_⟩
  · show ((Grid2Duifs.new E no tri eps maxit nt true).toGrid2Duc.triangles.getD t default).a.getD
      n 0 > E.pi / 2
    rw [hsv.2.1]; exact hob
  · show Grid2Duc.recordConsistent E (Grid2Duifs.new E no tri eps maxit nt true).toGrid2Duc
      (((Grid2Duifs.new E no tri eps maxit nt true).toGrid2Duc.triangles.getD t default).i.getD
        n 0) vn
    unfold Grid2Duc.recordConsistent at hrc ⊢
    rw [hsv.2.1, hsv.1]
    exact hrc
  · intro v hv
    refine Grid2Duc.solverVars_virtual E _ v t vn ⟨hv, ?_⟩ hl
    intro hemp
    have hnil : (Grid2Duifs.new E no tri eps maxit nt true).toGrid2Duc.virtualNodes = [] :=
      List.isEmpty_iff.mp hemp
    have hl' : (Grid2Duifs.new E no tri eps maxit nt true).toGrid2Duc.virtualNodes.lookup t =
      some vn := hl
    rw [hnil] at hl'
    exact Option.noConfusion hl'

end Grid2Duifs

theorem virtual_record_consistent_witness :
    ∃ n, n < 3 ∧
      ((Grid2Duifs.new exampleEnv (kiteNodes ℚ) kiteCells (1 / 1000) 10 1
        true).triangles.getD 1 default).a.getD n 0 > exampleEnv.pi / 2 ∧
      Grid2Duc.recordConsistent exampleEnv
        (Grid2Duifs.new exampleEnv (kiteNodes ℚ) kiteCells (1 / 1000) 10 1 true).toGrid2Duc
        (((Grid2Duifs.new exampleEnv (kiteNodes ℚ) kiteCells (1 / 1000) 10 1
          true).triangles.getD 1 default).i.getD n 0)
        (((Grid2Duifs.new exampleEnv (kiteNodes ℚ) kiteCells (1 / 1000) 10 1
          true).virtualNodes.lookup 1).getD ⟨0, 0, [], []⟩) :=
  (Grid2Duifs.virtual_record_consistent exampleEnv (kiteNodes ℚ) kiteCells (1 / 1000) 10 1 1
    (((Grid2Duifs.new exampleEnv (kiteNodes ℚ) kiteCells (1 / 1000) 10 1
      true).virtualNodes.lookup 1).getD ⟨0, 0, [], []⟩) (by decide!)).imp
    (fun _ h => ⟨h.1, h.2.1, h.2.2.1⟩)

end VirtualRecords

section ObtuseLookup

variable {T : Type} [LinearOrderedField T]

namespace Grid2Duc

/-- The search for `vertexC` in a cell that has it among its vertices ends
below 3 and finds a position that holds its index. -/
theorem findI0_lt (v : Nat) (i : List Nat) (h : v ∈ cellVertices i) :
    findI0 v i < 3 ∧ i.getD (findI0 v i) 0 = v := by
  unfold cellVertices at h
  unfold findI0
  by_cases h0 : v = i.getD 0 0
  · rw [if_pos h0]; exact ⟨by decide, h0.symm⟩
  · rw [if_neg h0]
    by_cases h1 : v = i.getD 1 0
    · rw [if_pos h1]; exact ⟨by decide, h1.symm⟩
    · rw [if_neg h1]
      by_cases h2 : v = i.getD 2 0
      · rw [if_pos h2]; exact ⟨by decide, h2.symm⟩
      · rcases List.mem_cons.mp h with h | h
        · exact absurd h h0
        rcases List.mem_cons.mp h with h | h
        · exact absurd h h1
        have h := List.mem_singleton.mp h
        exact absurd h h2

/-- The local variables of `localSolver` are set as soon as the table of
virtual nodes has a record for the cell when the cell is to be replaced. -/
theorem solverVars_ok (E : MathEnv T) (g : Grid2Duc T) (v t : Nat)
    (h : ((g.triangles.getD t default).a.getD
        (findI0 (g.nodes.getD v default).gridIndex (g.triangles.getD t default).i) 0 >
          E.pi / 2 ∧ ¬ g.virtualNodes.isEmpty) → (g.virtualNodes.lookup t).isSome = true) :
    ∃ sv, solverVars E g v t = Except.ok sv := by
  unfold solverVars
  dsimp only
  split
  · rename_i hv
    have hs := h hv
    unfold virtualNodesAt
    cases hl : g.virtualNodes.lookup t with
    | none => rw [hl] at hs; exact Bool.noConfusion hs
    | some vn => exact ⟨_, rfl⟩
  · exact ⟨_, rfl⟩

/-- The loop of `localSolver` throws nothing when the local variables are set
for every owner. -/
theorem localSolverLoop_no_throw (E : MathEnv T) (v w : Nat) :
    ∀ (owners : List Nat) (g : Grid2Duc T),
      (∀ t ∈ owners, ∃ sv, solverVars E g v t = Except.ok sv) →
      (localSolverLoop E v w owners g).exn = none := by
  intro owners
  induction owners with
  | nil => intro g _; rfl
  | cons c rest ih =>
    intro g h
    rw [localSolverLoop]
    obtain ⟨sv, hsv⟩ := h c (List.mem_cons_self _ _)
    have hcell : (localSolverCell E g v w c).exn = none ∧
        ((localSolverCell E g v w c).state = g ∨
          ∃ x, (localSolverCell E g v w c).state = g.setNodeTT v x w) := by
      unfold localSolverCell
      rw [hsv]
      dsimp only
      split
      · exact ⟨rfl, Or.inr ⟨_, rfl⟩⟩
      · exact ⟨rfl, Or.inl rfl⟩
    unfold Outcome.andThen
    rw [hcell.1]
    dsimp only
    apply ih
    intro t ht
    rcases hcell.2 with e | ⟨x, e⟩
    · rw [e]; exact h t (List.mem_cons_of_mem _ ht)
    · rw [e, solverVars_setNodeTT]; exact h t (List.mem_cons_of_mem _ ht)

end Grid2Duc

namespace Grid2Duifs

/-- In the grid that the constructor builds with `processObtuse`, every cell
with an angle above `pi/2` whose vertex indices are indices of nodes has a
record in the table of virtual nodes. -/
theorem new_record_stored (E : MathEnv T) (no : List (sxz T)) (tri : List (List Nat)) (eps : T)
    (maxit : Int) (nt : Nat) (t n : Nat) (ht : t < tri.length) (hn : n < 3)
    (hvalid : ∀ u ∈ cellVertices (tri.getD t []), u < no.length)
    (hob : ((Grid2Duifs.new E no tri eps maxit nt true).triangles.getD t default).a.getD n 0 >
      E.pi / 2) :
    ((Grid2Duifs.new E no tri eps maxit nt true).virtualNodes.lookup t).isSome = true := by
  obtain ⟨-, q2, q3, q4, -⟩ := new_spec E no tri eps maxit nt false
  obtain ⟨-, -, -, r4, -⟩ := new_spec E no tri eps maxit nt true
  have hi : ((Grid2Duifs.new E no tri eps maxit nt false).triangles.getD t default).i =
      tri.getD t [] := by
    rw [q4 t ht]
    rfl
  have hm1 := getD_mem_cellVertices (tri.getD t []) ((n + 1) % 3) (Nat.mod_lt _ (by decide))
  have hm2 := getD_mem_cellVertices (tri.getD t []) ((n + 2) % 3) (Nat.mod_lt _ (by decide))
  show ((Grid2Duifs.new E no tri eps maxit nt true).toGrid2Duc.virtualNodes.lookup t).isSome = true
  rw [(new_false_virtualNodes E no tri eps maxit nt).2]
  apply Grid2Duc.processObtuse_stores E _ t n (by rw [q2]; exact ht) hn
  · rw [q4 t ht, ← r4 t ht]
    exact hob
  · rw [hi, q3 _ (hvalid _ hm1)]
    exact (mem_ownersUpTo_iff tri tri.length _ t).mpr ⟨ht, hm1⟩
  · rw [hi, q3 _ (hvalid _ hm2)]
    exact (mem_ownersUpTo_iff tri tri.length _ t).mpr ⟨ht, hm2⟩

/-- Claim C35. Let the grid be built by the constructor on cells whose vertex
indices are indices of nodes, so that its owner lists are exact. With
`processObtuse`, every triangle that has an angle above `pi/2` has a record in
the table of virtual nodes. On every grid `g` that has the triangles and the
table of virtual nodes of the constructed grid, and the grid index and the
owner list of the vertex `C = v`, for every owner cell of `C` the search for
`C` in the cell ends with an index below 3 at which the cell holds `C`, the
local variables of `localSolver` are set without a throw of
`virtualNodes.at`, and `localSolver(C, w)` throws nothing. -/
theorem obtuse_lookup_safe (E : MathEnv T) (no : List (sxz T)) (tri : List (List Nat)) (eps : T)
    (maxit : Int) (nt : Nat) (po : Bool) (g : Grid2Duc T) (v w : Nat)
    (hvalid : ∀ c, c < tri.length → ∀ u ∈ cellVertices (tri.getD c []), u < no.length)
    (hv : v < no.length)
    (hT : g.triangles = (Grid2Duifs.new E no tri eps maxit nt po).triangles)
    (hV : g.virtualNodes = (Grid2Duifs.new E no tri eps maxit nt po).virtualNodes)
    (hI : (g.nodes.getD v default).gridIndex =
      ((Grid2Duifs.new E no tri eps maxit nt po).nodes.getD v default).gridIndex)
    (hO : (g.nodes.getD v default).owners =
      ((Grid2Duifs.new E no tri eps maxit nt po).nodes.getD v default).owners) :
    (po = true → ∀ t n, t < tri.length → n < 3 →
      (g.triangles.getD t default).a.getD n 0 > E.pi / 2 →
      (g.virtualNodes.lookup t).isSome = true) ∧
    (∀ t ∈ (g.nodes.getD v default).owners,
      Grid2Duc.findI0 (g.nodes.getD v default).gridIndex (g.triangles.getD t default).i < 3 ∧
      (g.triangles.getD t default).i.getD
        (Grid2Duc.findI0 (g.nodes.getD v default).gridIndex (g.triangles.getD t default).i) 0 =
          v ∧
      ∃ sv, Grid2Duc.solverVars E g v t = Except.ok sv) ∧
    (Grid2Duc.localSolver E g v w).exn = none := by
  obtain ⟨-, -, q3, q4, -⟩ := new_spec E no tri eps maxit nt po
  have hgi : (g.nodes.getD v default).gridIndex = v := by rw [hI, q3 v hv]
  have hown : (g.nodes.getD v default).owners = ownersUpTo tri tri.length v := by
    rw [hO, q3 v hv]
  have hstored : po = true → ∀ t n, t < tri.length → n < 3 →
      (g.triangles.getD t default).a.getD n 0 > E.pi / 2 →
      (g.virtualNodes.lookup t).isSome = true := by
    intro hpo t n ht hn hob
    subst hpo
    rw [hV]
    rw [hT] at hob
    exact new_record_stored E no tri eps maxit nt t n ht hn (hvalid t ht) hob
  have hcell : ∀ t ∈ (g.nodes.getD v default).owners,
      Grid2Duc.findI0 (g.nodes.getD v default).gridIndex (g.triangles.getD t default).i < 3 ∧
      (g.triangles.getD t default).i.getD
        (Grid2Duc.findI0 (g.nodes.getD v default).gridIndex (g.triangles.getD t default).i) 0 =
          v ∧
      ∃ sv, Grid2Duc.solverVars E g v t = Except.ok sv := by
    intro t ht
    rw [hown, mem_ownersUpTo_iff] at ht
    obtain ⟨ht1, ht2⟩ := ht
    have hi : (g.triangles.getD t default).i = tri.getD t [] := by
      rw [hT]
      show ((Grid2Duifs.new E no tri eps maxit nt po).triangles.getD t default).i = _
      rw [q4 t ht1]
      rfl
    have hf := Grid2Duc.findI0_lt v (g.triangles.getD t default).i (by rw [hi]; exact ht2)
    rw [hgi]
    refine ⟨hf.1, hf.2, ?_⟩
    apply Grid2Duc.solverVars_ok
    rintro ⟨hob, hne⟩
    rw [hgi] at hob
    cases po with
    | true => exact hstored rfl t _ ht1 hf.1 hob
    | false =>
      exfalso
      apply hne
      rw [hV]
      show (Grid2Duifs.new E no tri eps maxit nt false).virtualNodes.isEmpty = true
      rw [(new_false_virtualNodes E no tri eps maxit nt).1]
      rfl
  refine ⟨hstored, hcell, ?_⟩
  unfold Grid2Duc.localSolver
  exact Grid2Duc.localSolverLoop_no_throw E v w _ g (fun t ht => (hcell t ht).2.2)

end Grid2Duifs

/-- A grid with another slowness and another time has the triangles, the
table of virtual nodes, the grid indices and the owner lists it had. -/
theorem setSlowness_setNodeTT_mesh (g : Grid2Duc T) (s a : T) (u w v : Nat) :
    ((g.setSlowness s).setNodeTT u a w).triangles = g.triangles ∧
    ((g.setSlowness s).setNodeTT u a w).virtualNodes = g.virtualNodes ∧
    (((g.setSlowness s).setNodeTT u a w).nodes.getD v default).gridIndex =
      (g.nodes.getD v default).gridIndex ∧
    (((g.setSlowness s).setNodeTT u a w).nodes.getD v default).owners =
      (g.nodes.getD v default).owners := by
  refine ⟨rfl, rfl, ?_, ?_⟩
  · rw [Grid2Duc.getD_setNodeTT]
    split <;> rfl
  · rw [Grid2Duc.getD_setNodeTT]
    split <;> rfl

theorem obtuse_lookup_safe_witness :
    ((((Grid2Duifs.new exampleEnv (kiteNodes ℚ) kiteCells (1 / 1000) 10 1
        true).toGrid2Duc.setSlowness 1).setNodeTT 1 7 0).triangles.getD 1 default).a.getD 2 0 >
      exampleEnv.pi / 2 ∧
    (Grid2Duc.localSolver exampleEnv
      (((Grid2Duifs.new exampleEnv (kiteNodes ℚ) kiteCells (1 / 1000) 10 1
        true).toGrid2Duc.setSlowness 1).setNodeTT 1 7 0) 3 0).exn = none :=
  ⟨by decide!,
    (Grid2Duifs.obtuse_lookup_safe exampleEnv (kiteNodes ℚ) kiteCells (1 / 1000) 10 1 true
      (((Grid2Duifs.new exampleEnv (kiteNodes ℚ) kiteCells (1 / 1000) 10 1
        true).toGrid2Duc.setSlowness 1).setNodeTT 1 7 0) 3 0
      (by decide) (by decide)
      (setSlowness_setNodeTT_mesh _ 1 7 1 0 3).1 (setSlowness_setNodeTT_mesh _ 1 7 1 0 3).2.1
      (setSlowness_setNodeTT_mesh _ 1 7 1 0 3).2.2.1
      (setSlowness_setNodeTT_mesh _ 1 7 1 0 3).2.2.2).2.2⟩

end ObtuseLookup

section PlaneWave

/-- In a triangle `p q r` of the plane, the side `pr` times the sine of the
angle that the law of cosines gives at `p` is the distance from `r` to the
line `pq`. -/
theorem side_sin_angle (E : MathEnv ℝ) (hE : E.isReal) (p q r : sxz ℝ)
    (hpq : p.getDistance E q ≠ 0) (hpr : p.getDistance E r ≠ 0) :
    p.getDistance E r * E.sin (p.angleAt E q r) =
      |(q.x - p.x) * (r.z - p.z) - (q.z - p.z) * (r.x - p.x)| / p.getDistance E q := by
  obtain ⟨hs, hsin, -, hacos, -⟩ := hE
  unfold sxz.angleAt
  unfold sxz.getDistance at hpq hpr ⊢
  rw [hs] at hpq hpr ⊢
  rw [hsin, hacos]
  have hU0 : 0 ≤ (p.x - q.x) * (p.x - q.x) + (p.z - q.z) * (p.z - q.z) :=
    add_nonneg (mul_self_nonneg _) (mul_self_nonneg _)
  have hW0 : 0 ≤ (p.x - r.x) * (p.x - r.x) + (p.z - r.z) * (p.z - r.z) :=
    add_nonneg (mul_self_nonneg _) (mul_self_nonneg _)
  have hV0 : 0 ≤ (q.x - r.x) * (q.x - r.x) + (q.z - r.z) * (q.z - r.z) :=
    add_nonneg (mul_self_nonneg _) (mul_self_nonneg _)
  have hU := Real.mul_self_sqrt hU0
  have hW := Real.mul_self_sqrt hW0
  have hV := Real.mul_self_sqrt hV0
  generalize hu : (p.x - q.x) * (p.x - q.x) + (p.z - q.z) * (p.z - q.z) = U at *
  generalize hw : (p.x - r.x) * (p.x - r.x) + (p.z - r.z) * (p.z - r.z) = W at *
  generalize hv : (q.x - r.x) * (q.x - r.x) + (q.z - r.z) * (q.z - r.z) = V at *
  have hUne : U ≠ 0 := by
    intro h
    rw [h, Real.sqrt_zero] at hpq
    exact hpq rfl
  have hWne : W ≠ 0 := by
    intro h
    rw [h, Real.sqrt_zero] at hpr
    exact hpr rfl
  have hUpos : 0 < U := lt_of_le_of_ne hU0 (Ne.symm hUne)
  rw [hU, hW, hV, Real.sin_arccos]
  have hx2 : ((U + W - V) / (2 * Real.sqrt U * Real.sqrt W)) ^ 2 =
      (U + W - V) ^ 2 / (4 * U * W) := by
    rw [div_pow]
    congr 1
    calc (2 * Real.sqrt U * Real.sqrt W) ^ 2
        = 4 * (Real.sqrt U * Real.sqrt U) * (Real.sqrt W * Real.sqrt W) := by ring
      _ = 4 * U * W := by rw [hU, hW]
  have hlag : (U + W - V) ^ 2 =
      4 * U * W - 4 * ((q.x - p.x) * (r.z - p.z) - (q.z - p.z) * (r.x - p.x)) ^ 2 := by
    rw [← hu, ← hw, ← hv]
    ring
  have hkey : W * (1 - ((U + W - V) / (2 * Real.sqrt U * Real.sqrt W)) ^ 2) =
      ((q.x - p.x) * (r.z - p.z) - (q.z - p.z) * (r.x - p.x)) ^ 2 / U := by
    rw [hx2, hlag]
    generalize (q.x - p.x) * (r.z - p.z) - (q.z - p.z) * (r.x - p.x) = K
    field_simp
    ring
  rw [← Real.sqrt_mul hW0, hkey, Real.sqrt_div (sq_nonneg _), Real.sqrt_sq_eq_abs]

namespace Grid2Duc

/-- The time of slot `w` of the vertex after `localSolver` when the vertex has
a single owner cell: the smaller of its time and the candidate. -/
theorem localSolver_single {T : Type} [LinearOrderedField T] (E : MathEnv T) (g : Grid2Duc T)
    (v w t : Nat) (x : T) (hown : (g.nodes.getD v default).owners = [t])
    (hw : w < (g.nodes.getD v default).tt.length) (hc : candidate E g v w t = some x) :
    (localSolver E g v w).state.getNodeTT v w = min (g.getNodeTT v w) x := by
  unfold localSolver
  rw [hown, localSolverLoop, localSolverCell_candidate, hc]
  dsimp only
  by_cases hlt : x < g.getNodeTT v w
  · rw [if_pos hlt, min_eq_right (le_of_lt hlt)]
    show (g.setNodeTT v x w).getNodeTT v w = x
    exact getNodeTT_setNodeTT_self g v x w hw
  · rw [if_neg hlt, min_eq_left (not_lt.mp hlt)]
    rfl

/-- Claim C37, amended. In exact real arithmetic, let the cell `t` have the
record that the constructor builds from the node positions and three
different corners, let `C` be its vertex `i[i0]` with an angle that is not
replaced by a virtual triangle (the angle at `C` is not above `pi/2`, or the
table of virtual nodes is empty), `A` and `B` its two other vertices, with
angles at `A` and at `B` of at most `pi/2`, slowness `s ≥ 0` and `TT[A] =
TT[B] = Tm`. Then the candidate computed for `C` is `Tm + s h`, `h` being the
distance from `C` to the line `AB`; and when `t` is the only owner cell of
`C`, the time of `C` after `localSolver` is `min(old TT[C], Tm + s h)`. -/
theorem plane_wave_candidate (E : MathEnv ℝ) (hE : E.isReal) (g : Grid2Duc ℝ)
    (no : List (sxz ℝ)) (v w t i0 : Nat) (Tm : ℝ) (hi0 : i0 < 3)
    (htri : g.triangles.getD t default = builtTriangle E no (g.triangles.getD t default).i)
    (hC : findI0 (g.nodes.getD v default).gridIndex (g.triangles.getD t default).i = i0)
    (hv : ¬ ((g.triangles.getD t default).a.getD i0 0 > E.pi / 2 ∧ ¬ g.virtualNodes.isEmpty))
    (hAB : (solverGeometry E no (g.triangles.getD t default).i i0).c ≠ 0)
    (hAC : (solverGeometry E no (g.triangles.getD t default).i i0).b ≠ 0)
    (hBC : (solverGeometry E no (g.triangles.getD t default).i i0).a ≠ 0)
    (hs : 0 ≤ g.slowness.getD t 0)
    (hal : (solverGeometry E no (g.triangles.getD t default).i i0).alpha ≤ E.pi / 2)
    (hbe : (solverGeometry E no (g.triangles.getD t default).i i0).beta ≤ E.pi / 2)
    (hA : g.getNodeTT ((g.triangles.getD t default).i.getD ((i0 + 1) % 3) 0) w = Tm)
    (hB : g.getNodeTT ((g.triangles.getD t default).i.getD ((i0 + 2) % 3) 0) w = Tm) :
    candidate E g v w t = some (Tm + g.slowness.getD t 0 *
      heightOver E (no.getD ((g.triangles.getD t default).i.getD ((i0 + 1) % 3) 0) ⟨0, 0⟩)
        (no.getD ((g.triangles.getD t default).i.getD ((i0 + 2) % 3) 0) ⟨0, 0⟩)
        (no.getD ((g.triangles.getD t default).i.getD i0 0) ⟨0, 0⟩)) ∧
    ((g.nodes.getD v default).owners = [t] → w < (g.nodes.getD v default).tt.length →
      (localSolver E g v w).state.getNodeTT v w = min (g.getNodeTT v w)
        (Tm + g.slowness.getD t 0 *
          heightOver E (no.getD ((g.triangles.getD t default).i.getD ((i0 + 1) % 3) 0) ⟨0, 0⟩)
            (no.getD ((g.triangles.getD t default).i.getD ((i0 + 2) % 3) 0) ⟨0, 0⟩)
            (no.getD ((g.triangles.getD t default).i.getD i0 0) ⟨0, 0⟩))) := by
  have hsv := solverVars_geometry E g no v t i0 hi0 htri hC hv
  have hcand : candidate E g v w t = some (Tm + g.slowness.getD t 0 *
      heightOver E (no.getD ((g.triangles.getD t default).i.getD ((i0 + 1) % 3) 0) ⟨0, 0⟩)
        (no.getD ((g.triangles.getD t default).i.getD ((i0 + 2) % 3) 0) ⟨0, 0⟩)
        (no.getD ((g.triangles.getD t default).i.getD i0 0) ⟨0, 0⟩)) := by
    rw [candidate_of_solverVars E g v w t _ hsv]
    have hAv : g.getNodeTT (solverGeometry E no (g.triangles.getD t default).i i0).vertexA w =
        Tm := hA
    have hBv : g.getNodeTT (solverGeometry E no (g.triangles.getD t default).i i0).vertexB w =
        Tm := hB
    rw [hAv, hBv]
    obtain ⟨-, hsin, hasin, -, hpi⟩ := id hE
    have hth : E.asin (|Tm - Tm| /
        ((solverGeometry E no (g.triangles.getD t default).i i0).c * g.slowness.getD t 0)) = 0 := by
      rw [sub_self, abs_zero, zero_div, hasin, Real.arcsin_zero]
    have hc0 : 0 ≤ (solverGeometry E no (g.triangles.getD t default).i i0).c := by
      show 0 ≤ sxz.getDistance E _ _
      unfold sxz.getDistance
      rw [hE.1]
      exact Real.sqrt_nonneg _
    rw [solverTime_wave E _ _ _ _ 0
      (by rw [sub_self, abs_zero]; exact mul_nonneg hc0 hs) hth
      (by
        split
        · exact le_refl 0
        · linarith)
      (by linarith)]
    have h1 := side_sin_angle E hE
      (no.getD ((g.triangles.getD t default).i.getD ((i0 + 2) % 3) 0) ⟨0, 0⟩)
      (no.getD ((g.triangles.getD t default).i.getD ((i0 + 1) % 3) 0) ⟨0, 0⟩)
      (no.getD ((g.triangles.getD t default).i.getD i0 0) ⟨0, 0⟩)
      (by rw [sxz.getDistance_comm]; exact hAB) hBC
    have h2 := side_sin_angle E hE
      (no.getD ((g.triangles.getD t default).i.getD ((i0 + 1) % 3) 0) ⟨0, 0⟩)
      (no.getD ((g.triangles.getD t default).i.getD ((i0 + 2) % 3) 0) ⟨0, 0⟩)
      (no.getD ((g.triangles.getD t default).i.getD i0 0) ⟨0, 0⟩) hAB hAC
    have h1' : (solverGeometry E no (g.triangles.getD t default).i i0).a *
        E.sin ((solverGeometry E no (g.triangles.getD t default).i i0).alpha - 0) =
        heightOver E (no.getD ((g.triangles.getD t default).i.getD ((i0 + 1) % 3) 0) ⟨0, 0⟩)
          (no.getD ((g.triangles.getD t default).i.getD ((i0 + 2) % 3) 0) ⟨0, 0⟩)
          (no.getD ((g.triangles.getD t default).i.getD i0 0) ⟨0, 0⟩) := by
      rw [sub_zero]
      show sxz.getDistance E _ _ * E.sin (sxz.angleAt E _ _ _) = _
      rw [h1]
      unfold heightOver
      rw [sxz.getDistance_comm E
        (no.getD ((g.triangles.getD t default).i.getD ((i0 + 2) % 3) 0) ⟨0, 0⟩)]
      congr 1
      rw [← abs_neg]
      congr 1
      ring
    have h2' : (solverGeometry E no (g.triangles.getD t default).i i0).b *
        E.sin ((solverGeometry E no (g.triangles.getD t default).i i0).beta + 0) =
        heightOver E (no.getD ((g.triangles.getD t default).i.getD ((i0 + 1) % 3) 0) ⟨0, 0⟩)
          (no.getD ((g.triangles.getD t default).i.getD ((i0 + 2) % 3) 0) ⟨0, 0⟩)
          (no.getD ((g.triangles.getD t default).i.getD i0 0) ⟨0, 0⟩) := by
      rw [add_zero]
      show sxz.getDistance E _ _ * E.sin (sxz.angleAt E _ _ _) = _
      rw [h2]
      rfl
    rw [h1', h2']
    congr 1
    ring
  exact ⟨hcand, fun hown hw => localSolver_single E g v w t _ hown hw hcand⟩

end Grid2Duc

end PlaneWave

section PlaneWaveExamples

/-- The hypotheses of the plane wave on the unit square cut through the
source, for the node (0,0) in the cell with the nodes (0,0), (1,0), (1,1),
all times being 0: the wave front is parallel to the edge from (1,0) to
(1,1), at the distance 1 of the node (0,0). -/
theorem unit_square_wave (E : MathEnv ℝ) (hE : E.isReal) :
    ((unitSquare E squareCells (1 / 1000) 10 1 true []).toGrid2Duc.triangles.getD 0 default =
      builtTriangle E (squareNodes ℝ)
        ((unitSquare E squareCells (1 / 1000) 10 1 true []).toGrid2Duc.triangles.getD 0
          default).i) ∧
    Grid2Duc.findI0
      ((unitSquare E squareCells (1 / 1000) 10 1 true []).toGrid2Duc.nodes.getD 0
        default).gridIndex
      ((unitSquare E squareCells (1 / 1000) 10 1 true []).toGrid2Duc.triangles.getD 0
        default).i = 0 ∧
    ¬ (((unitSquare E squareCells (1 / 1000) 10 1 true []).toGrid2Duc.triangles.getD 0
        default).a.getD 0 0 > E.pi / 2 ∧
      ¬ (unitSquare E squareCells (1 / 1000) 10 1 true []).toGrid2Duc.virtualNodes.isEmpty) ∧
    solverGeometry E (squareNodes ℝ)
      ((unitSquare E squareCells (1 / 1000) 10 1 true []).toGrid2Duc.triangles.getD 0
        default).i 0 = ⟨1, 2, Real.sqrt 2, 1, 1, Real.pi / 4, Real.pi / 2⟩ ∧
    (unitSquare E squareCells (1 / 1000) 10 1 true []).toGrid2Duc.slowness.getD 0 0 = 1 ∧
    (unitSquare E squareCells (1 / 1000) 10 1 true []).toGrid2Duc.getNodeTT
      (((unitSquare E squareCells (1 / 1000) 10 1 true []).toGrid2Duc.triangles.getD 0
        default).i.getD ((0 + 1) % 3) 0) 0 = 0 ∧
    (unitSquare E squareCells (1 / 1000) 10 1 true []).toGrid2Duc.getNodeTT
      (((unitSquare E squareCells (1 / 1000) 10 1 true []).toGrid2Duc.triangles.getD 0
        default).i.getD ((0 + 2) % 3) 0) 0 = 0 ∧
    heightOver E
      ((squareNodes ℝ).getD
        (((unitSquare E squareCells (1 / 1000) 10 1 true []).toGrid2Duc.triangles.getD 0
          default).i.getD ((0 + 1) % 3) 0) ⟨0, 0⟩)
      ((squareNodes ℝ).getD
        (((unitSquare E squareCells (1 / 1000) 10 1 true []).toGrid2Duc.triangles.getD 0
          default).i.getD ((0 + 2) % 3) 0) ⟨0, 0⟩)
      ((squareNodes ℝ).getD
        (((unitSquare E squareCells (1 / 1000) 10 1 true []).toGrid2Duc.triangles.getD 0
          default).i.getD 0 0) ⟨0, 0⟩) = 1 := by
  obtain ⟨hn, htri, -, hsl⟩ := unitSquare_grid E (1 / 1000) 10 1 true []
  generalize (unitSquare E squareCells (1 / 1000) 10 1 true []).toGrid2Duc = g0 at hn htri hsl ⊢
  obtain ⟨hs, hsin, hasin, hacos, hpi⟩ := id hE
  have hp := Real.pi_pos
  have e2 : (1 : ℝ) + 1 = 2 := by norm_num
  have hi : (g0.triangles.getD 0 default).i = [0, 1, 2] := by
    rw [htri]
    rfl
  rw [hi]
  refine ⟨?_, ?_, ?_, ?_, ?_, ?_, ?_, ?_⟩
  · rw [htri]
    rfl
  · simp [Grid2Duc.findI0, hn]
  · intro h
    have h1 := h.1
    have ha : (g0.triangles.getD 0 default).a.getD 0 0 = Real.pi / 4 := by
      rw [htri, List.getD_cons_zero, builtTriangle_main0 E hE]
      rfl
    rw [ha, hpi] at h1
    linarith
  · simp [solverGeometry, sxz.angleAt, squareNodes, sxz.getDistance, hs, hacos, e2,
      two_div_two_sqrt_two, arccos_half_sqrt_two]
  · rw [hsl]
    rfl
  · simp [Grid2Duc.getNodeTT, Node2Dn.getTT, hn]
  · simp [Grid2Duc.getNodeTT, Node2Dn.getTT, hn]
  · simp [heightOver, squareNodes, sxz.getDistance, hs]

theorem plane_wave_candidate_witness :
    ∃ E : MathEnv ℝ, E.isReal ∧
      Grid2Duc.candidate E (unitSquare E squareCells (1 / 1000) 10 1 true []).toGrid2Duc 0 0 0 =
        some (0 + 1 * 1) := by
  refine ⟨⟨Real.sqrt, Real.sin, Real.arcsin, Real.arccos, Real.pi, 1 / 100000, 1000000000⟩,
    ⟨rfl, rfl, rfl, rfl, rfl⟩, ?_⟩
  generalize hEq : (⟨Real.sqrt, Real.sin, Real.arcsin, Real.arccos, Real.pi, 1 / 100000,
    1000000000⟩ : MathEnv ℝ) = E
  have hE : E.isReal := by rw [← hEq]; exact ⟨rfl, rfl, rfl, rfl, rfl⟩
  obtain ⟨w1, w2, w3, w4, w5, w6, w7, w8⟩ := unit_square_wave E hE
  have h := (Grid2Duc.plane_wave_candidate E hE _ (squareNodes ℝ) 0 0 0 0 0 (by decide)
    w1 w2 w3
    (by rw [w4]; exact one_ne_zero)
    (by rw [w4]; exact one_ne_zero)
    (by rw [w4]; exact ne_of_gt (Real.sqrt_pos.mpr (by norm_num)))
    (by rw [w5]; exact zero_le_one)
    (by
      rw [w4, hE.2.2.2.2]
      show Real.pi / 4 ≤ Real.pi / 2
      linarith [Real.pi_pos])
    (by
      rw [w4, hE.2.2.2.2])
    w6 w7).1
  rw [w8, w5] at h
  exact h

/-- Claim C37 as stated fails. In the cell (4,3), (-4,3), (0,6) of the kite,
built with `processObtuse`, with slowness 1: the angles at `A = (4,3)` and at
`B = (-4,3)` are below `pi/2`, `TT[A] = TT[B] = 0`, and the distance from
`C = (0,6)` to the line `AB` is 3; the angle at `C` is above `pi/2`, the
solver reads the virtual triangle of the nodes (4,3) and (0,0), and the
candidate computed for `C` is 5, not 3; `C` has this owner cell only and its
time after `localSolver` is 5. -/
theorem obtuse_cell_wave :
    (kiteWave.triangles.getD 1 default).i = [1, 2, 3] ∧
    (kiteWave.triangles.getD 1 default).a.getD 0 0 ≤ exampleEnv.pi / 2 ∧
    (kiteWave.triangles.getD 1 default).a.getD 1 0 ≤ exampleEnv.pi / 2 ∧
    (kiteWave.triangles.getD 1 default).a.getD 2 0 > exampleEnv.pi / 2 ∧
    kiteWave.slowness.getD 1 0 = 1 ∧
    kiteWave.getNodeTT 1 0 = 0 ∧ kiteWave.getNodeTT 2 0 = 0 ∧
    heightOver exampleEnv ⟨4, 3⟩ ⟨-4, 3⟩ ⟨0, 6⟩ = 3 ∧
    Grid2Duc.candidate exampleEnv kiteWave 3 0 1 = some 5 ∧
    (kiteWave.nodes.getD 3 default).owners = [1] ∧
    kiteWave.getNodeTT 3 0 = 100 ∧
    (Grid2Duc.localSolver exampleEnv kiteWave 3 0).state.getNodeTT 3 0 = 5 ∧
    (5 : ℚ) ≠ min 100 (0 + 1 * 3) := by
  decide!

end PlaneWaveExamples

section Sector

/-- For two unit vectors given by cosine and sine of their angles from a
third direction, on the positive side of it: the first angle is at most the
second if and only if the cosines are in the opposite order, if and only if
the second vector is not to the right of the first. -/
theorem unit_sector_pos (d1 s1 d2 s2 : ℝ) (h1 : d1 * d1 + s1 * s1 = 1)
    (h2 : d2 * d2 + s2 * s2 = 1) (p1 : 0 < s1) (p2 : 0 < s2) :
    d2 ≤ d1 ↔ s1 * d2 ≤ d1 * s2 := by
  constructor
  · intro h
    by_cases hd2 : 0 ≤ d2
    · have k1 : d2 * d2 ≤ d1 * d1 := mul_self_le_mul_self hd2 h
      have hs : s1 ≤ s2 := by
        by_contra hc
        push_neg at hc
        have k2 : s2 * s2 < s1 * s1 := mul_self_lt_mul_self (le_of_lt p2) hc
        linarith
      have e1 : s1 * d2 ≤ s2 * d2 := mul_le_mul_of_nonneg_right hs hd2
      have e2 : s2 * d2 ≤ s2 * d1 := mul_le_mul_of_nonneg_left h (le_of_lt p2)
      linarith [mul_comm s2 d1]
    · push_neg at hd2
      by_cases hd1 : 0 ≤ d1
      · have e1 : s1 * d2 ≤ 0 := mul_nonpos_of_nonneg_of_nonpos (le_of_lt p1) (le_of_lt hd2)
        have e2 : 0 ≤ d1 * s2 := mul_nonneg hd1 (le_of_lt p2)
        linarith
      · push_neg at hd1
        have k1 : -d1 * -d1 ≤ -d2 * -d2 :=
          mul_self_le_mul_self (neg_nonneg.mpr (le_of_lt hd1)) (neg_le_neg h)
        rw [neg_mul_neg, neg_mul_neg] at k1
        have hs : s2 ≤ s1 := by
          by_contra hc
          push_neg at hc
          have k2 : s1 * s1 < s2 * s2 := mul_self_lt_mul_self (le_of_lt p1) hc
          linarith
        have e1 : d1 * s1 ≤ d1 * s2 := mul_le_mul_of_nonpos_left hs (le_of_lt hd1)
        have e2 : d2 * s1 ≤ d1 * s1 := mul_le_mul_of_nonneg_right h (le_of_lt p1)
        linarith [mul_comm s1 d2]
  · intro h
    by_contra hc
    push_neg at hc
    by_cases hd1 : 0 ≤ d1
    · have hd2 : 0 < d2 := lt_of_le_of_lt hd1 hc
      have k1 : d1 * d1 < d2 * d2 := mul_self_lt_mul_self hd1 hc
      have hs : s2 < s1 := by
        by_contra hc2
        push_neg at hc2
        have k2 : s1 * s1 ≤ s2 * s2 := mul_self_le_mul_self (le_of_lt p1) hc2
        linarith
      have e1 : s2 * d2 < s1 * d2 := mul_lt_mul_of_pos_right hs hd2
      have e2 : s2 * d1 ≤ s2 * d2 := mul_le_mul_of_nonneg_left (le_of_lt hc) (le_of_lt p2)
      linarith [mul_comm s2 d1]
    · push_neg at hd1
      by_cases hd2 : 0 ≤ d2
      · have e1 : d1 * s2 < 0 := mul_neg_of_neg_of_pos hd1 p2
        have e2 : 0 ≤ s1 * d2 := mul_nonneg (le_of_lt p1) hd2
        linarith
      · push_neg at hd2
        have k1 : -d2 * -d2 < -d1 * -d1 :=
          mul_self_lt_mul_self (neg_nonneg.mpr (le_of_lt hd2)) (neg_lt_neg hc)
        rw [neg_mul_neg, neg_mul_neg] at k1
        have hs : s1 < s2 := by
          by_contra hc2
          push_neg at hc2
          have k2 : s2 * s2 ≤ s1 * s1 := mul_self_le_mul_self (le_of_lt p2) hc2
          linarith
        have e1 : d1 * s2 < d1 * s1 := mul_lt_mul_of_neg_left hs hd1
        have e2 : d1 * s1 < d2 * s1 := mul_lt_mul_of_pos_right hc p1
        linarith [mul_comm s1 d2]

/-- The same for two unit vectors on the same side of the third direction. -/
theorem unit_sector (d1 s1 d2 s2 : ℝ) (h1 : d1 * d1 + s1 * s1 = 1)
    (h2 : d2 * d2 + s2 * s2 = 1) (hs : 0 < s1 * s2) :
    d2 ≤ d1 ↔ 0 ≤ (d1 * s2 - s1 * d2) * s2 := by
  rcases lt_or_gt_of_ne (show s2 ≠ 0 from fun h => by rw [h, mul_zero] at hs; exact lt_irrefl 0 hs)
    with n2 | p2
  · have n1 : s1 < 0 := by
      by_contra hc
      push_neg at hc
      nlinarith [mul_nonneg hc (le_of_lt (neg_pos.mpr n2))]
    have h := unit_sector_pos d1 (-s1) d2 (-s2) (by linarith) (by linarith) (neg_pos.mpr n1)
      (neg_pos.mpr n2)
    rw [h]
    constructor
    · intro k
      have : d1 * s2 - s1 * d2 ≤ 0 := by linarith
      exact mul_nonneg_of_nonpos_of_nonpos this (le_of_lt n2)
    · intro k
      by_contra hc
      push_neg at hc
      have : 0 < d1 * s2 - s1 * d2 := by linarith
      nlinarith [mul_pos this (neg_pos.mpr n2)]
  · have p1 : 0 < s1 := by
      by_contra hc
      push_neg at hc
      nlinarith [mul_nonneg (neg_nonneg.mpr hc) (le_of_lt p2)]
    rw [unit_sector_pos d1 s1 d2 s2 h1 h2 p1 p2]
    constructor
    · intro k
      exact mul_nonneg (by linarith) (le_of_lt p2)
    · intro k
      by_contra hc
      push_neg at hc
      have : d1 * s2 - s1 * d2 < 0 := by linarith
      nlinarith [mul_pos (neg_pos.mpr this) p2]

/-- Two numbers, the second not zero, have the same `boost::math::sign` if and
only if their product is positive. -/
theorem sign_eq_iff (x y : ℝ) (hy : y ≠ 0) : sign x = sign y ↔ 0 < x * y := by
  unfold sign
  rcases lt_trichotomy x 0 with hx | hx | hx <;> rcases lt_or_gt_of_ne hy with hy' | hy'
  · simp [hx, hy', not_lt.mpr (le_of_lt hx), not_lt.mpr (le_of_lt hy'), mul_pos_of_neg_of_neg]
  · simp [hx, hy', not_lt.mpr (le_of_lt hx), not_lt.mpr (le_of_lt hy')]
  · simp [hx, hy', not_lt.mpr (le_of_lt hy')]
  · simp [hx, hy', not_lt.mpr (le_of_lt hy')]
  · simp [hx, hy', not_lt.mpr (le_of_lt hx), not_lt.mpr (le_of_lt hy')]
  · simp [hx, hy', not_lt.mpr (le_of_lt hx), not_lt.mpr (le_of_lt hy'), mul_pos]


theorem mul_self_add_ne_zero (x z y w : ℝ) (h : z * y - x * w ≠ 0) : x * x + z * z ≠ 0 := by
  intro hc
  have hx : x = 0 := by nlinarith [mul_self_nonneg x, mul_self_nonneg z]
  have hz : z = 0 := by nlinarith [mul_self_nonneg x, mul_self_nonneg z]
  apply h
  rw [hx, hz]
  ring

/-- The two tests of the loop over the owners on the cosines and sines of
the angles from the first edge, in exact real arithmetic. -/
theorem sector_abs (A1 P A2 D Q na nb ng : ℝ) (hapos : 0 < na) (hbpos : 0 < nb)
    (hgpos : 0 < ng) (hAP : A1 * A1 + P * P = (na * na) * (ng * ng))
    (hAD : A2 * A2 + D * D = (na * na) * (nb * nb)) (hturn : A1 * D - P * A2 = (na * na) * Q)
    (hD : D ≠ 0) :
    (¬ (Real.arccos (A1 / (na * ng)) > Real.arccos (A2 / (na * nb))) ∧
      sign (P / (na * ng)) = sign (D / (na * nb))) ↔ (0 < P * D ∧ 0 ≤ Q * D) := by
  have hag : 0 < na * ng := mul_pos hapos hgpos
  have hab : 0 < na * nb := mul_pos hapos hbpos
  have u1 : A1 / (na * ng) * (A1 / (na * ng)) + P / (na * ng) * (P / (na * ng)) = 1 := by
    rw [div_mul_div_comm, div_mul_div_comm, ← add_div,
      div_eq_one_iff_eq (ne_of_gt (mul_pos hag hag)), hAP]
    ring
  have u2 : A2 / (na * nb) * (A2 / (na * nb)) + D / (na * nb) * (D / (na * nb)) = 1 := by
    rw [div_mul_div_comm, div_mul_div_comm, ← add_div,
      div_eq_one_iff_eq (ne_of_gt (mul_pos hab hab)), hAD]
    ring
  have hc2ne : D / (na * nb) ≠ 0 := div_ne_zero hD (ne_of_gt hab)
  have hmem : ∀ d c : ℝ, d * d + c * c = 1 → d ∈ Set.Icc (-1 : ℝ) 1 := by
    intro d c h
    constructor
    · nlinarith [mul_self_nonneg (d + 1), mul_self_nonneg c]
    · nlinarith [mul_self_nonneg (d - 1), mul_self_nonneg c]
  have hacos : ¬ (Real.arccos (A1 / (na * ng)) > Real.arccos (A2 / (na * nb))) ↔
      A2 / (na * nb) ≤ A1 / (na * ng) := by
    rw [not_lt]
    exact Real.strictAntiOn_arccos.le_iff_le (hmem _ _ u1) (hmem _ _ u2)
  have hprod : 0 < P / (na * ng) * (D / (na * nb)) ↔ 0 < P * D := by
    rw [div_mul_div_comm]
    constructor
    · intro h
      have := mul_pos h (mul_pos hag hab)
      rwa [div_mul_cancel₀ _ (ne_of_gt (mul_pos hag hab))] at this
    · intro h
      exact div_pos h (mul_pos hag hab)
  have hden : 0 < na * ng * (na * nb) * (na * nb) := mul_pos (mul_pos hag hab) hab
  have hkey : (A1 / (na * ng) * (D / (na * nb)) - P / (na * ng) * (A2 / (na * nb))) *
      (D / (na * nb)) = (na * na) * (Q * D) / (na * ng * (na * nb) * (na * nb)) := by
    rw [← mul_assoc, ← hturn]
    field_simp
  have hsign : 0 ≤ (na * na) * (Q * D) / (na * ng * (na * nb) * (na * nb)) ↔ 0 ≤ Q * D := by
    constructor
    · intro h
      have := mul_nonneg h (le_of_lt hden)
      rw [div_mul_cancel₀ _ (ne_of_gt hden)] at this
      exact (mul_nonneg_iff_of_pos_left (mul_pos hapos hapos)).mp this
    · intro h
      exact div_nonneg (mul_nonneg (le_of_lt (mul_pos hapos hapos)) h) (le_of_lt hden)
  rw [hacos, sign_eq_iff _ _ hc2ne]
  constructor
  · rintro ⟨hle, hs⟩
    refine ⟨hprod.mp hs, ?_⟩
    have ht := (unit_sector _ _ _ _ u1 u2 hs).mp hle
    rw [hkey] at ht
    exact hsign.mp ht
  · rintro ⟨hs, hq⟩
    have hs' := hprod.mpr hs
    refine ⟨?_, hs'⟩
    rw [unit_sector _ _ _ _ u1 u2 hs', hkey]
    exact hsign.mpr hq

/-- The two tests of the loop over the owners, for the unit vectors along `a`,
`b` and `g`, in exact real arithmetic: they pass if and only if `g` is a
combination `lam a + mu b` with `lam ≥ 0` and `mu > 0`. -/
theorem sector_core (ax az bx bz gx gz na nb ng : ℝ)
    (hna : na = Real.sqrt (ax * ax + az * az)) (hnb : nb = Real.sqrt (bx * bx + bz * bz))
    (hng : ng = Real.sqrt (gx * gx + gz * gz))
    (hD : az * bx - ax * bz ≠ 0) (hg : gx * gx + gz * gz ≠ 0) :
    (¬ (Real.arccos (ax / na * (gx / ng) + az / na * (gz / ng)) >
          Real.arccos (ax / na * (bx / nb) + az / na * (bz / nb))) ∧
      sign (az / na * (gx / ng) - ax / na * (gz / ng)) =
        sign (az / na * (bx / nb) - ax / na * (bz / nb))) ↔
    ∃ lam mu : ℝ, 0 ≤ lam ∧ 0 < mu ∧ gx = lam * ax + mu * bx ∧ gz = lam * az + mu * bz := by
  have ha0 : ax * ax + az * az ≠ 0 := mul_self_add_ne_zero ax az bx bz hD
  have hb0 : bx * bx + bz * bz ≠ 0 :=
    mul_self_add_ne_zero bx bz ax az (by intro h; apply hD; linarith)
  have hapos : 0 < na := by
    rw [hna]
    exact Real.sqrt_pos.mpr (lt_of_le_of_ne (add_nonneg (mul_self_nonneg _) (mul_self_nonneg _))
      (Ne.symm ha0))
  have hbpos : 0 < nb := by
    rw [hnb]
    exact Real.sqrt_pos.mpr (lt_of_le_of_ne (add_nonneg (mul_self_nonneg _) (mul_self_nonneg _))
      (Ne.symm hb0))
  have hgpos : 0 < ng := by
    rw [hng]
    exact Real.sqrt_pos.mpr (lt_of_le_of_ne (add_nonneg (mul_self_nonneg _) (mul_self_nonneg _))
      (Ne.symm hg))
  have hna2 : na * na = ax * ax + az * az := by
    rw [hna]
    exact Real.mul_self_sqrt (add_nonneg (mul_self_nonneg _) (mul_self_nonneg _))
  have hnb2 : nb * nb = bx * bx + bz * bz := by
    rw [hnb]
    exact Real.mul_self_sqrt (add_nonneg (mul_self_nonneg _) (mul_self_nonneg _))
  have hng2 : ng * ng = gx * gx + gz * gz := by
    rw [hng]
    exact Real.mul_self_sqrt (add_nonneg (mul_self_nonneg _) (mul_self_nonneg _))
  clear hna hnb hng
  have hd1 : ax / na * (gx / ng) + az / na * (gz / ng) = (ax * gx + az * gz) / (na * ng) := by
    field_simp
  have hc1 : az / na * (gx / ng) - ax / na * (gz / ng) = (az * gx - ax * gz) / (na * ng) := by
    field_simp
  have hd2 : ax / na * (bx / nb) + az / na * (bz / nb) = (ax * bx + az * bz) / (na * nb) := by
    field_simp
  have hc2 : az / na * (bx / nb) - ax / na * (bz / nb) = (az * bx - ax * bz) / (na * nb) := by
    field_simp
  rw [hd1, hc1, hd2, hc2]
  rw [sector_abs (ax * gx + az * gz) (az * gx - ax * gz) (ax * bx + az * bz) (az * bx - ax * bz)
    (gz * bx - gx * bz) na nb ng hapos hbpos hgpos (by rw [hna2, hng2]; ring)
    (by rw [hna2, hnb2]; ring) (by rw [hna2]; ring) hD]
  have hDD : 0 < (az * bx - ax * bz) * (az * bx - ax * bz) := by
    rcases lt_or_gt_of_ne hD with h | h
    · exact mul_pos_of_neg_of_neg h h
    · exact mul_pos h h
  constructor
  · rintro ⟨hs, hq⟩
    refine ⟨(gz * bx - gx * bz) / (az * bx - ax * bz), (az * gx - ax * gz) / (az * bx - ax * bz),
      ?_, ?_, ?_, ?_⟩
    · have := div_nonneg hq (le_of_lt hDD)
      rwa [mul_div_mul_right _ _ hD] at this
    · have := div_pos hs hDD
      rwa [mul_div_mul_right _ _ hD] at this
    · field_simp
      ring
    · field_simp
      ring
  · rintro ⟨lam, mu, hl, hm, ex, ez⟩
    have hP : az * gx - ax * gz = mu * (az * bx - ax * bz) := by rw [ex, ez]; ring
    have hQ : gz * bx - gx * bz = lam * (az * bx - ax * bz) := by rw [ex, ez]; ring
    rw [hP, hQ, mul_assoc, mul_assoc]
    exact ⟨mul_pos hm hDD, mul_nonneg hl (le_of_lt hDD)⟩

end Sector

section SectorClaim

namespace Grid2Duc

/-- The two tests of the loop over the owners in exact real arithmetic, for a
cell that is not degenerate and a gradient that is not zero. -/
theorem inSector_real (E : MathEnv ℝ) (hE : E.isReal) (g : Grid2Duc ℝ) (nodeNo nb0 nb1 : Nat)
    (gr : sxz ℝ) (hnd : cross (g.edgeVector nodeNo nb0) (g.edgeVector nodeNo nb1) ≠ 0)
    (hg : gr.x * gr.x + gr.z * gr.z ≠ 0) :
    inSector E g nodeNo nb0 nb1 (sxz.normalize E gr) = true ↔
      ∃ lam mu : ℝ, 0 ≤ lam ∧ 0 < mu ∧
        gr.x = lam * (g.edgeVector nodeNo nb0).x + mu * (g.edgeVector nodeNo nb1).x ∧
        gr.z = lam * (g.edgeVector nodeNo nb0).z + mu * (g.edgeVector nodeNo nb1).z := by
  obtain ⟨hs, -, -, hacos, -⟩ := hE
  have hcore := sector_core (g.edgeVector nodeNo nb0).x (g.edgeVector nodeNo nb0).z
    (g.edgeVector nodeNo nb1).x (g.edgeVector nodeNo nb1).z gr.x gr.z _ _ _ rfl rfl rfl hnd hg
  rw [← hcore]
  unfold inSector sxz.normalize dot cross
  dsimp only
  rw [hs, hacos]
  unfold edgeVector
  dsimp only
  split
  · rename_i h1
    simp only [Bool.false_eq_true, false_iff, not_and]
    intro h2
    exact absurd h1 h2
  · rename_i h1
    split
    · rename_i h2
      simp only [Bool.false_eq_true, false_iff, not_and]
      intro _ h3
      exact h2 h3
    · rename_i h2
      simp only [true_iff]
      exact ⟨h1, not_not.mp h2⟩

/-- Claim C34, amended. In exact real arithmetic, in the on-vertex state of
`getRaypath`, let `v0` and `v1` be the edge vectors from the current vertex to
the two other vertices of an owner cell that is not degenerate, `v0` to the
one of smaller index, and let the gradient `g` be not zero. The cell is
accepted if and only if `g = lam v0 + mu v1` for some `lam ≥ 0` and `mu > 0`:
the sector between `v0` and `v1` with the direction of `v1` and without the
direction of `v0`. A gradient exactly along `v1` is accepted, a gradient
exactly along `v0` is refused. -/
theorem inSector_iff (E : MathEnv ℝ) (hE : E.isReal) (g : Grid2Duc ℝ) (nodeNo nb0 nb1 : Nat)
    (gr : sxz ℝ) (hnd : cross (g.edgeVector nodeNo nb0) (g.edgeVector nodeNo nb1) ≠ 0)
    (hg : gr.x * gr.x + gr.z * gr.z ≠ 0) :
    (inSector E g nodeNo nb0 nb1 (sxz.normalize E gr) = true ↔
      ∃ lam mu : ℝ, 0 ≤ lam ∧ 0 < mu ∧
        gr.x = lam * (g.edgeVector nodeNo nb0).x + mu * (g.edgeVector nodeNo nb1).x ∧
        gr.z = lam * (g.edgeVector nodeNo nb0).z + mu * (g.edgeVector nodeNo nb1).z) ∧
    inSector E g nodeNo nb0 nb1 (sxz.normalize E (g.edgeVector nodeNo nb1)) = true ∧
    inSector E g nodeNo nb0 nb1 (sxz.normalize E (g.edgeVector nodeNo nb0)) = false := by
  have hnd' : (g.edgeVector nodeNo nb0).z * (g.edgeVector nodeNo nb1).x -
      (g.edgeVector nodeNo nb0).x * (g.edgeVector nodeNo nb1).z ≠ 0 := hnd
  refine ⟨inSector_real E hE g nodeNo nb0 nb1 gr hnd hg, ?_, ?_⟩
  · rw [inSector_real E hE g nodeNo nb0 nb1 _ hnd
      (mul_self_add_ne_zero _ _ (g.edgeVector nodeNo nb0).x (g.edgeVector nodeNo nb0).z
        (by intro h; apply hnd'; linarith))]
    exact ⟨0, 1, le_refl 0, one_pos, by ring, by ring⟩
  · rw [← Bool.not_eq_true, inSector_real E hE g nodeNo nb0 nb1 _ hnd
      (mul_self_add_ne_zero _ _ _ _ hnd')]
    rintro ⟨lam, mu, -, hm, ex, ez⟩
    apply hnd'
    have : mu * ((g.edgeVector nodeNo nb0).z * (g.edgeVector nodeNo nb1).x -
        (g.edgeVector nodeNo nb0).x * (g.edgeVector nodeNo nb1).z) = 0 := by
      linear_combination (g.edgeVector nodeNo nb0).x * ez - (g.edgeVector nodeNo nb0).z * ex
    rcases mul_eq_zero.mp this with h | h
    · exact absurd h (ne_of_gt hm)
    · exact h

end Grid2Duc

/-- The edge vectors at the node (0,0) of the unit square, in the cell with
the nodes (0,0), (1,0), (1,1). -/
theorem unit_square_edges (E : MathEnv ℝ) :
    (unitSquare E squareCells (1 / 1000) 10 1 true []).toGrid2Duc.edgeVector 0 1 = ⟨1, 0⟩ ∧
    (unitSquare E squareCells (1 / 1000) 10 1 true []).toGrid2Duc.edgeVector 0 2 = ⟨1, 1⟩ := by
  obtain ⟨hn, -⟩ := unitSquare_grid E (1 / 1000) 10 1 true []
  unfold Grid2Duc.edgeVector
  rw [hn]
  simp

theorem inSector_iff_witness :
    ∃ E : MathEnv ℝ, E.isReal ∧
      Grid2Duc.inSector E (unitSquare E squareCells (1 / 1000) 10 1 true []).toGrid2Duc 0 1 2
        (sxz.normalize E
          ((unitSquare E squareCells (1 / 1000) 10 1 true []).toGrid2Duc.edgeVector 0 2)) =
        true := by
  refine ⟨⟨Real.sqrt, Real.sin, Real.arcsin, Real.arccos, Real.pi, 1 / 100000, 1000000000⟩,
    ⟨rfl, rfl, rfl, rfl, rfl⟩, ?_⟩
  generalize hEq : (⟨Real.sqrt, Real.sin, Real.arcsin, Real.arccos, Real.pi, 1 / 100000,
    1000000000⟩ : MathEnv ℝ) = E
  have hE : E.isReal := by rw [← hEq]; exact ⟨rfl, rfl, rfl, rfl, rfl⟩
  exact (Grid2Duc.inSector_iff E hE _ 0 1 2 ⟨1, 1⟩
    (by rw [(unit_square_edges E).1, (unit_square_edges E).2]; simp [cross])
    (by norm_num)).2.1

/-- Claim C34 as stated fails. In exact real arithmetic, at the node (0,0) of
the unit square, in the owner cell with the other nodes (1,0) and (1,1), the
edge vectors are `v0 = (1,0)` and `v1 = (1,1)`; the gradient `g = (1,0)` is
`1 v0 + 0 v1`, exactly along `v0` and so in the closed sector, and the cell is
not accepted. -/
theorem gradient_along_first_edge :
    ∃ E : MathEnv ℝ, E.isReal ∧
      (unitSquare E squareCells (1 / 1000) 10 1 true []).toGrid2Duc.edgeVector 0 1 = ⟨1, 0⟩ ∧
      (unitSquare E squareCells (1 / 1000) 10 1 true []).toGrid2Duc.edgeVector 0 2 = ⟨1, 1⟩ ∧
      Grid2Duc.otherNodes (unitSquare E squareCells (1 / 1000) 10 1 true []).toGrid2Duc 0 0 =
        (1, 2) ∧
      ((0 : ℝ) ≤ 1 ∧ (0 : ℝ) ≤ 0 ∧ (1 : ℝ) = 1 * 1 + 0 * 1 ∧ (0 : ℝ) = 1 * 0 + 0 * 1) ∧
      Grid2Duc.inSector E (unitSquare E squareCells (1 / 1000) 10 1 true []).toGrid2Duc 0 1 2
        (sxz.normalize E ⟨1, 0⟩) = false := by
  refine ⟨⟨Real.sqrt, Real.sin, Real.arcsin, Real.arccos, Real.pi, 1 / 100000, 1000000000⟩,
    ⟨rfl, rfl, rfl, rfl, rfl⟩, ?_⟩
  generalize hEq : (⟨Real.sqrt, Real.sin, Real.arcsin, Real.arccos, Real.pi, 1 / 100000,
    1000000000⟩ : MathEnv ℝ) = E
  have hE : E.isReal := by rw [← hEq]; exact ⟨rfl, rfl, rfl, rfl, rfl⟩
  obtain ⟨e1, e2⟩ := unit_square_edges E
  refine ⟨e1, e2, ?_, ⟨zero_le_one, le_refl 0, by norm_num, by norm_num⟩, ?_⟩
  · obtain ⟨-, -, hnb, -⟩ := unitSquare_grid E (1 / 1000) 10 1 true []
    unfold Grid2Duc.otherNodes
    rw [hnb]
    simp
  · rw [← Bool.not_eq_true, Grid2Duc.inSector_real E hE _ 0 1 2 ⟨1, 0⟩
      (by rw [e1, e2]; simp [cross]) (by norm_num), e1, e2]
    rintro ⟨lam, mu, -, hm, -, ez⟩
    simp only [mul_zero, mul_one, zero_add] at ez
    rw [← ez] at hm
    exact lt_irrefl 0 hm

end SectorClaim

section OrderingTheorems

variable {T : Type} [LinearOrderedField T]

namespace Grid2Duifs

theorem pushAll_eq (m : Node2Dn T → sxz T → T) (g : Grid2Duifs T) (p : sxz T) :
    pushAll m g p [] = (List.range g.nodes.length).map (fun n => (n, m (g.nodes.getD n default) p)) := by
  unfold pushAll
  have h : ∀ (l : List Nat) (q : List (Nat × T)),
      l.foldl (fun q n => q ++ [(n, m (g.nodes.getD n default) p)]) q =
        q ++ l.map (fun n => (n, m (g.nodes.getD n default) p)) := by
    intro l
    induction l with
    | nil => intro q; simp
    | cons a l ih => intro q; rw [List.foldl_cons, ih]; simp
  rw [h]
  rfl

/-- The loop that empties the queue ends when the fuel is at least the size of
the queue, and appends the elements of the queue in an order in which the
values do not decrease. -/
theorem drainQueue_spec (top : List (Nat × T) → Nat) (htop : topIsLeast top) :
    ∀ (fuel : Nat) (q : List (Nat × T)) (out : List Nat), q.length ≤ fuel →
      ∃ popped : List (Nat × T), drainQueue top fuel q out = some (out ++ popped.map Prod.fst) ∧
        popped.Perm q ∧ popped.Pairwise (fun a b => a.2 ≤ b.2) := by
  intro fuel
  induction fuel with
  | zero =>
    intro q out hq
    have : q = [] := List.length_eq_zero.mp (Nat.le_zero.mp hq)
    subst this
    exact ⟨[], by simp [drainQueue], List.Perm.refl _, List.Pairwise.nil⟩
  | succ fuel ih =>
    intro q out hq
    cases q with
    | nil => exact ⟨[], by simp [drainQueue], List.Perm.refl _, List.Pairwise.nil⟩
    | cons s0 q =>
      obtain ⟨hlt, hleast⟩ := htop (s0 :: q) (List.cons_ne_nil _ _)
      have hlen : ((s0 :: q).eraseIdx (top (s0 :: q))).length ≤ fuel := by
        rw [List.length_eraseIdx, if_pos hlt]
        simp only [List.length_cons] at hq ⊢
        omega
      obtain ⟨popped, h1, h2, h3⟩ := ih ((s0 :: q).eraseIdx (top (s0 :: q)))
        (out ++ [((s0 :: q).getD (top (s0 :: q)) (0, 0)).1]) hlen
      have hget : (s0 :: q).getD (top (s0 :: q)) (0, 0) = (s0 :: q)[top (s0 :: q)] := by
        rw [List.getD_eq_getElem _ _ hlt]
      have hperm : ((s0 :: q)[top (s0 :: q)] :: (s0 :: q).eraseIdx (top (s0 :: q))).Perm
          (s0 :: q) := by
        have hsplit : s0 :: q = (s0 :: q).take (top (s0 :: q)) ++
            (s0 :: q)[top (s0 :: q)] :: (s0 :: q).drop (top (s0 :: q) + 1) := by
          rw [← List.drop_eq_getElem_cons hlt, List.take_append_drop]
        rw [List.eraseIdx_eq_take_drop_succ]
        exact List.Perm.trans List.perm_middle.symm (List.Perm.of_eq hsplit.symm)
      refine ⟨(s0 :: q).getD (top (s0 :: q)) (0, 0) :: popped, ?_, ?_, ?_⟩
      · rw [drainQueue, h1]
        simp
      · rw [hget]
        exact List.Perm.trans (List.Perm.cons _ h2) hperm
      · rw [List.pairwise_cons]
        refine ⟨fun b hb => ?_, h3⟩
        apply hleast
        have hb' : b ∈ (s0 :: q).eraseIdx (top (s0 :: q)) := (List.Perm.mem_iff h2).mp hb
        exact List.mem_of_mem_eraseIdx hb'

/-- The body of the loop `for np` of `initOrdering` appends an ordering of the
nodes to `sorted[np]` and changes nothing else. -/
theorem orderingFor_spec (top : List (Nat × T) → Nat) (htop : topIsLeast top) (fuel : Nat)
    (m : Node2Dn T → sxz T → T) (refPts : List (sxz T)) (g : Grid2Duifs T) (np : Nat)
    (hfuel : g.nodes.length ≤ fuel) :
    ∃ new : List Nat, isOrdering m g (refPts.getD np ⟨0, 0⟩) new ∧
      orderingFor top fuel m refPts g np =
        some { g with sorted := g.sorted.set np (g.sorted.getD np [] ++ new) } := by
  obtain ⟨popped, h1, h2, h3⟩ := drainQueue_spec top htop fuel
    (pushAll m g (refPts.getD np ⟨0, 0⟩) []) (g.sorted.getD np [])
    (by rw [pushAll_eq]; simpa using hfuel)
  refine ⟨popped.map Prod.fst, ⟨?_, ?_⟩, ?_⟩
  · have := List.Perm.map Prod.fst h2
    rw [pushAll_eq, List.map_map] at this
    have e : (Prod.fst ∘ fun n => (n, m (g.nodes.getD n default) (refPts.getD np ⟨0, 0⟩))) =
        id := rfl
    rw [e, List.map_id] at this
    exact this
  · rw [List.pairwise_map]
    refine List.Pairwise.imp_of_mem ?_ h3
    intro a b ha hb hab
    have ha' := (List.Perm.mem_iff h2).mp ha
    have hb' := (List.Perm.mem_iff h2).mp hb
    rw [pushAll_eq, List.mem_map] at ha' hb'
    obtain ⟨x, -, hx⟩ := ha'
    obtain ⟨y, -, hy⟩ := hb'
    rw [← hx, ← hy] at hab ⊢
    exact hab
  · unfold orderingFor
    dsimp only
    rw [h1]

theorem resizeSorted_spec (sorted : List (List Nat)) (n : Nat) :
    (resizeSorted sorted n).length = n ∧
    ∀ k, k < n → (resizeSorted sorted n).getD k [] = sorted.getD k [] := by
  unfold resizeSorted
  refine ⟨?_, fun k hk => ?_⟩
  · rw [List.length_append, List.length_take, List.length_replicate]
    omega
  · rw [List.getD_eq_getElem?_getD, List.getD_eq_getElem?_getD, List.getElem?_append]
    by_cases h : k < sorted.length
    · have h' : k < (List.take n sorted).length := by
        rw [List.length_take]; omega
      rw [if_pos h', List.getElem?_take_of_lt hk]
    · have h' : ¬ k < (List.take n sorted).length := by
        rw [List.length_take]; omega
      rw [if_neg h', List.getElem?_replicate, List.getElem?_eq_none (Nat.le_of_not_lt h)]
      split <;> rfl

/-- The loop `for np` of `initOrdering` over the first `j` reference points,
on a grid whose vector `sorted` has one entry for every reference point. -/
theorem orderingLoop_spec (top : List (Nat × T) → Nat) (htop : topIsLeast top) (fuel : Nat)
    (m : Node2Dn T → sxz T → T) (refPts : List (sxz T)) (g : Grid2Duifs T)
    (hfuel : g.nodes.length ≤ fuel) (hlen : g.sorted.length = refPts.length) :
    ∀ j, j ≤ refPts.length →
      ∃ g' : Grid2Duifs T,
        (List.range j).foldl
          (fun acc np => acc.bind (fun g => orderingFor top fuel m refPts g np)) (some g) =
            some g' ∧
        g'.toGrid2Duc = g.toGrid2Duc ∧ g'.epsilon = g.epsilon ∧ g'.nitermax = g.nitermax ∧
        g'.sorted.length = refPts.length ∧
        (∀ k, k < j → ∃ new : List Nat, isOrdering m g (refPts.getD k ⟨0, 0⟩) new ∧
          g'.sorted.getD k [] = g.sorted.getD k [] ++ new) ∧
        (∀ k, j ≤ k → g'.sorted.getD k [] = g.sorted.getD k []) := by
  intro j
  induction j with
  | zero =>
    intro _
    exact ⟨g, rfl, rfl, rfl, rfl, hlen, fun k hk => absurd hk (Nat.not_lt_zero k),
      fun k _ => rfl⟩
  | succ j ih =>
    intro hj
    obtain ⟨gj, e1, e2, e3, e4, e5, e6, e7⟩ := ih (Nat.le_of_succ_le hj)
    have hn : gj.nodes.length = g.nodes.length := by
      show gj.toGrid2Duc.nodes.length = g.toGrid2Duc.nodes.length
      rw [e2]
    obtain ⟨new, ho, hr⟩ := orderingFor_spec top htop fuel m refPts gj j (by rw [hn]; exact hfuel)
    have ho' : isOrdering m g (refPts.getD j ⟨0, 0⟩) new := by
      unfold isOrdering at ho ⊢
      have hnodes : gj.nodes = g.nodes := by
        show gj.toGrid2Duc.nodes = g.toGrid2Duc.nodes
        rw [e2]
      rw [hnodes] at ho
      exact ho
    refine ⟨{ gj with sorted := gj.sorted.set j (gj.sorted.getD j [] ++ new) }, ?_, e2, e3, e4,
      ?_, ?_, ?_⟩
    · rw [List.range_succ, List.foldl_append, e1]
      simp only [List.foldl_cons, List.foldl_nil, Option.bind_some]
      exact hr
    · show (gj.sorted.set j (gj.sorted.getD j [] ++ new)).length = refPts.length
      rw [List.length_set]
      exact e5
    · intro k hk
      show ∃ new', isOrdering m g (refPts.getD k ⟨0, 0⟩) new' ∧
        (gj.sorted.set j (gj.sorted.getD j [] ++ new)).getD k [] = g.sorted.getD k [] ++ new'
      by_cases hkj : k = j
      · subst hkj
        refine ⟨new, ho', ?_⟩
        rw [List.getD_eq_getElem?_getD, List.getElem?_set_self (by rw [e5]; exact hj)]
        show gj.sorted.getD k [] ++ new = _
        rw [e7 k (le_refl k)]
      · obtain ⟨new', q1, q2⟩ := e6 k (by omega)
        refine ⟨new', q1, ?_⟩
        rw [List.getD_eq_getElem?_getD, List.getElem?_set_ne (Ne.symm hkj),
          ← List.getD_eq_getElem?_getD]
        exact q2
    · intro k hk
      show (gj.sorted.set j (gj.sorted.getD j [] ++ new)).getD k [] = g.sorted.getD k []
      rw [List.getD_eq_getElem?_getD, List.getElem?_set_ne (by omega),
        ← List.getD_eq_getElem?_getD]
      exact e7 k (by omega)

/-- Claim C32, the divergence. Let `top` return an element of the queue with
the least distance, and let the fuel be at least the number of nodes. Then
`initOrdering(refPts, order)` returns and changes the vector `sorted` only;
`sorted` has one entry for every reference point, and for each `k` the entry
`sorted[k]` is the entry that was there before the call, followed by a list
that holds every node once, in non-decreasing order of the distance to
`refPts[k]` (L1 for `order = 1`, L2 otherwise). After a call on a grid with an
empty `sorted`, as the constructor leaves it, `sorted[k]` is such a list;
after a second call, the entry has twice the number of nodes: the new ordering
is appended to the old one. -/
theorem initOrdering_appends (E : MathEnv T) (top : List (Nat × T) → Nat)
    (htop : topIsLeast top) (fuel : Nat) (g : Grid2Duifs T) (refPts : List (sxz T))
    (order : Int) (hfuel : g.nodes.length ≤ fuel) :
    ∃ g' : Grid2Duifs T, initOrdering E top fuel g refPts order = some g' ∧
      g'.toGrid2Duc = g.toGrid2Duc ∧ g'.epsilon = g.epsilon ∧ g'.nitermax = g.nitermax ∧
      g'.sorted.length = refPts.length ∧
      (∀ k, k < refPts.length →
        ∃ new : List Nat, isOrdering (selectMetric E order) g (refPts.getD k ⟨0, 0⟩) new ∧
          g'.sorted.getD k [] = g.sorted.getD k [] ++ new ∧
          (g'.sorted.getD k []).length = (g.sorted.getD k []).length + g.nodes.length) ∧
      (g.sorted = [] → ∀ k, k < refPts.length →
        isOrdering (selectMetric E order) g (refPts.getD k ⟨0, 0⟩) (g'.sorted.getD k [])) := by
  obtain ⟨r1, r2⟩ := resizeSorted_spec g.sorted refPts.length
  obtain ⟨g', e1, e2, e3, e4, e5, e6, -⟩ := orderingLoop_spec top htop fuel (selectMetric E order)
    refPts { g with sorted := resizeSorted g.sorted refPts.length } hfuel r1 refPts.length
    (le_refl _)
  have hall : ∀ k, k < refPts.length →
      ∃ new : List Nat, isOrdering (selectMetric E order) g (refPts.getD k ⟨0, 0⟩) new ∧
        g'.sorted.getD k [] = g.sorted.getD k [] ++ new ∧
        (g'.sorted.getD k []).length = (g.sorted.getD k []).length + g.nodes.length := by
    intro k hk
    obtain ⟨new, q1, q2⟩ := e6 k hk
    have q2' : g'.sorted.getD k [] = g.sorted.getD k [] ++ new := by
      rw [q2]
      show (resizeSorted g.sorted refPts.length).getD k [] ++ new = _
      rw [r2 k hk]
    refine ⟨new, q1, q2', ?_⟩
    rw [q2', List.length_append, List.Perm.length_eq q1.1, List.length_range]
  refine ⟨g', e1, e2, e3, e4, e5, hall, ?_⟩
  intro hs k hk
  obtain ⟨new, q1, q2, -⟩ := hall k hk
  rw [q2, hs]
  exact q1

end Grid2Duifs

theorem exampleTop_isLeast : topIsLeast exampleTop := by
  intro q hq
  induction q with
  | nil => exact absurd rfl hq
  | cons a q ih =>
    cases q with
    | nil =>
      refine ⟨by simp [exampleTop], ?_⟩
      intro s hs
      rw [List.mem_singleton.mp hs]
      simp [exampleTop]
    | cons b rest =>
      obtain ⟨h1, h2⟩ := ih (List.cons_ne_nil _ _)
      rw [exampleTop]
      split
      · rename_i hlt
        refine ⟨by simp only [List.length_cons] at h1 ⊢; omega, ?_⟩
        intro s hs
        rw [List.getD_cons_succ]
        rcases List.mem_cons.mp hs with h | h
        · rw [h]; exact le_of_lt hlt
        · exact h2 s h
      · rename_i hge
        refine ⟨by simp, ?_⟩
        intro s hs
        rw [List.getD_cons_zero]
        rcases List.mem_cons.mp hs with h | h
        · rw [h]
        · exact le_trans (not_lt.mp hge) (h2 s h)

theorem initOrdering_appends_witness :
    topIsLeast exampleTop ∧
    (Grid2Duifs.new exampleEnv (rectangleNodes ℚ) rectangleCells (1 / 1000) 10 2
      false).nodes.length ≤ 4 ∧
    ∃ g' : Grid2Duifs ℚ,
      Grid2Duifs.initOrdering exampleEnv exampleTop 4
        (Grid2Duifs.new exampleEnv (rectangleNodes ℚ) rectangleCells (1 / 1000) 10 2 false)
        [⟨0, 0⟩] 2 = some g' ∧ g'.sorted.length = 1 :=
  ⟨exampleTop_isLeast, by decide!,
    (Grid2Duifs.initOrdering_appends exampleEnv exampleTop exampleTop_isLeast 4
      (Grid2Duifs.new exampleEnv (rectangleNodes ℚ) rectangleCells (1 / 1000) 10 2 false)
      [⟨0, 0⟩] 2 (by decide!)).imp (fun _ h => ⟨h.1, h.2.2.2.2.1⟩)⟩

/-- On the rectangle with the reference point (0,0) and the L2 metric, the
first call of `initOrdering` leaves `sorted[0]` with the nodes in the order
(0,0), (0,3), (4,0), (4,3), of the distances 0, 3, 4, 5; a second call with
the same arguments leaves `sorted[0]` with eight entries, every node twice,
the node (0,0) of distance 0 after the node (4,3) of distance 5. -/
theorem second_call_appends :
    (Grid2Duifs.initOrdering exampleEnv exampleTop 4
      (Grid2Duifs.new exampleEnv (rectangleNodes ℚ) rectangleCells (1 / 1000) 10 2 false)
      [⟨0, 0⟩] 2).map (fun g => g.sorted) = some [[0, 3, 1, 2]] ∧
    ((Grid2Duifs.initOrdering exampleEnv exampleTop 4
      (Grid2Duifs.new exampleEnv (rectangleNodes ℚ) rectangleCells (1 / 1000) 10 2 false)
      [⟨0, 0⟩] 2).bind (fun g => Grid2Duifs.initOrdering exampleEnv exampleTop 4 g
        [⟨0, 0⟩] 2)).map (fun g => g.sorted) = some [[0, 3, 1, 2, 0, 3, 1, 2]] ∧
    ¬ ([0, 3, 1, 2, 0, 3, 1, 2] : List Nat).Nodup := by
  decide!

end OrderingTheorems

end ttcr
